import Mathlib

/-!
# The extensible array and the fixed array of HDF5

Two shallow embeddings and proofs about them: in the namespace `H5EA`,
`src/H5EA.c` (the client interface of the extensible array:
`H5EA__lookup_elmt`, `H5EA_set`, `H5EA_get`, `H5EA_get_nelmts`, `H5EA_support`,
`H5EA_unsupport`, `H5EA_open`, `H5EA_close`, `H5EA_delete`); in the namespace
`H5FA`, `src/H5FAcache.c` (the metadata cache callbacks of the fixed array).
For the extensible array the file is one value of type `World`; every function
takes the world and returns it.  The routines of the package that live in other
source files (creation and protection of the blocks, the metadata cache, the
file-space allocator, the header routines) are modelled from the specification
and marked so.  Each fallible collaborator call consumes one entry of a fault
schedule, so that every failure path of the code can be taken.
-/

set_option linter.unusedVariables false
set_option linter.unusedTactic false
set_option linter.unreachableTactic false

namespace H5EA

/-!
# Extensible array (H5EA.c): shallow embedding and verified properties

The embedding follows `src/src/H5EA.c`.  The C functions of that file are
translated statement by statement into state-passing Lean functions over a
`World`, which holds the shared array header, the metadata cache (the blocks the
protect calls hand out), the file-space allocator, a fault schedule for the
fallible collaborators, and a trace of every collaborator call.

Conventions
* `herr_t` is `Int` (`SUCCEED = 0`, `FAIL = -1`); pointers are `Option`s, `none`
  being `NULL`; a pointer to a cached block is its kind and file address.
* `hsize_t`, `haddr_t` and `size_t` values are `Nat`s kept below `2 ^ 64` by
  explicit reduction wherever the C arithmetic can wrap; a native (decoded)
  array element, the unit copied by `HDmemcpy` of `nat_elmt_size` bytes, is a
  `Nat` as well.
* `BEGIN_FUNC / CATCH / END_FUNC`, `H5E_THROW` and `H5_LEAVE`: before `CATCH` a
  throw or leave sets `ret_value` and jumps to `CATCH`; after `CATCH` it only
  sets `ret_value` and execution continues with the next statement.
* The element buffers and address arrays of the blocks are total maps from the
  position to the value: bounds and `NULL` buffers are not part of the model.
-/


/-! ## Scalars, flags, error codes -/

/-- Return value `SUCCEED` of a `herr_t` function. -/
def SUCCEED : Int := 0
/-- Return value `FAIL` of a `herr_t` function. -/
def FAIL : Int := -1

/-- Modelled from the spec: the "undefined address" of the absent file headers,
all ones in 64 bits. -/
def HADDR_UNDEF : Nat := 2 ^ 64 - 1

/-- Modelled from the spec: the macro `H5F_addr_defined` of the absent file
headers. -/
def H5F_addr_defined (a : Nat) : Bool := a != HADDR_UNDEF

/-- Modelled from the spec: cache flag constants of the absent cache headers. -/
def H5AC__NO_FLAGS_SET : Nat := 0
/-- Modelled from the spec: cache flag constants of the absent cache headers. -/
def H5AC__DIRTIED_FLAG : Nat := 0x4
/-- Modelled from the spec: cache flag constants of the absent cache headers. -/
def H5AC__READ_ONLY_FLAG : Nat := 0x200
/-- Modelled from the spec: cache flag constants of the absent cache headers. -/
def H5AC__DELETED_FLAG : Nat := 0x2
/-- Modelled from the spec: cache flag constants of the absent cache headers. -/
def H5AC__FREE_FILE_SPACE_FLAG : Nat := 0x800

/-- Reduction of an unsigned 64-bit result. -/
def u64 (x : Nat) : Nat := x % 2 ^ 64

/-- Unsigned 64-bit subtraction `a - b` of C (wraps below zero). -/
def sub64 (a b : Nat) : Nat :=
  if u64 b ≤ u64 a then u64 a - u64 b else u64 a + 2 ^ 64 - u64 b

/-- Minor error codes pushed by `H5E_THROW` in H5EA.c. -/
inductive H5E where
  | CANTINIT | CANTALLOC | CANTPROTECT | CANTINC | CANTUNPROTECT | CLOSEERROR
  | CANTCREATE | CANTMARKDIRTY | CANTSET | CANTDEPEND | CANTUNDEPEND | CANTGET
  | CANTLOAD | CANTDEC | CANTDELETE | CANTOPENOBJ
  deriving DecidableEq, Repr

/-! ## Data model -/

/-- Entry of the super-block geometry table `hdr->sblk_info[]`. -/
structure H5EA_sblk_info_t where
  ndblks : Nat
  dblk_nelmts : Nat
  start_idx : Nat
  start_dblk : Nat
  deriving DecidableEq, Repr

/-- Element class: the fields of `H5EA_class_t` used by H5EA.c.  `fill` is the
value the class's fill callback writes. -/
structure H5EA_class_t where
  nat_elmt_size : Nat
  fill : Nat
  deriving DecidableEq, Repr

/-- Creation parameters `H5EA_create_t`. -/
structure H5EA_create_t where
  cls : H5EA_class_t
  raw_elmt_size : Nat
  max_nelmts_bits : Nat
  idx_blk_elmts : Nat
  data_blk_min_elmts : Nat
  sup_blk_min_data_ptrs : Nat
  max_dblk_page_nelmts_bits : Nat
  deriving DecidableEq, Repr

/-- Statistics kept in the header (`hdr->stats`): the stored part with
`max_idx_set`, and block counts and sizes. -/
structure H5EA_stat_t where
  max_idx_set : Nat
  nindex_blks : Nat
  index_blk_size : Nat
  nsuper_blks : Nat
  super_blk_size : Nat
  ndata_blks : Nat
  data_blk_size : Nat
  deriving DecidableEq, Repr

/-- Shared array header `H5EA_hdr_t`.  `sblk_info` is the geometry table of
`nsblks` entries, and `iblock_nsblks` the number of super blocks whose data blocks the index block
addresses directly (`iblock->nsblks`, a constant of the header). -/
structure H5EA_hdr_t where
  addr : Nat
  cparam : H5EA_create_t
  stats : H5EA_stat_t
  idx_blk_addr : Nat
  sblk_info : Nat → H5EA_sblk_info_t
  nsblks : Nat
  dblk_page_nelmts : Nat
  iblock_nsblks : Nat
  sizeof_addr : Nat
  arr_off_size : Nat
  rc : Nat
  file_rc : Nat
  pending_delete : Bool
  f : Option Nat

/-- Index block as the cache holds it: direct elements, direct data-block
addresses, super-block addresses. -/
structure H5EA_iblock_t where
  elmts : Nat → Nat
  dblk_addrs : Nat → Nat
  sblk_addrs : Nat → Nat

/-- Mutable payload of a super block as the cache holds it: data-block
addresses and the page-init bitmap. -/
structure SBlockImage where
  dblk_addrs : Nat → Nat
  page_init : Nat → Bool

/-- Super block `H5EA_sblock_t` as seen through a protected pointer: its
address and the geometry fixed by its super-block index. -/
structure H5EA_sblock_t where
  addr : Nat
  ndblks : Nat
  dblk_nelmts : Nat
  dblk_npages : Nat
  dblk_page_size : Nat
  deriving DecidableEq, Repr

/-- Data block: its element buffer. -/
structure H5EA_dblock_t where
  elmts : Nat → Nat

/-- Data-block page: its element buffer. -/
structure H5EA_dblk_page_t where
  elmts : Nat → Nat

/-- Kinds of cached blocks. -/
inductive BlockKind where
  | hdr | iblock | sblock | dblock | dblk_page
  deriving DecidableEq, Repr

/-- A `void *thing`: kind and address of a cached block. -/
structure Thing where
  kind : BlockKind
  addr : Nat
  deriving DecidableEq, Repr

/-- A cache entry `H5AC_info_t`: a block of this array or an entry of another
package, named by a number. -/
inductive H5AC_info_t where
  | array (t : Thing)
  | ext (id : Nat)
  deriving DecidableEq, Repr

/-- One call of a collaborator, in the order the calls are made.  `ok` tells
whether the call succeeded. -/
inductive Event where
  | protect (k : BlockKind) (addr : Nat) (flags : Nat) (ok : Bool)
  | unprotect (k : BlockKind) (addr : Nat) (flags : Nat) (ok : Bool)
  | iblock_create (addr : Nat) (ok : Bool)
  | sblock_create (addr : Nat) (parent : Thing) (sblk_idx : Nat) (ok : Bool)
  | dblock_create (addr : Nat) (parent : Thing) (dblk_off : Nat) (nelmts : Nat)
      (ok : Bool)
  | dblk_page_create (addr : Nat) (parent : Thing) (ok : Bool)
  | hdr_modified (ok : Bool)
  | fill (ok : Bool)
  | malloc (ok : Bool)
  | free
  | hdr_incr (ok : Bool)
  | hdr_decr (ok : Bool)
  | hdr_fuse_incr (ok : Bool)
  | hdr_fuse_decr
  | hdr_delete (ok : Bool)
  | flush_depend (parent : Option H5AC_info_t) (child : H5AC_info_t) (ok : Bool)
  | flush_undepend (parent : Option H5AC_info_t) (child : H5AC_info_t) (ok : Bool)
  | hdr_create (addr : Nat) (ok : Bool)
  deriving DecidableEq, Repr

/-- The file as H5EA.c sees it: the shared header, the cached blocks by kind and
address, the end of the allocated address space, the fault schedule of the
fallible collaborators (`faults n` makes the `n`-th fallible call fail), the
error stack, the trace of calls, the live handle wrappers and the flush
dependency edges. -/
structure World where
  hdr : H5EA_hdr_t
  hdr_present : Bool
  iblocks : Nat → Option H5EA_iblock_t
  sblocks : Nat → Option SBlockImage
  dblocks : Nat → Option H5EA_dblock_t
  dblk_pages : Nat → Option H5EA_dblk_page_t
  eoa : Nat
  faults : Nat → Bool
  clock : Nat
  errs : List H5E
  trace : List Event
  handles : Nat
  flush_deps : List (H5AC_info_t × H5AC_info_t)
  asserts_ok : Bool

/-- Array wrapper `H5EA_t`: the pointer to the shared header (`none` while it is
not set) and the file of this open context. -/
structure H5EA_t where
  hdr : Option Nat
  f : Option Nat
  deriving DecidableEq, Repr

/-! ## World helpers -/

/-- Whether the next fallible collaborator call fails. -/
def World.fault (w : World) : Bool := w.faults w.clock

/-- Consume one entry of the fault schedule. -/
@[simp] def World.tick (w : World) : World := { w with clock := w.clock + 1 }

/-- Append a call to the trace. -/
@[simp] def World.log (w : World) (e : Event) : World := { w with trace := w.trace ++ [e] }

/-- Push an error on the error stack, as `H5E_THROW` does. -/
@[simp] def World.throw (w : World) (e : H5E) : World := { w with errs := w.errs ++ [e] }

/-- Record the outcome of an `HDassert`. -/
@[simp] def World.HDassert (w : World) (c : Bool) : World :=
  { w with asserts_ok := w.asserts_ok && c }

/-- The index block a protected pointer refers to. -/
def World.iblk (w : World) (a : Nat) : H5EA_iblock_t :=
  (w.iblocks a).getD ⟨fun _ => 0, fun _ => HADDR_UNDEF, fun _ => HADDR_UNDEF⟩

/-- The super-block payload a protected pointer refers to. -/
def World.sblk (w : World) (a : Nat) : SBlockImage :=
  (w.sblocks a).getD ⟨fun _ => HADDR_UNDEF, fun _ => false⟩

/-- The data block a protected pointer refers to. -/
def World.dblk (w : World) (a : Nat) : H5EA_dblock_t :=
  (w.dblocks a).getD ⟨fun _ => 0⟩

/-- The data-block page a protected pointer refers to. -/
def World.page (w : World) (a : Nat) : H5EA_dblk_page_t :=
  (w.dblk_pages a).getD ⟨fun _ => 0⟩

/-! ## Collaborators of H5EA.c that live in other files

Each fallible collaborator consumes one entry of the fault schedule and logs
its call. -/

/-- Modelled from the spec: `H5VM_log2_gen` of the absent vector header, the
floor of the binary logarithm of a 64-bit value (0 for 0). -/
def H5VM_log2_gen (n : Nat) : Nat :=
  go 64 n
where
  /-- Halving loop. -/
  go : Nat → Nat → Nat
    | 0, _ => 0
    | fuel + 1, n => if 2 ≤ n then go fuel (n / 2) + 1 else 0

/-- Modelled from the spec: `H5EA__dblock_sblk_idx` of the absent data-block
file, the closed form `floor(log2(1 + (idx - idx_blk_elmts) / data_blk_min_elmts))`. -/
def H5EA__dblock_sblk_idx (hdr : H5EA_hdr_t) (idx : Nat) : Nat :=
  H5VM_log2_gen (u64 (sub64 idx hdr.cparam.idx_blk_elmts / hdr.cparam.data_blk_min_elmts + 1))

/-- Modelled from the spec: size of the metadata prefix of the absent package
header, magic (4), version (1), class id (1) and checksum (4). -/
def H5EA_METADATA_PREFIX_SIZE : Nat := 4 + 1 + 1 + 4

/-- Modelled from the spec: the macro `H5EA_DBLOCK_PREFIX_SIZE` of the absent
package header: metadata prefix, owner header address and block offset. -/
def H5EA_DBLOCK_PREFIX_SIZE (hdr : H5EA_hdr_t) : Nat :=
  H5EA_METADATA_PREFIX_SIZE + hdr.sizeof_addr + hdr.arr_off_size

/-- Modelled from the spec: on-disk size of one data-block page, its elements
and a checksum. -/
def H5EA_DBLK_PAGE_SIZE (hdr : H5EA_hdr_t) : Nat :=
  hdr.dblk_page_nelmts * hdr.cparam.raw_elmt_size + 4

/-- Modelled from the spec: number of pages of a data block of `nelmts`
elements, 0 when the block is not paged (`nelmts <= dblk_page_nelmts`). -/
def dblk_npages (hdr : H5EA_hdr_t) (nelmts : Nat) : Nat :=
  if nelmts > hdr.dblk_page_nelmts then nelmts / hdr.dblk_page_nelmts else 0

/-- Modelled from the spec: full on-disk extent of a data block of `nelmts`
elements: prefix and elements, or prefix and pages when paged. -/
def H5EA_DBLOCK_SIZE (hdr : H5EA_hdr_t) (nelmts : Nat) : Nat :=
  if nelmts > hdr.dblk_page_nelmts then
    H5EA_DBLOCK_PREFIX_SIZE hdr + dblk_npages hdr nelmts * H5EA_DBLK_PAGE_SIZE hdr
  else
    H5EA_DBLOCK_PREFIX_SIZE hdr + nelmts * hdr.cparam.raw_elmt_size

/-- Modelled from the spec: the in-memory super block of index `sblk_idx` at
`addr`, whose geometry is fixed by its super-block index. -/
def sblock_of (hdr : H5EA_hdr_t) (addr : Nat) (sblk_idx : Nat) : H5EA_sblock_t :=
  { addr := addr
    ndblks := (hdr.sblk_info sblk_idx).ndblks
    dblk_nelmts := (hdr.sblk_info sblk_idx).dblk_nelmts
    dblk_npages := dblk_npages hdr (hdr.sblk_info sblk_idx).dblk_nelmts
    dblk_page_size := H5EA_DBLK_PAGE_SIZE hdr }

/-- Modelled from the spec: on-disk size of the index block: prefix, owner
address, direct elements, data-block and super-block addresses. -/
def H5EA_IBLOCK_SIZE (hdr : H5EA_hdr_t) : Nat :=
  H5EA_METADATA_PREFIX_SIZE + hdr.sizeof_addr
    + hdr.cparam.idx_blk_elmts * hdr.cparam.raw_elmt_size
    + ((hdr.sblk_info hdr.iblock_nsblks).start_dblk + (hdr.nsblks - hdr.iblock_nsblks))
        * hdr.sizeof_addr

/-- Modelled from the spec: on-disk size of the super block of index
`sblk_idx`: prefix, owner address, block offset, page-init bitmaps and
data-block addresses. -/
def H5EA_SBLOCK_SIZE (hdr : H5EA_hdr_t) (sblk_idx : Nat) : Nat :=
  H5EA_METADATA_PREFIX_SIZE + hdr.sizeof_addr + hdr.arr_off_size
    + (hdr.sblk_info sblk_idx).ndblks
        * ((dblk_npages hdr (hdr.sblk_info sblk_idx).dblk_nelmts + 7) / 8)
    + (hdr.sblk_info sblk_idx).ndblks * hdr.sizeof_addr

/-- Modelled from the spec: the file-space allocator `allocate`.  Extents are
handed out at the end of the allocated space `eoa`; a request succeeds when the
extent ends below the undefined address. -/
def H5MF_alloc_fits (w : World) (size : Nat) : Bool :=
  decide (w.eoa + size < HADDR_UNDEF)

/-- Modelled from the spec: `H5EA__hdr_modified` of the absent header file,
which marks the header dirty in the cache. -/
def H5EA__hdr_modified (w : World) : Int × World :=
  (if w.fault then FAIL else SUCCEED, (w.tick).log (.hdr_modified (!w.fault)))

/-- Modelled from the spec: `H5EA__iblock_create` of the absent index-block
file.  Allocates the index block, inserts it in the cache with fill elements
and undefined addresses, counts it in the statistics and sets
`*stats_changed`; returns the address, `HADDR_UNDEF` on failure. -/
def H5EA__iblock_create (stats_changed : Bool) (w : World) : Nat × Bool × World :=
  if w.fault = true ∨ H5MF_alloc_fits w (H5EA_IBLOCK_SIZE w.hdr) = false then
    (HADDR_UNDEF, stats_changed, (w.tick).log (.iblock_create HADDR_UNDEF false))
  else
    (w.eoa, true,
      ({ w.tick with
          eoa := w.eoa + H5EA_IBLOCK_SIZE w.hdr
          iblocks := Function.update w.iblocks w.eoa
            (some ⟨fun _ => w.hdr.cparam.cls.fill, fun _ => HADDR_UNDEF, fun _ => HADDR_UNDEF⟩)
          hdr := { w.hdr with
            stats := { w.hdr.stats with
              nindex_blks := w.hdr.stats.nindex_blks + 1
              index_blk_size := w.hdr.stats.index_blk_size + H5EA_IBLOCK_SIZE w.hdr } } }).log
        (.iblock_create w.eoa true))

/-- Modelled from the spec: `H5EA__sblock_create` of the absent super-block
file.  Allocates the super block of index `sblk_idx`, inserts it with undefined
data-block addresses and a clear page-init bitmap, counts it in the statistics
and sets `*stats_changed`; returns the address, `HADDR_UNDEF` on failure. -/
def H5EA__sblock_create (parent : Thing) (stats_changed : Bool) (sblk_idx : Nat) (w : World) :
    Nat × Bool × World :=
  if w.fault = true ∨ H5MF_alloc_fits w (H5EA_SBLOCK_SIZE w.hdr sblk_idx) = false then
    (HADDR_UNDEF, stats_changed, (w.tick).log (.sblock_create HADDR_UNDEF parent sblk_idx false))
  else
    (w.eoa, true,
      ({ w.tick with
          eoa := w.eoa + H5EA_SBLOCK_SIZE w.hdr sblk_idx
          sblocks := Function.update w.sblocks w.eoa
            (some ⟨fun _ => HADDR_UNDEF, fun _ => false⟩)
          hdr := { w.hdr with
            stats := { w.hdr.stats with
              nsuper_blks := w.hdr.stats.nsuper_blks + 1
              super_blk_size :=
                w.hdr.stats.super_blk_size + H5EA_SBLOCK_SIZE w.hdr sblk_idx } } }).log
        (.sblock_create w.eoa parent sblk_idx true))

/-- Modelled from the spec: `H5EA__dblock_create` of the absent data-block file.
Allocates the full extent of a data block of `nelmts` elements, inserts the
block with fill elements, counts it in the statistics and sets
`*stats_changed`; returns the address, `HADDR_UNDEF` on failure. -/
def H5EA__dblock_create (parent : Thing) (stats_changed : Bool) (dblk_off : Nat)
    (nelmts : Nat) (w : World) : Nat × Bool × World :=
  if w.fault = true ∨ H5MF_alloc_fits w (H5EA_DBLOCK_SIZE w.hdr nelmts) = false then
    (HADDR_UNDEF, stats_changed,
      (w.tick).log (.dblock_create HADDR_UNDEF parent dblk_off nelmts false))
  else
    (w.eoa, true,
      ({ w.tick with
          eoa := w.eoa + H5EA_DBLOCK_SIZE w.hdr nelmts
          dblocks := Function.update w.dblocks w.eoa (some ⟨fun _ => w.hdr.cparam.cls.fill⟩)
          hdr := { w.hdr with
            stats := { w.hdr.stats with
              ndata_blks := w.hdr.stats.ndata_blks + 1
              data_blk_size :=
                w.hdr.stats.data_blk_size + H5EA_DBLOCK_SIZE w.hdr nelmts } } }).log
        (.dblock_create w.eoa parent dblk_off nelmts true))

/-- Modelled from the spec: `H5EA__dblk_page_create` of the absent page file.
Inserts a page of fill elements at the given address. -/
def H5EA__dblk_page_create (parent : Thing) (addr : Nat) (w : World) : Int × World :=
  if w.fault = true then (FAIL, (w.tick).log (.dblk_page_create addr parent false))
  else
    (SUCCEED,
      ({ w.tick with
          dblk_pages := Function.update w.dblk_pages addr
            (some ⟨fun _ => w.hdr.cparam.cls.fill⟩) }).log
        (.dblk_page_create addr parent true))

/-- Modelled from the spec: the cache primitive `protect` behind the absent
per-block protect routines: fails on a fault or when no block of the kind is at
the address, else hands out the pointer. -/
def cache_protect (k : BlockKind) (addr : Nat) (flags : Nat) (present : Bool) (w : World) :
    Bool × World :=
  (!w.fault && present, (w.tick).log (.protect k addr flags (!w.fault && present)))

/-- Modelled from the spec: the cache primitive `unprotect` behind the absent
per-block unprotect routines. -/
def cache_unprotect (k : BlockKind) (addr : Nat) (flags : Nat) (w : World) :
    Int × World :=
  (if w.fault then FAIL else SUCCEED, (w.tick).log (.unprotect k addr flags (!w.fault)))

/-- Modelled from the spec: `H5EA__iblock_protect` of the absent index-block
file; protects the block at `hdr->idx_blk_addr`. -/
def H5EA__iblock_protect (flags : Nat) (w : World) : Option Nat × World :=
  let r := cache_protect .iblock w.hdr.idx_blk_addr flags (w.iblocks w.hdr.idx_blk_addr).isSome w
  (if r.1 then some w.hdr.idx_blk_addr else none, r.2)

/-- Modelled from the spec: `H5EA__sblock_protect` of the absent super-block
file. -/
def H5EA__sblock_protect (sblk_addr : Nat) (sblk_idx : Nat) (flags : Nat) (w : World) :
    Option H5EA_sblock_t × World :=
  let r := cache_protect .sblock sblk_addr flags (w.sblocks sblk_addr).isSome w
  (if r.1 then some (sblock_of w.hdr sblk_addr sblk_idx) else none, r.2)

/-- Modelled from the spec: `H5EA__dblock_protect` of the absent data-block
file. -/
def H5EA__dblock_protect (dblk_addr : Nat) (flags : Nat) (w : World) :
    Option Nat × World :=
  let r := cache_protect .dblock dblk_addr flags (w.dblocks dblk_addr).isSome w
  (if r.1 then some dblk_addr else none, r.2)

/-- Modelled from the spec: `H5EA__dblk_page_protect` of the absent page file. -/
def H5EA__dblk_page_protect (addr : Nat) (flags : Nat) (w : World) :
    Option Nat × World :=
  let r := cache_protect .dblk_page addr flags (w.dblk_pages addr).isSome w
  (if r.1 then some addr else none, r.2)

/-- The generic unprotect function pointer `thing_unprot_func` applied to
`thing`: the unprotect routine of the block kind. -/
def unprotect_thing (func : BlockKind) (thing : Thing) (flags : Nat) (w : World) :
    Int × World :=
  cache_unprotect func thing.addr flags w

/-! ## H5EA__lookup_elmt (H5EA.c lines 337-643) -/

/-- Local variables and output parameters of `H5EA__lookup_elmt` at the moment
control reaches `CATCH`. -/
structure LookupLocals where
  ret_value : Int
  iblock : Option Nat
  sblock : Option H5EA_sblock_t
  dblock : Option Nat
  dblk_page : Option Nat
  iblock_cache_flags : Nat
  sblock_cache_flags : Nat
  stats_changed : Bool
  hdr_dirty : Bool
  thing : Option Thing
  thing_elmt_buf : Option Thing
  thing_elmt_idx : Nat
  thing_unprot_func : Option BlockKind
  deriving DecidableEq, Repr

/-- Result of `H5EA__lookup_elmt`: return value and the four output
parameters. -/
structure LookupOut where
  ret_value : Int
  thing : Option Thing
  thing_elmt_buf : Option Thing
  thing_elmt_idx : Nat
  thing_unprot_func : Option BlockKind
  deriving DecidableEq, Repr

/-- Locals after the declarations and the reset of the outputs (lines 344-378). -/
def LookupLocals.init : LookupLocals :=
  { ret_value := SUCCEED, iblock := none, sblock := none, dblock := none, dblk_page := none
    iblock_cache_flags := H5AC__NO_FLAGS_SET, sblock_cache_flags := H5AC__NO_FLAGS_SET
    stats_changed := false, hdr_dirty := false
    thing := none, thing_elmt_buf := none, thing_elmt_idx := 0, thing_unprot_func := none }

/-- Store `v` in `iblock->dblk_addrs[i]`. -/
def World.set_iblock_dblk_addr (w : World) (ib : Nat) (i : Nat) (v : Nat) : World :=
  { w with
    iblocks := Function.update w.iblocks ib
      (some { w.iblk ib with dblk_addrs := Function.update (w.iblk ib).dblk_addrs i v }) }

/-- Store `v` in `iblock->sblk_addrs[i]`. -/
def World.set_iblock_sblk_addr (w : World) (ib : Nat) (i : Nat) (v : Nat) : World :=
  { w with
    iblocks := Function.update w.iblocks ib
      (some { w.iblk ib with sblk_addrs := Function.update (w.iblk ib).sblk_addrs i v }) }

/-- Store `v` in `sblock->dblk_addrs[i]`. -/
def World.set_sblock_dblk_addr (w : World) (sb : Nat) (i : Nat) (v : Nat) : World :=
  { w with
    sblocks := Function.update w.sblocks sb
      (some { w.sblk sb with dblk_addrs := Function.update (w.sblk sb).dblk_addrs i v }) }

/-- Modelled from the spec: `H5VM_bit_set(sblock->page_init, i, TRUE)`. -/
def World.set_page_init (w : World) (sb : Nat) (i : Nat) : World :=
  { w with
    sblocks := Function.update w.sblocks sb
      (some { w.sblk sb with page_init := Function.update (w.sblk sb).page_init i true }) }

/-- Control after a statement placed before `CATCH`: either the statement threw
or left (`H5E_THROW`, `H5_LEAVE`) and control is at `CATCH`, or execution goes on
with the next statement. -/
inductive Flow where
  | at_catch (l : LookupLocals) (w : World)
  | next (l : LookupLocals) (w : World)

/-- Lines 574-588: check the page-init bit, create the page when allowed. -/
def lookup_ensure_page (thing_acc : Nat) (sb : H5EA_sblock_t) (page_init_idx : Nat)
    (dblk_page_addr : Nat) (l : LookupLocals) (w : World) : Flow :=
  if (w.sblk sb.addr).page_init page_init_idx = false then
    if thing_acc &&& H5AC__READ_ONLY_FLAG = 0 then
      let r := H5EA__dblk_page_create ⟨.sblock, sb.addr⟩ dblk_page_addr w
      if r.1 < 0 then .at_catch { l with ret_value := FAIL } (r.2.throw .CANTCREATE)
      else
        .next { l with sblock_cache_flags := l.sblock_cache_flags ||| H5AC__DIRTIED_FLAG }
          (r.2.set_page_init sb.addr page_init_idx)
    else .at_catch { l with ret_value := SUCCEED } w
  else .next l w

/-- Lines 590-598: protect the data-block page and return it. -/
def lookup_page (thing_acc : Nat) (dblk_page_addr : Nat) (elmt_idx : Nat)
    (l : LookupLocals) (w : World) : LookupLocals × World :=
  let r := H5EA__dblk_page_protect dblk_page_addr thing_acc w
  match r.1 with
  | none => ({ l with ret_value := FAIL }, r.2.throw .CANTPROTECT)
  | some pg =>
    ({ l with
        dblk_page := some pg
        thing := some ⟨.dblk_page, pg⟩
        thing_elmt_buf := some ⟨.dblk_page, pg⟩
        thing_elmt_idx := elmt_idx
        thing_unprot_func := some .dblk_page }, r.2)

/-- Lines 462-473 and 601-609: protect the data block and return it. -/
def lookup_dblock (thing_acc : Nat) (dblk_addr : Nat) (elmt_idx : Nat)
    (l : LookupLocals) (w : World) : LookupLocals × World :=
  let r := H5EA__dblock_protect dblk_addr thing_acc w
  match r.1 with
  | none => ({ l with ret_value := FAIL }, r.2.throw .CANTPROTECT)
  | some db =>
    ({ l with
        dblock := some db
        thing := some ⟨.dblock, db⟩
        thing_elmt_buf := some ⟨.dblock, db⟩
        thing_elmt_idx := elmt_idx
        thing_unprot_func := some .dblock }, r.2)

/-- Lines 546-610: the data block reached through the super block `sb`, paged
or not. -/
def lookup_sblock_dblock (thing_acc : Nat) (sb : H5EA_sblock_t) (dblk_idx : Nat)
    (elmt_idx : Nat) (l : LookupLocals) (w : World) : LookupLocals × World :=
  if sb.dblk_npages ≠ 0 then
    let page_idx := elmt_idx / w.hdr.dblk_page_nelmts
    let page_init_idx := u64 (dblk_idx * sb.dblk_npages + page_idx)
    let dblk_page_addr := u64 ((w.sblk sb.addr).dblk_addrs dblk_idx
      + H5EA_DBLOCK_PREFIX_SIZE w.hdr + page_idx * sb.dblk_page_size)
    match lookup_ensure_page thing_acc sb page_init_idx dblk_page_addr l w with
    | .at_catch l w => (l, w)
    | .next l w1 =>
      lookup_page thing_acc dblk_page_addr (elmt_idx % w.hdr.dblk_page_nelmts) l w1
  else
    lookup_dblock thing_acc ((w.sblk sb.addr).dblk_addrs dblk_idx) elmt_idx l w

/-- Lines 514-533: check the data-block slot of the super block, create the data
block when allowed. -/
def lookup_ensure_sblock_dblock (thing_acc : Nat) (sblk_idx : Nat) (sb : H5EA_sblock_t)
    (dblk_idx : Nat) (l : LookupLocals) (w : World) : Flow :=
  if H5F_addr_defined ((w.sblk sb.addr).dblk_addrs dblk_idx) = false then
    if thing_acc &&& H5AC__READ_ONLY_FLAG = 0 then
      let dblk_off := u64 ((w.hdr.sblk_info sblk_idx).start_idx
        + u64 (dblk_idx * (w.hdr.sblk_info sblk_idx).dblk_nelmts))
      let r := H5EA__dblock_create ⟨.sblock, sb.addr⟩ l.stats_changed dblk_off sb.dblk_nelmts w
      if H5F_addr_defined r.1 = false then
        .at_catch { l with ret_value := FAIL, stats_changed := r.2.1 } (r.2.2.throw .CANTCREATE)
      else
        .next { l with
            stats_changed := r.2.1
            sblock_cache_flags := l.sblock_cache_flags ||| H5AC__DIRTIED_FLAG }
          (r.2.2.set_sblock_dblk_addr sb.addr dblk_idx r.1)
    else .at_catch { l with ret_value := SUCCEED } w
  else .next l w

/-- Lines 481-501: check the super-block slot of the index block, create the
super block when allowed. -/
def lookup_ensure_sblock (thing_acc : Nat) (sblk_idx : Nat) (ib : Nat) (sblk_off : Nat)
    (l : LookupLocals) (w : World) : Flow :=
  if H5F_addr_defined ((w.iblk ib).sblk_addrs sblk_off) = false then
    if thing_acc &&& H5AC__READ_ONLY_FLAG = 0 then
      let r := H5EA__sblock_create ⟨.iblock, ib⟩ l.stats_changed sblk_idx w
      if H5F_addr_defined r.1 = false then
        .at_catch { l with ret_value := FAIL, stats_changed := r.2.1 } (r.2.2.throw .CANTCREATE)
      else
        .next { l with
            stats_changed := r.2.1
            iblock_cache_flags := l.iblock_cache_flags ||| H5AC__DIRTIED_FLAG }
          (r.2.2.set_iblock_sblk_addr ib sblk_off r.1)
    else .at_catch { l with ret_value := SUCCEED } w
  else .next l w

/-- Lines 503-611: protect the super block, then go on to its data block. -/
def lookup_sblock (thing_acc : Nat) (sblk_idx : Nat) (sblk_addr : Nat)
    (elmt_idx : Nat) (l : LookupLocals) (w : World) : LookupLocals × World :=
  let r := H5EA__sblock_protect sblk_addr sblk_idx thing_acc w
  match r.1 with
  | none => ({ l with ret_value := FAIL }, r.2.throw .CANTPROTECT)
  | some sb =>
    let dblk_idx := u64 (elmt_idx / sb.dblk_nelmts)
    match lookup_ensure_sblock_dblock thing_acc sblk_idx sb dblk_idx
        { l with sblock := some sb } (r.2.HDassert (decide (dblk_idx < sb.ndblks))) with
    | .at_catch l w => (l, w)
    | .next l w1 => lookup_sblock_dblock thing_acc sb dblk_idx (elmt_idx % sb.dblk_nelmts) l w1

/-- Lines 475-611: the element lies in a data block addressed from a super
block. -/
def lookup_via_sblock (thing_acc : Nat) (sblk_idx : Nat) (ib : Nat) (elmt_idx : Nat)
    (l : LookupLocals) (w : World) : LookupLocals × World :=
  let sblk_off := sblk_idx - w.hdr.iblock_nsblks
  match lookup_ensure_sblock thing_acc sblk_idx ib sblk_off l w with
  | .at_catch l w => (l, w)
  | .next l w1 =>
    lookup_sblock thing_acc sblk_idx ((w1.iblk ib).sblk_addrs sblk_off) elmt_idx l w1

/-- Lines 441-460: check the data-block slot of the index block, create the data
block when allowed. -/
def lookup_ensure_iblock_dblock (thing_acc : Nat) (sblk_idx : Nat) (ib : Nat)
    (dblk_idx : Nat) (l : LookupLocals) (w : World) : Flow :=
  if H5F_addr_defined ((w.iblk ib).dblk_addrs dblk_idx) = false then
    if thing_acc &&& H5AC__READ_ONLY_FLAG = 0 then
      let dblk_off := u64 ((w.hdr.sblk_info sblk_idx).start_idx
        + u64 (dblk_idx * (w.hdr.sblk_info sblk_idx).dblk_nelmts))
      let r := H5EA__dblock_create ⟨.iblock, ib⟩ l.stats_changed dblk_off
        (w.hdr.sblk_info sblk_idx).dblk_nelmts w
      if H5F_addr_defined r.1 = false then
        .at_catch { l with ret_value := FAIL, stats_changed := r.2.1 } (r.2.2.throw .CANTCREATE)
      else
        .next { l with
            stats_changed := r.2.1
            iblock_cache_flags := l.iblock_cache_flags ||| H5AC__DIRTIED_FLAG }
          (r.2.2.set_iblock_dblk_addr ib dblk_idx r.1)
    else .at_catch { l with ret_value := SUCCEED } w
  else .next l w

/-- Lines 430-474: the element lies in a data block addressed from the index
block. -/
def lookup_via_iblock (thing_acc : Nat) (sblk_idx : Nat) (ib : Nat) (elmt_idx : Nat)
    (l : LookupLocals) (w : World) : LookupLocals × World :=
  let dblk_idx := u64 ((w.hdr.sblk_info sblk_idx).start_dblk
    + elmt_idx / (w.hdr.sblk_info sblk_idx).dblk_nelmts)
  match lookup_ensure_iblock_dblock thing_acc sblk_idx ib dblk_idx l w with
  | .at_catch l w => (l, w)
  | .next l w1 =>
    lookup_dblock thing_acc ((w1.iblk ib).dblk_addrs dblk_idx)
      (elmt_idx % (w.hdr.sblk_info sblk_idx).dblk_nelmts) l w1

/-- Lines 380-395: check the index-block address, create the index block when
allowed. -/
def lookup_ensure_iblock (thing_acc : Nat) (l : LookupLocals) (w : World) : Flow :=
  if H5F_addr_defined w.hdr.idx_blk_addr = false then
    if thing_acc &&& H5AC__READ_ONLY_FLAG = 0 then
      let r := H5EA__iblock_create l.stats_changed w
      let w2 := { r.2.2 with hdr := { r.2.2.hdr with idx_blk_addr := r.1 } }
      if H5F_addr_defined r.1 = false then
        .at_catch { l with ret_value := FAIL, stats_changed := r.2.1 } (w2.throw .CANTCREATE)
      else .next { l with stats_changed := r.2.1, hdr_dirty := true } w2
    else .at_catch { l with ret_value := SUCCEED } w
  else .next l w

/-- Lines 404-612: the index block is protected; the element is in it or in a
data block below it. -/
def lookup_in_iblock (idx : Nat) (thing_acc : Nat) (ib : Nat) (l : LookupLocals)
    (w : World) : LookupLocals × World :=
  if idx < w.hdr.cparam.idx_blk_elmts then
    ({ l with
        thing := some ⟨.iblock, ib⟩
        thing_elmt_buf := some ⟨.iblock, ib⟩
        thing_elmt_idx := idx
        thing_unprot_func := some .iblock }, w)
  else
    let sblk_idx := H5EA__dblock_sblk_idx w.hdr idx
    let elmt_idx := sub64 idx
      (u64 (w.hdr.cparam.idx_blk_elmts + (w.hdr.sblk_info sblk_idx).start_idx))
    if sblk_idx < w.hdr.iblock_nsblks then
      lookup_via_iblock thing_acc sblk_idx ib elmt_idx l w
    else
      lookup_via_sblock thing_acc sblk_idx ib elmt_idx l w

/-- Lines 371-612: the body of `H5EA__lookup_elmt` up to `CATCH`. -/
def lookup_body (ea : H5EA_t) (idx : Nat) (thing_acc : Nat) (w : World) :
    LookupLocals × World :=
  match lookup_ensure_iblock thing_acc LookupLocals.init
      { w with hdr := { w.hdr with f := ea.f } } with
  | .at_catch l w => (l, w)
  | .next l w1 =>
    let r := H5EA__iblock_protect thing_acc w1
    match r.1 with
    | none => ({ l with ret_value := FAIL }, r.2.throw .CANTPROTECT)
    | some ib => lookup_in_iblock idx thing_acc ib { l with iblock := some ib } r.2

/-- One conditional release of the `CATCH` section: `if(blk && *thing != blk &&
unprotect(blk, flags) < 0) H5E_THROW(...)`. -/
def catch_release (k : BlockKind) (blk : Option Nat) (flags : Nat) (l : LookupLocals)
    (w : World) : LookupLocals × World :=
  match blk with
  | some a =>
    if l.thing ≠ some ⟨k, a⟩ then
      let r := cache_unprotect k a flags w
      if r.1 < 0 then ({ l with ret_value := FAIL }, r.2.throw .CANTUNPROTECT) else (l, r.2)
    else (l, w)
  | none => (l, w)

/-- Lines 616-630 of the `CATCH` section: reset of the outputs on error, and the
header-modified call. -/
def catch_modified (l : LookupLocals) (w : World) : LookupLocals × World :=
  let l1 := if l.ret_value < 0 then
      { l with thing := none, thing_elmt_buf := none, thing_elmt_idx := 0,
               thing_unprot_func := none }
    else l
  let l2 := if l1.stats_changed then { l1 with hdr_dirty := true } else l1
  if l2.hdr_dirty then
    let r := H5EA__hdr_modified w
    if r.1 < 0 then ({ l2 with ret_value := FAIL }, r.2.throw .CANTMARKDIRTY) else (l2, r.2)
  else (l2, w)

/-- The release of the super block in the `CATCH` section (lines 635-637): the
super block holds no elements, so there is no `*thing != sblock` test. -/
def catch_release_sblock (l : LookupLocals) (w : World) : LookupLocals × World :=
  match l.sblock with
  | some sb =>
    let r := cache_unprotect .sblock sb.addr l.sblock_cache_flags w
    if r.1 < 0 then ({ l with ret_value := FAIL }, r.2.throw .CANTUNPROTECT) else (l, r.2)
  | none => (l, w)

/-- Lines 614-641: the `CATCH` section of `H5EA__lookup_elmt`.  A throw in this
section sets `ret_value` and execution continues. -/
def lookup_catch (l : LookupLocals) (w : World) : LookupLocals × World :=
  let s1 := catch_modified l w
  let s2 := catch_release .iblock s1.1.iblock s1.1.iblock_cache_flags s1.1 s1.2
  let s3 := catch_release_sblock s2.1 s2.2
  let s4 := catch_release .dblock s3.1.dblock H5AC__NO_FLAGS_SET s3.1 s3.2
  catch_release .dblk_page s4.1.dblk_page H5AC__NO_FLAGS_SET s4.1 s4.2

/-- The function `H5EA__lookup_elmt`: body, then `CATCH`. -/
def H5EA__lookup_elmt (ea : H5EA_t) (idx : Nat) (thing_acc : Nat) (w : World) :
    LookupOut × World :=
  let b := lookup_body ea idx thing_acc w
  let c := lookup_catch b.1 b.2
  (⟨c.1.ret_value, c.1.thing, c.1.thing_elmt_buf, c.1.thing_elmt_idx, c.1.thing_unprot_func⟩,
    c.2)

/-! ## H5EA_get_nelmts, H5EA_set, H5EA_get (lines 265-284, 659-790) -/

/-- The function `H5EA_get_nelmts`: `*nelmts = ea->hdr->stats.stored.max_idx_set`. -/
def H5EA_get_nelmts (_ea : H5EA_t) (w : World) : Int × Nat :=
  (SUCCEED, w.hdr.stats.max_idx_set)

/-- Read element `i` of the element buffer `buf`. -/
def elmt_read (buf : Thing) (i : Nat) (w : World) : Nat :=
  match buf.kind with
  | .iblock => (w.iblk buf.addr).elmts i
  | .dblock => (w.dblk buf.addr).elmts i
  | .dblk_page => (w.page buf.addr).elmts i
  | _ => 0

/-- Write element `i` of the element buffer `buf`: the `HDmemcpy` of one native
element at offset `nat_elmt_size * i`. -/
def elmt_write (buf : Thing) (i : Nat) (v : Nat) (w : World) : World :=
  match buf.kind with
  | .iblock =>
    { w with
      iblocks := Function.update w.iblocks buf.addr
        (some { w.iblk buf.addr with elmts := Function.update (w.iblk buf.addr).elmts i v }) }
  | .dblock =>
    { w with
      dblocks := Function.update w.dblocks buf.addr
        (some { elmts := Function.update (w.dblk buf.addr).elmts i v }) }
  | .dblk_page =>
    { w with
      dblk_pages := Function.update w.dblk_pages buf.addr
        (some { elmts := Function.update (w.page buf.addr).elmts i v }) }
  | _ => w

/-- The three sanity checks on the outputs of the lookup. -/
def sanity_checks (o : LookupOut) (w : World) : World :=
  ((w.HDassert o.thing.isSome).HDassert o.thing_elmt_buf.isSome).HDassert
    o.thing_unprot_func.isSome

/-- Lines 689-696 of `H5EA_set`, after a successful lookup: the sanity checks and
the copy of the element into `thing`'s element buffer. -/
def set_copy (elmt : Nat) (o : LookupOut) (w : World) : World :=
  match o.thing_elmt_buf with
  | some buf => elmt_write buf o.thing_elmt_idx elmt (sanity_checks o w)
  | none => sanity_checks o w

/-- Lines 698-707 of `H5EA_set`: the update of `max_idx_set`. -/
def set_max_idx (idx : Nat) (w : World) : Int × World :=
  if idx ≥ w.hdr.stats.max_idx_set then
    let r := H5EA__hdr_modified
      { w with hdr := { w.hdr with stats := { w.hdr.stats with max_idx_set := u64 (idx + 1) } } }
    if r.1 < 0 then (FAIL, r.2.throw .CANTMARKDIRTY) else (SUCCEED, r.2)
  else (SUCCEED, w)

/-- Lines 689-707 of `H5EA_set`, after a successful lookup.  Returns `ret_value`
and the world. -/
def set_store (idx : Nat) (elmt : Nat) (o : LookupOut) (w : World) : Int × World :=
  set_max_idx idx (set_copy elmt o w)

/-- The release of `thing` in the `CATCH` sections of `H5EA_set`, `H5EA_get`,
`H5EA_support` and `H5EA_unsupport`: `if(thing && (thing_unprot_func)(thing,
dxpl_id, flags) < 0) H5E_THROW(...)`. -/
def release_thing (o : LookupOut) (flags : Nat) (ret_value : Int) (w : World) :
    Int × World :=
  match o.thing with
  | some t =>
    let r := unprotect_thing (o.thing_unprot_func.getD t.kind) t flags w
    if r.1 < 0 then (FAIL, r.2.throw .CANTUNPROTECT) else (ret_value, r.2)
  | none => (ret_value, w)

/-- The function `H5EA_set` (lines 659-714).  After a failed lookup control is
at `CATCH` with `thing_cache_flags` still `H5AC__NO_FLAGS_SET`; otherwise the
flags are `H5AC__DIRTIED_FLAG` when `CATCH` is reached. -/
def H5EA_set (ea : H5EA_t) (idx : Nat) (elmt : Nat) (w : World) : Int × World :=
  let r := H5EA__lookup_elmt ea idx H5AC__NO_FLAGS_SET { w with hdr := { w.hdr with f := ea.f } }
  if r.1.ret_value < 0 then
    release_thing r.1 H5AC__NO_FLAGS_SET FAIL (r.2.throw .CANTPROTECT)
  else
    let s := set_store idx elmt r.1 r.2
    release_thing r.1 (H5AC__NO_FLAGS_SET ||| H5AC__DIRTIED_FLAG) s.1 s.2

/-- The class's fill callback `(hdr->cparam.cls->fill)(elmt, 1)`: writes the
fill value to the output element unless it fails. -/
def cls_fill (w : World) : Int × Option Nat × World :=
  (if w.fault then FAIL else SUCCEED,
   if w.fault then none else some w.hdr.cparam.cls.fill,
   (w.tick).log (.fill (!w.fault)))

/-- Lines 755-757 and 776-778: the fill callback and its error check. -/
def get_fill (w : World) : Int × Option Nat × World :=
  let r := cls_fill w
  if r.1 < 0 then (FAIL, r.2.1, r.2.2.throw .CANTSET) else (SUCCEED, r.2.1, r.2.2)

/-- The function `H5EA_get` (lines 730-790).  The second component is the
output element `*elmt`, `none` while nothing was written to it. -/
def H5EA_get (ea : H5EA_t) (idx : Nat) (w : World) : Int × Option Nat × World :=
  if idx ≥ w.hdr.stats.max_idx_set then get_fill w
  else
    let r := H5EA__lookup_elmt ea idx H5AC__READ_ONLY_FLAG
      { w with hdr := { w.hdr with f := ea.f } }
    if r.1.ret_value < 0 then
      let c := release_thing r.1 H5AC__NO_FLAGS_SET FAIL (r.2.throw .CANTPROTECT)
      (c.1, none, c.2)
    else
      match r.1.thing with
      | none => get_fill r.2
      | some _ =>
        let c := release_thing r.1 H5AC__NO_FLAGS_SET SUCCEED r.2
        (c.1, r.1.thing_elmt_buf.map (fun buf => elmt_read buf r.1.thing_elmt_idx r.2), c.2)

/-! ## Flush dependencies (lines 807-986) -/

/-- Modelled from the spec: `H5EA__create_flush_depend` of the absent package
file, the cache primitive `create_flush_depend(parent, child)`.  A `NULL` parent
is refused. -/
def H5EA__create_flush_depend (parent : Option H5AC_info_t) (child : H5AC_info_t) (w : World) :
    Int × World :=
  match parent with
  | some p =>
    if w.fault = true then (FAIL, (w.tick).log (.flush_depend parent child false))
    else
      (SUCCEED,
        ({ w.tick with flush_deps := w.flush_deps ++ [(p, child)] }).log
          (.flush_depend parent child true))
  | none => (FAIL, (w.tick).log (.flush_depend parent child false))

/-- Modelled from the spec: `H5EA__destroy_flush_depend` of the absent package
file, the cache primitive `destroy_flush_depend(parent, child)`.  A `NULL`
parent or an edge that does not exist is refused. -/
def H5EA__destroy_flush_depend (parent : Option H5AC_info_t) (child : H5AC_info_t) (w : World) :
    Int × World :=
  match parent with
  | some p =>
    if w.fault = true ∨ (p, child) ∉ w.flush_deps then
      (FAIL, (w.tick).log (.flush_undepend parent child false))
    else
      (SUCCEED,
        ({ w.tick with flush_deps := w.flush_deps.erase (p, child) }).log
          (.flush_undepend parent child true))
  | none => (FAIL, (w.tick).log (.flush_undepend parent child false))

/-- The function `H5EA_depend` (lines 807-833). -/
def H5EA_depend (parent_entry : H5AC_info_t) (ea : H5EA_t) (w : World) : Int × World :=
  let r := H5EA__create_flush_depend (some parent_entry) (.array ⟨.hdr, w.hdr.addr⟩)
    { w with hdr := { w.hdr with f := ea.f } }
  if r.1 < 0 then (FAIL, r.2.throw .CANTDEPEND) else (SUCCEED, r.2)

/-- The function `H5EA_undepend` (lines 850-876). -/
def H5EA_undepend (parent_entry : H5AC_info_t) (ea : H5EA_t) (w : World) : Int × World :=
  let r := H5EA__destroy_flush_depend (some parent_entry) (.array ⟨.hdr, w.hdr.addr⟩)
    { w with hdr := { w.hdr with f := ea.f } }
  if r.1 < 0 then (FAIL, r.2.throw .CANTUNDEPEND) else (SUCCEED, r.2)

/-- The function `H5EA_support` (lines 893-931). -/
def H5EA_support (ea : H5EA_t) (idx : Nat) (child_entry : H5AC_info_t) (w : World) :
    Int × World :=
  let r := H5EA__lookup_elmt ea idx H5AC__NO_FLAGS_SET w
  if r.1.ret_value < 0 then
    release_thing r.1 H5AC__NO_FLAGS_SET FAIL (r.2.throw .CANTPROTECT)
  else
    let d := H5EA__create_flush_depend (r.1.thing.map .array) child_entry
      (sanity_checks r.1 r.2)
    if d.1 < 0 then release_thing r.1 H5AC__NO_FLAGS_SET FAIL (d.2.throw .CANTDEPEND)
    else release_thing r.1 H5AC__NO_FLAGS_SET SUCCEED d.2

/-- The function `H5EA_unsupport` (lines 948-986). -/
def H5EA_unsupport (ea : H5EA_t) (idx : Nat) (child_entry : H5AC_info_t) (w : World) :
    Int × World :=
  let r := H5EA__lookup_elmt ea idx H5AC__READ_ONLY_FLAG w
  if r.1.ret_value < 0 then
    release_thing r.1 H5AC__NO_FLAGS_SET FAIL (r.2.throw .CANTPROTECT)
  else
    let d := H5EA__destroy_flush_depend (r.1.thing.map .array) child_entry
      (sanity_checks r.1 r.2)
    if d.1 < 0 then release_thing r.1 H5AC__NO_FLAGS_SET FAIL (d.2.throw .CANTUNDEPEND)
    else release_thing r.1 H5AC__NO_FLAGS_SET SUCCEED d.2

/-! ## Lifecycle: H5EA_open, H5EA_close, H5EA_delete (lines 197-249, 1002-1143) -/

/-- Modelled from the spec: `H5EA__hdr_protect` of the absent header file, a
proxy to the cache: fails on a fault or when no array header is at the
address. -/
def H5EA__hdr_protect (ea_addr : Nat) (flags : Nat) (w : World) : Option Nat × World :=
  let r := cache_protect .hdr ea_addr flags (w.hdr_present && ea_addr == w.hdr.addr) w
  (if r.1 then some ea_addr else none, r.2)

/-- Modelled from the spec: `H5EA__hdr_unprotect` of the absent header file, a
proxy to the cache. -/
def H5EA__hdr_unprotect (hdr : Nat) (flags : Nat) (w : World) : Int × World :=
  cache_unprotect .hdr hdr flags w

/-- Modelled from the spec: `H5EA__hdr_incr` of the absent header file, which
adjusts `rc`. -/
def H5EA__hdr_incr (w : World) : Int × World :=
  if w.fault = true then (FAIL, (w.tick).log (.hdr_incr false))
  else
    (SUCCEED,
      ({ w.tick with hdr := { w.hdr with rc := u64 (w.hdr.rc + 1) } }).log (.hdr_incr true))

/-- Modelled from the spec: `H5EA__hdr_decr` of the absent header file, which
adjusts `rc`. -/
def H5EA__hdr_decr (w : World) : Int × World :=
  if w.fault = true then (FAIL, (w.tick).log (.hdr_decr false))
  else
    (SUCCEED,
      ({ w.tick with hdr := { w.hdr with rc := sub64 w.hdr.rc 1 } }).log (.hdr_decr true))

/-- Modelled from the spec: `H5EA__hdr_fuse_incr` of the absent header file,
which adjusts `file_rc`. -/
def H5EA__hdr_fuse_incr (w : World) : Int × World :=
  if w.fault = true then (FAIL, (w.tick).log (.hdr_fuse_incr false))
  else
    (SUCCEED,
      ({ w.tick with hdr := { w.hdr with file_rc := u64 (w.hdr.file_rc + 1) } }).log
        (.hdr_fuse_incr true))

/-- Modelled from the spec: `H5EA__hdr_fuse_decr` of the absent header file,
which adjusts `file_rc` and returns the new count. -/
def H5EA__hdr_fuse_decr (w : World) : Nat × World :=
  (sub64 w.hdr.file_rc 1,
    ({ w with hdr := { w.hdr with file_rc := sub64 w.hdr.file_rc 1 } }).log .hdr_fuse_decr)

/-- Modelled from the spec: `H5EA__hdr_delete` of the absent header file: frees
every extent of the array and the header, then unprotects and evicts the
header. -/
def H5EA__hdr_delete (hdr : Nat) (w : World) : Int × World :=
  if w.fault = true then (FAIL, (w.tick).log (.hdr_delete false))
  else
    (SUCCEED,
      (({ w.tick with hdr_present := false }).log (.hdr_delete true)).log
        (.unprotect .hdr hdr
          (H5AC__DIRTIED_FLAG ||| H5AC__DELETED_FLAG ||| H5AC__FREE_FILE_SPACE_FLAG) true))

/-- Modelled from the spec: `H5FL_MALLOC(H5EA_t)` of the absent free-list
header; the wrapper comes back with its fields not set. -/
def H5FL_MALLOC (w : World) : Option H5EA_t × World :=
  if w.fault = true then (none, (w.tick).log (.malloc false))
  else (some ⟨none, none⟩, ({ w.tick with handles := w.handles + 1 }).log (.malloc true))

/-- Modelled from the spec: `H5FL_FREE(H5EA_t, ea)` of the absent free-list
header. -/
def H5FL_FREE (w : World) : World :=
  ({ w with handles := w.handles - 1 }).log .free

/-- Lines 1074-1084 of `H5EA_close`: no deletion is pending; decrement the
reference count and release the wrapper. -/
def close_decr (w : World) : Int × World :=
  let r := H5EA__hdr_decr w
  if r.1 < 0 then (FAIL, r.2.throw .CANTDEC) else (SUCCEED, H5FL_FREE r.2)

/-- Lines 1037-1073 and 1084 of `H5EA_close`: a deletion is pending; protect the
header, decrement the reference count, delete the array, release the wrapper.
The sanity block under `#ifndef NDEBUG` is not part of the model. -/
def close_delete (ea : H5EA_t) (ea_addr : Nat) (w : World) : Int × World :=
  let p := H5EA__hdr_protect ea_addr H5AC__NO_FLAGS_SET w
  match p.1 with
  | none => (FAIL, p.2.throw .CANTLOAD)
  | some hdr =>
    let r := H5EA__hdr_decr { p.2 with hdr := { p.2.hdr with f := ea.f } }
    if r.1 < 0 then (FAIL, r.2.throw .CANTDEC)
    else
      let d := H5EA__hdr_delete hdr r.2
      if d.1 < 0 then (FAIL, d.2.throw .CANTDELETE) else (SUCCEED, H5FL_FREE d.2)

/-- The function `H5EA_close` (lines 1002-1088). -/
def H5EA_close (ea : H5EA_t) (w : World) : Int × World :=
  let r := H5EA__hdr_fuse_decr (w.HDassert ea.hdr.isSome)
  if r.1 = 0 then
    if r.2.hdr.pending_delete then
      close_delete ea r.2.hdr.addr { r.2 with hdr := { r.2.hdr with f := ea.f } }
    else close_decr { r.2 with hdr := { r.2.hdr with f := ea.f } }
  else close_decr r.2

/-- The `CATCH` section of `H5EA_open` (lines 241-247): release the header, and
close the wrapper when the open failed. -/
def open_catch (hdr : Option Nat) (ea : Option H5EA_t) (ret_value : Option H5EA_t)
    (w : World) : Option H5EA_t × World :=
  let u : Option H5EA_t × World :=
    match hdr with
    | some h =>
      let r := H5EA__hdr_unprotect h H5AC__NO_FLAGS_SET w
      if r.1 < 0 then (none, r.2.throw .CANTUNPROTECT) else (ret_value, r.2)
    | none => (ret_value, w)
  match u.1, ea with
  | none, some e =>
    let c := H5EA_close e u.2
    if c.1 < 0 then (none, c.2.throw .CLOSEERROR) else (none, c.2)
  | _, _ => u

/-- Lines 222-239 of `H5EA_open`: allocate the wrapper and take the
references. -/
def open_handle (f : Nat) (hdr : Nat) (w : World) : Option H5EA_t × World :=
  let m := H5FL_MALLOC w
  match m.1 with
  | none => open_catch (some hdr) none none (m.2.throw .CANTALLOC)
  | some ea =>
    let i := H5EA__hdr_incr m.2
    if i.1 < 0 then
      open_catch (some hdr) (some { ea with hdr := some hdr }) none (i.2.throw .CANTINC)
    else
      let u := H5EA__hdr_fuse_incr i.2
      if u.1 < 0 then
        open_catch (some hdr) (some { ea with hdr := some hdr }) none (u.2.throw .CANTINC)
      else
        open_catch (some hdr) (some { hdr := some hdr, f := some f })
          (some { hdr := some hdr, f := some f }) u.2

/-- The function `H5EA_open` (lines 197-249). -/
def H5EA_open (f : Nat) (ea_addr : Nat) (w : World) : Option H5EA_t × World :=
  let p := H5EA__hdr_protect ea_addr H5AC__READ_ONLY_FLAG w
  match p.1 with
  | none => open_catch none none none (p.2.throw .CANTPROTECT)
  | some hdr =>
    if p.2.hdr.pending_delete then open_catch (some hdr) none none (p.2.throw .CANTOPENOBJ)
    else open_handle f hdr p.2

/-- The `CATCH` section of `H5EA_delete` (lines 1139-1141). -/
def delete_catch (hdr : Option Nat) (ret_value : Int) (w : World) : Int × World :=
  match hdr with
  | some h =>
    let r := H5EA__hdr_unprotect h H5AC__NO_FLAGS_SET w
    if r.1 < 0 then (FAIL, r.2.throw .CANTUNPROTECT) else (ret_value, r.2)
  | none => (ret_value, w)

/-- The function `H5EA_delete` (lines 1104-1143). -/
def H5EA_delete (f : Nat) (ea_addr : Nat) (w : World) : Int × World :=
  let p := H5EA__hdr_protect ea_addr H5AC__NO_FLAGS_SET w
  match p.1 with
  | none => delete_catch none FAIL (p.2.throw .CANTPROTECT)
  | some hdr =>
    if p.2.hdr.file_rc ≠ 0 then
      delete_catch (some hdr) SUCCEED
        { p.2 with hdr := { p.2.hdr with pending_delete := true } }
    else
      let d := H5EA__hdr_delete hdr { p.2 with hdr := { p.2.hdr with f := some f } }
      if d.1 < 0 then delete_catch (some hdr) FAIL (d.2.throw .CANTDELETE)
      else delete_catch none SUCCEED d.2

/-! ## Header initialisation: the geometry table -/

/-- Modelled from the spec: start index and start data block of super block `u`
in the geometry table, the running sums of the elements and data blocks of the
super blocks before it. -/
def sblk_start (min_elmts : Nat) : Nat → Nat × Nat
  | 0 => (0, 0)
  | u + 1 =>
    ((sblk_start min_elmts u).1 + 2 ^ (u / 2) * (2 ^ ((u + 1) / 2) * min_elmts),
     (sblk_start min_elmts u).2 + 2 ^ (u / 2))

/-- Modelled from the spec: the geometry table `sblk_info` computed at header
initialisation (absent header file): the data-block count doubles at every
other super block and the data-block size at the others. -/
def sblk_info_init (min_elmts : Nat) (u : Nat) : H5EA_sblk_info_t :=
  { ndblks := 2 ^ (u / 2)
    dblk_nelmts := 2 ^ ((u + 1) / 2) * min_elmts
    start_idx := (sblk_start min_elmts u).1
    start_dblk := (sblk_start min_elmts u).2 }

/-- Modelled from the spec: the header of a new array at `addr` as header
creation (absent header file) leaves it: geometry computed from `cparam`, index
block undefined, statistics zero, no reference. -/
def hdr_init (cparam : H5EA_create_t) (addr : Nat) : H5EA_hdr_t :=
  { addr := addr
    cparam := cparam
    stats := ⟨0, 0, 0, 0, 0, 0, 0⟩
    idx_blk_addr := HADDR_UNDEF
    sblk_info := sblk_info_init cparam.data_blk_min_elmts
    nsblks := 1 + (cparam.max_nelmts_bits - H5VM_log2_gen cparam.data_blk_min_elmts)
    dblk_page_nelmts := 2 ^ cparam.max_dblk_page_nelmts_bits
    iblock_nsblks := 2 * H5VM_log2_gen cparam.sup_blk_min_data_ptrs
    sizeof_addr := 8
    arr_off_size := (cparam.max_nelmts_bits + 7) / 8
    rc := 0
    file_rc := 0
    pending_delete := false
    f := none }

/-- A file that holds a new array and nothing else, with the given fault
schedule. -/
def World.init (cparam : H5EA_create_t) (addr : Nat) (eoa : Nat) (faults : Nat → Bool) :
    World :=
  { hdr := hdr_init cparam addr
    hdr_present := true
    iblocks := fun _ => none
    sblocks := fun _ => none
    dblocks := fun _ => none
    dblk_pages := fun _ => none
    eoa := eoa
    faults := faults
    clock := 0
    errs := []
    trace := []
    handles := 0
    flush_deps := []
    asserts_ok := true }

/-! ## H5EA_create (lines 116-180) -/

/-- Modelled from the spec: on-disk size of the header image (a macro of the
absent package header): metadata prefix, the six creation parameters of one
byte each, the six stored statistics as lengths of 8 bytes and the address of
the index block. -/
def H5EA_HEADER_SIZE (hdr : H5EA_hdr_t) : Nat :=
  H5EA_METADATA_PREFIX_SIZE + 6 + 6 * 8 + hdr.sizeof_addr

/-- Modelled from the spec: `H5EA__hdr_create` of the absent header file:
computes the header of a new array from `cparam`, allocates file space for its
image at the end of the allocated space and inserts it in the cache; returns
the address of the header, `HADDR_UNDEF` on failure.  The world holds one
array: the new header takes the place of the header of the world. -/
def H5EA__hdr_create (cparam : H5EA_create_t) (w : World) : Nat × World :=
  if w.fault = true ∨ H5MF_alloc_fits w (H5EA_HEADER_SIZE (hdr_init cparam w.eoa)) = false then
    (HADDR_UNDEF, (w.tick).log (.hdr_create HADDR_UNDEF false))
  else
    (w.eoa,
      ({ w.tick with
          eoa := w.eoa + H5EA_HEADER_SIZE (hdr_init cparam w.eoa)
          hdr := hdr_init cparam w.eoa
          hdr_present := true }).log (.hdr_create w.eoa true))

/-- Lines 133-169 of `H5EA_create` with its `CATCH` section (lines 172-178):
allocate the wrapper, protect the new header and take the references.  The
`CATCH` section is the one of `H5EA_open`, statement for statement.  When
`H5EA__hdr_protect` fails (line 154) the wrapper is allocated and its `hdr`
field was never assigned (`H5FL_MALLOC` does not clear it), `hdr` is `NULL` and
`ret_value` is `NULL`: the `CATCH` section calls `H5EA_close` on that wrapper
(line 177), which reads through `ea->hdr` (line 1020).  The behaviour is
undefined and the call has no result: the model returns `none`. -/
def create_handle (f : Nat) (ea_addr : Nat) (w : World) : Option (Option H5EA_t × World) :=
  let m := H5FL_MALLOC w
  match m.1 with
  | none => some (open_catch none none none (m.2.throw .CANTALLOC))
  | some ea =>
    let p := H5EA__hdr_protect ea_addr H5AC__NO_FLAGS_SET m.2
    match p.1 with
    | none => none
    | some hdr =>
      let i := H5EA__hdr_incr p.2
      if i.1 < 0 then
        some (open_catch (some hdr) (some { ea with hdr := some hdr }) none
          (i.2.throw .CANTINC))
      else
        let u := H5EA__hdr_fuse_incr i.2
        if u.1 < 0 then
          some (open_catch (some hdr) (some { ea with hdr := some hdr }) none
            (u.2.throw .CANTINC))
        else
          some (open_catch (some hdr) (some { hdr := some hdr, f := some f })
            (some { hdr := some hdr, f := some f }) u.2)

/-- The function `H5EA_create` (lines 116-180): the handle, or `NULL`, with the
file it leaves; `none` when the call has no defined result (see
`create_handle`). -/
def H5EA_create (f : Nat) (cparam : H5EA_create_t) (w : World) :
    Option (Option H5EA_t × World) :=
  let c := H5EA__hdr_create cparam w
  if c.1 = HADDR_UNDEF then some (open_catch none none none (c.2.throw .CANTINIT))
  else create_handle f c.1 c.2

/-! ## Histories of the lifecycle of one array -/

/-- One call of the lifecycle interface on the array at a fixed address: an
open from file `f`, the close of a handle, or a delete from file `f`. -/
inductive LifeOp where
  | op_open (f : Nat)
  | op_close (ea : H5EA_t)
  | op_delete (f : Nat)
  deriving DecidableEq, Repr

/-- The file after one lifecycle call on the array at `addr`. -/
def LifeOp.run (addr : Nat) (w : World) : LifeOp → World
  | .op_open f => (H5EA_open f addr w).2
  | .op_close ea => (H5EA_close ea w).2
  | .op_delete f => (H5EA_delete f addr w).2

/-- The file after a sequence of lifecycle calls, made in order. -/
def run_life (addr : Nat) (ops : List LifeOp) (w : World) : World :=
  ops.foldl (LifeOp.run addr) w

/-- Whether the lifecycle call is a close. -/
def LifeOp.isClose : LifeOp → Bool
  | .op_close _ => true
  | _ => false

/-- Number of closes in a sequence of lifecycle calls. -/
def ncloses (ops : List LifeOp) : Nat := ops.countP LifeOp.isClose

/-- Whether the logged call is a call of the header deletion routine. -/
def Event.isHdrDelete : Event → Bool
  | .hdr_delete _ => true
  | _ => false

/-- Number of calls of the header deletion routine in a list of calls. -/
def ndeletes (evs : List Event) : Nat := evs.countP Event.isHdrDelete

/-- Whether the logged call releases a handle wrapper. -/
def Event.isFree : Event → Bool
  | .free => true
  | _ => false

/-! ## Observations on the trace -/

/-- Whether the logged call succeeded. -/
def Event.ok : Event → Bool
  | .protect _ _ _ ok => ok
  | .unprotect _ _ _ ok => ok
  | .iblock_create _ ok => ok
  | .sblock_create _ _ _ ok => ok
  | .dblock_create _ _ _ _ ok => ok
  | .dblk_page_create _ _ ok => ok
  | .hdr_modified ok => ok
  | .fill ok => ok
  | .malloc ok => ok
  | .free => true
  | .hdr_incr ok => ok
  | .hdr_decr ok => ok
  | .hdr_fuse_incr ok => ok
  | .hdr_fuse_decr => true
  | .hdr_delete ok => ok
  | .flush_depend _ _ ok => ok
  | .flush_undepend _ _ ok => ok
  | .hdr_create _ ok => ok

/-- The kind of block a call of a block-creation routine is to create; `none`
for every other call. -/
def Event.createKind : Event → Option BlockKind
  | .iblock_create _ _ => some .iblock
  | .sblock_create _ _ _ _ => some .sblock
  | .dblock_create _ _ _ _ _ => some .dblock
  | .dblk_page_create _ _ _ => some .dblk_page
  | _ => none

/-- A successful protect of the block of kind `k` at `a`. -/
def Event.isProtectOf (k : BlockKind) (a : Nat) : Event → Bool
  | .protect k' a' _ ok => k' = k && a' = a && ok
  | _ => false

/-- An unprotect call on the block of kind `k` at `a`. -/
def Event.isUnprotectOf (k : BlockKind) (a : Nat) : Event → Bool
  | .unprotect k' a' _ _ => k' = k && a' = a
  | _ => false

/-- A successful creation of a block below the parent `p`, after which the walk
stores the new address (or page-init bit) in `p`. -/
def Event.childOf (p : Thing) : Event → Bool
  | .sblock_create _ p' _ ok => p' = p && ok
  | .dblock_create _ p' _ _ ok => p' = p && ok
  | .dblk_page_create _ p' ok => p' = p && ok
  | _ => false

/-- Number of successful protects of the block `(k, a)` in a list of calls. -/
def nprot (k : BlockKind) (a : Nat) (evs : List Event) : Nat :=
  evs.countP (Event.isProtectOf k a)

/-- Number of unprotect calls on the block `(k, a)` in a list of calls. -/
def nunprot (k : BlockKind) (a : Nat) (evs : List Event) : Nat :=
  evs.countP (Event.isUnprotectOf k a)

/-- Number of blocks successfully created below the parent `p`. -/
def nchild (p : Thing) (evs : List Event) : Nat :=
  evs.countP (Event.childOf p)

/-- Whether the block `(k, a)` is one of the blocks the locals of the walk point
to (1) or not (0). -/
def LookupLocals.held (l : LookupLocals) (k : BlockKind) (a : Nat) : Nat :=
  match k with
  | .iblock => if l.iblock = some a then 1 else 0
  | .sblock => if l.sblock.map (fun sb => sb.addr) = some a then 1 else 0
  | .dblock => if l.dblock = some a then 1 else 0
  | .dblk_page => if l.dblk_page = some a then 1 else 0
  | .hdr => 0

/-- The flags a parent block is released with: dirtied when a block was created
below it. -/
def release_flags (p : Thing) (evs : List Event) : Nat :=
  if 0 < nchild p evs then H5AC__DIRTIED_FLAG else H5AC__NO_FLAGS_SET

/-! ## Invariants of the walk -/

/-- Locals and world of a `Flow`, wherever control is. -/
def Flow.locals : Flow → LookupLocals
  | .at_catch l _ => l
  | .next l _ => l

/-- World of a `Flow`, wherever control is. -/
def Flow.world : Flow → World
  | .at_catch _ w => w
  | .next _ w => w

/-- How the calls `evs` logged by the walk so far and its locals `l` hang
together, at any point before the releases of `CATCH`: the calls are creations
and protects, the successfully protected blocks are those the locals point to,
blocks are created only below a protected parent, and the release flags of the
index block and the super block say whether a block was created below them. -/
structure WalkTrace (acc : Nat) (evs : List Event) (l : LookupLocals) : Prop where
  calls : ∀ e ∈ evs, e.createKind.isSome = true ∨ ∃ k a ok, e = .protect k a acc ok
  held : ∀ k a, nprot k a evs = l.held k a
  children : ∀ p, 0 < nchild p evs → l.held p.kind p.addr = 1
  parents : ∀ e ∈ evs, ∀ p, e.childOf p = true → p.kind = .iblock ∨ p.kind = .sblock
  iflags : ∀ a, l.iblock = some a → l.iblock_cache_flags = release_flags ⟨.iblock, a⟩ evs
  sflags : ∀ sb, l.sblock = some sb →
    l.sblock_cache_flags = release_flags ⟨.sblock, sb.addr⟩ evs
  iflags0 : l.iblock = none → l.iblock_cache_flags = H5AC__NO_FLAGS_SET
  sflags0 : l.sblock = none → l.sblock_cache_flags = H5AC__NO_FLAGS_SET
  thing : ∀ t, l.thing = some t → l.held t.kind t.addr = 1 ∧ l.ret_value = SUCCEED ∧
    t.kind ≠ .sblock ∧ l.thing_unprot_func = some t.kind ∧ l.thing_elmt_buf = some t
  dirty : l.hdr_dirty = true ∨ l.stats_changed = true → ∃ e ∈ evs, e.createKind.isSome = true
  ro : acc &&& H5AC__READ_ONLY_FLAG ≠ 0 → ∀ e ∈ evs, e.createKind = none

/-- The world `w` is reached from a world with trace `t0` by a walk whose calls
and locals satisfy `WalkTrace`. -/
def Walk (t0 : List Event) (acc : Nat) (l : LookupLocals) (w : World) : Prop :=
  ∃ evs, w.trace = t0 ++ evs ∧ WalkTrace acc evs l

/-- The locals `l'` point to the same blocks as `l` and no `thing` is set. -/
structure SameBlocks (l l' : LookupLocals) : Prop where
  iblock : l'.iblock = l.iblock
  sblock : l'.sblock = l.sblock
  dblock : l'.dblock = l.dblock
  dblk_page : l'.dblk_page = l.dblk_page
  thing : l'.thing = none

/-- Whether control goes on with the next statement. -/
def Flow.isNext : Flow → Bool
  | .at_catch _ _ => false
  | .next _ _ => true

/-- What the `CATCH` section of the walk does, from the locals `l` at its entry:
`cevs` are the calls it makes and `l'` the locals at the return. -/
structure CatchTrace (l : LookupLocals) (cevs : List Event) (l' : LookupLocals) : Prop where
  thing : l'.thing = if l.ret_value < 0 then none else l.thing
  thing_elmt_buf : l'.thing_elmt_buf = if l.ret_value < 0 then none else l.thing_elmt_buf
  thing_elmt_idx : l'.thing_elmt_idx = if l.ret_value < 0 then 0 else l.thing_elmt_idx
  thing_unprot_func :
    l'.thing_unprot_func = if l.ret_value < 0 then none else l.thing_unprot_func
  calls : ∀ e ∈ cevs, e = .hdr_modified e.ok ∨
    (∃ a, l.iblock = some a ∧ e = .unprotect .iblock a l.iblock_cache_flags e.ok) ∨
    (∃ sb, l.sblock = some sb ∧ e = .unprotect .sblock sb.addr l.sblock_cache_flags e.ok) ∨
    (∃ a, l.dblock = some a ∧ e = .unprotect .dblock a H5AC__NO_FLAGS_SET e.ok) ∨
    (∃ a, l.dblk_page = some a ∧ e = .unprotect .dblk_page a H5AC__NO_FLAGS_SET e.ok)
  count : ∀ k a, nunprot k a cevs =
    if l'.thing = some ⟨k, a⟩ ∧ k ≠ .sblock then 0 else l.held k a
  ret_ok : 0 ≤ l'.ret_value → l'.ret_value = l.ret_value ∧ ∀ e ∈ cevs, e.ok = true
  ret_fail : l'.ret_value < 0 → l'.ret_value = FAIL ∨ l'.ret_value = l.ret_value
  all_ok : (∀ e ∈ cevs, e.ok = true) → l'.ret_value = l.ret_value
  modified : (∃ ok, Event.hdr_modified ok ∈ cevs) ↔ (l.hdr_dirty = true ∨ l.stats_changed = true)

/-- The locals `l'` are the locals `l` but for `ret_value`. -/
structure SameButRet (l l' : LookupLocals) : Prop where
  iblock : l'.iblock = l.iblock
  sblock : l'.sblock = l.sblock
  dblock : l'.dblock = l.dblock
  dblk_page : l'.dblk_page = l.dblk_page
  iblock_cache_flags : l'.iblock_cache_flags = l.iblock_cache_flags
  sblock_cache_flags : l'.sblock_cache_flags = l.sblock_cache_flags
  thing : l'.thing = l.thing
  thing_elmt_buf : l'.thing_elmt_buf = l.thing_elmt_buf
  thing_elmt_idx : l'.thing_elmt_idx = l.thing_elmt_idx
  thing_unprot_func : l'.thing_unprot_func = l.thing_unprot_func

/-- Every block protected between `w` and `w'` is unprotected exactly once
between `w` and `w'`: the calls logged after `w` hold, for each block, as many
successful protects as unprotect calls, and at most one. -/
def Balanced (w w' : World) : Prop :=
  ∃ evs, w'.trace = w.trace ++ evs ∧
    ∀ k a, nprot k a evs = nunprot k a evs ∧ nunprot k a evs ≤ 1

/-! ## Where an index is stored

The addressing of the walk as a function of the file alone: the block and the
position in its element buffer that hold the element of an index, when every
level on the way is defined. -/

/-- What the addressing finds for an index: a level on the way is undefined
(`absent`), a defined address holds no block of the kind (`missing`), or the
element is position `i` of the element buffer of the block `t`. -/
inductive Resolved where
  | absent
  | missing
  | found (t : Thing) (i : Nat)
  deriving DecidableEq, Repr

/-- Addressing below a super block: the page or the data block. -/
def resolve_sblock_dblock (w : World) (sb : H5EA_sblock_t) (dblk_idx elmt_idx : Nat) :
    Resolved :=
  if sb.dblk_npages ≠ 0 then
    if (w.sblk sb.addr).page_init
        (u64 (dblk_idx * sb.dblk_npages + elmt_idx / w.hdr.dblk_page_nelmts)) = false then
      .absent
    else if (w.dblk_pages (u64 ((w.sblk sb.addr).dblk_addrs dblk_idx
        + H5EA_DBLOCK_PREFIX_SIZE w.hdr
        + elmt_idx / w.hdr.dblk_page_nelmts * sb.dblk_page_size))).isSome then
      .found ⟨.dblk_page, u64 ((w.sblk sb.addr).dblk_addrs dblk_idx
        + H5EA_DBLOCK_PREFIX_SIZE w.hdr
        + elmt_idx / w.hdr.dblk_page_nelmts * sb.dblk_page_size)⟩
        (elmt_idx % w.hdr.dblk_page_nelmts)
    else .missing
  else if (w.dblocks ((w.sblk sb.addr).dblk_addrs dblk_idx)).isSome then
    .found ⟨.dblock, (w.sblk sb.addr).dblk_addrs dblk_idx⟩ elmt_idx
  else .missing

/-- Addressing from the super block at `sblk_addr`. -/
def resolve_sblock (w : World) (sblk_idx sblk_addr elmt_idx : Nat) : Resolved :=
  if (w.sblocks sblk_addr).isSome then
    if H5F_addr_defined ((w.sblk sblk_addr).dblk_addrs
        (u64 (elmt_idx / (sblock_of w.hdr sblk_addr sblk_idx).dblk_nelmts))) = false then
      .absent
    else
      resolve_sblock_dblock w (sblock_of w.hdr sblk_addr sblk_idx)
        (u64 (elmt_idx / (sblock_of w.hdr sblk_addr sblk_idx).dblk_nelmts))
        (elmt_idx % (sblock_of w.hdr sblk_addr sblk_idx).dblk_nelmts)
  else .missing

/-- Addressing through a super-block slot of the index block. -/
def resolve_via_sblock (w : World) (sblk_idx ib elmt_idx : Nat) : Resolved :=
  if H5F_addr_defined ((w.iblk ib).sblk_addrs (sblk_idx - w.hdr.iblock_nsblks)) = false then
    .absent
  else
    resolve_sblock w sblk_idx ((w.iblk ib).sblk_addrs (sblk_idx - w.hdr.iblock_nsblks)) elmt_idx

/-- Addressing through a data-block slot of the index block. -/
def resolve_via_iblock (w : World) (sblk_idx ib elmt_idx : Nat) : Resolved :=
  if H5F_addr_defined ((w.iblk ib).dblk_addrs (u64 ((w.hdr.sblk_info sblk_idx).start_dblk
      + elmt_idx / (w.hdr.sblk_info sblk_idx).dblk_nelmts))) = false then
    .absent
  else if (w.dblocks ((w.iblk ib).dblk_addrs (u64 ((w.hdr.sblk_info sblk_idx).start_dblk
      + elmt_idx / (w.hdr.sblk_info sblk_idx).dblk_nelmts)))).isSome then
    .found ⟨.dblock, (w.iblk ib).dblk_addrs (u64 ((w.hdr.sblk_info sblk_idx).start_dblk
      + elmt_idx / (w.hdr.sblk_info sblk_idx).dblk_nelmts))⟩
      (elmt_idx % (w.hdr.sblk_info sblk_idx).dblk_nelmts)
  else .missing

/-- Addressing from the index block at `ib`. -/
def resolve_in_iblock (w : World) (idx ib : Nat) : Resolved :=
  if idx < w.hdr.cparam.idx_blk_elmts then .found ⟨.iblock, ib⟩ idx
  else if H5EA__dblock_sblk_idx w.hdr idx < w.hdr.iblock_nsblks then
    resolve_via_iblock w (H5EA__dblock_sblk_idx w.hdr idx) ib
      (sub64 idx (u64 (w.hdr.cparam.idx_blk_elmts
        + (w.hdr.sblk_info (H5EA__dblock_sblk_idx w.hdr idx)).start_idx)))
  else
    resolve_via_sblock w (H5EA__dblock_sblk_idx w.hdr idx) ib
      (sub64 idx (u64 (w.hdr.cparam.idx_blk_elmts
        + (w.hdr.sblk_info (H5EA__dblock_sblk_idx w.hdr idx)).start_idx)))

/-- The block and position that hold the element of index `idx`. -/
def resolve (w : World) (idx : Nat) : Resolved :=
  if H5F_addr_defined w.hdr.idx_blk_addr = false then .absent
  else if (w.iblocks w.hdr.idx_blk_addr).isSome then resolve_in_iblock w idx w.hdr.idx_blk_addr
  else .missing

/-- What the outputs of a lookup say: failure, nothing there, or a block and a
position. -/
def LookupOut.resolved (o : LookupOut) : Resolved :=
  if o.ret_value < 0 then .missing
  else
    match o.thing with
    | some t => .found t o.thing_elmt_idx
    | none => .absent

/-- The same reading of the locals of the walk. -/
def LookupLocals.resolved (l : LookupLocals) : Resolved :=
  if l.ret_value < 0 then .missing
  else
    match l.thing with
    | some t => .found t l.thing_elmt_idx
    | none => .absent

/-- No collaborator call fails from now on. -/
def World.quiet (w : World) : Prop := ∀ n, w.clock ≤ n → w.faults n = false

/-! ## The levels a write walk has to create

`fresh` says that the block the level hangs from does not exist yet, so that
all its slots count as undefined. -/

/-- Levels to create below a super block: the data block and, when the data
blocks are paged, the page. -/
def levels_sblock (fresh : Bool) (w : World) (sblk_idx sblk_addr elmt_idx : Nat) :
    List BlockKind :=
  (if fresh || !H5F_addr_defined ((w.sblk sblk_addr).dblk_addrs
      (u64 (elmt_idx / (w.hdr.sblk_info sblk_idx).dblk_nelmts))) then [.dblock] else []) ++
  (if dblk_npages w.hdr (w.hdr.sblk_info sblk_idx).dblk_nelmts ≠ 0 ∧
      (fresh || !(w.sblk sblk_addr).page_init
        (u64 (u64 (elmt_idx / (w.hdr.sblk_info sblk_idx).dblk_nelmts)
            * dblk_npages w.hdr (w.hdr.sblk_info sblk_idx).dblk_nelmts
          + elmt_idx % (w.hdr.sblk_info sblk_idx).dblk_nelmts / w.hdr.dblk_page_nelmts)))
    then [.dblk_page] else [])

/-- Levels to create on the way through a super-block slot of the index
block. -/
def levels_via_sblock (fresh : Bool) (w : World) (sblk_idx ib elmt_idx : Nat) : List BlockKind :=
  (if fresh || !H5F_addr_defined ((w.iblk ib).sblk_addrs (sblk_idx - w.hdr.iblock_nsblks))
    then [.sblock] else []) ++
  levels_sblock
    (fresh || !H5F_addr_defined ((w.iblk ib).sblk_addrs (sblk_idx - w.hdr.iblock_nsblks)))
    w sblk_idx ((w.iblk ib).sblk_addrs (sblk_idx - w.hdr.iblock_nsblks)) elmt_idx

/-- Levels to create on the way through a data-block slot of the index
block. -/
def levels_via_iblock (fresh : Bool) (w : World) (sblk_idx ib elmt_idx : Nat) : List BlockKind :=
  if fresh || !H5F_addr_defined ((w.iblk ib).dblk_addrs
      (u64 ((w.hdr.sblk_info sblk_idx).start_dblk
        + elmt_idx / (w.hdr.sblk_info sblk_idx).dblk_nelmts))) then [.dblock] else []

/-- Levels to create below the index block. -/
def levels_in_iblock (fresh : Bool) (w : World) (idx ib : Nat) : List BlockKind :=
  if idx < w.hdr.cparam.idx_blk_elmts then []
  else if H5EA__dblock_sblk_idx w.hdr idx < w.hdr.iblock_nsblks then
    levels_via_iblock fresh w (H5EA__dblock_sblk_idx w.hdr idx) ib
      (sub64 idx (u64 (w.hdr.cparam.idx_blk_elmts
        + (w.hdr.sblk_info (H5EA__dblock_sblk_idx w.hdr idx)).start_idx)))
  else
    levels_via_sblock fresh w (H5EA__dblock_sblk_idx w.hdr idx) ib
      (sub64 idx (u64 (w.hdr.cparam.idx_blk_elmts
        + (w.hdr.sblk_info (H5EA__dblock_sblk_idx w.hdr idx)).start_idx)))

/-- The levels on the way to index `idx` that are undefined in `w`, from the
index block down: the blocks a write walk has to create. -/
def levels_undefined (w : World) (idx : Nat) : List BlockKind :=
  (if H5F_addr_defined w.hdr.idx_blk_addr then [] else [.iblock]) ++
  levels_in_iblock (!H5F_addr_defined w.hdr.idx_blk_addr) w idx w.hdr.idx_blk_addr

/-- The world `w'` holds the same file as `w`: header, blocks and allocator are
the same, and the fault schedule is the same with the clock not set back. -/
structure FileEq (w w' : World) : Prop where
  hdr : w'.hdr = w.hdr
  hdr_present : w'.hdr_present = w.hdr_present
  iblocks : w'.iblocks = w.iblocks
  sblocks : w'.sblocks = w.sblocks
  dblocks : w'.dblocks = w.dblocks
  dblk_pages : w'.dblk_pages = w.dblk_pages
  eoa : w'.eoa = w.eoa
  faults : w'.faults = w.faults
  clock : w.clock ≤ w'.clock

/-- The header fields the walk leaves alone: everything but the block
statistics, the index-block address and the file context. -/
structure HdrSame (h h' : H5EA_hdr_t) : Prop where
  addr : h'.addr = h.addr
  cparam : h'.cparam = h.cparam
  sblk_info : h'.sblk_info = h.sblk_info
  nsblks : h'.nsblks = h.nsblks
  dblk_page_nelmts : h'.dblk_page_nelmts = h.dblk_page_nelmts
  iblock_nsblks : h'.iblock_nsblks = h.iblock_nsblks
  sizeof_addr : h'.sizeof_addr = h.sizeof_addr
  arr_off_size : h'.arr_off_size = h.arr_off_size
  rc : h'.rc = h.rc
  file_rc : h'.file_rc = h.file_rc
  pending_delete : h'.pending_delete = h.pending_delete
  max_idx_set : h'.stats.max_idx_set = h.stats.max_idx_set

/-- What the part of the walk below the index block preserves. -/
structure BelowIblock (w w' : World) : Prop where
  hdr : HdrSame w.hdr w'.hdr
  idx_blk_addr : w'.hdr.idx_blk_addr = w.hdr.idx_blk_addr
  iblocks : ∀ a, (w.iblocks a).isSome = true → (w'.iblocks a).isSome = true
  elmts : ∀ a, (w'.iblk a).elmts = (w.iblk a).elmts

/-- What the part of the walk below the super block preserves. -/
structure BelowSblock (w w' : World) : Prop where
  hdr : HdrSame w.hdr w'.hdr
  idx_blk_addr : w'.hdr.idx_blk_addr = w.hdr.idx_blk_addr
  iblocks : w'.iblocks = w.iblocks
  sblocks : ∀ a, (w.sblocks a).isSome = true → (w'.sblocks a).isSome = true

/-- What the part of the walk below a data-block slot of the super block
preserves. -/
structure BelowSlot (w w' : World) : Prop where
  hdr : w'.hdr = w.hdr
  iblocks : w'.iblocks = w.iblocks
  sblocks : ∀ a, (w.sblocks a).isSome = true → (w'.sblocks a).isSome = true
  dblk_addrs : ∀ a, (w'.sblk a).dblk_addrs = (w.sblk a).dblk_addrs
  dblocks : w'.dblocks = w.dblocks

/-- The header fields the addressing reads: the creation parameters and the
geometry derived from them. -/
structure HdrGeom (h h' : H5EA_hdr_t) : Prop where
  cparam : h'.cparam = h.cparam
  sblk_info : h'.sblk_info = h.sblk_info
  nsblks : h'.nsblks = h.nsblks
  dblk_page_nelmts : h'.dblk_page_nelmts = h.dblk_page_nelmts
  iblock_nsblks : h'.iblock_nsblks = h.iblock_nsblks
  sizeof_addr : h'.sizeof_addr = h.sizeof_addr
  arr_off_size : h'.arr_off_size = h.arr_off_size

/-- The worlds `w` and `w'` hold the same tree of blocks: the same geometry,
the same address slots and page-init bits, and blocks at the same addresses;
the elements in the blocks and the statistics may differ. -/
structure SameTree (w w' : World) : Prop where
  hdr : HdrGeom w.hdr w'.hdr
  idx_blk_addr : w'.hdr.idx_blk_addr = w.hdr.idx_blk_addr
  iblocks : ∀ a, (w'.iblocks a).isSome = (w.iblocks a).isSome
  dblk_addrs : ∀ a, (w'.iblk a).dblk_addrs = (w.iblk a).dblk_addrs
  sblk_addrs : ∀ a, (w'.iblk a).sblk_addrs = (w.iblk a).sblk_addrs
  sblocks : w'.sblocks = w.sblocks
  dblocks : ∀ a, (w'.dblocks a).isSome = (w.dblocks a).isSome
  dblk_pages : ∀ a, (w'.dblk_pages a).isSome = (w.dblk_pages a).isSome
  eoa : w'.eoa = w.eoa

/-- The block `t` is in the store of its kind. -/
def World.present (w : World) (t : Thing) : Bool :=
  match t.kind with
  | .iblock => (w.iblocks t.addr).isSome
  | .dblock => (w.dblocks t.addr).isSome
  | .dblk_page => (w.dblk_pages t.addr).isSome
  | .sblock => (w.sblocks t.addr).isSome
  | .hdr => w.hdr_present && t.addr == w.hdr.addr

/-- The block `t` has an element buffer. -/
def Thing.hasElmts (t : Thing) : Bool :=
  match t.kind with
  | .iblock => true
  | .dblock => true
  | .dblk_page => true
  | _ => false

/-- The worlds `w` and `w'` hold the same blocks with the same contents, and
the same geometry. -/
structure SameStore (w w' : World) : Prop where
  hdr : HdrGeom w.hdr w'.hdr
  idx_blk_addr : w'.hdr.idx_blk_addr = w.hdr.idx_blk_addr
  iblocks : w'.iblocks = w.iblocks
  sblocks : w'.sblocks = w.sblocks
  dblocks : w'.dblocks = w.dblocks
  dblk_pages : w'.dblk_pages = w.dblk_pages
  eoa : w'.eoa = w.eoa

/-- The kinds of the blocks the creation routines were called for, in the order
of the calls. -/
def creates (evs : List Event) : List BlockKind := evs.filterMap Event.createKind

/-- Levels to create below a data-block slot of the super block `sb`: the page,
when the data blocks are paged and its page-init bit is clear. -/
def levels_page (w : World) (sb : H5EA_sblock_t) (dblk_idx elmt_idx : Nat) : List BlockKind :=
  if sb.dblk_npages ≠ 0 ∧ (w.sblk sb.addr).page_init
      (u64 (dblk_idx * sb.dblk_npages + elmt_idx / w.hdr.dblk_page_nelmts)) = false
  then [.dblk_page] else []

/-- How the creation calls of a part of a write walk from `w` to `w'` with
return value `ret` relate to the undefined levels `lv` on its way: the calls are
for the first of these levels in their order, for all of them when the walk
succeeds, in which case every creation succeeded; and with no undefined level
the file is left as it is. -/
def WalkCreates (lv : List BlockKind) (w w' : World) (ret : Int) : Prop :=
  ∃ evs, w'.trace = w.trace ++ evs ∧ creates evs <+: lv ∧
    (0 ≤ ret → creates evs = lv ∧ ∀ e ∈ evs, e.createKind.isSome = true → e.ok = true) ∧
    (lv = [] → FileEq w w')

/-! ## Places: where the addressing puts an index

The addressing of an index splits in a part that reads the header geometry only
(`place`) and a part that reads the address slots of the file (`resolve_at`). -/

/-- The way to an element: position `k` of the index block, position `k` of the
data block in slot `di` of the index block, or position `k` of the data block in
slot `di` of the super block in slot `off` of the index block. -/
inductive Place where
  | direct (k : Nat)
  | viaIblock (di k : Nat)
  | viaSblock (off di k : Nat)
  deriving DecidableEq, Repr

/-- The place of the index `idx`: the arithmetic of lines 404-438, 475-479 and
503-511 of `H5EA__lookup_elmt`. -/
def place (hdr : H5EA_hdr_t) (idx : Nat) : Place :=
  if idx < hdr.cparam.idx_blk_elmts then .direct idx
  else if H5EA__dblock_sblk_idx hdr idx < hdr.iblock_nsblks then
    .viaIblock
      (u64 ((hdr.sblk_info (H5EA__dblock_sblk_idx hdr idx)).start_dblk
        + sub64 idx (u64 (hdr.cparam.idx_blk_elmts
            + (hdr.sblk_info (H5EA__dblock_sblk_idx hdr idx)).start_idx))
          / (hdr.sblk_info (H5EA__dblock_sblk_idx hdr idx)).dblk_nelmts))
      (sub64 idx (u64 (hdr.cparam.idx_blk_elmts
            + (hdr.sblk_info (H5EA__dblock_sblk_idx hdr idx)).start_idx))
          % (hdr.sblk_info (H5EA__dblock_sblk_idx hdr idx)).dblk_nelmts)
  else
    .viaSblock (H5EA__dblock_sblk_idx hdr idx - hdr.iblock_nsblks)
      (u64 (sub64 idx (u64 (hdr.cparam.idx_blk_elmts
            + (hdr.sblk_info (H5EA__dblock_sblk_idx hdr idx)).start_idx))
          / (hdr.sblk_info (H5EA__dblock_sblk_idx hdr idx)).dblk_nelmts))
      (sub64 idx (u64 (hdr.cparam.idx_blk_elmts
            + (hdr.sblk_info (H5EA__dblock_sblk_idx hdr idx)).start_idx))
          % (hdr.sblk_info (H5EA__dblock_sblk_idx hdr idx)).dblk_nelmts)

/-- The index block the header points to. -/
def World.IB (w : World) : H5EA_iblock_t := w.iblk w.hdr.idx_blk_addr

/-- What the addressing finds at a place: `resolve` along the place. -/
def resolve_at (w : World) : Place → Resolved
  | .direct k =>
    if H5F_addr_defined w.hdr.idx_blk_addr = false then .absent
    else if (w.iblocks w.hdr.idx_blk_addr).isSome then .found ⟨.iblock, w.hdr.idx_blk_addr⟩ k
    else .missing
  | .viaIblock di k =>
    if H5F_addr_defined w.hdr.idx_blk_addr = false then .absent
    else if (w.iblocks w.hdr.idx_blk_addr).isSome then
      if H5F_addr_defined (w.IB.dblk_addrs di) = false then .absent
      else if (w.dblocks (w.IB.dblk_addrs di)).isSome then .found ⟨.dblock, w.IB.dblk_addrs di⟩ k
      else .missing
    else .missing
  | .viaSblock off di k =>
    if H5F_addr_defined w.hdr.idx_blk_addr = false then .absent
    else if (w.iblocks w.hdr.idx_blk_addr).isSome then
      if H5F_addr_defined (w.IB.sblk_addrs off) = false then .absent
      else if (w.sblocks (w.IB.sblk_addrs off)).isSome then
        if H5F_addr_defined ((w.sblk (w.IB.sblk_addrs off)).dblk_addrs di) = false then .absent
        else
          resolve_sblock_dblock w
            (sblock_of w.hdr (w.IB.sblk_addrs off) (off + w.hdr.iblock_nsblks)) di k
      else .missing
    else .missing

/-- The element at a place as a read in a file without failures returns it: the
element of the block the addressing finds, the fill value where a level is
undefined, nothing where a defined address holds no block. -/
def cell (w : World) (p : Place) : Option Nat :=
  match resolve_at w p with
  | .found t k => some (elmt_read t k w)
  | .absent => some w.hdr.cparam.cls.fill
  | .missing => none

/-- The header is as header initialisation leaves it for valid creation
parameters: the geometry table is the computed one, the minimum data-block size
and the page size are powers of two, and the index range is at most 64 bits. -/
structure GoodHdr (hdr : H5EA_hdr_t) : Prop where
  table : hdr.sblk_info = sblk_info_init hdr.cparam.data_blk_min_elmts
  min_pow : ∃ a, hdr.cparam.data_blk_min_elmts = 2 ^ a ∧ a ≤ hdr.cparam.max_nelmts_bits ∧ a < 64
  bits64 : hdr.cparam.max_nelmts_bits ≤ 64
  nsblks : hdr.nsblks =
    1 + (hdr.cparam.max_nelmts_bits - H5VM_log2_gen hdr.cparam.data_blk_min_elmts)
  page_pow : ∃ b, hdr.dblk_page_nelmts = 2 ^ b

/-- The index is within the range of the array, `2^max_nelmts_bits` elements. -/
def InRange (hdr : H5EA_hdr_t) (idx : Nat) : Prop := idx < 2 ^ hdr.cparam.max_nelmts_bits

/-- The place is one of the array: the super block is one of the geometry table
and the data block and the element are within the super block. -/
def PlaceOK (hdr : H5EA_hdr_t) : Place → Prop
  | .direct _ => True
  | .viaIblock _ _ => True
  | .viaSblock off di k =>
    off + hdr.iblock_nsblks < hdr.nsblks ∧
    di < (hdr.sblk_info (off + hdr.iblock_nsblks)).ndblks ∧
    k < (hdr.sblk_info (off + hdr.iblock_nsblks)).dblk_nelmts

/-- What the geometry of a good header says about an index beyond the index
block: the super-block index `s` of the closed form is the super block that
covers the index. -/
structure Covered (hdr : H5EA_hdr_t) (idx s e : Nat) : Prop where
  s_eq : H5EA__dblock_sblk_idx hdr idx = s
  e_eq : sub64 idx (u64 (hdr.cparam.idx_blk_elmts + (hdr.sblk_info s).start_idx)) = e
  idx_eq : idx = hdr.cparam.idx_blk_elmts + (hdr.sblk_info s).start_idx + e
  e_lt : e < (hdr.sblk_info s).ndblks * (hdr.sblk_info s).dblk_nelmts
  s_lt : s < hdr.nsblks
  s_64 : s < 64
  nelmts_pos : 0 < (hdr.sblk_info s).dblk_nelmts

/-! ## Well-formed files -/

/-- A data-block slot of the tree: slot `di` of the index block, or slot `di` of
the super block in slot `off` of the index block. -/
inductive Slot where
  | i (di : Nat)
  | s (off di : Nat)
  deriving DecidableEq, Repr

/-- The address in a data-block slot. -/
def slot_addr (w : World) : Slot → Nat
  | .i di => w.IB.dblk_addrs di
  | .s off di => (w.sblk (w.IB.sblk_addrs off)).dblk_addrs di

/-- The slot is reachable from the index block and holds a defined address. -/
def slot_live (w : World) : Slot → Prop
  | .i di => H5F_addr_defined (w.IB.dblk_addrs di) = true
  | .s off di =>
    H5F_addr_defined (w.IB.sblk_addrs off) = true ∧
    H5F_addr_defined ((w.sblk (w.IB.sblk_addrs off)).dblk_addrs di) = true

/-- The part of the extent of the data block in a slot that has to be its own:
the whole extent of a data block below a super block, whose pages lie in it, and
the first byte of a data block below the index block. -/
def slot_size (hdr : H5EA_hdr_t) : Slot → Nat
  | .i _ => 1
  | .s off _ => H5EA_DBLOCK_SIZE hdr (hdr.sblk_info (off + hdr.iblock_nsblks)).dblk_nelmts

/-- Address of page `p` of the data block at `d` (line 568 of the walk). -/
def page_addr (hdr : H5EA_hdr_t) (d p : Nat) : Nat :=
  u64 (d + H5EA_DBLOCK_PREFIX_SIZE hdr + p * H5EA_DBLK_PAGE_SIZE hdr)

/-- Number of pages of the data blocks of the super block in slot `off`. -/
def npages_of (hdr : H5EA_hdr_t) (off : Nat) : Nat :=
  dblk_npages hdr (hdr.sblk_info (off + hdr.iblock_nsblks)).dblk_nelmts

/-- Index of the page-init bit of page `p` of the data block in slot `di` (line
567 of the walk). -/
def page_bit (hdr : H5EA_hdr_t) (off di p : Nat) : Nat :=
  u64 (di * npages_of hdr off + p)

/-- The file holds a well-formed array: the header is good, a defined address
holds a block of its kind below the end of the allocated space, distinct slots
hold distinct super blocks and data blocks with disjoint extents, and a set
page-init bit belongs to a defined data block and an existing page.  This is
what the operations on a new array keep. -/
structure WF (w : World) : Prop where
  good : GoodHdr w.hdr
  eoa : w.eoa ≤ HADDR_UNDEF
  iblock : H5F_addr_defined w.hdr.idx_blk_addr = true →
    (w.iblocks w.hdr.idx_blk_addr).isSome = true
  sblk : H5F_addr_defined w.hdr.idx_blk_addr = true → ∀ off,
    H5F_addr_defined (w.IB.sblk_addrs off) = true →
    (w.sblocks (w.IB.sblk_addrs off)).isSome = true ∧ w.IB.sblk_addrs off < w.eoa
  sblk_inj : H5F_addr_defined w.hdr.idx_blk_addr = true → ∀ off off',
    H5F_addr_defined (w.IB.sblk_addrs off) = true →
    w.IB.sblk_addrs off' = w.IB.sblk_addrs off → off' = off
  dblk : H5F_addr_defined w.hdr.idx_blk_addr = true → ∀ sl, slot_live w sl →
    (w.dblocks (slot_addr w sl)).isSome = true ∧ slot_addr w sl + slot_size w.hdr sl ≤ w.eoa
  disjoint : H5F_addr_defined w.hdr.idx_blk_addr = true → ∀ sl sl',
    slot_live w sl → slot_live w sl' → sl ≠ sl' →
    slot_addr w sl + slot_size w.hdr sl ≤ slot_addr w sl' ∨
    slot_addr w sl' + slot_size w.hdr sl' ≤ slot_addr w sl
  page : H5F_addr_defined w.hdr.idx_blk_addr = true → ∀ off di p,
    H5F_addr_defined (w.IB.sblk_addrs off) = true →
    di < (w.hdr.sblk_info (off + w.hdr.iblock_nsblks)).ndblks → p < npages_of w.hdr off →
    (w.sblk (w.IB.sblk_addrs off)).page_init (page_bit w.hdr off di p) = true →
    H5F_addr_defined ((w.sblk (w.IB.sblk_addrs off)).dblk_addrs di) = true ∧
    (w.dblk_pages (page_addr w.hdr ((w.sblk (w.IB.sblk_addrs off)).dblk_addrs di) p)).isSome
      = true

/-- The step from `w` to `w'` keeps a well-formed file well-formed and keeps the
element at every place of the array; the geometry and a defined index-block
address stay. -/
structure Keeps (w w' : World) : Prop where
  geom : HdrGeom w.hdr w'.hdr
  iba : H5F_addr_defined w.hdr.idx_blk_addr = true → w'.hdr.idx_blk_addr = w.hdr.idx_blk_addr
  wf : WF w → WF w'
  cell : WF w → ∀ q, PlaceOK w.hdr q → cell w' q = cell w q

/-! ## Histories of an array -/

/-- An operation on the elements of an array: a set of an element or a get. -/
inductive Op where
  | set (idx elmt : Nat)
  | get (idx : Nat)
  deriving DecidableEq, Repr

/-- The file after the operation, whatever its outcome. -/
def Op.run (ea : H5EA_t) (w : World) : Op → World
  | .set idx elmt => (H5EA_set ea idx elmt w).2
  | .get idx => (H5EA_get ea idx w).2.2

/-- The file after the operations of a history, in their order. -/
def run_ops (ea : H5EA_t) (ops : List Op) (w : World) : World := ops.foldl (Op.run ea) w

/-- The operation is on an index of the array: a get, or a set of an index
within the range of the array whose successor is a 64-bit value. -/
def Op.valid (hdr : H5EA_hdr_t) : Op → Prop
  | .set j _ => InRange hdr j ∧ j + 1 < 2 ^ 64
  | .get _ => True

/-- The operation does not write the index `idx`: it is a get, or a set of
another index of the array whose successor is a 64-bit value. -/
def Op.spares (hdr : H5EA_hdr_t) (idx : Nat) : Op → Prop
  | .set j _ => j ≠ idx ∧ InRange hdr j ∧ j + 1 < 2 ^ 64
  | .get _ => True

/-! ## Concrete arrays -/

/-- Creation parameters of a small array of 4-byte elements with fill value 77:
4 elements in the index block, data blocks of at least 4 elements, 2 data-block
pointers per super block at least, pages of 4 elements, at most `2^32`
elements. -/
def smallParams : H5EA_create_t := ⟨⟨4, 77⟩, 4, 32, 4, 4, 2, 2⟩

/-- The same parameters with the largest index range, `2^64` elements. -/
def wideParams : H5EA_create_t := ⟨⟨4, 77⟩, 4, 64, 4, 4, 2, 2⟩

/-- A file with a new small array at address 100 in which no call fails. -/
def smallWorld : World := World.init smallParams 100 1000 (fun _ => false)

/-- A file with a new wide array at address 100 in which no call fails. -/
def wideWorld : World := World.init wideParams 100 1000 (fun _ => false)

/-- A file with a new small array at address 100 in which the fourth fallible
call fails and no other. -/
def faultyWorld : World := World.init smallParams 100 1000 (fun n => n == 3)

/-- An open handle on the array at address 100. -/
def handle100 : H5EA_t := ⟨some 100, some 1⟩

/-! ## A pending deletion -/

/-- A file in which the deletion of the array at `addr` is pending or done: no
later call fails, `pending_delete` is set, `k` file-level references are left,
and the header is in the file exactly while references are left. -/
structure Pending (addr k : Nat) (w : World) : Prop where
  pd_quiet : w.quiet
  pd_flag : w.hdr.pending_delete = true
  pd_addr : w.hdr.addr = addr
  pd_rc : w.hdr.file_rc = k
  pd_lt : k < 2 ^ 64
  pd_present : w.hdr_present = decide (0 < k)

/-- The small array after two opens, from files 1 and 2, and a delete: two
handles are open and the deletion is pending. -/
def twoHandles : World :=
  (H5EA_delete 1 100 (H5EA_open 2 100 (H5EA_open 1 100 smallWorld).2).2).2

/-! ## The statements of the walk, one at a time

The body of `H5EA__lookup_elmt` between its entry and `CATCH` is a sequence of
check-and-create statements and protects.  `WalkStep` lists them, each as a
step from the locals and the file before the statement to those after it, with
what the code has established when it reaches the statement; `WalkSteps` is a
run of such statements. -/

/-- One statement of the body of `H5EA__lookup_elmt` for the index `idx`, whose
super-block index is `s` and whose offset in the super block is `e`, in an
array with the geometry of the header `h0`. -/
inductive WalkStep (acc idx s e : Nat) (h0 : H5EA_hdr_t) :
    LookupLocals → World → LookupLocals → World → Prop
  /-- Lines 380-395: the index-block address is checked, the index block
  created. -/
  | ensure_iblock (l : LookupLocals) (w : World) (hi : l.iblock = none)
      (hsb : l.sblock = none) (ht : l.thing = none) :
      WalkStep acc idx s e h0 l w (lookup_ensure_iblock acc l w).locals
        (lookup_ensure_iblock acc l w).world
  /-- Lines 398-399: the protect of the index block fails. -/
  | iblock_protect_fail (l : LookupLocals) (w : World) (hi : l.iblock = none)
      (hsb : l.sblock = none) (ht : l.thing = none)
      (hd : H5F_addr_defined w.hdr.idx_blk_addr = true)
      (hp : (H5EA__iblock_protect acc w).1 = none) :
      WalkStep acc idx s e h0 l w { l with ret_value := FAIL }
        ((H5EA__iblock_protect acc w).2.throw .CANTPROTECT)
  /-- Line 398: the index block is protected. -/
  | iblock_protect_ok (l : LookupLocals) (w : World) (ib : Nat) (hi : l.iblock = none)
      (hsb : l.sblock = none) (ht : l.thing = none)
      (hd : H5F_addr_defined w.hdr.idx_blk_addr = true)
      (hp : (H5EA__iblock_protect acc w).1 = some ib) :
      WalkStep acc idx s e h0 l w { l with iblock := some ib } (H5EA__iblock_protect acc w).2
  /-- Lines 404-411: the element is in the index block. -/
  | direct (l : LookupLocals) (w : World) (ib : Nat) (hi : l.iblock = some ib)
      (hsb : l.sblock = none) (ht : l.thing = none)
      (hidx : idx < h0.cparam.idx_blk_elmts) :
      WalkStep acc idx s e h0 l w
        { l with
            thing := some ⟨.iblock, ib⟩
            thing_elmt_buf := some ⟨.iblock, ib⟩
            thing_elmt_idx := idx
            thing_unprot_func := some .iblock } w
  /-- Lines 441-460: the data-block slot of the index block is checked, the
  data block created. -/
  | ensure_iblock_dblock (l : LookupLocals) (w : World) (ib : Nat) (hi : l.iblock = some ib)
      (hsb : l.sblock = none) (ht : l.thing = none)
      (hidx : ¬ idx < h0.cparam.idx_blk_elmts) (hs : s < h0.iblock_nsblks) :
      WalkStep acc idx s e h0 l w
        (lookup_ensure_iblock_dblock acc s ib
          (u64 ((h0.sblk_info s).start_dblk + e / (h0.sblk_info s).dblk_nelmts)) l w).locals
        (lookup_ensure_iblock_dblock acc s ib
          (u64 ((h0.sblk_info s).start_dblk + e / (h0.sblk_info s).dblk_nelmts)) l w).world
  /-- Lines 462-473: the data block in the slot of the index block is
  protected. -/
  | iblock_dblock (l : LookupLocals) (w : World) (ib : Nat) (hi : l.iblock = some ib)
      (hsb : l.sblock = none) (ht : l.thing = none)
      (hidx : ¬ idx < h0.cparam.idx_blk_elmts) (hs : s < h0.iblock_nsblks)
      (hd : H5F_addr_defined ((w.iblk ib).dblk_addrs
        (u64 ((h0.sblk_info s).start_dblk + e / (h0.sblk_info s).dblk_nelmts))) = true) :
      WalkStep acc idx s e h0 l w
        (lookup_dblock acc ((w.iblk ib).dblk_addrs
          (u64 ((h0.sblk_info s).start_dblk + e / (h0.sblk_info s).dblk_nelmts)))
          (e % (h0.sblk_info s).dblk_nelmts) l w).1
        (lookup_dblock acc ((w.iblk ib).dblk_addrs
          (u64 ((h0.sblk_info s).start_dblk + e / (h0.sblk_info s).dblk_nelmts)))
          (e % (h0.sblk_info s).dblk_nelmts) l w).2
  /-- Lines 481-501: the super-block slot of the index block is checked, the
  super block created. -/
  | ensure_sblock (l : LookupLocals) (w : World) (ib : Nat) (hi : l.iblock = some ib)
      (hsb : l.sblock = none) (ht : l.thing = none)
      (hidx : ¬ idx < h0.cparam.idx_blk_elmts) (hs : ¬ s < h0.iblock_nsblks) :
      WalkStep acc idx s e h0 l w
        (lookup_ensure_sblock acc s ib (s - h0.iblock_nsblks) l w).locals
        (lookup_ensure_sblock acc s ib (s - h0.iblock_nsblks) l w).world
  /-- Lines 504-505: the protect of the super block fails. -/
  | sblock_protect_fail (l : LookupLocals) (w : World) (ib : Nat) (hi : l.iblock = some ib)
      (hsb : l.sblock = none) (ht : l.thing = none)
      (hidx : ¬ idx < h0.cparam.idx_blk_elmts) (hs : ¬ s < h0.iblock_nsblks)
      (hd : H5F_addr_defined ((w.iblk ib).sblk_addrs (s - h0.iblock_nsblks)) = true)
      (hp : (H5EA__sblock_protect ((w.iblk ib).sblk_addrs (s - h0.iblock_nsblks))
        s acc w).1 = none) :
      WalkStep acc idx s e h0 l w { l with ret_value := FAIL }
        ((H5EA__sblock_protect ((w.iblk ib).sblk_addrs (s - h0.iblock_nsblks))
          s acc w).2.throw .CANTPROTECT)
  /-- Lines 504-512: the super block is protected and the data-block index
  asserted. -/
  | sblock_protect_ok (l : LookupLocals) (w : World) (ib : Nat) (sb : H5EA_sblock_t)
      (hi : l.iblock = some ib) (hsb : l.sblock = none) (ht : l.thing = none)
      (hidx : ¬ idx < h0.cparam.idx_blk_elmts) (hs : ¬ s < h0.iblock_nsblks)
      (hd : H5F_addr_defined ((w.iblk ib).sblk_addrs (s - h0.iblock_nsblks)) = true)
      (hp : (H5EA__sblock_protect ((w.iblk ib).sblk_addrs (s - h0.iblock_nsblks))
        s acc w).1 = some sb) :
      WalkStep acc idx s e h0 l w { l with sblock := some sb }
        ((H5EA__sblock_protect ((w.iblk ib).sblk_addrs (s - h0.iblock_nsblks))
          s acc w).2.HDassert (decide (u64 (e / sb.dblk_nelmts) < sb.ndblks)))
  /-- Lines 514-533: the data-block slot of the super block is checked, the
  data block created. -/
  | ensure_sblock_dblock (l : LookupLocals) (w : World) (sb : H5EA_sblock_t)
      (hsb : l.sblock = some sb) (ht : l.thing = none) :
      WalkStep acc idx s e h0 l w
        (lookup_ensure_sblock_dblock acc s sb (u64 (e / sb.dblk_nelmts)) l w).locals
        (lookup_ensure_sblock_dblock acc s sb (u64 (e / sb.dblk_nelmts)) l w).world
  /-- Lines 601-609: the data block in the slot of the super block is
  protected. -/
  | sblock_dblock (l : LookupLocals) (w : World) (sb : H5EA_sblock_t)
      (hsb : l.sblock = some sb) (ht : l.thing = none) (hnp : sb.dblk_npages = 0)
      (hd : H5F_addr_defined
        ((w.sblk sb.addr).dblk_addrs (u64 (e / sb.dblk_nelmts))) = true) :
      WalkStep acc idx s e h0 l w
        (lookup_dblock acc ((w.sblk sb.addr).dblk_addrs (u64 (e / sb.dblk_nelmts)))
          (e % sb.dblk_nelmts) l w).1
        (lookup_dblock acc ((w.sblk sb.addr).dblk_addrs (u64 (e / sb.dblk_nelmts)))
          (e % sb.dblk_nelmts) l w).2
  /-- Lines 574-588: the page-init bit is checked, the page created. -/
  | ensure_page (l : LookupLocals) (w : World) (sb : H5EA_sblock_t)
      (hsb : l.sblock = some sb) (ht : l.thing = none) (hnp : sb.dblk_npages ≠ 0)
      (hd : H5F_addr_defined
        ((w.sblk sb.addr).dblk_addrs (u64 (e / sb.dblk_nelmts))) = true) :
      WalkStep acc idx s e h0 l w
        (lookup_ensure_page acc sb
          (u64 (u64 (e / sb.dblk_nelmts) * sb.dblk_npages
            + e % sb.dblk_nelmts / w.hdr.dblk_page_nelmts))
          (u64 ((w.sblk sb.addr).dblk_addrs (u64 (e / sb.dblk_nelmts))
            + H5EA_DBLOCK_PREFIX_SIZE w.hdr
            + e % sb.dblk_nelmts / w.hdr.dblk_page_nelmts * sb.dblk_page_size)) l w).locals
        (lookup_ensure_page acc sb
          (u64 (u64 (e / sb.dblk_nelmts) * sb.dblk_npages
            + e % sb.dblk_nelmts / w.hdr.dblk_page_nelmts))
          (u64 ((w.sblk sb.addr).dblk_addrs (u64 (e / sb.dblk_nelmts))
            + H5EA_DBLOCK_PREFIX_SIZE w.hdr
            + e % sb.dblk_nelmts / w.hdr.dblk_page_nelmts * sb.dblk_page_size)) l w).world
  /-- Lines 590-598: the page is protected. -/
  | page (l : LookupLocals) (w : World) (sb : H5EA_sblock_t)
      (hsb : l.sblock = some sb) (ht : l.thing = none) (hnp : sb.dblk_npages ≠ 0)
      (hd : H5F_addr_defined
        ((w.sblk sb.addr).dblk_addrs (u64 (e / sb.dblk_nelmts))) = true)
      (hb : (w.sblk sb.addr).page_init
        (u64 (u64 (e / sb.dblk_nelmts) * sb.dblk_npages
          + e % sb.dblk_nelmts / w.hdr.dblk_page_nelmts)) = true) :
      WalkStep acc idx s e h0 l w
        (lookup_page acc
          (u64 ((w.sblk sb.addr).dblk_addrs (u64 (e / sb.dblk_nelmts))
            + H5EA_DBLOCK_PREFIX_SIZE w.hdr
            + e % sb.dblk_nelmts / w.hdr.dblk_page_nelmts * sb.dblk_page_size))
          (e % sb.dblk_nelmts % w.hdr.dblk_page_nelmts) l w).1
        (lookup_page acc
          (u64 ((w.sblk sb.addr).dblk_addrs (u64 (e / sb.dblk_nelmts))
            + H5EA_DBLOCK_PREFIX_SIZE w.hdr
            + e % sb.dblk_nelmts / w.hdr.dblk_page_nelmts * sb.dblk_page_size))
          (e % sb.dblk_nelmts % w.hdr.dblk_page_nelmts) l w).2

/-- A run of statements of the body of `H5EA__lookup_elmt`. -/
inductive WalkSteps (acc idx s e : Nat) (h0 : H5EA_hdr_t) :
    LookupLocals → World → LookupLocals → World → Prop
  | refl (l : LookupLocals) (w : World) : WalkSteps acc idx s e h0 l w l w
  | tail {l : LookupLocals} {w : World} {l1 : LookupLocals} {w1 : World}
      {l2 : LookupLocals} {w2 : World} (h1 : WalkSteps acc idx s e h0 l w l1 w1)
      (h2 : WalkStep acc idx s e h0 l1 w1 l2 w2) : WalkSteps acc idx s e h0 l w l2 w2

/-- A successful call of the creation routine of the index block. -/
def Event.createdIblock : Event → Bool
  | .iblock_create _ ok => ok
  | _ => false

/-- A successful call of a creation routine that reports changed statistics
through `stats_changed`: the creation of an index block, a super block or a
data block (the creation of a page takes no `stats_changed`). -/
def Event.reportsStats : Event → Bool
  | .iblock_create _ ok => ok
  | .sblock_create _ _ _ ok => ok
  | .dblock_create _ _ _ _ ok => ok
  | _ => false

/-- The parent a creation routine is called with is of the kind the walk passes:
the index block for a super block, the index block or a super block for a data
block, a super block for a page. -/
def Event.parentKindOk : Event → Bool
  | .sblock_create _ p _ _ => p.kind == .iblock
  | .dblock_create _ p _ _ _ => p.kind == .iblock || p.kind == .sblock
  | .dblk_page_create _ p _ => p.kind == .sblock
  | _ => true

/-- Creation parameters of a small array with pages of 32 elements, so that the
data blocks of the first super blocks are not paged. -/
def roomyParams : H5EA_create_t := ⟨⟨4, 77⟩, 4, 32, 4, 4, 2, 5⟩

/-- A file with a new array with these parameters at address 100 in which no
call fails. -/
def roomyWorld : World := World.init roomyParams 100 1000 (fun _ => false)

/-- The place of the index `idx` in terms of its super-block index `s` and its
offset `e` in the super block: `place` with the two numbers as parameters. -/
def walk_place (idx s e : Nat) (h0 : H5EA_hdr_t) : Place :=
  if idx < h0.cparam.idx_blk_elmts then .direct idx
  else if s < h0.iblock_nsblks then
    .viaIblock (u64 ((h0.sblk_info s).start_dblk + e / (h0.sblk_info s).dblk_nelmts))
      (e % (h0.sblk_info s).dblk_nelmts)
  else
    .viaSblock (s - h0.iblock_nsblks) (u64 (e / (h0.sblk_info s).dblk_nelmts))
      (e % (h0.sblk_info s).dblk_nelmts)

/-- What the locals of the walk say about the file at any statement of the
body: the geometry is that of the header at entry; a protected index block is
the one the header points to; a protected super block is the one in the slot of
the index block for `s`; a thing that is set is what the addressing finds for
the index, and it is set with the blocks above it protected. -/
structure WalkAt (idx s e : Nat) (h0 : H5EA_hdr_t) (l : LookupLocals) (w : World) : Prop where
  geom : HdrGeom h0 w.hdr
  iblock : ∀ ib, l.iblock = some ib →
    ib = w.hdr.idx_blk_addr ∧ H5F_addr_defined ib = true ∧ (w.iblocks ib).isSome = true
  sblock : ∀ sb, l.sblock = some sb →
    sb = sblock_of h0 (w.IB.sblk_addrs (s - h0.iblock_nsblks)) s ∧
    H5F_addr_defined sb.addr = true ∧ (w.sblocks sb.addr).isSome = true ∧
    l.iblock = some w.hdr.idx_blk_addr ∧ ¬ idx < h0.cparam.idx_blk_elmts ∧
    ¬ s < h0.iblock_nsblks
  thing : ∀ t, l.thing = some t →
    resolve_at w (walk_place idx s e h0) = .found t l.thing_elmt_idx
  below : ∀ t, l.thing = some t → ¬ idx < h0.cparam.idx_blk_elmts →
    ¬ s < h0.iblock_nsblks → l.sblock ≠ none
  root : ∀ t, l.thing = some t → l.iblock = some w.hdr.idx_blk_addr

/-- The block a successful creation call made on the walk to the index `idx`
(super-block index `s`, offset `e` in the super block, geometry `h0`) is in the
slot of its parent in the file `w`: the index block in `hdr.idx_blk_addr`, a
super block in `iblock.sblk_addrs`, a data block in `iblock.dblk_addrs` under
the index block or in `sblock.dblk_addrs` under the super block of the index,
and the page-init bit of a page is set in that super block.  The slot holds
a defined address and the parent named in the call is the block the slot
belongs to.  Nothing is said of a call that failed or that creates nothing. -/
def Event.storedAt (idx s e : Nat) (h0 : H5EA_hdr_t) (w : World) : Event → Prop
  | .iblock_create a true => w.hdr.idx_blk_addr = a ∧ H5F_addr_defined a = true
  | .sblock_create a p _ true =>
    H5F_addr_defined w.hdr.idx_blk_addr = true ∧ ¬ idx < h0.cparam.idx_blk_elmts ∧
    ¬ s < h0.iblock_nsblks ∧ p = ⟨.iblock, w.hdr.idx_blk_addr⟩ ∧
    w.IB.sblk_addrs (s - h0.iblock_nsblks) = a ∧ H5F_addr_defined a = true
  | .dblock_create a p _ _ true =>
    H5F_addr_defined w.hdr.idx_blk_addr = true ∧ ¬ idx < h0.cparam.idx_blk_elmts ∧
    H5F_addr_defined a = true ∧
    if s < h0.iblock_nsblks then
      p = ⟨.iblock, w.hdr.idx_blk_addr⟩ ∧
      w.IB.dblk_addrs (u64 ((h0.sblk_info s).start_dblk + e / (h0.sblk_info s).dblk_nelmts)) = a
    else
      H5F_addr_defined (w.IB.sblk_addrs (s - h0.iblock_nsblks)) = true ∧
      p = ⟨.sblock, w.IB.sblk_addrs (s - h0.iblock_nsblks)⟩ ∧
      (w.sblk (w.IB.sblk_addrs (s - h0.iblock_nsblks))).dblk_addrs
        (u64 (e / (h0.sblk_info s).dblk_nelmts)) = a
  | .dblk_page_create _ p true =>
    H5F_addr_defined w.hdr.idx_blk_addr = true ∧ ¬ idx < h0.cparam.idx_blk_elmts ∧
    ¬ s < h0.iblock_nsblks ∧
    H5F_addr_defined (w.IB.sblk_addrs (s - h0.iblock_nsblks)) = true ∧
    p = ⟨.sblock, w.IB.sblk_addrs (s - h0.iblock_nsblks)⟩ ∧
    (w.sblk (w.IB.sblk_addrs (s - h0.iblock_nsblks))).page_init
      (u64 (u64 (e / (h0.sblk_info s).dblk_nelmts)
          * dblk_npages h0 (h0.sblk_info s).dblk_nelmts
        + e % (h0.sblk_info s).dblk_nelmts / h0.dblk_page_nelmts)) = true
  | _ => True

/-- Every outcome of a stage that checks and creates: the walk invariant holds,
the locals point to the same blocks, and `ret_value` is untouched when the walk
goes on. -/
def StagePost (t0 : List Event) (acc : Nat) (l : LookupLocals) (F : Flow) : Prop :=
  Walk t0 acc F.locals F.world ∧ SameBlocks l F.locals ∧
    (F.isNext = true → F.locals.ret_value = l.ret_value)

end H5EA

namespace H5FA

/-! # The fixed array of HDF5: metadata cache callbacks

A shallow embedding of `src/H5FAcache.c`: the callbacks that compute the size
of, serialize and deserialize the header, the data block and the data block
page of a fixed array.  An image is the list of its bytes.  The macros and
routines of the package header and of the file layer are not in the file and
are modelled from the specification and marked so; the metadata checksum, the
registry of element classes and the outcome of the fallible collaborators are
parameters, collected in `Env`. -/

/-! ## Constants and machine integers -/

/-- Modelled from the spec: the undefined address, all ones in 64 bits. -/
def HADDR_UNDEF : Nat := 2 ^ 64 - 1

/-- Modelled from the spec: the macro `H5F_addr_defined`. -/
def H5F_addr_defined (a : Nat) : Bool := a != HADDR_UNDEF

/-- Truncation to 64 bits (`size_t`, `hsize_t`, `haddr_t`). -/
def u64 (x : Nat) : Nat := x % 2 ^ 64

/-- Modelled from the spec: size of a block signature in bytes. -/
def H5_SIZEOF_MAGIC : Nat := 4

/-- Modelled from the spec: size of the metadata checksum in bytes. -/
def H5FA_SIZEOF_CHKSUM : Nat := 4

/-- Line 55: format version of the header. -/
def H5FA_HDR_VERSION : Nat := 0

/-- Line 56: format version of the data block. -/
def H5FA_DBLOCK_VERSION : Nat := 0

/-- Modelled from the spec: signature of the header, the ASCII tag `FAHD`. -/
def H5FA_HDR_MAGIC : List Nat := [70, 65, 72, 68]

/-- Modelled from the spec: signature of the data block, the ASCII tag `FADB`. -/
def H5FA_DBLOCK_MAGIC : List Nat := [70, 65, 68, 66]

/-- Minor error codes pushed by `H5E_THROW` in H5FAcache.c. -/
inductive H5E where
  | CANTALLOC
  | BADVALUE
  | VERSION
  | BADTYPE
  | CANTINIT
  | CANTFREE
  | CANTDECODE
  | CANTENCODE
  deriving DecidableEq, Repr

/-! ## Types -/

/-- What the callbacks read of the file `H5F_t`: the widths in bytes of an
encoded address and of an encoded length. -/
structure H5F_t where
  sizeof_addr : Nat
  sizeof_size : Nat
  deriving DecidableEq, Repr

/-- Element class `H5FA_class_t`: its id and the callbacks that convert
`nelmts` native elements to raw bytes and back (`none` for a negative return
value). -/
structure H5FA_class_t where
  id : Nat
  encode : Nat → List Nat → Option (List Nat)
  decode : Nat → List Nat → Option (List Nat)

/-- Creation parameters `H5FA_create_t`. -/
structure H5FA_create_t where
  cls : H5FA_class_t
  raw_elmt_size : Nat
  max_dblk_page_nelmts_bits : Nat
  nelmts : Nat

/-- Statistics `H5FA_stat_t`. -/
structure H5FA_stat_t where
  nelmts : Nat
  dblk_size : Nat

/-- Header `H5FA_hdr_t`. -/
structure H5FA_hdr_t where
  cparam : H5FA_create_t
  dblk_addr : Nat
  stats : H5FA_stat_t
  addr : Nat
  size : Nat
  f : H5F_t
  sizeof_addr : Nat
  sizeof_size : Nat

/-- Data block `H5FA_dblock_t`: the page-init bitmap as bytes, the native
elements. -/
structure H5FA_dblock_t where
  hdr : H5FA_hdr_t
  addr : Nat
  size : Nat
  npages : Nat
  dblk_page_init_size : Nat
  dblk_page_init : List Nat
  elmts : List Nat

/-- Data block page `H5FA_dblk_page_t`. -/
structure H5FA_dblk_page_t where
  hdr : H5FA_hdr_t
  addr : Nat
  size : Nat
  nelmts : Nat
  elmts : List Nat

/-- User data of the header callbacks, `H5FA_hdr_cache_ud_t`. -/
structure H5FA_hdr_cache_ud_t where
  f : H5F_t
  addr : Nat

/-- User data of the data block callbacks, `H5FA_dblock_cache_ud_t`. -/
structure H5FA_dblock_cache_ud_t where
  hdr : H5FA_hdr_t
  dblk_addr : Nat

/-- User data of the page callbacks, `H5FA_dblk_page_cache_ud_t`. -/
structure H5FA_dblk_page_cache_ud_t where
  hdr : H5FA_hdr_t
  nelmts : Nat
  dblk_page_addr : Nat

/-- What the callbacks take from outside the file: the metadata checksum
function, the registry of element classes `H5FA_client_class_g`, and whether
the allocation routines, `H5FA__hdr_init` and the destroy routines fail. -/
structure Env where
  checksum : List Nat → Nat
  classes : List H5FA_class_t
  alloc_fails : Bool
  init_fails : Bool
  dest_fails : Bool

/-! ## Bytes -/

/-- The byte at offset `p` of an image (0 past its end). -/
def byte (image : List Nat) (p : Nat) : Nat := image.getD p 0

/-- The `n` bytes at offset `p` of an image. -/
def bytes (image : List Nat) (p n : Nat) : List Nat := (image.drop p).take n

/-- Little-endian encoding of `v` in `n` bytes. -/
def encode_le (n v : Nat) : List Nat := (List.range n).map (fun j => v / 256 ^ j % 256)

/-- Little-endian value of a list of bytes. -/
def decode_le (bs : List Nat) : Nat := bs.foldr (fun b acc => b % 256 + 256 * acc) 0

/-- Modelled from the spec: the macro `UINT32ENCODE`. -/
def UINT32ENCODE (v : Nat) : List Nat := encode_le 4 v

/-- Modelled from the spec: the macro `UINT32DECODE` at offset `p`. -/
def UINT32DECODE (image : List Nat) (p : Nat) : Nat := decode_le (bytes image p 4)

/-- Modelled from the spec: the macro `H5F_ENCODE_LENGTH`, a length in the
file's size-of-length. -/
def H5F_ENCODE_LENGTH (f : H5F_t) (l : Nat) : List Nat := encode_le f.sizeof_size l

/-- Modelled from the spec: the macro `H5F_DECODE_LENGTH` at offset `p`. -/
def H5F_DECODE_LENGTH (f : H5F_t) (image : List Nat) (p : Nat) : Nat :=
  u64 (decode_le (bytes image p f.sizeof_size))

/-- Modelled from the spec: `H5F_addr_encode`, an address in the file's
size-of-address; the undefined address is all ones. -/
def H5F_addr_encode (f : H5F_t) (addr : Nat) : List Nat :=
  if H5F_addr_defined addr then encode_le f.sizeof_addr (u64 addr)
  else List.replicate f.sizeof_addr 255

/-- Modelled from the spec: `H5F_addr_decode` at offset `p`; all ones is the
undefined address. -/
def H5F_addr_decode (f : H5F_t) (image : List Nat) (p : Nat) : Nat :=
  if (bytes image p f.sizeof_addr).all (fun b => b == 255) then HADDR_UNDEF
  else u64 (decode_le (bytes image p f.sizeof_addr))

/-- Modelled from the spec: `H5_checksum_metadata`, the 32-bit metadata
checksum supplied by the file environment. -/
def H5_checksum_metadata (env : Env) (data : List Nat) : Nat := env.checksum data % 2 ^ 32

/-- The `n` bytes of the buffer a class `encode` callback writes to: the bytes
it wrote, a byte it left unwritten taken as 0. -/
def fit (n : Nat) (raw : List Nat) : List Nat := (raw ++ List.replicate n 0).take n

/-! ## Sizes (macros of the absent package header) -/

/-- Modelled from the spec: size of the metadata prefix, signature (4),
version (1), class id (1), and the checksum (4) when `c`. -/
def H5FA_METADATA_PREFIX_SIZE (c : Bool) : Nat := 4 + 1 + 1 + (if c then H5FA_SIZEOF_CHKSUM else 0)

/-- Modelled from the spec: size of the header image: prefix, element size (1),
page bits (1), element count, data block address. -/
def H5FA_HEADER_SIZE (sizeof_addr sizeof_size : Nat) : Nat :=
  H5FA_METADATA_PREFIX_SIZE true + 1 + 1 + sizeof_size + sizeof_addr

/-- Modelled from the spec: the macro `H5FA_HEADER_SIZE_HDR`. -/
def H5FA_HEADER_SIZE_HDR (hdr : H5FA_hdr_t) : Nat :=
  H5FA_HEADER_SIZE hdr.sizeof_addr hdr.sizeof_size

/-- Modelled from the spec: size of the prefix of a data block: metadata
prefix, owner header address, page-init bitmap. -/
def H5FA_DBLOCK_PREFIX_SIZE (d : H5FA_dblock_t) : Nat :=
  H5FA_METADATA_PREFIX_SIZE true + d.hdr.sizeof_addr + d.dblk_page_init_size

/-- Modelled from the spec: size of a page of `nelmts` elements, the elements
and a checksum. -/
def H5FA_DBLK_PAGE_SIZE (hdr : H5FA_hdr_t) (nelmts : Nat) : Nat :=
  nelmts * hdr.cparam.raw_elmt_size + H5FA_SIZEOF_CHKSUM

/-- Elements per data block page, `(size_t)1 << max_dblk_page_nelmts_bits`
(lines 278 and 484). -/
def dblk_page_nelmts (hdr : H5FA_hdr_t) : Nat := u64 (2 ^ hdr.cparam.max_dblk_page_nelmts_bits)

/-- Modelled from the spec: the macro `H5FA_DBLOCK_SIZE`, the on-disk extent
of a data block: prefix and elements when it is not paged, prefix and
`npages` pages when it is. -/
def H5FA_DBLOCK_SIZE (d : H5FA_dblock_t) : Nat :=
  if d.npages = 0 then H5FA_DBLOCK_PREFIX_SIZE d + d.hdr.cparam.nelmts * d.hdr.cparam.raw_elmt_size
  else H5FA_DBLOCK_PREFIX_SIZE d + d.npages * H5FA_DBLK_PAGE_SIZE d.hdr (dblk_page_nelmts d.hdr)

/-! ## Collaborators in other files -/

/-- Modelled from the spec: `H5FA__hdr_alloc`, a new header bound to the file
`f`; `none` when the allocation fails. -/
def H5FA__hdr_alloc (env : Env) (f : H5F_t) : Option H5FA_hdr_t :=
  if env.alloc_fails then none
  else some
    { cparam := ⟨⟨0, fun _ _ => none, fun _ _ => none⟩, 0, 0, 0⟩
      dblk_addr := HADDR_UNDEF
      stats := ⟨0, 0⟩
      addr := HADDR_UNDEF
      size := 0
      f := f
      sizeof_addr := f.sizeof_addr
      sizeof_size := f.sizeof_size }

/-- Modelled from the spec: `H5FA__hdr_init`, which sets the size of the
header and the element count of the statistics from the creation parameters;
`none` when it fails. -/
def H5FA__hdr_init (env : Env) (hdr : H5FA_hdr_t) : Option H5FA_hdr_t :=
  if env.init_fails then none
  else some
    { hdr with
      size := H5FA_HEADER_SIZE_HDR hdr
      stats := { hdr.stats with nelmts := hdr.cparam.nelmts } }

/-- The fake data block the callbacks set up to compute sizes (lines 271-282
and 472-488): the page count and the size of the page-init bitmap of the data
block of `hdr`, both 0 when the block is not paged. -/
def fake_dblock (hdr : H5FA_hdr_t) : H5FA_dblock_t :=
  if hdr.cparam.nelmts > dblk_page_nelmts hdr then
    { hdr := hdr, addr := 0, size := 0
      npages := u64 ((u64 (u64 (hdr.cparam.nelmts + dblk_page_nelmts hdr) + 2 ^ 64 - 1))
        / dblk_page_nelmts hdr)
      dblk_page_init_size :=
        (u64 ((u64 (u64 (hdr.cparam.nelmts + dblk_page_nelmts hdr) + 2 ^ 64 - 1))
          / dblk_page_nelmts hdr) + 7) / 8
      dblk_page_init := [], elmts := [] }
  else
    { hdr := hdr, addr := 0, size := 0, npages := 0, dblk_page_init_size := 0
      dblk_page_init := [], elmts := [] }

/-- Modelled from the spec: `H5FA__dblock_alloc`, a new data block of `hdr`
with the page count and bitmap size of lines 483-488 (which the file says are
extracted from it) and a clear bitmap; `none` when the allocation fails. -/
def H5FA__dblock_alloc (env : Env) (hdr : H5FA_hdr_t) : Option H5FA_dblock_t :=
  if env.alloc_fails then none
  else some
    { fake_dblock hdr with
      dblk_page_init := List.replicate (fake_dblock hdr).dblk_page_init_size 0 }

/-- Modelled from the spec: `H5FA__dblk_page_alloc`, a new page of `nelmts`
elements of `hdr`; `none` when the allocation fails. -/
def H5FA__dblk_page_alloc (env : Env) (hdr : H5FA_hdr_t) (nelmts : Nat) :
    Option H5FA_dblk_page_t :=
  if env.alloc_fails then none
  else some { hdr := hdr, addr := 0, size := 0, nelmts := nelmts, elmts := [] }

/-- The errors on the stack after `H5E_THROW(e)` in a deserialize callback
that has allocated its block: `e`, and `H5E_CANTFREE` when the destroy routine
of the `CATCH` section fails (lines 317-319, 599-601, 896-898). -/
def thrown (env : Env) (e : H5E) : List H5E :=
  e :: (if env.dest_fails then [H5E.CANTFREE] else [])

/-! ## The header callbacks (lines 185-442) -/

/-- The function `H5FA__cache_hdr_deserialize` (lines 217-321): the header
read from the image, or the error stack. -/
def H5FA__cache_hdr_deserialize (env : Env) (image : List Nat) (udata : H5FA_hdr_cache_ud_t) :
    Except (List H5E) H5FA_hdr_t :=
  match H5FA__hdr_alloc env udata.f with
  | none => .error [H5E.CANTALLOC]
  | some hdr0 =>
    if bytes image 0 H5_SIZEOF_MAGIC ≠ H5FA_HDR_MAGIC then .error (thrown env .BADVALUE)
    else if byte image 4 ≠ H5FA_HDR_VERSION then .error (thrown env .VERSION)
    else if byte image 5 ≥ env.classes.length then .error (thrown env .BADTYPE)
    else
      let hdr1 : H5FA_hdr_t :=
        { hdr0 with
          addr := udata.addr
          cparam :=
            { cls := env.classes.getD (byte image 5) ⟨0, fun _ _ => none, fun _ _ => none⟩
              raw_elmt_size := byte image 6
              max_dblk_page_nelmts_bits := byte image 7
              nelmts := H5F_DECODE_LENGTH udata.f image 8 }
          dblk_addr := H5F_addr_decode udata.f image (8 + udata.f.sizeof_size) }
      let hdr2 : H5FA_hdr_t :=
        if H5F_addr_defined hdr1.dblk_addr then
          { hdr1 with stats := { hdr1.stats with dblk_size := H5FA_DBLOCK_SIZE (fake_dblock hdr1) } }
        else hdr1
      let p := 8 + udata.f.sizeof_size + udata.f.sizeof_addr
      if UINT32DECODE image p ≠ H5_checksum_metadata env (image.take p) then
        .error (thrown env .BADVALUE)
      else
        match H5FA__hdr_init env hdr2 with
        | none => .error (thrown env .CANTINIT)
        | some hdr => .ok hdr

/-- The function `H5FA__cache_hdr_image_len` (lines 337-352). -/
def H5FA__cache_hdr_image_len (hdr : H5FA_hdr_t) : Nat := hdr.size

/-- The image of the header before its checksum (lines 383-401). -/
def hdr_image_body (f : H5F_t) (hdr : H5FA_hdr_t) : List Nat :=
  H5FA_HDR_MAGIC ++ [H5FA_HDR_VERSION, hdr.cparam.cls.id % 256, hdr.cparam.raw_elmt_size % 256,
    hdr.cparam.max_dblk_page_nelmts_bits % 256]
    ++ H5F_ENCODE_LENGTH f hdr.stats.nelmts ++ H5F_addr_encode f hdr.dblk_addr

/-- The function `H5FA__cache_hdr_serialize` (lines 368-412). -/
def H5FA__cache_hdr_serialize (env : Env) (f : H5F_t) (hdr : H5FA_hdr_t) : List Nat :=
  hdr_image_body f hdr ++ UINT32ENCODE (H5_checksum_metadata env (hdr_image_body f hdr))

/-! ## The data block callbacks (lines 458-789) -/

/-- The function `H5FA__cache_dblock_get_load_size` (lines 458-496).  The size
of a data block that is not paged is cast to `size_t` (line 492) and so taken
modulo `2^64`: the product `nelmts * raw_elmt_size` in it may exceed 64 bits.
The size of the prefix (line 494) is the sum of ten bytes, the one-byte
`sizeof_addr` and a bitmap size of at most `2^61`, which the cast leaves as it
is. -/
def H5FA__cache_dblock_get_load_size (udata : H5FA_dblock_cache_ud_t) : Nat :=
  if (fake_dblock udata.hdr).npages = 0 then u64 (H5FA_DBLOCK_SIZE (fake_dblock udata.hdr))
  else H5FA_DBLOCK_PREFIX_SIZE (fake_dblock udata.hdr)

/-- The function `H5FA__cache_dblock_deserialize` (lines 513-603): the data
block read from the image, or the error stack. -/
def H5FA__cache_dblock_deserialize (env : Env) (image : List Nat)
    (udata : H5FA_dblock_cache_ud_t) : Except (List H5E) H5FA_dblock_t :=
  match H5FA__dblock_alloc env udata.hdr with
  | none => .error [H5E.CANTALLOC]
  | some d0 =>
    if bytes image 0 H5_SIZEOF_MAGIC ≠ H5FA_DBLOCK_MAGIC then .error (thrown env .BADVALUE)
    else if byte image 4 ≠ H5FA_DBLOCK_VERSION then .error (thrown env .VERSION)
    else if byte image 5 ≠ udata.hdr.cparam.cls.id % 256 then .error (thrown env .BADTYPE)
    else if H5F_addr_decode udata.hdr.f image 6 ≠ udata.hdr.addr then
      .error (thrown env .BADVALUE)
    else
      let p1 := 6 + udata.hdr.f.sizeof_addr
      let d1 : H5FA_dblock_t :=
        if d0.npages > 0 then
          { d0 with addr := udata.dblk_addr, dblk_page_init := bytes image p1 d0.dblk_page_init_size }
        else { d0 with addr := udata.dblk_addr }
      let p2 := if d0.npages > 0 then p1 + d0.dblk_page_init_size else p1
      let n := udata.hdr.cparam.nelmts * udata.hdr.cparam.raw_elmt_size
      match (if d0.npages = 0 then
          udata.hdr.cparam.cls.decode udata.hdr.cparam.nelmts (bytes image p2 n)
        else some d1.elmts) with
      | none => .error (thrown env .CANTDECODE)
      | some elmts =>
        let p3 := if d0.npages = 0 then p2 + n else p2
        let d2 : H5FA_dblock_t := { d1 with elmts := elmts, size := H5FA_DBLOCK_SIZE d1 }
        if UINT32DECODE image p3 ≠ H5_checksum_metadata env (image.take p3) then
          .error (thrown env .BADVALUE)
        else .ok d2

/-- The function `H5FA__cache_dblock_image_len` (lines 619-637). -/
def H5FA__cache_dblock_image_len (dblock : H5FA_dblock_t) : Nat :=
  if dblock.npages = 0 then dblock.size else H5FA_DBLOCK_PREFIX_SIZE dblock

/-- The image of a data block before its checksum (lines 669-698), or
`H5E_CANTENCODE`. -/
def dblock_image_body (f : H5F_t) (dblock : H5FA_dblock_t) : Except (List H5E) (List Nat) :=
  let pre := H5FA_DBLOCK_MAGIC ++ [H5FA_DBLOCK_VERSION, dblock.hdr.cparam.cls.id % 256]
    ++ H5F_addr_encode f dblock.hdr.addr
    ++ (if dblock.npages > 0 then bytes dblock.dblk_page_init 0 dblock.dblk_page_init_size
        else [])
  if dblock.npages = 0 then
    match dblock.hdr.cparam.cls.encode dblock.hdr.cparam.nelmts dblock.elmts with
    | none => .error [H5E.CANTENCODE]
    | some raw =>
      .ok (pre ++ fit (dblock.hdr.cparam.nelmts * dblock.hdr.cparam.raw_elmt_size) raw)
  else .ok pre

/-- The function `H5FA__cache_dblock_serialize` (lines 653-711). -/
def H5FA__cache_dblock_serialize (env : Env) (f : H5F_t) (dblock : H5FA_dblock_t) :
    Except (List H5E) (List Nat) :=
  match dblock_image_body f dblock with
  | .error e => .error e
  | .ok body => .ok (body ++ UINT32ENCODE (H5_checksum_metadata env body))

/-- The function `H5FA__cache_dblock_fsf_size` (lines 775-789). -/
def H5FA__cache_dblock_fsf_size (dblock : H5FA_dblock_t) : Nat := dblock.size

/-! ## The data block page callbacks (lines 805-983) -/

/-- The function `H5FA__cache_dblk_page_deserialize` (lines 837-900): the page
read from the image of `len` bytes, or the error stack. -/
def H5FA__cache_dblk_page_deserialize (env : Env) (image : List Nat)
    (udata : H5FA_dblk_page_cache_ud_t) : Except (List H5E) H5FA_dblk_page_t :=
  match H5FA__dblk_page_alloc env udata.hdr udata.nelmts with
  | none => .error [H5E.CANTALLOC]
  | some pg0 =>
    let n := udata.nelmts * udata.hdr.cparam.raw_elmt_size
    match udata.hdr.cparam.cls.decode udata.nelmts (bytes image 0 n) with
    | none => .error (thrown env .CANTDECODE)
    | some elmts =>
      if UINT32DECODE image n ≠ H5_checksum_metadata env (image.take n) then
        .error (thrown env .BADVALUE)
      else .ok { pg0 with addr := udata.dblk_page_addr, elmts := elmts, size := image.length }

/-- The function `H5FA__cache_dblk_page_image_len` (lines 916-931). -/
def H5FA__cache_dblk_page_image_len (dblk_page : H5FA_dblk_page_t) : Nat := dblk_page.size

/-- The image of a page before its checksum (lines 963-970), or
`H5E_CANTENCODE`. -/
def dblk_page_image_body (dblk_page : H5FA_dblk_page_t) : Except (List H5E) (List Nat) :=
  match dblk_page.hdr.cparam.cls.encode dblk_page.nelmts dblk_page.elmts with
  | none => .error [H5E.CANTENCODE]
  | some raw => .ok (fit (dblk_page.nelmts * dblk_page.hdr.cparam.raw_elmt_size) raw)

/-- The function `H5FA__cache_dblk_page_serialize` (lines 947-983). -/
def H5FA__cache_dblk_page_serialize (env : Env) (dblk_page : H5FA_dblk_page_t) :
    Except (List H5E) (List Nat) :=
  match dblk_page_image_body dblk_page with
  | .error e => .error e
  | .ok body => .ok (body ++ UINT32ENCODE (H5_checksum_metadata env body))

/-! ## Well-formed blocks and corrupted images -/

/-- A data block as `H5FA__dblock_alloc` and the deserializer make it for its
header: the page count and bitmap size of the header, the size of the macro, a
bitmap of its size and no elements when paged, no bitmap when not. -/
structure DblockOK (x : H5FA_dblock_t) : Prop where
  npages : x.npages = (fake_dblock x.hdr).npages
  init_size : x.dblk_page_init_size = (fake_dblock x.hdr).dblk_page_init_size
  size : x.size = H5FA_DBLOCK_SIZE x
  bitmap : x.dblk_page_init.length = x.dblk_page_init_size
  paged : x.npages > 0 → x.elmts = []

/-- The image with the bit `i` flipped: bit `i % 8` of byte `i / 8`. -/
def flip_bit (image : List Nat) (i : Nat) : List Nat :=
  image.set (i / 8) (image.getD (i / 8) 0 ^^^ 2 ^ (i % 8))

/-! ## Sample data -/

/-- An element class with id 0 whose elements are bytes, encoded as they
are. -/
def byteClass : H5FA_class_t := ⟨0, fun _ es => some es, fun _ raw => some raw⟩

/-- An environment with the sum of the bytes as checksum, the class
`byteClass` registered, and no failing collaborator. -/
def sampleEnv : Env := ⟨fun bs => bs.sum, [byteClass], false, false, false⟩

/-- A file with addresses and lengths of 8 bytes. -/
def sampleFile : H5F_t := ⟨8, 8⟩

/-- The header at address 100 of an array of 9 elements of 1 byte, pages of
`2^2` elements, with its data block at address 200. -/
def sampleHdr : H5FA_hdr_t :=
  { cparam := ⟨byteClass, 1, 2, 9⟩, dblk_addr := 200, stats := ⟨9, 0⟩, addr := 100
    size := H5FA_HEADER_SIZE 8 8, f := sampleFile, sizeof_addr := 8, sizeof_size := 8 }

/-- The header at address 100 of an array of 3 elements of 1 byte, pages of
`2^2` elements, with its data block at address 200. -/
def smallHdr : H5FA_hdr_t :=
  { cparam := ⟨byteClass, 1, 2, 3⟩, dblk_addr := 200, stats := ⟨3, 0⟩, addr := 100
    size := H5FA_HEADER_SIZE 8 8, f := sampleFile, sizeof_addr := 8, sizeof_size := 8 }

/-- The data block at address 200 of `smallHdr`, not paged, with the elements
7, 8, 9. -/
def smallDblock : H5FA_dblock_t :=
  { hdr := smallHdr, addr := 200, size := 21, npages := 0, dblk_page_init_size := 0
    dblk_page_init := [], elmts := [7, 8, 9] }

/-- The data block at address 200 of `sampleHdr`, paged in 3 pages, of which
the first and the third are initialised. -/
def pagedDblock : H5FA_dblock_t :=
  { hdr := sampleHdr, addr := 200, size := 43, npages := 3, dblk_page_init_size := 1
    dblk_page_init := [5], elmts := [] }

/-- The header at address 100 of an array of `2^63 + 1` elements of 1 byte with
pages of `2^63` elements: the sum `nelmts + dblk_page_nelmts` of lines 279-280
and 485-486 does not fit 64 bits. -/
def wrapHdr : H5FA_hdr_t :=
  { cparam := ⟨byteClass, 1, 63, 2 ^ 63 + 1⟩, dblk_addr := 200, stats := ⟨2 ^ 63 + 1, 0⟩
    addr := 100, size := H5FA_HEADER_SIZE 8 8, f := sampleFile, sizeof_addr := 8
    sizeof_size := 8 }

/-- The first page of `pagedDblock`, with the elements 1, 2, 3, 4. -/
def samplePage : H5FA_dblk_page_t :=
  { hdr := sampleHdr, addr := 219, size := 8, nelmts := 4, elmts := [1, 2, 3, 4] }

end H5FA

/-! # Theorems -/

namespace H5EA

/-! ### Facts on the collaborators -/

theorem fits_defined (w : World) (size : Nat) (h : H5MF_alloc_fits w size = true) :
    H5F_addr_defined w.eoa = true := by
  simp [H5MF_alloc_fits, HADDR_UNDEF] at h
  simp [H5F_addr_defined, HADDR_UNDEF]
  omega

@[simp] theorem undef_not_defined : H5F_addr_defined HADDR_UNDEF = false := by
  simp [H5F_addr_defined]

theorem defined_iff (a : Nat) : H5F_addr_defined a = true ↔ a ≠ HADDR_UNDEF := by
  simp [H5F_addr_defined]

theorem not_defined_iff (a : Nat) : H5F_addr_defined a = false ↔ a = HADDR_UNDEF := by
  simp [H5F_addr_defined]

@[simp] theorem iblock_create_trace (sc : Bool) (w : World) :
    (H5EA__iblock_create sc w).2.2.trace = w.trace ++ [.iblock_create (H5EA__iblock_create sc w).1 (H5F_addr_defined (H5EA__iblock_create sc w).1)] := by
  unfold H5EA__iblock_create
  by_cases hc : (w.fault = true ∨ H5MF_alloc_fits w (H5EA_IBLOCK_SIZE w.hdr) = false)
  · rw [if_pos hc]; simp
  · have hfit : H5MF_alloc_fits w (H5EA_IBLOCK_SIZE w.hdr) = true := by
      cases hh : H5MF_alloc_fits w (H5EA_IBLOCK_SIZE w.hdr) <;> simp_all
    have := fits_defined w _ hfit
    rw [if_neg hc]; simp [this]

@[simp] theorem iblock_create_clock (sc : Bool) (w : World) :
    (H5EA__iblock_create sc w).2.2.clock = w.clock + 1 := by
  unfold H5EA__iblock_create
  by_cases hc : (w.fault = true ∨ H5MF_alloc_fits w (H5EA_IBLOCK_SIZE w.hdr) = false)
  · rw [if_pos hc]; simp
  · have hfit : H5MF_alloc_fits w (H5EA_IBLOCK_SIZE w.hdr) = true := by
      cases hh : H5MF_alloc_fits w (H5EA_IBLOCK_SIZE w.hdr) <;> simp_all
    have := fits_defined w _ hfit
    rw [if_neg hc]; simp [this]

@[simp] theorem iblock_create_eoa (sc : Bool) (w : World) :
    (H5EA__iblock_create sc w).2.2.eoa = if H5F_addr_defined (H5EA__iblock_create sc w).1 then w.eoa + H5EA_IBLOCK_SIZE w.hdr else w.eoa := by
  unfold H5EA__iblock_create
  by_cases hc : (w.fault = true ∨ H5MF_alloc_fits w (H5EA_IBLOCK_SIZE w.hdr) = false)
  · rw [if_pos hc]; simp
  · have hfit : H5MF_alloc_fits w (H5EA_IBLOCK_SIZE w.hdr) = true := by
      cases hh : H5MF_alloc_fits w (H5EA_IBLOCK_SIZE w.hdr) <;> simp_all
    have := fits_defined w _ hfit
    rw [if_neg hc]; simp [this]

theorem iblock_create_addr (sc : Bool) (w : World) :
    (H5EA__iblock_create sc w).1 = if H5F_addr_defined (H5EA__iblock_create sc w).1 then w.eoa else HADDR_UNDEF := by
  unfold H5EA__iblock_create
  by_cases hc : (w.fault = true ∨ H5MF_alloc_fits w (H5EA_IBLOCK_SIZE w.hdr) = false)
  · rw [if_pos hc]; simp
  · have hfit : H5MF_alloc_fits w (H5EA_IBLOCK_SIZE w.hdr) = true := by
      cases hh : H5MF_alloc_fits w (H5EA_IBLOCK_SIZE w.hdr) <;> simp_all
    have := fits_defined w _ hfit
    rw [if_neg hc]; simp [this]

@[simp] theorem iblock_create_sc (sc : Bool) (w : World) :
    (H5EA__iblock_create sc w).2.1 = (H5F_addr_defined (H5EA__iblock_create sc w).1 || sc) := by
  unfold H5EA__iblock_create
  by_cases hc : (w.fault = true ∨ H5MF_alloc_fits w (H5EA_IBLOCK_SIZE w.hdr) = false)
  · rw [if_pos hc]; simp
  · have hfit : H5MF_alloc_fits w (H5EA_IBLOCK_SIZE w.hdr) = true := by
      cases hh : H5MF_alloc_fits w (H5EA_IBLOCK_SIZE w.hdr) <;> simp_all
    have := fits_defined w _ hfit
    rw [if_neg hc]; simp [this]

@[simp] theorem iblock_create_max_idx_set (sc : Bool) (w : World) :
    (H5EA__iblock_create sc w).2.2.hdr.stats.max_idx_set = w.hdr.stats.max_idx_set := by
  unfold H5EA__iblock_create
  by_cases hc : (w.fault = true ∨ H5MF_alloc_fits w (H5EA_IBLOCK_SIZE w.hdr) = false)
  · rw [if_pos hc]; simp
  · have hfit : H5MF_alloc_fits w (H5EA_IBLOCK_SIZE w.hdr) = true := by
      cases hh : H5MF_alloc_fits w (H5EA_IBLOCK_SIZE w.hdr) <;> simp_all
    have := fits_defined w _ hfit
    rw [if_neg hc]; simp [this]

@[simp] theorem iblock_create_faults (sc : Bool) (w : World) :
    (H5EA__iblock_create sc w).2.2.faults = w.faults := by
  unfold H5EA__iblock_create
  by_cases hc : (w.fault = true ∨ H5MF_alloc_fits w (H5EA_IBLOCK_SIZE w.hdr) = false)
  · rw [if_pos hc]; simp
  · have hfit : H5MF_alloc_fits w (H5EA_IBLOCK_SIZE w.hdr) = true := by
      cases hh : H5MF_alloc_fits w (H5EA_IBLOCK_SIZE w.hdr) <;> simp_all
    have := fits_defined w _ hfit
    rw [if_neg hc]; simp [this]

@[simp] theorem iblock_create_errs (sc : Bool) (w : World) :
    (H5EA__iblock_create sc w).2.2.errs = w.errs := by
  unfold H5EA__iblock_create
  by_cases hc : (w.fault = true ∨ H5MF_alloc_fits w (H5EA_IBLOCK_SIZE w.hdr) = false)
  · rw [if_pos hc]; simp
  · have hfit : H5MF_alloc_fits w (H5EA_IBLOCK_SIZE w.hdr) = true := by
      cases hh : H5MF_alloc_fits w (H5EA_IBLOCK_SIZE w.hdr) <;> simp_all
    have := fits_defined w _ hfit
    rw [if_neg hc]; simp [this]

@[simp] theorem iblock_create_handles (sc : Bool) (w : World) :
    (H5EA__iblock_create sc w).2.2.handles = w.handles := by
  unfold H5EA__iblock_create
  by_cases hc : (w.fault = true ∨ H5MF_alloc_fits w (H5EA_IBLOCK_SIZE w.hdr) = false)
  · rw [if_pos hc]; simp
  · have hfit : H5MF_alloc_fits w (H5EA_IBLOCK_SIZE w.hdr) = true := by
      cases hh : H5MF_alloc_fits w (H5EA_IBLOCK_SIZE w.hdr) <;> simp_all
    have := fits_defined w _ hfit
    rw [if_neg hc]; simp [this]

@[simp] theorem iblock_create_flush_deps (sc : Bool) (w : World) :
    (H5EA__iblock_create sc w).2.2.flush_deps = w.flush_deps := by
  unfold H5EA__iblock_create
  by_cases hc : (w.fault = true ∨ H5MF_alloc_fits w (H5EA_IBLOCK_SIZE w.hdr) = false)
  · rw [if_pos hc]; simp
  · have hfit : H5MF_alloc_fits w (H5EA_IBLOCK_SIZE w.hdr) = true := by
      cases hh : H5MF_alloc_fits w (H5EA_IBLOCK_SIZE w.hdr) <;> simp_all
    have := fits_defined w _ hfit
    rw [if_neg hc]; simp [this]

@[simp] theorem iblock_create_asserts_ok (sc : Bool) (w : World) :
    (H5EA__iblock_create sc w).2.2.asserts_ok = w.asserts_ok := by
  unfold H5EA__iblock_create
  by_cases hc : (w.fault = true ∨ H5MF_alloc_fits w (H5EA_IBLOCK_SIZE w.hdr) = false)
  · rw [if_pos hc]; simp
  · have hfit : H5MF_alloc_fits w (H5EA_IBLOCK_SIZE w.hdr) = true := by
      cases hh : H5MF_alloc_fits w (H5EA_IBLOCK_SIZE w.hdr) <;> simp_all
    have := fits_defined w _ hfit
    rw [if_neg hc]; simp [this]

@[simp] theorem iblock_create_hdr_present (sc : Bool) (w : World) :
    (H5EA__iblock_create sc w).2.2.hdr_present = w.hdr_present := by
  unfold H5EA__iblock_create
  by_cases hc : (w.fault = true ∨ H5MF_alloc_fits w (H5EA_IBLOCK_SIZE w.hdr) = false)
  · rw [if_pos hc]; simp
  · have hfit : H5MF_alloc_fits w (H5EA_IBLOCK_SIZE w.hdr) = true := by
      cases hh : H5MF_alloc_fits w (H5EA_IBLOCK_SIZE w.hdr) <;> simp_all
    have := fits_defined w _ hfit
    rw [if_neg hc]; simp [this]

@[simp] theorem iblock_create_hdr_addr (sc : Bool) (w : World) :
    (H5EA__iblock_create sc w).2.2.hdr.addr = w.hdr.addr := by
  unfold H5EA__iblock_create
  by_cases hc : (w.fault = true ∨ H5MF_alloc_fits w (H5EA_IBLOCK_SIZE w.hdr) = false)
  · rw [if_pos hc]; simp
  · have hfit : H5MF_alloc_fits w (H5EA_IBLOCK_SIZE w.hdr) = true := by
      cases hh : H5MF_alloc_fits w (H5EA_IBLOCK_SIZE w.hdr) <;> simp_all
    have := fits_defined w _ hfit
    rw [if_neg hc]; simp [this]

@[simp] theorem iblock_create_hdr_cparam (sc : Bool) (w : World) :
    (H5EA__iblock_create sc w).2.2.hdr.cparam = w.hdr.cparam := by
  unfold H5EA__iblock_create
  by_cases hc : (w.fault = true ∨ H5MF_alloc_fits w (H5EA_IBLOCK_SIZE w.hdr) = false)
  · rw [if_pos hc]; simp
  · have hfit : H5MF_alloc_fits w (H5EA_IBLOCK_SIZE w.hdr) = true := by
      cases hh : H5MF_alloc_fits w (H5EA_IBLOCK_SIZE w.hdr) <;> simp_all
    have := fits_defined w _ hfit
    rw [if_neg hc]; simp [this]

@[simp] theorem iblock_create_hdr_idx_blk_addr (sc : Bool) (w : World) :
    (H5EA__iblock_create sc w).2.2.hdr.idx_blk_addr = w.hdr.idx_blk_addr := by
  unfold H5EA__iblock_create
  by_cases hc : (w.fault = true ∨ H5MF_alloc_fits w (H5EA_IBLOCK_SIZE w.hdr) = false)
  · rw [if_pos hc]; simp
  · have hfit : H5MF_alloc_fits w (H5EA_IBLOCK_SIZE w.hdr) = true := by
      cases hh : H5MF_alloc_fits w (H5EA_IBLOCK_SIZE w.hdr) <;> simp_all
    have := fits_defined w _ hfit
    rw [if_neg hc]; simp [this]

@[simp] theorem iblock_create_hdr_sblk_info (sc : Bool) (w : World) :
    (H5EA__iblock_create sc w).2.2.hdr.sblk_info = w.hdr.sblk_info := by
  unfold H5EA__iblock_create
  by_cases hc : (w.fault = true ∨ H5MF_alloc_fits w (H5EA_IBLOCK_SIZE w.hdr) = false)
  · rw [if_pos hc]; simp
  · have hfit : H5MF_alloc_fits w (H5EA_IBLOCK_SIZE w.hdr) = true := by
      cases hh : H5MF_alloc_fits w (H5EA_IBLOCK_SIZE w.hdr) <;> simp_all
    have := fits_defined w _ hfit
    rw [if_neg hc]; simp [this]

@[simp] theorem iblock_create_hdr_nsblks (sc : Bool) (w : World) :
    (H5EA__iblock_create sc w).2.2.hdr.nsblks = w.hdr.nsblks := by
  unfold H5EA__iblock_create
  by_cases hc : (w.fault = true ∨ H5MF_alloc_fits w (H5EA_IBLOCK_SIZE w.hdr) = false)
  · rw [if_pos hc]; simp
  · have hfit : H5MF_alloc_fits w (H5EA_IBLOCK_SIZE w.hdr) = true := by
      cases hh : H5MF_alloc_fits w (H5EA_IBLOCK_SIZE w.hdr) <;> simp_all
    have := fits_defined w _ hfit
    rw [if_neg hc]; simp [this]

@[simp] theorem iblock_create_hdr_dblk_page_nelmts (sc : Bool) (w : World) :
    (H5EA__iblock_create sc w).2.2.hdr.dblk_page_nelmts = w.hdr.dblk_page_nelmts := by
  unfold H5EA__iblock_create
  by_cases hc : (w.fault = true ∨ H5MF_alloc_fits w (H5EA_IBLOCK_SIZE w.hdr) = false)
  · rw [if_pos hc]; simp
  · have hfit : H5MF_alloc_fits w (H5EA_IBLOCK_SIZE w.hdr) = true := by
      cases hh : H5MF_alloc_fits w (H5EA_IBLOCK_SIZE w.hdr) <;> simp_all
    have := fits_defined w _ hfit
    rw [if_neg hc]; simp [this]

@[simp] theorem iblock_create_hdr_iblock_nsblks (sc : Bool) (w : World) :
    (H5EA__iblock_create sc w).2.2.hdr.iblock_nsblks = w.hdr.iblock_nsblks := by
  unfold H5EA__iblock_create
  by_cases hc : (w.fault = true ∨ H5MF_alloc_fits w (H5EA_IBLOCK_SIZE w.hdr) = false)
  · rw [if_pos hc]; simp
  · have hfit : H5MF_alloc_fits w (H5EA_IBLOCK_SIZE w.hdr) = true := by
      cases hh : H5MF_alloc_fits w (H5EA_IBLOCK_SIZE w.hdr) <;> simp_all
    have := fits_defined w _ hfit
    rw [if_neg hc]; simp [this]

@[simp] theorem iblock_create_hdr_sizeof_addr (sc : Bool) (w : World) :
    (H5EA__iblock_create sc w).2.2.hdr.sizeof_addr = w.hdr.sizeof_addr := by
  unfold H5EA__iblock_create
  by_cases hc : (w.fault = true ∨ H5MF_alloc_fits w (H5EA_IBLOCK_SIZE w.hdr) = false)
  · rw [if_pos hc]; simp
  · have hfit : H5MF_alloc_fits w (H5EA_IBLOCK_SIZE w.hdr) = true := by
      cases hh : H5MF_alloc_fits w (H5EA_IBLOCK_SIZE w.hdr) <;> simp_all
    have := fits_defined w _ hfit
    rw [if_neg hc]; simp [this]

@[simp] theorem iblock_create_hdr_arr_off_size (sc : Bool) (w : World) :
    (H5EA__iblock_create sc w).2.2.hdr.arr_off_size = w.hdr.arr_off_size := by
  unfold H5EA__iblock_create
  by_cases hc : (w.fault = true ∨ H5MF_alloc_fits w (H5EA_IBLOCK_SIZE w.hdr) = false)
  · rw [if_pos hc]; simp
  · have hfit : H5MF_alloc_fits w (H5EA_IBLOCK_SIZE w.hdr) = true := by
      cases hh : H5MF_alloc_fits w (H5EA_IBLOCK_SIZE w.hdr) <;> simp_all
    have := fits_defined w _ hfit
    rw [if_neg hc]; simp [this]

@[simp] theorem iblock_create_hdr_rc (sc : Bool) (w : World) :
    (H5EA__iblock_create sc w).2.2.hdr.rc = w.hdr.rc := by
  unfold H5EA__iblock_create
  by_cases hc : (w.fault = true ∨ H5MF_alloc_fits w (H5EA_IBLOCK_SIZE w.hdr) = false)
  · rw [if_pos hc]; simp
  · have hfit : H5MF_alloc_fits w (H5EA_IBLOCK_SIZE w.hdr) = true := by
      cases hh : H5MF_alloc_fits w (H5EA_IBLOCK_SIZE w.hdr) <;> simp_all
    have := fits_defined w _ hfit
    rw [if_neg hc]; simp [this]

@[simp] theorem iblock_create_hdr_file_rc (sc : Bool) (w : World) :
    (H5EA__iblock_create sc w).2.2.hdr.file_rc = w.hdr.file_rc := by
  unfold H5EA__iblock_create
  by_cases hc : (w.fault = true ∨ H5MF_alloc_fits w (H5EA_IBLOCK_SIZE w.hdr) = false)
  · rw [if_pos hc]; simp
  · have hfit : H5MF_alloc_fits w (H5EA_IBLOCK_SIZE w.hdr) = true := by
      cases hh : H5MF_alloc_fits w (H5EA_IBLOCK_SIZE w.hdr) <;> simp_all
    have := fits_defined w _ hfit
    rw [if_neg hc]; simp [this]

@[simp] theorem iblock_create_hdr_pending_delete (sc : Bool) (w : World) :
    (H5EA__iblock_create sc w).2.2.hdr.pending_delete = w.hdr.pending_delete := by
  unfold H5EA__iblock_create
  by_cases hc : (w.fault = true ∨ H5MF_alloc_fits w (H5EA_IBLOCK_SIZE w.hdr) = false)
  · rw [if_pos hc]; simp
  · have hfit : H5MF_alloc_fits w (H5EA_IBLOCK_SIZE w.hdr) = true := by
      cases hh : H5MF_alloc_fits w (H5EA_IBLOCK_SIZE w.hdr) <;> simp_all
    have := fits_defined w _ hfit
    rw [if_neg hc]; simp [this]

@[simp] theorem iblock_create_hdr_f (sc : Bool) (w : World) :
    (H5EA__iblock_create sc w).2.2.hdr.f = w.hdr.f := by
  unfold H5EA__iblock_create
  by_cases hc : (w.fault = true ∨ H5MF_alloc_fits w (H5EA_IBLOCK_SIZE w.hdr) = false)
  · rw [if_pos hc]; simp
  · have hfit : H5MF_alloc_fits w (H5EA_IBLOCK_SIZE w.hdr) = true := by
      cases hh : H5MF_alloc_fits w (H5EA_IBLOCK_SIZE w.hdr) <;> simp_all
    have := fits_defined w _ hfit
    rw [if_neg hc]; simp [this]

@[simp] theorem iblock_create_iblocks (sc : Bool) (w : World) :
    (H5EA__iblock_create sc w).2.2.iblocks = if H5F_addr_defined (H5EA__iblock_create sc w).1 then Function.update w.iblocks w.eoa (some ⟨fun _ => w.hdr.cparam.cls.fill, fun _ => HADDR_UNDEF, fun _ => HADDR_UNDEF⟩) else w.iblocks := by
  unfold H5EA__iblock_create
  by_cases hc : (w.fault = true ∨ H5MF_alloc_fits w (H5EA_IBLOCK_SIZE w.hdr) = false)
  · rw [if_pos hc]; simp
  · have hfit : H5MF_alloc_fits w (H5EA_IBLOCK_SIZE w.hdr) = true := by
      cases hh : H5MF_alloc_fits w (H5EA_IBLOCK_SIZE w.hdr) <;> simp_all
    have := fits_defined w _ hfit
    rw [if_neg hc]; simp [this]

@[simp] theorem iblock_create_sblocks (sc : Bool) (w : World) :
    (H5EA__iblock_create sc w).2.2.sblocks = w.sblocks := by
  unfold H5EA__iblock_create
  by_cases hc : (w.fault = true ∨ H5MF_alloc_fits w (H5EA_IBLOCK_SIZE w.hdr) = false)
  · rw [if_pos hc]; simp
  · have hfit : H5MF_alloc_fits w (H5EA_IBLOCK_SIZE w.hdr) = true := by
      cases hh : H5MF_alloc_fits w (H5EA_IBLOCK_SIZE w.hdr) <;> simp_all
    have := fits_defined w _ hfit
    rw [if_neg hc]; simp [this]

@[simp] theorem iblock_create_dblocks (sc : Bool) (w : World) :
    (H5EA__iblock_create sc w).2.2.dblocks = w.dblocks := by
  unfold H5EA__iblock_create
  by_cases hc : (w.fault = true ∨ H5MF_alloc_fits w (H5EA_IBLOCK_SIZE w.hdr) = false)
  · rw [if_pos hc]; simp
  · have hfit : H5MF_alloc_fits w (H5EA_IBLOCK_SIZE w.hdr) = true := by
      cases hh : H5MF_alloc_fits w (H5EA_IBLOCK_SIZE w.hdr) <;> simp_all
    have := fits_defined w _ hfit
    rw [if_neg hc]; simp [this]

@[simp] theorem iblock_create_dblk_pages (sc : Bool) (w : World) :
    (H5EA__iblock_create sc w).2.2.dblk_pages = w.dblk_pages := by
  unfold H5EA__iblock_create
  by_cases hc : (w.fault = true ∨ H5MF_alloc_fits w (H5EA_IBLOCK_SIZE w.hdr) = false)
  · rw [if_pos hc]; simp
  · have hfit : H5MF_alloc_fits w (H5EA_IBLOCK_SIZE w.hdr) = true := by
      cases hh : H5MF_alloc_fits w (H5EA_IBLOCK_SIZE w.hdr) <;> simp_all
    have := fits_defined w _ hfit
    rw [if_neg hc]; simp [this]

@[simp] theorem sblock_create_trace (p : Thing) (sc : Bool) (sblk_idx : Nat) (w : World) :
    (H5EA__sblock_create p sc sblk_idx w).2.2.trace = w.trace ++ [.sblock_create (H5EA__sblock_create p sc sblk_idx w).1 p sblk_idx (H5F_addr_defined (H5EA__sblock_create p sc sblk_idx w).1)] := by
  unfold H5EA__sblock_create
  by_cases hc : (w.fault = true ∨ H5MF_alloc_fits w (H5EA_SBLOCK_SIZE w.hdr sblk_idx) = false)
  · rw [if_pos hc]; simp
  · have hfit : H5MF_alloc_fits w (H5EA_SBLOCK_SIZE w.hdr sblk_idx) = true := by
      cases hh : H5MF_alloc_fits w (H5EA_SBLOCK_SIZE w.hdr sblk_idx) <;> simp_all
    have := fits_defined w _ hfit
    rw [if_neg hc]; simp [this]

@[simp] theorem sblock_create_clock (p : Thing) (sc : Bool) (sblk_idx : Nat) (w : World) :
    (H5EA__sblock_create p sc sblk_idx w).2.2.clock = w.clock + 1 := by
  unfold H5EA__sblock_create
  by_cases hc : (w.fault = true ∨ H5MF_alloc_fits w (H5EA_SBLOCK_SIZE w.hdr sblk_idx) = false)
  · rw [if_pos hc]; simp
  · have hfit : H5MF_alloc_fits w (H5EA_SBLOCK_SIZE w.hdr sblk_idx) = true := by
      cases hh : H5MF_alloc_fits w (H5EA_SBLOCK_SIZE w.hdr sblk_idx) <;> simp_all
    have := fits_defined w _ hfit
    rw [if_neg hc]; simp [this]

@[simp] theorem sblock_create_eoa (p : Thing) (sc : Bool) (sblk_idx : Nat) (w : World) :
    (H5EA__sblock_create p sc sblk_idx w).2.2.eoa = if H5F_addr_defined (H5EA__sblock_create p sc sblk_idx w).1 then w.eoa + H5EA_SBLOCK_SIZE w.hdr sblk_idx else w.eoa := by
  unfold H5EA__sblock_create
  by_cases hc : (w.fault = true ∨ H5MF_alloc_fits w (H5EA_SBLOCK_SIZE w.hdr sblk_idx) = false)
  · rw [if_pos hc]; simp
  · have hfit : H5MF_alloc_fits w (H5EA_SBLOCK_SIZE w.hdr sblk_idx) = true := by
      cases hh : H5MF_alloc_fits w (H5EA_SBLOCK_SIZE w.hdr sblk_idx) <;> simp_all
    have := fits_defined w _ hfit
    rw [if_neg hc]; simp [this]

theorem sblock_create_addr (p : Thing) (sc : Bool) (sblk_idx : Nat) (w : World) :
    (H5EA__sblock_create p sc sblk_idx w).1 = if H5F_addr_defined (H5EA__sblock_create p sc sblk_idx w).1 then w.eoa else HADDR_UNDEF := by
  unfold H5EA__sblock_create
  by_cases hc : (w.fault = true ∨ H5MF_alloc_fits w (H5EA_SBLOCK_SIZE w.hdr sblk_idx) = false)
  · rw [if_pos hc]; simp
  · have hfit : H5MF_alloc_fits w (H5EA_SBLOCK_SIZE w.hdr sblk_idx) = true := by
      cases hh : H5MF_alloc_fits w (H5EA_SBLOCK_SIZE w.hdr sblk_idx) <;> simp_all
    have := fits_defined w _ hfit
    rw [if_neg hc]; simp [this]

@[simp] theorem sblock_create_sc (p : Thing) (sc : Bool) (sblk_idx : Nat) (w : World) :
    (H5EA__sblock_create p sc sblk_idx w).2.1 = (H5F_addr_defined (H5EA__sblock_create p sc sblk_idx w).1 || sc) := by
  unfold H5EA__sblock_create
  by_cases hc : (w.fault = true ∨ H5MF_alloc_fits w (H5EA_SBLOCK_SIZE w.hdr sblk_idx) = false)
  · rw [if_pos hc]; simp
  · have hfit : H5MF_alloc_fits w (H5EA_SBLOCK_SIZE w.hdr sblk_idx) = true := by
      cases hh : H5MF_alloc_fits w (H5EA_SBLOCK_SIZE w.hdr sblk_idx) <;> simp_all
    have := fits_defined w _ hfit
    rw [if_neg hc]; simp [this]

@[simp] theorem sblock_create_max_idx_set (p : Thing) (sc : Bool) (sblk_idx : Nat) (w : World) :
    (H5EA__sblock_create p sc sblk_idx w).2.2.hdr.stats.max_idx_set = w.hdr.stats.max_idx_set := by
  unfold H5EA__sblock_create
  by_cases hc : (w.fault = true ∨ H5MF_alloc_fits w (H5EA_SBLOCK_SIZE w.hdr sblk_idx) = false)
  · rw [if_pos hc]; simp
  · have hfit : H5MF_alloc_fits w (H5EA_SBLOCK_SIZE w.hdr sblk_idx) = true := by
      cases hh : H5MF_alloc_fits w (H5EA_SBLOCK_SIZE w.hdr sblk_idx) <;> simp_all
    have := fits_defined w _ hfit
    rw [if_neg hc]; simp [this]

@[simp] theorem sblock_create_faults (p : Thing) (sc : Bool) (sblk_idx : Nat) (w : World) :
    (H5EA__sblock_create p sc sblk_idx w).2.2.faults = w.faults := by
  unfold H5EA__sblock_create
  by_cases hc : (w.fault = true ∨ H5MF_alloc_fits w (H5EA_SBLOCK_SIZE w.hdr sblk_idx) = false)
  · rw [if_pos hc]; simp
  · have hfit : H5MF_alloc_fits w (H5EA_SBLOCK_SIZE w.hdr sblk_idx) = true := by
      cases hh : H5MF_alloc_fits w (H5EA_SBLOCK_SIZE w.hdr sblk_idx) <;> simp_all
    have := fits_defined w _ hfit
    rw [if_neg hc]; simp [this]

@[simp] theorem sblock_create_errs (p : Thing) (sc : Bool) (sblk_idx : Nat) (w : World) :
    (H5EA__sblock_create p sc sblk_idx w).2.2.errs = w.errs := by
  unfold H5EA__sblock_create
  by_cases hc : (w.fault = true ∨ H5MF_alloc_fits w (H5EA_SBLOCK_SIZE w.hdr sblk_idx) = false)
  · rw [if_pos hc]; simp
  · have hfit : H5MF_alloc_fits w (H5EA_SBLOCK_SIZE w.hdr sblk_idx) = true := by
      cases hh : H5MF_alloc_fits w (H5EA_SBLOCK_SIZE w.hdr sblk_idx) <;> simp_all
    have := fits_defined w _ hfit
    rw [if_neg hc]; simp [this]

@[simp] theorem sblock_create_handles (p : Thing) (sc : Bool) (sblk_idx : Nat) (w : World) :
    (H5EA__sblock_create p sc sblk_idx w).2.2.handles = w.handles := by
  unfold H5EA__sblock_create
  by_cases hc : (w.fault = true ∨ H5MF_alloc_fits w (H5EA_SBLOCK_SIZE w.hdr sblk_idx) = false)
  · rw [if_pos hc]; simp
  · have hfit : H5MF_alloc_fits w (H5EA_SBLOCK_SIZE w.hdr sblk_idx) = true := by
      cases hh : H5MF_alloc_fits w (H5EA_SBLOCK_SIZE w.hdr sblk_idx) <;> simp_all
    have := fits_defined w _ hfit
    rw [if_neg hc]; simp [this]

@[simp] theorem sblock_create_flush_deps (p : Thing) (sc : Bool) (sblk_idx : Nat) (w : World) :
    (H5EA__sblock_create p sc sblk_idx w).2.2.flush_deps = w.flush_deps := by
  unfold H5EA__sblock_create
  by_cases hc : (w.fault = true ∨ H5MF_alloc_fits w (H5EA_SBLOCK_SIZE w.hdr sblk_idx) = false)
  · rw [if_pos hc]; simp
  · have hfit : H5MF_alloc_fits w (H5EA_SBLOCK_SIZE w.hdr sblk_idx) = true := by
      cases hh : H5MF_alloc_fits w (H5EA_SBLOCK_SIZE w.hdr sblk_idx) <;> simp_all
    have := fits_defined w _ hfit
    rw [if_neg hc]; simp [this]

@[simp] theorem sblock_create_asserts_ok (p : Thing) (sc : Bool) (sblk_idx : Nat) (w : World) :
    (H5EA__sblock_create p sc sblk_idx w).2.2.asserts_ok = w.asserts_ok := by
  unfold H5EA__sblock_create
  by_cases hc : (w.fault = true ∨ H5MF_alloc_fits w (H5EA_SBLOCK_SIZE w.hdr sblk_idx) = false)
  · rw [if_pos hc]; simp
  · have hfit : H5MF_alloc_fits w (H5EA_SBLOCK_SIZE w.hdr sblk_idx) = true := by
      cases hh : H5MF_alloc_fits w (H5EA_SBLOCK_SIZE w.hdr sblk_idx) <;> simp_all
    have := fits_defined w _ hfit
    rw [if_neg hc]; simp [this]

@[simp] theorem sblock_create_hdr_present (p : Thing) (sc : Bool) (sblk_idx : Nat) (w : World) :
    (H5EA__sblock_create p sc sblk_idx w).2.2.hdr_present = w.hdr_present := by
  unfold H5EA__sblock_create
  by_cases hc : (w.fault = true ∨ H5MF_alloc_fits w (H5EA_SBLOCK_SIZE w.hdr sblk_idx) = false)
  · rw [if_pos hc]; simp
  · have hfit : H5MF_alloc_fits w (H5EA_SBLOCK_SIZE w.hdr sblk_idx) = true := by
      cases hh : H5MF_alloc_fits w (H5EA_SBLOCK_SIZE w.hdr sblk_idx) <;> simp_all
    have := fits_defined w _ hfit
    rw [if_neg hc]; simp [this]

@[simp] theorem sblock_create_hdr_addr (p : Thing) (sc : Bool) (sblk_idx : Nat) (w : World) :
    (H5EA__sblock_create p sc sblk_idx w).2.2.hdr.addr = w.hdr.addr := by
  unfold H5EA__sblock_create
  by_cases hc : (w.fault = true ∨ H5MF_alloc_fits w (H5EA_SBLOCK_SIZE w.hdr sblk_idx) = false)
  · rw [if_pos hc]; simp
  · have hfit : H5MF_alloc_fits w (H5EA_SBLOCK_SIZE w.hdr sblk_idx) = true := by
      cases hh : H5MF_alloc_fits w (H5EA_SBLOCK_SIZE w.hdr sblk_idx) <;> simp_all
    have := fits_defined w _ hfit
    rw [if_neg hc]; simp [this]

@[simp] theorem sblock_create_hdr_cparam (p : Thing) (sc : Bool) (sblk_idx : Nat) (w : World) :
    (H5EA__sblock_create p sc sblk_idx w).2.2.hdr.cparam = w.hdr.cparam := by
  unfold H5EA__sblock_create
  by_cases hc : (w.fault = true ∨ H5MF_alloc_fits w (H5EA_SBLOCK_SIZE w.hdr sblk_idx) = false)
  · rw [if_pos hc]; simp
  · have hfit : H5MF_alloc_fits w (H5EA_SBLOCK_SIZE w.hdr sblk_idx) = true := by
      cases hh : H5MF_alloc_fits w (H5EA_SBLOCK_SIZE w.hdr sblk_idx) <;> simp_all
    have := fits_defined w _ hfit
    rw [if_neg hc]; simp [this]

@[simp] theorem sblock_create_hdr_idx_blk_addr (p : Thing) (sc : Bool) (sblk_idx : Nat) (w : World) :
    (H5EA__sblock_create p sc sblk_idx w).2.2.hdr.idx_blk_addr = w.hdr.idx_blk_addr := by
  unfold H5EA__sblock_create
  by_cases hc : (w.fault = true ∨ H5MF_alloc_fits w (H5EA_SBLOCK_SIZE w.hdr sblk_idx) = false)
  · rw [if_pos hc]; simp
  · have hfit : H5MF_alloc_fits w (H5EA_SBLOCK_SIZE w.hdr sblk_idx) = true := by
      cases hh : H5MF_alloc_fits w (H5EA_SBLOCK_SIZE w.hdr sblk_idx) <;> simp_all
    have := fits_defined w _ hfit
    rw [if_neg hc]; simp [this]

@[simp] theorem sblock_create_hdr_sblk_info (p : Thing) (sc : Bool) (sblk_idx : Nat) (w : World) :
    (H5EA__sblock_create p sc sblk_idx w).2.2.hdr.sblk_info = w.hdr.sblk_info := by
  unfold H5EA__sblock_create
  by_cases hc : (w.fault = true ∨ H5MF_alloc_fits w (H5EA_SBLOCK_SIZE w.hdr sblk_idx) = false)
  · rw [if_pos hc]; simp
  · have hfit : H5MF_alloc_fits w (H5EA_SBLOCK_SIZE w.hdr sblk_idx) = true := by
      cases hh : H5MF_alloc_fits w (H5EA_SBLOCK_SIZE w.hdr sblk_idx) <;> simp_all
    have := fits_defined w _ hfit
    rw [if_neg hc]; simp [this]

@[simp] theorem sblock_create_hdr_nsblks (p : Thing) (sc : Bool) (sblk_idx : Nat) (w : World) :
    (H5EA__sblock_create p sc sblk_idx w).2.2.hdr.nsblks = w.hdr.nsblks := by
  unfold H5EA__sblock_create
  by_cases hc : (w.fault = true ∨ H5MF_alloc_fits w (H5EA_SBLOCK_SIZE w.hdr sblk_idx) = false)
  · rw [if_pos hc]; simp
  · have hfit : H5MF_alloc_fits w (H5EA_SBLOCK_SIZE w.hdr sblk_idx) = true := by
      cases hh : H5MF_alloc_fits w (H5EA_SBLOCK_SIZE w.hdr sblk_idx) <;> simp_all
    have := fits_defined w _ hfit
    rw [if_neg hc]; simp [this]

@[simp] theorem sblock_create_hdr_dblk_page_nelmts (p : Thing) (sc : Bool) (sblk_idx : Nat) (w : World) :
    (H5EA__sblock_create p sc sblk_idx w).2.2.hdr.dblk_page_nelmts = w.hdr.dblk_page_nelmts := by
  unfold H5EA__sblock_create
  by_cases hc : (w.fault = true ∨ H5MF_alloc_fits w (H5EA_SBLOCK_SIZE w.hdr sblk_idx) = false)
  · rw [if_pos hc]; simp
  · have hfit : H5MF_alloc_fits w (H5EA_SBLOCK_SIZE w.hdr sblk_idx) = true := by
      cases hh : H5MF_alloc_fits w (H5EA_SBLOCK_SIZE w.hdr sblk_idx) <;> simp_all
    have := fits_defined w _ hfit
    rw [if_neg hc]; simp [this]

@[simp] theorem sblock_create_hdr_iblock_nsblks (p : Thing) (sc : Bool) (sblk_idx : Nat) (w : World) :
    (H5EA__sblock_create p sc sblk_idx w).2.2.hdr.iblock_nsblks = w.hdr.iblock_nsblks := by
  unfold H5EA__sblock_create
  by_cases hc : (w.fault = true ∨ H5MF_alloc_fits w (H5EA_SBLOCK_SIZE w.hdr sblk_idx) = false)
  · rw [if_pos hc]; simp
  · have hfit : H5MF_alloc_fits w (H5EA_SBLOCK_SIZE w.hdr sblk_idx) = true := by
      cases hh : H5MF_alloc_fits w (H5EA_SBLOCK_SIZE w.hdr sblk_idx) <;> simp_all
    have := fits_defined w _ hfit
    rw [if_neg hc]; simp [this]

@[simp] theorem sblock_create_hdr_sizeof_addr (p : Thing) (sc : Bool) (sblk_idx : Nat) (w : World) :
    (H5EA__sblock_create p sc sblk_idx w).2.2.hdr.sizeof_addr = w.hdr.sizeof_addr := by
  unfold H5EA__sblock_create
  by_cases hc : (w.fault = true ∨ H5MF_alloc_fits w (H5EA_SBLOCK_SIZE w.hdr sblk_idx) = false)
  · rw [if_pos hc]; simp
  · have hfit : H5MF_alloc_fits w (H5EA_SBLOCK_SIZE w.hdr sblk_idx) = true := by
      cases hh : H5MF_alloc_fits w (H5EA_SBLOCK_SIZE w.hdr sblk_idx) <;> simp_all
    have := fits_defined w _ hfit
    rw [if_neg hc]; simp [this]

@[simp] theorem sblock_create_hdr_arr_off_size (p : Thing) (sc : Bool) (sblk_idx : Nat) (w : World) :
    (H5EA__sblock_create p sc sblk_idx w).2.2.hdr.arr_off_size = w.hdr.arr_off_size := by
  unfold H5EA__sblock_create
  by_cases hc : (w.fault = true ∨ H5MF_alloc_fits w (H5EA_SBLOCK_SIZE w.hdr sblk_idx) = false)
  · rw [if_pos hc]; simp
  · have hfit : H5MF_alloc_fits w (H5EA_SBLOCK_SIZE w.hdr sblk_idx) = true := by
      cases hh : H5MF_alloc_fits w (H5EA_SBLOCK_SIZE w.hdr sblk_idx) <;> simp_all
    have := fits_defined w _ hfit
    rw [if_neg hc]; simp [this]

@[simp] theorem sblock_create_hdr_rc (p : Thing) (sc : Bool) (sblk_idx : Nat) (w : World) :
    (H5EA__sblock_create p sc sblk_idx w).2.2.hdr.rc = w.hdr.rc := by
  unfold H5EA__sblock_create
  by_cases hc : (w.fault = true ∨ H5MF_alloc_fits w (H5EA_SBLOCK_SIZE w.hdr sblk_idx) = false)
  · rw [if_pos hc]; simp
  · have hfit : H5MF_alloc_fits w (H5EA_SBLOCK_SIZE w.hdr sblk_idx) = true := by
      cases hh : H5MF_alloc_fits w (H5EA_SBLOCK_SIZE w.hdr sblk_idx) <;> simp_all
    have := fits_defined w _ hfit
    rw [if_neg hc]; simp [this]

@[simp] theorem sblock_create_hdr_file_rc (p : Thing) (sc : Bool) (sblk_idx : Nat) (w : World) :
    (H5EA__sblock_create p sc sblk_idx w).2.2.hdr.file_rc = w.hdr.file_rc := by
  unfold H5EA__sblock_create
  by_cases hc : (w.fault = true ∨ H5MF_alloc_fits w (H5EA_SBLOCK_SIZE w.hdr sblk_idx) = false)
  · rw [if_pos hc]; simp
  · have hfit : H5MF_alloc_fits w (H5EA_SBLOCK_SIZE w.hdr sblk_idx) = true := by
      cases hh : H5MF_alloc_fits w (H5EA_SBLOCK_SIZE w.hdr sblk_idx) <;> simp_all
    have := fits_defined w _ hfit
    rw [if_neg hc]; simp [this]

@[simp] theorem sblock_create_hdr_pending_delete (p : Thing) (sc : Bool) (sblk_idx : Nat) (w : World) :
    (H5EA__sblock_create p sc sblk_idx w).2.2.hdr.pending_delete = w.hdr.pending_delete := by
  unfold H5EA__sblock_create
  by_cases hc : (w.fault = true ∨ H5MF_alloc_fits w (H5EA_SBLOCK_SIZE w.hdr sblk_idx) = false)
  · rw [if_pos hc]; simp
  · have hfit : H5MF_alloc_fits w (H5EA_SBLOCK_SIZE w.hdr sblk_idx) = true := by
      cases hh : H5MF_alloc_fits w (H5EA_SBLOCK_SIZE w.hdr sblk_idx) <;> simp_all
    have := fits_defined w _ hfit
    rw [if_neg hc]; simp [this]

@[simp] theorem sblock_create_hdr_f (p : Thing) (sc : Bool) (sblk_idx : Nat) (w : World) :
    (H5EA__sblock_create p sc sblk_idx w).2.2.hdr.f = w.hdr.f := by
  unfold H5EA__sblock_create
  by_cases hc : (w.fault = true ∨ H5MF_alloc_fits w (H5EA_SBLOCK_SIZE w.hdr sblk_idx) = false)
  · rw [if_pos hc]; simp
  · have hfit : H5MF_alloc_fits w (H5EA_SBLOCK_SIZE w.hdr sblk_idx) = true := by
      cases hh : H5MF_alloc_fits w (H5EA_SBLOCK_SIZE w.hdr sblk_idx) <;> simp_all
    have := fits_defined w _ hfit
    rw [if_neg hc]; simp [this]

@[simp] theorem sblock_create_iblocks (p : Thing) (sc : Bool) (sblk_idx : Nat) (w : World) :
    (H5EA__sblock_create p sc sblk_idx w).2.2.iblocks = w.iblocks := by
  unfold H5EA__sblock_create
  by_cases hc : (w.fault = true ∨ H5MF_alloc_fits w (H5EA_SBLOCK_SIZE w.hdr sblk_idx) = false)
  · rw [if_pos hc]; simp
  · have hfit : H5MF_alloc_fits w (H5EA_SBLOCK_SIZE w.hdr sblk_idx) = true := by
      cases hh : H5MF_alloc_fits w (H5EA_SBLOCK_SIZE w.hdr sblk_idx) <;> simp_all
    have := fits_defined w _ hfit
    rw [if_neg hc]; simp [this]

@[simp] theorem sblock_create_sblocks (p : Thing) (sc : Bool) (sblk_idx : Nat) (w : World) :
    (H5EA__sblock_create p sc sblk_idx w).2.2.sblocks = if H5F_addr_defined (H5EA__sblock_create p sc sblk_idx w).1 then Function.update w.sblocks w.eoa (some ⟨fun _ => HADDR_UNDEF, fun _ => false⟩) else w.sblocks := by
  unfold H5EA__sblock_create
  by_cases hc : (w.fault = true ∨ H5MF_alloc_fits w (H5EA_SBLOCK_SIZE w.hdr sblk_idx) = false)
  · rw [if_pos hc]; simp
  · have hfit : H5MF_alloc_fits w (H5EA_SBLOCK_SIZE w.hdr sblk_idx) = true := by
      cases hh : H5MF_alloc_fits w (H5EA_SBLOCK_SIZE w.hdr sblk_idx) <;> simp_all
    have := fits_defined w _ hfit
    rw [if_neg hc]; simp [this]

@[simp] theorem sblock_create_dblocks (p : Thing) (sc : Bool) (sblk_idx : Nat) (w : World) :
    (H5EA__sblock_create p sc sblk_idx w).2.2.dblocks = w.dblocks := by
  unfold H5EA__sblock_create
  by_cases hc : (w.fault = true ∨ H5MF_alloc_fits w (H5EA_SBLOCK_SIZE w.hdr sblk_idx) = false)
  · rw [if_pos hc]; simp
  · have hfit : H5MF_alloc_fits w (H5EA_SBLOCK_SIZE w.hdr sblk_idx) = true := by
      cases hh : H5MF_alloc_fits w (H5EA_SBLOCK_SIZE w.hdr sblk_idx) <;> simp_all
    have := fits_defined w _ hfit
    rw [if_neg hc]; simp [this]

@[simp] theorem sblock_create_dblk_pages (p : Thing) (sc : Bool) (sblk_idx : Nat) (w : World) :
    (H5EA__sblock_create p sc sblk_idx w).2.2.dblk_pages = w.dblk_pages := by
  unfold H5EA__sblock_create
  by_cases hc : (w.fault = true ∨ H5MF_alloc_fits w (H5EA_SBLOCK_SIZE w.hdr sblk_idx) = false)
  · rw [if_pos hc]; simp
  · have hfit : H5MF_alloc_fits w (H5EA_SBLOCK_SIZE w.hdr sblk_idx) = true := by
      cases hh : H5MF_alloc_fits w (H5EA_SBLOCK_SIZE w.hdr sblk_idx) <;> simp_all
    have := fits_defined w _ hfit
    rw [if_neg hc]; simp [this]

@[simp] theorem dblock_create_trace (p : Thing) (sc : Bool) (off : Nat) (n : Nat) (w : World) :
    (H5EA__dblock_create p sc off n w).2.2.trace = w.trace ++ [.dblock_create (H5EA__dblock_create p sc off n w).1 p off n (H5F_addr_defined (H5EA__dblock_create p sc off n w).1)] := by
  unfold H5EA__dblock_create
  by_cases hc : (w.fault = true ∨ H5MF_alloc_fits w (H5EA_DBLOCK_SIZE w.hdr n) = false)
  · rw [if_pos hc]; simp
  · have hfit : H5MF_alloc_fits w (H5EA_DBLOCK_SIZE w.hdr n) = true := by
      cases hh : H5MF_alloc_fits w (H5EA_DBLOCK_SIZE w.hdr n) <;> simp_all
    have := fits_defined w _ hfit
    rw [if_neg hc]; simp [this]

@[simp] theorem dblock_create_clock (p : Thing) (sc : Bool) (off : Nat) (n : Nat) (w : World) :
    (H5EA__dblock_create p sc off n w).2.2.clock = w.clock + 1 := by
  unfold H5EA__dblock_create
  by_cases hc : (w.fault = true ∨ H5MF_alloc_fits w (H5EA_DBLOCK_SIZE w.hdr n) = false)
  · rw [if_pos hc]; simp
  · have hfit : H5MF_alloc_fits w (H5EA_DBLOCK_SIZE w.hdr n) = true := by
      cases hh : H5MF_alloc_fits w (H5EA_DBLOCK_SIZE w.hdr n) <;> simp_all
    have := fits_defined w _ hfit
    rw [if_neg hc]; simp [this]

@[simp] theorem dblock_create_eoa (p : Thing) (sc : Bool) (off : Nat) (n : Nat) (w : World) :
    (H5EA__dblock_create p sc off n w).2.2.eoa = if H5F_addr_defined (H5EA__dblock_create p sc off n w).1 then w.eoa + H5EA_DBLOCK_SIZE w.hdr n else w.eoa := by
  unfold H5EA__dblock_create
  by_cases hc : (w.fault = true ∨ H5MF_alloc_fits w (H5EA_DBLOCK_SIZE w.hdr n) = false)
  · rw [if_pos hc]; simp
  · have hfit : H5MF_alloc_fits w (H5EA_DBLOCK_SIZE w.hdr n) = true := by
      cases hh : H5MF_alloc_fits w (H5EA_DBLOCK_SIZE w.hdr n) <;> simp_all
    have := fits_defined w _ hfit
    rw [if_neg hc]; simp [this]

theorem dblock_create_addr (p : Thing) (sc : Bool) (off : Nat) (n : Nat) (w : World) :
    (H5EA__dblock_create p sc off n w).1 = if H5F_addr_defined (H5EA__dblock_create p sc off n w).1 then w.eoa else HADDR_UNDEF := by
  unfold H5EA__dblock_create
  by_cases hc : (w.fault = true ∨ H5MF_alloc_fits w (H5EA_DBLOCK_SIZE w.hdr n) = false)
  · rw [if_pos hc]; simp
  · have hfit : H5MF_alloc_fits w (H5EA_DBLOCK_SIZE w.hdr n) = true := by
      cases hh : H5MF_alloc_fits w (H5EA_DBLOCK_SIZE w.hdr n) <;> simp_all
    have := fits_defined w _ hfit
    rw [if_neg hc]; simp [this]

@[simp] theorem dblock_create_sc (p : Thing) (sc : Bool) (off : Nat) (n : Nat) (w : World) :
    (H5EA__dblock_create p sc off n w).2.1 = (H5F_addr_defined (H5EA__dblock_create p sc off n w).1 || sc) := by
  unfold H5EA__dblock_create
  by_cases hc : (w.fault = true ∨ H5MF_alloc_fits w (H5EA_DBLOCK_SIZE w.hdr n) = false)
  · rw [if_pos hc]; simp
  · have hfit : H5MF_alloc_fits w (H5EA_DBLOCK_SIZE w.hdr n) = true := by
      cases hh : H5MF_alloc_fits w (H5EA_DBLOCK_SIZE w.hdr n) <;> simp_all
    have := fits_defined w _ hfit
    rw [if_neg hc]; simp [this]

@[simp] theorem dblock_create_max_idx_set (p : Thing) (sc : Bool) (off : Nat) (n : Nat) (w : World) :
    (H5EA__dblock_create p sc off n w).2.2.hdr.stats.max_idx_set = w.hdr.stats.max_idx_set := by
  unfold H5EA__dblock_create
  by_cases hc : (w.fault = true ∨ H5MF_alloc_fits w (H5EA_DBLOCK_SIZE w.hdr n) = false)
  · rw [if_pos hc]; simp
  · have hfit : H5MF_alloc_fits w (H5EA_DBLOCK_SIZE w.hdr n) = true := by
      cases hh : H5MF_alloc_fits w (H5EA_DBLOCK_SIZE w.hdr n) <;> simp_all
    have := fits_defined w _ hfit
    rw [if_neg hc]; simp [this]

@[simp] theorem dblock_create_faults (p : Thing) (sc : Bool) (off : Nat) (n : Nat) (w : World) :
    (H5EA__dblock_create p sc off n w).2.2.faults = w.faults := by
  unfold H5EA__dblock_create
  by_cases hc : (w.fault = true ∨ H5MF_alloc_fits w (H5EA_DBLOCK_SIZE w.hdr n) = false)
  · rw [if_pos hc]; simp
  · have hfit : H5MF_alloc_fits w (H5EA_DBLOCK_SIZE w.hdr n) = true := by
      cases hh : H5MF_alloc_fits w (H5EA_DBLOCK_SIZE w.hdr n) <;> simp_all
    have := fits_defined w _ hfit
    rw [if_neg hc]; simp [this]

@[simp] theorem dblock_create_errs (p : Thing) (sc : Bool) (off : Nat) (n : Nat) (w : World) :
    (H5EA__dblock_create p sc off n w).2.2.errs = w.errs := by
  unfold H5EA__dblock_create
  by_cases hc : (w.fault = true ∨ H5MF_alloc_fits w (H5EA_DBLOCK_SIZE w.hdr n) = false)
  · rw [if_pos hc]; simp
  · have hfit : H5MF_alloc_fits w (H5EA_DBLOCK_SIZE w.hdr n) = true := by
      cases hh : H5MF_alloc_fits w (H5EA_DBLOCK_SIZE w.hdr n) <;> simp_all
    have := fits_defined w _ hfit
    rw [if_neg hc]; simp [this]

@[simp] theorem dblock_create_handles (p : Thing) (sc : Bool) (off : Nat) (n : Nat) (w : World) :
    (H5EA__dblock_create p sc off n w).2.2.handles = w.handles := by
  unfold H5EA__dblock_create
  by_cases hc : (w.fault = true ∨ H5MF_alloc_fits w (H5EA_DBLOCK_SIZE w.hdr n) = false)
  · rw [if_pos hc]; simp
  · have hfit : H5MF_alloc_fits w (H5EA_DBLOCK_SIZE w.hdr n) = true := by
      cases hh : H5MF_alloc_fits w (H5EA_DBLOCK_SIZE w.hdr n) <;> simp_all
    have := fits_defined w _ hfit
    rw [if_neg hc]; simp [this]

@[simp] theorem dblock_create_flush_deps (p : Thing) (sc : Bool) (off : Nat) (n : Nat) (w : World) :
    (H5EA__dblock_create p sc off n w).2.2.flush_deps = w.flush_deps := by
  unfold H5EA__dblock_create
  by_cases hc : (w.fault = true ∨ H5MF_alloc_fits w (H5EA_DBLOCK_SIZE w.hdr n) = false)
  · rw [if_pos hc]; simp
  · have hfit : H5MF_alloc_fits w (H5EA_DBLOCK_SIZE w.hdr n) = true := by
      cases hh : H5MF_alloc_fits w (H5EA_DBLOCK_SIZE w.hdr n) <;> simp_all
    have := fits_defined w _ hfit
    rw [if_neg hc]; simp [this]

@[simp] theorem dblock_create_asserts_ok (p : Thing) (sc : Bool) (off : Nat) (n : Nat) (w : World) :
    (H5EA__dblock_create p sc off n w).2.2.asserts_ok = w.asserts_ok := by
  unfold H5EA__dblock_create
  by_cases hc : (w.fault = true ∨ H5MF_alloc_fits w (H5EA_DBLOCK_SIZE w.hdr n) = false)
  · rw [if_pos hc]; simp
  · have hfit : H5MF_alloc_fits w (H5EA_DBLOCK_SIZE w.hdr n) = true := by
      cases hh : H5MF_alloc_fits w (H5EA_DBLOCK_SIZE w.hdr n) <;> simp_all
    have := fits_defined w _ hfit
    rw [if_neg hc]; simp [this]

@[simp] theorem dblock_create_hdr_present (p : Thing) (sc : Bool) (off : Nat) (n : Nat) (w : World) :
    (H5EA__dblock_create p sc off n w).2.2.hdr_present = w.hdr_present := by
  unfold H5EA__dblock_create
  by_cases hc : (w.fault = true ∨ H5MF_alloc_fits w (H5EA_DBLOCK_SIZE w.hdr n) = false)
  · rw [if_pos hc]; simp
  · have hfit : H5MF_alloc_fits w (H5EA_DBLOCK_SIZE w.hdr n) = true := by
      cases hh : H5MF_alloc_fits w (H5EA_DBLOCK_SIZE w.hdr n) <;> simp_all
    have := fits_defined w _ hfit
    rw [if_neg hc]; simp [this]

@[simp] theorem dblock_create_hdr_addr (p : Thing) (sc : Bool) (off : Nat) (n : Nat) (w : World) :
    (H5EA__dblock_create p sc off n w).2.2.hdr.addr = w.hdr.addr := by
  unfold H5EA__dblock_create
  by_cases hc : (w.fault = true ∨ H5MF_alloc_fits w (H5EA_DBLOCK_SIZE w.hdr n) = false)
  · rw [if_pos hc]; simp
  · have hfit : H5MF_alloc_fits w (H5EA_DBLOCK_SIZE w.hdr n) = true := by
      cases hh : H5MF_alloc_fits w (H5EA_DBLOCK_SIZE w.hdr n) <;> simp_all
    have := fits_defined w _ hfit
    rw [if_neg hc]; simp [this]

@[simp] theorem dblock_create_hdr_cparam (p : Thing) (sc : Bool) (off : Nat) (n : Nat) (w : World) :
    (H5EA__dblock_create p sc off n w).2.2.hdr.cparam = w.hdr.cparam := by
  unfold H5EA__dblock_create
  by_cases hc : (w.fault = true ∨ H5MF_alloc_fits w (H5EA_DBLOCK_SIZE w.hdr n) = false)
  · rw [if_pos hc]; simp
  · have hfit : H5MF_alloc_fits w (H5EA_DBLOCK_SIZE w.hdr n) = true := by
      cases hh : H5MF_alloc_fits w (H5EA_DBLOCK_SIZE w.hdr n) <;> simp_all
    have := fits_defined w _ hfit
    rw [if_neg hc]; simp [this]

@[simp] theorem dblock_create_hdr_idx_blk_addr (p : Thing) (sc : Bool) (off : Nat) (n : Nat) (w : World) :
    (H5EA__dblock_create p sc off n w).2.2.hdr.idx_blk_addr = w.hdr.idx_blk_addr := by
  unfold H5EA__dblock_create
  by_cases hc : (w.fault = true ∨ H5MF_alloc_fits w (H5EA_DBLOCK_SIZE w.hdr n) = false)
  · rw [if_pos hc]; simp
  · have hfit : H5MF_alloc_fits w (H5EA_DBLOCK_SIZE w.hdr n) = true := by
      cases hh : H5MF_alloc_fits w (H5EA_DBLOCK_SIZE w.hdr n) <;> simp_all
    have := fits_defined w _ hfit
    rw [if_neg hc]; simp [this]

@[simp] theorem dblock_create_hdr_sblk_info (p : Thing) (sc : Bool) (off : Nat) (n : Nat) (w : World) :
    (H5EA__dblock_create p sc off n w).2.2.hdr.sblk_info = w.hdr.sblk_info := by
  unfold H5EA__dblock_create
  by_cases hc : (w.fault = true ∨ H5MF_alloc_fits w (H5EA_DBLOCK_SIZE w.hdr n) = false)
  · rw [if_pos hc]; simp
  · have hfit : H5MF_alloc_fits w (H5EA_DBLOCK_SIZE w.hdr n) = true := by
      cases hh : H5MF_alloc_fits w (H5EA_DBLOCK_SIZE w.hdr n) <;> simp_all
    have := fits_defined w _ hfit
    rw [if_neg hc]; simp [this]

@[simp] theorem dblock_create_hdr_nsblks (p : Thing) (sc : Bool) (off : Nat) (n : Nat) (w : World) :
    (H5EA__dblock_create p sc off n w).2.2.hdr.nsblks = w.hdr.nsblks := by
  unfold H5EA__dblock_create
  by_cases hc : (w.fault = true ∨ H5MF_alloc_fits w (H5EA_DBLOCK_SIZE w.hdr n) = false)
  · rw [if_pos hc]; simp
  · have hfit : H5MF_alloc_fits w (H5EA_DBLOCK_SIZE w.hdr n) = true := by
      cases hh : H5MF_alloc_fits w (H5EA_DBLOCK_SIZE w.hdr n) <;> simp_all
    have := fits_defined w _ hfit
    rw [if_neg hc]; simp [this]

@[simp] theorem dblock_create_hdr_dblk_page_nelmts (p : Thing) (sc : Bool) (off : Nat) (n : Nat) (w : World) :
    (H5EA__dblock_create p sc off n w).2.2.hdr.dblk_page_nelmts = w.hdr.dblk_page_nelmts := by
  unfold H5EA__dblock_create
  by_cases hc : (w.fault = true ∨ H5MF_alloc_fits w (H5EA_DBLOCK_SIZE w.hdr n) = false)
  · rw [if_pos hc]; simp
  · have hfit : H5MF_alloc_fits w (H5EA_DBLOCK_SIZE w.hdr n) = true := by
      cases hh : H5MF_alloc_fits w (H5EA_DBLOCK_SIZE w.hdr n) <;> simp_all
    have := fits_defined w _ hfit
    rw [if_neg hc]; simp [this]

@[simp] theorem dblock_create_hdr_iblock_nsblks (p : Thing) (sc : Bool) (off : Nat) (n : Nat) (w : World) :
    (H5EA__dblock_create p sc off n w).2.2.hdr.iblock_nsblks = w.hdr.iblock_nsblks := by
  unfold H5EA__dblock_create
  by_cases hc : (w.fault = true ∨ H5MF_alloc_fits w (H5EA_DBLOCK_SIZE w.hdr n) = false)
  · rw [if_pos hc]; simp
  · have hfit : H5MF_alloc_fits w (H5EA_DBLOCK_SIZE w.hdr n) = true := by
      cases hh : H5MF_alloc_fits w (H5EA_DBLOCK_SIZE w.hdr n) <;> simp_all
    have := fits_defined w _ hfit
    rw [if_neg hc]; simp [this]

@[simp] theorem dblock_create_hdr_sizeof_addr (p : Thing) (sc : Bool) (off : Nat) (n : Nat) (w : World) :
    (H5EA__dblock_create p sc off n w).2.2.hdr.sizeof_addr = w.hdr.sizeof_addr := by
  unfold H5EA__dblock_create
  by_cases hc : (w.fault = true ∨ H5MF_alloc_fits w (H5EA_DBLOCK_SIZE w.hdr n) = false)
  · rw [if_pos hc]; simp
  · have hfit : H5MF_alloc_fits w (H5EA_DBLOCK_SIZE w.hdr n) = true := by
      cases hh : H5MF_alloc_fits w (H5EA_DBLOCK_SIZE w.hdr n) <;> simp_all
    have := fits_defined w _ hfit
    rw [if_neg hc]; simp [this]

@[simp] theorem dblock_create_hdr_arr_off_size (p : Thing) (sc : Bool) (off : Nat) (n : Nat) (w : World) :
    (H5EA__dblock_create p sc off n w).2.2.hdr.arr_off_size = w.hdr.arr_off_size := by
  unfold H5EA__dblock_create
  by_cases hc : (w.fault = true ∨ H5MF_alloc_fits w (H5EA_DBLOCK_SIZE w.hdr n) = false)
  · rw [if_pos hc]; simp
  · have hfit : H5MF_alloc_fits w (H5EA_DBLOCK_SIZE w.hdr n) = true := by
      cases hh : H5MF_alloc_fits w (H5EA_DBLOCK_SIZE w.hdr n) <;> simp_all
    have := fits_defined w _ hfit
    rw [if_neg hc]; simp [this]

@[simp] theorem dblock_create_hdr_rc (p : Thing) (sc : Bool) (off : Nat) (n : Nat) (w : World) :
    (H5EA__dblock_create p sc off n w).2.2.hdr.rc = w.hdr.rc := by
  unfold H5EA__dblock_create
  by_cases hc : (w.fault = true ∨ H5MF_alloc_fits w (H5EA_DBLOCK_SIZE w.hdr n) = false)
  · rw [if_pos hc]; simp
  · have hfit : H5MF_alloc_fits w (H5EA_DBLOCK_SIZE w.hdr n) = true := by
      cases hh : H5MF_alloc_fits w (H5EA_DBLOCK_SIZE w.hdr n) <;> simp_all
    have := fits_defined w _ hfit
    rw [if_neg hc]; simp [this]

@[simp] theorem dblock_create_hdr_file_rc (p : Thing) (sc : Bool) (off : Nat) (n : Nat) (w : World) :
    (H5EA__dblock_create p sc off n w).2.2.hdr.file_rc = w.hdr.file_rc := by
  unfold H5EA__dblock_create
  by_cases hc : (w.fault = true ∨ H5MF_alloc_fits w (H5EA_DBLOCK_SIZE w.hdr n) = false)
  · rw [if_pos hc]; simp
  · have hfit : H5MF_alloc_fits w (H5EA_DBLOCK_SIZE w.hdr n) = true := by
      cases hh : H5MF_alloc_fits w (H5EA_DBLOCK_SIZE w.hdr n) <;> simp_all
    have := fits_defined w _ hfit
    rw [if_neg hc]; simp [this]

@[simp] theorem dblock_create_hdr_pending_delete (p : Thing) (sc : Bool) (off : Nat) (n : Nat) (w : World) :
    (H5EA__dblock_create p sc off n w).2.2.hdr.pending_delete = w.hdr.pending_delete := by
  unfold H5EA__dblock_create
  by_cases hc : (w.fault = true ∨ H5MF_alloc_fits w (H5EA_DBLOCK_SIZE w.hdr n) = false)
  · rw [if_pos hc]; simp
  · have hfit : H5MF_alloc_fits w (H5EA_DBLOCK_SIZE w.hdr n) = true := by
      cases hh : H5MF_alloc_fits w (H5EA_DBLOCK_SIZE w.hdr n) <;> simp_all
    have := fits_defined w _ hfit
    rw [if_neg hc]; simp [this]

@[simp] theorem dblock_create_hdr_f (p : Thing) (sc : Bool) (off : Nat) (n : Nat) (w : World) :
    (H5EA__dblock_create p sc off n w).2.2.hdr.f = w.hdr.f := by
  unfold H5EA__dblock_create
  by_cases hc : (w.fault = true ∨ H5MF_alloc_fits w (H5EA_DBLOCK_SIZE w.hdr n) = false)
  · rw [if_pos hc]; simp
  · have hfit : H5MF_alloc_fits w (H5EA_DBLOCK_SIZE w.hdr n) = true := by
      cases hh : H5MF_alloc_fits w (H5EA_DBLOCK_SIZE w.hdr n) <;> simp_all
    have := fits_defined w _ hfit
    rw [if_neg hc]; simp [this]

@[simp] theorem dblock_create_iblocks (p : Thing) (sc : Bool) (off : Nat) (n : Nat) (w : World) :
    (H5EA__dblock_create p sc off n w).2.2.iblocks = w.iblocks := by
  unfold H5EA__dblock_create
  by_cases hc : (w.fault = true ∨ H5MF_alloc_fits w (H5EA_DBLOCK_SIZE w.hdr n) = false)
  · rw [if_pos hc]; simp
  · have hfit : H5MF_alloc_fits w (H5EA_DBLOCK_SIZE w.hdr n) = true := by
      cases hh : H5MF_alloc_fits w (H5EA_DBLOCK_SIZE w.hdr n) <;> simp_all
    have := fits_defined w _ hfit
    rw [if_neg hc]; simp [this]

@[simp] theorem dblock_create_sblocks (p : Thing) (sc : Bool) (off : Nat) (n : Nat) (w : World) :
    (H5EA__dblock_create p sc off n w).2.2.sblocks = w.sblocks := by
  unfold H5EA__dblock_create
  by_cases hc : (w.fault = true ∨ H5MF_alloc_fits w (H5EA_DBLOCK_SIZE w.hdr n) = false)
  · rw [if_pos hc]; simp
  · have hfit : H5MF_alloc_fits w (H5EA_DBLOCK_SIZE w.hdr n) = true := by
      cases hh : H5MF_alloc_fits w (H5EA_DBLOCK_SIZE w.hdr n) <;> simp_all
    have := fits_defined w _ hfit
    rw [if_neg hc]; simp [this]

@[simp] theorem dblock_create_dblocks (p : Thing) (sc : Bool) (off : Nat) (n : Nat) (w : World) :
    (H5EA__dblock_create p sc off n w).2.2.dblocks = if H5F_addr_defined (H5EA__dblock_create p sc off n w).1 then Function.update w.dblocks w.eoa (some ⟨fun _ => w.hdr.cparam.cls.fill⟩) else w.dblocks := by
  unfold H5EA__dblock_create
  by_cases hc : (w.fault = true ∨ H5MF_alloc_fits w (H5EA_DBLOCK_SIZE w.hdr n) = false)
  · rw [if_pos hc]; simp
  · have hfit : H5MF_alloc_fits w (H5EA_DBLOCK_SIZE w.hdr n) = true := by
      cases hh : H5MF_alloc_fits w (H5EA_DBLOCK_SIZE w.hdr n) <;> simp_all
    have := fits_defined w _ hfit
    rw [if_neg hc]; simp [this]

@[simp] theorem dblock_create_dblk_pages (p : Thing) (sc : Bool) (off : Nat) (n : Nat) (w : World) :
    (H5EA__dblock_create p sc off n w).2.2.dblk_pages = w.dblk_pages := by
  unfold H5EA__dblock_create
  by_cases hc : (w.fault = true ∨ H5MF_alloc_fits w (H5EA_DBLOCK_SIZE w.hdr n) = false)
  · rw [if_pos hc]; simp
  · have hfit : H5MF_alloc_fits w (H5EA_DBLOCK_SIZE w.hdr n) = true := by
      cases hh : H5MF_alloc_fits w (H5EA_DBLOCK_SIZE w.hdr n) <;> simp_all
    have := fits_defined w _ hfit
    rw [if_neg hc]; simp [this]

theorem dblk_page_create_ret (p : Thing) (addr : Nat) (w : World) :
    (H5EA__dblk_page_create p addr w).1 = if w.fault then FAIL else SUCCEED := by
  unfold H5EA__dblk_page_create
  by_cases hc : w.fault = true
  · rw [if_pos hc]; simp [hc, FAIL]
  · rw [if_neg hc]; simp [hc, SUCCEED]

theorem dblk_page_create_neg (p : Thing) (addr : Nat) (w : World) :
    (decide ((H5EA__dblk_page_create p addr w).1 < 0)) = w.fault := by
  unfold H5EA__dblk_page_create
  by_cases hc : w.fault = true
  · rw [if_pos hc]; simp [hc, FAIL]
  · rw [if_neg hc]; simp [hc, SUCCEED]

@[simp] theorem dblk_page_create_trace (p : Thing) (addr : Nat) (w : World) :
    (H5EA__dblk_page_create p addr w).2.trace = w.trace ++ [.dblk_page_create addr p (!w.fault)] := by
  unfold H5EA__dblk_page_create
  by_cases hc : w.fault = true
  · rw [if_pos hc]; simp [hc, FAIL]
  · rw [if_neg hc]; simp [hc, SUCCEED]

@[simp] theorem dblk_page_create_clock (p : Thing) (addr : Nat) (w : World) :
    (H5EA__dblk_page_create p addr w).2.clock = w.clock + 1 := by
  unfold H5EA__dblk_page_create
  by_cases hc : w.fault = true
  · rw [if_pos hc]; simp [hc, FAIL]
  · rw [if_neg hc]; simp [hc, SUCCEED]

@[simp] theorem dblk_page_create_eoa (p : Thing) (addr : Nat) (w : World) :
    (H5EA__dblk_page_create p addr w).2.eoa = w.eoa := by
  unfold H5EA__dblk_page_create
  by_cases hc : w.fault = true
  · rw [if_pos hc]; simp [hc, FAIL]
  · rw [if_neg hc]; simp [hc, SUCCEED]

@[simp] theorem dblk_page_create_hdr (p : Thing) (addr : Nat) (w : World) :
    (H5EA__dblk_page_create p addr w).2.hdr = w.hdr := by
  unfold H5EA__dblk_page_create
  by_cases hc : w.fault = true
  · rw [if_pos hc]; simp [hc, FAIL]
  · rw [if_neg hc]; simp [hc, SUCCEED]

@[simp] theorem dblk_page_create_faults (p : Thing) (addr : Nat) (w : World) :
    (H5EA__dblk_page_create p addr w).2.faults = w.faults := by
  unfold H5EA__dblk_page_create
  by_cases hc : w.fault = true
  · rw [if_pos hc]; simp [hc, FAIL]
  · rw [if_neg hc]; simp [hc, SUCCEED]

@[simp] theorem dblk_page_create_errs (p : Thing) (addr : Nat) (w : World) :
    (H5EA__dblk_page_create p addr w).2.errs = w.errs := by
  unfold H5EA__dblk_page_create
  by_cases hc : w.fault = true
  · rw [if_pos hc]; simp [hc, FAIL]
  · rw [if_neg hc]; simp [hc, SUCCEED]

@[simp] theorem dblk_page_create_handles (p : Thing) (addr : Nat) (w : World) :
    (H5EA__dblk_page_create p addr w).2.handles = w.handles := by
  unfold H5EA__dblk_page_create
  by_cases hc : w.fault = true
  · rw [if_pos hc]; simp [hc, FAIL]
  · rw [if_neg hc]; simp [hc, SUCCEED]

@[simp] theorem dblk_page_create_flush_deps (p : Thing) (addr : Nat) (w : World) :
    (H5EA__dblk_page_create p addr w).2.flush_deps = w.flush_deps := by
  unfold H5EA__dblk_page_create
  by_cases hc : w.fault = true
  · rw [if_pos hc]; simp [hc, FAIL]
  · rw [if_neg hc]; simp [hc, SUCCEED]

@[simp] theorem dblk_page_create_asserts_ok (p : Thing) (addr : Nat) (w : World) :
    (H5EA__dblk_page_create p addr w).2.asserts_ok = w.asserts_ok := by
  unfold H5EA__dblk_page_create
  by_cases hc : w.fault = true
  · rw [if_pos hc]; simp [hc, FAIL]
  · rw [if_neg hc]; simp [hc, SUCCEED]

@[simp] theorem dblk_page_create_hdr_present (p : Thing) (addr : Nat) (w : World) :
    (H5EA__dblk_page_create p addr w).2.hdr_present = w.hdr_present := by
  unfold H5EA__dblk_page_create
  by_cases hc : w.fault = true
  · rw [if_pos hc]; simp [hc, FAIL]
  · rw [if_neg hc]; simp [hc, SUCCEED]

@[simp] theorem dblk_page_create_iblocks (p : Thing) (addr : Nat) (w : World) :
    (H5EA__dblk_page_create p addr w).2.iblocks = w.iblocks := by
  unfold H5EA__dblk_page_create
  by_cases hc : w.fault = true
  · rw [if_pos hc]; simp [hc, FAIL]
  · rw [if_neg hc]; simp [hc, SUCCEED]

@[simp] theorem dblk_page_create_sblocks (p : Thing) (addr : Nat) (w : World) :
    (H5EA__dblk_page_create p addr w).2.sblocks = w.sblocks := by
  unfold H5EA__dblk_page_create
  by_cases hc : w.fault = true
  · rw [if_pos hc]; simp [hc, FAIL]
  · rw [if_neg hc]; simp [hc, SUCCEED]

@[simp] theorem dblk_page_create_dblocks (p : Thing) (addr : Nat) (w : World) :
    (H5EA__dblk_page_create p addr w).2.dblocks = w.dblocks := by
  unfold H5EA__dblk_page_create
  by_cases hc : w.fault = true
  · rw [if_pos hc]; simp [hc, FAIL]
  · rw [if_neg hc]; simp [hc, SUCCEED]

@[simp] theorem dblk_page_create_dblk_pages (p : Thing) (addr : Nat) (w : World) :
    (H5EA__dblk_page_create p addr w).2.dblk_pages = if w.fault then w.dblk_pages else Function.update w.dblk_pages addr (some ⟨fun _ => w.hdr.cparam.cls.fill⟩) := by
  unfold H5EA__dblk_page_create
  by_cases hc : w.fault = true
  · rw [if_pos hc]; simp [hc, FAIL]
  · rw [if_neg hc]; simp [hc, SUCCEED]

@[simp] theorem iblock_protect_trace (fl : Nat) (w : World) :
    (H5EA__iblock_protect fl w).2.trace = w.trace ++ [.protect .iblock (w.hdr.idx_blk_addr) fl (H5EA__iblock_protect fl w).1.isSome] := by
  by_cases h1 : w.fault <;> by_cases h2 : (w.iblocks w.hdr.idx_blk_addr).isSome = true <;> simp [H5EA__iblock_protect, cache_protect, h1, h2]

@[simp] theorem iblock_protect_clock (fl : Nat) (w : World) :
    (H5EA__iblock_protect fl w).2.clock = w.clock + 1 := by
  simp [H5EA__iblock_protect, cache_protect]

@[simp] theorem iblock_protect_hdr (fl : Nat) (w : World) :
    (H5EA__iblock_protect fl w).2.hdr = w.hdr := by
  simp [H5EA__iblock_protect, cache_protect]

@[simp] theorem iblock_protect_hdr_present (fl : Nat) (w : World) :
    (H5EA__iblock_protect fl w).2.hdr_present = w.hdr_present := by
  simp [H5EA__iblock_protect, cache_protect]

@[simp] theorem iblock_protect_iblocks (fl : Nat) (w : World) :
    (H5EA__iblock_protect fl w).2.iblocks = w.iblocks := by
  simp [H5EA__iblock_protect, cache_protect]

@[simp] theorem iblock_protect_sblocks (fl : Nat) (w : World) :
    (H5EA__iblock_protect fl w).2.sblocks = w.sblocks := by
  simp [H5EA__iblock_protect, cache_protect]

@[simp] theorem iblock_protect_dblocks (fl : Nat) (w : World) :
    (H5EA__iblock_protect fl w).2.dblocks = w.dblocks := by
  simp [H5EA__iblock_protect, cache_protect]

@[simp] theorem iblock_protect_dblk_pages (fl : Nat) (w : World) :
    (H5EA__iblock_protect fl w).2.dblk_pages = w.dblk_pages := by
  simp [H5EA__iblock_protect, cache_protect]

@[simp] theorem iblock_protect_eoa (fl : Nat) (w : World) :
    (H5EA__iblock_protect fl w).2.eoa = w.eoa := by
  simp [H5EA__iblock_protect, cache_protect]

@[simp] theorem iblock_protect_faults (fl : Nat) (w : World) :
    (H5EA__iblock_protect fl w).2.faults = w.faults := by
  simp [H5EA__iblock_protect, cache_protect]

@[simp] theorem iblock_protect_errs (fl : Nat) (w : World) :
    (H5EA__iblock_protect fl w).2.errs = w.errs := by
  simp [H5EA__iblock_protect, cache_protect]

@[simp] theorem iblock_protect_handles (fl : Nat) (w : World) :
    (H5EA__iblock_protect fl w).2.handles = w.handles := by
  simp [H5EA__iblock_protect, cache_protect]

@[simp] theorem iblock_protect_flush_deps (fl : Nat) (w : World) :
    (H5EA__iblock_protect fl w).2.flush_deps = w.flush_deps := by
  simp [H5EA__iblock_protect, cache_protect]

@[simp] theorem iblock_protect_asserts_ok (fl : Nat) (w : World) :
    (H5EA__iblock_protect fl w).2.asserts_ok = w.asserts_ok := by
  simp [H5EA__iblock_protect, cache_protect]

theorem iblock_protect_eq (fl : Nat) (w : World) :
    (H5EA__iblock_protect fl w).1 = if w.fault = false ∧ (w.iblocks w.hdr.idx_blk_addr).isSome = true then some w.hdr.idx_blk_addr else none := by
  by_cases h1 : w.fault <;> by_cases h2 : (w.iblocks w.hdr.idx_blk_addr).isSome = true <;> simp [H5EA__iblock_protect, cache_protect, h1, h2]

@[simp] theorem sblock_protect_trace (a sblk_idx fl : Nat) (w : World) :
    (H5EA__sblock_protect a sblk_idx fl w).2.trace = w.trace ++ [.protect .sblock (a) fl (H5EA__sblock_protect a sblk_idx fl w).1.isSome] := by
  by_cases h1 : w.fault <;> by_cases h2 : (w.sblocks a).isSome = true <;> simp [H5EA__sblock_protect, cache_protect, h1, h2]

@[simp] theorem sblock_protect_clock (a sblk_idx fl : Nat) (w : World) :
    (H5EA__sblock_protect a sblk_idx fl w).2.clock = w.clock + 1 := by
  simp [H5EA__sblock_protect, cache_protect]

@[simp] theorem sblock_protect_hdr (a sblk_idx fl : Nat) (w : World) :
    (H5EA__sblock_protect a sblk_idx fl w).2.hdr = w.hdr := by
  simp [H5EA__sblock_protect, cache_protect]

@[simp] theorem sblock_protect_hdr_present (a sblk_idx fl : Nat) (w : World) :
    (H5EA__sblock_protect a sblk_idx fl w).2.hdr_present = w.hdr_present := by
  simp [H5EA__sblock_protect, cache_protect]

@[simp] theorem sblock_protect_iblocks (a sblk_idx fl : Nat) (w : World) :
    (H5EA__sblock_protect a sblk_idx fl w).2.iblocks = w.iblocks := by
  simp [H5EA__sblock_protect, cache_protect]

@[simp] theorem sblock_protect_sblocks (a sblk_idx fl : Nat) (w : World) :
    (H5EA__sblock_protect a sblk_idx fl w).2.sblocks = w.sblocks := by
  simp [H5EA__sblock_protect, cache_protect]

@[simp] theorem sblock_protect_dblocks (a sblk_idx fl : Nat) (w : World) :
    (H5EA__sblock_protect a sblk_idx fl w).2.dblocks = w.dblocks := by
  simp [H5EA__sblock_protect, cache_protect]

@[simp] theorem sblock_protect_dblk_pages (a sblk_idx fl : Nat) (w : World) :
    (H5EA__sblock_protect a sblk_idx fl w).2.dblk_pages = w.dblk_pages := by
  simp [H5EA__sblock_protect, cache_protect]

@[simp] theorem sblock_protect_eoa (a sblk_idx fl : Nat) (w : World) :
    (H5EA__sblock_protect a sblk_idx fl w).2.eoa = w.eoa := by
  simp [H5EA__sblock_protect, cache_protect]

@[simp] theorem sblock_protect_faults (a sblk_idx fl : Nat) (w : World) :
    (H5EA__sblock_protect a sblk_idx fl w).2.faults = w.faults := by
  simp [H5EA__sblock_protect, cache_protect]

@[simp] theorem sblock_protect_errs (a sblk_idx fl : Nat) (w : World) :
    (H5EA__sblock_protect a sblk_idx fl w).2.errs = w.errs := by
  simp [H5EA__sblock_protect, cache_protect]

@[simp] theorem sblock_protect_handles (a sblk_idx fl : Nat) (w : World) :
    (H5EA__sblock_protect a sblk_idx fl w).2.handles = w.handles := by
  simp [H5EA__sblock_protect, cache_protect]

@[simp] theorem sblock_protect_flush_deps (a sblk_idx fl : Nat) (w : World) :
    (H5EA__sblock_protect a sblk_idx fl w).2.flush_deps = w.flush_deps := by
  simp [H5EA__sblock_protect, cache_protect]

@[simp] theorem sblock_protect_asserts_ok (a sblk_idx fl : Nat) (w : World) :
    (H5EA__sblock_protect a sblk_idx fl w).2.asserts_ok = w.asserts_ok := by
  simp [H5EA__sblock_protect, cache_protect]

theorem sblock_protect_eq (a sblk_idx fl : Nat) (w : World) :
    (H5EA__sblock_protect a sblk_idx fl w).1 = if w.fault = false ∧ (w.sblocks a).isSome = true then some (sblock_of w.hdr a sblk_idx) else none := by
  by_cases h1 : w.fault <;> by_cases h2 : (w.sblocks a).isSome = true <;> simp [H5EA__sblock_protect, cache_protect, h1, h2]

@[simp] theorem dblock_protect_trace (a fl : Nat) (w : World) :
    (H5EA__dblock_protect a fl w).2.trace = w.trace ++ [.protect .dblock (a) fl (H5EA__dblock_protect a fl w).1.isSome] := by
  by_cases h1 : w.fault <;> by_cases h2 : (w.dblocks a).isSome = true <;> simp [H5EA__dblock_protect, cache_protect, h1, h2]

@[simp] theorem dblock_protect_clock (a fl : Nat) (w : World) :
    (H5EA__dblock_protect a fl w).2.clock = w.clock + 1 := by
  simp [H5EA__dblock_protect, cache_protect]

@[simp] theorem dblock_protect_hdr (a fl : Nat) (w : World) :
    (H5EA__dblock_protect a fl w).2.hdr = w.hdr := by
  simp [H5EA__dblock_protect, cache_protect]

@[simp] theorem dblock_protect_hdr_present (a fl : Nat) (w : World) :
    (H5EA__dblock_protect a fl w).2.hdr_present = w.hdr_present := by
  simp [H5EA__dblock_protect, cache_protect]

@[simp] theorem dblock_protect_iblocks (a fl : Nat) (w : World) :
    (H5EA__dblock_protect a fl w).2.iblocks = w.iblocks := by
  simp [H5EA__dblock_protect, cache_protect]

@[simp] theorem dblock_protect_sblocks (a fl : Nat) (w : World) :
    (H5EA__dblock_protect a fl w).2.sblocks = w.sblocks := by
  simp [H5EA__dblock_protect, cache_protect]

@[simp] theorem dblock_protect_dblocks (a fl : Nat) (w : World) :
    (H5EA__dblock_protect a fl w).2.dblocks = w.dblocks := by
  simp [H5EA__dblock_protect, cache_protect]

@[simp] theorem dblock_protect_dblk_pages (a fl : Nat) (w : World) :
    (H5EA__dblock_protect a fl w).2.dblk_pages = w.dblk_pages := by
  simp [H5EA__dblock_protect, cache_protect]

@[simp] theorem dblock_protect_eoa (a fl : Nat) (w : World) :
    (H5EA__dblock_protect a fl w).2.eoa = w.eoa := by
  simp [H5EA__dblock_protect, cache_protect]

@[simp] theorem dblock_protect_faults (a fl : Nat) (w : World) :
    (H5EA__dblock_protect a fl w).2.faults = w.faults := by
  simp [H5EA__dblock_protect, cache_protect]

@[simp] theorem dblock_protect_errs (a fl : Nat) (w : World) :
    (H5EA__dblock_protect a fl w).2.errs = w.errs := by
  simp [H5EA__dblock_protect, cache_protect]

@[simp] theorem dblock_protect_handles (a fl : Nat) (w : World) :
    (H5EA__dblock_protect a fl w).2.handles = w.handles := by
  simp [H5EA__dblock_protect, cache_protect]

@[simp] theorem dblock_protect_flush_deps (a fl : Nat) (w : World) :
    (H5EA__dblock_protect a fl w).2.flush_deps = w.flush_deps := by
  simp [H5EA__dblock_protect, cache_protect]

@[simp] theorem dblock_protect_asserts_ok (a fl : Nat) (w : World) :
    (H5EA__dblock_protect a fl w).2.asserts_ok = w.asserts_ok := by
  simp [H5EA__dblock_protect, cache_protect]

theorem dblock_protect_eq (a fl : Nat) (w : World) :
    (H5EA__dblock_protect a fl w).1 = if w.fault = false ∧ (w.dblocks a).isSome = true then some a else none := by
  by_cases h1 : w.fault <;> by_cases h2 : (w.dblocks a).isSome = true <;> simp [H5EA__dblock_protect, cache_protect, h1, h2]

@[simp] theorem dblk_page_protect_trace (a fl : Nat) (w : World) :
    (H5EA__dblk_page_protect a fl w).2.trace = w.trace ++ [.protect .dblk_page (a) fl (H5EA__dblk_page_protect a fl w).1.isSome] := by
  by_cases h1 : w.fault <;> by_cases h2 : (w.dblk_pages a).isSome = true <;> simp [H5EA__dblk_page_protect, cache_protect, h1, h2]

@[simp] theorem dblk_page_protect_clock (a fl : Nat) (w : World) :
    (H5EA__dblk_page_protect a fl w).2.clock = w.clock + 1 := by
  simp [H5EA__dblk_page_protect, cache_protect]

@[simp] theorem dblk_page_protect_hdr (a fl : Nat) (w : World) :
    (H5EA__dblk_page_protect a fl w).2.hdr = w.hdr := by
  simp [H5EA__dblk_page_protect, cache_protect]

@[simp] theorem dblk_page_protect_hdr_present (a fl : Nat) (w : World) :
    (H5EA__dblk_page_protect a fl w).2.hdr_present = w.hdr_present := by
  simp [H5EA__dblk_page_protect, cache_protect]

@[simp] theorem dblk_page_protect_iblocks (a fl : Nat) (w : World) :
    (H5EA__dblk_page_protect a fl w).2.iblocks = w.iblocks := by
  simp [H5EA__dblk_page_protect, cache_protect]

@[simp] theorem dblk_page_protect_sblocks (a fl : Nat) (w : World) :
    (H5EA__dblk_page_protect a fl w).2.sblocks = w.sblocks := by
  simp [H5EA__dblk_page_protect, cache_protect]

@[simp] theorem dblk_page_protect_dblocks (a fl : Nat) (w : World) :
    (H5EA__dblk_page_protect a fl w).2.dblocks = w.dblocks := by
  simp [H5EA__dblk_page_protect, cache_protect]

@[simp] theorem dblk_page_protect_dblk_pages (a fl : Nat) (w : World) :
    (H5EA__dblk_page_protect a fl w).2.dblk_pages = w.dblk_pages := by
  simp [H5EA__dblk_page_protect, cache_protect]

@[simp] theorem dblk_page_protect_eoa (a fl : Nat) (w : World) :
    (H5EA__dblk_page_protect a fl w).2.eoa = w.eoa := by
  simp [H5EA__dblk_page_protect, cache_protect]

@[simp] theorem dblk_page_protect_faults (a fl : Nat) (w : World) :
    (H5EA__dblk_page_protect a fl w).2.faults = w.faults := by
  simp [H5EA__dblk_page_protect, cache_protect]

@[simp] theorem dblk_page_protect_errs (a fl : Nat) (w : World) :
    (H5EA__dblk_page_protect a fl w).2.errs = w.errs := by
  simp [H5EA__dblk_page_protect, cache_protect]

@[simp] theorem dblk_page_protect_handles (a fl : Nat) (w : World) :
    (H5EA__dblk_page_protect a fl w).2.handles = w.handles := by
  simp [H5EA__dblk_page_protect, cache_protect]

@[simp] theorem dblk_page_protect_flush_deps (a fl : Nat) (w : World) :
    (H5EA__dblk_page_protect a fl w).2.flush_deps = w.flush_deps := by
  simp [H5EA__dblk_page_protect, cache_protect]

@[simp] theorem dblk_page_protect_asserts_ok (a fl : Nat) (w : World) :
    (H5EA__dblk_page_protect a fl w).2.asserts_ok = w.asserts_ok := by
  simp [H5EA__dblk_page_protect, cache_protect]

theorem dblk_page_protect_eq (a fl : Nat) (w : World) :
    (H5EA__dblk_page_protect a fl w).1 = if w.fault = false ∧ (w.dblk_pages a).isSome = true then some a else none := by
  by_cases h1 : w.fault <;> by_cases h2 : (w.dblk_pages a).isSome = true <;> simp [H5EA__dblk_page_protect, cache_protect, h1, h2]

@[simp] theorem hdr_protect_trace (a fl : Nat) (w : World) :
    (H5EA__hdr_protect a fl w).2.trace = w.trace ++ [.protect .hdr (a) fl (H5EA__hdr_protect a fl w).1.isSome] := by
  by_cases h1 : w.fault <;> by_cases h2 : (w.hdr_present && a == w.hdr.addr) = true <;> simp [H5EA__hdr_protect, cache_protect, h1, h2]

@[simp] theorem hdr_protect_clock (a fl : Nat) (w : World) :
    (H5EA__hdr_protect a fl w).2.clock = w.clock + 1 := by
  simp [H5EA__hdr_protect, cache_protect]

@[simp] theorem hdr_protect_hdr (a fl : Nat) (w : World) :
    (H5EA__hdr_protect a fl w).2.hdr = w.hdr := by
  simp [H5EA__hdr_protect, cache_protect]

@[simp] theorem hdr_protect_hdr_present (a fl : Nat) (w : World) :
    (H5EA__hdr_protect a fl w).2.hdr_present = w.hdr_present := by
  simp [H5EA__hdr_protect, cache_protect]

@[simp] theorem hdr_protect_iblocks (a fl : Nat) (w : World) :
    (H5EA__hdr_protect a fl w).2.iblocks = w.iblocks := by
  simp [H5EA__hdr_protect, cache_protect]

@[simp] theorem hdr_protect_sblocks (a fl : Nat) (w : World) :
    (H5EA__hdr_protect a fl w).2.sblocks = w.sblocks := by
  simp [H5EA__hdr_protect, cache_protect]

@[simp] theorem hdr_protect_dblocks (a fl : Nat) (w : World) :
    (H5EA__hdr_protect a fl w).2.dblocks = w.dblocks := by
  simp [H5EA__hdr_protect, cache_protect]

@[simp] theorem hdr_protect_dblk_pages (a fl : Nat) (w : World) :
    (H5EA__hdr_protect a fl w).2.dblk_pages = w.dblk_pages := by
  simp [H5EA__hdr_protect, cache_protect]

@[simp] theorem hdr_protect_eoa (a fl : Nat) (w : World) :
    (H5EA__hdr_protect a fl w).2.eoa = w.eoa := by
  simp [H5EA__hdr_protect, cache_protect]

@[simp] theorem hdr_protect_faults (a fl : Nat) (w : World) :
    (H5EA__hdr_protect a fl w).2.faults = w.faults := by
  simp [H5EA__hdr_protect, cache_protect]

@[simp] theorem hdr_protect_errs (a fl : Nat) (w : World) :
    (H5EA__hdr_protect a fl w).2.errs = w.errs := by
  simp [H5EA__hdr_protect, cache_protect]

@[simp] theorem hdr_protect_handles (a fl : Nat) (w : World) :
    (H5EA__hdr_protect a fl w).2.handles = w.handles := by
  simp [H5EA__hdr_protect, cache_protect]

@[simp] theorem hdr_protect_flush_deps (a fl : Nat) (w : World) :
    (H5EA__hdr_protect a fl w).2.flush_deps = w.flush_deps := by
  simp [H5EA__hdr_protect, cache_protect]

@[simp] theorem hdr_protect_asserts_ok (a fl : Nat) (w : World) :
    (H5EA__hdr_protect a fl w).2.asserts_ok = w.asserts_ok := by
  simp [H5EA__hdr_protect, cache_protect]

theorem hdr_protect_eq (a fl : Nat) (w : World) :
    (H5EA__hdr_protect a fl w).1 = if w.fault = false ∧ (w.hdr_present && a == w.hdr.addr) = true then some a else none := by
  by_cases h1 : w.fault <;> by_cases h2 : (w.hdr_present && a == w.hdr.addr) = true <;> simp [H5EA__hdr_protect, cache_protect, h1, h2]

@[simp] theorem cache_unprotect_trace (k : BlockKind) (a fl : Nat) (w : World) :
    (cache_unprotect k a fl w).2.trace = w.trace ++ [.unprotect k a fl (!w.fault)] := by
  simp [cache_unprotect]

@[simp] theorem cache_unprotect_clock (k : BlockKind) (a fl : Nat) (w : World) :
    (cache_unprotect k a fl w).2.clock = w.clock + 1 := by
  simp [cache_unprotect]

theorem cache_unprotect_neg (k : BlockKind) (a fl : Nat) (w : World) :
    ((cache_unprotect k a fl w).1 < 0) ↔ w.fault = true := by
  by_cases h : w.fault <;> simp [cache_unprotect, h, FAIL, SUCCEED]

@[simp] theorem hdr_modified_trace (w : World) :
    (H5EA__hdr_modified w).2.trace = w.trace ++ [.hdr_modified (!w.fault)] := by
  simp [H5EA__hdr_modified]

@[simp] theorem hdr_modified_clock (w : World) :
    (H5EA__hdr_modified w).2.clock = w.clock + 1 := by
  simp [H5EA__hdr_modified]

theorem hdr_modified_neg (w : World) :
    ((H5EA__hdr_modified w).1 < 0) ↔ w.fault = true := by
  by_cases h : w.fault <;> simp [H5EA__hdr_modified, h, FAIL, SUCCEED]

@[simp] theorem cache_unprotect_hdr (k : BlockKind) (a fl : Nat) (w : World) :
    (cache_unprotect k a fl w).2.hdr = w.hdr := by
  simp [cache_unprotect]

@[simp] theorem hdr_modified_hdr (w : World) :
    (H5EA__hdr_modified w).2.hdr = w.hdr := by
  simp [H5EA__hdr_modified]

@[simp] theorem cache_unprotect_hdr_present (k : BlockKind) (a fl : Nat) (w : World) :
    (cache_unprotect k a fl w).2.hdr_present = w.hdr_present := by
  simp [cache_unprotect]

@[simp] theorem hdr_modified_hdr_present (w : World) :
    (H5EA__hdr_modified w).2.hdr_present = w.hdr_present := by
  simp [H5EA__hdr_modified]

@[simp] theorem cache_unprotect_iblocks (k : BlockKind) (a fl : Nat) (w : World) :
    (cache_unprotect k a fl w).2.iblocks = w.iblocks := by
  simp [cache_unprotect]

@[simp] theorem hdr_modified_iblocks (w : World) :
    (H5EA__hdr_modified w).2.iblocks = w.iblocks := by
  simp [H5EA__hdr_modified]

@[simp] theorem cache_unprotect_sblocks (k : BlockKind) (a fl : Nat) (w : World) :
    (cache_unprotect k a fl w).2.sblocks = w.sblocks := by
  simp [cache_unprotect]

@[simp] theorem hdr_modified_sblocks (w : World) :
    (H5EA__hdr_modified w).2.sblocks = w.sblocks := by
  simp [H5EA__hdr_modified]

@[simp] theorem cache_unprotect_dblocks (k : BlockKind) (a fl : Nat) (w : World) :
    (cache_unprotect k a fl w).2.dblocks = w.dblocks := by
  simp [cache_unprotect]

@[simp] theorem hdr_modified_dblocks (w : World) :
    (H5EA__hdr_modified w).2.dblocks = w.dblocks := by
  simp [H5EA__hdr_modified]

@[simp] theorem cache_unprotect_dblk_pages (k : BlockKind) (a fl : Nat) (w : World) :
    (cache_unprotect k a fl w).2.dblk_pages = w.dblk_pages := by
  simp [cache_unprotect]

@[simp] theorem hdr_modified_dblk_pages (w : World) :
    (H5EA__hdr_modified w).2.dblk_pages = w.dblk_pages := by
  simp [H5EA__hdr_modified]

@[simp] theorem cache_unprotect_eoa (k : BlockKind) (a fl : Nat) (w : World) :
    (cache_unprotect k a fl w).2.eoa = w.eoa := by
  simp [cache_unprotect]

@[simp] theorem hdr_modified_eoa (w : World) :
    (H5EA__hdr_modified w).2.eoa = w.eoa := by
  simp [H5EA__hdr_modified]

@[simp] theorem cache_unprotect_faults (k : BlockKind) (a fl : Nat) (w : World) :
    (cache_unprotect k a fl w).2.faults = w.faults := by
  simp [cache_unprotect]

@[simp] theorem hdr_modified_faults (w : World) :
    (H5EA__hdr_modified w).2.faults = w.faults := by
  simp [H5EA__hdr_modified]

@[simp] theorem cache_unprotect_errs (k : BlockKind) (a fl : Nat) (w : World) :
    (cache_unprotect k a fl w).2.errs = w.errs := by
  simp [cache_unprotect]

@[simp] theorem hdr_modified_errs (w : World) :
    (H5EA__hdr_modified w).2.errs = w.errs := by
  simp [H5EA__hdr_modified]

@[simp] theorem cache_unprotect_handles (k : BlockKind) (a fl : Nat) (w : World) :
    (cache_unprotect k a fl w).2.handles = w.handles := by
  simp [cache_unprotect]

@[simp] theorem hdr_modified_handles (w : World) :
    (H5EA__hdr_modified w).2.handles = w.handles := by
  simp [H5EA__hdr_modified]

@[simp] theorem cache_unprotect_flush_deps (k : BlockKind) (a fl : Nat) (w : World) :
    (cache_unprotect k a fl w).2.flush_deps = w.flush_deps := by
  simp [cache_unprotect]

@[simp] theorem hdr_modified_flush_deps (w : World) :
    (H5EA__hdr_modified w).2.flush_deps = w.flush_deps := by
  simp [H5EA__hdr_modified]

@[simp] theorem cache_unprotect_asserts_ok (k : BlockKind) (a fl : Nat) (w : World) :
    (cache_unprotect k a fl w).2.asserts_ok = w.asserts_ok := by
  simp [cache_unprotect]

@[simp] theorem hdr_modified_asserts_ok (w : World) :
    (H5EA__hdr_modified w).2.asserts_ok = w.asserts_ok := by
  simp [H5EA__hdr_modified]

/-! ### Counting lemmas -/

@[simp] theorem nprot_nil (k : BlockKind) (a : Nat) : nprot k a [] = 0 := rfl
@[simp] theorem nunprot_nil (k : BlockKind) (a : Nat) : nunprot k a [] = 0 := rfl
@[simp] theorem nchild_nil (p : Thing) : nchild p [] = 0 := rfl

@[simp] theorem nprot_append (k : BlockKind) (a : Nat) (x y : List Event) :
    nprot k a (x ++ y) = nprot k a x + nprot k a y := by
  simp [nprot]

@[simp] theorem nunprot_append (k : BlockKind) (a : Nat) (x y : List Event) :
    nunprot k a (x ++ y) = nunprot k a x + nunprot k a y := by
  simp [nunprot]

@[simp] theorem nchild_append (p : Thing) (x y : List Event) :
    nchild p (x ++ y) = nchild p x + nchild p y := by
  simp [nchild]

theorem nprot_single (k : BlockKind) (a : Nat) (e : Event) :
    nprot k a [e] = if e.isProtectOf k a then 1 else 0 := by
  simp [nprot, List.countP_cons]

theorem nunprot_single (k : BlockKind) (a : Nat) (e : Event) :
    nunprot k a [e] = if e.isUnprotectOf k a then 1 else 0 := by
  simp [nunprot, List.countP_cons]

theorem nchild_single (p : Thing) (e : Event) :
    nchild p [e] = if e.childOf p then 1 else 0 := by
  simp [nchild, List.countP_cons]

/-! ### `WalkTrace` under one more call -/

theorem WalkTrace.wt_init (acc : Nat) : WalkTrace acc [] LookupLocals.init := by
  constructor <;> simp [LookupLocals.init, LookupLocals.held]
  intro k
  cases k <;> simp

/-- A call that is a creation without a successful child. -/
theorem WalkTrace.wt_create_plain {acc : Nat} {evs : List Event} {l l' : LookupLocals} {e : Event}
    (h : WalkTrace acc evs l) (hacc : acc &&& H5AC__READ_ONLY_FLAG = 0)
    (hk : e.createKind.isSome = true) (hc : ∀ p, e.childOf p = false)
    (hp : ∀ k a, e.isProtectOf k a = false)
    (hi : l'.iblock = l.iblock) (hs : l'.sblock = l.sblock) (hd : l'.dblock = l.dblock)
    (hg : l'.dblk_page = l.dblk_page) (hif : l'.iblock_cache_flags = l.iblock_cache_flags)
    (hsf : l'.sblock_cache_flags = l.sblock_cache_flags)
    (ht : l'.thing = none) :
    WalkTrace acc (evs ++ [e]) l' := by
  have hheld : ∀ k a, l'.held k a = l.held k a := by
    intro k a; cases k <;> simp [LookupLocals.held, hi, hs, hd, hg]
  constructor
  · intro x hx
    rcases List.mem_append.1 hx with hx | hx
    · exact h.calls x hx
    · simp at hx; subst hx; exact Or.inl hk
  · intro k a; simp [nprot_single, hp, hheld, h.held]
  · intro p; simp [nchild_single, hc, hheld]; exact h.children p
  · intro x hx q hq
    rcases List.mem_append.1 hx with hx | hx
    · exact h.parents x hx q hq
    · simp at hx; subst hx; rw [hc] at hq; cases hq
  · intro a ha; rw [hi] at ha; simp [release_flags, nchild_single, hc, hif]
    simpa [release_flags] using h.iflags a ha
  · intro sb ha; rw [hs] at ha; simp [release_flags, nchild_single, hc, hsf]
    simpa [release_flags] using h.sflags sb ha
  · intro ha; rw [hi] at ha; rw [hif]; exact h.iflags0 ha
  · intro ha; rw [hs] at ha; rw [hsf]; exact h.sflags0 ha
  · intro t ht'; simp [ht] at ht'
  · intro _; exact ⟨e, by simp, hk⟩
  · intro hro; exact absurd hacc hro


theorem held_congr {l l' : LookupLocals} (hi : l'.iblock = l.iblock) (hs : l'.sblock = l.sblock)
    (hd : l'.dblock = l.dblock) (hg : l'.dblk_page = l.dblk_page) (k : BlockKind) (a : Nat) :
    l'.held k a = l.held k a := by
  cases k <;> simp [LookupLocals.held, hi, hs, hd, hg]

/-- Locals that differ in neither the block pointers nor the flags. -/
theorem WalkTrace.wt_congr {acc : Nat} {evs : List Event} {l l' : LookupLocals}
    (h : WalkTrace acc evs l) (hb : SameBlocks l l')
    (hif : l'.iblock_cache_flags = l.iblock_cache_flags)
    (hsf : l'.sblock_cache_flags = l.sblock_cache_flags)
    (hdy : l'.hdr_dirty = l.hdr_dirty) (hsc : l'.stats_changed = l.stats_changed) :
    WalkTrace acc evs l' := by
  have hheld := held_congr hb.iblock hb.sblock hb.dblock hb.dblk_page
  constructor
  · exact h.calls
  · intro k a; rw [hheld]; exact h.held k a
  · intro p hp; rw [hheld]; exact h.children p hp
  · exact h.parents
  · intro a ha; rw [hb.iblock] at ha; rw [hif]; exact h.iflags a ha
  · intro sb ha; rw [hb.sblock] at ha; rw [hsf]; exact h.sflags sb ha
  · intro ha; rw [hb.iblock] at ha; rw [hif]; exact h.iflags0 ha
  · intro ha; rw [hb.sblock] at ha; rw [hsf]; exact h.sflags0 ha
  · intro t ht'; simp [hb.thing] at ht'
  · intro hx; rw [hdy, hsc] at hx; exact h.dirty hx
  · exact h.ro

theorem dirtied_or (x : Nat) (h : x = H5AC__DIRTIED_FLAG ∨ x = H5AC__NO_FLAGS_SET) :
    x ||| H5AC__DIRTIED_FLAG = H5AC__DIRTIED_FLAG := by
  rcases h with h | h <;> subst h <;> decide

theorem release_flags_cases (p : Thing) (evs : List Event) :
    release_flags p evs = H5AC__DIRTIED_FLAG ∨ release_flags p evs = H5AC__NO_FLAGS_SET := by
  unfold release_flags; split <;> simp

/-- A successful creation below the protected index block, after which the
index-block flags are dirtied. -/
theorem WalkTrace.wt_create_under_iblock {acc : Nat} {evs : List Event} {l l' : LookupLocals}
    {e : Event} {ib : Nat}
    (h : WalkTrace acc evs l) (hacc : acc &&& H5AC__READ_ONLY_FLAG = 0)
    (hk : e.createKind.isSome = true)
    (hc : ∀ p, e.childOf p = decide (p = ⟨.iblock, ib⟩))
    (hp : ∀ k a, e.isProtectOf k a = false)
    (hib : l.iblock = some ib) (hb : SameBlocks l l')
    (hif : l'.iblock_cache_flags = l.iblock_cache_flags ||| H5AC__DIRTIED_FLAG)
    (hsf : l'.sblock_cache_flags = l.sblock_cache_flags) :
    WalkTrace acc (evs ++ [e]) l' := by
  have hheld := held_congr hb.iblock hb.sblock hb.dblock hb.dblk_page
  constructor
  · intro x hx
    rcases List.mem_append.1 hx with hx | hx
    · exact h.calls x hx
    · simp at hx; subst hx; exact Or.inl hk
  · intro k a; simp [nprot_single, hp, hheld, h.held]
  · intro p; simp only [nchild_append, nchild_single, hc, hheld]
    by_cases hpe : p = ⟨.iblock, ib⟩
    · subst hpe; intro _; simp [LookupLocals.held, hib]
    · simp [hpe]; exact h.children p
  · intro x hx q hq
    rcases List.mem_append.1 hx with hx | hx
    · exact h.parents x hx q hq
    · simp at hx; subst hx; rw [hc] at hq; simp at hq; subst hq; exact Or.inl rfl
  · intro a ha; rw [hb.iblock, hib] at ha; cases ha
    rw [hif, h.iflags ib hib, dirtied_or _ (release_flags_cases _ _)]
    simp [release_flags, nchild_single, hc]
  · intro sb ha; rw [hb.sblock] at ha; rw [hsf, h.sflags sb ha]
    simp [release_flags, nchild_single, hc]
  · intro ha; rw [hb.iblock, hib] at ha; cases ha
  · intro ha; rw [hb.sblock] at ha; rw [hsf]; exact h.sflags0 ha
  · intro t ht'; simp [hb.thing] at ht'
  · intro _; exact ⟨e, by simp, hk⟩
  · intro hro; exact absurd hacc hro

/-- A successful creation below the protected super block, after which the
super-block flags are dirtied. -/
theorem WalkTrace.wt_create_under_sblock {acc : Nat} {evs : List Event} {l l' : LookupLocals}
    {e : Event} {sb : H5EA_sblock_t}
    (h : WalkTrace acc evs l) (hacc : acc &&& H5AC__READ_ONLY_FLAG = 0)
    (hk : e.createKind.isSome = true)
    (hc : ∀ p, e.childOf p = decide (p = ⟨.sblock, sb.addr⟩))
    (hp : ∀ k a, e.isProtectOf k a = false)
    (hsb : l.sblock = some sb) (hb : SameBlocks l l')
    (hif : l'.iblock_cache_flags = l.iblock_cache_flags)
    (hsf : l'.sblock_cache_flags = l.sblock_cache_flags ||| H5AC__DIRTIED_FLAG) :
    WalkTrace acc (evs ++ [e]) l' := by
  have hheld := held_congr hb.iblock hb.sblock hb.dblock hb.dblk_page
  constructor
  · intro x hx
    rcases List.mem_append.1 hx with hx | hx
    · exact h.calls x hx
    · simp at hx; subst hx; exact Or.inl hk
  · intro k a; simp [nprot_single, hp, hheld, h.held]
  · intro p; simp only [nchild_append, nchild_single, hc, hheld]
    by_cases hpe : p = ⟨.sblock, sb.addr⟩
    · subst hpe; intro _; simp [LookupLocals.held, hsb]
    · simp [hpe]; exact h.children p
  · intro x hx q hq
    rcases List.mem_append.1 hx with hx | hx
    · exact h.parents x hx q hq
    · simp at hx; subst hx; rw [hc] at hq; simp at hq; subst hq; exact Or.inr rfl
  · intro a ha; rw [hb.iblock] at ha; rw [hif, h.iflags a ha]
    simp [release_flags, nchild_single, hc]
  · intro sb' ha; rw [hb.sblock, hsb] at ha; cases ha
    rw [hsf, h.sflags sb hsb, dirtied_or _ (release_flags_cases _ _)]
    simp [release_flags, nchild_single, hc]
  · intro ha; rw [hb.iblock] at ha; rw [hif]; exact h.iflags0 ha
  · intro ha; rw [hb.sblock, hsb] at ha; cases ha
  · intro t ht'; simp [hb.thing] at ht'
  · intro _; exact ⟨e, by simp, hk⟩
  · intro hro; exact absurd hacc hro

/-- A failed protect. -/
theorem WalkTrace.wt_protect_fail {acc : Nat} {evs : List Event} {l l' : LookupLocals}
    (k : BlockKind) (a : Nat)
    (h : WalkTrace acc evs l) (hb : SameBlocks l l')
    (hif : l'.iblock_cache_flags = l.iblock_cache_flags)
    (hsf : l'.sblock_cache_flags = l.sblock_cache_flags)
    (hdy : l'.hdr_dirty = l.hdr_dirty) (hsc : l'.stats_changed = l.stats_changed) :
    WalkTrace acc (evs ++ [.protect k a acc false]) l' := by
  have hheld := held_congr hb.iblock hb.sblock hb.dblock hb.dblk_page
  constructor
  · intro x hx
    rcases List.mem_append.1 hx with hx | hx
    · exact h.calls x hx
    · simp at hx; subst hx; exact Or.inr ⟨k, a, false, rfl⟩
  · intro k' a'; simp [nprot_single, Event.isProtectOf, hheld, h.held]
  · intro p; simp [nchild_single, Event.childOf, hheld]; exact h.children p
  · intro x hx p hp
    rcases List.mem_append.1 hx with hx | hx
    · exact h.parents x hx p hp
    · simp at hx; subst hx; simp [Event.childOf] at hp
  · intro a' ha; rw [hb.iblock] at ha; rw [hif, h.iflags a' ha]
    simp [release_flags, nchild_single, Event.childOf]
  · intro sb' ha; rw [hb.sblock] at ha; rw [hsf, h.sflags sb' ha]
    simp [release_flags, nchild_single, Event.childOf]
  · intro ha; rw [hb.iblock] at ha; rw [hif]; exact h.iflags0 ha
  · intro ha; rw [hb.sblock] at ha; rw [hsf]; exact h.sflags0 ha
  · intro t ht'; simp [hb.thing] at ht'
  · intro hx; rw [hdy, hsc] at hx
    obtain ⟨e, he, hk⟩ := h.dirty hx
    exact ⟨e, List.mem_append_left _ he, hk⟩
  · intro hro x hx
    rcases List.mem_append.1 hx with hx | hx
    · exact h.ro hro x hx
    · simp at hx; subst hx; rfl

theorem nchild_zero_of_not_held {acc : Nat} {evs : List Event} {l : LookupLocals}
    (h : WalkTrace acc evs l) (p : Thing) (hp : l.held p.kind p.addr = 0) : nchild p evs = 0 := by
  by_contra hne
  have := h.children p (Nat.pos_of_ne_zero hne)
  omega

/-- A successful protect of a block the locals did not point to yet. -/
theorem WalkTrace.wt_protect_ok {acc : Nat} {evs : List Event} {l l' : LookupLocals}
    (k : BlockKind) (a : Nat)
    (h : WalkTrace acc evs l)
    (hnone : l.held k a = 0)
    (hheld : ∀ k' a', l'.held k' a' = l.held k' a' + if k' = k ∧ a' = a then 1 else 0)
    (hi : ∀ x, l'.iblock = some x → l.iblock = some x ∨ (k = .iblock ∧ x = a ∧ l.iblock = none))
    (hs : ∀ sb, l'.sblock = some sb →
      l.sblock = some sb ∨ (k = .sblock ∧ sb.addr = a ∧ l.sblock = none))
    (hi0 : l'.iblock = none → l.iblock = none) (hs0 : l'.sblock = none → l.sblock = none)
    (hif : l'.iblock_cache_flags = l.iblock_cache_flags)
    (hsf : l'.sblock_cache_flags = l.sblock_cache_flags)
    (hdy : l'.hdr_dirty = l.hdr_dirty) (hsc : l'.stats_changed = l.stats_changed)
    (ht : l'.thing = none ∨ (l'.thing = some ⟨k, a⟩ ∧ l'.ret_value = SUCCEED ∧ k ≠ .sblock ∧
      l'.thing_unprot_func = some k ∧ l'.thing_elmt_buf = some ⟨k, a⟩)) :
    WalkTrace acc (evs ++ [.protect k a acc true]) l' := by
  constructor
  · intro x hx
    rcases List.mem_append.1 hx with hx | hx
    · exact h.calls x hx
    · simp at hx; subst hx; exact Or.inr ⟨k, a, true, rfl⟩
  · intro k' a'
    simp only [nprot_append, nprot_single, Event.isProtectOf, hheld, h.held]
    by_cases hka : k' = k ∧ a' = a
    · simp [hka]
    · have : ¬ (k = k' ∧ a = a') := fun hh => hka ⟨hh.1.symm, hh.2.symm⟩
      simp [hka, this]
  · intro p hp
    simp [nchild_single, Event.childOf] at hp
    have := h.children p hp
    rw [hheld, this]
    have hne : ¬ (p.kind = k ∧ p.addr = a) := by
      rintro ⟨rfl, rfl⟩; omega
    simp [hne]
  · intro x hx p hp
    rcases List.mem_append.1 hx with hx | hx
    · exact h.parents x hx p hp
    · simp at hx; subst hx; simp [Event.childOf] at hp
  · intro x hx
    rw [hif]
    rcases hi x hx with h1 | ⟨rfl, rfl, h1⟩
    · rw [h.iflags x h1]; simp [release_flags, nchild_single, Event.childOf]
    · rw [h.iflags0 h1]
      have := nchild_zero_of_not_held h ⟨.iblock, x⟩ hnone
      simp [release_flags, nchild_single, Event.childOf, this]
  · intro sb hx
    rw [hsf]
    rcases hs sb hx with h1 | ⟨rfl, rfl, h1⟩
    · rw [h.sflags sb h1]; simp [release_flags, nchild_single, Event.childOf]
    · rw [h.sflags0 h1]
      have := nchild_zero_of_not_held h ⟨.sblock, sb.addr⟩ hnone
      simp [release_flags, nchild_single, Event.childOf, this]
  · intro hx; rw [hif]; exact h.iflags0 (hi0 hx)
  · intro hx; rw [hsf]; exact h.sflags0 (hs0 hx)
  · intro t ht'
    rcases ht with ht | ⟨ht, hr⟩
    · simp [ht] at ht'
    · rw [ht] at ht'; cases ht'
      refine ⟨?_, hr⟩
      rw [hheld, hnone]; simp
  · intro hx; rw [hdy, hsc] at hx
    obtain ⟨e, he, hk⟩ := h.dirty hx
    exact ⟨e, List.mem_append_left _ he, hk⟩
  · intro hro x hx
    rcases List.mem_append.1 hx with hx | hx
    · exact h.ro hro x hx
    · simp at hx; subst hx; rfl

/-- The protected index block becomes the `thing`. -/
theorem WalkTrace.wt_thing_iblock {acc : Nat} {evs : List Event} {l l' : LookupLocals}
    {ib : Nat} (h : WalkTrace acc evs l)
    (hib : l.iblock = some ib) (hr : l'.ret_value = SUCCEED)
    (hi : l'.iblock = l.iblock) (hs : l'.sblock = l.sblock) (hd : l'.dblock = l.dblock)
    (hg : l'.dblk_page = l.dblk_page)
    (hif : l'.iblock_cache_flags = l.iblock_cache_flags)
    (hsf : l'.sblock_cache_flags = l.sblock_cache_flags)
    (hdy : l'.hdr_dirty = l.hdr_dirty) (hsc : l'.stats_changed = l.stats_changed)
    (hf : l'.thing_unprot_func = some .iblock) (hbuf : l'.thing_elmt_buf = some ⟨.iblock, ib⟩)
    (ht : l'.thing = some ⟨.iblock, ib⟩) :
    WalkTrace acc evs l' := by
  have hheld := held_congr hi hs hd hg
  constructor
  · exact h.calls
  · intro k a; rw [hheld]; exact h.held k a
  · intro p hp; rw [hheld]; exact h.children p hp
  · exact h.parents
  · intro a ha; rw [hi] at ha; rw [hif]; exact h.iflags a ha
  · intro sb ha; rw [hs] at ha; rw [hsf]; exact h.sflags sb ha
  · intro ha; rw [hi] at ha; rw [hif]; exact h.iflags0 ha
  · intro ha; rw [hs] at ha; rw [hsf]; exact h.sflags0 ha
  · intro t ht'; rw [ht] at ht'; cases ht'
    exact ⟨by rw [hheld]; simp [LookupLocals.held, hib], hr, by simp, hf, hbuf⟩
  · intro hx; rw [hdy, hsc] at hx; exact h.dirty hx
  · exact h.ro

theorem SameBlocks.sb_refl (l : LookupLocals) (h : l.thing = none) : SameBlocks l l :=
  ⟨rfl, rfl, rfl, rfl, h⟩

theorem Walk.wk_append {t0 : List Event} {acc : Nat} {l l' : LookupLocals} {w w' : World}
    {e : Event} (h : Walk t0 acc l w) (htr : w'.trace = w.trace ++ [e])
    (hstep : ∀ evs, WalkTrace acc evs l → WalkTrace acc (evs ++ [e]) l') :
    Walk t0 acc l' w' := by
  obtain ⟨evs, h1, h2⟩ := h
  exact ⟨evs ++ [e], by rw [htr, h1, List.append_assoc], hstep evs h2⟩

theorem Walk.wk_same {t0 : List Event} {acc : Nat} {l l' : LookupLocals} {w w' : World}
    (h : Walk t0 acc l w) (htr : w'.trace = w.trace)
    (hstep : ∀ evs, WalkTrace acc evs l → WalkTrace acc evs l') :
    Walk t0 acc l' w' := by
  obtain ⟨evs, h1, h2⟩ := h
  exact ⟨evs, by rw [htr, h1], hstep evs h2⟩

theorem ensure_iblock_dblock_walk {t0 : List Event} {acc : Nat} {l : LookupLocals} {w : World}
    (sblk_idx : Nat) (ib : Nat) (dblk_idx : Nat)
    (h : Walk t0 acc l w) (ht : l.thing = none) (hib : l.iblock = some ib) :
    StagePost t0 acc l (lookup_ensure_iblock_dblock acc sblk_idx ib dblk_idx l w) := by
  unfold lookup_ensure_iblock_dblock StagePost
  by_cases hdef : H5F_addr_defined ((w.iblk ib).dblk_addrs dblk_idx) = false
  · by_cases hacc : acc &&& H5AC__READ_ONLY_FLAG = 0
    · simp only [hdef, hacc, if_true]
      split
      · rename_i hd
        refine ⟨h.wk_append (dblock_create_trace _ _ _ _ _) fun evs hw =>
          hw.wt_create_plain hacc rfl ?_ (fun _ _ => rfl) rfl rfl rfl rfl rfl rfl ht,
          ⟨rfl, rfl, rfl, rfl, ht⟩, by simp [Flow.isNext]⟩
        intro p; simp [Event.childOf, hd]
      · rename_i hd
        refine ⟨h.wk_append (dblock_create_trace _ _ _ _ _) fun evs hw =>
          @WalkTrace.wt_create_under_iblock _ _ _ _ _ ib hw hacc rfl ?_ (fun _ _ => rfl) hib
            ⟨rfl, rfl, rfl, rfl, ht⟩ rfl rfl, ⟨rfl, rfl, rfl, rfl, ht⟩, fun _ => rfl⟩
        intro p; simp at hd; simp [Event.childOf, hd]; constructor <;> (intro h; exact h.symm)
    · simp only [hdef, hacc, if_true, if_false]
      exact ⟨h.wk_same rfl fun evs hw => hw.wt_congr ⟨rfl, rfl, rfl, rfl, ht⟩ rfl rfl rfl rfl,
        ⟨rfl, rfl, rfl, rfl, ht⟩, by simp [Flow.isNext]⟩
  · simp only [hdef, if_false]
    exact ⟨h, SameBlocks.sb_refl l ht, fun _ => rfl⟩


theorem ensure_sblock_dblock_walk {t0 : List Event} {acc : Nat} {l : LookupLocals} {w : World}
    (sblk_idx : Nat) (sb : H5EA_sblock_t) (dblk_idx : Nat)
    (h : Walk t0 acc l w) (ht : l.thing = none) (hsb : l.sblock = some sb) :
    StagePost t0 acc l (lookup_ensure_sblock_dblock acc sblk_idx sb dblk_idx l w) := by
  unfold lookup_ensure_sblock_dblock StagePost
  by_cases hdef : H5F_addr_defined ((w.sblk sb.addr).dblk_addrs dblk_idx) = false
  · by_cases hacc : acc &&& H5AC__READ_ONLY_FLAG = 0
    · simp only [hdef, hacc, if_true]
      split
      · rename_i hd
        refine ⟨h.wk_append (dblock_create_trace _ _ _ _ _) fun evs hw =>
          hw.wt_create_plain hacc rfl ?_ (fun _ _ => rfl) rfl rfl rfl rfl rfl rfl ht,
          ⟨rfl, rfl, rfl, rfl, ht⟩, by simp [Flow.isNext]⟩
        intro p; simp [Event.childOf, hd]
      · rename_i hd
        refine ⟨h.wk_append (dblock_create_trace _ _ _ _ _) fun evs hw =>
          @WalkTrace.wt_create_under_sblock _ _ _ _ _ sb hw hacc rfl ?_ (fun _ _ => rfl) hsb
            ⟨rfl, rfl, rfl, rfl, ht⟩ rfl rfl, ⟨rfl, rfl, rfl, rfl, ht⟩, fun _ => rfl⟩
        intro p; simp at hd; simp [Event.childOf, hd]; constructor <;> (intro h; exact h.symm)
    · simp only [hdef, hacc, if_true, if_false]
      exact ⟨h.wk_same rfl fun evs hw => hw.wt_congr ⟨rfl, rfl, rfl, rfl, ht⟩ rfl rfl rfl rfl,
        ⟨rfl, rfl, rfl, rfl, ht⟩, by simp [Flow.isNext]⟩
  · simp only [hdef, if_false]
    exact ⟨h, SameBlocks.sb_refl l ht, fun _ => rfl⟩

theorem ensure_sblock_walk {t0 : List Event} {acc : Nat} {l : LookupLocals} {w : World}
    (sblk_idx : Nat) (ib : Nat) (sblk_off : Nat)
    (h : Walk t0 acc l w) (ht : l.thing = none) (hib : l.iblock = some ib) :
    StagePost t0 acc l (lookup_ensure_sblock acc sblk_idx ib sblk_off l w) := by
  unfold lookup_ensure_sblock StagePost
  by_cases hdef : H5F_addr_defined ((w.iblk ib).sblk_addrs sblk_off) = false
  · by_cases hacc : acc &&& H5AC__READ_ONLY_FLAG = 0
    · simp only [hdef, hacc, if_true]
      split
      · rename_i hd
        refine ⟨h.wk_append (sblock_create_trace _ _ _ _) fun evs hw =>
          hw.wt_create_plain hacc rfl ?_ (fun _ _ => rfl) rfl rfl rfl rfl rfl rfl ht,
          ⟨rfl, rfl, rfl, rfl, ht⟩, by simp [Flow.isNext]⟩
        intro p; simp [Event.childOf, hd]
      · rename_i hd
        refine ⟨h.wk_append (sblock_create_trace _ _ _ _) fun evs hw =>
          @WalkTrace.wt_create_under_iblock _ _ _ _ _ ib hw hacc rfl ?_ (fun _ _ => rfl) hib
            ⟨rfl, rfl, rfl, rfl, ht⟩ rfl rfl, ⟨rfl, rfl, rfl, rfl, ht⟩, fun _ => rfl⟩
        intro p; simp at hd; simp [Event.childOf, hd]; constructor <;> (intro h; exact h.symm)
    · simp only [hdef, hacc, if_true, if_false]
      exact ⟨h.wk_same rfl fun evs hw => hw.wt_congr ⟨rfl, rfl, rfl, rfl, ht⟩ rfl rfl rfl rfl,
        ⟨rfl, rfl, rfl, rfl, ht⟩, by simp [Flow.isNext]⟩
  · simp only [hdef, if_false]
    exact ⟨h, SameBlocks.sb_refl l ht, fun _ => rfl⟩

theorem ensure_page_walk {t0 : List Event} {acc : Nat} {l : LookupLocals} {w : World}
    (sb : H5EA_sblock_t) (page_init_idx : Nat) (addr : Nat)
    (h : Walk t0 acc l w) (ht : l.thing = none) (hsb : l.sblock = some sb) :
    StagePost t0 acc l (lookup_ensure_page acc sb page_init_idx addr l w) := by
  unfold lookup_ensure_page StagePost
  by_cases hdef : (w.sblk sb.addr).page_init page_init_idx = false
  · by_cases hacc : acc &&& H5AC__READ_ONLY_FLAG = 0
    · simp only [hdef, hacc, if_true]
      split
      · rename_i hd
        have hf : w.fault = true := by
          rw [dblk_page_create_ret] at hd
          by_contra hc; simp [hc, SUCCEED] at hd
        refine ⟨h.wk_append (dblk_page_create_trace _ _ _) fun evs hw =>
          hw.wt_create_plain hacc rfl ?_ (fun _ _ => rfl) rfl rfl rfl rfl rfl rfl ht,
          ⟨rfl, rfl, rfl, rfl, ht⟩, by simp [Flow.isNext]⟩
        intro p; simp [Event.childOf, hf]
      · rename_i hd
        have hf : w.fault = false := by
          rw [dblk_page_create_ret] at hd
          cases hc : w.fault <;> simp [hc, FAIL] at hd ⊢
        refine ⟨h.wk_append (dblk_page_create_trace _ _ _) fun evs hw =>
          @WalkTrace.wt_create_under_sblock _ _ _ _ _ sb hw hacc rfl ?_ (fun _ _ => rfl) hsb
            ⟨rfl, rfl, rfl, rfl, ht⟩ rfl rfl, ⟨rfl, rfl, rfl, rfl, ht⟩, fun _ => rfl⟩
        intro p; simp [Event.childOf, hf]; constructor <;> (intro h; exact h.symm)
    · simp only [hdef, hacc, if_true, if_false]
      exact ⟨h.wk_same rfl fun evs hw => hw.wt_congr ⟨rfl, rfl, rfl, rfl, ht⟩ rfl rfl rfl rfl,
        ⟨rfl, rfl, rfl, rfl, ht⟩, by simp [Flow.isNext]⟩
  · simp only [hdef, if_false]
    exact ⟨h, SameBlocks.sb_refl l ht, fun _ => rfl⟩

theorem ensure_iblock_walk {t0 : List Event} {acc : Nat} {l : LookupLocals} {w : World}
    (h : Walk t0 acc l w) (ht : l.thing = none) :
    StagePost t0 acc l (lookup_ensure_iblock acc l w) := by
  unfold lookup_ensure_iblock StagePost
  by_cases hdef : H5F_addr_defined w.hdr.idx_blk_addr = false
  · by_cases hacc : acc &&& H5AC__READ_ONLY_FLAG = 0
    · simp only [hdef, hacc, if_true]
      split
      · refine ⟨h.wk_append (iblock_create_trace _ _) fun evs hw =>
          hw.wt_create_plain hacc rfl (fun _ => rfl) (fun _ _ => rfl) rfl rfl rfl rfl rfl rfl ht,
          ⟨rfl, rfl, rfl, rfl, ht⟩, by simp [Flow.isNext]⟩
      · refine ⟨h.wk_append (iblock_create_trace _ _) fun evs hw =>
          hw.wt_create_plain hacc rfl (fun _ => rfl) (fun _ _ => rfl) rfl rfl rfl rfl rfl rfl ht,
          ⟨rfl, rfl, rfl, rfl, ht⟩, fun _ => rfl⟩
    · simp only [hdef, hacc, if_true, if_false]
      exact ⟨h.wk_same rfl fun evs hw => hw.wt_congr ⟨rfl, rfl, rfl, rfl, ht⟩ rfl rfl rfl rfl,
        ⟨rfl, rfl, rfl, rfl, ht⟩, by simp [Flow.isNext]⟩
  · simp only [hdef, if_false]
    exact ⟨h, SameBlocks.sb_refl l ht, fun _ => rfl⟩

theorem lookup_dblock_walk {t0 : List Event} {acc : Nat} {l : LookupLocals} {w : World}
    (a elmt_idx : Nat)
    (h : Walk t0 acc l w) (ht : l.thing = none) (hd : l.dblock = none)
    (hr : l.ret_value = SUCCEED) :
    Walk t0 acc (lookup_dblock acc a elmt_idx l w).1 (lookup_dblock acc a elmt_idx l w).2 := by
  unfold lookup_dblock
  have htr := dblock_protect_trace a acc w
  have heq := dblock_protect_eq a acc w
  cases hp : (H5EA__dblock_protect a acc w).1 with
  | none =>
    simp only [hp]
    rw [hp] at htr
    exact h.wk_append htr fun evs hw => hw.wt_protect_fail _ _ ⟨rfl, rfl, rfl, rfl, ht⟩ rfl rfl rfl rfl
  | some db =>
    simp only [hp]
    rw [hp] at htr heq
    have hdb : db = a := by
      split at heq <;> simp at heq; exact heq
    subst hdb
    refine h.wk_append htr fun evs hw => hw.wt_protect_ok .dblock db (by simp [LookupLocals.held, hd])
      ?_ (fun x hx => Or.inl hx) (fun x hx => Or.inl hx) (fun hx => hx) (fun hx => hx) rfl rfl
      rfl rfl (Or.inr ⟨rfl, hr, by simp, rfl, rfl⟩)
    intro k' a'
    cases k' <;> simp [LookupLocals.held, hd, eq_comm]

theorem lookup_page_walk {t0 : List Event} {acc : Nat} {l : LookupLocals} {w : World}
    (a elmt_idx : Nat)
    (h : Walk t0 acc l w) (ht : l.thing = none) (hd : l.dblk_page = none)
    (hr : l.ret_value = SUCCEED) :
    Walk t0 acc (lookup_page acc a elmt_idx l w).1 (lookup_page acc a elmt_idx l w).2 := by
  unfold lookup_page
  have htr := dblk_page_protect_trace a acc w
  have heq := dblk_page_protect_eq a acc w
  cases hp : (H5EA__dblk_page_protect a acc w).1 with
  | none =>
    simp only [hp]
    rw [hp] at htr
    exact h.wk_append htr fun evs hw => hw.wt_protect_fail _ _ ⟨rfl, rfl, rfl, rfl, ht⟩ rfl rfl rfl rfl
  | some db =>
    simp only [hp]
    rw [hp] at htr heq
    have hdb : db = a := by
      split at heq <;> simp at heq; exact heq
    subst hdb
    refine h.wk_append htr fun evs hw => hw.wt_protect_ok .dblk_page db
      (by simp [LookupLocals.held, hd])
      ?_ (fun x hx => Or.inl hx) (fun x hx => Or.inl hx) (fun hx => hx) (fun hx => hx) rfl rfl
      rfl rfl (Or.inr ⟨rfl, hr, by simp, rfl, rfl⟩)
    intro k' a'
    cases k' <;> simp [LookupLocals.held, hd, eq_comm]


theorem lookup_sblock_dblock_walk {t0 : List Event} {acc : Nat} {l : LookupLocals} {w : World}
    (sb : H5EA_sblock_t) (dblk_idx elmt_idx : Nat)
    (h : Walk t0 acc l w) (ht : l.thing = none) (hsb : l.sblock = some sb)
    (hd : l.dblock = none) (hg : l.dblk_page = none) (hr : l.ret_value = SUCCEED) :
    Walk t0 acc (lookup_sblock_dblock acc sb dblk_idx elmt_idx l w).1
      (lookup_sblock_dblock acc sb dblk_idx elmt_idx l w).2 := by
  unfold lookup_sblock_dblock
  split
  · have hs := ensure_page_walk sb
      (u64 (dblk_idx * sb.dblk_npages + elmt_idx / w.hdr.dblk_page_nelmts))
      (u64 ((w.sblk sb.addr).dblk_addrs dblk_idx + H5EA_DBLOCK_PREFIX_SIZE w.hdr
        + elmt_idx / w.hdr.dblk_page_nelmts * sb.dblk_page_size)) h ht hsb
    simp only []
    split
    · rename_i l' w' heq
      rw [heq] at hs
      exact hs.1
    · rename_i l' w' heq
      rw [heq] at hs
      obtain ⟨h1, h2, h3⟩ := hs
      exact lookup_page_walk _ _ h1 h2.thing (h2.dblk_page.trans hg) ((h3 rfl).trans hr)
  · exact lookup_dblock_walk _ _ h ht hd hr

theorem lookup_sblock_walk {t0 : List Event} {acc : Nat} {l : LookupLocals} {w : World}
    (sblk_idx a elmt_idx : Nat)
    (h : Walk t0 acc l w) (ht : l.thing = none) (hsb : l.sblock = none)
    (hd : l.dblock = none) (hg : l.dblk_page = none) (hr : l.ret_value = SUCCEED) :
    Walk t0 acc (lookup_sblock acc sblk_idx a elmt_idx l w).1
      (lookup_sblock acc sblk_idx a elmt_idx l w).2 := by
  unfold lookup_sblock
  have htr := sblock_protect_trace a sblk_idx acc w
  have heq := sblock_protect_eq a sblk_idx acc w
  cases hp : (H5EA__sblock_protect a sblk_idx acc w).1 with
  | none =>
    simp only [hp]
    rw [hp] at htr
    exact h.wk_append htr fun evs hw => hw.wt_protect_fail _ _ ⟨rfl, rfl, rfl, rfl, ht⟩ rfl rfl rfl rfl
  | some sb =>
    simp only [hp]
    rw [hp] at htr heq
    have hsa : sb.addr = a := by
      split at heq <;> simp at heq; rw [heq]; rfl
    have h1 : Walk t0 acc { l with sblock := some sb }
        ((H5EA__sblock_protect a sblk_idx acc w).2.HDassert
          (decide (u64 (elmt_idx / sb.dblk_nelmts) < sb.ndblks))) := by
      refine h.wk_append (e := .protect .sblock a acc true) htr fun evs hw =>
        hw.wt_protect_ok .sblock a (by simp [LookupLocals.held, hsb]) ?_ (fun x hx => Or.inl hx)
          ?_ (fun hx => hx) (fun hx => by simp at hx) rfl rfl rfl rfl (Or.inl ht)
      · intro k' a'
        cases k' <;> simp [LookupLocals.held, hsa, hsb, eq_comm]
      · intro sb' hx
        simp at hx; subst hx
        exact Or.inr ⟨rfl, hsa, hsb⟩
    have hs := ensure_sblock_dblock_walk sblk_idx sb (u64 (elmt_idx / sb.dblk_nelmts)) h1 ht rfl
    split
    · rename_i l' w' heq'
      rw [heq'] at hs
      exact hs.1
    · rename_i l' w' heq'
      rw [heq'] at hs
      obtain ⟨h2, h3, h4⟩ := hs
      exact lookup_sblock_dblock_walk _ _ _ h2 h3.thing h3.sblock (h3.dblock.trans hd)
        (h3.dblk_page.trans hg) ((h4 rfl).trans hr)

theorem lookup_via_sblock_walk {t0 : List Event} {acc : Nat} {l : LookupLocals} {w : World}
    (sblk_idx ib elmt_idx : Nat)
    (h : Walk t0 acc l w) (ht : l.thing = none) (hib : l.iblock = some ib)
    (hsb : l.sblock = none)
    (hd : l.dblock = none) (hg : l.dblk_page = none) (hr : l.ret_value = SUCCEED) :
    Walk t0 acc (lookup_via_sblock acc sblk_idx ib elmt_idx l w).1
      (lookup_via_sblock acc sblk_idx ib elmt_idx l w).2 := by
  unfold lookup_via_sblock
  have hs := ensure_sblock_walk sblk_idx ib (sblk_idx - w.hdr.iblock_nsblks) h ht hib
  simp only []
  split
  · rename_i l' w' heq
    rw [heq] at hs
    exact hs.1
  · rename_i l' w' heq
    rw [heq] at hs
    obtain ⟨h1, h2, h3⟩ := hs
    exact lookup_sblock_walk _ _ _ h1 h2.thing (h2.sblock.trans hsb) (h2.dblock.trans hd)
      (h2.dblk_page.trans hg) ((h3 rfl).trans hr)

theorem lookup_via_iblock_walk {t0 : List Event} {acc : Nat} {l : LookupLocals} {w : World}
    (sblk_idx ib elmt_idx : Nat)
    (h : Walk t0 acc l w) (ht : l.thing = none) (hib : l.iblock = some ib)
    (hd : l.dblock = none) (hr : l.ret_value = SUCCEED) :
    Walk t0 acc (lookup_via_iblock acc sblk_idx ib elmt_idx l w).1
      (lookup_via_iblock acc sblk_idx ib elmt_idx l w).2 := by
  unfold lookup_via_iblock
  have hs := ensure_iblock_dblock_walk sblk_idx ib
    (u64 ((w.hdr.sblk_info sblk_idx).start_dblk
      + elmt_idx / (w.hdr.sblk_info sblk_idx).dblk_nelmts)) h ht hib
  simp only []
  split
  · rename_i l' w' heq
    rw [heq] at hs
    exact hs.1
  · rename_i l' w' heq
    rw [heq] at hs
    obtain ⟨h1, h2, h3⟩ := hs
    exact lookup_dblock_walk _ _ h1 h2.thing (h2.dblock.trans hd) ((h3 rfl).trans hr)

theorem lookup_in_iblock_walk {t0 : List Event} {acc : Nat} {l : LookupLocals} {w : World}
    (idx ib : Nat)
    (h : Walk t0 acc l w) (ht : l.thing = none) (hib : l.iblock = some ib)
    (hsb : l.sblock = none)
    (hd : l.dblock = none) (hg : l.dblk_page = none) (hr : l.ret_value = SUCCEED) :
    Walk t0 acc (lookup_in_iblock idx acc ib l w).1 (lookup_in_iblock idx acc ib l w).2 := by
  unfold lookup_in_iblock
  split
  · exact h.wk_same rfl fun evs hw => hw.wt_thing_iblock hib hr rfl rfl rfl rfl rfl rfl rfl rfl rfl rfl rfl
  · simp only []
    split
    · exact lookup_via_iblock_walk _ _ _ h ht hib hd hr
    · exact lookup_via_sblock_walk _ _ _ h ht hib hsb hd hg hr

theorem lookup_body_walk (ea : H5EA_t) (idx acc : Nat) (w : World) :
    Walk w.trace acc (lookup_body ea idx acc w).1 (lookup_body ea idx acc w).2 := by
  unfold lookup_body
  have h0 : Walk w.trace acc LookupLocals.init { w with hdr := { w.hdr with f := ea.f } } :=
    ⟨[], by simp, WalkTrace.wt_init acc⟩
  have hs := ensure_iblock_walk h0 rfl
  split
  · rename_i l' w' heq
    rw [heq] at hs
    exact hs.1
  · rename_i l' w' heq
    rw [heq] at hs
    obtain ⟨h1, h2, h3⟩ := hs
    simp only [Flow.locals, Flow.world] at h1 h2 h3
    have htr := iblock_protect_trace acc w'
    have heq' := iblock_protect_eq acc w'
    simp only []
    cases hp : (H5EA__iblock_protect acc w').1 with
    | none =>
      simp only [hp]
      rw [hp] at htr
      exact h1.wk_append htr fun evs hw =>
        hw.wt_protect_fail _ _ ⟨rfl, rfl, rfl, rfl, h2.thing⟩ rfl rfl rfl rfl
    | some ib =>
      simp only [hp]
      rw [hp] at htr heq'
      have hia : ib = w'.hdr.idx_blk_addr := by
        split at heq' <;> simp at heq'; exact heq'
      have hin : l'.iblock = none := h2.iblock
      have h4 : Walk w.trace acc { l' with iblock := some ib }
          (H5EA__iblock_protect acc w').2 := by
        refine h1.wk_append (e := .protect .iblock ib acc true) (by rw [htr, hia]; rfl) fun evs hw =>
          hw.wt_protect_ok .iblock ib (by simp [LookupLocals.held, hin]) ?_ ?_
            (fun x hx => Or.inl hx) (fun hx => by simp at hx) (fun hx => hx) rfl rfl
            rfl rfl (Or.inl h2.thing)
        · intro k' a'
          cases k' <;> simp [LookupLocals.held, hin, eq_comm]
        · intro x hx
          simp at hx; subst hx
          exact Or.inr ⟨rfl, rfl, hin⟩
      exact lookup_in_iblock_walk idx ib h4 h2.thing rfl h2.sblock h2.dblock h2.dblk_page
        (h3 rfl)

/-! ### The `CATCH` section -/

theorem catch_release_locals (k : BlockKind) (blk : Option Nat) (flags : Nat) (l : LookupLocals)
    (w : World) :
    (catch_release k blk flags l w).1 = l ∨
      (catch_release k blk flags l w).1 = { l with ret_value := FAIL } := by
  unfold catch_release
  split
  · split
    · simp only []
      split
      · exact Or.inr rfl
      · exact Or.inl rfl
    · exact Or.inl rfl
  · exact Or.inl rfl

theorem catch_release_trace (k : BlockKind) (blk : Option Nat) (flags : Nat) (l : LookupLocals)
    (w : World) :
    ∃ cevs, (catch_release k blk flags l w).2.trace = w.trace ++ cevs ∧
      (∀ e ∈ cevs, ∃ a, blk = some a ∧ e = .unprotect k a flags e.ok) ∧
      (∀ k' a', nunprot k' a' cevs =
        if k' = k ∧ blk = some a' ∧ l.thing ≠ some ⟨k, a'⟩ then 1 else 0) ∧
      (0 ≤ (catch_release k blk flags l w).1.ret_value →
        (catch_release k blk flags l w).1 = l ∧ ∀ e ∈ cevs, e.ok = true) ∧
      ((∀ e ∈ cevs, e.ok = true) → (catch_release k blk flags l w).1 = l) := by
  unfold catch_release
  cases blk with
  | none => exact ⟨[], by simp, by simp, by simp, by simp, by simp⟩
  | some a =>
    by_cases ht : l.thing ≠ some ⟨k, a⟩
    · dsimp only
      rw [if_pos ht]
      by_cases hf : w.fault = true
      · have hneg := (cache_unprotect_neg k a flags w).2 hf
        rw [if_pos hneg]
        refine ⟨[.unprotect k a flags (!w.fault)], by simp, ?_, ?_, ?_, ?_⟩
        · intro e he; simp at he; subst he; exact ⟨a, rfl, rfl⟩
        · intro k' a'
          simp only [nunprot_single, Event.isUnprotectOf]
          by_cases hk : k' = k
          · subst hk
            by_cases ha : a' = a
            · subst ha; simp [ht]
            · have : ¬ a = a' := fun h => ha h.symm
              simp [ha, this]
          · have : ¬ k = k' := fun h => hk h.symm
            simp [hk, this]
        · intro h; simp [FAIL] at h
        · intro h; have := h _ (List.mem_singleton.2 rfl); simp [Event.ok, hf] at this
      · have hneg : ¬ (cache_unprotect k a flags w).1 < 0 := fun h =>
          hf ((cache_unprotect_neg k a flags w).1 h)
        rw [if_neg hneg]
        refine ⟨[.unprotect k a flags (!w.fault)], by simp, ?_, ?_, ?_, ?_⟩
        · intro e he; simp at he; subst he; exact ⟨a, rfl, rfl⟩
        · intro k' a'
          simp only [nunprot_single, Event.isUnprotectOf]
          by_cases hk : k' = k
          · subst hk
            by_cases ha : a' = a
            · subst ha; simp [ht]
            · have : ¬ a = a' := fun h => ha h.symm
              simp [ha, this]
          · have : ¬ k = k' := fun h => hk h.symm
            simp [hk, this]
        · intro _; refine ⟨rfl, ?_⟩
          intro e he; simp at he; subst he; simp [Event.ok, hf]
        · intro _; rfl
    · dsimp only
      rw [if_neg ht]
      refine ⟨[], by simp, by simp, ?_, by simp, by simp⟩
      intro k' a'
      simp at ht
      by_cases hk : k' = k
      · subst hk
        by_cases ha : a = a'
        · subst ha; simp [ht]
        · simp [ha]
      · simp [hk]


theorem SameButRet.sr_refl (l : LookupLocals) : SameButRet l l := by
  constructor <;> rfl

theorem SameButRet.sr_trans {a b c : LookupLocals} (h1 : SameButRet a b) (h2 : SameButRet b c) :
    SameButRet a c := by
  constructor
  · exact h2.iblock.trans h1.iblock
  · exact h2.sblock.trans h1.sblock
  · exact h2.dblock.trans h1.dblock
  · exact h2.dblk_page.trans h1.dblk_page
  · exact h2.iblock_cache_flags.trans h1.iblock_cache_flags
  · exact h2.sblock_cache_flags.trans h1.sblock_cache_flags
  · exact h2.thing.trans h1.thing
  · exact h2.thing_elmt_buf.trans h1.thing_elmt_buf
  · exact h2.thing_elmt_idx.trans h1.thing_elmt_idx
  · exact h2.thing_unprot_func.trans h1.thing_unprot_func

theorem catch_release_same (k : BlockKind) (blk : Option Nat) (flags : Nat) (l : LookupLocals)
    (w : World) : SameButRet l (catch_release k blk flags l w).1 := by
  rcases catch_release_locals k blk flags l w with h | h <;> rw [h] <;> constructor <;> rfl

theorem catch_release_ret (k : BlockKind) (blk : Option Nat) (flags : Nat) (l : LookupLocals)
    (w : World) :
    (catch_release k blk flags l w).1.ret_value = FAIL ∨
      (catch_release k blk flags l w).1.ret_value = l.ret_value := by
  rcases catch_release_locals k blk flags l w with h | h <;> rw [h]
  · exact Or.inr rfl
  · exact Or.inl rfl

theorem catch_release_sblock_locals (l : LookupLocals) (w : World) :
    (catch_release_sblock l w).1 = l ∨
      (catch_release_sblock l w).1 = { l with ret_value := FAIL } := by
  unfold catch_release_sblock
  split
  · dsimp only
    split
    · exact Or.inr rfl
    · exact Or.inl rfl
  · exact Or.inl rfl

theorem catch_release_sblock_same (l : LookupLocals) (w : World) :
    SameButRet l (catch_release_sblock l w).1 := by
  rcases catch_release_sblock_locals l w with h | h <;> rw [h] <;> constructor <;> rfl

theorem catch_release_sblock_ret (l : LookupLocals) (w : World) :
    (catch_release_sblock l w).1.ret_value = FAIL ∨
      (catch_release_sblock l w).1.ret_value = l.ret_value := by
  rcases catch_release_sblock_locals l w with h | h <;> rw [h]
  · exact Or.inr rfl
  · exact Or.inl rfl

theorem catch_release_sblock_trace (l : LookupLocals) (w : World) :
    ∃ cevs, (catch_release_sblock l w).2.trace = w.trace ++ cevs ∧
      (∀ e ∈ cevs, ∃ sb, l.sblock = some sb ∧
        e = .unprotect .sblock sb.addr l.sblock_cache_flags e.ok) ∧
      (∀ k' a', nunprot k' a' cevs =
        if k' = .sblock ∧ l.sblock.map (fun sb => sb.addr) = some a' then 1 else 0) ∧
      (0 ≤ (catch_release_sblock l w).1.ret_value →
        (catch_release_sblock l w).1 = l ∧ ∀ e ∈ cevs, e.ok = true) ∧
      ((∀ e ∈ cevs, e.ok = true) → (catch_release_sblock l w).1 = l) := by
  unfold catch_release_sblock
  cases hsb : l.sblock with
  | none => exact ⟨[], by simp, by simp, by simp, by simp, by simp⟩
  | some sb =>
    dsimp only
    have hcnt : ∀ k' a', nunprot k' a'
        [Event.unprotect .sblock sb.addr l.sblock_cache_flags (!w.fault)] =
        if k' = .sblock ∧ Option.map (fun sb => sb.addr) (some sb) = some a' then 1 else 0 := by
      intro k' a'
      simp only [nunprot_single, Event.isUnprotectOf]
      by_cases hk : k' = .sblock
      · subst hk
        by_cases ha : sb.addr = a'
        · subst ha; simp
        · simp [ha]
      · have : ¬ BlockKind.sblock = k' := fun h => hk h.symm
        simp [hk, this]
    by_cases hf : w.fault = true
    · have hneg := (cache_unprotect_neg .sblock sb.addr l.sblock_cache_flags w).2 hf
      rw [if_pos hneg]
      refine ⟨[.unprotect .sblock sb.addr l.sblock_cache_flags (!w.fault)], by simp, ?_, hcnt,
        ?_, ?_⟩
      · intro e he; simp at he; subst he; exact ⟨sb, rfl, rfl⟩
      · intro h; simp [FAIL] at h
      · intro h; have := h _ (List.mem_singleton.2 rfl); simp [Event.ok, hf] at this
    · have hneg : ¬ (cache_unprotect .sblock sb.addr l.sblock_cache_flags w).1 < 0 := fun h =>
        hf ((cache_unprotect_neg _ _ _ w).1 h)
      rw [if_neg hneg]
      refine ⟨[.unprotect .sblock sb.addr l.sblock_cache_flags (!w.fault)], by simp, ?_, hcnt,
        ?_, ?_⟩
      · intro e he; simp at he; subst he; exact ⟨sb, rfl, rfl⟩
      · intro _; refine ⟨rfl, ?_⟩
        intro e he; simp at he; subst he; simp [Event.ok, hf]
      · intro _; rfl

/-- Locals after the reset of the outputs on error (lines 616-621). -/
theorem catch_modified_spec (l : LookupLocals) (w : World) :
    ∃ cevs, (catch_modified l w).2.trace = w.trace ++ cevs ∧
      (∀ e ∈ cevs, e = .hdr_modified e.ok) ∧
      (∀ k a, nunprot k a cevs = 0) ∧
      ((∃ ok, Event.hdr_modified ok ∈ cevs) ↔ (l.hdr_dirty = true ∨ l.stats_changed = true)) ∧
      (0 ≤ (catch_modified l w).1.ret_value →
        (catch_modified l w).1.ret_value = l.ret_value ∧ ∀ e ∈ cevs, e.ok = true) ∧
      ((∀ e ∈ cevs, e.ok = true) → (catch_modified l w).1.ret_value = l.ret_value) ∧
      ((catch_modified l w).1.ret_value = FAIL ∨
        (catch_modified l w).1.ret_value = l.ret_value) ∧
      (catch_modified l w).1.iblock = l.iblock ∧ (catch_modified l w).1.sblock = l.sblock ∧
      (catch_modified l w).1.dblock = l.dblock ∧
      (catch_modified l w).1.dblk_page = l.dblk_page ∧
      (catch_modified l w).1.iblock_cache_flags = l.iblock_cache_flags ∧
      (catch_modified l w).1.sblock_cache_flags = l.sblock_cache_flags ∧
      (catch_modified l w).1.thing = (if l.ret_value < 0 then none else l.thing) ∧
      (catch_modified l w).1.thing_elmt_buf =
        (if l.ret_value < 0 then none else l.thing_elmt_buf) ∧
      (catch_modified l w).1.thing_elmt_idx =
        (if l.ret_value < 0 then 0 else l.thing_elmt_idx) ∧
      (catch_modified l w).1.thing_unprot_func =
        (if l.ret_value < 0 then none else l.thing_unprot_func) := by
  unfold catch_modified
  by_cases hd : l.hdr_dirty = true ∨ l.stats_changed = true
  · have hd2 : (if (if l.ret_value < 0 then
          { l with thing := none, thing_elmt_buf := none, thing_elmt_idx := 0,
                   thing_unprot_func := none } else l).stats_changed = true
        then { (if l.ret_value < 0 then
          { l with thing := none, thing_elmt_buf := none, thing_elmt_idx := 0,
                   thing_unprot_func := none } else l) with hdr_dirty := true }
        else (if l.ret_value < 0 then
          { l with thing := none, thing_elmt_buf := none, thing_elmt_idx := 0,
                   thing_unprot_func := none } else l)).hdr_dirty = true := by
      by_cases hr : l.ret_value < 0 <;> by_cases hs : l.stats_changed = true <;>
        simp [hr, hs] <;> simp_all
    dsimp only
    rw [if_pos hd2]
    by_cases hf : w.fault = true
    · have hneg := (hdr_modified_neg w).2 hf
      rw [if_pos hneg]
      refine ⟨[.hdr_modified (!w.fault)], by simp, ?_, ?_, ?_, ?_⟩
      · intro e he; simp at he; subst he; rfl
      · intro k a; simp [nunprot_single, Event.isUnprotectOf]
      · simp [hd]
      · by_cases hr : l.ret_value < 0 <;> by_cases hs : l.stats_changed = true <;>
          simp [hr, hs, FAIL, Event.ok, hf]
    · have hneg : ¬ (H5EA__hdr_modified w).1 < 0 := fun h => hf ((hdr_modified_neg w).1 h)
      rw [if_neg hneg]
      refine ⟨[.hdr_modified (!w.fault)], by simp, ?_, ?_, ?_, ?_⟩
      · intro e he; simp at he; subst he; rfl
      · intro k a; simp [nunprot_single, Event.isUnprotectOf]
      · simp [hd]
      · by_cases hr : l.ret_value < 0 <;> by_cases hs : l.stats_changed = true <;>
          simp [hr, hs, FAIL, Event.ok, hf]
  · have hd1 : l.hdr_dirty = false := by
      cases h : l.hdr_dirty <;> simp_all
    have hd3 : l.stats_changed = false := by
      cases h : l.stats_changed <;> simp_all
    have hd2 : ¬ (if (if l.ret_value < 0 then
          { l with thing := none, thing_elmt_buf := none, thing_elmt_idx := 0,
                   thing_unprot_func := none } else l).stats_changed = true
        then { (if l.ret_value < 0 then
          { l with thing := none, thing_elmt_buf := none, thing_elmt_idx := 0,
                   thing_unprot_func := none } else l) with hdr_dirty := true }
        else (if l.ret_value < 0 then
          { l with thing := none, thing_elmt_buf := none, thing_elmt_idx := 0,
                   thing_unprot_func := none } else l)).hdr_dirty = true := by
      by_cases hr : l.ret_value < 0 <;> simp [hr, hd1, hd3]
    dsimp only
    rw [if_neg hd2]
    refine ⟨[], by simp, by simp, by simp, ?_, ?_⟩
    · simp [hd1, hd3]
    · by_cases hr : l.ret_value < 0 <;> simp [hr, hd3]


theorem catch_count (l : LookupLocals) (t : Option Thing) (k : BlockKind) (a : Nat) :
    (0 + (if k = .iblock ∧ l.iblock = some a ∧ t ≠ some ⟨.iblock, a⟩ then 1 else 0)
      + (if k = .sblock ∧ l.sblock.map (fun sb => sb.addr) = some a then 1 else 0)
      + (if k = .dblock ∧ l.dblock = some a ∧ t ≠ some ⟨.dblock, a⟩ then 1 else 0)
      + (if k = .dblk_page ∧ l.dblk_page = some a ∧ t ≠ some ⟨.dblk_page, a⟩ then 1 else 0))
    = if t = some ⟨k, a⟩ ∧ k ≠ .sblock then 0 else l.held k a := by
  cases k <;> simp [LookupLocals.held]
  · by_cases h1 : l.iblock = some a <;> by_cases h2 : t = some ⟨.iblock, a⟩ <;> simp [h1, h2]
  · by_cases h1 : l.dblock = some a <;> by_cases h2 : t = some ⟨.dblock, a⟩ <;> simp [h1, h2]
  · by_cases h1 : l.dblk_page = some a <;> by_cases h2 : t = some ⟨.dblk_page, a⟩ <;>
      simp [h1, h2]

theorem lookup_catch_spec (l : LookupLocals) (w : World) :
    ∃ cevs, (lookup_catch l w).2.trace = w.trace ++ cevs ∧
      CatchTrace l cevs (lookup_catch l w).1 := by
  unfold lookup_catch
  dsimp only
  obtain ⟨c0, t0, p0, n0, m0, ok0, all0, r0, f1, f2, f3, f4, f5, f6, f7, f8, f9, f10⟩ :=
    catch_modified_spec l w
  generalize catch_modified l w = s1 at *
  obtain ⟨c1, t1, p1, n1, ok1, all1⟩ :=
    catch_release_trace .iblock s1.1.iblock s1.1.iblock_cache_flags s1.1 s1.2
  have e1 := catch_release_same .iblock s1.1.iblock s1.1.iblock_cache_flags s1.1 s1.2
  have r1 := catch_release_ret .iblock s1.1.iblock s1.1.iblock_cache_flags s1.1 s1.2
  generalize catch_release .iblock s1.1.iblock s1.1.iblock_cache_flags s1.1 s1.2 = s2 at *
  obtain ⟨c2, t2, p2, n2, ok2, all2⟩ := catch_release_sblock_trace s2.1 s2.2
  have e2 := catch_release_sblock_same s2.1 s2.2
  have r2 := catch_release_sblock_ret s2.1 s2.2
  generalize catch_release_sblock s2.1 s2.2 = s3 at *
  obtain ⟨c3, t3, p3, n3, ok3, all3⟩ :=
    catch_release_trace .dblock s3.1.dblock H5AC__NO_FLAGS_SET s3.1 s3.2
  have e3 := catch_release_same .dblock s3.1.dblock H5AC__NO_FLAGS_SET s3.1 s3.2
  have r3 := catch_release_ret .dblock s3.1.dblock H5AC__NO_FLAGS_SET s3.1 s3.2
  generalize catch_release .dblock s3.1.dblock H5AC__NO_FLAGS_SET s3.1 s3.2 = s4 at *
  obtain ⟨c4, t4, p4, n4, ok4, all4⟩ :=
    catch_release_trace .dblk_page s4.1.dblk_page H5AC__NO_FLAGS_SET s4.1 s4.2
  have e4 := catch_release_same .dblk_page s4.1.dblk_page H5AC__NO_FLAGS_SET s4.1 s4.2
  have r4 := catch_release_ret .dblk_page s4.1.dblk_page H5AC__NO_FLAGS_SET s4.1 s4.2
  generalize catch_release .dblk_page s4.1.dblk_page H5AC__NO_FLAGS_SET s4.1 s4.2 = s5 at *
  have e12 := e1.sr_trans e2
  have e13 := e12.sr_trans e3
  have e14 := e13.sr_trans e4
  refine ⟨c0 ++ c1 ++ c2 ++ c3 ++ c4, by rw [t4, t3, t2, t1, t0]; simp, ?_⟩
  constructor
  · rw [e14.thing, f7]
  · rw [e14.thing_elmt_buf, f8]
  · rw [e14.thing_elmt_idx, f9]
  · rw [e14.thing_unprot_func, f10]
  · intro e he
    simp only [List.mem_append] at he
    rcases he with (((he | he) | he) | he) | he
    · exact Or.inl (p0 e he)
    · obtain ⟨a, ha, hea⟩ := p1 e he
      rw [f1] at ha; rw [f5] at hea
      exact Or.inr (Or.inl ⟨a, ha, hea⟩)
    · obtain ⟨sb, ha, hea⟩ := p2 e he
      rw [e1.sblock, f2] at ha; rw [e1.sblock_cache_flags, f6] at hea
      exact Or.inr (Or.inr (Or.inl ⟨sb, ha, hea⟩))
    · obtain ⟨a, ha, hea⟩ := p3 e he
      rw [e12.dblock, f3] at ha
      exact Or.inr (Or.inr (Or.inr (Or.inl ⟨a, ha, hea⟩)))
    · obtain ⟨a, ha, hea⟩ := p4 e he
      rw [e13.dblk_page, f4] at ha
      exact Or.inr (Or.inr (Or.inr (Or.inr ⟨a, ha, hea⟩)))
  · intro k a
    simp only [nunprot_append, n0, n1, n2, n3, n4]
    rw [e14.thing, f1, e1.sblock, f2, e12.dblock, f3, e13.dblk_page, f4, e12.thing, e13.thing]
    exact catch_count l _ k a
  · intro h
    have h4 := ok4 h
    have h3 := ok3 (by rw [← h4.1]; exact h)
    rw [h4.1] at h
    have h2 := ok2 (by rw [← h3.1]; exact h)
    rw [h3.1] at h
    have h1 := ok1 (by rw [← h2.1]; exact h)
    rw [h2.1] at h
    rw [h1.1] at h
    have h0 := ok0 h
    refine ⟨by rw [h4.1, h3.1, h2.1, h1.1]; exact h0.1, ?_⟩
    intro e he
    simp only [List.mem_append] at he
    rcases he with (((he | he) | he) | he) | he
    · exact h0.2 e he
    · exact h1.2 e he
    · exact h2.2 e he
    · exact h3.2 e he
    · exact h4.2 e he
  · intro _
    rcases r4 with r4 | r4
    · exact Or.inl r4
    · rw [r4]
      rcases r3 with r3 | r3
      · exact Or.inl r3
      · rw [r3]
        rcases r2 with r2 | r2
        · exact Or.inl r2
        · rw [r2]
          rcases r1 with r1 | r1
          · exact Or.inl r1
          · rw [r1]; exact r0
  · intro h
    have h0 := all0 fun e he => h e (by simp [he])
    have h1 := all1 fun e he => h e (by simp [he])
    have h2 := all2 fun e he => h e (by simp [he])
    have h3 := all3 fun e he => h e (by simp [he])
    have h4 := all4 fun e he => h e (by simp [he])
    rw [h4, h3, h2, h1, h0]
  · rw [← m0]
    constructor
    · rintro ⟨ok, he⟩
      simp only [List.mem_append] at he
      rcases he with (((he | he) | he) | he) | he
      · exact ⟨ok, he⟩
      · obtain ⟨a, _, hea⟩ := p1 _ he; cases hea
      · obtain ⟨a, _, hea⟩ := p2 _ he; cases hea
      · obtain ⟨a, _, hea⟩ := p3 _ he; cases hea
      · obtain ⟨a, _, hea⟩ := p4 _ he; cases hea
    · rintro ⟨ok, he⟩
      exact ⟨ok, by simp [he]⟩

/-! ### Summary of `H5EA__lookup_elmt` -/

/-- The calls of a lookup: those of the body, then those of `CATCH`. -/
theorem lookup_summary (ea : H5EA_t) (idx acc : Nat) (w : World) :
    ∃ evs cevs l l',
      (H5EA__lookup_elmt ea idx acc w).2.trace = w.trace ++ (evs ++ cevs) ∧
      WalkTrace acc evs l ∧ CatchTrace l cevs l' ∧
      (H5EA__lookup_elmt ea idx acc w).1 =
        ⟨l'.ret_value, l'.thing, l'.thing_elmt_buf, l'.thing_elmt_idx, l'.thing_unprot_func⟩ := by
  obtain ⟨evs, h1, h2⟩ := lookup_body_walk ea idx acc w
  obtain ⟨cevs, h3, h4⟩ := lookup_catch_spec (lookup_body ea idx acc w).1
    (lookup_body ea idx acc w).2
  refine ⟨evs, cevs, _, _, ?_, h2, h4, rfl⟩
  unfold H5EA__lookup_elmt
  dsimp only
  rw [h3, h1, List.append_assoc]

theorem held_le_one (l : LookupLocals) (k : BlockKind) (a : Nat) : l.held k a ≤ 1 := by
  cases k <;> simp [LookupLocals.held] <;> split <;> simp

theorem nprot_catch {l l' : LookupLocals} {cevs : List Event} (h : CatchTrace l cevs l')
    (k : BlockKind) (a : Nat) : nprot k a cevs = 0 := by
  unfold nprot
  rw [List.countP_eq_zero]
  intro e he
  rcases h.calls e he with h1 | ⟨_, _, h1⟩ | ⟨_, _, h1⟩ | ⟨_, _, h1⟩ | ⟨_, _, h1⟩ <;>
    rw [h1] <;> simp [Event.isProtectOf]

theorem nunprot_walk {acc : Nat} {l : LookupLocals} {evs : List Event} (h : WalkTrace acc evs l)
    (k : BlockKind) (a : Nat) : nunprot k a evs = 0 := by
  unfold nunprot
  rw [List.countP_eq_zero]
  intro e he
  rcases h.calls e he with h1 | ⟨_, _, _, h1⟩
  · cases e <;> simp [Event.createKind] at h1 <;> simp [Event.isUnprotectOf]
  · rw [h1]; simp [Event.isUnprotectOf]

/-- After a lookup the one block still protected is the returned `thing`. -/
theorem lookup_outstanding (ea : H5EA_t) (idx acc : Nat) (w : World) :
    ∃ evs, (H5EA__lookup_elmt ea idx acc w).2.trace = w.trace ++ evs ∧
      (∀ k a, nprot k a evs = nunprot k a evs +
        if (H5EA__lookup_elmt ea idx acc w).1.thing = some ⟨k, a⟩ then 1 else 0) ∧
      (∀ k a, nprot k a evs ≤ 1) ∧
      (∀ t, (H5EA__lookup_elmt ea idx acc w).1.thing = some t →
        (H5EA__lookup_elmt ea idx acc w).1.thing_unprot_func = some t.kind ∧
        (H5EA__lookup_elmt ea idx acc w).1.thing_elmt_buf = some t ∧ t.kind ≠ .sblock) := by
  obtain ⟨evs, cevs, l, l', htr, hw, hc, ho⟩ := lookup_summary ea idx acc w
  have hthing : ∀ t, l'.thing = some t → l.thing = some t ∧ ¬ l.ret_value < 0 := by
    intro t ht
    rw [hc.thing] at ht
    split at ht
    · cases ht
    · exact ⟨ht, by assumption⟩
  refine ⟨evs ++ cevs, htr, ?_, ?_, ?_⟩
  · intro k a
    rw [ho]
    simp only [nprot_append, nunprot_append, nprot_catch hc, nunprot_walk hw, hw.held, hc.count]
    by_cases ht : l'.thing = some ⟨k, a⟩
    · obtain ⟨h1, -⟩ := hthing _ ht
      obtain ⟨h2, -, h3, -⟩ := hw.thing _ h1
      simp only [ht, true_and]
      simp at h3 h2
      simp [h3, h2]
    · simp [ht]
  · intro k a
    simp only [nprot_append, nprot_catch hc, hw.held]
    exact held_le_one l k a
  · intro t ht
    rw [ho] at ht ⊢
    simp only at ht ⊢
    obtain ⟨h1, hr⟩ := hthing _ ht
    obtain ⟨-, -, h3, h4, h5⟩ := hw.thing _ h1
    rw [hc.thing_unprot_func, hc.thing_elmt_buf, if_neg hr, if_neg hr]
    exact ⟨h4, h5, h3⟩

/-! ### Release of `thing` by the callers of the lookup -/

@[simp] theorem elmt_write_trace (buf : Thing) (i v : Nat) (w : World) :
    (elmt_write buf i v w).trace = w.trace := by
  unfold elmt_write; split <;> rfl

@[simp] theorem sanity_checks_trace (o : LookupOut) (w : World) :
    (sanity_checks o w).trace = w.trace := rfl

theorem release_thing_trace (o : LookupOut) (flags : Nat) (ret : Int) (w : World) :
    (release_thing o flags ret w).2.trace = w.trace ++
      (match o.thing with
       | some t => [.unprotect (o.thing_unprot_func.getD t.kind) t.addr flags (!w.fault)]
       | none => []) := by
  unfold release_thing
  cases o.thing with
  | none => simp
  | some t =>
    dsimp only
    split <;> simp [unprotect_thing]

@[simp] theorem set_copy_trace (elmt : Nat) (o : LookupOut) (w : World) :
    (set_copy elmt o w).trace = w.trace := by
  unfold set_copy; split <;> simp

theorem set_max_idx_trace (idx : Nat) (w : World) :
    ∃ mid, (set_max_idx idx w).2.trace = w.trace ++ mid ∧
      ∀ e ∈ mid, ∃ ok, e = .hdr_modified ok := by
  unfold set_max_idx
  dsimp only
  split
  · split
    · exact ⟨[_], hdr_modified_trace _, fun e he => ⟨_, List.mem_singleton.1 he⟩⟩
    · exact ⟨[_], hdr_modified_trace _, fun e he => ⟨_, List.mem_singleton.1 he⟩⟩
  · exact ⟨[], by simp, by simp⟩

theorem set_store_trace (idx elmt : Nat) (o : LookupOut) (w : World) :
    ∃ mid, (set_store idx elmt o w).2.trace = w.trace ++ mid ∧
      ∀ e ∈ mid, ∃ ok, e = .hdr_modified ok := by
  unfold set_store
  obtain ⟨mid, h1, h2⟩ := set_max_idx_trace idx (set_copy elmt o w)
  exact ⟨mid, by rw [h1, set_copy_trace], h2⟩

theorem get_fill_trace (w : World) :
    (get_fill w).2.2.trace = w.trace ++ [.fill (!w.fault)] := by
  unfold get_fill
  dsimp only
  split <;> simp [cls_fill]

theorem create_flush_depend_trace (p : Option H5AC_info_t) (c : H5AC_info_t) (w : World) :
    ∃ ok, (H5EA__create_flush_depend p c w).2.trace = w.trace ++ [.flush_depend p c ok] := by
  unfold H5EA__create_flush_depend
  cases p with
  | none => exact ⟨false, by simp⟩
  | some q =>
    dsimp only
    split
    · exact ⟨false, by simp⟩
    · exact ⟨true, by simp⟩

theorem destroy_flush_depend_trace (p : Option H5AC_info_t) (c : H5AC_info_t) (w : World) :
    ∃ ok, (H5EA__destroy_flush_depend p c w).2.trace = w.trace ++ [.flush_undepend p c ok] := by
  unfold H5EA__destroy_flush_depend
  cases p with
  | none => exact ⟨false, by simp⟩
  | some q =>
    dsimp only
    split
    · exact ⟨false, by simp⟩
    · exact ⟨true, by simp⟩

/-- A lookup, then calls that neither protect nor unprotect, then the release of
`thing`: every protected block is unprotected once. -/
theorem balanced_of_lookup (ea : H5EA_t) (idx acc : Nat) (w w0 w2 : World) (mid : List Event)
    (flags : Nat) (ret : Int)
    (h0 : w0.trace = w.trace)
    (h2 : w2.trace = (H5EA__lookup_elmt ea idx acc w0).2.trace ++ mid)
    (hmid : ∀ e ∈ mid, ∀ k a, e.isProtectOf k a = false ∧ e.isUnprotectOf k a = false) :
    Balanced w (release_thing (H5EA__lookup_elmt ea idx acc w0).1 flags ret w2).2 := by
  obtain ⟨evs, htr, hcnt, hle, hth⟩ := lookup_outstanding ea idx acc w0
  have hm1 : ∀ k a, nprot k a mid = 0 := by
    intro k a; unfold nprot; rw [List.countP_eq_zero]
    intro e he; rw [(hmid e he k a).1]; simp
  have hm2 : ∀ k a, nunprot k a mid = 0 := by
    intro k a; unfold nunprot; rw [List.countP_eq_zero]
    intro e he; rw [(hmid e he k a).2]; simp
  refine ⟨evs ++ mid ++ (match (H5EA__lookup_elmt ea idx acc w0).1.thing with
       | some t => [Event.unprotect
          ((H5EA__lookup_elmt ea idx acc w0).1.thing_unprot_func.getD t.kind) t.addr flags
          (!w2.fault)]
       | none => []), ?_, ?_⟩
  · rw [release_thing_trace, h2, htr, h0]; simp only [List.append_assoc]
  · intro k a
    have hle' := hle k a
    rw [hcnt] at hle'
    simp only [nprot_append, nunprot_append, hm1, hm2, hcnt]
    cases hthing : (H5EA__lookup_elmt ea idx acc w0).1.thing with
    | none =>
      rw [hthing] at hle'
      simpa using hle'
    | some t =>
      obtain ⟨hf, -, -⟩ := hth t hthing
      rw [hthing] at hle'
      simp only [hf, Option.getD_some, nprot_single, nunprot_single, Event.isProtectOf,
        Event.isUnprotectOf]
      by_cases hka : t = ⟨k, a⟩
      · subst hka
        simp at hle' ⊢
        omega
      · have h1 : ¬ (some t = some (⟨k, a⟩ : Thing)) := fun h => hka (Option.some.inj h)
        have h3 : ¬ (t.kind = k ∧ t.addr = a) := by
          rintro ⟨rfl, rfl⟩; exact hka rfl
        simp only [h1, if_false] at hle' ⊢
        have h4 : (decide (t.kind = k) && decide (t.addr = a)) = false := by
          simpa using h3
        simp [h4]
        exact hle'

theorem set_balanced (ea : H5EA_t) (idx elmt : Nat) (w : World) :
    Balanced w (H5EA_set ea idx elmt w).2 := by
  unfold H5EA_set
  dsimp only
  split
  · exact balanced_of_lookup ea idx _ w _ _ [] _ _ rfl (by simp) (by simp)
  · obtain ⟨mid, h1, h2⟩ := set_store_trace idx elmt
      (H5EA__lookup_elmt ea idx H5AC__NO_FLAGS_SET { w with hdr := { w.hdr with f := ea.f } }).1
      (H5EA__lookup_elmt ea idx H5AC__NO_FLAGS_SET { w with hdr := { w.hdr with f := ea.f } }).2
    refine balanced_of_lookup ea idx _ w _ _ mid _ _ rfl h1 ?_
    intro e he k a
    obtain ⟨ok, rfl⟩ := h2 e he
    exact ⟨rfl, rfl⟩

theorem get_balanced (ea : H5EA_t) (idx : Nat) (w : World) :
    Balanced w (H5EA_get ea idx w).2.2 := by
  unfold H5EA_get
  split
  · refine ⟨[.fill (!w.fault)], get_fill_trace w, ?_⟩
    intro k a; simp [nprot_single, nunprot_single, Event.isProtectOf, Event.isUnprotectOf]
  · dsimp only
    split
    · exact balanced_of_lookup ea idx _ w _ _ [] _ _ rfl (by simp) (by simp)
    · split
      · rename_i hthing
        have hb := balanced_of_lookup ea idx H5AC__READ_ONLY_FLAG w
          { w with hdr := { w.hdr with f := ea.f } }
          (get_fill (H5EA__lookup_elmt ea idx H5AC__READ_ONLY_FLAG
            { w with hdr := { w.hdr with f := ea.f } }).2).2.2 [.fill _] 0 0 rfl
          (get_fill_trace _) (by
            intro e he k a; simp at he; subst he; exact ⟨rfl, rfl⟩)
        unfold release_thing at hb
        rw [hthing] at hb
        exact hb
      · exact balanced_of_lookup ea idx _ w _ _ [] _ _ rfl (by simp) (by simp)

theorem support_balanced (ea : H5EA_t) (idx : Nat) (child : H5AC_info_t) (w : World) :
    Balanced w (H5EA_support ea idx child w).2 := by
  unfold H5EA_support
  dsimp only
  split
  · exact balanced_of_lookup ea idx H5AC__NO_FLAGS_SET w w _ [] _ _ rfl (by simp) (by simp)
  · obtain ⟨ok, h1⟩ := create_flush_depend_trace
      ((H5EA__lookup_elmt ea idx H5AC__NO_FLAGS_SET w).1.thing.map .array) child
      (sanity_checks (H5EA__lookup_elmt ea idx H5AC__NO_FLAGS_SET w).1
        (H5EA__lookup_elmt ea idx H5AC__NO_FLAGS_SET w).2)
    have hm : ∀ e ∈ [Event.flush_depend
        ((H5EA__lookup_elmt ea idx H5AC__NO_FLAGS_SET w).1.thing.map .array) child ok],
        ∀ k a, e.isProtectOf k a = false ∧ e.isUnprotectOf k a = false := by
      intro e he k a; simp at he; subst he; exact ⟨rfl, rfl⟩
    rw [sanity_checks_trace] at h1
    split
    · refine balanced_of_lookup ea idx H5AC__NO_FLAGS_SET w w _ [_] _ _ rfl ?_ hm
      exact h1
    · refine balanced_of_lookup ea idx H5AC__NO_FLAGS_SET w w _ [_] _ _ rfl ?_ hm
      exact h1

theorem unsupport_balanced (ea : H5EA_t) (idx : Nat) (child : H5AC_info_t) (w : World) :
    Balanced w (H5EA_unsupport ea idx child w).2 := by
  unfold H5EA_unsupport
  dsimp only
  split
  · exact balanced_of_lookup ea idx H5AC__READ_ONLY_FLAG w w _ [] _ _ rfl (by simp) (by simp)
  · obtain ⟨ok, h1⟩ := destroy_flush_depend_trace
      ((H5EA__lookup_elmt ea idx H5AC__READ_ONLY_FLAG w).1.thing.map .array) child
      (sanity_checks (H5EA__lookup_elmt ea idx H5AC__READ_ONLY_FLAG w).1
        (H5EA__lookup_elmt ea idx H5AC__READ_ONLY_FLAG w).2)
    have hm : ∀ e ∈ [Event.flush_undepend
        ((H5EA__lookup_elmt ea idx H5AC__READ_ONLY_FLAG w).1.thing.map .array) child ok],
        ∀ k a, e.isProtectOf k a = false ∧ e.isUnprotectOf k a = false := by
      intro e he k a; simp at he; subst he; exact ⟨rfl, rfl⟩
    rw [sanity_checks_trace] at h1
    split
    · refine balanced_of_lookup ea idx H5AC__READ_ONLY_FLAG w w _ [_] _ _ rfl ?_ hm
      exact h1
    · refine balanced_of_lookup ea idx H5AC__READ_ONLY_FLAG w w _ [_] _ _ rfl ?_ hm
      exact h1

/-! ### Read-only walk -/

theorem FileEq.fe_refl (w : World) : FileEq w w :=
  ⟨rfl, rfl, rfl, rfl, rfl, rfl, rfl, rfl, Nat.le_refl _⟩

theorem FileEq.fe_trans {a b c : World} (h1 : FileEq a b) (h2 : FileEq b c) : FileEq a c :=
  ⟨h2.hdr.trans h1.hdr, h2.hdr_present.trans h1.hdr_present, h2.iblocks.trans h1.iblocks,
    h2.sblocks.trans h1.sblocks, h2.dblocks.trans h1.dblocks,
    h2.dblk_pages.trans h1.dblk_pages, h2.eoa.trans h1.eoa, h2.faults.trans h1.faults,
    Nat.le_trans h1.clock h2.clock⟩

theorem FileEq.fe_quiet {w w' : World} (h : FileEq w w') (hq : w.quiet) : w'.quiet := by
  intro n hn
  rw [h.faults]
  exact hq n (Nat.le_trans h.clock hn)

theorem quiet_fault {w : World} (hq : w.quiet) : w.fault = false :=
  hq w.clock (Nat.le_refl _)

theorem FileEq.fe_throw {w w' : World} (h : FileEq w w') (e : H5E) : FileEq w (w'.throw e) :=
  ⟨h.hdr, h.hdr_present, h.iblocks, h.sblocks, h.dblocks, h.dblk_pages, h.eoa, h.faults,
    h.clock⟩

theorem FileEq.fe_iblk {w w' : World} (h : FileEq w w') (a : Nat) : w'.iblk a = w.iblk a := by
  simp [World.iblk, h.iblocks]

theorem FileEq.fe_sblk {w w' : World} (h : FileEq w w') (a : Nat) : w'.sblk a = w.sblk a := by
  simp [World.sblk, h.sblocks]

theorem dblock_protect_fileEq (a fl : Nat) (w : World) :
    FileEq w (H5EA__dblock_protect a fl w).2 :=
  ⟨by simp, by simp, by simp, by simp, by simp, by simp, by simp, by simp, by simp⟩

theorem dblk_page_protect_fileEq (a fl : Nat) (w : World) :
    FileEq w (H5EA__dblk_page_protect a fl w).2 :=
  ⟨by simp, by simp, by simp, by simp, by simp, by simp, by simp, by simp, by simp⟩

theorem sblock_protect_fileEq (a i fl : Nat) (w : World) :
    FileEq w (H5EA__sblock_protect a i fl w).2 :=
  ⟨by simp, by simp, by simp, by simp, by simp, by simp, by simp, by simp, by simp⟩

theorem iblock_protect_fileEq (fl : Nat) (w : World) :
    FileEq w (H5EA__iblock_protect fl w).2 :=
  ⟨by simp, by simp, by simp, by simp, by simp, by simp, by simp, by simp, by simp⟩

theorem cache_unprotect_fileEq (k : BlockKind) (a fl : Nat) (w : World) :
    FileEq w (cache_unprotect k a fl w).2 :=
  ⟨by simp, by simp, by simp, by simp, by simp, by simp, by simp, by simp, by simp⟩

theorem lookup_dblock_ro {acc : Nat} {l : LookupLocals} {w : World} (a elmt_idx : Nat)
    (hq : w.quiet) (hr : l.ret_value = SUCCEED) :
    FileEq w (lookup_dblock acc a elmt_idx l w).2 ∧
    (lookup_dblock acc a elmt_idx l w).1.resolved =
      (if (w.dblocks a).isSome then .found ⟨.dblock, a⟩ elmt_idx else .missing) := by
  unfold lookup_dblock
  have heq := dblock_protect_eq a acc w
  rw [quiet_fault hq] at heq
  dsimp only
  cases hp : (w.dblocks a).isSome
  · simp [hp] at heq
    rw [heq]
    exact ⟨(dblock_protect_fileEq a acc w).fe_throw _, by simp [LookupLocals.resolved, FAIL, hp]⟩
  · simp [hp] at heq
    rw [heq]
    exact ⟨dblock_protect_fileEq a acc w, by simp [LookupLocals.resolved, hr, SUCCEED, hp]⟩

theorem lookup_page_ro {acc : Nat} {l : LookupLocals} {w : World} (a elmt_idx : Nat)
    (hq : w.quiet) (hr : l.ret_value = SUCCEED) :
    FileEq w (lookup_page acc a elmt_idx l w).2 ∧
    (lookup_page acc a elmt_idx l w).1.resolved =
      (if (w.dblk_pages a).isSome then .found ⟨.dblk_page, a⟩ elmt_idx else .missing) := by
  unfold lookup_page
  have heq := dblk_page_protect_eq a acc w
  rw [quiet_fault hq] at heq
  dsimp only
  cases hp : (w.dblk_pages a).isSome
  · simp [hp] at heq
    rw [heq]
    exact ⟨(dblk_page_protect_fileEq a acc w).fe_throw _, by simp [LookupLocals.resolved, FAIL, hp]⟩
  · simp [hp] at heq
    rw [heq]
    exact ⟨dblk_page_protect_fileEq a acc w, by simp [LookupLocals.resolved, hr, SUCCEED, hp]⟩

/-- Under read-only access a check-and-create stage leaves at the first
undefined level, and never creates. -/
theorem ensure_page_ro {acc : Nat} (hro : acc &&& H5AC__READ_ONLY_FLAG ≠ 0)
    (sb : H5EA_sblock_t) (i a : Nat) (l : LookupLocals) (w : World) :
    lookup_ensure_page acc sb i a l w =
      if (w.sblk sb.addr).page_init i = false then .at_catch { l with ret_value := SUCCEED } w
      else .next l w := by
  unfold lookup_ensure_page
  simp [hro]

theorem ensure_sblock_dblock_ro {acc : Nat} (hro : acc &&& H5AC__READ_ONLY_FLAG ≠ 0)
    (sblk_idx : Nat) (sb : H5EA_sblock_t) (i : Nat) (l : LookupLocals) (w : World) :
    lookup_ensure_sblock_dblock acc sblk_idx sb i l w =
      if H5F_addr_defined ((w.sblk sb.addr).dblk_addrs i) = false then
        .at_catch { l with ret_value := SUCCEED } w
      else .next l w := by
  unfold lookup_ensure_sblock_dblock
  simp [hro]

theorem ensure_sblock_ro {acc : Nat} (hro : acc &&& H5AC__READ_ONLY_FLAG ≠ 0)
    (sblk_idx ib off : Nat) (l : LookupLocals) (w : World) :
    lookup_ensure_sblock acc sblk_idx ib off l w =
      if H5F_addr_defined ((w.iblk ib).sblk_addrs off) = false then
        .at_catch { l with ret_value := SUCCEED } w
      else .next l w := by
  unfold lookup_ensure_sblock
  simp [hro]

theorem ensure_iblock_dblock_ro {acc : Nat} (hro : acc &&& H5AC__READ_ONLY_FLAG ≠ 0)
    (sblk_idx ib i : Nat) (l : LookupLocals) (w : World) :
    lookup_ensure_iblock_dblock acc sblk_idx ib i l w =
      if H5F_addr_defined ((w.iblk ib).dblk_addrs i) = false then
        .at_catch { l with ret_value := SUCCEED } w
      else .next l w := by
  unfold lookup_ensure_iblock_dblock
  simp [hro]

theorem ensure_iblock_ro {acc : Nat} (hro : acc &&& H5AC__READ_ONLY_FLAG ≠ 0)
    (l : LookupLocals) (w : World) :
    lookup_ensure_iblock acc l w =
      if H5F_addr_defined w.hdr.idx_blk_addr = false then
        .at_catch { l with ret_value := SUCCEED } w
      else .next l w := by
  unfold lookup_ensure_iblock
  simp [hro]

theorem lookup_sblock_dblock_ro {acc : Nat} {l : LookupLocals} {w : World}
    (hro : acc &&& H5AC__READ_ONLY_FLAG ≠ 0) (sb : H5EA_sblock_t) (dblk_idx elmt_idx : Nat)
    (hq : w.quiet) (hr : l.ret_value = SUCCEED) (ht : l.thing = none) :
    FileEq w (lookup_sblock_dblock acc sb dblk_idx elmt_idx l w).2 ∧
    (lookup_sblock_dblock acc sb dblk_idx elmt_idx l w).1.resolved =
      resolve_sblock_dblock w sb dblk_idx elmt_idx := by
  unfold lookup_sblock_dblock resolve_sblock_dblock
  by_cases hn : sb.dblk_npages ≠ 0
  · rw [if_pos hn, if_pos hn]
    dsimp only
    rw [ensure_page_ro hro]
    by_cases hb : (w.sblk sb.addr).page_init
        (u64 (dblk_idx * sb.dblk_npages + elmt_idx / w.hdr.dblk_page_nelmts)) = false
    · rw [if_pos hb, if_pos hb]
      exact ⟨FileEq.fe_refl w, by simp [LookupLocals.resolved, SUCCEED, ht]⟩
    · rw [if_neg hb, if_neg hb]
      exact lookup_page_ro _ _ hq hr
  · rw [if_neg hn, if_neg hn]
    exact lookup_dblock_ro _ _ hq hr


theorem FileEq.fe_resolve_sblock_dblock {w w' : World} (h : FileEq w w') (sb : H5EA_sblock_t)
    (dblk_idx elmt_idx : Nat) :
    resolve_sblock_dblock w' sb dblk_idx elmt_idx = resolve_sblock_dblock w sb dblk_idx elmt_idx := by
  unfold H5EA.resolve_sblock_dblock
  rw [h.fe_sblk, h.hdr, h.dblk_pages, h.dblocks]

theorem lookup_sblock_ro {acc : Nat} {l : LookupLocals} {w : World}
    (hro : acc &&& H5AC__READ_ONLY_FLAG ≠ 0) (sblk_idx a elmt_idx : Nat)
    (hq : w.quiet) (hr : l.ret_value = SUCCEED) (ht : l.thing = none) :
    FileEq w (lookup_sblock acc sblk_idx a elmt_idx l w).2 ∧
    (lookup_sblock acc sblk_idx a elmt_idx l w).1.resolved =
      resolve_sblock w sblk_idx a elmt_idx := by
  unfold lookup_sblock resolve_sblock
  have heq := sblock_protect_eq a sblk_idx acc w
  have hfe := sblock_protect_fileEq a sblk_idx acc w
  rw [quiet_fault hq] at heq
  dsimp only
  cases hp : (w.sblocks a).isSome
  · simp [hp] at heq
    rw [heq]
    exact ⟨hfe.fe_throw _, by simp [LookupLocals.resolved, FAIL]⟩
  · simp [hp] at heq
    rw [heq]
    dsimp only
    rw [ensure_sblock_dblock_ro hro]
    have hfe' : FileEq w ((H5EA__sblock_protect a sblk_idx acc w).2.HDassert
        (decide (u64 (elmt_idx / (sblock_of w.hdr a sblk_idx).dblk_nelmts) <
          (sblock_of w.hdr a sblk_idx).ndblks))) :=
      ⟨hfe.hdr, hfe.hdr_present, hfe.iblocks, hfe.sblocks, hfe.dblocks, hfe.dblk_pages, hfe.eoa,
        hfe.faults, hfe.clock⟩
    have hsa : (sblock_of w.hdr a sblk_idx).addr = a := rfl
    rw [hfe'.fe_sblk, hsa]
    by_cases hd : H5F_addr_defined ((w.sblk a).dblk_addrs
        (u64 (elmt_idx / (sblock_of w.hdr a sblk_idx).dblk_nelmts))) = false
    · simp only [if_pos hd]
      exact ⟨hfe', by simp [LookupLocals.resolved, SUCCEED, ht]⟩
    · simp only [if_neg hd]
      have := lookup_sblock_dblock_ro hro (sblock_of w.hdr a sblk_idx)
        (u64 (elmt_idx / (sblock_of w.hdr a sblk_idx).dblk_nelmts))
        (elmt_idx % (sblock_of w.hdr a sblk_idx).dblk_nelmts)
        (l := { l with sblock := some (sblock_of w.hdr a sblk_idx) })
        (hfe'.fe_quiet hq) hr ht
      refine ⟨hfe'.fe_trans this.1, ?_⟩
      rw [this.2, hfe'.fe_resolve_sblock_dblock]
      simp

theorem lookup_via_sblock_ro {acc : Nat} {l : LookupLocals} {w : World}
    (hro : acc &&& H5AC__READ_ONLY_FLAG ≠ 0) (sblk_idx ib elmt_idx : Nat)
    (hq : w.quiet) (hr : l.ret_value = SUCCEED) (ht : l.thing = none) :
    FileEq w (lookup_via_sblock acc sblk_idx ib elmt_idx l w).2 ∧
    (lookup_via_sblock acc sblk_idx ib elmt_idx l w).1.resolved =
      resolve_via_sblock w sblk_idx ib elmt_idx := by
  unfold lookup_via_sblock resolve_via_sblock
  dsimp only
  rw [ensure_sblock_ro hro]
  by_cases hd : H5F_addr_defined ((w.iblk ib).sblk_addrs (sblk_idx - w.hdr.iblock_nsblks)) = false
  · simp only [if_pos hd]
    exact ⟨FileEq.fe_refl w, by simp [LookupLocals.resolved, SUCCEED, ht]⟩
  · simp only [if_neg hd]
    exact lookup_sblock_ro hro _ _ _ hq hr ht

theorem lookup_via_iblock_ro {acc : Nat} {l : LookupLocals} {w : World}
    (hro : acc &&& H5AC__READ_ONLY_FLAG ≠ 0) (sblk_idx ib elmt_idx : Nat)
    (hq : w.quiet) (hr : l.ret_value = SUCCEED) (ht : l.thing = none) :
    FileEq w (lookup_via_iblock acc sblk_idx ib elmt_idx l w).2 ∧
    (lookup_via_iblock acc sblk_idx ib elmt_idx l w).1.resolved =
      resolve_via_iblock w sblk_idx ib elmt_idx := by
  unfold lookup_via_iblock resolve_via_iblock
  dsimp only
  rw [ensure_iblock_dblock_ro hro]
  by_cases hd : H5F_addr_defined ((w.iblk ib).dblk_addrs
      (u64 ((w.hdr.sblk_info sblk_idx).start_dblk
        + elmt_idx / (w.hdr.sblk_info sblk_idx).dblk_nelmts))) = false
  · simp only [if_pos hd]
    exact ⟨FileEq.fe_refl w, by simp [LookupLocals.resolved, SUCCEED, ht]⟩
  · simp only [if_neg hd]
    exact lookup_dblock_ro _ _ hq hr

theorem lookup_in_iblock_ro {acc : Nat} {l : LookupLocals} {w : World}
    (hro : acc &&& H5AC__READ_ONLY_FLAG ≠ 0) (idx ib : Nat)
    (hq : w.quiet) (hr : l.ret_value = SUCCEED) (ht : l.thing = none) :
    FileEq w (lookup_in_iblock idx acc ib l w).2 ∧
    (lookup_in_iblock idx acc ib l w).1.resolved = resolve_in_iblock w idx ib := by
  unfold lookup_in_iblock resolve_in_iblock
  by_cases h1 : idx < w.hdr.cparam.idx_blk_elmts
  · simp only [if_pos h1]
    exact ⟨FileEq.fe_refl w, by simp [LookupLocals.resolved, hr, SUCCEED]⟩
  · simp only [if_neg h1]
    by_cases h2 : H5EA__dblock_sblk_idx w.hdr idx < w.hdr.iblock_nsblks
    · simp only [if_pos h2]
      exact lookup_via_iblock_ro hro _ _ _ hq hr ht
    · simp only [if_neg h2]
      exact lookup_via_sblock_ro hro _ _ _ hq hr ht

theorem FileEq.fe_resolve_in_iblock {w w' : World} (h : FileEq w w') (idx ib : Nat) :
    resolve_in_iblock w' idx ib = resolve_in_iblock w idx ib := by
  unfold H5EA.resolve_in_iblock resolve_via_iblock resolve_via_sblock resolve_sblock
    H5EA.resolve_sblock_dblock
  rw [h.hdr]
  simp only [h.fe_iblk, h.fe_sblk, h.hdr, h.dblk_pages, h.dblocks, h.sblocks]

theorem FileEq.fe_resolve {w w' : World} (h : FileEq w w') (idx : Nat) :
    resolve w' idx = resolve w idx := by
  unfold H5EA.resolve
  rw [h.fe_resolve_in_iblock, h.hdr, h.iblocks]

theorem lookup_body_ro {acc : Nat} (hro : acc &&& H5AC__READ_ONLY_FLAG ≠ 0) (ea : H5EA_t)
    (idx : Nat) (w : World) (hq : w.quiet) :
    FileEq { w with hdr := { w.hdr with f := ea.f } } (lookup_body ea idx acc w).2 ∧
    (lookup_body ea idx acc w).1.resolved =
      resolve { w with hdr := { w.hdr with f := ea.f } } idx := by
  unfold lookup_body resolve
  rw [ensure_iblock_ro hro]
  generalize hw0 : ({ w with hdr := { w.hdr with f := ea.f } } : World) = w0
  have hq0 : w0.quiet := by subst hw0; exact hq
  by_cases hd : H5F_addr_defined w0.hdr.idx_blk_addr = false
  · simp only [if_pos hd]
    exact ⟨FileEq.fe_refl w0, by simp [LookupLocals.resolved, LookupLocals.init, SUCCEED]⟩
  · simp only [if_neg hd]
    have heq := iblock_protect_eq acc w0
    have hfe := iblock_protect_fileEq acc w0
    rw [quiet_fault hq0] at heq
    cases hp : (w0.iblocks w0.hdr.idx_blk_addr).isSome
    · simp [hp] at heq
      rw [heq]
      exact ⟨hfe.fe_throw _, by simp [LookupLocals.resolved, FAIL]⟩
    · simp [hp] at heq
      rw [heq]
      dsimp only
      have := lookup_in_iblock_ro hro idx w0.hdr.idx_blk_addr
        (l := { LookupLocals.init with iblock := some w0.hdr.idx_blk_addr })
        (hfe.fe_quiet hq0) rfl rfl
      refine ⟨hfe.fe_trans this.1, ?_⟩
      rw [this.2, hfe.fe_resolve_in_iblock]
      simp


/-! ### The `CATCH` section leaves the file alone -/

theorem hdr_modified_fileEq (w : World) : FileEq w (H5EA__hdr_modified w).2 :=
  ⟨by simp, by simp, by simp, by simp, by simp, by simp, by simp, by simp, by simp⟩

theorem catch_release_fileEq (k : BlockKind) (blk : Option Nat) (flags : Nat) (l : LookupLocals)
    (w : World) : FileEq w (catch_release k blk flags l w).2 := by
  unfold catch_release
  split
  · split
    · dsimp only
      split
      · exact (cache_unprotect_fileEq _ _ _ w).fe_throw _
      · exact cache_unprotect_fileEq _ _ _ w
    · exact FileEq.fe_refl w
  · exact FileEq.fe_refl w

theorem catch_release_quiet (k : BlockKind) (blk : Option Nat) (flags : Nat) (l : LookupLocals)
    (w : World) (hq : w.quiet) : (catch_release k blk flags l w).1 = l := by
  unfold catch_release
  split
  · split
    · dsimp only
      rw [if_neg]
      rw [cache_unprotect_neg, quiet_fault hq]; simp
    · rfl
  · rfl

theorem catch_release_sblock_fileEq (l : LookupLocals) (w : World) :
    FileEq w (catch_release_sblock l w).2 := by
  unfold catch_release_sblock
  split
  · dsimp only
    split
    · exact (cache_unprotect_fileEq _ _ _ w).fe_throw _
    · exact cache_unprotect_fileEq _ _ _ w
  · exact FileEq.fe_refl w

theorem catch_release_sblock_quiet (l : LookupLocals) (w : World) (hq : w.quiet) :
    (catch_release_sblock l w).1 = l := by
  unfold catch_release_sblock
  split
  · dsimp only
    rw [if_neg]
    rw [cache_unprotect_neg, quiet_fault hq]; simp
  · rfl

theorem catch_modified_world (l : LookupLocals) (w : World) :
    (catch_modified l w).2 =
      if l.hdr_dirty = true ∨ l.stats_changed = true then
        if (H5EA__hdr_modified w).1 < 0 then (H5EA__hdr_modified w).2.throw .CANTMARKDIRTY
        else (H5EA__hdr_modified w).2
      else w := by
  unfold catch_modified
  by_cases hr : l.ret_value < 0 <;> by_cases hs : l.stats_changed = true <;>
    by_cases hd : l.hdr_dirty = true <;> by_cases hm : (H5EA__hdr_modified w).1 < 0 <;>
    simp [hr, hs, hd, hm]

theorem catch_modified_fileEq (l : LookupLocals) (w : World) :
    FileEq w (catch_modified l w).2 := by
  rw [catch_modified_world]
  split
  · split
    · exact (hdr_modified_fileEq w).fe_throw _
    · exact hdr_modified_fileEq w
  · exact FileEq.fe_refl w

theorem catch_modified_quiet (l : LookupLocals) (w : World) (hq : w.quiet) :
    (catch_modified l w).1.ret_value = l.ret_value := by
  have hm : ¬ (H5EA__hdr_modified w).1 < 0 := by
    rw [hdr_modified_neg, quiet_fault hq]; simp
  unfold catch_modified
  by_cases hr : l.ret_value < 0 <;> by_cases hs : l.stats_changed = true <;>
    by_cases hd : l.hdr_dirty = true <;> simp [hr, hs, hd, hm]

theorem lookup_catch_fileEq (l : LookupLocals) (w : World) : FileEq w (lookup_catch l w).2 := by
  unfold lookup_catch
  dsimp only
  exact ((((catch_modified_fileEq l w).fe_trans (catch_release_fileEq _ _ _ _ _)).fe_trans
    (catch_release_sblock_fileEq _ _)).fe_trans (catch_release_fileEq _ _ _ _ _)).fe_trans
    (catch_release_fileEq _ _ _ _ _)

theorem lookup_catch_quiet (l : LookupLocals) (w : World) (hq : w.quiet) :
    (lookup_catch l w).1.ret_value = l.ret_value := by
  unfold lookup_catch
  dsimp only
  have q1 := (catch_modified_fileEq l w).fe_quiet hq
  have r1 := catch_modified_quiet l w hq
  generalize catch_modified l w = s1 at *
  have e2 := catch_release_quiet .iblock s1.1.iblock s1.1.iblock_cache_flags s1.1 _ q1
  have q2 := (catch_release_fileEq .iblock s1.1.iblock s1.1.iblock_cache_flags s1.1 s1.2).fe_quiet q1
  generalize catch_release .iblock s1.1.iblock s1.1.iblock_cache_flags s1.1 s1.2 = s2 at *
  have e3 := catch_release_sblock_quiet s2.1 _ q2
  have q3 := (catch_release_sblock_fileEq s2.1 s2.2).fe_quiet q2
  generalize catch_release_sblock s2.1 s2.2 = s3 at *
  have e4 := catch_release_quiet .dblock s3.1.dblock H5AC__NO_FLAGS_SET s3.1 _ q3
  have q4 := (catch_release_fileEq .dblock s3.1.dblock H5AC__NO_FLAGS_SET s3.1 s3.2).fe_quiet q3
  generalize catch_release .dblock s3.1.dblock H5AC__NO_FLAGS_SET s3.1 s3.2 = s4 at *
  have e5 := catch_release_quiet .dblk_page s4.1.dblk_page H5AC__NO_FLAGS_SET s4.1 _ q4
  rw [e5, e4, e3, e2, r1]

/-- A read-only lookup in a world where no call fails returns what the
addressing finds, and leaves the file as it is. -/
theorem lookup_ro (ea : H5EA_t) (idx : Nat) (w : World) (hq : w.quiet) :
    FileEq { w with hdr := { w.hdr with f := ea.f } }
      (H5EA__lookup_elmt ea idx H5AC__READ_ONLY_FLAG w).2 ∧
    (H5EA__lookup_elmt ea idx H5AC__READ_ONLY_FLAG w).1.resolved =
      resolve { w with hdr := { w.hdr with f := ea.f } } idx := by
  have hro : H5AC__READ_ONLY_FLAG &&& H5AC__READ_ONLY_FLAG ≠ 0 := by decide
  obtain ⟨hb1, hb2⟩ := lookup_body_ro hro ea idx w hq
  unfold H5EA__lookup_elmt
  dsimp only
  refine ⟨hb1.fe_trans (lookup_catch_fileEq _ _), ?_⟩
  obtain ⟨cevs, -, hc⟩ := lookup_catch_spec (lookup_body ea idx H5AC__READ_ONLY_FLAG w).1
    (lookup_body ea idx H5AC__READ_ONLY_FLAG w).2
  have hr := lookup_catch_quiet (lookup_body ea idx H5AC__READ_ONLY_FLAG w).1
    (lookup_body ea idx H5AC__READ_ONLY_FLAG w).2 (hb1.fe_quiet hq)
  rw [← hb2]
  unfold LookupOut.resolved LookupLocals.resolved
  dsimp only
  rw [hr, hc.thing, hc.thing_elmt_idx]
  split
  · rfl
  · rfl

/-! ### What the stages of the walk preserve -/

theorem HdrSame.hs_refl (h : H5EA_hdr_t) : HdrSame h h := by
  constructor <;> rfl

theorem HdrSame.hs_trans {a b c : H5EA_hdr_t} (h1 : HdrSame a b) (h2 : HdrSame b c) :
    HdrSame a c := by
  constructor
  · exact h2.addr.trans h1.addr
  · exact h2.cparam.trans h1.cparam
  · exact h2.sblk_info.trans h1.sblk_info
  · exact h2.nsblks.trans h1.nsblks
  · exact h2.dblk_page_nelmts.trans h1.dblk_page_nelmts
  · exact h2.iblock_nsblks.trans h1.iblock_nsblks
  · exact h2.sizeof_addr.trans h1.sizeof_addr
  · exact h2.arr_off_size.trans h1.arr_off_size
  · exact h2.rc.trans h1.rc
  · exact h2.file_rc.trans h1.file_rc
  · exact h2.pending_delete.trans h1.pending_delete
  · exact h2.max_idx_set.trans h1.max_idx_set

theorem HdrSame.hs_of_eq {a b : H5EA_hdr_t} (h : b = a) : HdrSame a b := by
  subst h; exact HdrSame.hs_refl _

theorem BelowSlot.bl_refl (w : World) : BelowSlot w w :=
  ⟨rfl, rfl, fun _ h => h, fun _ => rfl, rfl⟩

theorem BelowSlot.bl_trans {a b c : World} (h1 : BelowSlot a b) (h2 : BelowSlot b c) :
    BelowSlot a c :=
  ⟨h2.hdr.trans h1.hdr, h2.iblocks.trans h1.iblocks, fun x hx => h2.sblocks x (h1.sblocks x hx),
    fun x => (h2.dblk_addrs x).trans (h1.dblk_addrs x), h2.dblocks.trans h1.dblocks⟩

theorem BelowSlot.bl_of_fileEq {w w' : World} (h : FileEq w w') : BelowSlot w w' :=
  ⟨h.hdr, h.iblocks, fun a ha => by rw [h.sblocks]; exact ha, fun a => by rw [h.fe_sblk], h.dblocks⟩

theorem BelowSblock.bs_refl (w : World) : BelowSblock w w :=
  ⟨HdrSame.hs_refl _, rfl, rfl, fun _ h => h⟩

theorem BelowSblock.bs_trans {a b c : World} (h1 : BelowSblock a b) (h2 : BelowSblock b c) :
    BelowSblock a c :=
  ⟨h1.hdr.hs_trans h2.hdr, h2.idx_blk_addr.trans h1.idx_blk_addr, h2.iblocks.trans h1.iblocks,
    fun x hx => h2.sblocks x (h1.sblocks x hx)⟩

theorem BelowSblock.bs_of_slot {w w' : World} (h : BelowSlot w w') : BelowSblock w w' :=
  ⟨HdrSame.hs_of_eq h.hdr, by rw [h.hdr], h.iblocks, h.sblocks⟩

theorem BelowSblock.bs_of_fileEq {w w' : World} (h : FileEq w w') : BelowSblock w w' :=
  BelowSblock.bs_of_slot (BelowSlot.bl_of_fileEq h)

theorem BelowIblock.bi_refl (w : World) : BelowIblock w w :=
  ⟨HdrSame.hs_refl _, rfl, fun _ h => h, fun _ => rfl⟩

theorem BelowIblock.bi_trans {a b c : World} (h1 : BelowIblock a b) (h2 : BelowIblock b c) :
    BelowIblock a c :=
  ⟨h1.hdr.hs_trans h2.hdr, h2.idx_blk_addr.trans h1.idx_blk_addr,
    fun x hx => h2.iblocks x (h1.iblocks x hx), fun x => (h2.elmts x).trans (h1.elmts x)⟩

theorem BelowIblock.bi_of_sblock {w w' : World} (h : BelowSblock w w') : BelowIblock w w' :=
  ⟨h.hdr, h.idx_blk_addr, fun a ha => by rw [h.iblocks]; exact ha,
    fun a => by simp [World.iblk, h.iblocks]⟩

theorem BelowIblock.bi_of_fileEq {w w' : World} (h : FileEq w w') : BelowIblock w w' :=
  BelowIblock.bi_of_sblock (BelowSblock.bs_of_fileEq h)

theorem isSome_update {α : Type} (f : Nat → Option α) (a : Nat) (v : α) (x : Nat)
    (h : (f x).isSome = true) : (Function.update f a (some v) x).isSome = true := by
  by_cases hx : x = a
  · subst hx; simp
  · simp [Function.update, hx, h]

/-- The check-and-create of a page: the page store and the page-init bits
change, nothing else; when the walk goes on the bit is set. -/
theorem ensure_page_frame (acc : Nat) (sb : H5EA_sblock_t) (i a : Nat) (l : LookupLocals)
    (w : World) :
    BelowSlot w (lookup_ensure_page acc sb i a l w).world ∧
    ((lookup_ensure_page acc sb i a l w).isNext = true →
      ((lookup_ensure_page acc sb i a l w).world.sblk sb.addr).page_init i = true) := by
  unfold lookup_ensure_page
  by_cases hb : (w.sblk sb.addr).page_init i = false
  · rw [if_pos hb]
    by_cases hacc : acc &&& H5AC__READ_ONLY_FLAG = 0
    · rw [if_pos hacc]
      dsimp only
      split
      · refine ⟨⟨by simp [Flow.world], by simp [Flow.world], ?_, ?_, by simp [Flow.world]⟩,
          by simp [Flow.isNext]⟩
        · intro x hx; simpa [Flow.world] using hx
        · intro x; simp [Flow.world, World.sblk]
      · refine ⟨⟨by simp [Flow.world, World.set_page_init],
          by simp [Flow.world, World.set_page_init], ?_, ?_,
          by simp [Flow.world, World.set_page_init]⟩, ?_⟩
        · intro x hx
          simp only [Flow.world, World.set_page_init]
          exact isSome_update _ _ _ _ (by simpa using hx)
        · intro x
          simp only [Flow.world, World.set_page_init, World.sblk]
          by_cases hx : x = sb.addr
          · subst hx; simp [World.sblk]
          · simp [Function.update, hx]
        · intro _
          simp [Flow.world, World.set_page_init, World.sblk]
    · rw [if_neg hacc]
      exact ⟨BelowSlot.bl_refl w, by simp [Flow.isNext]⟩
  · rw [if_neg hb]
    refine ⟨BelowSlot.bl_refl w, fun _ => ?_⟩
    simpa [Flow.world] using hb

theorem isSome_iblk_update (w : World) (ib : Nat) (v : H5EA_iblock_t) (x : Nat)
    (h : (w.iblocks x).isSome = true) :
    (Function.update w.iblocks ib (some v) x).isSome = true := isSome_update _ _ _ _ h

/-- The check-and-create of a data block below a super block. -/
theorem ensure_sblock_dblock_post (acc sblk_idx : Nat) (sb : H5EA_sblock_t) (i : Nat)
    (l : LookupLocals) (w : World) :
    BelowSblock w (lookup_ensure_sblock_dblock acc sblk_idx sb i l w).world ∧
    ((lookup_ensure_sblock_dblock acc sblk_idx sb i l w).isNext = true →
      H5F_addr_defined (((lookup_ensure_sblock_dblock acc sblk_idx sb i l w).world.sblk
        sb.addr).dblk_addrs i) = true) ∧
    (acc &&& H5AC__READ_ONLY_FLAG = 0 →
      (lookup_ensure_sblock_dblock acc sblk_idx sb i l w).isNext = false →
      (lookup_ensure_sblock_dblock acc sblk_idx sb i l w).locals.ret_value = FAIL) := by
  unfold lookup_ensure_sblock_dblock
  by_cases hb : H5F_addr_defined ((w.sblk sb.addr).dblk_addrs i) = false
  · rw [if_pos hb]
    by_cases hacc : acc &&& H5AC__READ_ONLY_FLAG = 0
    · rw [if_pos hacc]
      dsimp only
      unfold H5EA__dblock_create
      by_cases hc : (w.fault = true ∨ H5MF_alloc_fits w (H5EA_DBLOCK_SIZE w.hdr sb.dblk_nelmts) = false)
      · simp only [if_pos hc, undef_not_defined, if_true]
        refine ⟨⟨?_, ?_, ?_, ?_⟩, by simp [Flow.isNext], by simp [Flow.locals]⟩
        · constructor <;> simp [Flow.world]
        · simp [Flow.world]
        · simp [Flow.world]
        · intro x hx; simpa [Flow.world] using hx
      · have hf : H5F_addr_defined w.eoa = true :=
          fits_defined w _ (by simpa using (not_or.1 hc).2)
        simp only [if_neg hc, hf]
        refine ⟨⟨?_, ?_, ?_, ?_⟩, ?_, by simp [Flow.isNext]⟩
        · constructor <;> simp [Flow.world, World.set_sblock_dblk_addr]
        · simp [Flow.world, World.set_sblock_dblk_addr]
        · simp [Flow.world, World.set_sblock_dblk_addr]
        · intro x hx
          simp only [Flow.world, World.set_sblock_dblk_addr]
          exact isSome_update _ _ _ _ (by simpa using hx)
        · intro _
          simp [Flow.world, World.set_sblock_dblk_addr, World.sblk, hf]
    · rw [if_neg hacc]
      exact ⟨BelowSblock.bs_refl w, by simp [Flow.isNext], fun h => absurd h hacc⟩
  · rw [if_neg hb]
    refine ⟨BelowSblock.bs_refl w, fun _ => ?_, by simp [Flow.isNext]⟩
    simpa [Flow.world] using hb

/-- The check-and-create of a super block below the index block. -/
theorem ensure_sblock_post (acc sblk_idx ib off : Nat) (l : LookupLocals) (w : World) :
    BelowIblock w (lookup_ensure_sblock acc sblk_idx ib off l w).world ∧
    ((lookup_ensure_sblock acc sblk_idx ib off l w).isNext = true →
      H5F_addr_defined (((lookup_ensure_sblock acc sblk_idx ib off l w).world.iblk
        ib).sblk_addrs off) = true) ∧
    (acc &&& H5AC__READ_ONLY_FLAG = 0 →
      (lookup_ensure_sblock acc sblk_idx ib off l w).isNext = false →
      (lookup_ensure_sblock acc sblk_idx ib off l w).locals.ret_value = FAIL) := by
  unfold lookup_ensure_sblock
  by_cases hb : H5F_addr_defined ((w.iblk ib).sblk_addrs off) = false
  · rw [if_pos hb]
    by_cases hacc : acc &&& H5AC__READ_ONLY_FLAG = 0
    · rw [if_pos hacc]
      dsimp only
      unfold H5EA__sblock_create
      by_cases hc : (w.fault = true ∨ H5MF_alloc_fits w (H5EA_SBLOCK_SIZE w.hdr sblk_idx) = false)
      · simp only [if_pos hc, undef_not_defined, if_true]
        refine ⟨⟨?_, ?_, ?_, ?_⟩, by simp [Flow.isNext], by simp [Flow.locals]⟩
        · constructor <;> simp [Flow.world]
        · simp [Flow.world]
        · intro x hx; simpa [Flow.world] using hx
        · intro x; simp [Flow.world, World.iblk]
      · have hf : H5F_addr_defined w.eoa = true :=
          fits_defined w _ (by simpa using (not_or.1 hc).2)
        simp only [if_neg hc, hf]
        refine ⟨⟨?_, ?_, ?_, ?_⟩, ?_, by simp [Flow.isNext]⟩
        · constructor <;> simp [Flow.world, World.set_iblock_sblk_addr]
        · simp [Flow.world, World.set_iblock_sblk_addr]
        · intro x hx
          simp only [Flow.world, World.set_iblock_sblk_addr]
          exact isSome_update _ _ _ _ (by simpa using hx)
        · intro x
          simp only [Flow.world, World.set_iblock_sblk_addr, World.iblk]
          by_cases hx : x = ib
          · subst hx; simp [World.iblk]
          · simp [Function.update, hx]
        · intro _
          simp [Flow.world, World.set_iblock_sblk_addr, World.iblk, hf]
    · rw [if_neg hacc]
      exact ⟨BelowIblock.bi_refl w, by simp [Flow.isNext], fun h => absurd h hacc⟩
  · rw [if_neg hb]
    refine ⟨BelowIblock.bi_refl w, fun _ => ?_, by simp [Flow.isNext]⟩
    simpa [Flow.world] using hb

/-- The check-and-create of a data block below the index block. -/
theorem ensure_iblock_dblock_post (acc sblk_idx ib i : Nat) (l : LookupLocals) (w : World) :
    BelowIblock w (lookup_ensure_iblock_dblock acc sblk_idx ib i l w).world ∧
    ((lookup_ensure_iblock_dblock acc sblk_idx ib i l w).isNext = true →
      H5F_addr_defined (((lookup_ensure_iblock_dblock acc sblk_idx ib i l w).world.iblk
        ib).dblk_addrs i) = true) ∧
    (acc &&& H5AC__READ_ONLY_FLAG = 0 →
      (lookup_ensure_iblock_dblock acc sblk_idx ib i l w).isNext = false →
      (lookup_ensure_iblock_dblock acc sblk_idx ib i l w).locals.ret_value = FAIL) := by
  unfold lookup_ensure_iblock_dblock
  by_cases hb : H5F_addr_defined ((w.iblk ib).dblk_addrs i) = false
  · rw [if_pos hb]
    by_cases hacc : acc &&& H5AC__READ_ONLY_FLAG = 0
    · rw [if_pos hacc]
      dsimp only
      unfold H5EA__dblock_create
      by_cases hc : (w.fault = true ∨ H5MF_alloc_fits w
          (H5EA_DBLOCK_SIZE w.hdr (w.hdr.sblk_info sblk_idx).dblk_nelmts) = false)
      · simp only [if_pos hc, undef_not_defined, if_true]
        refine ⟨⟨?_, ?_, ?_, ?_⟩, by simp [Flow.isNext], by simp [Flow.locals]⟩
        · constructor <;> simp [Flow.world]
        · simp [Flow.world]
        · intro x hx; simpa [Flow.world] using hx
        · intro x; simp [Flow.world, World.iblk]
      · have hf : H5F_addr_defined w.eoa = true :=
          fits_defined w _ (by simpa using (not_or.1 hc).2)
        simp only [if_neg hc, hf]
        refine ⟨⟨?_, ?_, ?_, ?_⟩, ?_, by simp [Flow.isNext]⟩
        · constructor <;> simp [Flow.world, World.set_iblock_dblk_addr]
        · simp [Flow.world, World.set_iblock_dblk_addr]
        · intro x hx
          simp only [Flow.world, World.set_iblock_dblk_addr]
          exact isSome_update _ _ _ _ (by simpa using hx)
        · intro x
          simp only [Flow.world, World.set_iblock_dblk_addr, World.iblk]
          by_cases hx : x = ib
          · subst hx; simp [World.iblk]
          · simp [Function.update, hx]
        · intro _
          simp [Flow.world, World.set_iblock_dblk_addr, World.iblk, hf]
    · rw [if_neg hacc]
      exact ⟨BelowIblock.bi_refl w, by simp [Flow.isNext], fun h => absurd h hacc⟩
  · rw [if_neg hb]
    refine ⟨BelowIblock.bi_refl w, fun _ => ?_, by simp [Flow.isNext]⟩
    simpa [Flow.world] using hb

/-- The check-and-create of the index block. -/
theorem ensure_iblock_post (acc : Nat) (l : LookupLocals) (w : World) :
    HdrSame w.hdr (lookup_ensure_iblock acc l w).world.hdr ∧
    ((lookup_ensure_iblock acc l w).isNext = true →
      H5F_addr_defined (lookup_ensure_iblock acc l w).world.hdr.idx_blk_addr = true) ∧
    (acc &&& H5AC__READ_ONLY_FLAG = 0 →
      (lookup_ensure_iblock acc l w).isNext = false →
      (lookup_ensure_iblock acc l w).locals.ret_value = FAIL) := by
  unfold lookup_ensure_iblock
  by_cases hb : H5F_addr_defined w.hdr.idx_blk_addr = false
  · rw [if_pos hb]
    by_cases hacc : acc &&& H5AC__READ_ONLY_FLAG = 0
    · rw [if_pos hacc]
      dsimp only
      unfold H5EA__iblock_create
      by_cases hc : (w.fault = true ∨ H5MF_alloc_fits w (H5EA_IBLOCK_SIZE w.hdr) = false)
      · simp only [if_pos hc, undef_not_defined, if_true]
        refine ⟨?_, by simp [Flow.isNext], by simp [Flow.locals]⟩
        constructor <;> simp [Flow.world]
      · have hf : H5F_addr_defined w.eoa = true :=
          fits_defined w _ (by simpa using (not_or.1 hc).2)
        simp only [if_neg hc, hf]
        refine ⟨?_, ?_, by simp [Flow.isNext]⟩
        · constructor <;> simp [Flow.world]
        · intro _
          simp [Flow.world, hf]
    · rw [if_neg hacc]
      exact ⟨HdrSame.hs_refl _, by simp [Flow.isNext], fun h => absurd h hacc⟩
  · rw [if_neg hb]
    refine ⟨HdrSame.hs_refl _, fun _ => ?_, by simp [Flow.isNext]⟩
    simpa [Flow.world] using hb

/-! ### A walk that returns success has found the element -/

theorem lookup_dblock_found (acc a e : Nat) (l : LookupLocals) (w : World) :
    FileEq w (lookup_dblock acc a e l w).2 ∧
    (0 ≤ (lookup_dblock acc a e l w).1.ret_value →
      (w.dblocks a).isSome = true ∧ (lookup_dblock acc a e l w).1.thing = some ⟨.dblock, a⟩ ∧
      (lookup_dblock acc a e l w).1.thing_elmt_idx = e) := by
  unfold lookup_dblock
  have heq := dblock_protect_eq a acc w
  have hfe := dblock_protect_fileEq a acc w
  dsimp only
  by_cases h : w.fault = false ∧ (w.dblocks a).isSome = true
  · rw [if_pos h] at heq
    rw [heq]
    exact ⟨hfe, fun _ => ⟨h.2, rfl, rfl⟩⟩
  · rw [if_neg h] at heq
    rw [heq]
    exact ⟨hfe.fe_throw _, fun hr => by simp [FAIL] at hr⟩

theorem lookup_page_found (acc a e : Nat) (l : LookupLocals) (w : World) :
    FileEq w (lookup_page acc a e l w).2 ∧
    (0 ≤ (lookup_page acc a e l w).1.ret_value →
      (w.dblk_pages a).isSome = true ∧ (lookup_page acc a e l w).1.thing = some ⟨.dblk_page, a⟩ ∧
      (lookup_page acc a e l w).1.thing_elmt_idx = e) := by
  unfold lookup_page
  have heq := dblk_page_protect_eq a acc w
  have hfe := dblk_page_protect_fileEq a acc w
  dsimp only
  by_cases h : w.fault = false ∧ (w.dblk_pages a).isSome = true
  · rw [if_pos h] at heq
    rw [heq]
    exact ⟨hfe, fun _ => ⟨h.2, rfl, rfl⟩⟩
  · rw [if_neg h] at heq
    rw [heq]
    exact ⟨hfe.fe_throw _, fun hr => by simp [FAIL] at hr⟩

theorem resolved_found {l : LookupLocals} {t : Thing} {i : Nat} (hr : 0 ≤ l.ret_value)
    (ht : l.thing = some t) (hi : l.thing_elmt_idx = i) : l.resolved = .found t i := by
  simp [LookupLocals.resolved, not_lt.2 hr, ht, hi]

theorem lookup_sblock_dblock_found {acc : Nat} (hrw : acc &&& H5AC__READ_ONLY_FLAG = 0)
    (sb : H5EA_sblock_t) (i e : Nat) (l : LookupLocals) (w : World) :
    BelowSlot w (lookup_sblock_dblock acc sb i e l w).2 ∧
    (0 ≤ (lookup_sblock_dblock acc sb i e l w).1.ret_value →
      resolve_sblock_dblock (lookup_sblock_dblock acc sb i e l w).2 sb i e =
        (lookup_sblock_dblock acc sb i e l w).1.resolved ∧
      (lookup_sblock_dblock acc sb i e l w).1.thing ≠ none) := by
  unfold lookup_sblock_dblock
  by_cases hp : sb.dblk_npages ≠ 0
  · rw [if_pos hp]
    dsimp only
    have hpost := ensure_page_frame acc sb (u64 (i * sb.dblk_npages + e / w.hdr.dblk_page_nelmts))
      (u64 ((w.sblk sb.addr).dblk_addrs i + H5EA_DBLOCK_PREFIX_SIZE w.hdr
        + e / w.hdr.dblk_page_nelmts * sb.dblk_page_size)) l w
    have hfail : (lookup_ensure_page acc sb (u64 (i * sb.dblk_npages + e / w.hdr.dblk_page_nelmts))
      (u64 ((w.sblk sb.addr).dblk_addrs i + H5EA_DBLOCK_PREFIX_SIZE w.hdr
        + e / w.hdr.dblk_page_nelmts * sb.dblk_page_size)) l w).isNext = false →
        (lookup_ensure_page acc sb (u64 (i * sb.dblk_npages + e / w.hdr.dblk_page_nelmts))
      (u64 ((w.sblk sb.addr).dblk_addrs i + H5EA_DBLOCK_PREFIX_SIZE w.hdr
        + e / w.hdr.dblk_page_nelmts * sb.dblk_page_size)) l w).locals.ret_value = FAIL := by
      unfold lookup_ensure_page
      by_cases hb : (w.sblk sb.addr).page_init
          (u64 (i * sb.dblk_npages + e / w.hdr.dblk_page_nelmts)) = false
      · rw [if_pos hb, if_pos hrw]
        dsimp only
        split <;> simp [Flow.isNext, Flow.locals]
      · rw [if_neg hb]; simp [Flow.isNext]
    revert hpost hfail
    generalize lookup_ensure_page acc sb (u64 (i * sb.dblk_npages + e / w.hdr.dblk_page_nelmts))
      (u64 ((w.sblk sb.addr).dblk_addrs i + H5EA_DBLOCK_PREFIX_SIZE w.hdr
        + e / w.hdr.dblk_page_nelmts * sb.dblk_page_size)) l w = F
    intro hpost hfail
    cases F with
    | at_catch l1 w1 =>
      simp only [Flow.world, Flow.isNext, Flow.locals] at hpost hfail ⊢
      exact ⟨hpost.1, fun hr => by rw [hfail trivial] at hr; simp [FAIL] at hr⟩
    | next l1 w1 =>
      simp only [Flow.world, Flow.isNext, Flow.locals] at hpost hfail ⊢
      have hpg := lookup_page_found acc (u64 ((w.sblk sb.addr).dblk_addrs i
        + H5EA_DBLOCK_PREFIX_SIZE w.hdr + e / w.hdr.dblk_page_nelmts * sb.dblk_page_size))
        (e % w.hdr.dblk_page_nelmts) l1 w1
      refine ⟨hpost.1.bl_trans (BelowSlot.bl_of_fileEq hpg.1), fun hr => ?_⟩
      obtain ⟨hpres, hth, hix⟩ := hpg.2 hr
      rw [resolved_found hr hth hix]
      refine ⟨?_, by rw [hth]; simp⟩
      unfold resolve_sblock_dblock
      rw [if_pos hp, hpg.1.fe_sblk, hpg.1.hdr, hpg.1.dblk_pages]
      rw [hpost.1.hdr, hpost.1.dblk_addrs, hpost.2 trivial]
      simp [hpres]
  · rw [if_neg hp]
    have hdb := lookup_dblock_found acc ((w.sblk sb.addr).dblk_addrs i) e l w
    refine ⟨BelowSlot.bl_of_fileEq hdb.1, fun hr => ?_⟩
    obtain ⟨hpres, hth, hix⟩ := hdb.2 hr
    rw [resolved_found hr hth hix]
    refine ⟨?_, by rw [hth]; simp⟩
    unfold resolve_sblock_dblock
    rw [if_neg hp, hdb.1.fe_sblk, hdb.1.dblocks]
    simp [hpres]

theorem FileEq.fe_HDassert {w w' : World} (h : FileEq w w') (c : Bool) :
    FileEq w (w'.HDassert c) :=
  ⟨h.hdr, h.hdr_present, h.iblocks, h.sblocks, h.dblocks, h.dblk_pages, h.eoa, h.faults, h.clock⟩

theorem iblk_congr {w w' : World} (h : w'.iblocks = w.iblocks) (a : Nat) :
    w'.iblk a = w.iblk a := by
  unfold World.iblk; rw [h]

theorem HdrSame.hs_sblock_of {h h' : H5EA_hdr_t} (hs : HdrSame h h') (a i : Nat) :
    sblock_of h' a i = sblock_of h a i := by
  simp [H5EA.sblock_of, dblk_npages, H5EA_DBLK_PAGE_SIZE, hs.sblk_info, hs.dblk_page_nelmts,
    hs.cparam]

theorem HdrSame.hs_dblock_sblk_idx {h h' : H5EA_hdr_t} (hs : HdrSame h h') (idx : Nat) :
    H5EA__dblock_sblk_idx h' idx = H5EA__dblock_sblk_idx h idx := by
  simp [H5EA__dblock_sblk_idx, hs.cparam]

theorem lookup_sblock_found {acc : Nat} (hrw : acc &&& H5AC__READ_ONLY_FLAG = 0)
    (sblk_idx a e : Nat) (l : LookupLocals) (w : World) :
    BelowSblock w (lookup_sblock acc sblk_idx a e l w).2 ∧
    (0 ≤ (lookup_sblock acc sblk_idx a e l w).1.ret_value →
      resolve_sblock (lookup_sblock acc sblk_idx a e l w).2 sblk_idx a e =
        (lookup_sblock acc sblk_idx a e l w).1.resolved ∧
      (lookup_sblock acc sblk_idx a e l w).1.thing ≠ none) := by
  unfold lookup_sblock
  have heq := sblock_protect_eq a sblk_idx acc w
  have hfe := sblock_protect_fileEq a sblk_idx acc w
  dsimp only
  by_cases h : w.fault = false ∧ (w.sblocks a).isSome = true
  · rw [if_pos h] at heq
    rw [heq]
    dsimp only
    have hfe' := hfe.fe_HDassert (decide (u64 (e / (sblock_of w.hdr a sblk_idx).dblk_nelmts) <
          (sblock_of w.hdr a sblk_idx).ndblks))
    have hpost := ensure_sblock_dblock_post acc sblk_idx (sblock_of w.hdr a sblk_idx)
      (u64 (e / (sblock_of w.hdr a sblk_idx).dblk_nelmts))
      { l with sblock := some (sblock_of w.hdr a sblk_idx) }
      ((H5EA__sblock_protect a sblk_idx acc w).2.HDassert
        (decide (u64 (e / (sblock_of w.hdr a sblk_idx).dblk_nelmts) <
          (sblock_of w.hdr a sblk_idx).ndblks)))
    revert hpost
    generalize lookup_ensure_sblock_dblock acc sblk_idx (sblock_of w.hdr a sblk_idx)
      (u64 (e / (sblock_of w.hdr a sblk_idx).dblk_nelmts))
      { l with sblock := some (sblock_of w.hdr a sblk_idx) }
      ((H5EA__sblock_protect a sblk_idx acc w).2.HDassert
        (decide (u64 (e / (sblock_of w.hdr a sblk_idx).dblk_nelmts) <
          (sblock_of w.hdr a sblk_idx).ndblks))) = F
    intro hpost
    cases F with
    | at_catch l1 w1 =>
      dsimp only [Flow.world, Flow.isNext, Flow.locals] at hpost ⊢
      exact ⟨(BelowSblock.bs_of_fileEq hfe').bs_trans hpost.1,
        fun hr => by rw [hpost.2.2 hrw rfl] at hr; simp [FAIL] at hr⟩
    | next l1 w1 =>
      dsimp only [Flow.world, Flow.isNext, Flow.locals] at hpost ⊢
      have hsd := lookup_sblock_dblock_found hrw (sblock_of w.hdr a sblk_idx)
        (u64 (e / (sblock_of w.hdr a sblk_idx).dblk_nelmts))
        (e % (sblock_of w.hdr a sblk_idx).dblk_nelmts) l1 w1
      have hb1 := (BelowSblock.bs_of_fileEq hfe').bs_trans hpost.1
      have hb2 := hb1.bs_trans (BelowSblock.bs_of_slot hsd.1)
      refine ⟨hb2, fun hr => ?_⟩
      obtain ⟨hres, hth⟩ := hsd.2 hr
      refine ⟨?_, hth⟩
      rw [← hres]
      unfold resolve_sblock
      have hsa : (sblock_of w.hdr a sblk_idx).addr = a := rfl
      rw [hb2.hdr.hs_sblock_of, if_pos (hb2.sblocks a h.2), hsd.1.dblk_addrs]
      have := hpost.2.1 rfl
      rw [hsa] at this
      rw [this]
      simp
  · rw [if_neg h] at heq
    rw [heq]
    exact ⟨BelowSblock.bs_of_fileEq (hfe.fe_throw _), fun hr => by simp [FAIL] at hr⟩

theorem lookup_via_sblock_found {acc : Nat} (hrw : acc &&& H5AC__READ_ONLY_FLAG = 0)
    (sblk_idx ib e : Nat) (l : LookupLocals) (w : World) :
    BelowIblock w (lookup_via_sblock acc sblk_idx ib e l w).2 ∧
    (0 ≤ (lookup_via_sblock acc sblk_idx ib e l w).1.ret_value →
      resolve_via_sblock (lookup_via_sblock acc sblk_idx ib e l w).2 sblk_idx ib e =
        (lookup_via_sblock acc sblk_idx ib e l w).1.resolved ∧
      (lookup_via_sblock acc sblk_idx ib e l w).1.thing ≠ none) := by
  unfold lookup_via_sblock
  dsimp only
  have hpost := ensure_sblock_post acc sblk_idx ib (sblk_idx - w.hdr.iblock_nsblks) l w
  revert hpost
  generalize lookup_ensure_sblock acc sblk_idx ib (sblk_idx - w.hdr.iblock_nsblks) l w = F
  intro hpost
  cases F with
  | at_catch l1 w1 =>
    dsimp only [Flow.world, Flow.isNext, Flow.locals] at hpost ⊢
    exact ⟨hpost.1, fun hr => by rw [hpost.2.2 hrw rfl] at hr; simp [FAIL] at hr⟩
  | next l1 w1 =>
    dsimp only [Flow.world, Flow.isNext, Flow.locals] at hpost ⊢
    have hsb := lookup_sblock_found hrw sblk_idx
      ((w1.iblk ib).sblk_addrs (sblk_idx - w.hdr.iblock_nsblks)) e l1 w1
    have hb := hpost.1.bi_trans (BelowIblock.bi_of_sblock hsb.1)
    refine ⟨hb, fun hr => ?_⟩
    obtain ⟨hres, hth⟩ := hsb.2 hr
    refine ⟨?_, hth⟩
    rw [← hres]
    unfold resolve_via_sblock
    have hib := iblk_congr hsb.1.iblocks ib
    rw [hb.hdr.iblock_nsblks, hib, hpost.2.1 rfl]
    simp

theorem lookup_via_iblock_found {acc : Nat} (hrw : acc &&& H5AC__READ_ONLY_FLAG = 0)
    (sblk_idx ib e : Nat) (l : LookupLocals) (w : World) :
    BelowIblock w (lookup_via_iblock acc sblk_idx ib e l w).2 ∧
    (0 ≤ (lookup_via_iblock acc sblk_idx ib e l w).1.ret_value →
      resolve_via_iblock (lookup_via_iblock acc sblk_idx ib e l w).2 sblk_idx ib e =
        (lookup_via_iblock acc sblk_idx ib e l w).1.resolved ∧
      (lookup_via_iblock acc sblk_idx ib e l w).1.thing ≠ none) := by
  unfold lookup_via_iblock
  dsimp only
  have hpost := ensure_iblock_dblock_post acc sblk_idx ib
    (u64 ((w.hdr.sblk_info sblk_idx).start_dblk + e / (w.hdr.sblk_info sblk_idx).dblk_nelmts)) l w
  revert hpost
  generalize lookup_ensure_iblock_dblock acc sblk_idx ib
    (u64 ((w.hdr.sblk_info sblk_idx).start_dblk + e / (w.hdr.sblk_info sblk_idx).dblk_nelmts))
    l w = F
  intro hpost
  cases F with
  | at_catch l1 w1 =>
    dsimp only [Flow.world, Flow.isNext, Flow.locals] at hpost ⊢
    exact ⟨hpost.1, fun hr => by rw [hpost.2.2 hrw rfl] at hr; simp [FAIL] at hr⟩
  | next l1 w1 =>
    dsimp only [Flow.world, Flow.isNext, Flow.locals] at hpost ⊢
    have hdb := lookup_dblock_found acc ((w1.iblk ib).dblk_addrs
      (u64 ((w.hdr.sblk_info sblk_idx).start_dblk + e / (w.hdr.sblk_info sblk_idx).dblk_nelmts)))
      (e % (w.hdr.sblk_info sblk_idx).dblk_nelmts) l1 w1
    have hb := hpost.1.bi_trans (BelowIblock.bi_of_fileEq hdb.1)
    refine ⟨hb, fun hr => ?_⟩
    obtain ⟨hpres, hth, hix⟩ := hdb.2 hr
    rw [resolved_found hr hth hix]
    refine ⟨?_, by rw [hth]; simp⟩
    unfold resolve_via_iblock
    rw [hb.hdr.sblk_info, hdb.1.fe_iblk, hdb.1.dblocks, hpost.2.1 rfl]
    simp [hpres]

theorem lookup_in_iblock_found {acc : Nat} (hrw : acc &&& H5AC__READ_ONLY_FLAG = 0)
    (idx ib : Nat) (l : LookupLocals) (w : World) :
    BelowIblock w (lookup_in_iblock idx acc ib l w).2 ∧
    (0 ≤ (lookup_in_iblock idx acc ib l w).1.ret_value →
      resolve_in_iblock (lookup_in_iblock idx acc ib l w).2 idx ib =
        (lookup_in_iblock idx acc ib l w).1.resolved ∧
      (lookup_in_iblock idx acc ib l w).1.thing ≠ none) := by
  unfold lookup_in_iblock
  by_cases h1 : idx < w.hdr.cparam.idx_blk_elmts
  · simp only [if_pos h1]
    refine ⟨BelowIblock.bi_refl w, fun hr => ⟨?_, by simp⟩⟩
    unfold resolve_in_iblock
    rw [if_pos h1]
    simp [LookupLocals.resolved, not_lt.2 hr]
  · simp only [if_neg h1]
    by_cases h2 : H5EA__dblock_sblk_idx w.hdr idx < w.hdr.iblock_nsblks
    · simp only [if_pos h2]
      have h := lookup_via_iblock_found hrw (H5EA__dblock_sblk_idx w.hdr idx) ib
        (sub64 idx (u64 (w.hdr.cparam.idx_blk_elmts
          + (w.hdr.sblk_info (H5EA__dblock_sblk_idx w.hdr idx)).start_idx))) l w
      refine ⟨h.1, fun hr => ?_⟩
      obtain ⟨hres, hth⟩ := h.2 hr
      refine ⟨?_, hth⟩
      rw [← hres]
      unfold resolve_in_iblock
      rw [h.1.hdr.cparam, h.1.hdr.hs_dblock_sblk_idx, h.1.hdr.iblock_nsblks, h.1.hdr.sblk_info,
        if_neg h1, if_pos h2]
    · simp only [if_neg h2]
      have h := lookup_via_sblock_found hrw (H5EA__dblock_sblk_idx w.hdr idx) ib
        (sub64 idx (u64 (w.hdr.cparam.idx_blk_elmts
          + (w.hdr.sblk_info (H5EA__dblock_sblk_idx w.hdr idx)).start_idx))) l w
      refine ⟨h.1, fun hr => ?_⟩
      obtain ⟨hres, hth⟩ := h.2 hr
      refine ⟨?_, hth⟩
      rw [← hres]
      unfold resolve_in_iblock
      rw [h.1.hdr.cparam, h.1.hdr.hs_dblock_sblk_idx, h.1.hdr.iblock_nsblks, h.1.hdr.sblk_info,
        if_neg h1, if_neg h2]

theorem lookup_body_found {acc : Nat} (hrw : acc &&& H5AC__READ_ONLY_FLAG = 0) (ea : H5EA_t)
    (idx : Nat) (w : World) :
    HdrSame w.hdr (lookup_body ea idx acc w).2.hdr ∧
    (0 ≤ (lookup_body ea idx acc w).1.ret_value →
      resolve (lookup_body ea idx acc w).2 idx = (lookup_body ea idx acc w).1.resolved ∧
      (lookup_body ea idx acc w).1.thing ≠ none) := by
  unfold lookup_body
  have hs0 : HdrSame w.hdr ({ w with hdr := { w.hdr with f := ea.f } } : World).hdr := by
    constructor <;> rfl
  revert hs0
  generalize ({ w with hdr := { w.hdr with f := ea.f } } : World) = w0
  intro hs0
  have hpost := ensure_iblock_post acc LookupLocals.init w0
  revert hpost
  generalize lookup_ensure_iblock acc LookupLocals.init w0 = F
  intro hpost
  cases F with
  | at_catch l1 w1 =>
    dsimp only [Flow.world, Flow.isNext, Flow.locals] at hpost ⊢
    exact ⟨hs0.hs_trans hpost.1, fun hr => by rw [hpost.2.2 hrw rfl] at hr; simp [FAIL] at hr⟩
  | next l1 w1 =>
    dsimp only [Flow.world, Flow.isNext, Flow.locals] at hpost ⊢
    have heq := iblock_protect_eq acc w1
    have hfe := iblock_protect_fileEq acc w1
    by_cases h : w1.fault = false ∧ (w1.iblocks w1.hdr.idx_blk_addr).isSome = true
    · rw [if_pos h] at heq
      rw [heq]
      dsimp only
      have hin := lookup_in_iblock_found hrw idx w1.hdr.idx_blk_addr
        { l1 with iblock := some w1.hdr.idx_blk_addr } (H5EA__iblock_protect acc w1).2
      have hb := (BelowIblock.bi_of_fileEq hfe).bi_trans hin.1
      refine ⟨(hs0.hs_trans hpost.1).hs_trans hb.hdr, fun hr => ?_⟩
      obtain ⟨hres, hth⟩ := hin.2 hr
      refine ⟨?_, hth⟩
      rw [← hres]
      unfold resolve
      rw [hb.idx_blk_addr, hpost.2.1 rfl, if_pos (hb.iblocks _ h.2)]
      simp
    · rw [if_neg h] at heq
      rw [heq]
      exact ⟨(hs0.hs_trans hpost.1).hs_trans (HdrSame.hs_of_eq (hfe.fe_throw _).hdr),
        fun hr => by simp [FAIL] at hr⟩

/-- A read-write lookup that returns success has every level on the way to the
index defined, and returns the block and the position the addressing finds in
the file it leaves. -/
theorem lookup_found {acc : Nat} (hrw : acc &&& H5AC__READ_ONLY_FLAG = 0) (ea : H5EA_t)
    (idx : Nat) (w : World) :
    HdrSame w.hdr (H5EA__lookup_elmt ea idx acc w).2.hdr ∧
    (0 ≤ (H5EA__lookup_elmt ea idx acc w).1.ret_value →
      resolve (H5EA__lookup_elmt ea idx acc w).2 idx =
        (H5EA__lookup_elmt ea idx acc w).1.resolved ∧
      (H5EA__lookup_elmt ea idx acc w).1.thing ≠ none) := by
  obtain ⟨hb1, hb2⟩ := lookup_body_found hrw ea idx w
  obtain ⟨cevs, -, hc⟩ := lookup_catch_spec (lookup_body ea idx acc w).1
    (lookup_body ea idx acc w).2
  have hfe := lookup_catch_fileEq (lookup_body ea idx acc w).1 (lookup_body ea idx acc w).2
  unfold H5EA__lookup_elmt
  dsimp only
  refine ⟨hb1.hs_trans (HdrSame.hs_of_eq hfe.hdr), fun hr => ?_⟩
  have hr' := (hc.ret_ok hr).1
  rw [hr'] at hr
  obtain ⟨hres, hth⟩ := hb2 hr
  rw [hfe.fe_resolve, hres]
  unfold LookupOut.resolved LookupLocals.resolved
  dsimp only
  rw [hr', hc.thing, hc.thing_elmt_idx, if_neg (not_lt.2 hr), if_neg (not_lt.2 hr)]
  refine ⟨by simp [not_lt.2 hr], ?_⟩
  rw [if_neg (not_lt.2 hr)]
  exact hth

/-! ### Worlds with the same tree of blocks -/

theorem HdrSame.hs_geom {h h' : H5EA_hdr_t} (hs : HdrSame h h') : HdrGeom h h' :=
  ⟨hs.cparam, hs.sblk_info, hs.nsblks, hs.dblk_page_nelmts, hs.iblock_nsblks, hs.sizeof_addr,
    hs.arr_off_size⟩

theorem HdrGeom.hg_refl (h : H5EA_hdr_t) : HdrGeom h h := (HdrSame.hs_refl h).hs_geom

theorem HdrGeom.hg_trans {a b c : H5EA_hdr_t} (h1 : HdrGeom a b) (h2 : HdrGeom b c) :
    HdrGeom a c :=
  ⟨h2.cparam.trans h1.cparam, h2.sblk_info.trans h1.sblk_info, h2.nsblks.trans h1.nsblks,
    h2.dblk_page_nelmts.trans h1.dblk_page_nelmts, h2.iblock_nsblks.trans h1.iblock_nsblks,
    h2.sizeof_addr.trans h1.sizeof_addr, h2.arr_off_size.trans h1.arr_off_size⟩

theorem HdrGeom.hg_sblock_of {h h' : H5EA_hdr_t} (hs : HdrGeom h h') (a i : Nat) :
    sblock_of h' a i = sblock_of h a i := by
  simp [H5EA.sblock_of, dblk_npages, H5EA_DBLK_PAGE_SIZE, hs.sblk_info, hs.dblk_page_nelmts,
    hs.cparam]

theorem HdrGeom.hg_dblock_sblk_idx {h h' : H5EA_hdr_t} (hs : HdrGeom h h') (idx : Nat) :
    H5EA__dblock_sblk_idx h' idx = H5EA__dblock_sblk_idx h idx := by
  simp [H5EA__dblock_sblk_idx, hs.cparam]

theorem SameTree.st_refl (w : World) : SameTree w w :=
  ⟨HdrGeom.hg_refl _, rfl, fun _ => rfl, fun _ => rfl, fun _ => rfl, rfl, fun _ => rfl, fun _ => rfl,
    rfl⟩

theorem SameTree.st_trans {a b c : World} (h1 : SameTree a b) (h2 : SameTree b c) :
    SameTree a c :=
  ⟨h1.hdr.hg_trans h2.hdr, h2.idx_blk_addr.trans h1.idx_blk_addr,
    fun x => (h2.iblocks x).trans (h1.iblocks x),
    fun x => (h2.dblk_addrs x).trans (h1.dblk_addrs x),
    fun x => (h2.sblk_addrs x).trans (h1.sblk_addrs x),
    h2.sblocks.trans h1.sblocks,
    fun x => (h2.dblocks x).trans (h1.dblocks x),
    fun x => (h2.dblk_pages x).trans (h1.dblk_pages x), h2.eoa.trans h1.eoa⟩

theorem SameTree.st_of_fileEq {w w' : World} (h : FileEq w w') : SameTree w w' :=
  ⟨(HdrSame.hs_of_eq h.hdr).hs_geom, by rw [h.hdr], fun _ => by rw [h.iblocks], fun _ => by rw [h.fe_iblk],
    fun _ => by rw [h.fe_iblk], h.sblocks, fun _ => by rw [h.dblocks], fun _ => by rw [h.dblk_pages],
    h.eoa⟩

theorem SameTree.st_sblk {w w' : World} (h : SameTree w w') (a : Nat) : w'.sblk a = w.sblk a := by
  unfold World.sblk; rw [h.sblocks]

theorem SameTree.st_prefix_size {w w' : World} (h : SameTree w w') :
    H5EA_DBLOCK_PREFIX_SIZE w'.hdr = H5EA_DBLOCK_PREFIX_SIZE w.hdr := by
  simp [H5EA_DBLOCK_PREFIX_SIZE, h.hdr.sizeof_addr, h.hdr.arr_off_size]

theorem SameTree.st_resolve_sblock {w w' : World} (h : SameTree w w') (sblk_idx a e : Nat) :
    resolve_sblock w' sblk_idx a e = resolve_sblock w sblk_idx a e := by
  unfold H5EA.resolve_sblock resolve_sblock_dblock
  rw [h.hdr.hg_sblock_of]
  simp only [h.st_sblk, h.sblocks, h.dblocks, h.dblk_pages, h.hdr.dblk_page_nelmts, h.st_prefix_size]

theorem SameTree.st_resolve_in_iblock {w w' : World} (h : SameTree w w') (idx ib : Nat) :
    resolve_in_iblock w' idx ib = resolve_in_iblock w idx ib := by
  unfold H5EA.resolve_in_iblock resolve_via_iblock resolve_via_sblock
  simp only [h.st_resolve_sblock, h.hdr.cparam, h.hdr.hg_dblock_sblk_idx, h.hdr.iblock_nsblks,
    h.hdr.sblk_info, h.dblk_addrs, h.sblk_addrs, h.dblocks]

theorem SameTree.st_resolve {w w' : World} (h : SameTree w w') (idx : Nat) :
    resolve w' idx = resolve w idx := by
  unfold H5EA.resolve
  rw [h.st_resolve_in_iblock, h.idx_blk_addr, h.iblocks]

/-! ### What the addressing finds is a block with elements, in the store -/

theorem resolve_sblock_present {w : World} {sblk_idx a e : Nat} {t : Thing} {i : Nat}
    (h : resolve_sblock w sblk_idx a e = .found t i) :
    w.present t = true ∧ t.hasElmts = true := by
  unfold resolve_sblock resolve_sblock_dblock at h
  split at h
  · split at h
    · cases h
    · split at h
      · split at h
        · cases h
        · split at h
          · rename_i hp
            cases h
            exact ⟨hp, rfl⟩
          · cases h
      · split at h
        · rename_i hp
          cases h
          exact ⟨hp, rfl⟩
        · cases h
  · cases h

theorem resolve_in_iblock_present {w : World} {idx ib : Nat} {t : Thing} {i : Nat}
    (hib : (w.iblocks ib).isSome = true) (h : resolve_in_iblock w idx ib = .found t i) :
    w.present t = true ∧ t.hasElmts = true := by
  unfold resolve_in_iblock resolve_via_iblock resolve_via_sblock at h
  split at h
  · cases h
    exact ⟨hib, rfl⟩
  · split at h
    · split at h
      · cases h
      · split at h
        · rename_i hp
          cases h
          exact ⟨hp, rfl⟩
        · cases h
    · split at h
      · cases h
      · exact resolve_sblock_present h

theorem resolve_present {w : World} {idx : Nat} {t : Thing} {i : Nat}
    (h : resolve w idx = .found t i) : w.present t = true ∧ t.hasElmts = true := by
  unfold resolve at h
  split at h
  · cases h
  · split at h
    · rename_i hp
      exact resolve_in_iblock_present hp h
    · cases h

/-! ### Writing and reading an element -/

theorem elmt_read_write (t : Thing) (i v : Nat) (w : World) (h : t.hasElmts = true) :
    elmt_read t i (elmt_write t i v w) = v := by
  unfold elmt_read elmt_write
  cases hk : t.kind <;> simp [Thing.hasElmts, hk, World.iblk, World.dblk, World.page] at h ⊢

theorem elmt_write_sameTree (t : Thing) (i v : Nat) (w : World) (hp : w.present t = true) :
    SameTree w (elmt_write t i v w) := by
  unfold elmt_write
  unfold World.present at hp
  cases hk : t.kind <;> simp only [hk] at hp ⊢
  · exact SameTree.st_refl w
  · refine ⟨HdrGeom.hg_refl _, rfl, ?_, ?_, ?_, rfl, fun _ => rfl, fun _ => rfl, rfl⟩
    · intro a
      by_cases ha : a = t.addr
      · subst ha; simp [hp]
      · simp [Function.update, ha]
    · intro a
      by_cases ha : a = t.addr
      · subst ha; simp [World.iblk]
      · simp [World.iblk, Function.update, ha]
    · intro a
      by_cases ha : a = t.addr
      · subst ha; simp [World.iblk]
      · simp [World.iblk, Function.update, ha]
  · exact SameTree.st_refl w
  · refine ⟨HdrGeom.hg_refl _, rfl, fun _ => rfl, fun _ => rfl, fun _ => rfl, rfl, ?_, fun _ => rfl,
      rfl⟩
    intro a
    by_cases ha : a = t.addr
    · subst ha; simp [hp]
    · simp [Function.update, ha]
  · refine ⟨HdrGeom.hg_refl _, rfl, fun _ => rfl, fun _ => rfl, fun _ => rfl, rfl, fun _ => rfl, ?_,
      rfl⟩
    intro a
    by_cases ha : a = t.addr
    · subst ha; simp [hp]
    · simp [Function.update, ha]

/-! ### The steps of `H5EA_set` and `H5EA_get` around the lookup -/

theorem SameStore.ss_refl (w : World) : SameStore w w :=
  ⟨HdrGeom.hg_refl _, rfl, rfl, rfl, rfl, rfl, rfl⟩

theorem SameStore.ss_trans {a b c : World} (h1 : SameStore a b) (h2 : SameStore b c) :
    SameStore a c :=
  ⟨h1.hdr.hg_trans h2.hdr, h2.idx_blk_addr.trans h1.idx_blk_addr, h2.iblocks.trans h1.iblocks,
    h2.sblocks.trans h1.sblocks, h2.dblocks.trans h1.dblocks, h2.dblk_pages.trans h1.dblk_pages,
    h2.eoa.trans h1.eoa⟩

theorem SameStore.ss_of_fileEq {w w' : World} (h : FileEq w w') : SameStore w w' :=
  ⟨(HdrSame.hs_of_eq h.hdr).hs_geom, by rw [h.hdr], h.iblocks, h.sblocks, h.dblocks, h.dblk_pages,
    h.eoa⟩

theorem SameStore.ss_sameTree {w w' : World} (h : SameStore w w') : SameTree w w' :=
  ⟨h.hdr, h.idx_blk_addr, fun _ => by rw [h.iblocks], fun _ => by rw [iblk_congr h.iblocks],
    fun _ => by rw [iblk_congr h.iblocks], h.sblocks, fun _ => by rw [h.dblocks],
    fun _ => by rw [h.dblk_pages], h.eoa⟩

theorem SameStore.ss_elmt_read {w w' : World} (h : SameStore w w') (t : Thing) (i : Nat) :
    elmt_read t i w' = elmt_read t i w := by
  unfold H5EA.elmt_read World.iblk World.dblk World.page
  rw [h.iblocks, h.dblocks, h.dblk_pages]

theorem release_thing_fileEq (o : LookupOut) (flags : Nat) (ret : Int) (w : World) :
    FileEq w (release_thing o flags ret w).2 := by
  unfold release_thing
  cases o.thing with
  | none => exact FileEq.fe_refl w
  | some t =>
    dsimp only
    split
    · exact (cache_unprotect_fileEq _ _ _ _).fe_throw _
    · exact cache_unprotect_fileEq _ _ _ _

theorem release_thing_ret (o : LookupOut) (flags : Nat) (ret : Int) (w : World)
    (h : 0 ≤ (release_thing o flags ret w).1) : (release_thing o flags ret w).1 = ret := by
  unfold release_thing at h ⊢
  cases ho : o.thing with
  | none => rfl
  | some t =>
    rw [ho] at h
    dsimp only at h ⊢
    split
    · rename_i hc
      rw [if_pos hc] at h
      simp [FAIL] at h
    · rfl

theorem release_thing_quiet (o : LookupOut) (flags : Nat) (ret : Int) (w : World)
    (hq : w.quiet) : (release_thing o flags ret w).1 = ret := by
  unfold release_thing
  cases o.thing with
  | none => rfl
  | some t =>
    dsimp only
    rw [if_neg]
    unfold unprotect_thing
    rw [cache_unprotect_neg, quiet_fault hq]
    simp

theorem set_max_idx_store (idx : Nat) (w : World) :
    SameStore w (set_max_idx idx w).2 ∧
    (set_max_idx idx w).2.hdr.stats.max_idx_set =
      if idx ≥ w.hdr.stats.max_idx_set then u64 (idx + 1) else w.hdr.stats.max_idx_set := by
  unfold set_max_idx
  by_cases h : idx ≥ w.hdr.stats.max_idx_set
  · rw [if_pos h, if_pos h]
    dsimp only
    split
    · exact ⟨⟨by constructor <;> simp, by simp, by simp, by simp, by simp, by simp, by simp⟩,
        by simp⟩
    · exact ⟨⟨by constructor <;> simp, by simp, by simp, by simp, by simp, by simp, by simp⟩,
        by simp⟩
  · rw [if_neg h, if_neg h]
    exact ⟨SameStore.ss_refl w, rfl⟩

/-- What a successful `H5EA_set` leaves: the addressing finds a block and a
position for the index, the element there is the one written, and the maximum
index set covers the index (modulo `2^64`). -/
theorem set_success (ea : H5EA_t) (idx v : Nat) (w : World)
    (hs : 0 ≤ (H5EA_set ea idx v w).1) :
    (∃ t i, resolve (H5EA_set ea idx v w).2 idx = .found t i ∧
      elmt_read t i (H5EA_set ea idx v w).2 = v) ∧
    (H5EA_set ea idx v w).2.hdr.stats.max_idx_set =
      if idx ≥ w.hdr.stats.max_idx_set then u64 (idx + 1) else w.hdr.stats.max_idx_set := by
  have hrw : H5AC__NO_FLAGS_SET &&& H5AC__READ_ONLY_FLAG = 0 := by decide
  have hf := lookup_found hrw ea idx { w with hdr := { w.hdr with f := ea.f } }
  have hout := lookup_outstanding ea idx H5AC__NO_FLAGS_SET
    { w with hdr := { w.hdr with f := ea.f } }
  unfold H5EA_set at hs ⊢
  dsimp only at hs ⊢
  revert hf hout hs
  generalize H5EA__lookup_elmt ea idx H5AC__NO_FLAGS_SET
    { w with hdr := { w.hdr with f := ea.f } } = r
  intro hs hf hout
  by_cases hr : r.1.ret_value < 0
  · rw [if_pos hr] at hs
    have := release_thing_ret _ _ _ _ hs
    rw [this] at hs
    simp [FAIL] at hs
  · rw [if_neg hr] at hs ⊢
    obtain ⟨hres, hth⟩ := hf.2 (not_lt.1 hr)
    obtain ⟨t, ht⟩ := Option.ne_none_iff_exists'.1 hth
    obtain ⟨evs, -, -, -, hbuf⟩ := hout
    have hbuf := (hbuf t ht).2.1
    have hfound : resolve r.2 idx = .found t r.1.thing_elmt_idx := by
      rw [hres]; simp [LookupOut.resolved, hr, ht]
    have hpres := resolve_present hfound
    have hfe := release_thing_fileEq r.1 (H5AC__NO_FLAGS_SET ||| H5AC__DIRTIED_FLAG)
      (set_store idx v r.1 r.2).1 (set_store idx v r.1 r.2).2
    have hcopy : set_copy v r.1 r.2 = elmt_write t r.1.thing_elmt_idx v (sanity_checks r.1 r.2) := by
      unfold set_copy; rw [hbuf]
    have hsan : FileEq r.2 (sanity_checks r.1 r.2) :=
      (((FileEq.fe_refl r.2).fe_HDassert _).fe_HDassert _).fe_HDassert _
    have hmax := set_max_idx_store idx (set_copy v r.1 r.2)
    have hst : SameStore (set_copy v r.1 r.2)
        (release_thing r.1 (H5AC__NO_FLAGS_SET ||| H5AC__DIRTIED_FLAG)
          (set_store idx v r.1 r.2).1 (set_store idx v r.1 r.2).2).2 :=
      hmax.1.ss_trans (SameStore.ss_of_fileEq hfe)
    have hpres' : (sanity_checks r.1 r.2).present t = true := by
      have := hpres.1
      unfold World.present at this ⊢
      rw [hsan.iblocks, hsan.dblocks, hsan.dblk_pages, hsan.sblocks, hsan.hdr_present, hsan.hdr]
      exact this
    refine ⟨⟨t, r.1.thing_elmt_idx, ?_, ?_⟩, ?_⟩
    · rw [hst.ss_sameTree.st_resolve, hcopy, (elmt_write_sameTree t _ v _ hpres').st_resolve,
        hsan.fe_resolve, hfound]
    · rw [hst.ss_elmt_read, hcopy, elmt_read_write _ _ _ _ hpres.2]
    · rw [hfe.hdr]
      unfold set_store
      rw [hmax.2, hcopy]
      have h1 : (elmt_write t r.1.thing_elmt_idx v (sanity_checks r.1 r.2)).hdr = r.2.hdr := by
        unfold elmt_write; split <;> rfl
      rw [h1, hf.1.max_idx_set]

theorem resolve_set_f (w : World) (f : Option Nat) (idx : Nat) :
    resolve { w with hdr := { w.hdr with f := f } } idx = resolve w idx := rfl

theorem elmt_read_set_f (w : World) (f : Option Nat) (t : Thing) (i : Nat) :
    elmt_read t i { w with hdr := { w.hdr with f := f } } = elmt_read t i w := rfl

theorem get_fill_quiet (w : World) (hq : w.quiet) :
    (get_fill w).1 = SUCCEED ∧ (get_fill w).2.1 = some w.hdr.cparam.cls.fill := by
  unfold get_fill cls_fill
  simp [quiet_fault hq, SUCCEED]

/-- In a world where no call fails, `H5EA_get` of an index below the maximum
index set returns the element at the place the addressing finds. -/
theorem get_found (ea : H5EA_t) (idx : Nat) (w : World) (t : Thing) (i : Nat) (hq : w.quiet)
    (hmax : idx < w.hdr.stats.max_idx_set) (hres : resolve w idx = .found t i) :
    (H5EA_get ea idx w).1 = SUCCEED ∧ (H5EA_get ea idx w).2.1 = some (elmt_read t i w) := by
  have hq0 : World.quiet { w with hdr := { w.hdr with f := ea.f } } := hq
  have hro := lookup_ro ea idx { w with hdr := { w.hdr with f := ea.f } } hq0
  have hout := lookup_outstanding ea idx H5AC__READ_ONLY_FLAG
    { w with hdr := { w.hdr with f := ea.f } }
  unfold H5EA_get
  rw [if_neg (not_le.2 hmax)]
  dsimp only
  revert hro hout
  generalize H5EA__lookup_elmt ea idx H5AC__READ_ONLY_FLAG
    { w with hdr := { w.hdr with f := ea.f } } = r
  intro hro hout
  obtain ⟨hfe, hr⟩ := hro
  rw [resolve_set_f, resolve_set_f, hres] at hr
  unfold LookupOut.resolved at hr
  by_cases hneg : r.1.ret_value < 0
  · rw [if_pos hneg] at hr; cases hr
  · rw [if_neg hneg] at hr ⊢
    cases hth : r.1.thing with
    | none => rw [hth] at hr; cases hr
    | some t' =>
      rw [hth] at hr
      dsimp only at hr ⊢
      injection hr with h1 h2
      subst h1
      obtain ⟨evs, -, -, -, hbuf⟩ := hout
      rw [(hbuf t' hth).2.1]
      refine ⟨release_thing_quiet _ _ _ _ ((hfe.fe_trans (FileEq.fe_refl _)).fe_quiet hq0), ?_⟩
      simp only [Option.map_some']
      rw [h2, (SameStore.ss_of_fileEq hfe).ss_elmt_read]
      rfl

/-- In a world where no call fails, `H5EA_get` returns the fill value when the
index is not below the maximum index set or a level on its way is undefined. -/
theorem get_absent (ea : H5EA_t) (idx : Nat) (w : World) (hq : w.quiet)
    (h : w.hdr.stats.max_idx_set ≤ idx ∨ resolve w idx = .absent) :
    (H5EA_get ea idx w).1 = SUCCEED ∧ (H5EA_get ea idx w).2.1 = some w.hdr.cparam.cls.fill := by
  unfold H5EA_get
  by_cases hmax : idx ≥ w.hdr.stats.max_idx_set
  · rw [if_pos hmax]
    exact get_fill_quiet w hq
  · rw [if_neg hmax]
    have hres := h.resolve_left (not_le.2 (not_le.1 hmax))
    have hq0 : World.quiet { w with hdr := { w.hdr with f := ea.f } } := hq
    have hro := lookup_ro ea idx { w with hdr := { w.hdr with f := ea.f } } hq0
    dsimp only
    revert hro
    generalize H5EA__lookup_elmt ea idx H5AC__READ_ONLY_FLAG
      { w with hdr := { w.hdr with f := ea.f } } = r
    intro hro
    obtain ⟨hfe, hr⟩ := hro
    rw [resolve_set_f, resolve_set_f, hres] at hr
    unfold LookupOut.resolved at hr
    by_cases hneg : r.1.ret_value < 0
    · rw [if_pos hneg] at hr; cases hr
    · rw [if_neg hneg] at hr ⊢
      cases hth : r.1.thing with
      | some t' => rw [hth] at hr; cases hr
      | none =>
        dsimp only
        have := get_fill_quiet r.2 (hfe.fe_quiet hq0)
        rw [hfe.hdr] at this
        exact this

/-! ### A read-only walk leaves the file alone, whatever fails -/

theorem lookup_sblock_dblock_ro_fileEq {acc : Nat} (hro : acc &&& H5AC__READ_ONLY_FLAG ≠ 0)
    (sb : H5EA_sblock_t) (i e : Nat) (l : LookupLocals) (w : World) :
    FileEq w (lookup_sblock_dblock acc sb i e l w).2 := by
  unfold lookup_sblock_dblock
  by_cases hn : sb.dblk_npages ≠ 0
  · rw [if_pos hn]
    dsimp only
    rw [ensure_page_ro hro]
    by_cases hb : (w.sblk sb.addr).page_init
        (u64 (i * sb.dblk_npages + e / w.hdr.dblk_page_nelmts)) = false
    · rw [if_pos hb]
      exact FileEq.fe_refl w
    · rw [if_neg hb]
      exact (lookup_page_found _ _ _ _ _).1
  · rw [if_neg hn]
    exact (lookup_dblock_found _ _ _ _ _).1

theorem lookup_sblock_ro_fileEq {acc : Nat} (hro : acc &&& H5AC__READ_ONLY_FLAG ≠ 0)
    (sblk_idx a e : Nat) (l : LookupLocals) (w : World) :
    FileEq w (lookup_sblock acc sblk_idx a e l w).2 := by
  unfold lookup_sblock
  have heq := sblock_protect_eq a sblk_idx acc w
  have hfe := sblock_protect_fileEq a sblk_idx acc w
  dsimp only
  by_cases h : w.fault = false ∧ (w.sblocks a).isSome = true
  · rw [if_pos h] at heq
    rw [heq]
    dsimp only
    rw [ensure_sblock_dblock_ro hro]
    have hfe' := hfe.fe_HDassert (decide (u64 (e / (sblock_of w.hdr a sblk_idx).dblk_nelmts) <
          (sblock_of w.hdr a sblk_idx).ndblks))
    have hsa : (sblock_of w.hdr a sblk_idx).addr = a := rfl
    rw [hfe'.fe_sblk, hsa]
    by_cases hd : H5F_addr_defined ((w.sblk a).dblk_addrs
        (u64 (e / (sblock_of w.hdr a sblk_idx).dblk_nelmts))) = false
    · simp only [if_pos hd]
      exact hfe'
    · simp only [if_neg hd]
      exact hfe'.fe_trans (lookup_sblock_dblock_ro_fileEq hro _ _ _ _ _)
  · rw [if_neg h] at heq
    rw [heq]
    exact hfe.fe_throw _

theorem lookup_in_iblock_ro_fileEq {acc : Nat} (hro : acc &&& H5AC__READ_ONLY_FLAG ≠ 0)
    (idx ib : Nat) (l : LookupLocals) (w : World) :
    FileEq w (lookup_in_iblock idx acc ib l w).2 := by
  unfold lookup_in_iblock
  split
  · exact FileEq.fe_refl w
  · dsimp only
    split
    · unfold lookup_via_iblock
      dsimp only
      rw [ensure_iblock_dblock_ro hro]
      by_cases hd : H5F_addr_defined ((w.iblk ib).dblk_addrs
          (u64 ((w.hdr.sblk_info (H5EA__dblock_sblk_idx w.hdr idx)).start_dblk
            + sub64 idx (u64 (w.hdr.cparam.idx_blk_elmts
                + (w.hdr.sblk_info (H5EA__dblock_sblk_idx w.hdr idx)).start_idx))
              / (w.hdr.sblk_info (H5EA__dblock_sblk_idx w.hdr idx)).dblk_nelmts))) = false
      · simp only [if_pos hd]
        exact FileEq.fe_refl w
      · simp only [if_neg hd]
        exact (lookup_dblock_found _ _ _ _ _).1
    · unfold lookup_via_sblock
      dsimp only
      rw [ensure_sblock_ro hro]
      by_cases hd : H5F_addr_defined ((w.iblk ib).sblk_addrs
          (H5EA__dblock_sblk_idx w.hdr idx - w.hdr.iblock_nsblks)) = false
      · simp only [if_pos hd]
        exact FileEq.fe_refl w
      · simp only [if_neg hd]
        exact lookup_sblock_ro_fileEq hro _ _ _ _ _

theorem lookup_body_ro_fileEq {acc : Nat} (hro : acc &&& H5AC__READ_ONLY_FLAG ≠ 0) (ea : H5EA_t)
    (idx : Nat) (w : World) :
    FileEq { w with hdr := { w.hdr with f := ea.f } } (lookup_body ea idx acc w).2 := by
  unfold lookup_body
  rw [ensure_iblock_ro hro]
  generalize ({ w with hdr := { w.hdr with f := ea.f } } : World) = w0
  by_cases hd : H5F_addr_defined w0.hdr.idx_blk_addr = false
  · simp only [if_pos hd]
    exact FileEq.fe_refl w0
  · simp only [if_neg hd]
    have heq := iblock_protect_eq acc w0
    have hfe := iblock_protect_fileEq acc w0
    by_cases h : w0.fault = false ∧ (w0.iblocks w0.hdr.idx_blk_addr).isSome = true
    · rw [if_pos h] at heq
      rw [heq]
      exact hfe.fe_trans (lookup_in_iblock_ro_fileEq hro _ _ _ _)
    · rw [if_neg h] at heq
      rw [heq]
      exact hfe.fe_throw _

/-- A read-only lookup leaves the file as it is, whatever fails. -/
theorem lookup_ro_fileEq (ea : H5EA_t) (idx : Nat) (w : World) :
    FileEq { w with hdr := { w.hdr with f := ea.f } }
      (H5EA__lookup_elmt ea idx H5AC__READ_ONLY_FLAG w).2 := by
  have hro : H5AC__READ_ONLY_FLAG &&& H5AC__READ_ONLY_FLAG ≠ 0 := by decide
  unfold H5EA__lookup_elmt
  dsimp only
  exact (lookup_body_ro_fileEq hro ea idx w).fe_trans (lookup_catch_fileEq _ _)

/-! ### Which blocks a write walk creates -/

@[simp] theorem creates_nil : creates [] = [] := rfl

@[simp] theorem creates_append (x y : List Event) : creates (x ++ y) = creates x ++ creates y := by
  simp [creates]

theorem creates_single_none {e : Event} (h : e.createKind = none) : creates [e] = [] := by
  simp [creates, h]

theorem creates_single_some {e : Event} {k : BlockKind} (h : e.createKind = some k) :
    creates [e] = [k] := by
  simp [creates, h]

/-- Nothing happens and no level is undefined. -/
theorem WalkCreates.wc_done {w w' : World} (ret : Int) (ht : w'.trace = w.trace)
    (hfe : FileEq w w') : WalkCreates [] w w' ret :=
  ⟨[], by simp [ht], by simp, fun _ => ⟨rfl, by simp⟩, fun _ => hfe⟩

/-- A call that is no creation and leaves the file alone, before the rest. -/
theorem WalkCreates.wc_after {lv : List BlockKind} {w w1 w' : World} {ret : Int} (e : Event)
    (ht : w1.trace = w.trace ++ [e]) (he : e.createKind = none) (hfe : FileEq w w1)
    (h : WalkCreates lv w1 w' ret) : WalkCreates lv w w' ret := by
  obtain ⟨evs, h1, h2, h3, h4⟩ := h
  refine ⟨e :: evs, by rw [h1, ht]; simp, ?_, ?_, fun hl => hfe.fe_trans (h4 hl)⟩
  · have : creates (e :: evs) = creates evs := by
      simp [creates, List.filterMap_cons, he]
    rw [this]; exact h2
  · intro hr
    have : creates (e :: evs) = creates evs := by
      simp [creates, List.filterMap_cons, he]
    rw [this]
    refine ⟨(h3 hr).1, ?_⟩
    intro e' he' hk
    rcases List.mem_cons.1 he' with rfl | hm
    · rw [he] at hk; cases hk
    · exact (h3 hr).2 e' hm hk

/-- A call that is no creation fails and ends the walk. -/
theorem WalkCreates.wc_failed {w w' : World} {ret : Int} (lv : List BlockKind) (e : Event)
    (ht : w'.trace = w.trace ++ [e]) (he : e.createKind = none) (hfe : FileEq w w')
    (hr : ret < 0) : WalkCreates lv w w' ret :=
  ⟨[e], ht, by rw [creates_single_none he]; exact List.nil_prefix,
    fun h => absurd h (not_le.2 hr), fun _ => hfe⟩

/-- A successful creation of the first undefined level, before the rest. -/
theorem WalkCreates.wc_created {lv : List BlockKind} {w w1 w' : World} {ret : Int} (e : Event)
    (k : BlockKind) (ht : w1.trace = w.trace ++ [e]) (he : e.createKind = some k)
    (hok : e.ok = true) (h : WalkCreates lv w1 w' ret) : WalkCreates (k :: lv) w w' ret := by
  obtain ⟨evs, h1, h2, h3, -⟩ := h
  have hc : creates (e :: evs) = k :: creates evs := by
    simp [creates, List.filterMap_cons, he]
  refine ⟨e :: evs, by rw [h1, ht]; simp, ?_, ?_, fun hl => by cases hl⟩
  · rw [hc]; exact (List.prefix_cons_inj k).2 h2
  · intro hr
    rw [hc, (h3 hr).1]
    refine ⟨rfl, ?_⟩
    intro e' he' hk
    rcases List.mem_cons.1 he' with rfl | hm
    · exact hok
    · exact (h3 hr).2 e' hm hk

/-- The creation of the first undefined level fails and ends the walk. -/
theorem WalkCreates.wc_create_failed {w w' : World} {ret : Int} (lv : List BlockKind) (e : Event)
    (k : BlockKind) (ht : w'.trace = w.trace ++ [e]) (he : e.createKind = some k)
    (hr : ret < 0) : WalkCreates (k :: lv) w w' ret :=
  ⟨[e], ht, by
      rw [creates_single_some he]
      exact (List.prefix_cons_inj k).2 List.nil_prefix,
    fun h => absurd h (not_le.2 hr), fun hl => by cases hl⟩

theorem WalkCreates.wc_of_eq {lv lv' : List BlockKind} {w w' : World} {ret : Int}
    (h : WalkCreates lv' w w' ret) (he : lv' = lv) : WalkCreates lv w w' ret := he ▸ h

theorem WalkCreates.wc_throw {lv : List BlockKind} {w w' : World} {ret : Int}
    (h : WalkCreates lv w w' ret) (e : H5E) : WalkCreates lv w (w'.throw e) ret := by
  obtain ⟨evs, h1, h2, h3, h4⟩ := h
  exact ⟨evs, h1, h2, h3, fun hl => (h4 hl).fe_throw e⟩

theorem FAIL_neg : FAIL < 0 := by decide
theorem SUCCEED_not_neg : ¬ SUCCEED < 0 := by decide

theorem lookup_dblock_creates (acc a e : Nat) (l : LookupLocals) (w : World) :
    WalkCreates [] w (lookup_dblock acc a e l w).2 (lookup_dblock acc a e l w).1.ret_value := by
  have hfe := (lookup_dblock_found acc a e l w).1
  unfold lookup_dblock at hfe ⊢
  have heq := dblock_protect_eq a acc w
  have htr := dblock_protect_trace a acc w
  have hfe' := dblock_protect_fileEq a acc w
  dsimp only at hfe ⊢
  by_cases h : w.fault = false ∧ (w.dblocks a).isSome = true
  · rw [if_pos h] at heq
    rw [heq] at hfe ⊢
    exact WalkCreates.wc_after _ htr rfl hfe' (WalkCreates.wc_done _ rfl (FileEq.fe_refl _))
  · rw [if_neg h] at heq
    rw [heq] at hfe ⊢
    exact WalkCreates.wc_failed _ _ htr rfl hfe FAIL_neg

theorem lookup_page_creates (acc a e : Nat) (l : LookupLocals) (w : World) :
    WalkCreates [] w (lookup_page acc a e l w).2 (lookup_page acc a e l w).1.ret_value := by
  have hfe := (lookup_page_found acc a e l w).1
  unfold lookup_page at hfe ⊢
  have heq := dblk_page_protect_eq a acc w
  have htr := dblk_page_protect_trace a acc w
  have hfe' := dblk_page_protect_fileEq a acc w
  dsimp only at hfe ⊢
  by_cases h : w.fault = false ∧ (w.dblk_pages a).isSome = true
  · rw [if_pos h] at heq
    rw [heq] at hfe ⊢
    exact WalkCreates.wc_after _ htr rfl hfe' (WalkCreates.wc_done _ rfl (FileEq.fe_refl _))
  · rw [if_neg h] at heq
    rw [heq] at hfe ⊢
    exact WalkCreates.wc_failed _ _ htr rfl hfe FAIL_neg

theorem lookup_sblock_dblock_creates {acc : Nat} (hrw : acc &&& H5AC__READ_ONLY_FLAG = 0)
    (sb : H5EA_sblock_t) (i e : Nat) (l : LookupLocals) (w : World) :
    WalkCreates (levels_page w sb i e) w (lookup_sblock_dblock acc sb i e l w).2
      (lookup_sblock_dblock acc sb i e l w).1.ret_value := by
  unfold lookup_sblock_dblock levels_page
  by_cases hn : sb.dblk_npages ≠ 0
  · rw [if_pos hn]
    dsimp only
    unfold lookup_ensure_page
    by_cases hb : (w.sblk sb.addr).page_init
        (u64 (i * sb.dblk_npages + e / w.hdr.dblk_page_nelmts)) = false
    · rw [if_pos hb, if_pos hrw, if_pos ⟨hn, hb⟩]
      unfold H5EA__dblk_page_create
      by_cases hf : w.fault = true
      · simp only [if_pos hf, if_pos FAIL_neg]
        exact WalkCreates.wc_create_failed [] (.dblk_page_create (u64 ((w.sblk sb.addr).dblk_addrs i
          + H5EA_DBLOCK_PREFIX_SIZE w.hdr + e / w.hdr.dblk_page_nelmts * sb.dblk_page_size))
          ⟨.sblock, sb.addr⟩ false) .dblk_page rfl rfl FAIL_neg
      · simp only [if_neg hf, if_neg SUCCEED_not_neg]
        exact WalkCreates.wc_created (.dblk_page_create (u64 ((w.sblk sb.addr).dblk_addrs i
          + H5EA_DBLOCK_PREFIX_SIZE w.hdr + e / w.hdr.dblk_page_nelmts * sb.dblk_page_size))
          ⟨.sblock, sb.addr⟩ true) .dblk_page rfl rfl rfl (lookup_page_creates _ _ _ _ _)
    · rw [if_neg hb, if_neg (fun h => hb h.2)]
      exact lookup_page_creates _ _ _ _ _
  · rw [if_neg hn, if_neg (fun h => hn h.1)]
    exact lookup_dblock_creates _ _ _ _ _

theorem levels_sblock_false (w : World) (sblk_idx a e : Nat) :
    levels_sblock false w sblk_idx a e =
      (if H5F_addr_defined ((w.sblk a).dblk_addrs
          (u64 (e / (sblock_of w.hdr a sblk_idx).dblk_nelmts))) = false then [.dblock] else []) ++
      levels_page w (sblock_of w.hdr a sblk_idx)
        (u64 (e / (sblock_of w.hdr a sblk_idx).dblk_nelmts))
        (e % (sblock_of w.hdr a sblk_idx).dblk_nelmts) := by
  unfold levels_sblock levels_page sblock_of
  simp

theorem levels_page_congr {w w' : World} (sb : H5EA_sblock_t) (i e : Nat)
    (h1 : (w'.sblk sb.addr).page_init = (w.sblk sb.addr).page_init)
    (h2 : w'.hdr.dblk_page_nelmts = w.hdr.dblk_page_nelmts) :
    levels_page w' sb i e = levels_page w sb i e := by
  unfold levels_page
  rw [h1, h2]

theorem lookup_sblock_creates {acc : Nat} (hrw : acc &&& H5AC__READ_ONLY_FLAG = 0)
    (sblk_idx a e : Nat) (l : LookupLocals) (w : World) :
    WalkCreates (levels_sblock false w sblk_idx a e) w (lookup_sblock acc sblk_idx a e l w).2
      (lookup_sblock acc sblk_idx a e l w).1.ret_value := by
  rw [levels_sblock_false]
  unfold lookup_sblock
  have heq := sblock_protect_eq a sblk_idx acc w
  have hfe := sblock_protect_fileEq a sblk_idx acc w
  have htr := sblock_protect_trace a sblk_idx acc w
  dsimp only
  by_cases h : w.fault = false ∧ (w.sblocks a).isSome = true
  · rw [if_pos h] at heq
    rw [heq]
    dsimp only
    have hfe' := hfe.fe_HDassert (decide (u64 (e / (sblock_of w.hdr a sblk_idx).dblk_nelmts) <
          (sblock_of w.hdr a sblk_idx).ndblks))
    refine WalkCreates.wc_after _ (by exact htr) (by rfl) hfe' ?_
    revert hfe'
    generalize (H5EA__sblock_protect a sblk_idx acc w).2.HDassert
      (decide (u64 (e / (sblock_of w.hdr a sblk_idx).dblk_nelmts) <
          (sblock_of w.hdr a sblk_idx).ndblks)) = w0
    intro hfe'
    have hsa : (sblock_of w.hdr a sblk_idx).addr = a := rfl
    rw [← hfe'.fe_sblk]
    unfold lookup_ensure_sblock_dblock
    rw [hsa]
    by_cases hd : H5F_addr_defined ((w0.sblk a).dblk_addrs
        (u64 (e / (sblock_of w.hdr a sblk_idx).dblk_nelmts))) = false
    · rw [if_pos hd, if_pos hd, if_pos hrw]
      dsimp only
      unfold H5EA__dblock_create
      by_cases hc : (w0.fault = true ∨ H5MF_alloc_fits w0
          (H5EA_DBLOCK_SIZE w0.hdr (sblock_of w.hdr a sblk_idx).dblk_nelmts) = false)
      · simp only [if_pos hc, undef_not_defined, if_true]
        exact (WalkCreates.wc_create_failed _ (.dblock_create HADDR_UNDEF ⟨.sblock, a⟩
          (u64 ((w0.hdr.sblk_info sblk_idx).start_idx
            + u64 (u64 (e / (sblock_of w.hdr a sblk_idx).dblk_nelmts)
              * (w0.hdr.sblk_info sblk_idx).dblk_nelmts)))
          (sblock_of w.hdr a sblk_idx).dblk_nelmts false) .dblock rfl rfl FAIL_neg)
      · have hf : H5F_addr_defined w0.eoa = true :=
          fits_defined w0 _ (by simpa using (not_or.1 hc).2)
        simp only [if_neg hc, hf]
        refine WalkCreates.wc_created (.dblock_create w0.eoa ⟨.sblock, a⟩
          (u64 ((w0.hdr.sblk_info sblk_idx).start_idx
            + u64 (u64 (e / (sblock_of w.hdr a sblk_idx).dblk_nelmts)
              * (w0.hdr.sblk_info sblk_idx).dblk_nelmts)))
          (sblock_of w.hdr a sblk_idx).dblk_nelmts true) .dblock (by rfl) rfl rfl
          (WalkCreates.wc_of_eq (lookup_sblock_dblock_creates hrw _ _ _ _ _) ?_)
        exact levels_page_congr _ _ _ (by
          rw [hsa]; simp [World.set_sblock_dblk_addr, World.sblk, hfe'.sblocks]) (by
          simp [World.set_sblock_dblk_addr, hfe'.hdr])
    · rw [if_neg hd, if_neg hd]
      rw [List.nil_append]
      exact WalkCreates.wc_of_eq (lookup_sblock_dblock_creates hrw _ _ _ _ _)
        (levels_page_congr _ _ _ (by rw [hfe'.fe_sblk]) (by rw [hfe'.hdr]))
  · rw [if_neg h] at heq
    rw [heq]
    exact WalkCreates.wc_failed _ _ htr rfl (hfe.fe_throw _) FAIL_neg

theorem levels_sblock_true (w : World) (sblk_idx a e : Nat) :
    levels_sblock true w sblk_idx a e =
      .dblock :: (if dblk_npages w.hdr (w.hdr.sblk_info sblk_idx).dblk_nelmts ≠ 0
        then [.dblk_page] else []) := by
  unfold levels_sblock
  simp

theorem levels_sblock_fresh {w w' : World} (sblk_idx a a' e : Nat)
    (h1 : (w'.sblk a').dblk_addrs = fun _ => HADDR_UNDEF)
    (h2 : (w'.sblk a').page_init = fun _ => false)
    (h3 : w'.hdr.sblk_info = w.hdr.sblk_info)
    (h4 : w'.hdr.dblk_page_nelmts = w.hdr.dblk_page_nelmts) :
    levels_sblock false w' sblk_idx a' e = levels_sblock true w sblk_idx a e := by
  unfold levels_sblock dblk_npages
  rw [h1, h2, h3, h4]
  simp

theorem lookup_via_sblock_creates {acc : Nat} (hrw : acc &&& H5AC__READ_ONLY_FLAG = 0)
    (sblk_idx ib e : Nat) (l : LookupLocals) (w : World) :
    WalkCreates (levels_via_sblock false w sblk_idx ib e) w
      (lookup_via_sblock acc sblk_idx ib e l w).2
      (lookup_via_sblock acc sblk_idx ib e l w).1.ret_value := by
  unfold lookup_via_sblock levels_via_sblock lookup_ensure_sblock
  dsimp only
  by_cases hd : H5F_addr_defined ((w.iblk ib).sblk_addrs (sblk_idx - w.hdr.iblock_nsblks)) = false
  · rw [if_pos hd, if_pos hrw]
    simp only [hd, Bool.not_false, Bool.or_true, if_true]
    unfold H5EA__sblock_create
    by_cases hc : (w.fault = true ∨ H5MF_alloc_fits w (H5EA_SBLOCK_SIZE w.hdr sblk_idx) = false)
    · simp only [if_pos hc, undef_not_defined, if_true]
      exact WalkCreates.wc_create_failed _ (.sblock_create HADDR_UNDEF ⟨.iblock, ib⟩ sblk_idx false)
        .sblock rfl rfl FAIL_neg
    · have hf : H5F_addr_defined w.eoa = true :=
        fits_defined w _ (by simpa using (not_or.1 hc).2)
      simp only [if_neg hc, hf]
      refine WalkCreates.wc_created (.sblock_create w.eoa ⟨.iblock, ib⟩ sblk_idx true) .sblock
        (by rfl) rfl rfl (WalkCreates.wc_of_eq (lookup_sblock_creates hrw _ _ _ _ _) ?_)
      refine levels_sblock_fresh _ _ _ _ ?_ ?_ ?_ ?_ <;>
        simp [World.set_iblock_sblk_addr, World.iblk, World.sblk]
  · rw [if_neg hd]
    have hd' : H5F_addr_defined ((w.iblk ib).sblk_addrs (sblk_idx - w.hdr.iblock_nsblks)) = true := by
      simpa using hd
    simp only [hd', Bool.not_true, Bool.or_false, Bool.false_eq_true, if_false, List.nil_append]
    exact lookup_sblock_creates hrw _ _ _ _ _

theorem lookup_via_iblock_creates {acc : Nat} (hrw : acc &&& H5AC__READ_ONLY_FLAG = 0)
    (sblk_idx ib e : Nat) (l : LookupLocals) (w : World) :
    WalkCreates (levels_via_iblock false w sblk_idx ib e) w
      (lookup_via_iblock acc sblk_idx ib e l w).2
      (lookup_via_iblock acc sblk_idx ib e l w).1.ret_value := by
  unfold lookup_via_iblock levels_via_iblock lookup_ensure_iblock_dblock
  dsimp only
  by_cases hd : H5F_addr_defined ((w.iblk ib).dblk_addrs
      (u64 ((w.hdr.sblk_info sblk_idx).start_dblk + e / (w.hdr.sblk_info sblk_idx).dblk_nelmts)))
      = false
  · rw [if_pos hd, if_pos hrw]
    simp only [hd, Bool.not_false, Bool.or_true, if_true]
    unfold H5EA__dblock_create
    by_cases hc : (w.fault = true ∨ H5MF_alloc_fits w
        (H5EA_DBLOCK_SIZE w.hdr (w.hdr.sblk_info sblk_idx).dblk_nelmts) = false)
    · simp only [if_pos hc, undef_not_defined, if_true]
      exact WalkCreates.wc_create_failed _ (.dblock_create HADDR_UNDEF ⟨.iblock, ib⟩
        (u64 ((w.hdr.sblk_info sblk_idx).start_idx
          + u64 (u64 ((w.hdr.sblk_info sblk_idx).start_dblk
            + e / (w.hdr.sblk_info sblk_idx).dblk_nelmts)
            * (w.hdr.sblk_info sblk_idx).dblk_nelmts)))
        (w.hdr.sblk_info sblk_idx).dblk_nelmts false) .dblock rfl rfl FAIL_neg
    · have hf : H5F_addr_defined w.eoa = true :=
        fits_defined w _ (by simpa using (not_or.1 hc).2)
      simp only [if_neg hc, hf]
      exact WalkCreates.wc_created (.dblock_create w.eoa ⟨.iblock, ib⟩
        (u64 ((w.hdr.sblk_info sblk_idx).start_idx
          + u64 (u64 ((w.hdr.sblk_info sblk_idx).start_dblk
            + e / (w.hdr.sblk_info sblk_idx).dblk_nelmts)
            * (w.hdr.sblk_info sblk_idx).dblk_nelmts)))
        (w.hdr.sblk_info sblk_idx).dblk_nelmts true) .dblock
        (by rfl) rfl rfl (lookup_dblock_creates _ _ _ _ _)
  · rw [if_neg hd]
    have hd' : H5F_addr_defined ((w.iblk ib).dblk_addrs
      (u64 ((w.hdr.sblk_info sblk_idx).start_dblk + e / (w.hdr.sblk_info sblk_idx).dblk_nelmts)))
      = true := by simpa using hd
    simp only [hd', Bool.not_true, Bool.or_false, Bool.false_eq_true, if_false]
    exact lookup_dblock_creates _ _ _ _ _

theorem lookup_in_iblock_creates {acc : Nat} (hrw : acc &&& H5AC__READ_ONLY_FLAG = 0)
    (idx ib : Nat) (l : LookupLocals) (w : World) :
    WalkCreates (levels_in_iblock false w idx ib) w (lookup_in_iblock idx acc ib l w).2
      (lookup_in_iblock idx acc ib l w).1.ret_value := by
  unfold lookup_in_iblock levels_in_iblock
  by_cases h1 : idx < w.hdr.cparam.idx_blk_elmts
  · simp only [if_pos h1]
    exact WalkCreates.wc_done _ rfl (FileEq.fe_refl w)
  · simp only [if_neg h1]
    by_cases h2 : H5EA__dblock_sblk_idx w.hdr idx < w.hdr.iblock_nsblks
    · simp only [if_pos h2]
      exact lookup_via_iblock_creates hrw _ _ _ _ _
    · simp only [if_neg h2]
      exact lookup_via_sblock_creates hrw _ _ _ _ _

theorem levels_in_iblock_fresh {w w' : World} (idx a a' : Nat)
    (h1 : (w'.iblk a').dblk_addrs = fun _ => HADDR_UNDEF)
    (h2 : (w'.iblk a').sblk_addrs = fun _ => HADDR_UNDEF)
    (h3 : HdrGeom w.hdr w'.hdr) :
    levels_in_iblock false w' idx a' = levels_in_iblock true w idx a := by
  unfold levels_in_iblock levels_via_iblock levels_via_sblock
  rw [h1, h2, h3.cparam, h3.hg_dblock_sblk_idx, h3.iblock_nsblks, h3.sblk_info]
  simp only [undef_not_defined, Bool.not_false, Bool.or_true, Bool.true_or, if_true]
  simp only [levels_sblock_true, dblk_npages, h3.sblk_info, h3.dblk_page_nelmts]

theorem levels_undefined_set_f (w : World) (f : Option Nat) (idx : Nat) :
    levels_undefined { w with hdr := { w.hdr with f := f } } idx = levels_undefined w idx := rfl

theorem iblock_create_fresh (sc : Bool) (w : World) :
    (H5EA__iblock_create sc w).2.2.trace = w.trace ++
      [.iblock_create (H5EA__iblock_create sc w).1
        (H5F_addr_defined (H5EA__iblock_create sc w).1)] ∧
    HdrGeom w.hdr (H5EA__iblock_create sc w).2.2.hdr ∧
    (H5F_addr_defined (H5EA__iblock_create sc w).1 = true →
      ((H5EA__iblock_create sc w).2.2.iblk (H5EA__iblock_create sc w).1).dblk_addrs
        = (fun _ => HADDR_UNDEF) ∧
      ((H5EA__iblock_create sc w).2.2.iblk (H5EA__iblock_create sc w).1).sblk_addrs
        = (fun _ => HADDR_UNDEF)) := by
  refine ⟨iblock_create_trace sc w, by constructor <;> simp, ?_⟩
  unfold H5EA__iblock_create
  by_cases hc : (w.fault = true ∨ H5MF_alloc_fits w (H5EA_IBLOCK_SIZE w.hdr) = false)
  · simp only [if_pos hc, undef_not_defined]
    intro h; cases h
  · simp only [if_neg hc]
    intro _
    simp [World.iblk]

theorem lookup_body_creates {acc : Nat} (hrw : acc &&& H5AC__READ_ONLY_FLAG = 0) (ea : H5EA_t)
    (idx : Nat) (w : World) :
    WalkCreates (levels_undefined w idx) { w with hdr := { w.hdr with f := ea.f } }
      (lookup_body ea idx acc w).2 (lookup_body ea idx acc w).1.ret_value := by
  rw [← levels_undefined_set_f w ea.f idx]
  unfold lookup_body
  generalize ({ w with hdr := { w.hdr with f := ea.f } } : World) = w0
  unfold levels_undefined lookup_ensure_iblock
  by_cases hd : H5F_addr_defined w0.hdr.idx_blk_addr = false
  · rw [if_pos hd, if_pos hrw]
    simp only [hd, Bool.not_false, Bool.false_eq_true, if_false]
    obtain ⟨htr0, hg0, hfresh⟩ := iblock_create_fresh LookupLocals.init.stats_changed w0
    revert htr0 hg0 hfresh
    generalize H5EA__iblock_create LookupLocals.init.stats_changed w0 = r
    intro htr0 hg0 hfresh
    by_cases hdf : H5F_addr_defined r.1 = false
    · simp only [if_pos hdf]
      exact WalkCreates.wc_create_failed _ (.iblock_create r.1 false) .iblock
        (by simp [htr0, hdf]) rfl FAIL_neg
    · simp only [if_neg hdf]
      have hdf' : H5F_addr_defined r.1 = true := by simpa using hdf
      have hW1 : ∀ W1 : World, W1 = { r.2.2 with hdr := { r.2.2.hdr with idx_blk_addr := r.1 } } →
          WalkCreates (levels_in_iblock true w0 idx w0.hdr.idx_blk_addr) W1
            (match (H5EA__iblock_protect acc W1).1 with
              | none => ({ ({ LookupLocals.init with stats_changed := r.2.1, hdr_dirty := true } :
                  LookupLocals) with ret_value := FAIL },
                  (H5EA__iblock_protect acc W1).2.throw .CANTPROTECT)
              | some ib => lookup_in_iblock idx acc ib
                  { ({ LookupLocals.init with stats_changed := r.2.1, hdr_dirty := true } :
                    LookupLocals) with iblock := some ib } (H5EA__iblock_protect acc W1).2).2
            (match (H5EA__iblock_protect acc W1).1 with
              | none => ({ ({ LookupLocals.init with stats_changed := r.2.1, hdr_dirty := true } :
                  LookupLocals) with ret_value := FAIL },
                  (H5EA__iblock_protect acc W1).2.throw .CANTPROTECT)
              | some ib => lookup_in_iblock idx acc ib
                  { ({ LookupLocals.init with stats_changed := r.2.1, hdr_dirty := true } :
                    LookupLocals) with iblock := some ib }
                  (H5EA__iblock_protect acc W1).2).1.ret_value := by
        intro W1 hW1
        have hW1a : W1.hdr.idx_blk_addr = r.1 := by rw [hW1]
        have hW1b : W1.iblk r.1 = r.2.2.iblk r.1 := by rw [hW1]; rfl
        have hW1d : HdrGeom w0.hdr W1.hdr := by
          rw [hW1]; exact ⟨hg0.cparam, hg0.sblk_info, hg0.nsblks, hg0.dblk_page_nelmts,
            hg0.iblock_nsblks, hg0.sizeof_addr, hg0.arr_off_size⟩
        have heq := iblock_protect_eq acc W1
        have hfe := iblock_protect_fileEq acc W1
        have htr := iblock_protect_trace acc W1
        by_cases h : W1.fault = false ∧ (W1.iblocks W1.hdr.idx_blk_addr).isSome = true
        · rw [if_pos h] at heq
          rw [heq]
          dsimp only
          refine WalkCreates.wc_after _ htr rfl hfe
            (WalkCreates.wc_of_eq (lookup_in_iblock_creates hrw _ _ _ _) ?_)
          rw [hW1a]
          exact levels_in_iblock_fresh _ _ _ (by rw [hfe.fe_iblk, hW1b]; exact (hfresh hdf').1)
            (by rw [hfe.fe_iblk, hW1b]; exact (hfresh hdf').2) (by rw [hfe.hdr]; exact hW1d)
        · rw [if_neg h] at heq
          rw [heq]
          exact WalkCreates.wc_failed _ _ htr rfl (hfe.fe_throw _) FAIL_neg
      exact WalkCreates.wc_created (.iblock_create r.1 true) .iblock
        (by simp [htr0, hdf']) rfl rfl (hW1 _ rfl)
  · rw [if_neg hd]
    have hd' : H5F_addr_defined w0.hdr.idx_blk_addr = true := by simpa using hd
    simp only [hd', Bool.not_true, if_true, List.nil_append]
    have heq := iblock_protect_eq acc w0
    have hfe := iblock_protect_fileEq acc w0
    have htr := iblock_protect_trace acc w0
    by_cases h : w0.fault = false ∧ (w0.iblocks w0.hdr.idx_blk_addr).isSome = true
    · rw [if_pos h] at heq
      rw [heq]
      dsimp only
      refine WalkCreates.wc_after _ htr rfl hfe
        (WalkCreates.wc_of_eq (lookup_in_iblock_creates hrw _ _ _ _) ?_)
      unfold levels_in_iblock levels_via_iblock levels_via_sblock levels_sblock
      rw [hfe.hdr]
      simp only [hfe.fe_iblk, hfe.fe_sblk]
    · rw [if_neg h] at heq
      rw [heq]
      exact WalkCreates.wc_failed _ _ htr rfl (hfe.fe_throw _) FAIL_neg

/-- Calls that are no creations and leave the file alone, after the walk. -/
theorem WalkCreates.wc_before {lv : List BlockKind} {w w1 w2 : World} {ret ret2 : Int}
    (h : WalkCreates lv w w1 ret) (cevs : List Event) (ht : w2.trace = w1.trace ++ cevs)
    (hc : ∀ e ∈ cevs, e.createKind = none) (hfe : FileEq w1 w2) (hr : 0 ≤ ret2 → 0 ≤ ret) :
    WalkCreates lv w w2 ret2 := by
  obtain ⟨evs, h1, h2, h3, h4⟩ := h
  have hcr : creates cevs = [] := by
    unfold creates
    rw [List.filterMap_eq_nil_iff]
    exact hc
  refine ⟨evs ++ cevs, by rw [ht, h1, List.append_assoc], ?_, ?_, fun hl => (h4 hl).fe_trans hfe⟩
  · rw [creates_append, hcr, List.append_nil]; exact h2
  · intro hr2
    rw [creates_append, hcr, List.append_nil]
    refine ⟨(h3 (hr hr2)).1, ?_⟩
    intro e he hk
    rcases List.mem_append.1 he with he | he
    · exact (h3 (hr hr2)).2 e he hk
    · rw [hc e he] at hk; cases hk

theorem catch_no_create {l l' : LookupLocals} {cevs : List Event} (hc : CatchTrace l cevs l') :
    ∀ e ∈ cevs, e.createKind = none := by
  intro e he
  rcases hc.calls e he with h1 | ⟨_, _, h1⟩ | ⟨_, _, h1⟩ | ⟨_, _, h1⟩ | ⟨_, _, h1⟩ <;>
    rw [h1] <;> rfl

/-- The creation calls of a write walk are for the undefined levels on the way
to the index, in their order. -/
theorem lookup_creates {acc : Nat} (hrw : acc &&& H5AC__READ_ONLY_FLAG = 0) (ea : H5EA_t)
    (idx : Nat) (w : World) :
    WalkCreates (levels_undefined w idx) { w with hdr := { w.hdr with f := ea.f } }
      (H5EA__lookup_elmt ea idx acc w).2 (H5EA__lookup_elmt ea idx acc w).1.ret_value := by
  have hb := lookup_body_creates hrw ea idx w
  obtain ⟨cevs, htr, hc⟩ := lookup_catch_spec (lookup_body ea idx acc w).1
    (lookup_body ea idx acc w).2
  have hfe := lookup_catch_fileEq (lookup_body ea idx acc w).1 (lookup_body ea idx acc w).2
  unfold H5EA__lookup_elmt
  dsimp only
  exact hb.wc_before cevs htr (catch_no_create hc) hfe (fun h => by rw [← (hc.ret_ok h).1]; exact h)

/-! ### Where the addressing finds a block, no level is undefined -/

theorem resolve_sblock_dblock_levels {w : World} {sb : H5EA_sblock_t} {i e : Nat} {t : Thing}
    {j : Nat} (h : resolve_sblock_dblock w sb i e = .found t j) : levels_page w sb i e = [] := by
  unfold resolve_sblock_dblock at h
  unfold levels_page
  by_cases hn : sb.dblk_npages ≠ 0
  · rw [if_pos hn] at h
    by_cases hb : (w.sblk sb.addr).page_init
        (u64 (i * sb.dblk_npages + e / w.hdr.dblk_page_nelmts)) = false
    · rw [if_pos hb] at h; cases h
    · rw [if_neg (fun hh => hb hh.2)]
  · rw [if_neg (fun hh => hn hh.1)]

theorem resolve_sblock_levels {w : World} {sblk_idx a e : Nat} {t : Thing} {j : Nat}
    (h : resolve_sblock w sblk_idx a e = .found t j) : levels_sblock false w sblk_idx a e = [] := by
  unfold resolve_sblock at h
  rw [levels_sblock_false]
  by_cases hp : (w.sblocks a).isSome = true
  · rw [if_pos hp] at h
    by_cases hd : H5F_addr_defined ((w.sblk a).dblk_addrs
        (u64 (e / (sblock_of w.hdr a sblk_idx).dblk_nelmts))) = false
    · rw [if_pos hd] at h; cases h
    · rw [if_neg hd] at h
      rw [if_neg hd, resolve_sblock_dblock_levels h]
      rfl
  · rw [if_neg hp] at h; cases h

theorem resolve_in_iblock_levels {w : World} {idx ib : Nat} {t : Thing} {j : Nat}
    (h : resolve_in_iblock w idx ib = .found t j) : levels_in_iblock false w idx ib = [] := by
  unfold resolve_in_iblock at h
  unfold levels_in_iblock
  by_cases h1 : idx < w.hdr.cparam.idx_blk_elmts
  · rw [if_pos h1]
  · rw [if_neg h1] at h ⊢
    by_cases h2 : H5EA__dblock_sblk_idx w.hdr idx < w.hdr.iblock_nsblks
    · rw [if_pos h2] at h ⊢
      unfold resolve_via_iblock at h
      unfold levels_via_iblock
      by_cases hs : H5F_addr_defined ((w.iblk ib).dblk_addrs
          (u64 ((w.hdr.sblk_info (H5EA__dblock_sblk_idx w.hdr idx)).start_dblk +
            sub64 idx (u64 (w.hdr.cparam.idx_blk_elmts +
              (w.hdr.sblk_info (H5EA__dblock_sblk_idx w.hdr idx)).start_idx)) /
            (w.hdr.sblk_info (H5EA__dblock_sblk_idx w.hdr idx)).dblk_nelmts))) = false
      · rw [if_pos hs] at h; cases h
      · have hs' := Bool.of_not_eq_false hs
        simp [hs']
    · rw [if_neg h2] at h ⊢
      unfold resolve_via_sblock at h
      unfold levels_via_sblock
      by_cases hs : H5F_addr_defined ((w.iblk ib).sblk_addrs
          (H5EA__dblock_sblk_idx w.hdr idx - w.hdr.iblock_nsblks)) = false
      · rw [if_pos hs] at h; cases h
      · rw [if_neg hs] at h
        have hs' := Bool.of_not_eq_false hs
        simp only [hs', Bool.not_true, Bool.or_false, Bool.false_eq_true, if_false,
          List.nil_append]
        exact resolve_sblock_levels h

theorem resolve_found_levels {w : World} {idx : Nat} {t : Thing} {i : Nat}
    (h : resolve w idx = .found t i) : levels_undefined w idx = [] := by
  unfold resolve at h
  unfold levels_undefined
  by_cases hd : H5F_addr_defined w.hdr.idx_blk_addr = false
  · rw [if_pos hd] at h; cases h
  · rw [if_neg hd] at h
    have hd' := Bool.of_not_eq_false hd
    simp only [hd', if_true, Bool.not_true, List.nil_append]
    by_cases hp : (w.iblocks w.hdr.idx_blk_addr).isSome = true
    · rw [if_pos hp] at h
      exact resolve_in_iblock_levels h
    · rw [if_neg hp] at h; cases h

/-! ### The geometry table -/

theorem log2_go_spec : ∀ (fuel n : Nat), 0 < n → n < 2 ^ fuel →
    2 ^ H5VM_log2_gen.go fuel n ≤ n ∧ n < 2 ^ (H5VM_log2_gen.go fuel n + 1)
  | 0, n, h0, h => by simp at h; omega
  | fuel + 1, n, h0, h => by
    unfold H5VM_log2_gen.go
    by_cases h2 : 2 ≤ n
    · rw [if_pos h2]
      have hlt : n / 2 < 2 ^ fuel := by
        rw [Nat.div_lt_iff_lt_mul (by decide)]
        rw [pow_succ] at h
        exact h
      have ih := log2_go_spec fuel (n / 2) (Nat.div_pos h2 (by decide)) hlt
      constructor
      · rw [pow_succ]
        have := ih.1
        omega
      · rw [pow_succ]
        have := ih.2
        omega
    · rw [if_neg h2]
      simp
      omega

theorem log2_gen_spec (n : Nat) (h0 : 0 < n) (h : n < 2 ^ 64) :
    2 ^ H5VM_log2_gen n ≤ n ∧ n < 2 ^ (H5VM_log2_gen n + 1) :=
  log2_go_spec 64 n h0 h

theorem log2_gen_pow (a : Nat) (h : a < 64) : H5VM_log2_gen (2 ^ a) = a := by
  have hlt : 2 ^ a < 2 ^ 64 := Nat.pow_lt_pow_right (by decide) h
  obtain ⟨h1, h2⟩ := log2_gen_spec (2 ^ a) (Nat.pos_pow_of_pos a (by decide)) hlt
  have e1 : H5VM_log2_gen (2 ^ a) ≤ a := (Nat.pow_le_pow_iff_right (by decide)).1 h1
  have e2 : a < H5VM_log2_gen (2 ^ a) + 1 := (Nat.pow_lt_pow_iff_right (by decide)).1 h2
  omega

theorem half_pow (u : Nat) : 2 ^ (u / 2) * 2 ^ ((u + 1) / 2) = 2 ^ u := by
  rw [← pow_add]
  congr 1
  omega

theorem sblk_start_fst (m : Nat) : ∀ u, (sblk_start m u).1 + m = 2 ^ u * m
  | 0 => by simp [sblk_start]
  | u + 1 => by
    have ih := sblk_start_fst m u
    show (sblk_start m u).1 + 2 ^ (u / 2) * (2 ^ ((u + 1) / 2) * m) + m = 2 ^ (u + 1) * m
    rw [← Nat.mul_assoc, half_pow, pow_succ]
    have : 2 ^ u * 2 * m = 2 ^ u * m + 2 ^ u * m := by ring
    omega

theorem sblk_start_snd_succ (m u : Nat) :
    (sblk_start m (u + 1)).2 = (sblk_start m u).2 + 2 ^ (u / 2) := rfl

theorem sblk_start_snd_mono (m : Nat) : ∀ (u v : Nat), u < v →
    (sblk_start m u).2 + 2 ^ (u / 2) ≤ (sblk_start m v).2 := by
  intro u v h
  induction v with
  | zero => omega
  | succ v ih =>
    rw [sblk_start_snd_succ]
    by_cases huv : u = v
    · subst huv; exact le_refl _
    · have := ih (by omega)
      have hp : 0 < 2 ^ (v / 2) := Nat.pos_pow_of_pos _ (by decide)
      omega

theorem sblk_start_snd_le (m : Nat) : ∀ u, (sblk_start m u).2 + 2 ^ (u / 2) ≤ 2 ^ (u + 1)
  | 0 => by simp [sblk_start]
  | u + 1 => by
    have ih := sblk_start_snd_le m u
    rw [sblk_start_snd_succ]
    have h1 : 2 ^ ((u + 1) / 2) ≤ 2 ^ (u + 1) :=
      Nat.pow_le_pow_right (by decide) (by omega)
    have h2 : 2 ^ (u + 1 + 1) = 2 ^ (u + 1) + 2 ^ (u + 1) := by rw [pow_succ]; omega
    omega

theorem u64_eq {x : Nat} (h : x < 2 ^ 64) : u64 x = x := Nat.mod_eq_of_lt h

theorem sub64_eq {a b : Nat} (hb : b ≤ a) (ha : a < 2 ^ 64) : sub64 a b = a - b := by
  unfold sub64
  rw [u64_eq ha, u64_eq (lt_of_le_of_lt hb ha), if_pos hb]

theorem covered {hdr : H5EA_hdr_t} (hg : GoodHdr hdr) {idx : Nat}
    (hge : ¬ idx < hdr.cparam.idx_blk_elmts) (hin : InRange hdr idx) (h64 : idx + 1 < 2 ^ 64) :
    ∃ s e, Covered hdr idx s e := by
  obtain ⟨a, hmin, ha, ha64⟩ := hg.min_pow
  have hminpos : 0 < hdr.cparam.data_blk_min_elmts := by
    rw [hmin]; exact Nat.pos_pow_of_pos a (by decide)
  have hx : sub64 idx hdr.cparam.idx_blk_elmts = idx - hdr.cparam.idx_blk_elmts :=
    sub64_eq (by omega) (by omega)
  have hy : (idx - hdr.cparam.idx_blk_elmts) / hdr.cparam.data_blk_min_elmts + 1 < 2 ^ 64 := by
    have := Nat.div_le_self (idx - hdr.cparam.idx_blk_elmts) hdr.cparam.data_blk_min_elmts
    omega
  have hs : H5EA__dblock_sblk_idx hdr idx = H5VM_log2_gen
      ((idx - hdr.cparam.idx_blk_elmts) / hdr.cparam.data_blk_min_elmts + 1) := by
    unfold H5EA__dblock_sblk_idx
    rw [hx, u64_eq hy]
  obtain ⟨h1, h2⟩ := log2_gen_spec _ (Nat.succ_pos _) hy
  rw [← hs] at h1 h2
  generalize hs' : H5EA__dblock_sblk_idx hdr idx = s at *
  have hs64 : s < 64 := by
    have : 2 ^ s < 2 ^ 64 := lt_of_le_of_lt h1 hy
    exact (Nat.pow_lt_pow_iff_right (by decide)).1 this
  have hst : (hdr.sblk_info s).start_idx + hdr.cparam.data_blk_min_elmts
      = 2 ^ s * hdr.cparam.data_blk_min_elmts := by
    rw [hg.table]; exact sblk_start_fst _ s
  have hnn : (hdr.sblk_info s).ndblks * (hdr.sblk_info s).dblk_nelmts
      = 2 ^ s * hdr.cparam.data_blk_min_elmts := by
    rw [hg.table]
    show 2 ^ (s / 2) * (2 ^ ((s + 1) / 2) * hdr.cparam.data_blk_min_elmts) = _
    rw [← Nat.mul_assoc, half_pow]
  have hnpos : 0 < (hdr.sblk_info s).dblk_nelmts := by
    rw [hg.table]
    exact Nat.mul_pos (Nat.pos_pow_of_pos _ (by decide)) hminpos
  -- the bounds on x = idx - idx_blk_elmts
  have hp : 0 < 2 ^ s := Nat.pos_pow_of_pos s (by decide)
  have hlo : (2 ^ s - 1) * hdr.cparam.data_blk_min_elmts ≤ idx - hdr.cparam.idx_blk_elmts :=
    (Nat.le_div_iff_mul_le hminpos).1 (by omega)
  have hhi : idx - hdr.cparam.idx_blk_elmts
      < (2 ^ (s + 1) - 1) * hdr.cparam.data_blk_min_elmts :=
    (Nat.div_lt_iff_lt_mul hminpos).1 (by omega)
  have e1 : (2 ^ s - 1) * hdr.cparam.data_blk_min_elmts = (hdr.sblk_info s).start_idx := by
    rw [Nat.sub_mul, one_mul]; omega
  have e2 : (2 ^ (s + 1) - 1) * hdr.cparam.data_blk_min_elmts
      = (hdr.sblk_info s).start_idx + 2 ^ s * hdr.cparam.data_blk_min_elmts := by
    rw [Nat.sub_mul, one_mul, pow_succ]
    have : 2 ^ s * 2 * hdr.cparam.data_blk_min_elmts
        = 2 ^ s * hdr.cparam.data_blk_min_elmts + 2 ^ s * hdr.cparam.data_blk_min_elmts := by
      ring
    omega
  rw [e1] at hlo
  rw [e2] at hhi
  have hsl : s < hdr.nsblks := by
    rw [hg.nsblks, hmin, log2_gen_pow a ha64]
    -- 2^s ≤ x / 2^a + 1 and x < 2^mb
    have hxlt : idx - hdr.cparam.idx_blk_elmts < 2 ^ hdr.cparam.max_nelmts_bits :=
      lt_of_le_of_lt (Nat.sub_le _ _) hin
    have hsplit : 2 ^ hdr.cparam.max_nelmts_bits
        = 2 ^ (hdr.cparam.max_nelmts_bits - a) * 2 ^ a := by
      rw [← pow_add]; congr 1; omega
    have hdiv : (idx - hdr.cparam.idx_blk_elmts) / 2 ^ a
        < 2 ^ (hdr.cparam.max_nelmts_bits - a) := by
      rw [Nat.div_lt_iff_lt_mul (Nat.pos_pow_of_pos a (by decide)), ← hsplit]
      exact hxlt
    rw [hmin] at h1
    have : 2 ^ s ≤ 2 ^ (hdr.cparam.max_nelmts_bits - a) := by omega
    have := (Nat.pow_le_pow_iff_right (by decide)).1 this
    omega
  refine ⟨s, idx - hdr.cparam.idx_blk_elmts - (hdr.sblk_info s).start_idx, hs', ?_, by omega,
    by rw [hnn]; omega, hsl, hs64, hnpos⟩
  have hle : hdr.cparam.idx_blk_elmts + (hdr.sblk_info s).start_idx ≤ idx := by omega
  rw [u64_eq (lt_of_le_of_lt hle (by omega)), sub64_eq hle (by omega)]
  omega

theorem place_covered {hdr : H5EA_hdr_t} {idx s e : Nat} (hc : Covered hdr idx s e)
    (hge : ¬ idx < hdr.cparam.idx_blk_elmts) :
    place hdr idx =
      if s < hdr.iblock_nsblks then
        .viaIblock (u64 ((hdr.sblk_info s).start_dblk + e / (hdr.sblk_info s).dblk_nelmts))
          (e % (hdr.sblk_info s).dblk_nelmts)
      else
        .viaSblock (s - hdr.iblock_nsblks) (u64 (e / (hdr.sblk_info s).dblk_nelmts))
          (e % (hdr.sblk_info s).dblk_nelmts) := by
  unfold place
  rw [if_neg hge, hc.s_eq, hc.e_eq]

theorem Covered.cv_div_lt {hdr : H5EA_hdr_t} {idx s e : Nat} (hc : Covered hdr idx s e) :
    e / (hdr.sblk_info s).dblk_nelmts < (hdr.sblk_info s).ndblks :=
  (Nat.div_lt_iff_lt_mul hc.nelmts_pos).2 hc.e_lt

theorem Covered.cv_dblk_lt {hdr : H5EA_hdr_t} (hg : GoodHdr hdr) {idx s e : Nat}
    (hc : Covered hdr idx s e) :
    (hdr.sblk_info s).start_dblk + e / (hdr.sblk_info s).dblk_nelmts < 2 ^ 64 := by
  have h1 := hc.cv_div_lt
  have h2 : (hdr.sblk_info s).start_dblk + (hdr.sblk_info s).ndblks ≤ 2 ^ (s + 1) := by
    rw [hg.table]; exact sblk_start_snd_le _ s
  have h3 : 2 ^ (s + 1) ≤ 2 ^ 64 := Nat.pow_le_pow_right (by decide) (by have := hc.s_64; omega)
  omega

/-- The place of an index of the array is a place of the array. -/
theorem place_ok {hdr : H5EA_hdr_t} (hg : GoodHdr hdr) {idx : Nat} (hin : InRange hdr idx)
    (h64 : idx + 1 < 2 ^ 64) : PlaceOK hdr (place hdr idx) := by
  by_cases hge : idx < hdr.cparam.idx_blk_elmts
  · unfold place; rw [if_pos hge]; trivial
  · obtain ⟨s, e, hc⟩ := covered hg hge hin h64
    rw [place_covered hc hge]
    by_cases hs : s < hdr.iblock_nsblks
    · rw [if_pos hs]; trivial
    · rw [if_neg hs]
      have hsum : s - hdr.iblock_nsblks + hdr.iblock_nsblks = s := by omega
      have hlt : e / (hdr.sblk_info s).dblk_nelmts < 2 ^ 64 := by
        have := Nat.div_le_self e (hdr.sblk_info s).dblk_nelmts
        have := hc.idx_eq
        omega
      show _ ∧ _ ∧ _
      rw [hsum, u64_eq hlt]
      exact ⟨hc.s_lt, hc.cv_div_lt, Nat.mod_lt _ hc.nelmts_pos⟩

theorem order_aux {A B X Y N : Nat} (h1 : A + X = B + Y) (d1 : X < N) (h : A + N ≤ B) :
    False := by omega

theorem div_mod_inj {e e' n : Nat} (h1 : e / n = e' / n) (h2 : e % n = e' % n) : e = e' := by
  rw [← Nat.div_add_mod e n, ← Nat.div_add_mod e' n, h1, h2]

/-- Distinct indices of the array have distinct places. -/
theorem place_inj {hdr : H5EA_hdr_t} (hg : GoodHdr hdr) {i j : Nat} (hi : InRange hdr i)
    (hj : InRange hdr j) (hi64 : i + 1 < 2 ^ 64) (hj64 : j + 1 < 2 ^ 64)
    (h : place hdr i = place hdr j) : i = j := by
  by_cases hgi : i < hdr.cparam.idx_blk_elmts
  · by_cases hgj : j < hdr.cparam.idx_blk_elmts
    · unfold place at h
      rw [if_pos hgi, if_pos hgj] at h
      injection h
    · obtain ⟨s, e, hc⟩ := covered hg hgj hj hj64
      rw [place_covered hc hgj] at h
      unfold place at h
      rw [if_pos hgi] at h
      split at h <;> cases h
  · obtain ⟨s, e, hc⟩ := covered hg hgi hi hi64
    rw [place_covered hc hgi] at h
    by_cases hgj : j < hdr.cparam.idx_blk_elmts
    · unfold place at h
      rw [if_pos hgj] at h
      split at h <;> cases h
    · obtain ⟨s', e', hc'⟩ := covered hg hgj hj hj64
      rw [place_covered hc' hgj] at h
      have key : s = s' → e / (hdr.sblk_info s).dblk_nelmts = e' / (hdr.sblk_info s).dblk_nelmts →
          e % (hdr.sblk_info s).dblk_nelmts = e' % (hdr.sblk_info s).dblk_nelmts → i = j := by
        intro hs h1 h2
        have := div_mod_inj h1 h2
        rw [hc.idx_eq, hc'.idx_eq, ← hs, this]
      by_cases hs : s < hdr.iblock_nsblks
      · rw [if_pos hs] at h
        by_cases hs' : s' < hdr.iblock_nsblks
        · rw [if_pos hs'] at h
          injection h with h1 h2
          rw [u64_eq (hc.cv_dblk_lt hg), u64_eq (hc'.cv_dblk_lt hg)] at h1
          have hss : s = s' := by
            have d1 := hc.cv_div_lt
            have d2 := hc'.cv_div_lt
            rcases Nat.lt_trichotomy s s' with hlt | heq | hgt
            · have := sblk_start_snd_mono hdr.cparam.data_blk_min_elmts s s' hlt
              have t1 : (hdr.sblk_info s).start_dblk
                  = (sblk_start hdr.cparam.data_blk_min_elmts s).2 := by rw [hg.table]; rfl
              have t2 : (hdr.sblk_info s').start_dblk
                  = (sblk_start hdr.cparam.data_blk_min_elmts s').2 := by rw [hg.table]; rfl
              have t3 : (hdr.sblk_info s).ndblks = 2 ^ (s / 2) := by rw [hg.table]; rfl
              rw [← t1, ← t2, ← t3] at this
              exact (order_aux h1 d1 this).elim
            · exact heq
            · have := sblk_start_snd_mono hdr.cparam.data_blk_min_elmts s' s hgt
              have t1 : (hdr.sblk_info s).start_dblk
                  = (sblk_start hdr.cparam.data_blk_min_elmts s).2 := by rw [hg.table]; rfl
              have t2 : (hdr.sblk_info s').start_dblk
                  = (sblk_start hdr.cparam.data_blk_min_elmts s').2 := by rw [hg.table]; rfl
              have t3 : (hdr.sblk_info s').ndblks = 2 ^ (s' / 2) := by rw [hg.table]; rfl
              rw [← t1, ← t2, ← t3] at this
              exact (order_aux h1.symm d2 this).elim
          subst hss
          exact key rfl (Nat.add_left_cancel h1) h2
        · rw [if_neg hs'] at h; cases h
      · rw [if_neg hs] at h
        by_cases hs' : s' < hdr.iblock_nsblks
        · rw [if_pos hs'] at h; cases h
        · rw [if_neg hs'] at h
          injection h with h0 h1 h2
          have hss : s = s' := by omega
          subst hss
          have l1 : e / (hdr.sblk_info s).dblk_nelmts < 2 ^ 64 := by
            have := Nat.div_le_self e (hdr.sblk_info s).dblk_nelmts
            have := hc.idx_eq
            omega
          have l2 : e' / (hdr.sblk_info s).dblk_nelmts < 2 ^ 64 := by
            have := Nat.div_le_self e' (hdr.sblk_info s).dblk_nelmts
            have := hc'.idx_eq
            omega
          rw [u64_eq l1, u64_eq l2] at h1
          exact key rfl h1 h2

/-- The addressing is the addressing along the place of the index. -/
theorem resolve_eq (w : World) (idx : Nat) : resolve w idx = resolve_at w (place w.hdr idx) := by
  unfold resolve place
  by_cases hd : H5F_addr_defined w.hdr.idx_blk_addr = false
  · rw [if_pos hd]
    split_ifs <;> simp [resolve_at, hd]
  · rw [if_neg hd]
    by_cases hp : (w.iblocks w.hdr.idx_blk_addr).isSome = true
    · rw [if_pos hp]
      unfold resolve_in_iblock
      by_cases h1 : idx < w.hdr.cparam.idx_blk_elmts
      · rw [if_pos h1, if_pos h1]
        simp [resolve_at, hd, hp]
      · rw [if_neg h1, if_neg h1]
        by_cases h2 : H5EA__dblock_sblk_idx w.hdr idx < w.hdr.iblock_nsblks
        · rw [if_pos h2, if_pos h2]
          unfold resolve_via_iblock
          simp only [resolve_at]
          rw [if_neg hd, if_pos hp]
          rfl
        · rw [if_neg h2, if_neg h2]
          unfold resolve_via_sblock resolve_sblock
          simp only [resolve_at]
          rw [if_neg hd, if_pos hp]
          have hs : H5EA__dblock_sblk_idx w.hdr idx - w.hdr.iblock_nsblks + w.hdr.iblock_nsblks
              = H5EA__dblock_sblk_idx w.hdr idx := by omega
          rw [hs]
          rfl
    · rw [if_neg hp]
      split_ifs <;> simp [resolve_at, hd, hp]

/-! ### Functions of the geometry -/

theorem HdrGeom.hg_symm {h h' : H5EA_hdr_t} (hs : HdrGeom h h') : HdrGeom h' h :=
  ⟨hs.cparam.symm, hs.sblk_info.symm, hs.nsblks.symm, hs.dblk_page_nelmts.symm,
    hs.iblock_nsblks.symm, hs.sizeof_addr.symm, hs.arr_off_size.symm⟩

theorem HdrGeom.hg_good {h h' : H5EA_hdr_t} (hs : HdrGeom h h') (hg : GoodHdr h) : GoodHdr h' := by
  obtain ⟨t, m, b, n, p⟩ := hg
  constructor
  · rw [hs.sblk_info, hs.cparam]; exact t
  · rw [hs.cparam]; exact m
  · rw [hs.cparam]; exact b
  · rw [hs.nsblks, hs.cparam]; exact n
  · rw [hs.dblk_page_nelmts]; exact p

theorem HdrGeom.hg_prefix_size {h h' : H5EA_hdr_t} (hs : HdrGeom h h') :
    H5EA_DBLOCK_PREFIX_SIZE h' = H5EA_DBLOCK_PREFIX_SIZE h := by
  simp [H5EA_DBLOCK_PREFIX_SIZE, hs.sizeof_addr, hs.arr_off_size]

theorem HdrGeom.hg_page_size {h h' : H5EA_hdr_t} (hs : HdrGeom h h') :
    H5EA_DBLK_PAGE_SIZE h' = H5EA_DBLK_PAGE_SIZE h := by
  simp [H5EA_DBLK_PAGE_SIZE, hs.dblk_page_nelmts, hs.cparam]

theorem HdrGeom.hg_npages {h h' : H5EA_hdr_t} (hs : HdrGeom h h') (n : Nat) :
    dblk_npages h' n = dblk_npages h n := by
  simp [dblk_npages, hs.dblk_page_nelmts]

theorem HdrGeom.hg_dblock_size {h h' : H5EA_hdr_t} (hs : HdrGeom h h') (n : Nat) :
    H5EA_DBLOCK_SIZE h' n = H5EA_DBLOCK_SIZE h n := by
  simp [H5EA_DBLOCK_SIZE, hs.dblk_page_nelmts, hs.cparam, hs.hg_prefix_size, hs.hg_page_size,
    hs.hg_npages]

theorem HdrGeom.hg_slot_size {h h' : H5EA_hdr_t} (hs : HdrGeom h h') (sl : Slot) :
    slot_size h' sl = slot_size h sl := by
  cases sl with
  | i di => rfl
  | s off di => simp [slot_size, hs.hg_dblock_size, hs.sblk_info, hs.iblock_nsblks]

theorem HdrGeom.hg_page_addr {h h' : H5EA_hdr_t} (hs : HdrGeom h h') (d p : Nat) :
    page_addr h' d p = page_addr h d p := by
  simp [page_addr, hs.hg_prefix_size, hs.hg_page_size]

theorem HdrGeom.hg_npages_of {h h' : H5EA_hdr_t} (hs : HdrGeom h h') (off : Nat) :
    npages_of h' off = npages_of h off := by
  simp [npages_of, hs.hg_npages, hs.sblk_info, hs.iblock_nsblks]

theorem HdrGeom.hg_page_bit {h h' : H5EA_hdr_t} (hs : HdrGeom h h') (off di p : Nat) :
    page_bit h' off di p = page_bit h off di p := by
  simp [page_bit, hs.hg_npages_of]

theorem HdrGeom.hg_placeOK {h h' : H5EA_hdr_t} (hs : HdrGeom h h') (q : Place) :
    PlaceOK h' q ↔ PlaceOK h q := by
  cases q <;> simp [PlaceOK, hs.sblk_info, hs.iblock_nsblks, hs.nsblks]

theorem HdrGeom.hg_place {h h' : H5EA_hdr_t} (hs : HdrGeom h h') (idx : Nat) :
    place h' idx = place h idx := by
  simp [place, hs.cparam, hs.hg_dblock_sblk_idx, hs.sblk_info, hs.iblock_nsblks]

theorem HdrGeom.hg_inRange {h h' : H5EA_hdr_t} (hs : HdrGeom h h') (idx : Nat) :
    InRange h' idx ↔ InRange h idx := by
  simp [InRange, hs.cparam]

/-! ### Worlds with the same blocks -/

theorem SameStore.ss_IB {w w' : World} (h : SameStore w w') : w'.IB = w.IB := by
  unfold World.IB World.iblk
  rw [h.iblocks, h.idx_blk_addr]

theorem SameStore.ss_sblk {w w' : World} (h : SameStore w w') (a : Nat) :
    w'.sblk a = w.sblk a := by
  unfold World.sblk; rw [h.sblocks]

theorem SameStore.ss_slot_addr {w w' : World} (h : SameStore w w') (sl : Slot) :
    slot_addr w' sl = slot_addr w sl := by
  cases sl <;> simp [slot_addr, h.ss_IB, h.ss_sblk]

theorem SameStore.ss_slot_live {w w' : World} (h : SameStore w w') (sl : Slot) :
    slot_live w' sl ↔ slot_live w sl := by
  cases sl <;> simp [slot_live, h.ss_IB, h.ss_sblk]

theorem SameStore.ss_wf {w w' : World} (h : SameStore w w') (hw : WF w) : WF w' := by
  have hib := h.ss_IB
  constructor
  · exact h.hdr.hg_good hw.good
  · rw [h.eoa]; exact hw.eoa
  · rw [h.idx_blk_addr, h.iblocks]; exact hw.iblock
  · rw [h.idx_blk_addr, hib, h.sblocks, h.eoa]; exact hw.sblk
  · rw [h.idx_blk_addr, hib]; exact hw.sblk_inj
  · rw [h.idx_blk_addr]
    intro hd sl hl
    rw [h.ss_slot_addr, h.dblocks, h.hdr.hg_slot_size, h.eoa]
    exact hw.dblk hd sl ((h.ss_slot_live sl).1 hl)
  · rw [h.idx_blk_addr]
    intro hd sl sl' hl hl' hne
    rw [h.ss_slot_addr, h.ss_slot_addr, h.hdr.hg_slot_size, h.hdr.hg_slot_size]
    exact hw.disjoint hd sl sl' ((h.ss_slot_live sl).1 hl) ((h.ss_slot_live sl').1 hl') hne
  · rw [h.idx_blk_addr, hib]
    intro hd off di p hsa hdi hp hbit
    rw [h.hdr.sblk_info, h.hdr.iblock_nsblks] at hdi
    rw [h.hdr.hg_npages_of] at hp
    rw [h.ss_sblk, h.hdr.hg_page_bit] at hbit
    rw [h.ss_sblk, h.dblk_pages, h.hdr.hg_page_addr]
    exact hw.page hd off di p hsa hdi hp hbit

theorem SameStore.ss_resolve_at {w w' : World} (h : SameStore w w') (q : Place) :
    resolve_at w' q = resolve_at w q := by
  cases q <;>
    simp only [resolve_at, resolve_sblock_dblock, h.idx_blk_addr, h.iblocks, h.ss_IB, h.sblocks,
      h.ss_sblk, h.dblocks, h.dblk_pages, h.hdr.hg_sblock_of, h.hdr.iblock_nsblks,
      h.hdr.dblk_page_nelmts, h.hdr.hg_prefix_size]

theorem SameStore.ss_cell {w w' : World} (h : SameStore w w') (q : Place) :
    cell w' q = cell w q := by
  unfold cell
  rw [h.ss_resolve_at, h.hdr.cparam]
  split <;> simp [h.ss_elmt_read]

theorem SameStore.ss_keeps {w w' : World} (h : SameStore w w') : Keeps w w' :=
  ⟨h.hdr, fun _ => h.idx_blk_addr, h.ss_wf, fun _ q _ => h.ss_cell q⟩

theorem Keeps.kp_refl (w : World) : Keeps w w := (SameStore.ss_refl w).ss_keeps

theorem Keeps.kp_trans {a b c : World} (h1 : Keeps a b) (h2 : Keeps b c) : Keeps a c := by
  refine ⟨h1.geom.hg_trans h2.geom, ?_, fun hw => h2.wf (h1.wf hw), ?_⟩
  · intro hda
    have e1 := h1.iba hda
    have : H5F_addr_defined b.hdr.idx_blk_addr = true := by rw [e1]; exact hda
    rw [h2.iba this, e1]
  · intro hw q hq
    rw [h2.cell (h1.wf hw) q ((h1.geom.hg_placeOK q).2 hq), h1.cell hw q hq]

theorem Keeps.kp_of_fileEq {w w' : World} (h : FileEq w w') : Keeps w w' :=
  (SameStore.ss_of_fileEq h).ss_keeps

/-! ### Creation of a data block below the index block keeps the file -/

theorem getD_update_same {α : Type} (f : Nat → Option α) (a : Nat) (v d : α) :
    (Function.update f a (some v) a).getD d = v := by simp

theorem getD_update_ne {α : Type} (f : Nat → Option α) {a x : Nat} (v d : α) (h : x ≠ a) :
    (Function.update f a (some v) x).getD d = (f x).getD d := by
  simp [Function.update, h]

theorem defined_lt {a b : Nat} (h : a < b) (hb : b ≤ HADDR_UNDEF) : H5F_addr_defined a = true := by
  rw [defined_iff]; omega

theorem dblock_size_pos (hdr : H5EA_hdr_t) (n : Nat) : 1 ≤ H5EA_DBLOCK_SIZE hdr n := by
  unfold H5EA_DBLOCK_SIZE H5EA_DBLOCK_PREFIX_SIZE H5EA_METADATA_PREFIX_SIZE
  split <;> omega

theorem keeps_dblock_under_iblock {w w' : World} (di n : Nat)
    (hd : H5F_addr_defined w.hdr.idx_blk_addr = true)
    (hslot : H5F_addr_defined (w.IB.dblk_addrs di) = false)
    (hfit : w.eoa + H5EA_DBLOCK_SIZE w.hdr n < HADDR_UNDEF)
    (hg : HdrGeom w.hdr w'.hdr)
    (hiba : w'.hdr.idx_blk_addr = w.hdr.idx_blk_addr)
    (hib : w'.iblocks = Function.update w.iblocks w.hdr.idx_blk_addr
      (some { w.IB with dblk_addrs := Function.update w.IB.dblk_addrs di w.eoa }))
    (hsb : w'.sblocks = w.sblocks)
    (hdb : w'.dblocks = Function.update w.dblocks w.eoa (some ⟨fun _ => w.hdr.cparam.cls.fill⟩))
    (hpg : w'.dblk_pages = w.dblk_pages)
    (heoa : w'.eoa = w.eoa + H5EA_DBLOCK_SIZE w.hdr n) :
    Keeps w w' := by
  have hIB : w'.IB = { w.IB with dblk_addrs := Function.update w.IB.dblk_addrs di w.eoa } := by
    show (w'.iblocks w'.hdr.idx_blk_addr).getD _ = _
    rw [hiba, hib]
    simp
  have hIBe : w'.IB.elmts = w.IB.elmts := by rw [hIB]
  have hIBs : w'.IB.sblk_addrs = w.IB.sblk_addrs := by rw [hIB]
  have hIBd : w'.IB.dblk_addrs = Function.update w.IB.dblk_addrs di w.eoa := by rw [hIB]
  have hsblk : ∀ a, w'.sblk a = w.sblk a := fun a => by unfold World.sblk; rw [hsb]
  have hsz := dblock_size_pos w.hdr n
  have hedef : H5F_addr_defined w.eoa = true := defined_lt (by omega) (le_refl _)
  have hdpres : ∀ a, (w.dblocks a).isSome = true → (w'.dblocks a).isSome = true := by
    intro a ha; rw [hdb]; exact isSome_update _ _ _ _ ha
  -- slots
  have hlive : ∀ sl, slot_live w' sl → sl = .i di ∨ slot_live w sl := by
    intro sl hl
    cases sl with
    | i di' =>
      by_cases h : di' = di
      · left; rw [h]
      · right
        simpa [slot_live, hIBd, Function.update, h] using hl
    | s off di' =>
      right
      simpa [slot_live, hIBs, hsblk] using hl
  have haddr_new : slot_addr w' (.i di) = w.eoa := by simp [slot_addr, hIBd]
  have haddr_old : ∀ sl, sl ≠ .i di → slot_addr w' sl = slot_addr w sl := by
    intro sl hne
    cases sl with
    | i di' =>
      have : di' ≠ di := fun h => hne (by rw [h])
      simp [slot_addr, hIBd, Function.update, this]
    | s off di' => simp [slot_addr, hIBs, hsblk]
  have hnotlive : ¬ slot_live w (.i di) := by
    simp [slot_live, hslot]
  refine ⟨hg, fun _ => hiba, ?_, ?_⟩
  · intro hw
    constructor
    · exact hg.hg_good hw.good
    · rw [heoa]; omega
    · intro _
      rw [hiba, hib]; simp
    · intro _ off hsa
      rw [hIBs] at hsa ⊢
      rw [hsb, heoa]
      have := hw.sblk hd off hsa
      exact ⟨this.1, by omega⟩
    · intro _ off off' hsa he
      rw [hIBs] at hsa he
      exact hw.sblk_inj hd off off' hsa he
    · intro _ sl hl
      rw [hg.hg_slot_size, heoa]
      by_cases hne : sl = .i di
      · subst hne
        rw [haddr_new, hdb]
        simp [slot_size]
        omega
      · rw [haddr_old sl hne]
        have hl' := (hlive sl hl).resolve_left hne
        have := hw.dblk hd sl hl'
        exact ⟨hdpres _ this.1, by omega⟩
    · intro _ sl sl' hl hl' hne
      rw [hg.hg_slot_size, hg.hg_slot_size]
      by_cases h1 : sl = .i di
      · subst h1
        have h2 : sl' ≠ .i di := fun h => hne h.symm
        rw [haddr_new, haddr_old sl' h2]
        have := hw.dblk hd sl' ((hlive sl' hl').resolve_left h2)
        right; omega
      · by_cases h2 : sl' = .i di
        · subst h2
          rw [haddr_new, haddr_old sl h1]
          have := hw.dblk hd sl ((hlive sl hl).resolve_left h1)
          left; omega
        · rw [haddr_old sl h1, haddr_old sl' h2]
          exact hw.disjoint hd sl sl' ((hlive sl hl).resolve_left h1)
            ((hlive sl' hl').resolve_left h2) hne
    · intro _ off di' p hsa hdi hp hbit
      rw [hIBs] at hsa hbit ⊢
      rw [hg.sblk_info, hg.iblock_nsblks] at hdi
      rw [hg.hg_npages_of] at hp
      rw [hsblk, hg.hg_page_bit] at hbit
      rw [hsblk, hpg, hg.hg_page_addr]
      exact hw.page hd off di' p hsa hdi hp hbit
  · intro hw q _
    have hpres := hw.iblock hd
    have hpres' : (w'.iblocks w'.hdr.idx_blk_addr).isSome = true := by
      rw [hiba, hib]; simp
    have hd' : H5F_addr_defined w'.hdr.idx_blk_addr = true := by rw [hiba]; exact hd
    have hfill : w'.hdr.cparam.cls.fill = w.hdr.cparam.cls.fill := by rw [hg.cparam]
    have hold : ∀ a, (w.dblocks a).isSome = true → a < w.eoa → w'.dblocks a = w.dblocks a := by
      intro a _ hlt
      rw [hdb]
      simp [Function.update, Nat.ne_of_lt hlt]
    cases q with
    | direct k =>
      unfold cell
      simp only [resolve_at, hd, hd', hpres, hpres', if_true, Bool.true_eq_false, if_false]
      simp only [elmt_read]
      have e : (w'.iblk w'.hdr.idx_blk_addr).elmts = (w.iblk w.hdr.idx_blk_addr).elmts := hIBe
      rw [e]
    | viaIblock di' k =>
      unfold cell
      simp only [resolve_at, hd, hd', hpres, hpres', if_true, Bool.true_eq_false, if_false]
      by_cases h : di' = di
      · subst h
        simp only [hIBd, Function.update_same, hedef, hslot, if_true, Bool.true_eq_false, if_false]
        simp [hdb, elmt_read, World.dblk, hfill]
      · have e1 : w'.IB.dblk_addrs di' = w.IB.dblk_addrs di' := by
          simp [hIBd, Function.update, h]
        rw [e1]
        by_cases hs : H5F_addr_defined (w.IB.dblk_addrs di') = false
        · simp only [hs, if_true, hfill]
        · have hs' := Bool.of_not_eq_false hs
          have hb := hw.dblk hd (.i di') hs'
          simp only [slot_addr, slot_size] at hb
          have := hold _ hb.1 (by omega)
          simp only [hs', Bool.true_eq_false, if_false, this, hb.1, if_true]
          simp [elmt_read, World.dblk, this]
    | viaSblock off di' k =>
      unfold cell
      simp only [resolve_at, hd, hd', hpres, hpres', if_true, Bool.true_eq_false, if_false]
      have e1 : w'.IB.sblk_addrs off = w.IB.sblk_addrs off := by rw [hIBs]
      rw [e1, hsb, hsblk]
      by_cases hs : H5F_addr_defined (w.IB.sblk_addrs off) = false
      · simp only [hs, if_true, hfill]
      · have hs' := Bool.of_not_eq_false hs
        simp only [hs', Bool.true_eq_false, if_false]
        by_cases hp : (w.sblocks (w.IB.sblk_addrs off)).isSome = true
        · simp only [hp, if_true]
          by_cases hsl : H5F_addr_defined ((w.sblk (w.IB.sblk_addrs off)).dblk_addrs di') = false
          · simp only [hsl, if_true, hfill]
          · have hsl' := Bool.of_not_eq_false hsl
            simp only [hsl', Bool.true_eq_false, if_false]
            have hb := hw.dblk hd (.s off di') ⟨hs', hsl'⟩
            simp only [slot_addr, slot_size] at hb
            have hpos := dblock_size_pos w.hdr
              (w.hdr.sblk_info (off + w.hdr.iblock_nsblks)).dblk_nelmts
            have hdsame := hold _ hb.1 (by omega)
            unfold resolve_sblock_dblock
            rw [hg.hg_sblock_of, hg.iblock_nsblks, hsblk, hg.dblk_page_nelmts, hg.hg_prefix_size, hpg]
            have hsa : (sblock_of w.hdr (w.IB.sblk_addrs off) (off + w.hdr.iblock_nsblks)).addr
                = w.IB.sblk_addrs off := rfl
            rw [hsa, hdsame]
            split_ifs <;> simp [elmt_read, World.dblk, World.page, hdsame, hpg, hfill]
        · simp only [hp, Bool.false_eq_true, if_false]

/-! ### Pages of a data block: bits and addresses -/

theorem page_size_pos (hdr : H5EA_hdr_t) : 0 < H5EA_DBLK_PAGE_SIZE hdr := by
  unfold H5EA_DBLK_PAGE_SIZE; omega

theorem npages_le (hdr : H5EA_hdr_t) (n : Nat) : dblk_npages hdr n ≤ n := by
  unfold dblk_npages
  split
  · exact Nat.div_le_self _ _
  · exact Nat.zero_le _

theorem npages_paged {hdr : H5EA_hdr_t} {n : Nat} (h : dblk_npages hdr n ≠ 0) :
    n > hdr.dblk_page_nelmts ∧ dblk_npages hdr n = n / hdr.dblk_page_nelmts := by
  unfold dblk_npages at h ⊢
  by_cases hn : n > hdr.dblk_page_nelmts
  · rw [if_pos hn]; exact ⟨hn, rfl⟩
  · rw [if_neg hn] at h; exact absurd rfl h

theorem pow_div_lt {b c k : Nat} (hbc : 2 ^ b < 2 ^ c) (hk : k < 2 ^ c) :
    k / 2 ^ b < 2 ^ c / 2 ^ b := by
  have hlt : b < c := (Nat.pow_lt_pow_iff_right (by decide)).1 hbc
  have hsplit : 2 ^ c = 2 ^ (c - b) * 2 ^ b := by
    rw [← pow_add]; congr 1; omega
  have hpos : 0 < 2 ^ b := Nat.pos_pow_of_pos b (by decide)
  rw [hsplit, Nat.mul_div_cancel _ hpos]
  rw [Nat.div_lt_iff_lt_mul hpos, ← hsplit]
  exact hk

theorem page_idx_lt {hdr : H5EA_hdr_t} (hg : GoodHdr hdr) {off k : Nat}
    (hk : k < (hdr.sblk_info (off + hdr.iblock_nsblks)).dblk_nelmts)
    (hp : npages_of hdr off ≠ 0) : k / hdr.dblk_page_nelmts < npages_of hdr off := by
  unfold npages_of at hp ⊢
  obtain ⟨hn, he⟩ := npages_paged hp
  rw [he]
  obtain ⟨a, hmin, _, _⟩ := hg.min_pow
  obtain ⟨b, hb⟩ := hg.page_pow
  have hne : (hdr.sblk_info (off + hdr.iblock_nsblks)).dblk_nelmts
      = 2 ^ ((off + hdr.iblock_nsblks + 1) / 2 + a) := by
    rw [hg.table]
    show 2 ^ ((off + hdr.iblock_nsblks + 1) / 2) * hdr.cparam.data_blk_min_elmts = _
    rw [hmin, pow_add]
  rw [hne] at hk hn ⊢
  rw [hb] at hn ⊢
  exact pow_div_lt hn hk

theorem ndblks_npages_le {hdr : H5EA_hdr_t} (hg : GoodHdr hdr) {s : Nat} (hs : s < hdr.nsblks) :
    (hdr.sblk_info s).ndblks * dblk_npages hdr (hdr.sblk_info s).dblk_nelmts ≤ 2 ^ 64 := by
  obtain ⟨a, hmin, ha, ha64⟩ := hg.min_pow
  have h1 : (hdr.sblk_info s).ndblks * (hdr.sblk_info s).dblk_nelmts = 2 ^ (s + a) := by
    rw [hg.table]
    show 2 ^ (s / 2) * (2 ^ ((s + 1) / 2) * hdr.cparam.data_blk_min_elmts) = _
    rw [← Nat.mul_assoc, half_pow, hmin, pow_add]
  have h2 : s + a ≤ 64 := by
    have := hg.nsblks
    rw [hmin, log2_gen_pow a ha64] at this
    have := hg.bits64
    omega
  calc (hdr.sblk_info s).ndblks * dblk_npages hdr (hdr.sblk_info s).dblk_nelmts
      ≤ (hdr.sblk_info s).ndblks * (hdr.sblk_info s).dblk_nelmts :=
        Nat.mul_le_mul_left _ (npages_le _ _)
    _ = 2 ^ (s + a) := h1
    _ ≤ 2 ^ 64 := Nat.pow_le_pow_right (by decide) h2

theorem mul_add_lt {di p n m : Nat} (hdi : di < m) (hp : p < n) : di * n + p < m * n := by
  calc di * n + p < di * n + n := by omega
    _ = (di + 1) * n := by ring
    _ ≤ m * n := Nat.mul_le_mul_right _ hdi

theorem mul_add_inj {di di' p p' n : Nat} (hp : p < n) (hp' : p' < n)
    (h : di * n + p = di' * n + p') : di = di' ∧ p = p' := by
  have hn : 0 < n := by omega
  have e1 : (di * n + p) / n = di := by
    rw [Nat.add_comm, Nat.add_mul_div_right _ _ hn, Nat.div_eq_of_lt hp, Nat.zero_add]
  have e2 : (di' * n + p') / n = di' := by
    rw [Nat.add_comm, Nat.add_mul_div_right _ _ hn, Nat.div_eq_of_lt hp', Nat.zero_add]
  have hd : di = di' := by rw [← e1, ← e2, h]
  subst hd
  exact ⟨rfl, by omega⟩

theorem page_bit_eq {hdr : H5EA_hdr_t} (hg : GoodHdr hdr) {off di p : Nat}
    (hs : off + hdr.iblock_nsblks < hdr.nsblks)
    (hdi : di < (hdr.sblk_info (off + hdr.iblock_nsblks)).ndblks)
    (hp : p < npages_of hdr off) :
    page_bit hdr off di p = di * npages_of hdr off + p := by
  unfold page_bit
  apply u64_eq
  have h1 := mul_add_lt hdi hp
  have h2 := ndblks_npages_le hg hs
  unfold npages_of at h1 ⊢
  omega

theorem page_bit_inj {hdr : H5EA_hdr_t} (hg : GoodHdr hdr) {off di di' p p' : Nat}
    (hs : off + hdr.iblock_nsblks < hdr.nsblks)
    (hdi : di < (hdr.sblk_info (off + hdr.iblock_nsblks)).ndblks)
    (hdi' : di' < (hdr.sblk_info (off + hdr.iblock_nsblks)).ndblks)
    (hp : p < npages_of hdr off) (hp' : p' < npages_of hdr off)
    (h : page_bit hdr off di p = page_bit hdr off di' p') : di = di' ∧ p = p' := by
  rw [page_bit_eq hg hs hdi hp, page_bit_eq hg hs hdi' hp'] at h
  exact mul_add_inj hp hp' h

theorem page_in_extent (hdr : H5EA_hdr_t) {off p : Nat} (di : Nat) (hp : p < npages_of hdr off) :
    H5EA_DBLOCK_PREFIX_SIZE hdr + p * H5EA_DBLK_PAGE_SIZE hdr + H5EA_DBLK_PAGE_SIZE hdr
      ≤ slot_size hdr (.s off di) := by
  have hne : npages_of hdr off ≠ 0 := by omega
  unfold npages_of at hp hne
  obtain ⟨hn, _⟩ := npages_paged hne
  show _ ≤ H5EA_DBLOCK_SIZE hdr (hdr.sblk_info (off + hdr.iblock_nsblks)).dblk_nelmts
  unfold H5EA_DBLOCK_SIZE
  rw [if_pos hn]
  have : (p + 1) * H5EA_DBLK_PAGE_SIZE hdr
      ≤ dblk_npages hdr (hdr.sblk_info (off + hdr.iblock_nsblks)).dblk_nelmts
        * H5EA_DBLK_PAGE_SIZE hdr := Nat.mul_le_mul_right _ hp
  have e : (p + 1) * H5EA_DBLK_PAGE_SIZE hdr
      = p * H5EA_DBLK_PAGE_SIZE hdr + H5EA_DBLK_PAGE_SIZE hdr := by ring
  omega

theorem page_addr_eq {w : World} (hw : WF w) (hd : H5F_addr_defined w.hdr.idx_blk_addr = true)
    {off di p : Nat} (hl : slot_live w (.s off di)) (hp : p < npages_of w.hdr off) :
    page_addr w.hdr (slot_addr w (.s off di)) p
      = slot_addr w (.s off di) + H5EA_DBLOCK_PREFIX_SIZE w.hdr + p * H5EA_DBLK_PAGE_SIZE w.hdr ∧
    slot_addr w (.s off di) + H5EA_DBLOCK_PREFIX_SIZE w.hdr + p * H5EA_DBLK_PAGE_SIZE w.hdr
      < slot_addr w (.s off di) + slot_size w.hdr (.s off di) := by
  have h1 := page_in_extent w.hdr di hp
  have h2 := (hw.dblk hd _ hl).2
  have h3 := hw.eoa
  have h4 := page_size_pos w.hdr
  refine ⟨?_, by omega⟩
  unfold page_addr
  apply u64_eq
  have : HADDR_UNDEF < 2 ^ 64 := by decide
  omega

theorem page_addr_inj {w : World} (hw : WF w) (hd : H5F_addr_defined w.hdr.idx_blk_addr = true)
    {off di p off' di' p' : Nat} (hl : slot_live w (.s off di)) (hl' : slot_live w (.s off' di'))
    (hp : p < npages_of w.hdr off) (hp' : p' < npages_of w.hdr off')
    (h : page_addr w.hdr (slot_addr w (.s off di)) p
      = page_addr w.hdr (slot_addr w (.s off' di')) p') :
    off = off' ∧ di = di' ∧ p = p' := by
  obtain ⟨e1, b1⟩ := page_addr_eq hw hd hl hp
  obtain ⟨e2, b2⟩ := page_addr_eq hw hd hl' hp'
  rw [e1, e2] at h
  by_cases hs : Slot.s off di = Slot.s off' di'
  · injection hs with ho hdi
    subst ho; subst hdi
    refine ⟨rfl, rfl, ?_⟩
    have hps := page_size_pos w.hdr
    have : p * H5EA_DBLK_PAGE_SIZE w.hdr = p' * H5EA_DBLK_PAGE_SIZE w.hdr := by omega
    exact Nat.eq_of_mul_eq_mul_right hps this
  · exfalso
    rcases hw.disjoint hd _ _ hl hl' hs with h' | h' <;> omega

/-! ### The element at a place of a well-formed file -/

theorem cell_undef {w : World} (hd : H5F_addr_defined w.hdr.idx_blk_addr = false) (q : Place) :
    cell w q = some w.hdr.cparam.cls.fill := by
  unfold cell
  cases q <;> simp only [resolve_at, hd, if_true]

theorem cell_direct {w : World} (hw : WF w) (hd : H5F_addr_defined w.hdr.idx_blk_addr = true)
    (k : Nat) : cell w (.direct k) = some (w.IB.elmts k) := by
  unfold cell
  simp only [resolve_at, hd, hw.iblock hd, if_true, Bool.true_eq_false, if_false]
  rfl

theorem cell_viaIblock {w : World} (hw : WF w) (hd : H5F_addr_defined w.hdr.idx_blk_addr = true)
    (di k : Nat) :
    cell w (.viaIblock di k) =
      if H5F_addr_defined (w.IB.dblk_addrs di) = false then some w.hdr.cparam.cls.fill
      else some ((w.dblk (w.IB.dblk_addrs di)).elmts k) := by
  unfold cell
  simp only [resolve_at, hd, hw.iblock hd, if_true, Bool.true_eq_false, if_false]
  by_cases hs : H5F_addr_defined (w.IB.dblk_addrs di) = false
  · simp only [hs, if_true]
  · have hs' := Bool.of_not_eq_false hs
    have hb := hw.dblk hd (.i di) hs'
    simp only [slot_addr] at hb
    simp only [hs', Bool.true_eq_false, if_false, hb.1, if_true]
    rfl

theorem cell_viaSblock {w : World} (hw : WF w) (hd : H5F_addr_defined w.hdr.idx_blk_addr = true)
    {off di k : Nat} (hok : PlaceOK w.hdr (.viaSblock off di k)) :
    cell w (.viaSblock off di k) =
      if H5F_addr_defined (w.IB.sblk_addrs off) = false then some w.hdr.cparam.cls.fill
      else if H5F_addr_defined (slot_addr w (.s off di)) = false then some w.hdr.cparam.cls.fill
      else if npages_of w.hdr off ≠ 0 then
        if (w.sblk (w.IB.sblk_addrs off)).page_init
            (page_bit w.hdr off di (k / w.hdr.dblk_page_nelmts)) = false then
          some w.hdr.cparam.cls.fill
        else some ((w.page (page_addr w.hdr (slot_addr w (.s off di))
          (k / w.hdr.dblk_page_nelmts))).elmts (k % w.hdr.dblk_page_nelmts))
      else some ((w.dblk (slot_addr w (.s off di))).elmts k) := by
  obtain ⟨hs, hdi, hk⟩ := hok
  unfold cell
  simp only [resolve_at, hd, hw.iblock hd, if_true, Bool.true_eq_false, if_false, slot_addr]
  by_cases hsa : H5F_addr_defined (w.IB.sblk_addrs off) = false
  · simp only [hsa, if_true]
  · have hsa' := Bool.of_not_eq_false hsa
    simp only [hsa', Bool.true_eq_false, if_false, (hw.sblk hd off hsa').1, if_true]
    by_cases hsl : H5F_addr_defined ((w.sblk (w.IB.sblk_addrs off)).dblk_addrs di) = false
    · simp only [hsl, if_true]
    · have hsl' := Bool.of_not_eq_false hsl
      simp only [hsl', Bool.true_eq_false, if_false]
      have hb := hw.dblk hd (.s off di) ⟨hsa', hsl'⟩
      simp only [slot_addr] at hb
      unfold resolve_sblock_dblock
      have e1 : (sblock_of w.hdr (w.IB.sblk_addrs off) (off + w.hdr.iblock_nsblks)).dblk_npages
          = npages_of w.hdr off := rfl
      have e2 : (sblock_of w.hdr (w.IB.sblk_addrs off) (off + w.hdr.iblock_nsblks)).addr
          = w.IB.sblk_addrs off := rfl
      have e3 : (sblock_of w.hdr (w.IB.sblk_addrs off) (off + w.hdr.iblock_nsblks)).dblk_page_size
          = H5EA_DBLK_PAGE_SIZE w.hdr := rfl
      rw [e1, e2, e3]
      by_cases hnp : npages_of w.hdr off ≠ 0
      · simp only [if_pos hnp]
        have hpl := page_idx_lt hw.good hk hnp
        have e4 : u64 (di * npages_of w.hdr off + k / w.hdr.dblk_page_nelmts)
            = page_bit w.hdr off di (k / w.hdr.dblk_page_nelmts) := rfl
        have e5 : u64 ((w.sblk (w.IB.sblk_addrs off)).dblk_addrs di + H5EA_DBLOCK_PREFIX_SIZE w.hdr
              + k / w.hdr.dblk_page_nelmts * H5EA_DBLK_PAGE_SIZE w.hdr)
            = page_addr w.hdr ((w.sblk (w.IB.sblk_addrs off)).dblk_addrs di)
                (k / w.hdr.dblk_page_nelmts) := rfl
        rw [e4, e5]
        by_cases hbit : (w.sblk (w.IB.sblk_addrs off)).page_init
            (page_bit w.hdr off di (k / w.hdr.dblk_page_nelmts)) = false
        · simp only [hbit, if_true]
        · have hbit' := Bool.of_not_eq_false hbit
          have hpg := (hw.page hd off di _ hsa' hdi hpl hbit').2
          simp only [hbit', Bool.true_eq_false, if_false, hpg, if_true]
          rfl
      · simp only [if_neg hnp, hb.1, if_true]
        rfl

/-! ### Creation of the index block and of a super block keeps the file -/

theorem keeps_iblock {w w' : World}
    (hd : H5F_addr_defined w.hdr.idx_blk_addr = false)
    (hfit : w.eoa + H5EA_IBLOCK_SIZE w.hdr < HADDR_UNDEF)
    (hg : HdrGeom w.hdr w'.hdr)
    (hiba : w'.hdr.idx_blk_addr = w.eoa)
    (hib : w'.iblocks = Function.update w.iblocks w.eoa
      (some ⟨fun _ => w.hdr.cparam.cls.fill, fun _ => HADDR_UNDEF, fun _ => HADDR_UNDEF⟩))
    (heoa : w'.eoa = w.eoa + H5EA_IBLOCK_SIZE w.hdr) :
    Keeps w w' := by
  have hIB : w'.IB = ⟨fun _ => w.hdr.cparam.cls.fill, fun _ => HADDR_UNDEF, fun _ => HADDR_UNDEF⟩ := by
    show (w'.iblocks w'.hdr.idx_blk_addr).getD _ = _
    rw [hiba, hib]
    simp
  have hIBe : w'.IB.elmts = fun _ => w.hdr.cparam.cls.fill := by rw [hIB]
  have hIBs : w'.IB.sblk_addrs = fun _ => HADDR_UNDEF := by rw [hIB]
  have hIBd : w'.IB.dblk_addrs = fun _ => HADDR_UNDEF := by rw [hIB]
  have hd' : H5F_addr_defined w'.hdr.idx_blk_addr = true := by
    rw [hiba]; exact defined_lt (by omega) (le_refl _)
  have hnl : ∀ sl, ¬ slot_live w' sl := by
    intro sl hl
    cases sl with
    | i di => simp [slot_live, hIBd, undef_not_defined] at hl
    | s off di => simp [slot_live, hIBs, undef_not_defined] at hl
  have hwf : WF w → WF w' := by
    intro hw
    constructor
    · exact hg.hg_good hw.good
    · rw [heoa]; omega
    · intro _
      rw [hiba, hib]; simp
    · intro _ off hsa
      rw [hIBs] at hsa
      simp [undef_not_defined] at hsa
    · intro _ off off' hsa
      rw [hIBs] at hsa
      simp [undef_not_defined] at hsa
    · intro _ sl hl
      exact absurd hl (hnl sl)
    · intro _ sl sl' hl
      exact absurd hl (hnl sl)
    · intro _ off di p hsa
      rw [hIBs] at hsa
      simp [undef_not_defined] at hsa
  refine ⟨hg, fun h => ?_, hwf, ?_⟩
  · rw [hd] at h; exact absurd h (by decide)
  · intro hw q hok
    have hw' := hwf hw
    have hfill : w'.hdr.cparam.cls.fill = w.hdr.cparam.cls.fill := by rw [hg.cparam]
    rw [cell_undef hd]
    cases q with
    | direct k => rw [cell_direct hw' hd', hIBe]
    | viaIblock di k =>
      rw [cell_viaIblock hw' hd', hIBd]
      simp [undef_not_defined, hfill]
    | viaSblock off di k =>
      rw [cell_viaSblock hw' hd' ((hg.hg_placeOK _).2 hok), hIBs]
      simp [undef_not_defined, hfill]

theorem sblock_size_pos (hdr : H5EA_hdr_t) (s : Nat) : 1 ≤ H5EA_SBLOCK_SIZE hdr s := by
  unfold H5EA_SBLOCK_SIZE H5EA_METADATA_PREFIX_SIZE
  omega

theorem keeps_sblock {w w' : World} (off s : Nat)
    (hd : H5F_addr_defined w.hdr.idx_blk_addr = true)
    (hslot : H5F_addr_defined (w.IB.sblk_addrs off) = false)
    (hfit : w.eoa + H5EA_SBLOCK_SIZE w.hdr s < HADDR_UNDEF)
    (hg : HdrGeom w.hdr w'.hdr)
    (hiba : w'.hdr.idx_blk_addr = w.hdr.idx_blk_addr)
    (hib : w'.iblocks = Function.update w.iblocks w.hdr.idx_blk_addr
      (some { w.IB with sblk_addrs := Function.update w.IB.sblk_addrs off w.eoa }))
    (hsb : w'.sblocks = Function.update w.sblocks w.eoa
      (some ⟨fun _ => HADDR_UNDEF, fun _ => false⟩))
    (hdb : w'.dblocks = w.dblocks)
    (hpg : w'.dblk_pages = w.dblk_pages)
    (heoa : w'.eoa = w.eoa + H5EA_SBLOCK_SIZE w.hdr s) :
    Keeps w w' := by
  have hIB : w'.IB = { w.IB with sblk_addrs := Function.update w.IB.sblk_addrs off w.eoa } := by
    show (w'.iblocks w'.hdr.idx_blk_addr).getD _ = _
    rw [hiba, hib]
    simp
  have hIBe : w'.IB.elmts = w.IB.elmts := by rw [hIB]
  have hIBd : w'.IB.dblk_addrs = w.IB.dblk_addrs := by rw [hIB]
  have hIBs : w'.IB.sblk_addrs = Function.update w.IB.sblk_addrs off w.eoa := by rw [hIB]
  have hIBs_new : w'.IB.sblk_addrs off = w.eoa := by rw [hIBs]; simp
  have hIBs_old : ∀ o, o ≠ off → w'.IB.sblk_addrs o = w.IB.sblk_addrs o := by
    intro o ho; rw [hIBs]; simp [Function.update, ho]
  have hsz := sblock_size_pos w.hdr s
  have hedef : H5F_addr_defined w.eoa = true := defined_lt (by omega) (le_refl _)
  have hd' : H5F_addr_defined w'.hdr.idx_blk_addr = true := by rw [hiba]; exact hd
  have hsblk_new : w'.sblk w.eoa = ⟨fun _ => HADDR_UNDEF, fun _ => false⟩ := by
    show (w'.sblocks w.eoa).getD _ = _
    rw [hsb]; simp
  have hsblk_old : ∀ a, a ≠ w.eoa → w'.sblk a = w.sblk a := by
    intro a ha
    show (w'.sblocks a).getD _ = (w.sblocks a).getD _
    rw [hsb]; simp [Function.update, ha]
  have hfill : w'.hdr.cparam.cls.fill = w.hdr.cparam.cls.fill := by rw [hg.cparam]
  have hwf : WF w → WF w' := by
    intro hw
    have hbelow : ∀ o, o ≠ off → H5F_addr_defined (w.IB.sblk_addrs o) = true →
        w.IB.sblk_addrs o ≠ w.eoa := by
      intro o _ hsa
      have := (hw.sblk hd o hsa).2
      omega
    have hlive : ∀ sl, slot_live w' sl → slot_live w sl ∧ slot_addr w' sl = slot_addr w sl := by
      intro sl hl
      cases sl with
      | i di =>
        have hl' : H5F_addr_defined (w.IB.dblk_addrs di) = true := by
          have : H5F_addr_defined (w'.IB.dblk_addrs di) = true := hl
          rw [hIBd] at this; exact this
        exact ⟨hl', by show w'.IB.dblk_addrs di = w.IB.dblk_addrs di; rw [hIBd]⟩
      | s o di =>
        obtain ⟨h1, h2⟩ := hl
        by_cases ho : o = off
        · subst ho
          rw [hIBs_new, hsblk_new] at h2
          simp [undef_not_defined] at h2
        · rw [hIBs_old o ho] at h1 h2
          rw [hsblk_old _ (hbelow o ho h1)] at h2
          refine ⟨⟨h1, h2⟩, ?_⟩
          show (w'.sblk (w'.IB.sblk_addrs o)).dblk_addrs di = (w.sblk (w.IB.sblk_addrs o)).dblk_addrs di
          rw [hIBs_old o ho, hsblk_old _ (hbelow o ho h1)]
    constructor
    · exact hg.hg_good hw.good
    · rw [heoa]; have := hw.eoa; omega
    · intro _
      rw [hiba, hib]; simp
    · intro _ o hsa
      rw [heoa]
      by_cases ho : o = off
      · subst ho
        rw [hIBs_new, hsb]
        simp
        omega
      · rw [hIBs_old o ho] at hsa ⊢
        have := hw.sblk hd o hsa
        rw [hsb]
        exact ⟨isSome_update _ _ _ _ this.1, by omega⟩
    · intro _ o o' hsa he
      by_cases ho : o = off
      · subst ho
        by_cases ho' : o' = o
        · exact ho'
        · exfalso
          rw [hIBs_new, hIBs_old o' ho'] at he
          have hdef : H5F_addr_defined (w.IB.sblk_addrs o') = true := by rw [he]; exact hedef
          exact hbelow o' ho' hdef he
      · rw [hIBs_old o ho] at hsa he
        by_cases ho' : o' = off
        · exfalso
          subst ho'
          rw [hIBs_new] at he
          exact hbelow o ho hsa he.symm
        · rw [hIBs_old o' ho'] at he
          exact hw.sblk_inj hd o o' hsa he
    · intro _ sl hl
      obtain ⟨hl0, ha⟩ := hlive sl hl
      rw [ha, hg.hg_slot_size, hdb, heoa]
      have := hw.dblk hd sl hl0
      exact ⟨this.1, by omega⟩
    · intro _ sl sl' hl hl' hne
      obtain ⟨hl0, ha⟩ := hlive sl hl
      obtain ⟨hl0', ha'⟩ := hlive sl' hl'
      rw [ha, ha', hg.hg_slot_size, hg.hg_slot_size]
      exact hw.disjoint hd sl sl' hl0 hl0' hne
    · intro _ o di p hsa hdi hp hbit
      by_cases ho : o = off
      · subst ho
        rw [hIBs_new, hsblk_new] at hbit
        simp at hbit
      · rw [hIBs_old o ho] at hsa hbit ⊢
        rw [hsblk_old _ (hbelow o ho hsa)] at hbit ⊢
        rw [hg.sblk_info, hg.iblock_nsblks] at hdi
        rw [hg.hg_npages_of] at hp
        rw [hg.hg_page_bit] at hbit
        rw [hpg, hg.hg_page_addr]
        exact hw.page hd o di p hsa hdi hp hbit
  refine ⟨hg, fun _ => hiba, hwf, ?_⟩
  intro hw q hok
  have hw' := hwf hw
  have hdblk : ∀ a, w'.dblk a = w.dblk a := fun a => by
    show (w'.dblocks a).getD _ = (w.dblocks a).getD _
    rw [hdb]
  have hpage : ∀ a, w'.page a = w.page a := fun a => by
    show (w'.dblk_pages a).getD _ = (w.dblk_pages a).getD _
    rw [hpg]
  cases q with
  | direct k => rw [cell_direct hw' hd', cell_direct hw hd, hIBe]
  | viaIblock di k =>
    rw [cell_viaIblock hw' hd', cell_viaIblock hw hd, hIBd, hfill, hdblk]
  | viaSblock o di k =>
    rw [cell_viaSblock hw' hd' ((hg.hg_placeOK _).2 hok), cell_viaSblock hw hd hok]
    by_cases ho : o = off
    · subst ho
      simp only [slot_addr]
      rw [hIBs_new, hsblk_new]
      simp [hedef, hslot, undef_not_defined, hfill]
    · simp only [slot_addr]
      rw [hIBs_old o ho, hfill, hg.hg_npages_of, hg.hg_page_bit, hg.dblk_page_nelmts,
        hg.hg_page_addr]
      by_cases hsa : H5F_addr_defined (w.IB.sblk_addrs o) = false
      · simp only [hsa, if_true]
      · have hsa' := Bool.of_not_eq_false hsa
        have hne : w.IB.sblk_addrs o ≠ w.eoa := by
          have := (hw.sblk hd o hsa').2
          omega
        rw [hsblk_old _ hne]
        simp only [hdblk, hpage]

/-! ### Creation of a data block below a super block keeps the file -/

theorem keeps_dblock_under_sblock {w w' : World} (off di : Nat)
    (hd : H5F_addr_defined w.hdr.idx_blk_addr = true)
    (hsa : H5F_addr_defined (w.IB.sblk_addrs off) = true)
    (hslot : H5F_addr_defined ((w.sblk (w.IB.sblk_addrs off)).dblk_addrs di) = false)
    (hdi : di < (w.hdr.sblk_info (off + w.hdr.iblock_nsblks)).ndblks)
    (hfit : w.eoa + H5EA_DBLOCK_SIZE w.hdr (w.hdr.sblk_info (off + w.hdr.iblock_nsblks)).dblk_nelmts
      < HADDR_UNDEF)
    (hg : HdrGeom w.hdr w'.hdr)
    (hiba : w'.hdr.idx_blk_addr = w.hdr.idx_blk_addr)
    (hib : w'.iblocks = w.iblocks)
    (hsb : w'.sblocks = Function.update w.sblocks (w.IB.sblk_addrs off)
      (some { w.sblk (w.IB.sblk_addrs off) with
        dblk_addrs := Function.update (w.sblk (w.IB.sblk_addrs off)).dblk_addrs di w.eoa }))
    (hdb : w'.dblocks = Function.update w.dblocks w.eoa (some ⟨fun _ => w.hdr.cparam.cls.fill⟩))
    (hpg : w'.dblk_pages = w.dblk_pages)
    (heoa : w'.eoa = w.eoa
      + H5EA_DBLOCK_SIZE w.hdr (w.hdr.sblk_info (off + w.hdr.iblock_nsblks)).dblk_nelmts) :
    Keeps w w' := by
  have hIB : w'.IB = w.IB := by
    show (w'.iblocks w'.hdr.idx_blk_addr).getD _ = (w.iblocks w.hdr.idx_blk_addr).getD _
    rw [hiba, hib]
  have hSB : w'.sblk (w.IB.sblk_addrs off) = { w.sblk (w.IB.sblk_addrs off) with
        dblk_addrs := Function.update (w.sblk (w.IB.sblk_addrs off)).dblk_addrs di w.eoa } := by
    show (w'.sblocks (w.IB.sblk_addrs off)).getD _ = _
    rw [hsb]; simp
  have hSBd : (w'.sblk (w.IB.sblk_addrs off)).dblk_addrs
      = Function.update (w.sblk (w.IB.sblk_addrs off)).dblk_addrs di w.eoa := by rw [hSB]
  have hSBp : (w'.sblk (w.IB.sblk_addrs off)).page_init
      = (w.sblk (w.IB.sblk_addrs off)).page_init := by rw [hSB]
  have hsblk_old : ∀ a, a ≠ w.IB.sblk_addrs off → w'.sblk a = w.sblk a := by
    intro a ha
    show (w'.sblocks a).getD _ = (w.sblocks a).getD _
    rw [hsb]; simp [Function.update, ha]
  have hsz := dblock_size_pos w.hdr (w.hdr.sblk_info (off + w.hdr.iblock_nsblks)).dblk_nelmts
  have hedef : H5F_addr_defined w.eoa = true := defined_lt (by omega) (le_refl _)
  have hd' : H5F_addr_defined w'.hdr.idx_blk_addr = true := by rw [hiba]; exact hd
  have hfill : w'.hdr.cparam.cls.fill = w.hdr.cparam.cls.fill := by rw [hg.cparam]
  have hdpres : ∀ a, (w.dblocks a).isSome = true → (w'.dblocks a).isSome = true := by
    intro a ha; rw [hdb]; exact isSome_update _ _ _ _ ha
  have hpage_init : ∀ o, (w'.sblk (w.IB.sblk_addrs o)).page_init
      = (w.sblk (w.IB.sblk_addrs o)).page_init := by
    intro o
    by_cases h : w.IB.sblk_addrs o = w.IB.sblk_addrs off
    · rw [h, hSBp]
    · rw [hsblk_old _ h]
  have haddr_new : slot_addr w' (.s off di) = w.eoa := by
    show (w'.sblk (w'.IB.sblk_addrs off)).dblk_addrs di = _
    rw [hIB, hSBd]; simp
  have hnotlive : ¬ slot_live w (.s off di) := by
    intro h
    have := h.2
    rw [hslot] at this
    exact absurd this (by decide)
  have hwf : WF w → WF w' := by
    intro hw
    have hsame : ∀ o, H5F_addr_defined (w.IB.sblk_addrs o) = true →
        w.IB.sblk_addrs o = w.IB.sblk_addrs off → o = off :=
      fun o _ h => hw.sblk_inj hd off o hsa h
    have haddr_old : ∀ sl, sl ≠ .s off di → (slot_live w' sl → slot_live w sl) ∧
        slot_addr w' sl = slot_addr w sl := by
      intro sl hne
      cases sl with
      | i di' =>
        constructor
        · intro hl
          have : H5F_addr_defined (w'.IB.dblk_addrs di') = true := hl
          rw [hIB] at this; exact this
        · show w'.IB.dblk_addrs di' = w.IB.dblk_addrs di'
          rw [hIB]
      | s o di' =>
        have key : (w'.sblk (w.IB.sblk_addrs o)).dblk_addrs di'
            = (w.sblk (w.IB.sblk_addrs o)).dblk_addrs di' ∨
            H5F_addr_defined (w.IB.sblk_addrs o) = false := by
          by_cases hso : H5F_addr_defined (w.IB.sblk_addrs o) = false
          · right; exact hso
          · left
            by_cases h : w.IB.sblk_addrs o = w.IB.sblk_addrs off
            · have ho := hsame o (Bool.of_not_eq_false hso) h
              subst ho
              have hdne : di' ≠ di := fun e => hne (by rw [e])
              rw [hSBd]; simp [Function.update, hdne]
            · rw [hsblk_old _ h]
        constructor
        · intro hl
          obtain ⟨h1, h2⟩ := hl
          rw [hIB] at h1 h2
          rcases key with key | key
          · rw [key] at h2; exact ⟨h1, h2⟩
          · rw [key] at h1; exact absurd h1 (by decide)
        · show (w'.sblk (w'.IB.sblk_addrs o)).dblk_addrs di'
            = (w.sblk (w.IB.sblk_addrs o)).dblk_addrs di'
          rw [hIB]
          by_cases h : w.IB.sblk_addrs o = w.IB.sblk_addrs off
          · by_cases ho : o = off
            · subst ho
              have hdne : di' ≠ di := fun e => hne (by rw [e])
              rw [hSBd]; simp [Function.update, hdne]
            · -- an undefined slot that happens to hold the same address: impossible
              exfalso
              have : H5F_addr_defined (w.IB.sblk_addrs o) = true := by rw [h]; exact hsa
              exact ho (hsame o this h)
          · rw [hsblk_old _ h]
    constructor
    · exact hg.hg_good hw.good
    · rw [heoa]; omega
    · intro _
      rw [hiba, hib]; exact hw.iblock hd
    · intro _ o hso
      rw [hIB] at hso ⊢
      have := hw.sblk hd o hso
      rw [hsb, heoa]
      exact ⟨isSome_update _ _ _ _ this.1, by omega⟩
    · intro _ o o' hso he
      rw [hIB] at hso he
      exact hw.sblk_inj hd o o' hso he
    · intro _ sl hl
      rw [hg.hg_slot_size, heoa]
      by_cases hne : sl = .s off di
      · subst hne
        rw [haddr_new, hdb]
        refine ⟨by simp, ?_⟩
        show w.eoa + H5EA_DBLOCK_SIZE w.hdr _ ≤ _
        exact le_refl _
      · obtain ⟨h1, h2⟩ := haddr_old sl hne
        rw [h2]
        have := hw.dblk hd sl (h1 hl)
        exact ⟨hdpres _ this.1, by omega⟩
    · intro _ sl sl' hl hl' hne
      rw [hg.hg_slot_size, hg.hg_slot_size]
      by_cases h1 : sl = .s off di
      · subst h1
        have h2 : sl' ≠ .s off di := fun h => hne h.symm
        obtain ⟨a1, a2⟩ := haddr_old sl' h2
        rw [haddr_new, a2]
        have := hw.dblk hd sl' (a1 hl')
        right; omega
      · obtain ⟨a1, a2⟩ := haddr_old sl h1
        by_cases h2 : sl' = .s off di
        · subst h2
          rw [haddr_new, a2]
          have := hw.dblk hd sl (a1 hl)
          left; omega
        · obtain ⟨b1, b2⟩ := haddr_old sl' h2
          rw [a2, b2]
          exact hw.disjoint hd sl sl' (a1 hl) (b1 hl') hne
    · intro _ o di' p hso hdi' hp hbit
      rw [hIB] at hso hbit ⊢
      rw [hg.sblk_info, hg.iblock_nsblks] at hdi'
      rw [hg.hg_npages_of] at hp
      rw [hpage_init, hg.hg_page_bit] at hbit
      rw [hpg, hg.hg_page_addr]
      have hold := hw.page hd o di' p hso hdi' hp hbit
      have hne : Slot.s o di' ≠ Slot.s off di := by
        intro e
        injection e with e1 e2
        subst e1; subst e2
        rw [hslot] at hold
        exact absurd hold.1 (by decide)
      have := (haddr_old _ hne).2
      have e : (w'.sblk (w.IB.sblk_addrs o)).dblk_addrs di'
          = (w.sblk (w.IB.sblk_addrs o)).dblk_addrs di' := by
        have h2 : slot_addr w' (.s o di') = (w'.sblk (w.IB.sblk_addrs o)).dblk_addrs di' := by
          show (w'.sblk (w'.IB.sblk_addrs o)).dblk_addrs di' = _
          rw [hIB]
        rw [← h2, this]; rfl
      rw [e]
      exact hold
  refine ⟨hg, fun _ => hiba, hwf, ?_⟩
  intro hw q hok
  have hw' := hwf hw
  have hold : ∀ a, a < w.eoa → w'.dblk a = w.dblk a := by
    intro a hlt
    show (w'.dblocks a).getD _ = (w.dblocks a).getD _
    rw [hdb]
    simp [Function.update, Nat.ne_of_lt hlt]
  have hnew : w'.dblk w.eoa = ⟨fun _ => w.hdr.cparam.cls.fill⟩ := by
    show (w'.dblocks w.eoa).getD _ = _
    rw [hdb]; simp
  have hpage : ∀ a, w'.page a = w.page a := fun a => by
    show (w'.dblk_pages a).getD _ = (w.dblk_pages a).getD _
    rw [hpg]
  cases q with
  | direct k => rw [cell_direct hw' hd', cell_direct hw hd, hIB]
  | viaIblock di' k =>
    rw [cell_viaIblock hw' hd', cell_viaIblock hw hd, hIB, hfill]
    by_cases hs : H5F_addr_defined (w.IB.dblk_addrs di') = false
    · simp only [hs, if_true]
    · have hs' := Bool.of_not_eq_false hs
      have hb := hw.dblk hd (.i di') hs'
      simp only [slot_addr, slot_size] at hb
      rw [hold _ (by omega)]
  | viaSblock o di' k =>
    rw [cell_viaSblock hw' hd' ((hg.hg_placeOK _).2 hok), cell_viaSblock hw hd hok]
    rw [hIB, hfill, hg.hg_npages_of, hg.hg_page_bit, hg.dblk_page_nelmts, hg.hg_page_addr,
      hpage_init]
    by_cases hso : H5F_addr_defined (w.IB.sblk_addrs o) = false
    · simp only [hso, if_true]
    · have hso' := Bool.of_not_eq_false hso
      simp only [hso', Bool.true_eq_false, if_false]
      by_cases hsl : Slot.s o di' = Slot.s off di
      · injection hsl with e1 e2
        subst e1; subst e2
        rw [haddr_new]
        have hs0 : slot_addr w (.s o di') = (w.sblk (w.IB.sblk_addrs o)).dblk_addrs di' := rfl
        rw [hs0, hslot]
        simp only [hedef, Bool.true_eq_false, if_false, if_true]
        by_cases hnp : npages_of w.hdr o ≠ 0
        · rw [if_pos hnp]
          have hpl := page_idx_lt hw.good hok.2.2 hnp
          have hbit : (w.sblk (w.IB.sblk_addrs o)).page_init
              (page_bit w.hdr o di' (k / w.hdr.dblk_page_nelmts)) = false := by
            by_contra hb
            have := (hw.page hd o di' _ hso' hdi hpl (Bool.of_not_eq_false hb)).1
            rw [hslot] at this
            exact absurd this (by decide)
          rw [if_pos hbit]
        · rw [if_neg hnp, hnew]
      · have hwfa : slot_addr w' (.s o di') = slot_addr w (.s o di') := by
          show (w'.sblk (w'.IB.sblk_addrs o)).dblk_addrs di'
            = (w.sblk (w.IB.sblk_addrs o)).dblk_addrs di'
          rw [hIB]
          by_cases h : w.IB.sblk_addrs o = w.IB.sblk_addrs off
          · have ho := hw.sblk_inj hd off o hsa h
            subst ho
            have hdne : di' ≠ di := fun e => hsl (by rw [e])
            rw [hSBd]; simp [Function.update, hdne]
          · rw [hsblk_old _ h]
        rw [hwfa]
        by_cases hdef : H5F_addr_defined (slot_addr w (.s o di')) = false
        · simp only [hdef, if_true]
        · have hdef' := Bool.of_not_eq_false hdef
          have hb := hw.dblk hd (.s o di') ⟨hso', hdef'⟩
          have hpos := dblock_size_pos w.hdr (w.hdr.sblk_info (o + w.hdr.iblock_nsblks)).dblk_nelmts
          have hlt : slot_addr w (.s o di') < w.eoa := by
            have := hb.2
            simp only [slot_size] at this
            omega
          rw [hold _ hlt]
          simp only [hpage]

/-! ### Creation of a data-block page keeps the file -/

theorem keeps_page {w w' : World} (off di p : Nat)
    (hd : H5F_addr_defined w.hdr.idx_blk_addr = true)
    (hsa : H5F_addr_defined (w.IB.sblk_addrs off) = true)
    (hsl : H5F_addr_defined ((w.sblk (w.IB.sblk_addrs off)).dblk_addrs di) = true)
    (hs : off + w.hdr.iblock_nsblks < w.hdr.nsblks)
    (hdi : di < (w.hdr.sblk_info (off + w.hdr.iblock_nsblks)).ndblks)
    (hp : p < npages_of w.hdr off)
    (hbit : (w.sblk (w.IB.sblk_addrs off)).page_init (page_bit w.hdr off di p) = false)
    (hg : HdrGeom w.hdr w'.hdr)
    (hiba : w'.hdr.idx_blk_addr = w.hdr.idx_blk_addr)
    (hib : w'.iblocks = w.iblocks)
    (hsb : w'.sblocks = Function.update w.sblocks (w.IB.sblk_addrs off)
      (some { w.sblk (w.IB.sblk_addrs off) with
        page_init := Function.update (w.sblk (w.IB.sblk_addrs off)).page_init
          (page_bit w.hdr off di p) true }))
    (hdb : w'.dblocks = w.dblocks)
    (hpg : w'.dblk_pages = Function.update w.dblk_pages
      (page_addr w.hdr ((w.sblk (w.IB.sblk_addrs off)).dblk_addrs di) p)
      (some ⟨fun _ => w.hdr.cparam.cls.fill⟩))
    (heoa : w'.eoa = w.eoa) :
    Keeps w w' := by
  have hIB : w'.IB = w.IB := by
    show (w'.iblocks w'.hdr.idx_blk_addr).getD _ = (w.iblocks w.hdr.idx_blk_addr).getD _
    rw [hiba, hib]
  have hSB : w'.sblk (w.IB.sblk_addrs off) = { w.sblk (w.IB.sblk_addrs off) with
        page_init := Function.update (w.sblk (w.IB.sblk_addrs off)).page_init
          (page_bit w.hdr off di p) true } := by
    show (w'.sblocks (w.IB.sblk_addrs off)).getD _ = _
    rw [hsb]; simp
  have hSBd : (w'.sblk (w.IB.sblk_addrs off)).dblk_addrs
      = (w.sblk (w.IB.sblk_addrs off)).dblk_addrs := by rw [hSB]
  have hSBp : (w'.sblk (w.IB.sblk_addrs off)).page_init
      = Function.update (w.sblk (w.IB.sblk_addrs off)).page_init
          (page_bit w.hdr off di p) true := by rw [hSB]
  have hsblk_old : ∀ a, a ≠ w.IB.sblk_addrs off → w'.sblk a = w.sblk a := by
    intro a ha
    show (w'.sblocks a).getD _ = (w.sblocks a).getD _
    rw [hsb]; simp [Function.update, ha]
  have hdaddrs : ∀ a, (w'.sblk a).dblk_addrs = (w.sblk a).dblk_addrs := by
    intro a
    by_cases h : a = w.IB.sblk_addrs off
    · rw [h, hSBd]
    · rw [hsblk_old _ h]
  have hd' : H5F_addr_defined w'.hdr.idx_blk_addr = true := by rw [hiba]; exact hd
  have hfill : w'.hdr.cparam.cls.fill = w.hdr.cparam.cls.fill := by rw [hg.cparam]
  have hslot_addr : ∀ sl, slot_addr w' sl = slot_addr w sl := by
    intro sl
    cases sl with
    | i di' => show w'.IB.dblk_addrs di' = w.IB.dblk_addrs di'; rw [hIB]
    | s o di' =>
      show (w'.sblk (w'.IB.sblk_addrs o)).dblk_addrs di' = (w.sblk (w.IB.sblk_addrs o)).dblk_addrs di'
      rw [hIB, hdaddrs]
  have hslot_live : ∀ sl, slot_live w' sl → slot_live w sl := by
    intro sl hl
    cases sl with
    | i di' =>
      have : H5F_addr_defined (w'.IB.dblk_addrs di') = true := hl
      rw [hIB] at this; exact this
    | s o di' =>
      obtain ⟨h1, h2⟩ := hl
      rw [hIB] at h1 h2
      rw [hdaddrs] at h2
      exact ⟨h1, h2⟩
  have hppres : ∀ a, (w.dblk_pages a).isSome = true → (w'.dblk_pages a).isSome = true := by
    intro a ha; rw [hpg]; exact isSome_update _ _ _ _ ha
  -- the bit of another page of the same or another super block
  have hbits : ∀ (hw : WF w) o di' p', H5F_addr_defined (w.IB.sblk_addrs o) = true →
      di' < (w.hdr.sblk_info (o + w.hdr.iblock_nsblks)).ndblks → p' < npages_of w.hdr o →
      (o = off ∧ di' = di ∧ p' = p) ∨
      (w'.sblk (w.IB.sblk_addrs o)).page_init (page_bit w.hdr o di' p')
        = (w.sblk (w.IB.sblk_addrs o)).page_init (page_bit w.hdr o di' p') := by
    intro hw o di' p' hso hdi' hp'
    by_cases ho : o = off
    · subst ho
      by_cases hb : page_bit w.hdr o di' p' = page_bit w.hdr o di p
      · left
        obtain ⟨e1, e2⟩ := page_bit_inj hw.good hs hdi' hdi hp' hp hb
        exact ⟨rfl, e1, e2⟩
      · right
        rw [hSBp]; simp [Function.update, hb]
    · right
      have hne : w.IB.sblk_addrs o ≠ w.IB.sblk_addrs off :=
        fun h => ho (hw.sblk_inj hd off o hsa h)
      rw [hsblk_old _ hne]
  have hwf : WF w → WF w' := by
    intro hw
    constructor
    · exact hg.hg_good hw.good
    · rw [heoa]; exact hw.eoa
    · intro _
      rw [hiba, hib]; exact hw.iblock hd
    · intro _ o hso
      rw [hIB] at hso ⊢
      have := hw.sblk hd o hso
      rw [hsb, heoa]
      exact ⟨isSome_update _ _ _ _ this.1, this.2⟩
    · intro _ o o' hso he
      rw [hIB] at hso he
      exact hw.sblk_inj hd o o' hso he
    · intro _ sl hl
      rw [hg.hg_slot_size, heoa, hslot_addr, hdb]
      exact hw.dblk hd sl (hslot_live sl hl)
    · intro _ sl sl' hl hl' hne
      rw [hg.hg_slot_size, hg.hg_slot_size, hslot_addr, hslot_addr]
      exact hw.disjoint hd sl sl' (hslot_live sl hl) (hslot_live sl' hl') hne
    · intro _ o di' p' hso hdi' hp' hb
      rw [hIB] at hso hb ⊢
      rw [hg.sblk_info, hg.iblock_nsblks] at hdi'
      rw [hg.hg_npages_of] at hp'
      rw [hg.hg_page_bit] at hb
      rw [hdaddrs, hg.hg_page_addr]
      rcases hbits hw o di' p' hso hdi' hp' with ⟨e1, e2, e3⟩ | hsame
      · subst e1; subst e2; subst e3
        refine ⟨hsl, ?_⟩
        rw [hpg]; simp
      · rw [hsame] at hb
        have := hw.page hd o di' p' hso hdi' hp' hb
        exact ⟨this.1, hppres _ this.2⟩
  refine ⟨hg, fun _ => hiba, hwf, ?_⟩
  intro hw q hok
  have hw' := hwf hw
  have hdblk : ∀ a, w'.dblk a = w.dblk a := fun a => by
    show (w'.dblocks a).getD _ = (w.dblocks a).getD _
    rw [hdb]
  have hnew : w'.page (page_addr w.hdr ((w.sblk (w.IB.sblk_addrs off)).dblk_addrs di) p)
      = ⟨fun _ => w.hdr.cparam.cls.fill⟩ := by
    show (w'.dblk_pages _).getD _ = _
    rw [hpg]; simp
  have hold : ∀ a, a ≠ page_addr w.hdr ((w.sblk (w.IB.sblk_addrs off)).dblk_addrs di) p →
      w'.page a = w.page a := by
    intro a ha
    show (w'.dblk_pages a).getD _ = (w.dblk_pages a).getD _
    rw [hpg]; simp [Function.update, ha]
  cases q with
  | direct k => rw [cell_direct hw' hd', cell_direct hw hd, hIB]
  | viaIblock di' k =>
    rw [cell_viaIblock hw' hd', cell_viaIblock hw hd, hIB, hfill, hdblk]
  | viaSblock o di' k =>
    rw [cell_viaSblock hw' hd' ((hg.hg_placeOK _).2 hok), cell_viaSblock hw hd hok]
    rw [hIB, hfill, hg.hg_npages_of, hg.hg_page_bit, hg.dblk_page_nelmts, hg.hg_page_addr,
      hslot_addr, hdblk]
    by_cases hso : H5F_addr_defined (w.IB.sblk_addrs o) = false
    · simp only [hso, if_true]
    · have hso' := Bool.of_not_eq_false hso
      simp only [hso', Bool.true_eq_false, if_false]
      by_cases hdef : H5F_addr_defined (slot_addr w (.s o di')) = false
      · simp only [hdef, if_true]
      · have hdef' := Bool.of_not_eq_false hdef
        simp only [hdef', Bool.true_eq_false, if_false]
        by_cases hnp : npages_of w.hdr o ≠ 0
        · simp only [if_pos hnp]
          have hpl := page_idx_lt hw.good hok.2.2 hnp
          rcases hbits hw o di' _ hso' hok.2.1 hpl with ⟨e1, e2, e3⟩ | hsame
          · subst e1; subst e2
            rw [e3, hSBp, if_pos hbit]
            have hs0 : slot_addr w (.s o di') = (w.sblk (w.IB.sblk_addrs o)).dblk_addrs di' := rfl
            rw [hs0, hnew]
            simp
          · rw [hsame]
            by_cases hb : (w.sblk (w.IB.sblk_addrs o)).page_init
                (page_bit w.hdr o di' (k / w.hdr.dblk_page_nelmts)) = false
            · simp only [hb, if_true]
            · simp only [hb, if_false]
              have hne : page_addr w.hdr (slot_addr w (.s o di')) (k / w.hdr.dblk_page_nelmts)
                  ≠ page_addr w.hdr ((w.sblk (w.IB.sblk_addrs off)).dblk_addrs di) p := by
                intro he
                have hl1 : slot_live w (.s o di') := ⟨hso', hdef'⟩
                have hl2 : slot_live w (.s off di) := ⟨hsa, hsl⟩
                obtain ⟨e1, e2, e3⟩ := page_addr_inj hw hd hl1 hl2 hpl hp he
                subst e1; subst e2
                rw [e3, hSBp] at hsame
                simp [hbit] at hsame
              rw [hold _ hne]
        · simp only [if_neg hnp]

/-! ### The check-and-create stages of the walk keep the file -/

theorem fits_lt {w : World} {size : Nat} (h : ¬ (w.fault = true ∨ H5MF_alloc_fits w size = false)) :
    w.eoa + size < HADDR_UNDEF := by
  have h2 := (not_or.1 h).2
  unfold H5MF_alloc_fits at h2
  simpa using h2

theorem ensure_iblock_dblock_keeps (acc sblk_idx i : Nat) (l : LookupLocals) (w : World)
    (hd : H5F_addr_defined w.hdr.idx_blk_addr = true) :
    Keeps w (lookup_ensure_iblock_dblock acc sblk_idx w.hdr.idx_blk_addr i l w).world := by
  unfold lookup_ensure_iblock_dblock
  by_cases hb : H5F_addr_defined ((w.iblk w.hdr.idx_blk_addr).dblk_addrs i) = false
  · rw [if_pos hb]
    by_cases hacc : acc &&& H5AC__READ_ONLY_FLAG = 0
    · rw [if_pos hacc]
      dsimp only
      unfold H5EA__dblock_create
      by_cases hc : (w.fault = true ∨ H5MF_alloc_fits w
          (H5EA_DBLOCK_SIZE w.hdr (w.hdr.sblk_info sblk_idx).dblk_nelmts) = false)
      · simp only [if_pos hc, undef_not_defined, if_true]
        apply Keeps.kp_of_fileEq
        constructor <;> simp [Flow.world]
      · have hf : H5F_addr_defined w.eoa = true :=
          fits_defined w _ (by simpa using (not_or.1 hc).2)
        simp only [if_neg hc, hf]
        refine keeps_dblock_under_iblock i (w.hdr.sblk_info sblk_idx).dblk_nelmts hd hb
          (fits_lt hc) ?_ ?_ ?_ ?_ ?_ ?_ ?_
        · constructor <;> simp [Flow.world, World.set_iblock_dblk_addr]
        · simp [Flow.world, World.set_iblock_dblk_addr]
        · simp [Flow.world, World.set_iblock_dblk_addr, World.IB, World.iblk]
        · simp [Flow.world, World.set_iblock_dblk_addr]
        · simp [Flow.world, World.set_iblock_dblk_addr]
        · simp [Flow.world, World.set_iblock_dblk_addr]
        · simp [Flow.world, World.set_iblock_dblk_addr]
    · rw [if_neg hacc]
      exact Keeps.kp_refl w
  · rw [if_neg hb]
    exact Keeps.kp_refl w

theorem ensure_sblock_keeps (acc sblk_idx off : Nat) (l : LookupLocals) (w : World)
    (hd : H5F_addr_defined w.hdr.idx_blk_addr = true) :
    Keeps w (lookup_ensure_sblock acc sblk_idx w.hdr.idx_blk_addr off l w).world := by
  unfold lookup_ensure_sblock
  by_cases hb : H5F_addr_defined ((w.iblk w.hdr.idx_blk_addr).sblk_addrs off) = false
  · rw [if_pos hb]
    by_cases hacc : acc &&& H5AC__READ_ONLY_FLAG = 0
    · rw [if_pos hacc]
      dsimp only
      unfold H5EA__sblock_create
      by_cases hc : (w.fault = true ∨ H5MF_alloc_fits w (H5EA_SBLOCK_SIZE w.hdr sblk_idx) = false)
      · simp only [if_pos hc, undef_not_defined, if_true]
        apply Keeps.kp_of_fileEq
        constructor <;> simp [Flow.world]
      · have hf : H5F_addr_defined w.eoa = true :=
          fits_defined w _ (by simpa using (not_or.1 hc).2)
        simp only [if_neg hc, hf]
        refine keeps_sblock off sblk_idx hd hb (fits_lt hc) ?_ ?_ ?_ ?_ ?_ ?_ ?_
        · constructor <;> simp [Flow.world, World.set_iblock_sblk_addr]
        · simp [Flow.world, World.set_iblock_sblk_addr]
        · simp [Flow.world, World.set_iblock_sblk_addr, World.IB, World.iblk]
        · simp [Flow.world, World.set_iblock_sblk_addr]
        · simp [Flow.world, World.set_iblock_sblk_addr]
        · simp [Flow.world, World.set_iblock_sblk_addr]
        · simp [Flow.world, World.set_iblock_sblk_addr]
    · rw [if_neg hacc]
      exact Keeps.kp_refl w
  · rw [if_neg hb]
    exact Keeps.kp_refl w

theorem ensure_sblock_dblock_keeps (acc off i : Nat) (l : LookupLocals) (w : World)
    (hd : H5F_addr_defined w.hdr.idx_blk_addr = true)
    (hsa : H5F_addr_defined (w.IB.sblk_addrs off) = true)
    (hdi : i < (w.hdr.sblk_info (off + w.hdr.iblock_nsblks)).ndblks) :
    Keeps w (lookup_ensure_sblock_dblock acc (off + w.hdr.iblock_nsblks)
      (sblock_of w.hdr (w.IB.sblk_addrs off) (off + w.hdr.iblock_nsblks)) i l w).world := by
  unfold lookup_ensure_sblock_dblock
  have ea : (sblock_of w.hdr (w.IB.sblk_addrs off) (off + w.hdr.iblock_nsblks)).addr
      = w.IB.sblk_addrs off := rfl
  have en : (sblock_of w.hdr (w.IB.sblk_addrs off) (off + w.hdr.iblock_nsblks)).dblk_nelmts
      = (w.hdr.sblk_info (off + w.hdr.iblock_nsblks)).dblk_nelmts := rfl
  rw [ea, en]
  by_cases hb : H5F_addr_defined ((w.sblk (w.IB.sblk_addrs off)).dblk_addrs i) = false
  · rw [if_pos hb]
    by_cases hacc : acc &&& H5AC__READ_ONLY_FLAG = 0
    · rw [if_pos hacc]
      dsimp only
      unfold H5EA__dblock_create
      by_cases hc : (w.fault = true ∨ H5MF_alloc_fits w
          (H5EA_DBLOCK_SIZE w.hdr (w.hdr.sblk_info (off + w.hdr.iblock_nsblks)).dblk_nelmts) = false)
      · simp only [if_pos hc, undef_not_defined, if_true]
        apply Keeps.kp_of_fileEq
        constructor <;> simp [Flow.world]
      · have hf : H5F_addr_defined w.eoa = true :=
          fits_defined w _ (by simpa using (not_or.1 hc).2)
        simp only [if_neg hc, hf]
        refine keeps_dblock_under_sblock off i hd hsa hb hdi (fits_lt hc) ?_ ?_ ?_ ?_ ?_ ?_ ?_
        · constructor <;> simp [Flow.world, World.set_sblock_dblk_addr]
        · simp [Flow.world, World.set_sblock_dblk_addr]
        · simp [Flow.world, World.set_sblock_dblk_addr]
        · simp [Flow.world, World.set_sblock_dblk_addr, World.sblk]
        · simp [Flow.world, World.set_sblock_dblk_addr]
        · simp [Flow.world, World.set_sblock_dblk_addr]
        · simp [Flow.world, World.set_sblock_dblk_addr]
    · rw [if_neg hacc]
      exact Keeps.kp_refl w
  · rw [if_neg hb]
    exact Keeps.kp_refl w

theorem ensure_page_keeps (acc off di p : Nat) (l : LookupLocals) (w : World)
    (hd : H5F_addr_defined w.hdr.idx_blk_addr = true)
    (hsa : H5F_addr_defined (w.IB.sblk_addrs off) = true)
    (hsl : H5F_addr_defined ((w.sblk (w.IB.sblk_addrs off)).dblk_addrs di) = true)
    (hs : off + w.hdr.iblock_nsblks < w.hdr.nsblks)
    (hdi : di < (w.hdr.sblk_info (off + w.hdr.iblock_nsblks)).ndblks)
    (hp : p < npages_of w.hdr off) :
    Keeps w (lookup_ensure_page acc
      (sblock_of w.hdr (w.IB.sblk_addrs off) (off + w.hdr.iblock_nsblks))
      (page_bit w.hdr off di p)
      (page_addr w.hdr ((w.sblk (w.IB.sblk_addrs off)).dblk_addrs di) p) l w).world := by
  unfold lookup_ensure_page
  have ea : (sblock_of w.hdr (w.IB.sblk_addrs off) (off + w.hdr.iblock_nsblks)).addr
      = w.IB.sblk_addrs off := rfl
  rw [ea]
  by_cases hb : (w.sblk (w.IB.sblk_addrs off)).page_init (page_bit w.hdr off di p) = false
  · rw [if_pos hb]
    by_cases hacc : acc &&& H5AC__READ_ONLY_FLAG = 0
    · rw [if_pos hacc]
      dsimp only
      unfold H5EA__dblk_page_create
      by_cases hc : w.fault = true
      · simp only [if_pos hc]
        rw [if_pos (by decide)]
        apply Keeps.kp_of_fileEq
        constructor <;> simp [Flow.world]
      · simp only [if_neg hc]
        rw [if_neg (by decide)]
        refine keeps_page off di p hd hsa hsl hs hdi hp hb ?_ ?_ ?_ ?_ ?_ ?_ ?_
        · constructor <;> simp [Flow.world, World.set_page_init]
        · simp [Flow.world, World.set_page_init]
        · simp [Flow.world, World.set_page_init]
        · simp [Flow.world, World.set_page_init, World.sblk]
        · simp [Flow.world, World.set_page_init]
        · simp [Flow.world, World.set_page_init]
        · simp [Flow.world, World.set_page_init]
    · rw [if_neg hacc]
      exact Keeps.kp_refl w
  · rw [if_neg hb]
    exact Keeps.kp_refl w

theorem ensure_iblock_keeps (acc : Nat) (l : LookupLocals) (w : World) :
    Keeps w (lookup_ensure_iblock acc l w).world := by
  unfold lookup_ensure_iblock
  by_cases hb : H5F_addr_defined w.hdr.idx_blk_addr = false
  · rw [if_pos hb]
    by_cases hacc : acc &&& H5AC__READ_ONLY_FLAG = 0
    · rw [if_pos hacc]
      dsimp only
      unfold H5EA__iblock_create
      by_cases hc : (w.fault = true ∨ H5MF_alloc_fits w (H5EA_IBLOCK_SIZE w.hdr) = false)
      · simp only [if_pos hc, undef_not_defined, if_true]
        apply SameStore.ss_keeps
        have hu := (not_defined_iff _).1 hb
        constructor
        · constructor <;> simp [Flow.world]
        · simp [Flow.world, hu]
        all_goals simp [Flow.world]
      · have hf : H5F_addr_defined w.eoa = true :=
          fits_defined w _ (by simpa using (not_or.1 hc).2)
        simp only [if_neg hc, hf]
        refine keeps_iblock hb (fits_lt hc) ?_ ?_ ?_ ?_
        · constructor <;> simp [Flow.world]
        · simp [Flow.world]
        · simp [Flow.world]
        · simp [Flow.world]
    · rw [if_neg hacc]
      exact Keeps.kp_refl w
  · rw [if_neg hb]
    exact Keeps.kp_refl w

/-! ### The walk below the index block keeps the file -/

theorem lookup_sblock_dblock_keeps (acc off di k : Nat) (l : LookupLocals) (w : World)
    (sb : H5EA_sblock_t)
    (hsb : sb = sblock_of w.hdr (w.IB.sblk_addrs off) (off + w.hdr.iblock_nsblks))
    (hgood : GoodHdr w.hdr)
    (hd : H5F_addr_defined w.hdr.idx_blk_addr = true)
    (hsa : H5F_addr_defined (w.IB.sblk_addrs off) = true)
    (hsl : H5F_addr_defined ((w.sblk (w.IB.sblk_addrs off)).dblk_addrs di) = true)
    (hs : off + w.hdr.iblock_nsblks < w.hdr.nsblks)
    (hdi : di < (w.hdr.sblk_info (off + w.hdr.iblock_nsblks)).ndblks)
    (hk : k < (w.hdr.sblk_info (off + w.hdr.iblock_nsblks)).dblk_nelmts) :
    Keeps w (lookup_sblock_dblock acc sb di k l w).2 := by
  have e1 : sb.dblk_npages = npages_of w.hdr off := by rw [hsb]; rfl
  have e2 : sb.addr = w.IB.sblk_addrs off := by rw [hsb]; rfl
  have e3 : sb.dblk_page_size = H5EA_DBLK_PAGE_SIZE w.hdr := by rw [hsb]; rfl
  unfold lookup_sblock_dblock
  by_cases hp : sb.dblk_npages ≠ 0
  · rw [if_pos hp]
    dsimp only
    have hpl := page_idx_lt hgood hk (by rw [← e1]; exact hp)
    have hK := ensure_page_keeps acc off di (k / w.hdr.dblk_page_nelmts) l w hd hsa hsl hs hdi hpl
    rw [← hsb] at hK
    have hK' : Keeps w (lookup_ensure_page acc sb
        (u64 (di * sb.dblk_npages + k / w.hdr.dblk_page_nelmts))
        (u64 ((w.sblk sb.addr).dblk_addrs di + H5EA_DBLOCK_PREFIX_SIZE w.hdr
          + k / w.hdr.dblk_page_nelmts * sb.dblk_page_size)) l w).world := by
      rw [e1, e2, e3]; exact hK
    revert hK'
    generalize lookup_ensure_page acc sb
        (u64 (di * sb.dblk_npages + k / w.hdr.dblk_page_nelmts))
        (u64 ((w.sblk sb.addr).dblk_addrs di + H5EA_DBLOCK_PREFIX_SIZE w.hdr
          + k / w.hdr.dblk_page_nelmts * sb.dblk_page_size)) l w = F
    intro hK'
    cases F with
    | at_catch l1 w1 => exact hK'
    | next l1 w1 =>
      dsimp only [Flow.world] at hK' ⊢
      exact hK'.kp_trans (Keeps.kp_of_fileEq (lookup_page_found _ _ _ _ _).1)
  · rw [if_neg hp]
    exact Keeps.kp_of_fileEq (lookup_dblock_found _ _ _ _ _).1

theorem lookup_sblock_keeps (acc off e : Nat) (l : LookupLocals) (w : World)
    (hgood : GoodHdr w.hdr)
    (hd : H5F_addr_defined w.hdr.idx_blk_addr = true)
    (hsa : H5F_addr_defined (w.IB.sblk_addrs off) = true)
    (hs : off + w.hdr.iblock_nsblks < w.hdr.nsblks)
    (hpos : 0 < (w.hdr.sblk_info (off + w.hdr.iblock_nsblks)).dblk_nelmts)
    (hdi : u64 (e / (w.hdr.sblk_info (off + w.hdr.iblock_nsblks)).dblk_nelmts)
      < (w.hdr.sblk_info (off + w.hdr.iblock_nsblks)).ndblks) :
    Keeps w (lookup_sblock acc (off + w.hdr.iblock_nsblks) (w.IB.sblk_addrs off) e l w).2 := by
  unfold lookup_sblock
  have heq := sblock_protect_eq (w.IB.sblk_addrs off) (off + w.hdr.iblock_nsblks) acc w
  have hfe := sblock_protect_fileEq (w.IB.sblk_addrs off) (off + w.hdr.iblock_nsblks) acc w
  dsimp only
  by_cases h : w.fault = false ∧ (w.sblocks (w.IB.sblk_addrs off)).isSome = true
  · rw [if_pos h] at heq
    rw [heq]
    dsimp only
    generalize hSB : sblock_of w.hdr (w.IB.sblk_addrs off) (off + w.hdr.iblock_nsblks) = SB
    have en : SB.dblk_nelmts = (w.hdr.sblk_info (off + w.hdr.iblock_nsblks)).dblk_nelmts := by
      rw [← hSB]; rfl
    have ea : SB.addr = w.IB.sblk_addrs off := by rw [← hSB]; rfl
    have hfe' := hfe.fe_HDassert (decide (u64 (e / SB.dblk_nelmts) < SB.ndblks))
    generalize hW1 : (H5EA__sblock_protect (w.IB.sblk_addrs off) (off + w.hdr.iblock_nsblks) acc
      w).2.HDassert (decide (u64 (e / SB.dblk_nelmts) < SB.ndblks)) = W1 at hfe' ⊢
    have hIB1 : W1.IB = w.IB := by
      show (W1.iblocks W1.hdr.idx_blk_addr).getD _ = (w.iblocks w.hdr.idx_blk_addr).getD _
      rw [hfe'.hdr, hfe'.iblocks]
    have hK := ensure_sblock_dblock_keeps acc off (u64 (e / SB.dblk_nelmts))
      { l with sblock := some SB } W1 (by rw [hfe'.hdr]; exact hd) (by rw [hIB1]; exact hsa)
      (by rw [hfe'.hdr, en]; exact hdi)
    rw [hfe'.hdr, hIB1, hSB] at hK
    have hpost := ensure_sblock_dblock_post acc (off + w.hdr.iblock_nsblks) SB
      (u64 (e / SB.dblk_nelmts)) { l with sblock := some SB } W1
    revert hK hpost
    generalize lookup_ensure_sblock_dblock acc (off + w.hdr.iblock_nsblks) SB
      (u64 (e / SB.dblk_nelmts)) { l with sblock := some SB } W1 = F
    intro hK hpost
    cases F with
    | at_catch l1 w1 =>
      dsimp only [Flow.world] at hK ⊢
      exact (Keeps.kp_of_fileEq hfe').kp_trans hK
    | next l1 w2 =>
      dsimp only [Flow.world, Flow.isNext, Flow.locals] at hK hpost ⊢
      obtain ⟨hbs, hdef, _⟩ := hpost
      have hdef := hdef rfl
      have hhdr : HdrGeom w.hdr w2.hdr := by
        have := hbs.hdr.hs_geom
        rw [hfe'.hdr] at this
        exact this
      have hiba2 : w2.hdr.idx_blk_addr = w.hdr.idx_blk_addr := by
        rw [hbs.idx_blk_addr, hfe'.hdr]
      have hIB2 : w2.IB = w.IB := by
        show (w2.iblocks w2.hdr.idx_blk_addr).getD _ = (w.iblocks w.hdr.idx_blk_addr).getD _
        rw [hiba2, hbs.iblocks, hfe'.iblocks]
      have hK2 := lookup_sblock_dblock_keeps acc off (u64 (e / SB.dblk_nelmts))
        (e % SB.dblk_nelmts) l1 w2 SB
        (by rw [hIB2, hhdr.iblock_nsblks, hhdr.hg_sblock_of, hSB])
        (hhdr.hg_good hgood)
        (by rw [hiba2]; exact hd)
        (by rw [hIB2]; exact hsa)
        (by rw [hIB2, ← ea]; exact hdef)
        (by rw [hhdr.iblock_nsblks, hhdr.nsblks]; exact hs)
        (by rw [hhdr.iblock_nsblks, hhdr.sblk_info, en]; exact hdi)
        (by rw [hhdr.iblock_nsblks, hhdr.sblk_info, en]; exact Nat.mod_lt _ hpos)
      exact ((Keeps.kp_of_fileEq hfe').kp_trans hK).kp_trans hK2
  · rw [if_neg h] at heq
    rw [heq]
    exact Keeps.kp_of_fileEq (hfe.fe_throw _)

/-! ### The walk keeps the file -/

theorem lookup_via_sblock_keeps (acc off e : Nat) (l : LookupLocals) (w : World)
    (hgood : GoodHdr w.hdr)
    (hd : H5F_addr_defined w.hdr.idx_blk_addr = true)
    (hs : off + w.hdr.iblock_nsblks < w.hdr.nsblks)
    (hpos : 0 < (w.hdr.sblk_info (off + w.hdr.iblock_nsblks)).dblk_nelmts)
    (hdi : u64 (e / (w.hdr.sblk_info (off + w.hdr.iblock_nsblks)).dblk_nelmts)
      < (w.hdr.sblk_info (off + w.hdr.iblock_nsblks)).ndblks) :
    Keeps w (lookup_via_sblock acc (off + w.hdr.iblock_nsblks) w.hdr.idx_blk_addr e l w).2 := by
  unfold lookup_via_sblock
  dsimp only
  rw [Nat.add_sub_cancel]
  have hK := ensure_sblock_keeps acc (off + w.hdr.iblock_nsblks) off l w hd
  have hpost := ensure_sblock_post acc (off + w.hdr.iblock_nsblks) w.hdr.idx_blk_addr off l w
  revert hK hpost
  generalize lookup_ensure_sblock acc (off + w.hdr.iblock_nsblks) w.hdr.idx_blk_addr off l w = F
  intro hK hpost
  cases F with
  | at_catch l1 w1 => exact hK
  | next l1 w1 =>
    dsimp only [Flow.world, Flow.isNext, Flow.locals] at hK hpost ⊢
    obtain ⟨hbi, hdef, _⟩ := hpost
    have hdef := hdef rfl
    have hhdr : HdrGeom w.hdr w1.hdr := hbi.hdr.hs_geom
    have hIB : w1.iblk w.hdr.idx_blk_addr = w1.IB := by
      show _ = w1.iblk w1.hdr.idx_blk_addr
      rw [hbi.idx_blk_addr]
    rw [hIB] at hdef ⊢
    have hK2 := lookup_sblock_keeps acc off e l1 w1 (hhdr.hg_good hgood)
      (by rw [hbi.idx_blk_addr]; exact hd) hdef
      (by rw [hhdr.iblock_nsblks, hhdr.nsblks]; exact hs)
      (by rw [hhdr.iblock_nsblks, hhdr.sblk_info]; exact hpos)
      (by rw [hhdr.iblock_nsblks, hhdr.sblk_info]; exact hdi)
    rw [hhdr.iblock_nsblks] at hK2
    exact hK.kp_trans hK2

theorem lookup_via_iblock_keeps (acc sblk_idx e : Nat) (l : LookupLocals) (w : World)
    (hd : H5F_addr_defined w.hdr.idx_blk_addr = true) :
    Keeps w (lookup_via_iblock acc sblk_idx w.hdr.idx_blk_addr e l w).2 := by
  unfold lookup_via_iblock
  dsimp only
  have hK := ensure_iblock_dblock_keeps acc sblk_idx
    (u64 ((w.hdr.sblk_info sblk_idx).start_dblk + e / (w.hdr.sblk_info sblk_idx).dblk_nelmts))
    l w hd
  revert hK
  generalize lookup_ensure_iblock_dblock acc sblk_idx w.hdr.idx_blk_addr
    (u64 ((w.hdr.sblk_info sblk_idx).start_dblk + e / (w.hdr.sblk_info sblk_idx).dblk_nelmts))
    l w = F
  intro hK
  cases F with
  | at_catch l1 w1 => exact hK
  | next l1 w1 =>
    dsimp only [Flow.world] at hK ⊢
    exact hK.kp_trans (Keeps.kp_of_fileEq (lookup_dblock_found _ _ _ _ _).1)

theorem lookup_in_iblock_keeps (idx acc : Nat) (l : LookupLocals) (w : World)
    (hgood : GoodHdr w.hdr)
    (hd : H5F_addr_defined w.hdr.idx_blk_addr = true)
    (hin : InRange w.hdr idx) (h64 : idx + 1 < 2 ^ 64) :
    Keeps w (lookup_in_iblock idx acc w.hdr.idx_blk_addr l w).2 := by
  unfold lookup_in_iblock
  by_cases hge : idx < w.hdr.cparam.idx_blk_elmts
  · rw [if_pos hge]
    exact Keeps.kp_refl w
  · rw [if_neg hge]
    dsimp only
    obtain ⟨s, e, hc⟩ := covered hgood hge hin h64
    rw [hc.s_eq, hc.e_eq]
    by_cases hs : s < w.hdr.iblock_nsblks
    · rw [if_pos hs]
      exact lookup_via_iblock_keeps acc s e l w hd
    · rw [if_neg hs]
      have hsum : s = (s - w.hdr.iblock_nsblks) + w.hdr.iblock_nsblks := by omega
      have hlt : e / (w.hdr.sblk_info s).dblk_nelmts < 2 ^ 64 := by
        have := Nat.div_le_self e (w.hdr.sblk_info s).dblk_nelmts
        have := hc.idx_eq
        omega
      have hK := lookup_via_sblock_keeps acc (s - w.hdr.iblock_nsblks) e l w hgood hd
        (by rw [← hsum]; exact hc.s_lt)
        (by rw [← hsum]; exact hc.nelmts_pos)
        (by rw [← hsum, u64_eq hlt]; exact hc.cv_div_lt)
      rw [← hsum] at hK
      exact hK

theorem set_f_sameStore (w : World) (f : Option Nat) :
    SameStore w { w with hdr := { w.hdr with f := f } } := by
  constructor
  · constructor <;> rfl
  all_goals rfl

theorem lookup_body_keeps (ea : H5EA_t) (idx acc : Nat) (w : World)
    (hgood : GoodHdr w.hdr) (hin : InRange w.hdr idx) (h64 : idx + 1 < 2 ^ 64) :
    Keeps w (lookup_body ea idx acc w).2 := by
  unfold lookup_body
  have h0 := (set_f_sameStore w ea.f).ss_keeps
  have hK := ensure_iblock_keeps acc LookupLocals.init { w with hdr := { w.hdr with f := ea.f } }
  have hpost := ensure_iblock_post acc LookupLocals.init
    { w with hdr := { w.hdr with f := ea.f } }
  revert hK hpost
  generalize lookup_ensure_iblock acc LookupLocals.init
    { w with hdr := { w.hdr with f := ea.f } } = F
  intro hK hpost
  cases F with
  | at_catch l1 w1 => exact h0.kp_trans hK
  | next l1 w1 =>
    dsimp only [Flow.world, Flow.isNext, Flow.locals] at hK hpost ⊢
    obtain ⟨_, hdef, _⟩ := hpost
    have hdef := hdef rfl
    have hK1 := h0.kp_trans hK
    have heq := iblock_protect_eq acc w1
    have hfe := iblock_protect_fileEq acc w1
    by_cases h : w1.fault = false ∧ (w1.iblocks w1.hdr.idx_blk_addr).isSome = true
    · rw [if_pos h] at heq
      rw [heq]
      dsimp only
      generalize hW2 : (H5EA__iblock_protect acc w1).2 = W2 at hfe ⊢
      have hK2 := lookup_in_iblock_keeps idx acc { l1 with iblock := some w1.hdr.idx_blk_addr } W2
        (by rw [hfe.hdr]; exact hK1.geom.hg_good hgood)
        (by rw [hfe.hdr]; exact hdef)
        (by rw [hfe.hdr]; exact (hK1.geom.hg_inRange idx).2 hin) h64
      rw [hfe.hdr] at hK2
      exact (hK1.kp_trans (Keeps.kp_of_fileEq hfe)).kp_trans hK2
    · rw [if_neg h] at heq
      rw [heq]
      exact hK1.kp_trans (Keeps.kp_of_fileEq (hfe.fe_throw _))

/-- A walk for an index of the array keeps a well-formed file well-formed and
keeps the element at every place, whatever its access mode and outcome. -/
theorem lookup_keeps (ea : H5EA_t) (idx acc : Nat) (w : World)
    (hgood : GoodHdr w.hdr) (hin : InRange w.hdr idx) (h64 : idx + 1 < 2 ^ 64) :
    Keeps w (H5EA__lookup_elmt ea idx acc w).2 := by
  unfold H5EA__lookup_elmt
  dsimp only
  exact (lookup_body_keeps ea idx acc w hgood hin h64).kp_trans
    (Keeps.kp_of_fileEq (lookup_catch_fileEq _ _))

/-! ### Writing an element keeps the other elements -/

theorem SameTree.st_IB_dblk_addrs {w w' : World} (h : SameTree w w') :
    w'.IB.dblk_addrs = w.IB.dblk_addrs := by
  show (w'.iblk w'.hdr.idx_blk_addr).dblk_addrs = (w.iblk w.hdr.idx_blk_addr).dblk_addrs
  rw [h.idx_blk_addr, h.dblk_addrs]

theorem SameTree.st_IB_sblk_addrs {w w' : World} (h : SameTree w w') :
    w'.IB.sblk_addrs = w.IB.sblk_addrs := by
  show (w'.iblk w'.hdr.idx_blk_addr).sblk_addrs = (w.iblk w.hdr.idx_blk_addr).sblk_addrs
  rw [h.idx_blk_addr, h.sblk_addrs]

theorem SameTree.st_slot_addr {w w' : World} (h : SameTree w w') (sl : Slot) :
    slot_addr w' sl = slot_addr w sl := by
  cases sl <;> simp [slot_addr, h.st_IB_dblk_addrs, h.st_IB_sblk_addrs, h.st_sblk]

theorem SameTree.st_slot_live {w w' : World} (h : SameTree w w') (sl : Slot) :
    slot_live w' sl ↔ slot_live w sl := by
  cases sl <;> simp [slot_live, h.st_IB_dblk_addrs, h.st_IB_sblk_addrs, h.st_sblk]

theorem SameTree.st_wf {w w' : World} (h : SameTree w w') (hw : WF w) : WF w' := by
  constructor
  · exact h.hdr.hg_good hw.good
  · rw [h.eoa]; exact hw.eoa
  · rw [h.idx_blk_addr, h.iblocks]; exact hw.iblock
  · rw [h.idx_blk_addr, h.st_IB_sblk_addrs, h.sblocks, h.eoa]; exact hw.sblk
  · rw [h.idx_blk_addr, h.st_IB_sblk_addrs]; exact hw.sblk_inj
  · rw [h.idx_blk_addr]
    intro hd sl hl
    rw [h.st_slot_addr, h.dblocks, h.hdr.hg_slot_size, h.eoa]
    exact hw.dblk hd sl ((h.st_slot_live sl).1 hl)
  · rw [h.idx_blk_addr]
    intro hd sl sl' hl hl' hne
    rw [h.st_slot_addr, h.st_slot_addr, h.hdr.hg_slot_size, h.hdr.hg_slot_size]
    exact hw.disjoint hd sl sl' ((h.st_slot_live sl).1 hl) ((h.st_slot_live sl').1 hl') hne
  · rw [h.idx_blk_addr, h.st_IB_sblk_addrs]
    intro hd off di p hsa hdi hp hbit
    rw [h.hdr.sblk_info, h.hdr.iblock_nsblks] at hdi
    rw [h.hdr.hg_npages_of] at hp
    rw [h.st_sblk, h.hdr.hg_page_bit] at hbit
    rw [h.st_sblk, h.dblk_pages, h.hdr.hg_page_addr]
    exact hw.page hd off di p hsa hdi hp hbit

theorem slot_size_pos (hdr : H5EA_hdr_t) (sl : Slot) : 1 ≤ slot_size hdr sl := by
  cases sl with
  | i di => exact le_refl _
  | s off di => exact dblock_size_pos _ _

theorem slot_addr_inj {w : World} (hw : WF w) (hd : H5F_addr_defined w.hdr.idx_blk_addr = true)
    {sl sl' : Slot} (hl : slot_live w sl) (hl' : slot_live w sl')
    (h : slot_addr w sl = slot_addr w sl') : sl = sl' := by
  by_contra hne
  have h1 := slot_size_pos w.hdr sl
  have h2 := slot_size_pos w.hdr sl'
  rcases hw.disjoint hd sl sl' hl hl' hne with h' | h' <;> omega

/-! What the addressing finds at a place of a well-formed file. -/

theorem resolve_at_undef {w : World} (hd : H5F_addr_defined w.hdr.idx_blk_addr = false)
    (q : Place) : resolve_at w q = .absent := by
  cases q <;> simp only [resolve_at, hd, if_true]

theorem resolve_at_direct {w : World} (hw : WF w)
    (hd : H5F_addr_defined w.hdr.idx_blk_addr = true) (k : Nat) :
    resolve_at w (.direct k) = .found ⟨.iblock, w.hdr.idx_blk_addr⟩ k := by
  simp only [resolve_at, hd, hw.iblock hd, if_true, Bool.true_eq_false, if_false]

theorem resolve_at_viaIblock {w : World} (hw : WF w)
    (hd : H5F_addr_defined w.hdr.idx_blk_addr = true) (di k : Nat) :
    resolve_at w (.viaIblock di k) =
      if H5F_addr_defined (slot_addr w (.i di)) = false then .absent
      else .found ⟨.dblock, slot_addr w (.i di)⟩ k := by
  simp only [resolve_at, hd, hw.iblock hd, if_true, Bool.true_eq_false, if_false, slot_addr]
  by_cases hs : H5F_addr_defined (w.IB.dblk_addrs di) = false
  · simp only [hs, if_true]
  · have hs' := Bool.of_not_eq_false hs
    have hb := hw.dblk hd (.i di) hs'
    simp only [slot_addr] at hb
    simp only [hs', Bool.true_eq_false, if_false, hb.1, if_true]

theorem resolve_at_viaSblock {w : World} (hw : WF w)
    (hd : H5F_addr_defined w.hdr.idx_blk_addr = true)
    {off di k : Nat} (hok : PlaceOK w.hdr (.viaSblock off di k)) :
    resolve_at w (.viaSblock off di k) =
      if H5F_addr_defined (w.IB.sblk_addrs off) = false then .absent
      else if H5F_addr_defined (slot_addr w (.s off di)) = false then .absent
      else if npages_of w.hdr off ≠ 0 then
        if (w.sblk (w.IB.sblk_addrs off)).page_init
            (page_bit w.hdr off di (k / w.hdr.dblk_page_nelmts)) = false then .absent
        else .found ⟨.dblk_page, page_addr w.hdr (slot_addr w (.s off di))
          (k / w.hdr.dblk_page_nelmts)⟩ (k % w.hdr.dblk_page_nelmts)
      else .found ⟨.dblock, slot_addr w (.s off di)⟩ k := by
  obtain ⟨hs, hdi, hk⟩ := hok
  simp only [resolve_at, hd, hw.iblock hd, if_true, Bool.true_eq_false, if_false, slot_addr]
  by_cases hsa : H5F_addr_defined (w.IB.sblk_addrs off) = false
  · simp only [hsa, if_true]
  · have hsa' := Bool.of_not_eq_false hsa
    simp only [hsa', Bool.true_eq_false, if_false, (hw.sblk hd off hsa').1, if_true]
    by_cases hsl : H5F_addr_defined ((w.sblk (w.IB.sblk_addrs off)).dblk_addrs di) = false
    · simp only [hsl, if_true]
    · have hsl' := Bool.of_not_eq_false hsl
      simp only [hsl', Bool.true_eq_false, if_false]
      have hb := hw.dblk hd (.s off di) ⟨hsa', hsl'⟩
      simp only [slot_addr] at hb
      unfold resolve_sblock_dblock
      have e1 : (sblock_of w.hdr (w.IB.sblk_addrs off) (off + w.hdr.iblock_nsblks)).dblk_npages
          = npages_of w.hdr off := rfl
      have e2 : (sblock_of w.hdr (w.IB.sblk_addrs off) (off + w.hdr.iblock_nsblks)).addr
          = w.IB.sblk_addrs off := rfl
      have e3 : (sblock_of w.hdr (w.IB.sblk_addrs off) (off + w.hdr.iblock_nsblks)).dblk_page_size
          = H5EA_DBLK_PAGE_SIZE w.hdr := rfl
      rw [e1, e2, e3]
      by_cases hnp : npages_of w.hdr off ≠ 0
      · simp only [if_pos hnp]
        have hpl := page_idx_lt hw.good hk hnp
        have e4 : u64 (di * npages_of w.hdr off + k / w.hdr.dblk_page_nelmts)
            = page_bit w.hdr off di (k / w.hdr.dblk_page_nelmts) := rfl
        have e5 : u64 ((w.sblk (w.IB.sblk_addrs off)).dblk_addrs di + H5EA_DBLOCK_PREFIX_SIZE w.hdr
              + k / w.hdr.dblk_page_nelmts * H5EA_DBLK_PAGE_SIZE w.hdr)
            = page_addr w.hdr ((w.sblk (w.IB.sblk_addrs off)).dblk_addrs di)
                (k / w.hdr.dblk_page_nelmts) := rfl
        rw [e4, e5]
        by_cases hbit : (w.sblk (w.IB.sblk_addrs off)).page_init
            (page_bit w.hdr off di (k / w.hdr.dblk_page_nelmts)) = false
        · simp only [hbit, if_true]
        · have hbit' := Bool.of_not_eq_false hbit
          have hpg := (hw.page hd off di _ hsa' hdi hpl hbit').2
          simp only [hbit', Bool.true_eq_false, if_false, hpg, if_true]
      · simp only [if_neg hnp, hb.1, if_true]

/-- In a well-formed file the addressing never runs into a missing block. -/
theorem resolve_at_not_missing {w : World} (hw : WF w) {q : Place} (hok : PlaceOK w.hdr q) :
    resolve_at w q ≠ .missing := by
  by_cases hd : H5F_addr_defined w.hdr.idx_blk_addr = false
  · rw [resolve_at_undef hd]; intro h; cases h
  · have hd' := Bool.of_not_eq_false hd
    cases q with
    | direct k => rw [resolve_at_direct hw hd']; intro h; cases h
    | viaIblock di k =>
      rw [resolve_at_viaIblock hw hd']
      split <;> (intro h; cases h)
    | viaSblock off di k =>
      rw [resolve_at_viaSblock hw hd' hok]
      split_ifs <;> (intro h; cases h)

theorem resolve_at_present {w : World} (hw : WF w) {q : Place} (hok : PlaceOK w.hdr q)
    {t : Thing} {k : Nat} (h : resolve_at w q = .found t k) :
    w.present t = true ∧ H5F_addr_defined w.hdr.idx_blk_addr = true := by
  by_cases hd : H5F_addr_defined w.hdr.idx_blk_addr = false
  · rw [resolve_at_undef hd] at h; cases h
  · have hd' := Bool.of_not_eq_false hd
    refine ⟨?_, hd'⟩
    cases q with
    | direct k0 =>
      rw [resolve_at_direct hw hd'] at h
      injection h with h1 h2
      subst h1
      exact hw.iblock hd'
    | viaIblock di k0 =>
      rw [resolve_at_viaIblock hw hd'] at h
      by_cases hs : H5F_addr_defined (slot_addr w (.i di)) = false
      · rw [if_pos hs] at h; cases h
      · rw [if_neg hs] at h
        injection h with h1 h2
        subst h1
        exact (hw.dblk hd' (.i di) (Bool.of_not_eq_false hs)).1
    | viaSblock off di k0 =>
      rw [resolve_at_viaSblock hw hd' hok] at h
      by_cases hsa : H5F_addr_defined (w.IB.sblk_addrs off) = false
      · rw [if_pos hsa] at h; cases h
      · rw [if_neg hsa] at h
        by_cases hs : H5F_addr_defined (slot_addr w (.s off di)) = false
        · rw [if_pos hs] at h; cases h
        · rw [if_neg hs] at h
          have hl : slot_live w (.s off di) := ⟨Bool.of_not_eq_false hsa, Bool.of_not_eq_false hs⟩
          by_cases hnp : npages_of w.hdr off ≠ 0
          · rw [if_pos hnp] at h
            by_cases hbit : (w.sblk (w.IB.sblk_addrs off)).page_init
                (page_bit w.hdr off di (k0 / w.hdr.dblk_page_nelmts)) = false
            · rw [if_pos hbit] at h; cases h
            · rw [if_neg hbit] at h
              injection h with h1 h2
              subst h1
              exact (hw.page hd' off di _ (Bool.of_not_eq_false hsa) hok.2.1
                (page_idx_lt hw.good hok.2.2 hnp) (Bool.of_not_eq_false hbit)).2
          · rw [if_neg hnp] at h
            injection h with h1 h2
            subst h1
            exact (hw.dblk hd' _ hl).1

/-! ### Writing an element leaves the elements at the other places -/

theorem write_iblock_other {w : World} (hw : WF w)
    (hd : H5F_addr_defined w.hdr.idx_blk_addr = true) (k0 v : Nat) (q : Place)
    (hq : PlaceOK w.hdr q) (hne : q ≠ .direct k0) :
    cell (elmt_write ⟨.iblock, w.hdr.idx_blk_addr⟩ k0 v w) q = cell w q := by
  have hst := elmt_write_sameTree ⟨.iblock, w.hdr.idx_blk_addr⟩ k0 v w (hw.iblock hd)
  have hW := hst.st_wf hw
  generalize hWe : elmt_write ⟨.iblock, w.hdr.idx_blk_addr⟩ k0 v w = W at hst hW ⊢
  have hhdr : W.hdr = w.hdr := by rw [← hWe]; rfl
  have hdW : H5F_addr_defined W.hdr.idx_blk_addr = true := by rw [hhdr]; exact hd
  have hIBe : W.IB.elmts = Function.update w.IB.elmts k0 v := by
    rw [← hWe]
    show ((Function.update w.iblocks w.hdr.idx_blk_addr _ w.hdr.idx_blk_addr).getD _).elmts = _
    simp [World.IB]
  have hdblk : ∀ a, W.dblk a = w.dblk a := fun a => by rw [← hWe]; rfl
  have hpage : ∀ a, W.page a = w.page a := fun a => by rw [← hWe]; rfl
  cases q with
  | direct k =>
    have : k ≠ k0 := fun h => hne (by rw [h])
    rw [cell_direct hW hdW, cell_direct hw hd, hIBe]
    simp [Function.update, this]
  | viaIblock di k =>
    rw [cell_viaIblock hW hdW, cell_viaIblock hw hd, hst.st_IB_dblk_addrs, hhdr, hdblk]
  | viaSblock off di k =>
    rw [cell_viaSblock hW hdW (by rw [hhdr]; exact hq), cell_viaSblock hw hd hq,
      hst.st_IB_sblk_addrs, hst.st_slot_addr, hst.st_sblk, hhdr, hdblk, hpage]

theorem write_dblock_other {w : World} (hw : WF w)
    (hd : H5F_addr_defined w.hdr.idx_blk_addr = true) (sl : Slot) (hl : slot_live w sl)
    (k0 v : Nat) (q : Place) (hq : PlaceOK w.hdr q)
    (hne1 : ∀ di, sl = .i di → q ≠ .viaIblock di k0)
    (hne2 : ∀ off di, sl = .s off di → q ≠ .viaSblock off di k0) :
    cell (elmt_write ⟨.dblock, slot_addr w sl⟩ k0 v w) q = cell w q := by
  have hst := elmt_write_sameTree ⟨.dblock, slot_addr w sl⟩ k0 v w (hw.dblk hd sl hl).1
  have hW := hst.st_wf hw
  generalize hWe : elmt_write ⟨.dblock, slot_addr w sl⟩ k0 v w = W at hst hW ⊢
  have hhdr : W.hdr = w.hdr := by rw [← hWe]; rfl
  have hdW : H5F_addr_defined W.hdr.idx_blk_addr = true := by rw [hhdr]; exact hd
  have hIB : W.IB = w.IB := by rw [← hWe]; rfl
  have hpage : ∀ a, W.page a = w.page a := fun a => by rw [← hWe]; rfl
  have hdblk : ∀ a k, (a, k) ≠ (slot_addr w sl, k0) → (W.dblk a).elmts k = (w.dblk a).elmts k := by
    intro a k hak
    rw [← hWe]
    show ((Function.update w.dblocks (slot_addr w sl) _ a).getD _).elmts k = _
    by_cases ha : a = slot_addr w sl
    · subst ha
      have : k ≠ k0 := fun h => hak (by rw [h])
      simp [Function.update, this, World.dblk]
    · simp [Function.update, ha, World.dblk]
  cases q with
  | direct k => rw [cell_direct hW hdW, cell_direct hw hd, hIB]
  | viaIblock di k =>
    rw [cell_viaIblock hW hdW, cell_viaIblock hw hd, hIB, hhdr]
    by_cases hs : H5F_addr_defined (w.IB.dblk_addrs di) = false
    · simp only [hs, if_true]
    · simp only [hs, if_false]
      rw [hdblk]
      intro he
      injection he with h1 h2
      have hl' : slot_live w (.i di) := Bool.of_not_eq_false hs
      have := slot_addr_inj hw hd hl' hl h1
      exact hne1 di this.symm (by rw [h2])
  | viaSblock off di k =>
    rw [cell_viaSblock hW hdW (by rw [hhdr]; exact hq), cell_viaSblock hw hd hq,
      hst.st_IB_sblk_addrs, hst.st_slot_addr, hst.st_sblk, hhdr]
    by_cases hsa : H5F_addr_defined (w.IB.sblk_addrs off) = false
    · simp only [hsa, if_true]
    · simp only [hsa, if_false]
      by_cases hs : H5F_addr_defined (slot_addr w (.s off di)) = false
      · simp only [hs, if_true]
      · simp only [hs, if_false, hpage]
        by_cases hnp : npages_of w.hdr off ≠ 0
        · simp only [if_pos hnp]
        · simp only [if_neg hnp]
          rw [hdblk]
          intro he
          injection he with h1 h2
          have hl' : slot_live w (.s off di) :=
            ⟨Bool.of_not_eq_false hsa, Bool.of_not_eq_false hs⟩
          have := slot_addr_inj hw hd hl' hl h1
          exact hne2 off di this.symm (by rw [h2])

theorem write_page_other {w : World} (hw : WF w)
    (hd : H5F_addr_defined w.hdr.idx_blk_addr = true) (off di p0 k0 v : Nat)
    (hl : slot_live w (.s off di)) (hp0 : p0 < npages_of w.hdr off)
    (hpres : (w.dblk_pages (page_addr w.hdr (slot_addr w (.s off di)) p0)).isSome = true)
    (q : Place) (hq : PlaceOK w.hdr q)
    (hne : ∀ k, q = .viaSblock off di k →
      ¬ (k / w.hdr.dblk_page_nelmts = p0 ∧ k % w.hdr.dblk_page_nelmts = k0)) :
    cell (elmt_write ⟨.dblk_page, page_addr w.hdr (slot_addr w (.s off di)) p0⟩ k0 v w) q
      = cell w q := by
  have hst := elmt_write_sameTree ⟨.dblk_page, page_addr w.hdr (slot_addr w (.s off di)) p0⟩
    k0 v w hpres
  have hW := hst.st_wf hw
  generalize hWe : elmt_write ⟨.dblk_page, page_addr w.hdr (slot_addr w (.s off di)) p0⟩
    k0 v w = W at hst hW ⊢
  have hhdr : W.hdr = w.hdr := by rw [← hWe]; rfl
  have hdW : H5F_addr_defined W.hdr.idx_blk_addr = true := by rw [hhdr]; exact hd
  have hIB : W.IB = w.IB := by rw [← hWe]; rfl
  have hdblk : ∀ a, W.dblk a = w.dblk a := fun a => by rw [← hWe]; rfl
  have hpage : ∀ a k, (a, k) ≠ (page_addr w.hdr (slot_addr w (.s off di)) p0, k0) →
      (W.page a).elmts k = (w.page a).elmts k := by
    intro a k hak
    rw [← hWe]
    show ((Function.update w.dblk_pages (page_addr w.hdr (slot_addr w (.s off di)) p0) _ a).getD
      _).elmts k = _
    by_cases ha : a = page_addr w.hdr (slot_addr w (.s off di)) p0
    · subst ha
      have : k ≠ k0 := fun h => hak (by rw [h])
      simp [Function.update, this, World.page]
    · simp [Function.update, ha, World.page]
  cases q with
  | direct k => rw [cell_direct hW hdW, cell_direct hw hd, hIB]
  | viaIblock di' k =>
    rw [cell_viaIblock hW hdW, cell_viaIblock hw hd, hIB, hhdr, hdblk]
  | viaSblock off' di' k =>
    rw [cell_viaSblock hW hdW (by rw [hhdr]; exact hq), cell_viaSblock hw hd hq,
      hst.st_IB_sblk_addrs, hst.st_slot_addr, hst.st_sblk, hhdr]
    by_cases hsa : H5F_addr_defined (w.IB.sblk_addrs off') = false
    · simp only [hsa, if_true]
    · simp only [hsa, if_false]
      by_cases hs : H5F_addr_defined (slot_addr w (.s off' di')) = false
      · simp only [hs, if_true]
      · simp only [hs, if_false, hdblk]
        by_cases hnp : npages_of w.hdr off' ≠ 0
        · simp only [if_pos hnp]
          by_cases hbit : (w.sblk (w.IB.sblk_addrs off')).page_init
              (page_bit w.hdr off' di' (k / w.hdr.dblk_page_nelmts)) = false
          · simp only [hbit, if_true]
          · simp only [hbit, if_false]
            rw [hpage]
            intro he
            injection he with h1 h2
            have hl' : slot_live w (.s off' di') :=
              ⟨Bool.of_not_eq_false hsa, Bool.of_not_eq_false hs⟩
            obtain ⟨e1, e2, e3⟩ := page_addr_inj hw hd hl' hl
              (page_idx_lt hw.good hq.2.2 hnp) hp0 h1
            subst e1; subst e2
            exact hne k rfl ⟨e3, h2⟩
        · simp only [if_neg hnp]

/-- Writing the element the addressing finds at a place of a well-formed file
leaves the file well-formed and the elements at the other places as they
are. -/
theorem write_other {w : World} (hw : WF w) {p : Place} (hp : PlaceOK w.hdr p) {t : Thing}
    {k : Nat} (hres : resolve_at w p = .found t k) (v : Nat) :
    WF (elmt_write t k v w) ∧
    ∀ q, PlaceOK w.hdr q → q ≠ p → cell (elmt_write t k v w) q = cell w q := by
  obtain ⟨hpres, hd⟩ := resolve_at_present hw hp hres
  refine ⟨(elmt_write_sameTree t k v w hpres).st_wf hw, ?_⟩
  intro q hq hne
  cases p with
  | direct k0 =>
    rw [resolve_at_direct hw hd] at hres
    injection hres with h1 h2
    subst h1; subst h2
    exact write_iblock_other hw hd _ v q hq hne
  | viaIblock di k0 =>
    rw [resolve_at_viaIblock hw hd] at hres
    by_cases hs : H5F_addr_defined (slot_addr w (.i di)) = false
    · rw [if_pos hs] at hres; cases hres
    · rw [if_neg hs] at hres
      injection hres with h1 h2
      subst h1; subst h2
      refine write_dblock_other hw hd (.i di) (Bool.of_not_eq_false hs) _ v q hq ?_ ?_
      · intro di' he
        injection he with he
        subst he
        exact hne
      · intro off di' he
        cases he
  | viaSblock off di k0 =>
    rw [resolve_at_viaSblock hw hd hp] at hres
    by_cases hsa : H5F_addr_defined (w.IB.sblk_addrs off) = false
    · rw [if_pos hsa] at hres; cases hres
    · rw [if_neg hsa] at hres
      by_cases hs : H5F_addr_defined (slot_addr w (.s off di)) = false
      · rw [if_pos hs] at hres; cases hres
      · rw [if_neg hs] at hres
        have hl : slot_live w (.s off di) := ⟨Bool.of_not_eq_false hsa, Bool.of_not_eq_false hs⟩
        by_cases hnp : npages_of w.hdr off ≠ 0
        · rw [if_pos hnp] at hres
          by_cases hbit : (w.sblk (w.IB.sblk_addrs off)).page_init
              (page_bit w.hdr off di (k0 / w.hdr.dblk_page_nelmts)) = false
          · rw [if_pos hbit] at hres; cases hres
          · rw [if_neg hbit] at hres
            injection hres with h1 h2
            subst h1; subst h2
            have hpl := page_idx_lt hw.good hp.2.2 hnp
            refine write_page_other hw hd off di _ _ v hl hpl hpres q hq ?_
            intro k' he hk'
            apply hne
            rw [he]
            have := div_mod_inj hk'.1 hk'.2
            rw [this]
        · rw [if_neg hnp] at hres
          injection hres with h1 h2
          subst h1; subst h2
          refine write_dblock_other hw hd (.s off di) hl _ v q hq ?_ ?_
          · intro di' he
            cases he
          · intro off' di' he
            injection he with e1 e2
            subst e1; subst e2
            exact hne

/-! ### What a set does to a well-formed file -/

theorem cell_of_resolve {w : World} {idx : Nat} {t : Thing} {i : Nat}
    (h : resolve w idx = .found t i) : cell w (place w.hdr idx) = some (elmt_read t i w) := by
  unfold cell
  rw [← resolve_eq, h]

/-- A set at an index of the array keeps a well-formed file well-formed and
leaves the element at every other place as it is, whatever its outcome. -/
theorem set_frame (ea : H5EA_t) (idx v : Nat) (w : World) (hw : WF w)
    (hin : InRange w.hdr idx) (h64 : idx + 1 < 2 ^ 64) :
    WF (H5EA_set ea idx v w).2 ∧ HdrGeom w.hdr (H5EA_set ea idx v w).2.hdr ∧
    (H5F_addr_defined w.hdr.idx_blk_addr = true →
      (H5EA_set ea idx v w).2.hdr.idx_blk_addr = w.hdr.idx_blk_addr) ∧
    ∀ q, PlaceOK w.hdr q → q ≠ place w.hdr idx → cell (H5EA_set ea idx v w).2 q = cell w q := by
  have hrw : H5AC__NO_FLAGS_SET &&& H5AC__READ_ONLY_FLAG = 0 := by decide
  have h0 := set_f_sameStore w ea.f
  have hf := lookup_found hrw ea idx { w with hdr := { w.hdr with f := ea.f } }
  have hout := lookup_outstanding ea idx H5AC__NO_FLAGS_SET
    { w with hdr := { w.hdr with f := ea.f } }
  have hK := lookup_keeps ea idx H5AC__NO_FLAGS_SET { w with hdr := { w.hdr with f := ea.f } }
    (h0.hdr.hg_good hw.good) ((h0.hdr.hg_inRange idx).2 hin) h64
  have hK := h0.ss_keeps.kp_trans hK
  unfold H5EA_set
  dsimp only
  revert hf hout hK
  generalize H5EA__lookup_elmt ea idx H5AC__NO_FLAGS_SET
    { w with hdr := { w.hdr with f := ea.f } } = r
  intro hf hout hK
  by_cases hr : r.1.ret_value < 0
  · rw [if_pos hr]
    have hfe := release_thing_fileEq r.1 H5AC__NO_FLAGS_SET FAIL (r.2.throw .CANTPROTECT)
    have hK2 := hK.kp_trans (Keeps.kp_of_fileEq ((FileEq.fe_refl r.2).fe_throw .CANTPROTECT))
    have hK3 := hK2.kp_trans (Keeps.kp_of_fileEq hfe)
    exact ⟨hK3.wf hw, hK3.geom, hK3.iba, fun q hq _ => hK3.cell hw q hq⟩
  · rw [if_neg hr]
    obtain ⟨hres, hth⟩ := hf.2 (not_lt.1 hr)
    obtain ⟨t, ht⟩ := Option.ne_none_iff_exists'.1 hth
    obtain ⟨evs, -, -, -, hbuf⟩ := hout
    have hbuf := (hbuf t ht).2.1
    have hfound : resolve r.2 idx = .found t r.1.thing_elmt_idx := by
      rw [hres]; simp [LookupOut.resolved, hr, ht]
    have hfe := release_thing_fileEq r.1 (H5AC__NO_FLAGS_SET ||| H5AC__DIRTIED_FLAG)
      (set_store idx v r.1 r.2).1 (set_store idx v r.1 r.2).2
    have hcopy : set_copy v r.1 r.2 = elmt_write t r.1.thing_elmt_idx v (sanity_checks r.1 r.2) := by
      unfold set_copy; rw [hbuf]
    have hsan : FileEq r.2 (sanity_checks r.1 r.2) :=
      (((FileEq.fe_refl r.2).fe_HDassert _).fe_HDassert _).fe_HDassert _
    have hmax := set_max_idx_store idx (set_copy v r.1 r.2)
    have hst : SameStore (set_copy v r.1 r.2)
        (release_thing r.1 (H5AC__NO_FLAGS_SET ||| H5AC__DIRTIED_FLAG)
          (set_store idx v r.1 r.2).1 (set_store idx v r.1 r.2).2).2 :=
      hmax.1.ss_trans (SameStore.ss_of_fileEq hfe)
    have hK1 := hK.kp_trans (Keeps.kp_of_fileEq hsan)
    generalize hW1 : sanity_checks r.1 r.2 = W1 at hcopy hsan hK1
    have hW1wf := hK1.wf hw
    have hfound1 : resolve_at W1 (place W1.hdr idx) = .found t r.1.thing_elmt_idx := by
      rw [← resolve_eq, hsan.fe_resolve, hfound]
    have hok1 : PlaceOK W1.hdr (place W1.hdr idx) :=
      place_ok hW1wf.good ((hK1.geom.hg_inRange idx).2 hin) h64
    obtain ⟨hwf2, hcell2⟩ := write_other hW1wf hok1 hfound1 v
    rw [← hcopy] at hwf2 hcell2
    have hgeom2 : HdrGeom W1.hdr (set_copy v r.1 r.2).hdr := by
      rw [hcopy]
      exact (elmt_write_sameTree t _ v W1
        (resolve_at_present hW1wf hok1 hfound1).1).hdr
    have hiba2 : (set_copy v r.1 r.2).hdr.idx_blk_addr = W1.hdr.idx_blk_addr := by
      rw [hcopy]
      exact (elmt_write_sameTree t _ v W1
        (resolve_at_present hW1wf hok1 hfound1).1).idx_blk_addr
    refine ⟨hst.ss_wf hwf2, (hK1.geom.hg_trans hgeom2).hg_trans hst.hdr, ?_, ?_⟩
    · intro hd
      rw [hst.idx_blk_addr, hiba2, hK1.iba hd]
    · intro q hq hne
      rw [hst.ss_cell, hcell2 q ((hK1.geom.hg_placeOK q).2 hq)
        (by rw [hK1.geom.hg_place]; exact hne), hK1.cell hw q hq]

/-- After a successful set the element at the place of the index is the value
written. -/
theorem set_cell (ea : H5EA_t) (idx v : Nat) (w : World) (hg : HdrGeom w.hdr (H5EA_set ea idx v w).2.hdr)
    (hs : 0 ≤ (H5EA_set ea idx v w).1) :
    cell (H5EA_set ea idx v w).2 (place w.hdr idx) = some v := by
  obtain ⟨⟨t, i, hres, hrd⟩, _⟩ := set_success ea idx v w hs
  rw [← hg.hg_place, cell_of_resolve hres, hrd]

/-! ### New arrays, and what a get returns from a well-formed file -/

/-- A new array is well-formed when its creation parameters are good and the
allocated space ends at a defined address. -/
theorem wf_init (cparam : H5EA_create_t) (addr eoa : Nat) (faults : Nat → Bool)
    (hgood : GoodHdr (hdr_init cparam addr)) (heoa : eoa ≤ HADDR_UNDEF) :
    WF (World.init cparam addr eoa faults) := by
  have hu : H5F_addr_defined (World.init cparam addr eoa faults).hdr.idx_blk_addr = false :=
    undef_not_defined
  constructor
  · exact hgood
  · exact heoa
  all_goals
    intro hd
    rw [hu] at hd
    exact absurd hd (by decide)

/-- A get leaves the blocks, the geometry, the statistics and the fault
schedule as they are. -/
theorem get_frame (ea : H5EA_t) (idx : Nat) (w : World) :
    SameStore w (H5EA_get ea idx w).2.2 ∧ (H5EA_get ea idx w).2.2.faults = w.faults ∧
    w.clock ≤ (H5EA_get ea idx w).2.2.clock ∧
    (H5EA_get ea idx w).2.2.hdr.stats = w.hdr.stats := by
  have hfill : ∀ w0 : World, FileEq w0 (get_fill w0).2.2 := by
    intro w0
    unfold get_fill cls_fill
    dsimp only
    by_cases hf : w0.fault = true
    · simp only [hf, if_true]
      rw [if_pos (by decide)]
      constructor <;> simp
    · simp only [hf, if_false]
      rw [if_neg (by decide)]
      constructor <;> simp
  have key : ∀ w0 W : World, SameStore w w0 → w0.faults = w.faults → w.clock ≤ w0.clock →
      w0.hdr.stats = w.hdr.stats → FileEq w0 W →
      SameStore w W ∧ W.faults = w.faults ∧ w.clock ≤ W.clock ∧ W.hdr.stats = w.hdr.stats := by
    intro w0 W h1 h2 h3 h4 hfe
    refine ⟨h1.ss_trans (SameStore.ss_of_fileEq hfe), by rw [hfe.faults, h2],
      le_trans h3 hfe.clock, by rw [hfe.hdr, h4]⟩
  unfold H5EA_get
  by_cases hmax : idx ≥ w.hdr.stats.max_idx_set
  · rw [if_pos hmax]
    exact key w _ (SameStore.ss_refl w) rfl (le_refl _) rfl (hfill w)
  · rw [if_neg hmax]
    dsimp only
    have hro := lookup_ro_fileEq ea idx { w with hdr := { w.hdr with f := ea.f } }
    revert hro
    generalize H5EA__lookup_elmt ea idx H5AC__READ_ONLY_FLAG
      { w with hdr := { w.hdr with f := ea.f } } = r
    intro hro
    have k0 := key { w with hdr := { w.hdr with f := ea.f } }
    by_cases hneg : r.1.ret_value < 0
    · rw [if_pos hneg]
      dsimp only
      exact k0 _ (set_f_sameStore w ea.f) rfl (le_refl _) rfl
        ((hro.fe_throw .CANTPROTECT).fe_trans (release_thing_fileEq _ _ _ _))
    · rw [if_neg hneg]
      cases hth : r.1.thing with
      | none =>
        dsimp only
        exact k0 _ (set_f_sameStore w ea.f) rfl (le_refl _) rfl (hro.fe_trans (hfill _))
      | some t =>
        dsimp only
        exact k0 _ (set_f_sameStore w ea.f) rfl (le_refl _) rfl
          (hro.fe_trans (release_thing_fileEq _ _ _ _))

theorem quiet_later {w w' : World} (hf : w'.faults = w.faults) (hc : w.clock ≤ w'.clock)
    (hq : w.quiet) : w'.quiet := by
  intro n hn
  rw [hf]
  exact hq n (le_trans hc hn)

/-- In a well-formed file in which no call fails, a get of an index of the array
succeeds and returns the element at the place of the index, or the fill value
when the index is not below the maximum index set. -/
theorem get_cell (ea : H5EA_t) (idx : Nat) (w : World) (hw : WF w) (hq : w.quiet)
    (hin : InRange w.hdr idx) (h64 : idx + 1 < 2 ^ 64) :
    (H5EA_get ea idx w).1 = SUCCEED ∧
    (H5EA_get ea idx w).2.1 =
      if idx < w.hdr.stats.max_idx_set then cell w (place w.hdr idx)
      else some w.hdr.cparam.cls.fill := by
  by_cases hmax : idx < w.hdr.stats.max_idx_set
  · rw [if_pos hmax]
    have hok := place_ok hw.good hin h64
    have hnm := resolve_at_not_missing hw hok
    unfold cell
    cases hres : resolve_at w (place w.hdr idx) with
    | missing => exact absurd hres hnm
    | absent =>
      exact get_absent ea idx w hq (Or.inr (by rw [resolve_eq]; exact hres))
    | found t i =>
      exact get_found ea idx w t i hq hmax (by rw [resolve_eq]; exact hres)
  · rw [if_neg hmax]
    exact get_absent ea idx w hq (Or.inl (not_lt.1 hmax))

/-- The maximum index set stays a 64-bit value through a set. -/
theorem set_max_lt (ea : H5EA_t) (idx v : Nat) (w : World)
    (hm : w.hdr.stats.max_idx_set < 2 ^ 64) :
    (H5EA_set ea idx v w).2.hdr.stats.max_idx_set < 2 ^ 64 := by
  have hrw : H5AC__NO_FLAGS_SET &&& H5AC__READ_ONLY_FLAG = 0 := by decide
  have hf := (lookup_found hrw ea idx { w with hdr := { w.hdr with f := ea.f } }).1
  unfold H5EA_set
  dsimp only
  revert hf
  generalize H5EA__lookup_elmt ea idx H5AC__NO_FLAGS_SET
    { w with hdr := { w.hdr with f := ea.f } } = r
  intro hf
  have hr2 : r.2.hdr.stats.max_idx_set = w.hdr.stats.max_idx_set := hf.max_idx_set
  by_cases hr : r.1.ret_value < 0
  · rw [if_pos hr]
    have hfe := release_thing_fileEq r.1 H5AC__NO_FLAGS_SET FAIL (r.2.throw .CANTPROTECT)
    rw [hfe.hdr]
    show r.2.hdr.stats.max_idx_set < _
    rw [hr2]; exact hm
  · rw [if_neg hr]
    have hfe := release_thing_fileEq r.1 (H5AC__NO_FLAGS_SET ||| H5AC__DIRTIED_FLAG)
      (set_store idx v r.1 r.2).1 (set_store idx v r.1 r.2).2
    rw [hfe.hdr]
    unfold set_store
    rw [(set_max_idx_store idx (set_copy v r.1 r.2)).2]
    have hc : (set_copy v r.1 r.2).hdr = r.2.hdr := by
      unfold set_copy
      cases r.1.thing_elmt_buf with
      | none => rfl
      | some buf =>
        dsimp only
        unfold elmt_write
        split <;> rfl
    rw [hc, hr2]
    split
    · exact Nat.mod_lt _ (by decide)
    · exact hm

/-! ### Distinct places hold distinct elements; histories -/

theorem SameTree.st_resolve_at {w w' : World} (h : SameTree w w') (q : Place) :
    resolve_at w' q = resolve_at w q := by
  cases q <;>
    simp only [resolve_at, resolve_sblock_dblock, h.idx_blk_addr, h.iblocks, h.st_IB_dblk_addrs,
      h.st_IB_sblk_addrs, h.sblocks, h.st_sblk, h.dblocks, h.dblk_pages, h.hdr.hg_sblock_of,
      h.hdr.iblock_nsblks, h.hdr.dblk_page_nelmts, h.hdr.hg_prefix_size]

theorem resolve_at_hasElmts {w : World} (hw : WF w) {q : Place} (hok : PlaceOK w.hdr q)
    {t : Thing} {k : Nat} (h : resolve_at w q = .found t k) : t.hasElmts = true := by
  by_cases hd : H5F_addr_defined w.hdr.idx_blk_addr = false
  · rw [resolve_at_undef hd] at h; cases h
  · have hd' := Bool.of_not_eq_false hd
    cases q with
    | direct k0 =>
      rw [resolve_at_direct hw hd'] at h
      injection h with h1 h2
      subst h1
      rfl
    | viaIblock di k0 =>
      rw [resolve_at_viaIblock hw hd'] at h
      by_cases hs : H5F_addr_defined (slot_addr w (.i di)) = false
      · rw [if_pos hs] at h; cases h
      · rw [if_neg hs] at h
        injection h with h1 h2
        subst h1
        rfl
    | viaSblock off di k0 =>
      rw [resolve_at_viaSblock hw hd' hok] at h
      by_cases hsa : H5F_addr_defined (w.IB.sblk_addrs off) = false
      · rw [if_pos hsa] at h; cases h
      · rw [if_neg hsa] at h
        by_cases hs : H5F_addr_defined (slot_addr w (.s off di)) = false
        · rw [if_pos hs] at h; cases h
        · rw [if_neg hs] at h
          by_cases hnp : npages_of w.hdr off ≠ 0
          · rw [if_pos hnp] at h
            by_cases hbit : (w.sblk (w.IB.sblk_addrs off)).page_init
                (page_bit w.hdr off di (k0 / w.hdr.dblk_page_nelmts)) = false
            · rw [if_pos hbit] at h; cases h
            · rw [if_neg hbit] at h
              injection h with h1 h2
              subst h1
              rfl
          · rw [if_neg hnp] at h
            injection h with h1 h2
            subst h1
            rfl

/-- In a well-formed file the addressing maps distinct places to distinct
(block, position) pairs. -/
theorem resolve_at_inj {w : World} (hw : WF w) {p q : Place} (hp : PlaceOK w.hdr p)
    (hq : PlaceOK w.hdr q) (hne : q ≠ p) {t : Thing} {k : Nat}
    (h1 : resolve_at w p = .found t k) : resolve_at w q ≠ .found t k := by
  intro h2
  obtain ⟨hpres, _⟩ := resolve_at_present hw hp h1
  have hst := elmt_write_sameTree t k (elmt_read t k w + 1) w hpres
  have hother := (write_other hw hp h1 (elmt_read t k w + 1)).2 q hq hne
  have hel := resolve_at_hasElmts hw hp h1
  unfold cell at hother
  rw [hst.st_resolve_at, h2] at hother
  simp only [Option.some.injEq] at hother
  rw [elmt_read_write t k _ w hel] at hother
  omega

theorem Op.run_set (ea : H5EA_t) (w : World) (j v : Nat) :
    Op.run ea w (.set j v) = (H5EA_set ea j v w).2 := rfl

theorem Op.run_get (ea : H5EA_t) (w : World) (j : Nat) :
    Op.run ea w (.get j) = (H5EA_get ea j w).2.2 := rfl

/-- An operation that spares the index `idx` keeps the file well-formed, the
geometry, a 64-bit maximum index set and the element at the place of `idx`. -/
theorem run_spares (ea : H5EA_t) (idx : Nat) (op : Op) (w : World) (hw : WF w)
    (hm : w.hdr.stats.max_idx_set < 2 ^ 64) (hin : InRange w.hdr idx)
    (hop : op.spares w.hdr idx) :
    WF (op.run ea w) ∧ HdrGeom w.hdr (op.run ea w).hdr ∧
    (op.run ea w).hdr.stats.max_idx_set < 2 ^ 64 ∧
    (idx + 1 < 2 ^ 64 → cell (op.run ea w) (place w.hdr idx) = cell w (place w.hdr idx)) := by
  cases op with
  | set j v =>
    obtain ⟨hne, hj, hj64⟩ := hop
    obtain ⟨h1, h2, _, h4⟩ := set_frame ea j v w hw hj hj64
    refine ⟨h1, h2, set_max_lt ea j v w hm, fun h64 => ?_⟩
    exact h4 _ (place_ok hw.good hin h64)
      (fun he => hne (place_inj hw.good hin hj h64 hj64 he).symm)
  | get j =>
    obtain ⟨h1, _, _, h4⟩ := get_frame ea j w
    refine ⟨h1.ss_wf hw, h1.hdr, ?_, fun _ => h1.ss_cell _⟩
    show (H5EA_get ea j w).2.2.hdr.stats.max_idx_set < _
    rw [h4]; exact hm

theorem run_ops_spares (ea : H5EA_t) (idx : Nat) (ops : List Op) (w : World) (hw : WF w)
    (hm : w.hdr.stats.max_idx_set < 2 ^ 64) (hin : InRange w.hdr idx)
    (hops : ∀ op ∈ ops, op.spares w.hdr idx) :
    WF (run_ops ea ops w) ∧ HdrGeom w.hdr (run_ops ea ops w).hdr ∧
    (run_ops ea ops w).hdr.stats.max_idx_set < 2 ^ 64 ∧
    (idx + 1 < 2 ^ 64 → cell (run_ops ea ops w) (place w.hdr idx) = cell w (place w.hdr idx)) := by
  induction ops generalizing w with
  | nil => exact ⟨hw, HdrGeom.hg_refl _, hm, fun _ => rfl⟩
  | cons op ops ih =>
    obtain ⟨h1, h2, h3, h4⟩ := run_spares ea idx op w hw hm hin (hops op (List.mem_cons_self _ _))
    have hops' : ∀ o ∈ ops, o.spares (op.run ea w).hdr idx := by
      intro o ho
      have := hops o (List.mem_cons_of_mem _ ho)
      cases o with
      | set j v => exact ⟨this.1, (h2.hg_inRange j).2 this.2.1, this.2.2⟩
      | get j => trivial
    obtain ⟨i1, i2, i3, i4⟩ := ih (op.run ea w) h1 h3 ((h2.hg_inRange idx).2 hin) hops'
    refine ⟨i1, h2.hg_trans i2, i3, fun h64 => ?_⟩
    have := i4 h64
    rw [h2.hg_place] at this
    show cell (run_ops ea ops (op.run ea w)) _ = _
    rw [this, h4 h64]

/-- A history of operations on indices of the array keeps the file well-formed
and the geometry. -/
theorem run_ops_valid (ea : H5EA_t) (ops : List Op) (w : World) (hw : WF w)
    (hops : ∀ op ∈ ops, op.valid w.hdr) :
    WF (run_ops ea ops w) ∧ HdrGeom w.hdr (run_ops ea ops w).hdr := by
  induction ops generalizing w with
  | nil => exact ⟨hw, HdrGeom.hg_refl _⟩
  | cons op ops ih =>
    have hop := hops op (List.mem_cons_self _ _)
    have h1 : WF (op.run ea w) ∧ HdrGeom w.hdr (op.run ea w).hdr := by
      cases op with
      | set j v =>
        obtain ⟨a, b, _, _⟩ := set_frame ea j v w hw hop.1 hop.2
        exact ⟨a, b⟩
      | get j =>
        obtain ⟨a, _, _, _⟩ := get_frame ea j w
        exact ⟨a.ss_wf hw, a.hdr⟩
    have hops' : ∀ o ∈ ops, o.valid (op.run ea w).hdr := by
      intro o ho
      have := hops o (List.mem_cons_of_mem _ ho)
      cases o with
      | set j v => exact ⟨(h1.2.hg_inRange j).2 this.1, this.2⟩
      | get j => trivial
    obtain ⟨i1, i2⟩ := ih (op.run ea w) h1.1 hops'
    exact ⟨i1, h1.2.hg_trans i2⟩

theorem quiet_of_const (w : World) (h : w.faults = fun _ => false) : w.quiet := by
  intro n _; rw [h]

/-- C3 (amended): for every index `idx` with `idx + 1 < 2^64`, a successful
`H5EA_set(idx, v)` leaves `stats.stored.max_idx_set` equal to the maximum of its
old value and `idx + 1`, and `H5EA_get_nelmts` then returns exactly that
value. -/
theorem set_updates_max_idx_set (ea : H5EA_t) (idx v : Nat) (w : World) (hidx : idx + 1 < 2 ^ 64)
    (hs : 0 ≤ (H5EA_set ea idx v w).1) :
    (H5EA_set ea idx v w).2.hdr.stats.max_idx_set = max w.hdr.stats.max_idx_set (idx + 1) ∧
    H5EA_get_nelmts ea (H5EA_set ea idx v w).2 =
      (SUCCEED, max w.hdr.stats.max_idx_set (idx + 1)) := by
  have h := (set_success ea idx v w hs).2
  have hu : u64 (idx + 1) = idx + 1 := Nat.mod_eq_of_lt hidx
  rw [hu] at h
  have h' : (H5EA_set ea idx v w).2.hdr.stats.max_idx_set
      = max w.hdr.stats.max_idx_set (idx + 1) := by
    rw [h]
    split
    · rw [max_eq_right]; omega
    · rw [max_eq_left]; omega
  exact ⟨h', by unfold H5EA_get_nelmts; rw [h']⟩

theorem set_updates_max_idx_set_witness :
    (10 + 1 < 2 ^ 64 ∧ 0 ≤ (H5EA_set handle100 10 187 (H5EA_set handle100 0 170 smallWorld).2).1) ∧
    (H5EA_set handle100 0 170 smallWorld).2.hdr.stats.max_idx_set = 1 ∧
    H5EA_get_nelmts handle100
      (H5EA_set handle100 10 187 (H5EA_set handle100 0 170 smallWorld).2).2 = (SUCCEED, 11) :=
  ⟨⟨by decide, by decide⟩, by decide,
    (set_updates_max_idx_set handle100 10 187 (H5EA_set handle100 0 170 smallWorld).2
      (by decide) (by decide)).2.trans (by decide)⟩

theorem last_index_max_idx_set_wraps :
    0 ≤ (H5EA_set handle100 (2 ^ 64 - 1) 5 wideWorld).1 ∧
    (H5EA_set handle100 (2 ^ 64 - 1) 5 wideWorld).2.hdr.stats.max_idx_set = 0 ∧
    (H5EA_set handle100 (2 ^ 64 - 1) 5 wideWorld).2.hdr.stats.max_idx_set ≠
      max wideWorld.hdr.stats.max_idx_set (2 ^ 64 - 1 + 1) := by
  decide

/-- C1 (amended): if `H5EA_set(ea, idx, v)` succeeds, `idx + 1 < 2^64` and no
collaborator call fails during the `H5EA_get(ea, idx)` that follows, that get
succeeds and returns `v`. -/
theorem set_then_get (ea : H5EA_t) (idx v : Nat) (w : World) (hidx : idx + 1 < 2 ^ 64)
    (hs : 0 ≤ (H5EA_set ea idx v w).1) (hq : (H5EA_set ea idx v w).2.quiet) :
    (H5EA_get ea idx (H5EA_set ea idx v w).2).1 = SUCCEED ∧
    (H5EA_get ea idx (H5EA_set ea idx v w).2).2.1 = some v := by
  obtain ⟨⟨t, i, hres, hrd⟩, hmax⟩ := set_success ea idx v w hs
  have hu : u64 (idx + 1) = idx + 1 := Nat.mod_eq_of_lt hidx
  rw [hu] at hmax
  have hlt : idx < (H5EA_set ea idx v w).2.hdr.stats.max_idx_set := by
    rw [hmax]; split <;> omega
  have := get_found ea idx _ t i hq hlt hres
  rw [hrd] at this
  exact this

theorem set_then_get_witness :
    (10 + 1 < 2 ^ 64 ∧ 0 ≤ (H5EA_set handle100 10 187 smallWorld).1 ∧
      (H5EA_set handle100 10 187 smallWorld).2.quiet) ∧
    (H5EA_get handle100 10 (H5EA_set handle100 10 187 smallWorld).2).1 = SUCCEED ∧
    (H5EA_get handle100 10 (H5EA_set handle100 10 187 smallWorld).2).2.1 = some 187 :=
  ⟨⟨by decide, by decide, quiet_of_const _ rfl⟩,
    set_then_get handle100 10 187 smallWorld (by decide) (by decide) (quiet_of_const _ rfl)⟩

theorem last_index_get_returns_fill :
    0 ≤ (H5EA_set handle100 (2 ^ 64 - 1) 5 wideWorld).1 ∧
    (H5EA_set handle100 (2 ^ 64 - 1) 5 wideWorld).2.quiet ∧
    (H5EA_get handle100 (2 ^ 64 - 1) (H5EA_set handle100 (2 ^ 64 - 1) 5 wideWorld).2).1
      = SUCCEED ∧
    (H5EA_get handle100 (2 ^ 64 - 1) (H5EA_set handle100 (2 ^ 64 - 1) 5 wideWorld).2).2.1
      = some 77 ∧
    (H5EA_get handle100 (2 ^ 64 - 1) (H5EA_set handle100 (2 ^ 64 - 1) 5 wideWorld).2).2.1
      ≠ some 5 :=
  ⟨by decide, quiet_of_const _ rfl, by decide, by decide, by decide⟩

theorem open_catch_no_handle (h : Nat) (w : World) :
    open_catch (some h) none none w =
      (none, if w.fault = true then
          (cache_unprotect .hdr h H5AC__NO_FLAGS_SET w).2.throw .CANTUNPROTECT
        else (cache_unprotect .hdr h H5AC__NO_FLAGS_SET w).2) := by
  unfold open_catch H5EA__hdr_unprotect
  by_cases hf : w.fault = true
  · have : (cache_unprotect .hdr h H5AC__NO_FLAGS_SET w).1 < 0 := (cache_unprotect_neg _ _ _ _).2 hf
    simp only [if_pos this, if_pos hf]
  · have : ¬ (cache_unprotect .hdr h H5AC__NO_FLAGS_SET w).1 < 0 :=
      fun h' => hf ((cache_unprotect_neg _ _ _ _).1 h')
    simp only [if_neg this, if_neg hf]

/-- C10: `H5EA_open` on a header whose `pending_delete` flag is set (the header
is at the address and its protect succeeds) returns `NULL` with the error
`CANTOPENOBJ` first on the error stack, allocates no handle, leaves `rc` and
`file_rc` unchanged, and makes exactly two calls: the protect of the header and
one unprotect of it with `H5AC__NO_FLAGS_SET`. -/
theorem open_pending_delete (f a : Nat) (w : World) (hp : w.hdr.pending_delete = true)
    (hpres : w.hdr_present = true) (ha : a = w.hdr.addr) (hf : w.fault = false) :
    (H5EA_open f a w).1 = none ∧
    (∃ rest, (H5EA_open f a w).2.errs = w.errs ++ H5E.CANTOPENOBJ :: rest) ∧
    (H5EA_open f a w).2.handles = w.handles ∧
    (H5EA_open f a w).2.hdr.rc = w.hdr.rc ∧
    (H5EA_open f a w).2.hdr.file_rc = w.hdr.file_rc ∧
    ∃ ok, (H5EA_open f a w).2.trace = w.trace ++
      [Event.protect .hdr a H5AC__READ_ONLY_FLAG true,
       Event.unprotect .hdr a H5AC__NO_FLAGS_SET ok] := by
  subst ha
  unfold H5EA_open H5EA__hdr_protect cache_protect
  simp only [hf, hpres, Bool.not_false, Bool.true_and, beq_self_eq_true, if_true]
  simp only [World.tick, World.log, World.throw, hp, if_true]
  rw [open_catch_no_handle]
  dsimp only
  split <;> simp [cache_unprotect]

theorem open_pending_delete_witness :
    ({ smallWorld with hdr := { smallWorld.hdr with pending_delete := true } } : World).hdr.pending_delete
      = true ∧
    (H5EA_open 1 100
      { smallWorld with hdr := { smallWorld.hdr with pending_delete := true } }).1 = none :=
  ⟨rfl, (open_pending_delete 1 100
    { smallWorld with hdr := { smallWorld.hdr with pending_delete := true } }
    rfl rfl rfl rfl).1⟩

/-! ### Release flags of the walk -/

theorem nchild_catch {l l' : LookupLocals} {cevs : List Event} (h : CatchTrace l cevs l')
    (p : Thing) : nchild p cevs = 0 := by
  unfold nchild
  rw [List.countP_eq_zero]
  intro e he
  rcases h.calls e he with h1 | ⟨_, _, h1⟩ | ⟨_, _, h1⟩ | ⟨_, _, h1⟩ | ⟨_, _, h1⟩ <;>
    rw [h1] <;> simp [Event.childOf]

theorem nchild_of_parent {acc : Nat} {l : LookupLocals} {evs : List Event}
    (h : WalkTrace acc evs l) (p : Thing) (hp : p.kind ≠ .iblock ∧ p.kind ≠ .sblock) :
    nchild p evs = 0 := by
  unfold nchild
  rw [List.countP_eq_zero]
  intro e he hc
  rcases h.parents e he p hc with h1 | h1
  · exact hp.1 h1
  · exact hp.2 h1

theorem nchild_no_create {evs : List Event} (h : ∀ e ∈ evs, e.createKind = none) (p : Thing) :
    nchild p evs = 0 := by
  unfold nchild
  rw [List.countP_eq_zero]
  intro e he hc
  have := h e he
  cases e <;> simp [Event.createKind, Event.childOf] at this hc

/-- The flags of every unprotect call of the walk: those of `release_flags`
over the calls of the walk. -/
theorem lookup_release_flags (ea : H5EA_t) (idx acc : Nat) (w : World) :
    ∃ evs, (H5EA__lookup_elmt ea idx acc w).2.trace = w.trace ++ evs ∧
      ∀ k a fl ok, Event.unprotect k a fl ok ∈ evs → fl = release_flags ⟨k, a⟩ evs ∧
        (k ≠ .iblock → k ≠ .sblock → fl = H5AC__NO_FLAGS_SET) := by
  obtain ⟨evs, cevs, l, l', htr, hw, hc, -⟩ := lookup_summary ea idx acc w
  refine ⟨evs ++ cevs, htr, ?_⟩
  intro k a fl ok he
  have hrf : ∀ p, release_flags p (evs ++ cevs) = release_flags p evs := by
    intro p
    unfold release_flags
    rw [nchild_append, nchild_catch hc, Nat.add_zero]
  rw [hrf]
  rcases List.mem_append.1 he with he | he
  · rcases hw.calls _ he with h1 | ⟨_, _, _, h1⟩
    · simp [Event.createKind] at h1
    · cases h1
  · rcases hc.calls _ he with h1 | ⟨b, hb, h1⟩ | ⟨sb, hb, h1⟩ | ⟨b, hb, h1⟩ | ⟨b, hb, h1⟩
    · cases h1
    · injection h1 with h1 h2 h3 h4
      subst h1 h2 h3
      exact ⟨hw.iflags _ hb, fun h => absurd rfl h⟩
    · injection h1 with h1 h2 h3 h4
      subst h1 h2 h3
      exact ⟨hw.sflags _ hb, fun _ h => absurd rfl h⟩
    · injection h1 with h1 h2 h3 h4
      subst h1 h2 h3
      unfold release_flags
      rw [nchild_of_parent hw _ (by simp)]
      simp
    · injection h1 with h1 h2 h3 h4
      subst h1 h2 h3
      unfold release_flags
      rw [nchild_of_parent hw _ (by simp)]
      simp

/-- C8: for every outcome of `H5EA_set`, `H5EA_get`, `H5EA_support` and
`H5EA_unsupport`, each block has as many successful protects as unprotect calls
among the calls of the operation, and at most one: every block protected during
the operation is unprotected exactly once before it returns. -/
theorem operations_balanced (ea : H5EA_t) (idx elmt : Nat) (child : H5AC_info_t) (w : World) :
    Balanced w (H5EA_set ea idx elmt w).2 ∧
    Balanced w (H5EA_get ea idx w).2.2 ∧
    Balanced w (H5EA_support ea idx child w).2 ∧
    Balanced w (H5EA_unsupport ea idx child w).2 :=
  ⟨set_balanced ea idx elmt w, get_balanced ea idx w, support_balanced ea idx child w,
    unsupport_balanced ea idx child w⟩

/-- C5: a read-only walk leaves the file as it is (header with `idx_blk_addr`
and the statistics, every address slot and page-init bit of every block, the
allocator), whatever fails; it calls no block-creation routine and never marks
the header modified; every unprotect call it makes carries
`H5AC__NO_FLAGS_SET`, and every block it protected is unprotected apart from
the returned `thing`; and when no call fails it returns what the addressing
finds in the file: success with `thing = NULL` when an address on the way is
undefined or the page-init bit is clear. -/
theorem read_only_walk (ea : H5EA_t) (idx : Nat) (w : World) :
    FileEq { w with hdr := { w.hdr with f := ea.f } }
      (H5EA__lookup_elmt ea idx H5AC__READ_ONLY_FLAG w).2 ∧
    (∃ evs, (H5EA__lookup_elmt ea idx H5AC__READ_ONLY_FLAG w).2.trace = w.trace ++ evs ∧
      (∀ e ∈ evs, e.createKind = none) ∧
      (∀ ok, Event.hdr_modified ok ∉ evs) ∧
      (∀ k a fl ok, Event.unprotect k a fl ok ∈ evs → fl = H5AC__NO_FLAGS_SET) ∧
      (∀ k a, nprot k a evs = nunprot k a evs +
        if (H5EA__lookup_elmt ea idx H5AC__READ_ONLY_FLAG w).1.thing = some ⟨k, a⟩
          then 1 else 0)) ∧
    (w.quiet →
      (H5EA__lookup_elmt ea idx H5AC__READ_ONLY_FLAG w).1.resolved = resolve w idx ∧
      (resolve w idx = .absent →
        0 ≤ (H5EA__lookup_elmt ea idx H5AC__READ_ONLY_FLAG w).1.ret_value ∧
        (H5EA__lookup_elmt ea idx H5AC__READ_ONLY_FLAG w).1.thing = none)) := by
  have hro : H5AC__READ_ONLY_FLAG &&& H5AC__READ_ONLY_FLAG ≠ 0 := by decide
  refine ⟨lookup_ro_fileEq ea idx w, ?_, ?_⟩
  · obtain ⟨evs, cevs, l, l', htr, hw, hc, ho⟩ := lookup_summary ea idx H5AC__READ_ONLY_FLAG w
    obtain ⟨evs', htr', hbal, -, -⟩ := lookup_outstanding ea idx H5AC__READ_ONLY_FLAG w
    obtain ⟨evs'', htr'', hfl⟩ := lookup_release_flags ea idx H5AC__READ_ONLY_FLAG w
    have e1 : evs' = evs ++ cevs := List.append_cancel_left (htr'.symm.trans htr)
    have e2 : evs'' = evs ++ cevs := List.append_cancel_left (htr''.symm.trans htr)
    subst e1
    subst e2
    have hnc : ∀ e ∈ evs ++ cevs, e.createKind = none := by
      intro e he
      rcases List.mem_append.1 he with he | he
      · exact hw.ro hro e he
      · rcases hc.calls e he with h1 | ⟨_, _, h1⟩ | ⟨_, _, h1⟩ | ⟨_, _, h1⟩ | ⟨_, _, h1⟩ <;>
          rw [h1] <;> rfl
    refine ⟨evs ++ cevs, htr, hnc, ?_, ?_, hbal⟩
    · intro ok hmem
      rcases List.mem_append.1 hmem with he | he
      · rcases hw.calls _ he with h1 | ⟨_, _, _, h1⟩
        · simp [Event.createKind] at h1
        · cases h1
      · obtain ⟨e, he', hk⟩ := hw.dirty (hc.modified.1 ⟨ok, he⟩)
        rw [hw.ro hro e he'] at hk
        cases hk
    · intro k a fl ok he
      have := (hfl k a fl ok he).1
      rw [this]
      unfold release_flags
      rw [nchild_no_create hnc]
      simp
  · intro hq
    have h := (lookup_ro ea idx w hq).2
    rw [resolve_set_f] at h
    refine ⟨h, fun hab => ?_⟩
    rw [hab] at h
    unfold LookupOut.resolved at h
    split at h
    · cases h
    · rename_i hneg
      cases hth : (H5EA__lookup_elmt ea idx H5AC__READ_ONLY_FLAG w).1.thing with
      | some t => rw [hth] at h; cases h
      | none =>
        exact ⟨not_lt.1 hneg, rfl⟩

theorem read_only_walk_witness :
    smallWorld.quiet ∧ resolve smallWorld 10 = .absent ∧
    0 ≤ (H5EA__lookup_elmt handle100 10 H5AC__READ_ONLY_FLAG smallWorld).1.ret_value ∧
    (H5EA__lookup_elmt handle100 10 H5AC__READ_ONLY_FLAG smallWorld).1.thing = none :=
  ⟨quiet_of_const _ rfl, by decide,
    ((read_only_walk handle100 10 smallWorld).2.2 (quiet_of_const _ rfl)).2 (by decide)⟩

/-- C6: for every successful write walk for index `idx`, the creation routines
are called exactly for the levels on the path of `idx` that were undefined
before the walk (index block, super block when the data block is not addressed
from the index block, data block, page when the data block is paged), in that
order and for no other block, each creation succeeds, and after the walk no
level on that path is undefined. -/
theorem write_walk_creates (ea : H5EA_t) (idx acc : Nat) (w : World)
    (hrw : acc &&& H5AC__READ_ONLY_FLAG = 0)
    (hs : 0 ≤ (H5EA__lookup_elmt ea idx acc w).1.ret_value) :
    ∃ evs, (H5EA__lookup_elmt ea idx acc w).2.trace = w.trace ++ evs ∧
      creates evs = levels_undefined w idx ∧
      (∀ e ∈ evs, e.createKind.isSome = true → e.ok = true) ∧
      levels_undefined (H5EA__lookup_elmt ea idx acc w).2 idx = [] := by
  obtain ⟨evs, h1, -, h3, -⟩ := lookup_creates hrw ea idx w
  obtain ⟨hres, hth⟩ := (lookup_found hrw ea idx w).2 hs
  obtain ⟨t, ht⟩ := Option.ne_none_iff_exists'.1 hth
  refine ⟨evs, h1, (h3 hs).1, (h3 hs).2, ?_⟩
  have hfound : resolve (H5EA__lookup_elmt ea idx acc w).2 idx
      = .found t (H5EA__lookup_elmt ea idx acc w).1.thing_elmt_idx := by
    rw [hres]; simp [LookupOut.resolved, not_lt.2 hs, ht]
  exact resolve_found_levels hfound

theorem write_walk_creates_witness :
    (H5AC__NO_FLAGS_SET &&& H5AC__READ_ONLY_FLAG = 0 ∧
      0 ≤ (H5EA__lookup_elmt handle100 100 H5AC__NO_FLAGS_SET smallWorld).1.ret_value) ∧
    levels_undefined smallWorld 100 = [.iblock, .sblock, .dblock, .dblk_page] ∧
    ∃ evs, (H5EA__lookup_elmt handle100 100 H5AC__NO_FLAGS_SET smallWorld).2.trace
        = smallWorld.trace ++ evs ∧
      creates evs = levels_undefined smallWorld 100 ∧
      (∀ e ∈ evs, e.createKind.isSome = true → e.ok = true) ∧
      levels_undefined (H5EA__lookup_elmt handle100 100 H5AC__NO_FLAGS_SET smallWorld).2 100
        = [] :=
  ⟨⟨by decide, by decide⟩, by decide,
    write_walk_creates handle100 100 H5AC__NO_FLAGS_SET smallWorld (by decide) (by decide)⟩

/-! ### The creation calls of `H5EA_set` -/

theorem release_thing_events (o : LookupOut) (flags : Nat) (ret : Int) (w : World) :
    ∃ rel, (release_thing o flags ret w).2.trace = w.trace ++ rel ∧
      ∀ e ∈ rel, e.createKind = none := by
  refine ⟨_, release_thing_trace o flags ret w, ?_⟩
  intro e he
  cases ho : o.thing with
  | none => rw [ho] at he; simp at he
  | some t => rw [ho] at he; simp at he; rw [he]; rfl

theorem creates_eq_nil {evs : List Event} (h : ∀ e ∈ evs, e.createKind = none) :
    creates evs = [] := by
  unfold creates
  rw [List.filterMap_eq_nil_iff]
  exact h

/-- The creation calls of `H5EA_set` are those of its walk; with no undefined
level on the way it leaves the tree of blocks as it is. -/
theorem set_creates (ea : H5EA_t) (idx v : Nat) (w : World) :
    ∃ evs, (H5EA_set ea idx v w).2.trace = w.trace ++ evs ∧
      creates evs <+: levels_undefined w idx ∧
      (0 ≤ (H5EA_set ea idx v w).1 → creates evs = levels_undefined w idx) ∧
      (levels_undefined w idx = [] → SameTree w (H5EA_set ea idx v w).2) := by
  have hrw : H5AC__NO_FLAGS_SET &&& H5AC__READ_ONLY_FLAG = 0 := by decide
  have hcr := lookup_creates hrw ea idx { w with hdr := { w.hdr with f := ea.f } }
  have hf := lookup_found hrw ea idx { w with hdr := { w.hdr with f := ea.f } }
  have hout := lookup_outstanding ea idx H5AC__NO_FLAGS_SET
    { w with hdr := { w.hdr with f := ea.f } }
  rw [levels_undefined_set_f] at hcr
  have hst0 : SameTree w { w with hdr := { w.hdr with f := ea.f } } :=
    ⟨by constructor <;> rfl, rfl, fun _ => rfl, fun _ => rfl, fun _ => rfl, rfl, fun _ => rfl,
      fun _ => rfl, rfl⟩
  have hst1 : SameTree { w with hdr := { w.hdr with f := ea.f } }
      { ({ w with hdr := { w.hdr with f := ea.f } } : World) with
        hdr := { ({ w with hdr := { w.hdr with f := ea.f } } : World).hdr with f := ea.f } } :=
    ⟨by constructor <;> rfl, rfl, fun _ => rfl, fun _ => rfl, fun _ => rfl, rfl, fun _ => rfl,
      fun _ => rfl, rfl⟩
  unfold H5EA_set
  dsimp only
  revert hcr hf hout
  generalize H5EA__lookup_elmt ea idx H5AC__NO_FLAGS_SET
    { w with hdr := { w.hdr with f := ea.f } } = r
  intro hcr hf hout
  obtain ⟨evs, h1, h2, h3, h4⟩ := hcr
  have h1' : r.2.trace = w.trace ++ evs := h1
  by_cases hr : r.1.ret_value < 0
  · rw [if_pos hr]
    obtain ⟨rel, hrel, hnc⟩ := release_thing_events r.1 H5AC__NO_FLAGS_SET FAIL
      (r.2.throw .CANTPROTECT)
    have hfe := release_thing_fileEq r.1 H5AC__NO_FLAGS_SET FAIL (r.2.throw .CANTPROTECT)
    refine ⟨evs ++ rel, by rw [hrel]; simp [h1'], ?_, ?_, ?_⟩
    · rw [creates_append, creates_eq_nil hnc, List.append_nil]; exact h2
    · intro hs
      have := release_thing_ret _ _ _ _ hs
      rw [this] at hs
      exact absurd hs (by decide)
    · intro hl
      exact (hst0.st_trans hst1).st_trans
        (SameTree.st_of_fileEq (((h4 hl).fe_throw _).fe_trans hfe))
  · rw [if_neg hr]
    obtain ⟨rel, hrel, hnc⟩ := release_thing_events r.1
      (H5AC__NO_FLAGS_SET ||| H5AC__DIRTIED_FLAG) (set_store idx v r.1 r.2).1
      (set_store idx v r.1 r.2).2
    obtain ⟨mid, hmid, hmnc⟩ := set_store_trace idx v r.1 r.2
    have hmnc' : ∀ e ∈ mid, e.createKind = none := by
      intro e he; obtain ⟨ok, rfl⟩ := hmnc e he; rfl
    refine ⟨evs ++ (mid ++ rel), by rw [hrel, hmid, h1']; simp, ?_, ?_, ?_⟩
    · rw [creates_append, creates_append, creates_eq_nil hnc, creates_eq_nil hmnc',
        List.append_nil, List.append_nil]
      exact h2
    · intro _
      rw [creates_append, creates_append, creates_eq_nil hnc, creates_eq_nil hmnc',
        List.append_nil, List.append_nil]
      exact (h3 (not_lt.1 hr)).1
    · intro hl
      obtain ⟨hres, hth⟩ := hf.2 (not_lt.1 hr)
      obtain ⟨t, ht⟩ := Option.ne_none_iff_exists'.1 hth
      obtain ⟨-, -, -, -, hbuf⟩ := hout
      have hbuf := (hbuf t ht).2.1
      have hfound : resolve r.2 idx = .found t r.1.thing_elmt_idx := by
        rw [hres]; simp [LookupOut.resolved, hr, ht]
      have hpres := resolve_present hfound
      have hfe := release_thing_fileEq r.1 (H5AC__NO_FLAGS_SET ||| H5AC__DIRTIED_FLAG)
        (set_store idx v r.1 r.2).1 (set_store idx v r.1 r.2).2
      have hcopy : set_copy v r.1 r.2
          = elmt_write t r.1.thing_elmt_idx v (sanity_checks r.1 r.2) := by
        unfold set_copy; rw [hbuf]
      have hsan : FileEq r.2 (sanity_checks r.1 r.2) :=
        (((FileEq.fe_refl r.2).fe_HDassert _).fe_HDassert _).fe_HDassert _
      have hmax := set_max_idx_store idx (set_copy v r.1 r.2)
      have hpres' : (sanity_checks r.1 r.2).present t = true := by
        have := hpres.1
        unfold World.present at this ⊢
        rw [hsan.iblocks, hsan.dblocks, hsan.dblk_pages, hsan.sblocks, hsan.hdr_present,
          hsan.hdr]
        exact this
      have e1 : SameTree w (sanity_checks r.1 r.2) :=
        (hst0.st_trans hst1).st_trans (SameTree.st_of_fileEq ((h4 hl).fe_trans hsan))
      have e2 := elmt_write_sameTree t r.1.thing_elmt_idx v _ hpres'
      rw [← hcopy] at e2
      exact (e1.st_trans e2).st_trans ((hmax.1.ss_trans (SameStore.ss_of_fileEq hfe)).ss_sameTree)

theorem levels_undefined_nodup (w : World) (idx : Nat) : (levels_undefined w idx).Nodup := by
  unfold levels_undefined levels_in_iblock levels_via_iblock levels_via_sblock levels_sblock
  split_ifs <;> decide

/-- C7: after one successful `H5EA_set(idx, v)`, whose creation calls are for
the undefined levels on the way to `idx`, one call for each, a second
`H5EA_set(idx, v')` calls no block-creation routine at all and leaves the tree
of blocks as it is: `idx_blk_addr`, every address slot and page-init bit, the
blocks in the file and the end of the allocated space.  Across the two calls
each intermediate block is created at most once. -/
theorem second_set_creates_nothing (ea : H5EA_t) (idx v v' : Nat) (w : World)
    (hs : 0 ≤ (H5EA_set ea idx v w).1) :
    (∃ evs, (H5EA_set ea idx v w).2.trace = w.trace ++ evs ∧
      creates evs = levels_undefined w idx ∧ (creates evs).Nodup) ∧
    (∃ evs, (H5EA_set ea idx v' (H5EA_set ea idx v w).2).2.trace =
        (H5EA_set ea idx v w).2.trace ++ evs ∧
      creates evs = [] ∧
      SameTree (H5EA_set ea idx v w).2 (H5EA_set ea idx v' (H5EA_set ea idx v w).2).2) := by
  obtain ⟨evs1, h1, -, h3, -⟩ := set_creates ea idx v w
  obtain ⟨⟨t, i, hres, -⟩, -⟩ := set_success ea idx v w hs
  have hlv := resolve_found_levels hres
  obtain ⟨evs2, g1, g2, -, g4⟩ := set_creates ea idx v' (H5EA_set ea idx v w).2
  rw [hlv] at g2
  refine ⟨⟨evs1, h1, h3 hs, ?_⟩, ⟨evs2, g1, List.prefix_nil.1 g2, g4 hlv⟩⟩
  rw [h3 hs]
  exact levels_undefined_nodup w idx

theorem second_set_creates_nothing_witness :
    0 ≤ (H5EA_set handle100 100 5 smallWorld).1 ∧
    (∃ evs, (H5EA_set handle100 100 5 smallWorld).2.trace = smallWorld.trace ++ evs ∧
      creates evs = levels_undefined smallWorld 100 ∧ (creates evs).Nodup) ∧
    (∃ evs, (H5EA_set handle100 100 6 (H5EA_set handle100 100 5 smallWorld).2).2.trace =
        (H5EA_set handle100 100 5 smallWorld).2.trace ++ evs ∧
      creates evs = [] ∧
      SameTree (H5EA_set handle100 100 5 smallWorld).2
        (H5EA_set handle100 100 6 (H5EA_set handle100 100 5 smallWorld).2).2) :=
  ⟨by decide, second_set_creates_nothing handle100 100 5 6 smallWorld (by decide)⟩

theorem good_small : GoodHdr (hdr_init smallParams 100) :=
  ⟨rfl, ⟨2, by decide, by decide, by decide⟩, by decide, by decide, ⟨2, rfl⟩⟩

theorem in_range_small {idx : Nat} (h : idx < 2 ^ 32) : InRange smallWorld.hdr idx := h

theorem set_max_gt (ea : H5EA_t) (idx v : Nat) (w : World) (h64 : idx + 1 < 2 ^ 64)
    (hs : 0 ≤ (H5EA_set ea idx v w).1) :
    idx < (H5EA_set ea idx v w).2.hdr.stats.max_idx_set ∧
    w.hdr.stats.max_idx_set ≤ (H5EA_set ea idx v w).2.hdr.stats.max_idx_set := by
  have hmax := (set_success ea idx v w hs).2
  have hu : u64 (idx + 1) = idx + 1 := Nat.mod_eq_of_lt h64
  rw [hu] at hmax
  rw [hmax]
  split <;> constructor <;> omega

/-- Two sets at distinct indices of a well-formed file, then the two gets. -/
theorem two_sets_then_gets (ea : H5EA_t) (i j v1 v2 : Nat) (w : World) (hw : WF w)
    (hi : InRange w.hdr i) (hj : InRange w.hdr j) (hi64 : i + 1 < 2 ^ 64)
    (hj64 : j + 1 < 2 ^ 64) (hne : i ≠ j)
    (h1 : 0 ≤ (H5EA_set ea i v1 w).1)
    (h2 : 0 ≤ (H5EA_set ea j v2 (H5EA_set ea i v1 w).2).1)
    (hq : (H5EA_set ea j v2 (H5EA_set ea i v1 w).2).2.quiet) :
    (H5EA_get ea i (H5EA_set ea j v2 (H5EA_set ea i v1 w).2).2).1 = SUCCEED ∧
    (H5EA_get ea i (H5EA_set ea j v2 (H5EA_set ea i v1 w).2).2).2.1 = some v1 ∧
    (H5EA_get ea j
      (H5EA_get ea i (H5EA_set ea j v2 (H5EA_set ea i v1 w).2).2).2.2).1 = SUCCEED ∧
    (H5EA_get ea j
      (H5EA_get ea i (H5EA_set ea j v2 (H5EA_set ea i v1 w).2).2).2.2).2.1 = some v2 ∧
    (∀ t k, resolve (H5EA_set ea j v2 (H5EA_set ea i v1 w).2).2 i = .found t k →
      resolve (H5EA_set ea j v2 (H5EA_set ea i v1 w).2).2 j ≠ .found t k) := by
  obtain ⟨hw1, hg1, _, _⟩ := set_frame ea i v1 w hw hi hi64
  have hc1 := set_cell ea i v1 w hg1 h1
  have hm1 := set_max_gt ea i v1 w hi64 h1
  generalize H5EA_set ea i v1 w = r1 at *
  have hi1 : InRange r1.2.hdr i := (hg1.hg_inRange i).2 hi
  have hj1 : InRange r1.2.hdr j := (hg1.hg_inRange j).2 hj
  obtain ⟨hw2, hg2, _, hoth2⟩ := set_frame ea j v2 r1.2 hw1 hj1 hj64
  have hc2 := set_cell ea j v2 r1.2 hg2 h2
  have hm2 := set_max_gt ea j v2 r1.2 hj64 h2
  generalize H5EA_set ea j v2 r1.2 = r2 at *
  have hi2 : InRange r2.2.hdr i := (hg2.hg_inRange i).2 hi1
  have hj2 : InRange r2.2.hdr j := (hg2.hg_inRange j).2 hj1
  have hpne : place r1.2.hdr i ≠ place r1.2.hdr j :=
    fun he => hne (place_inj hw1.good hi1 hj1 hi64 hj64 he)
  have hci : cell r2.2 (place r2.2.hdr i) = some v1 := by
    rw [hg2.hg_place, hoth2 _ (place_ok hw1.good hi1 hi64) hpne, hg1.hg_place, hc1]
  have hcj : cell r2.2 (place r2.2.hdr j) = some v2 := by
    rw [hg2.hg_place, hc2]
  have hgi := get_cell ea i r2.2 hw2 hq hi2 hi64
  rw [if_pos (by omega), hci] at hgi
  obtain ⟨hss, hf, hcl, hst⟩ := get_frame ea i r2.2
  generalize H5EA_get ea i r2.2 = g at *
  have hw3 := hss.ss_wf hw2
  have hq3 : g.2.2.quiet := quiet_later hf hcl hq
  have hgj := get_cell ea j g.2.2 hw3 hq3 ((hss.hdr.hg_inRange j).2 hj2) hj64
  rw [hst, if_pos (by omega), hss.hdr.hg_place, hss.ss_cell, hcj] at hgj
  refine ⟨hgi.1, hgi.2, hgj.1, hgj.2, ?_⟩
  intro t k hri
  rw [resolve_eq] at hri ⊢
  have hpne2 : place r2.2.hdr j ≠ place r2.2.hdr i :=
    fun he => hne (place_inj hw2.good hi2 hj2 hi64 hj64 he.symm)
  exact resolve_at_inj hw2 (place_ok hw2.good hi2 hi64) (place_ok hw2.good hj2 hj64) hpne2 hri

/-- C2 (amended): take a new array with good creation parameters and any
history of gets and sets on indices of the array (each set at an index whose
successor is a 64-bit value, succeeding or failing), and indices `i ≠ j` of the
array with `i + 1 < 2^64` and `j + 1 < 2^64`.  After `H5EA_set(i, v1)` and then
`H5EA_set(j, v2)` both succeed, and when no collaborator call fails afterwards,
`H5EA_get(i)` succeeds and returns `v1` and the `H5EA_get(j)` after it succeeds
and returns `v2`; and the addressing never maps `i` and `j` to the same (block,
position) pair. -/
theorem set_set_get (cparam : H5EA_create_t) (addr eoa : Nat) (faults : Nat → Bool)
    (ea : H5EA_t) (ops : List Op) (i j v1 v2 : Nat)
    (hgood : GoodHdr (hdr_init cparam addr)) (heoa : eoa ≤ HADDR_UNDEF)
    (hops : ∀ op ∈ ops, op.valid (hdr_init cparam addr))
    (hi : InRange (hdr_init cparam addr) i) (hj : InRange (hdr_init cparam addr) j)
    (hi64 : i + 1 < 2 ^ 64) (hj64 : j + 1 < 2 ^ 64) (hne : i ≠ j)
    (h1 : 0 ≤ (H5EA_set ea i v1 (run_ops ea ops (World.init cparam addr eoa faults))).1)
    (h2 : 0 ≤ (H5EA_set ea j v2
      (H5EA_set ea i v1 (run_ops ea ops (World.init cparam addr eoa faults))).2).1)
    (hq : (H5EA_set ea j v2
      (H5EA_set ea i v1 (run_ops ea ops (World.init cparam addr eoa faults))).2).2.quiet) :
    (H5EA_get ea i (H5EA_set ea j v2
      (H5EA_set ea i v1 (run_ops ea ops (World.init cparam addr eoa faults))).2).2).1
        = SUCCEED ∧
    (H5EA_get ea i (H5EA_set ea j v2
      (H5EA_set ea i v1 (run_ops ea ops (World.init cparam addr eoa faults))).2).2).2.1
        = some v1 ∧
    (H5EA_get ea j (H5EA_get ea i (H5EA_set ea j v2
      (H5EA_set ea i v1 (run_ops ea ops (World.init cparam addr eoa faults))).2).2).2.2).1
        = SUCCEED ∧
    (H5EA_get ea j (H5EA_get ea i (H5EA_set ea j v2
      (H5EA_set ea i v1 (run_ops ea ops (World.init cparam addr eoa faults))).2).2).2.2).2.1
        = some v2 ∧
    (∀ t k, resolve (H5EA_set ea j v2
        (H5EA_set ea i v1 (run_ops ea ops (World.init cparam addr eoa faults))).2).2 i
          = .found t k →
      resolve (H5EA_set ea j v2
        (H5EA_set ea i v1 (run_ops ea ops (World.init cparam addr eoa faults))).2).2 j
          ≠ .found t k) := by
  obtain ⟨hw, hg⟩ := run_ops_valid ea ops (World.init cparam addr eoa faults)
    (wf_init cparam addr eoa faults hgood heoa) hops
  exact two_sets_then_gets ea i j v1 v2 _ hw ((hg.hg_inRange i).2 hi) ((hg.hg_inRange j).2 hj)
    hi64 hj64 hne h1 h2 hq

set_option maxRecDepth 100000 in
set_option maxHeartbeats 4000000 in
theorem set_set_get_witness :
    (GoodHdr (hdr_init smallParams 100) ∧ 1000 ≤ HADDR_UNDEF ∧
      (∀ op ∈ [Op.set 5 9, Op.get 5], op.valid (hdr_init smallParams 100)) ∧
      InRange (hdr_init smallParams 100) 10 ∧ InRange (hdr_init smallParams 100) 40 ∧
      0 ≤ (H5EA_set handle100 10 187 (run_ops handle100 [Op.set 5 9, Op.get 5]
        (World.init smallParams 100 1000 (fun _ => false)))).1 ∧
      0 ≤ (H5EA_set handle100 40 9 (H5EA_set handle100 10 187
        (run_ops handle100 [Op.set 5 9, Op.get 5]
          (World.init smallParams 100 1000 (fun _ => false)))).2).1 ∧
      (H5EA_set handle100 40 9 (H5EA_set handle100 10 187
        (run_ops handle100 [Op.set 5 9, Op.get 5]
          (World.init smallParams 100 1000 (fun _ => false)))).2).2.quiet) ∧
    (H5EA_get handle100 10 (H5EA_set handle100 40 9 (H5EA_set handle100 10 187
      (run_ops handle100 [Op.set 5 9, Op.get 5]
        (World.init smallParams 100 1000 (fun _ => false)))).2).2).2.1 = some 187 ∧
    (H5EA_get handle100 40 (H5EA_get handle100 10 (H5EA_set handle100 40 9
      (H5EA_set handle100 10 187 (run_ops handle100 [Op.set 5 9, Op.get 5]
        (World.init smallParams 100 1000 (fun _ => false)))).2).2).2.2).2.1 = some 9 := by
  have hq : (H5EA_set handle100 40 9 (H5EA_set handle100 10 187
      (run_ops handle100 [Op.set 5 9, Op.get 5]
        (World.init smallParams 100 1000 (fun _ => false)))).2).2.quiet :=
    quiet_of_const _ rfl
  have h := set_set_get smallParams 100 1000 (fun _ => false) handle100 [Op.set 5 9, Op.get 5]
    10 40 187 9 good_small (by decide) (by simp [Op.valid, InRange, hdr_init, smallParams])
    (in_range_small (by decide)) (in_range_small (by decide)) (by decide) (by decide)
    (by decide) (by decide) (by decide) hq
  exact ⟨⟨good_small, by decide, by simp [Op.valid, InRange, hdr_init, smallParams],
    in_range_small (by decide), in_range_small (by decide), by decide, by decide, hq⟩,
    h.2.1, h.2.2.2.1⟩

set_option maxRecDepth 100000 in
theorem last_index_lost_after_second_set :
    (2 ^ 64 - 1 ≠ 0) ∧
    0 ≤ (H5EA_set handle100 (2 ^ 64 - 1) 5 wideWorld).1 ∧
    0 ≤ (H5EA_set handle100 0 9 (H5EA_set handle100 (2 ^ 64 - 1) 5 wideWorld).2).1 ∧
    (H5EA_set handle100 0 9 (H5EA_set handle100 (2 ^ 64 - 1) 5 wideWorld).2).2.quiet ∧
    (H5EA_get handle100 (2 ^ 64 - 1)
      (H5EA_set handle100 0 9 (H5EA_set handle100 (2 ^ 64 - 1) 5 wideWorld).2).2).1
        = SUCCEED ∧
    (H5EA_get handle100 (2 ^ 64 - 1)
      (H5EA_set handle100 0 9 (H5EA_set handle100 (2 ^ 64 - 1) 5 wideWorld).2).2).2.1
        = some 77 ∧
    (H5EA_get handle100 (2 ^ 64 - 1)
      (H5EA_set handle100 0 9 (H5EA_set handle100 (2 ^ 64 - 1) 5 wideWorld).2).2).2.1
        ≠ some 5 :=
  ⟨by decide, by decide, by decide, quiet_of_const _ rfl, by decide, by decide, by decide⟩

/-- C4: take a new array with good creation parameters and any history of sets
and gets on it in which no set is at the index `idx` (the sets are at other
indices of the array whose successor is a 64-bit value, and they may succeed or
fail).  When no collaborator call fails afterwards, `H5EA_get(idx)` succeeds and
returns the class's fill value: whether `idx` is not below `max_idx_set`, or the
index block, the super-block slot or the data-block slot on its way is
undefined, or the page-init bit is clear, or the block that holds it is
there. -/
theorem never_written_reads_fill (cparam : H5EA_create_t) (addr eoa : Nat)
    (faults : Nat → Bool) (ea : H5EA_t) (ops : List Op) (idx : Nat)
    (hgood : GoodHdr (hdr_init cparam addr)) (heoa : eoa ≤ HADDR_UNDEF)
    (hin : InRange (hdr_init cparam addr) idx)
    (hops : ∀ op ∈ ops, op.spares (hdr_init cparam addr) idx)
    (hq : (run_ops ea ops (World.init cparam addr eoa faults)).quiet) :
    (H5EA_get ea idx (run_ops ea ops (World.init cparam addr eoa faults))).1 = SUCCEED ∧
    (H5EA_get ea idx (run_ops ea ops (World.init cparam addr eoa faults))).2.1
      = some cparam.cls.fill := by
  have hw0 := wf_init cparam addr eoa faults hgood heoa
  have hm0 : (World.init cparam addr eoa faults).hdr.stats.max_idx_set < 2 ^ 64 := by
    show 0 < 2 ^ 64
    decide
  obtain ⟨hw, hg, hm, hc⟩ := run_ops_spares ea idx ops (World.init cparam addr eoa faults)
    hw0 hm0 hin hops
  have hfill : (run_ops ea ops (World.init cparam addr eoa faults)).hdr.cparam.cls.fill
      = cparam.cls.fill := by
    rw [hg.cparam]; rfl
  have hc0 : cell (World.init cparam addr eoa faults)
      (place (World.init cparam addr eoa faults).hdr idx) = some cparam.cls.fill :=
    cell_undef undef_not_defined _
  generalize run_ops ea ops (World.init cparam addr eoa faults) = W at *
  by_cases hmax : idx < W.hdr.stats.max_idx_set
  · have h64 : idx + 1 < 2 ^ 64 := by omega
    have := get_cell ea idx W hw hq ((hg.hg_inRange idx).2 hin) h64
    rw [if_pos hmax, hg.hg_place, hc h64, hc0] at this
    exact this
  · have := get_absent ea idx W hq (Or.inl (not_lt.1 hmax))
    rw [hfill] at this
    exact this

set_option maxRecDepth 100000 in
theorem never_written_reads_fill_witness :
    (GoodHdr (hdr_init smallParams 100) ∧ 1000 ≤ HADDR_UNDEF ∧
      InRange (hdr_init smallParams 100) 6 ∧
      (∀ op ∈ [Op.set 5 9, Op.get 5, Op.set 40 3],
        op.spares (hdr_init smallParams 100) 6) ∧
      (run_ops handle100 [Op.set 5 9, Op.get 5, Op.set 40 3]
        (World.init smallParams 100 1000 (fun _ => false))).quiet) ∧
    (run_ops handle100 [Op.set 5 9, Op.get 5, Op.set 40 3]
      (World.init smallParams 100 1000 (fun _ => false))).hdr.stats.max_idx_set = 41 ∧
    resolve (run_ops handle100 [Op.set 5 9, Op.get 5, Op.set 40 3]
      (World.init smallParams 100 1000 (fun _ => false))) 6 = .found ⟨.dblock, 1282⟩ 2 ∧
    (H5EA_get handle100 6 (run_ops handle100 [Op.set 5 9, Op.get 5, Op.set 40 3]
      (World.init smallParams 100 1000 (fun _ => false)))).2.1 = some 77 :=
  ⟨⟨good_small, by decide, in_range_small (by decide),
      by simp [Op.spares, InRange, hdr_init, smallParams],
      quiet_of_const _ rfl⟩,
    by decide, by decide,
    (never_written_reads_fill smallParams 100 1000 (fun _ => false) handle100
      [Op.set 5 9, Op.get 5, Op.set 40 3] 6 good_small (by decide) (in_range_small (by decide))
      (by simp [Op.spares, InRange, hdr_init, smallParams]) (quiet_of_const _ rfl)).2⟩

/-! ## The lifecycle calls, step by step -/

theorem delete_eval (f : Nat) (w : World) (hpres : w.hdr_present = true)
    (hf : w.fault = false) :
    H5EA_delete f w.hdr.addr w =
      if w.hdr.file_rc ≠ 0 then
        delete_catch (some w.hdr.addr) SUCCEED
          { (w.tick).log (.protect .hdr w.hdr.addr H5AC__NO_FLAGS_SET true) with
            hdr := { w.hdr with pending_delete := true } }
      else
        let d := H5EA__hdr_delete w.hdr.addr
          { (w.tick).log (.protect .hdr w.hdr.addr H5AC__NO_FLAGS_SET true) with
            hdr := { w.hdr with f := some f } }
        if d.1 < 0 then delete_catch (some w.hdr.addr) FAIL (d.2.throw .CANTDELETE)
        else delete_catch none SUCCEED d.2 := by
  unfold H5EA_delete H5EA__hdr_protect cache_protect
  simp only [hf, hpres, Bool.not_false, Bool.true_and, beq_self_eq_true, if_true]
  simp only [World.tick, World.log]

theorem delete_catch_some (h : Nat) (r : Int) (w : World) :
    delete_catch (some h) r w =
      if w.fault = true then
        (FAIL, ((w.tick).log (.unprotect .hdr h H5AC__NO_FLAGS_SET false)).throw .CANTUNPROTECT)
      else (r, (w.tick).log (.unprotect .hdr h H5AC__NO_FLAGS_SET true)) := by
  unfold delete_catch H5EA__hdr_unprotect cache_unprotect
  by_cases hf : w.fault = true
  · simp [hf, FAIL]
  · simp [hf, SUCCEED]

theorem hdr_delete_eval (h : Nat) (w : World) :
    H5EA__hdr_delete h w =
      if w.fault = true then (FAIL, (w.tick).log (.hdr_delete false))
      else
        (SUCCEED,
          (({ w.tick with hdr_present := false }).log (.hdr_delete true)).log
            (.unprotect .hdr h
              (H5AC__DIRTIED_FLAG ||| H5AC__DELETED_FLAG ||| H5AC__FREE_FILE_SPACE_FLAG) true)) :=
  rfl

/-- C11: `H5EA_delete` on the array whose header is at the address, when the
protect of the header succeeds.  While `file_rc` is not 0 it sets
`pending_delete`, does not call the header deletion routine (the header stays
in the file and no block store and no allocation changes), makes exactly two
calls, the protect of the header and one unprotect of it with
`H5AC__NO_FLAGS_SET`, and returns success exactly when that unprotect succeeds.
When `file_rc` is 0 the call after the protect is the header deletion routine;
the header is unprotected once: by the deletion routine itself when it succeeds
(then `H5EA_delete` returns success, the header is gone and the `CATCH` section
makes no call), by the `CATCH` section when it fails. -/
theorem delete_pending_or_now (f : Nat) (w : World) (hpres : w.hdr_present = true)
    (hf : w.fault = false) :
    (w.hdr.file_rc ≠ 0 →
      (H5EA_delete f w.hdr.addr w).2.hdr.pending_delete = true ∧
      (H5EA_delete f w.hdr.addr w).2.hdr_present = true ∧
      (H5EA_delete f w.hdr.addr w).2.eoa = w.eoa ∧
      (H5EA_delete f w.hdr.addr w).2.iblocks = w.iblocks ∧
      (H5EA_delete f w.hdr.addr w).2.sblocks = w.sblocks ∧
      (H5EA_delete f w.hdr.addr w).2.dblocks = w.dblocks ∧
      (H5EA_delete f w.hdr.addr w).2.dblk_pages = w.dblk_pages ∧
      ∃ ok, (H5EA_delete f w.hdr.addr w).2.trace = w.trace ++
          [Event.protect .hdr w.hdr.addr H5AC__NO_FLAGS_SET true,
           Event.unprotect .hdr w.hdr.addr H5AC__NO_FLAGS_SET ok] ∧
        ((H5EA_delete f w.hdr.addr w).1 = SUCCEED ↔ ok = true)) ∧
    (w.hdr.file_rc = 0 →
      ∃ ok ok2, (H5EA_delete f w.hdr.addr w).2.trace = w.trace ++
          [Event.protect .hdr w.hdr.addr H5AC__NO_FLAGS_SET true,
           Event.hdr_delete ok,
           Event.unprotect .hdr w.hdr.addr
             (if ok = true then
                H5AC__DIRTIED_FLAG ||| H5AC__DELETED_FLAG ||| H5AC__FREE_FILE_SPACE_FLAG
              else H5AC__NO_FLAGS_SET) ok2] ∧
        (ok = true → ok2 = true ∧ (H5EA_delete f w.hdr.addr w).1 = SUCCEED ∧
          (H5EA_delete f w.hdr.addr w).2.hdr_present = false) ∧
        (ok = false → (H5EA_delete f w.hdr.addr w).1 = FAIL)) := by
  rw [delete_eval f w hpres hf]
  constructor
  · intro hrc
    rw [if_pos hrc, delete_catch_some]
    by_cases hf1 : w.faults (w.clock + 1) = true
    · simp [World.fault, hf1, hpres, FAIL, SUCCEED]
    · simp [World.fault, hf1, hpres, FAIL, SUCCEED]
  · intro hrc
    rw [if_neg (by simp [hrc])]
    simp only [hdr_delete_eval]
    by_cases hf1 : w.faults (w.clock + 1) = true
    · refine ⟨false, ?_⟩
      simp only [World.fault, World.tick, World.log, hf1, if_true]
      rw [if_pos (by decide), delete_catch_some]
      by_cases hf2 : w.faults (w.clock + 1 + 1) = true
      · exact ⟨false, by simp [World.fault, hf2], by simp, by simp [World.fault, hf2]⟩
      · exact ⟨true, by simp [World.fault, hf2], by simp, by simp [World.fault, hf2]⟩
    · refine ⟨true, true, ?_⟩
      simp [World.fault, hf1, delete_catch, SUCCEED]

set_option maxRecDepth 100000 in
theorem delete_pending_or_now_witness :
    ({ smallWorld with hdr := { smallWorld.hdr with file_rc := 2 } } : World).hdr.file_rc ≠ 0 ∧
    (H5EA_delete 1 100
      { smallWorld with hdr := { smallWorld.hdr with file_rc := 2 } }).2.hdr.pending_delete
        = true ∧
    (H5EA_delete 1 100
      { smallWorld with hdr := { smallWorld.hdr with file_rc := 2 } }).2.hdr_present = true :=
  ⟨by decide,
   ((delete_pending_or_now 1
      { smallWorld with hdr := { smallWorld.hdr with file_rc := 2 } } rfl rfl).1
        (by decide)).1,
   ((delete_pending_or_now 1
      { smallWorld with hdr := { smallWorld.hdr with file_rc := 2 } } rfl rfl).1
        (by decide)).2.1⟩

/-! ## The decrements of the reference counts -/

theorem hdr_decr_cases (w : World) :
    (w.fault = true ∧ H5EA__hdr_decr w = (FAIL, (w.tick).log (.hdr_decr false))) ∨
    (w.fault = false ∧ ∃ h : H5EA_hdr_t,
      h.rc = sub64 w.hdr.rc 1 ∧ h.file_rc = w.hdr.file_rc ∧
      h.pending_delete = w.hdr.pending_delete ∧ h.addr = w.hdr.addr ∧
      H5EA__hdr_decr w = (SUCCEED, ({ w.tick with hdr := h }).log (.hdr_decr true))) := by
  by_cases hf : w.fault = true
  · left
    refine ⟨hf, ?_⟩
    unfold H5EA__hdr_decr
    rw [if_pos hf]
  · right
    refine ⟨by simpa using hf, { w.hdr with rc := sub64 w.hdr.rc 1 }, rfl, rfl, rfl, rfl, ?_⟩
    unfold H5EA__hdr_decr
    rw [if_neg hf]

theorem hdr_fuse_decr_cases (w : World) :
    ∃ h : H5EA_hdr_t,
      h.file_rc = sub64 w.hdr.file_rc 1 ∧ h.rc = w.hdr.rc ∧
      h.pending_delete = w.hdr.pending_delete ∧ h.addr = w.hdr.addr ∧
      H5EA__hdr_fuse_decr w =
        (sub64 w.hdr.file_rc 1, ({ w with hdr := h }).log .hdr_fuse_decr) :=
  ⟨{ w.hdr with file_rc := sub64 w.hdr.file_rc 1 }, rfl, rfl, rfl, rfl, rfl⟩

theorem close_decr_cases (w : World) :
    (w.fault = true ∧
      close_decr w = (FAIL, ((w.tick).log (.hdr_decr false)).throw .CANTDEC)) ∨
    (w.fault = false ∧ ∃ h : H5EA_hdr_t,
      h.rc = sub64 w.hdr.rc 1 ∧ h.file_rc = w.hdr.file_rc ∧
      h.pending_delete = w.hdr.pending_delete ∧ h.addr = w.hdr.addr ∧
      close_decr w =
        (SUCCEED, H5FL_FREE (({ w.tick with hdr := h }).log (.hdr_decr true)))) := by
  rcases hdr_decr_cases w with ⟨hf, he⟩ | ⟨hf, h, h1, h2, h3, h4, he⟩
  · left
    refine ⟨hf, ?_⟩
    unfold close_decr
    rw [he]
    rfl
  · right
    refine ⟨hf, h, h1, h2, h3, h4, ?_⟩
    unfold close_decr
    rw [he]
    rfl

theorem close_decr_spec (w : World) :
    ((close_decr w).1 = SUCCEED ∧
      (close_decr w).2.trace = w.trace ++ [Event.hdr_decr true] ++ [Event.free] ∧
      (close_decr w).2.handles = w.handles - 1 ∧ (close_decr w).2.errs = w.errs) ∨
    ((close_decr w).1 = FAIL ∧
      (close_decr w).2.trace = w.trace ++ [Event.hdr_decr false] ∧
      (close_decr w).2.handles = w.handles ∧
      (close_decr w).2.errs = w.errs ++ [H5E.CANTDEC]) := by
  rcases close_decr_cases w with ⟨hf, he⟩ | ⟨hf, h, h1, h2, h3, h4, he⟩
  · right; rw [he]; exact ⟨rfl, rfl, rfl, rfl⟩
  · left; rw [he]; exact ⟨rfl, rfl, rfl, rfl⟩

theorem hdr_protect_eval (a flags : Nat) (w : World) :
    H5EA__hdr_protect a flags w =
      (if (!w.fault && (w.hdr_present && a == w.hdr.addr)) = true then some a else none,
        (w.tick).log (.protect .hdr a flags (!w.fault && (w.hdr_present && a == w.hdr.addr)))) :=
  rfl

/-- The three ways `close_delete` fails and the way it succeeds. -/
theorem close_delete_cases (ea : H5EA_t) (a : Nat) (w : World) :
    ((!w.fault && (w.hdr_present && a == w.hdr.addr)) = false ∧
      close_delete ea a w =
        (FAIL, ((w.tick).log (.protect .hdr a H5AC__NO_FLAGS_SET false)).throw .CANTLOAD)) ∨
    ((!w.fault && (w.hdr_present && a == w.hdr.addr)) = true ∧
      w.faults (w.clock + 1) = true ∧
      ∃ w' : World, (close_delete ea a w) = (FAIL, w') ∧
        w'.trace = w.trace ++ [Event.protect .hdr a H5AC__NO_FLAGS_SET true,
          Event.hdr_decr false] ∧
        w'.handles = w.handles ∧ w'.errs = w.errs ++ [H5E.CANTDEC]) ∨
    ((!w.fault && (w.hdr_present && a == w.hdr.addr)) = true ∧
      w.faults (w.clock + 1) = false ∧ w.faults (w.clock + 2) = true ∧
      ∃ w' : World, (close_delete ea a w) = (FAIL, w') ∧
        w'.trace = w.trace ++ [Event.protect .hdr a H5AC__NO_FLAGS_SET true,
          Event.hdr_decr true, Event.hdr_delete false] ∧
        w'.handles = w.handles ∧ w'.errs = w.errs ++ [H5E.CANTDELETE]) ∨
    ((!w.fault && (w.hdr_present && a == w.hdr.addr)) = true ∧
      w.faults (w.clock + 1) = false ∧ w.faults (w.clock + 2) = false ∧
      ∃ w' : World, (close_delete ea a w) = (SUCCEED, w') ∧
        w'.trace = w.trace ++ [Event.protect .hdr a H5AC__NO_FLAGS_SET true,
          Event.hdr_decr true, Event.hdr_delete true,
          Event.unprotect .hdr a
            (H5AC__DIRTIED_FLAG ||| H5AC__DELETED_FLAG ||| H5AC__FREE_FILE_SPACE_FLAG) true,
          Event.free] ∧
        w'.handles = w.handles - 1 ∧ w'.errs = w.errs ∧
        w'.hdr_present = false ∧ w'.faults = w.faults ∧ w'.clock = w.clock + 3 ∧
        w'.hdr.rc = sub64 w.hdr.rc 1 ∧ w'.hdr.file_rc = w.hdr.file_rc ∧
        w'.hdr.pending_delete = w.hdr.pending_delete ∧ w'.hdr.addr = w.hdr.addr) := by
  by_cases hp : (!w.fault && (w.hdr_present && a == w.hdr.addr)) = true
  · right
    generalize hw1 : ({ ((w.tick).log (.protect .hdr a H5AC__NO_FLAGS_SET true)) with
        hdr := { w.hdr with f := ea.f } } : World) = w1
    have e1 : close_delete ea a w =
        (let r := H5EA__hdr_decr w1
         if r.1 < 0 then (FAIL, r.2.throw .CANTDEC)
         else
          let d := H5EA__hdr_delete a r.2
          if d.1 < 0 then (FAIL, d.2.throw .CANTDELETE) else (SUCCEED, H5FL_FREE d.2)) := by
      unfold close_delete
      rw [hdr_protect_eval]
      simp only [hp, if_true]
      rw [← hw1]
      rfl
    have c1 : w1.clock = w.clock + 1 := by rw [← hw1]; rfl
    have f1 : w1.faults = w.faults := by rw [← hw1]; rfl
    have t1 : w1.trace = w.trace ++ [Event.protect .hdr a H5AC__NO_FLAGS_SET true] := by
      rw [← hw1]; rfl
    have n1 : w1.handles = w.handles := by rw [← hw1]; rfl
    have r1 : w1.errs = w.errs := by rw [← hw1]; rfl
    have p1 : w1.hdr.rc = w.hdr.rc ∧ w1.hdr.file_rc = w.hdr.file_rc ∧
        w1.hdr.pending_delete = w.hdr.pending_delete ∧ w1.hdr.addr = w.hdr.addr := by
      rw [← hw1]; exact ⟨rfl, rfl, rfl, rfl⟩
    have fl1 : w1.fault = w.faults (w.clock + 1) := by
      unfold World.fault; rw [f1, c1]
    rcases hdr_decr_cases w1 with ⟨hf, he⟩ | ⟨hf, h, h1, h2, h3, h4, he⟩
    · left
      refine ⟨hp, by rw [← fl1]; exact hf, ((w1.tick).log (.hdr_decr false)).throw .CANTDEC,
        ?_, ?_, ?_, ?_⟩
      · rw [e1, he]; rfl
      · show w1.trace ++ [Event.hdr_decr false] = _
        rw [t1]; simp
      · exact n1
      · show w1.errs ++ [H5E.CANTDEC] = _
        rw [r1]
    · right
      generalize hw2 : (({ w1.tick with hdr := h }).log (.hdr_decr true) : World) = w2 at he
      have e2 : close_delete ea a w =
          (let d := H5EA__hdr_delete a w2
           if d.1 < 0 then (FAIL, d.2.throw .CANTDELETE) else (SUCCEED, H5FL_FREE d.2)) := by
        rw [e1, he]; rfl
      have c2 : w2.clock = w.clock + 2 := by rw [← hw2]; show w1.clock + 1 = _; rw [c1]
      have f2 : w2.faults = w.faults := by rw [← hw2]; exact f1
      have t2 : w2.trace = w.trace ++ [Event.protect .hdr a H5AC__NO_FLAGS_SET true,
          Event.hdr_decr true] := by
        rw [← hw2]; show w1.trace ++ [Event.hdr_decr true] = _; rw [t1]; simp
      have n2 : w2.handles = w.handles := by rw [← hw2]; exact n1
      have r2 : w2.errs = w.errs := by rw [← hw2]; exact r1
      have q2 : w2.hdr = h := by rw [← hw2]; rfl
      have fl2 : w2.fault = w.faults (w.clock + 2) := by
        unfold World.fault; rw [f2, c2]
      have hf1 : w.faults (w.clock + 1) = false := by rw [← fl1]; exact hf
      by_cases hd : w2.fault = true
      · left
        refine ⟨hp, hf1, by rw [← fl2]; exact hd,
          ((w2.tick).log (.hdr_delete false)).throw .CANTDELETE, ?_, ?_, ?_, ?_⟩
        · rw [e2, hdr_delete_eval, if_pos hd]; rfl
        · show w2.trace ++ [Event.hdr_delete false] = _
          rw [t2]; simp
        · exact n2
        · show w2.errs ++ [H5E.CANTDELETE] = _
          rw [r2]
      · right
        have hd' : w2.fault = false := by simpa using hd
        refine ⟨hp, hf1, by rw [← fl2]; exact hd',
          H5FL_FREE ((({ w2.tick with hdr_present := false }).log (.hdr_delete true)).log
            (.unprotect .hdr a
              (H5AC__DIRTIED_FLAG ||| H5AC__DELETED_FLAG ||| H5AC__FREE_FILE_SPACE_FLAG) true)),
          ?_, ?_, ?_, ?_, ?_, ?_, ?_, ?_, ?_, ?_, ?_⟩
        · rw [e2, hdr_delete_eval, if_neg hd]; rfl
        · show w2.trace ++ [Event.hdr_delete true] ++ [Event.unprotect .hdr a _ true] ++
            [Event.free] = _
          rw [t2]; simp
        · show w2.handles - 1 = _
          rw [n2]
        · exact r2
        · rfl
        · exact f2
        · show w2.clock + 1 = _
          rw [c2]
        · show w2.hdr.rc = _
          rw [q2, h1, p1.1]
        · show w2.hdr.file_rc = _
          rw [q2, h2, p1.2.1]
        · show w2.hdr.pending_delete = _
          rw [q2, h3, p1.2.2.1]
        · show w2.hdr.addr = _
          rw [q2, h4, p1.2.2.2]
  · left
    have hp' : (!w.fault && (w.hdr_present && a == w.hdr.addr)) = false := by simpa using hp
    refine ⟨hp', ?_⟩
    unfold close_delete
    rw [hdr_protect_eval]
    simp only [hp']
    rfl

/-- `H5EA_close` is the decrement of `file_rc` followed by `close_delete`, when
the count reached 0 and a deletion is pending, or by `close_decr`. -/
theorem close_cases (ea : H5EA_t) (w : World) :
    ∃ w0 : World,
      w0.trace = w.trace ++ [Event.hdr_fuse_decr] ∧ w0.handles = w.handles ∧
      w0.errs = w.errs ∧ w0.faults = w.faults ∧ w0.clock = w.clock ∧
      w0.hdr_present = w.hdr_present ∧
      w0.hdr.file_rc = sub64 w.hdr.file_rc 1 ∧ w0.hdr.rc = w.hdr.rc ∧
      w0.hdr.pending_delete = w.hdr.pending_delete ∧ w0.hdr.addr = w.hdr.addr ∧
      H5EA_close ea w =
        if sub64 w.hdr.file_rc 1 = 0 ∧ w.hdr.pending_delete = true then
          close_delete ea w.hdr.addr w0
        else close_decr w0 := by
  rcases hdr_fuse_decr_cases (w.HDassert ea.hdr.isSome) with ⟨h, h1, h2, h3, h4, he⟩
  have h1' : h.file_rc = sub64 w.hdr.file_rc 1 := h1
  have h2' : h.rc = w.hdr.rc := h2
  have h3' : h.pending_delete = w.hdr.pending_delete := h3
  have h4' : h.addr = w.hdr.addr := h4
  generalize hwf : (({ w.HDassert ea.hdr.isSome with hdr := h }).log .hdr_fuse_decr : World)
    = wf at he
  have hq : wf.hdr = h := by rw [← hwf]; rfl
  have e0 : H5EA_close ea w =
      if sub64 w.hdr.file_rc 1 = 0 then
        if wf.hdr.pending_delete = true then
          close_delete ea wf.hdr.addr { wf with hdr := { wf.hdr with f := ea.f } }
        else close_decr { wf with hdr := { wf.hdr with f := ea.f } }
      else close_decr wf := by
    unfold H5EA_close
    rw [he]
    rfl
  have g1 : wf.trace = w.trace ++ [Event.hdr_fuse_decr] := by rw [← hwf]; rfl
  have g2 : wf.handles = w.handles := by rw [← hwf]; rfl
  have g3 : wf.errs = w.errs := by rw [← hwf]; rfl
  have g4 : wf.faults = w.faults := by rw [← hwf]; rfl
  have g5 : wf.clock = w.clock := by rw [← hwf]; rfl
  have g6 : wf.hdr_present = w.hdr_present := by rw [← hwf]; rfl
  by_cases hz : sub64 w.hdr.file_rc 1 = 0
  · by_cases hpd : w.hdr.pending_delete = true
    · refine ⟨{ wf with hdr := { wf.hdr with f := ea.f } }, g1, g2, g3, g4, g5, g6, ?_, ?_, ?_,
        ?_, ?_⟩
      · show wf.hdr.file_rc = _
        rw [hq, h1']
      · show wf.hdr.rc = _
        rw [hq, h2']
      · show wf.hdr.pending_delete = _
        rw [hq, h3']
      · show wf.hdr.addr = _
        rw [hq, h4']
      · have hpd' : wf.hdr.pending_delete = true := by rw [hq, h3']; exact hpd
        rw [e0, if_pos hz, if_pos (And.intro hz hpd), if_pos hpd', hq, h4']
    · refine ⟨{ wf with hdr := { wf.hdr with f := ea.f } }, g1, g2, g3, g4, g5, g6, ?_, ?_, ?_,
        ?_, ?_⟩
      · show wf.hdr.file_rc = _
        rw [hq, h1']
      · show wf.hdr.rc = _
        rw [hq, h2']
      · show wf.hdr.pending_delete = _
        rw [hq, h3']
      · show wf.hdr.addr = _
        rw [hq, h4']
      · have hpd' : ¬ wf.hdr.pending_delete = true := by rw [hq, h3']; exact hpd
        have hn : ¬ (sub64 w.hdr.file_rc 1 = 0 ∧ w.hdr.pending_delete = true) :=
          fun hc => hpd hc.2
        rw [e0, if_pos hz, if_neg hn, if_neg hpd']
  · refine ⟨wf, g1, g2, g3, g4, g5, g6, ?_, ?_, ?_, ?_, ?_⟩
    · rw [hq, h1']
    · rw [hq, h2']
    · rw [hq, h3']
    · rw [hq, h4']
    · have hn : ¬ (sub64 w.hdr.file_rc 1 = 0 ∧ w.hdr.pending_delete = true) :=
        fun hc => hz hc.1
      rw [e0, if_neg hz, if_neg hn]

/-- C13: `H5EA_close` releases the handle wrapper exactly on its successful
exit.  It returns `SUCCEED` or `FAIL`.  When it returns `SUCCEED` the last call
it made is the release of the wrapper, no earlier call of it releases one, the
number of live wrappers went down by one and no error was pushed.  When it
returns `FAIL` (the protect of the header, the decrement of the reference count
or the deletion of the array failed) it made no call that releases the wrapper:
the number of live wrappers is the one before the call, and one error,
`CANTLOAD`, `CANTDEC` or `CANTDELETE`, was pushed. -/
theorem close_frees_on_success (ea : H5EA_t) (w : World) :
    (∃ evs, (H5EA_close ea w).1 = SUCCEED ∧
      (H5EA_close ea w).2.trace = w.trace ++ evs ++ [Event.free] ∧
      (∀ e ∈ evs, e.isFree = false) ∧
      (H5EA_close ea w).2.handles = w.handles - 1 ∧ (H5EA_close ea w).2.errs = w.errs) ∨
    (∃ evs err, (H5EA_close ea w).1 = FAIL ∧
      (H5EA_close ea w).2.trace = w.trace ++ evs ∧
      (∀ e ∈ evs, e.isFree = false) ∧
      (H5EA_close ea w).2.handles = w.handles ∧
      (H5EA_close ea w).2.errs = w.errs ++ [err] ∧
      (err = H5E.CANTLOAD ∨ err = H5E.CANTDEC ∨ err = H5E.CANTDELETE)) := by
  rcases close_cases ea w with ⟨w0, g1, g2, g3, g4, g5, g6, g7, g8, g9, g10, he⟩
  rw [he]
  by_cases hc : sub64 w.hdr.file_rc 1 = 0 ∧ w.hdr.pending_delete = true
  · rw [if_pos hc]
    rcases close_delete_cases ea w.hdr.addr w0 with ⟨_, e⟩ | ⟨_, _, w', e, t, n, r⟩ |
      ⟨_, _, _, w', e, t, n, r⟩ | ⟨_, _, _, w', e, t, n, r, _⟩
    · right
      refine ⟨[Event.hdr_fuse_decr, Event.protect .hdr w.hdr.addr H5AC__NO_FLAGS_SET false],
        .CANTLOAD, ?_, ?_, ?_, ?_, ?_, Or.inl rfl⟩
      · rw [e]
      · rw [e]
        show w0.trace ++ [_] = _
        rw [g1]; simp
      · simp [Event.isFree]
      · rw [e]; exact g2
      · rw [e]
        show w0.errs ++ [_] = _
        rw [g3]
    · right
      refine ⟨[Event.hdr_fuse_decr, Event.protect .hdr w.hdr.addr H5AC__NO_FLAGS_SET true,
        Event.hdr_decr false], .CANTDEC, ?_, ?_, ?_, ?_, ?_, Or.inr (Or.inl rfl)⟩
      · rw [e]
      · rw [e]
        show w'.trace = _
        rw [t, g1]; simp
      · simp [Event.isFree]
      · rw [e]; exact n.trans g2
      · rw [e]
        show w'.errs = _
        rw [r, g3]
    · right
      refine ⟨[Event.hdr_fuse_decr, Event.protect .hdr w.hdr.addr H5AC__NO_FLAGS_SET true,
        Event.hdr_decr true, Event.hdr_delete false], .CANTDELETE, ?_, ?_, ?_, ?_, ?_,
        Or.inr (Or.inr rfl)⟩
      · rw [e]
      · rw [e]
        show w'.trace = _
        rw [t, g1]; simp
      · simp [Event.isFree]
      · rw [e]; exact n.trans g2
      · rw [e]
        show w'.errs = _
        rw [r, g3]
    · left
      refine ⟨[Event.hdr_fuse_decr, Event.protect .hdr w.hdr.addr H5AC__NO_FLAGS_SET true,
        Event.hdr_decr true, Event.hdr_delete true,
        Event.unprotect .hdr w.hdr.addr
          (H5AC__DIRTIED_FLAG ||| H5AC__DELETED_FLAG ||| H5AC__FREE_FILE_SPACE_FLAG) true],
        ?_, ?_, ?_, ?_, ?_⟩
      · rw [e]
      · rw [e]
        show w'.trace = _
        rw [t, g1]; simp
      · simp [Event.isFree]
      · rw [e]
        show w'.handles = _
        rw [n, g2]
      · rw [e]
        show w'.errs = _
        rw [r, g3]
  · rw [if_neg hc]
    rcases close_decr_spec w0 with ⟨h1, h2, h3, h4⟩ | ⟨h1, h2, h3, h4⟩
    · left
      refine ⟨[Event.hdr_fuse_decr, Event.hdr_decr true], h1, ?_, ?_, ?_, ?_⟩
      · rw [h2, g1]; simp
      · simp [Event.isFree]
      · rw [h3, g2]
      · rw [h4, g3]
    · right
      refine ⟨[Event.hdr_fuse_decr, Event.hdr_decr false], .CANTDEC, h1, ?_, ?_, ?_, ?_,
        Or.inr (Or.inl rfl)⟩
      · rw [h2, g1]; simp
      · simp [Event.isFree]
      · rw [h3, g2]
      · rw [h4, g3]


/-- A close whose decrement of the reference count fails: it returns `FAIL`,
the wrapper stays allocated and no call releases it. -/
theorem failed_close_keeps_handle :
    (H5EA_close handle100
      { smallWorld with
        hdr := { smallWorld.hdr with file_rc := 2, rc := 2 }
        handles := 2
        faults := fun n => n == 0 }).1 = FAIL ∧
    (H5EA_close handle100
      { smallWorld with
        hdr := { smallWorld.hdr with file_rc := 2, rc := 2 }
        handles := 2
        faults := fun n => n == 0 }).2.handles = 2 ∧
    (H5EA_close handle100
      { smallWorld with
        hdr := { smallWorld.hdr with file_rc := 2, rc := 2 }
        handles := 2
        faults := fun n => n == 0 }).2.trace = [Event.hdr_fuse_decr, Event.hdr_decr false] := by
  decide

/-! ## Opening and creating a handle -/

theorem open_catch_none (hdr : Option Nat) (ea : Option H5EA_t) (w : World) :
    (open_catch hdr ea none w).1 = none := by
  unfold open_catch
  cases hdr with
  | none =>
    cases ea with
    | none => rfl
    | some e =>
      dsimp only
      split <;> rfl
  | some h =>
    by_cases hu : (H5EA__hdr_unprotect h H5AC__NO_FLAGS_SET w).1 < 0
    · simp only [hu, if_true]
      cases ea with
      | none => rfl
      | some e =>
        dsimp only
        split <;> rfl
    · simp only [hu, if_false]
      cases ea with
      | none => rfl
      | some e =>
        dsimp only
        split <;> rfl

theorem hdr_unprotect_cases (h flags : Nat) (w : World) :
    (w.fault = true ∧
      H5EA__hdr_unprotect h flags w = (FAIL, (w.tick).log (.unprotect .hdr h flags false))) ∨
    (w.fault = false ∧
      H5EA__hdr_unprotect h flags w = (SUCCEED, (w.tick).log (.unprotect .hdr h flags true))) := by
  unfold H5EA__hdr_unprotect cache_unprotect
  by_cases hf : w.fault = true
  · left; refine ⟨hf, ?_⟩; rw [hf]; rfl
  · right
    have hf' : w.fault = false := by simpa using hf
    refine ⟨hf', ?_⟩; rw [hf']; rfl

theorem open_catch_some (h : Nat) (ea : H5EA_t) (w : World) :
    (w.fault = true ∧ (open_catch (some h) (some ea) (some ea) w).1 = none) ∨
    (w.fault = false ∧ open_catch (some h) (some ea) (some ea) w =
      (some ea, (w.tick).log (.unprotect .hdr h H5AC__NO_FLAGS_SET true))) := by
  unfold open_catch
  rcases hdr_unprotect_cases h H5AC__NO_FLAGS_SET w with ⟨hf, e⟩ | ⟨hf, e⟩
  · left
    refine ⟨hf, ?_⟩
    dsimp only
    rw [e]
    rw [if_pos (show FAIL < 0 by decide)]
    dsimp only
    split <;> rfl
  · right
    refine ⟨hf, ?_⟩
    dsimp only
    rw [e]
    rw [if_neg (show ¬ SUCCEED < 0 by decide)]

theorem malloc_cases (w : World) :
    (w.fault = true ∧ H5FL_MALLOC w = (none, (w.tick).log (.malloc false))) ∨
    (w.fault = false ∧ H5FL_MALLOC w =
      (some ⟨none, none⟩, ({ w.tick with handles := w.handles + 1 }).log (.malloc true))) := by
  unfold H5FL_MALLOC
  by_cases hf : w.fault = true
  · left; exact ⟨hf, if_pos hf⟩
  · right; exact ⟨by simpa using hf, if_neg hf⟩

theorem hdr_incr_cases (w : World) :
    (w.fault = true ∧ H5EA__hdr_incr w = (FAIL, (w.tick).log (.hdr_incr false))) ∨
    (w.fault = false ∧ H5EA__hdr_incr w =
      (SUCCEED,
        ({ w.tick with hdr := { w.hdr with rc := u64 (w.hdr.rc + 1) } }).log
          (.hdr_incr true))) := by
  unfold H5EA__hdr_incr
  by_cases hf : w.fault = true
  · left; exact ⟨hf, if_pos hf⟩
  · right; exact ⟨by simpa using hf, if_neg hf⟩

theorem hdr_fuse_incr_cases (w : World) :
    (w.fault = true ∧ H5EA__hdr_fuse_incr w = (FAIL, (w.tick).log (.hdr_fuse_incr false))) ∨
    (w.fault = false ∧ H5EA__hdr_fuse_incr w =
      (SUCCEED,
        ({ w.tick with hdr := { w.hdr with file_rc := u64 (w.hdr.file_rc + 1) } }).log
          (.hdr_fuse_incr true))) := by
  unfold H5EA__hdr_fuse_incr
  by_cases hf : w.fault = true
  · left; exact ⟨hf, if_pos hf⟩
  · right; exact ⟨by simpa using hf, if_neg hf⟩

/-- Lines 226-239 with the `CATCH` section: increment both counts, release the
header; the result is `NULL` unless all three calls succeed. -/
theorem take_refs (f h : Nat) (ea : H5EA_t) (w : World) :
    let i := H5EA__hdr_incr w
    let r : Option H5EA_t × World :=
      if i.1 < 0 then
        open_catch (some h) (some { ea with hdr := some h }) none (i.2.throw .CANTINC)
      else
        let u := H5EA__hdr_fuse_incr i.2
        if u.1 < 0 then
          open_catch (some h) (some { ea with hdr := some h }) none (u.2.throw .CANTINC)
        else
          open_catch (some h) (some { hdr := some h, f := some f })
            (some { hdr := some h, f := some f }) u.2
    r.1 = none ∨
    (r.1 = some ⟨some h, some f⟩ ∧
      r.2.trace = w.trace ++ [Event.hdr_incr true, Event.hdr_fuse_incr true,
        Event.unprotect .hdr h H5AC__NO_FLAGS_SET true] ∧
      r.2.hdr.rc = u64 (w.hdr.rc + 1) ∧ r.2.hdr.file_rc = u64 (w.hdr.file_rc + 1) ∧
      r.2.handles = w.handles ∧ r.2.errs = w.errs ∧
      r.2.hdr.pending_delete = w.hdr.pending_delete ∧ r.2.hdr.addr = w.hdr.addr ∧
      r.2.hdr_present = w.hdr_present ∧ r.2.faults = w.faults ∧
      r.2.clock = w.clock + 3) := by
  intro i r
  rcases hdr_incr_cases w with ⟨h0, e0⟩ | ⟨h0, e0⟩
  · left
    show (r.1 = none)
    simp only [r, i]
    rw [e0, if_pos (show FAIL < 0 by decide)]
    exact open_catch_none _ _ _
  · generalize hw1 : (({ w.tick with hdr := { w.hdr with rc := u64 (w.hdr.rc + 1) } }).log
      (.hdr_incr true) : World) = w1 at e0
    rcases hdr_fuse_incr_cases w1 with ⟨h1, e1⟩ | ⟨h1, e1⟩
    · left
      show (r.1 = none)
      simp only [r, i]
      rw [e0, if_neg (show ¬ SUCCEED < 0 by decide)]
      dsimp only
      rw [e1, if_pos (show FAIL < 0 by decide)]
      exact open_catch_none _ _ _
    · generalize hw2 : (({ w1.tick with
          hdr := { w1.hdr with file_rc := u64 (w1.hdr.file_rc + 1) } }).log
        (.hdr_fuse_incr true) : World) = w2 at e1
      have er : r = open_catch (some h) (some { hdr := some h, f := some f })
          (some { hdr := some h, f := some f }) w2 := by
        simp only [r, i]
        rw [e0, if_neg (show ¬ SUCCEED < 0 by decide)]
        dsimp only
        rw [e1, if_neg (show ¬ SUCCEED < 0 by decide)]
      rcases open_catch_some h ⟨some h, some f⟩ w2 with ⟨h2, e2⟩ | ⟨h2, e2⟩
      · left; rw [er]; exact e2
      · right
        rw [er, e2, ← hw2, ← hw1]
        refine ⟨rfl, ?_, rfl, rfl, rfl, rfl, rfl, rfl, rfl, rfl, rfl⟩
        simp

/-- A successful `H5EA_open`: the header was protected read-only, no deletion
was pending, and the five calls succeeded. -/
theorem open_success (f a : Nat) (w : World) (ea : H5EA_t)
    (hs : (H5EA_open f a w).1 = some ea) :
    ea = ⟨some a, some f⟩ ∧
    w.hdr.pending_delete = false ∧ w.hdr_present = true ∧ a = w.hdr.addr ∧
    (H5EA_open f a w).2.trace = w.trace ++
      [Event.protect .hdr a H5AC__READ_ONLY_FLAG true, Event.malloc true,
       Event.hdr_incr true, Event.hdr_fuse_incr true,
       Event.unprotect .hdr a H5AC__NO_FLAGS_SET true] ∧
    (H5EA_open f a w).2.hdr.rc = u64 (w.hdr.rc + 1) ∧
    (H5EA_open f a w).2.hdr.file_rc = u64 (w.hdr.file_rc + 1) ∧
    (H5EA_open f a w).2.handles = w.handles + 1 ∧
    (H5EA_open f a w).2.errs = w.errs ∧
    (H5EA_open f a w).2.hdr.pending_delete = false ∧
    (H5EA_open f a w).2.hdr.addr = w.hdr.addr ∧
    (H5EA_open f a w).2.hdr_present = true ∧
    (H5EA_open f a w).2.faults = w.faults ∧
    (H5EA_open f a w).2.clock = w.clock + 5 := by
  by_cases hp : (!w.fault && (w.hdr_present && a == w.hdr.addr)) = true
  · generalize hw1 : ((w.tick).log (.protect .hdr a H5AC__READ_ONLY_FLAG true) : World) = w1
    have e1 : H5EA_open f a w =
        if w1.hdr.pending_delete = true then
          open_catch (some a) none none (w1.throw .CANTOPENOBJ)
        else open_handle f a w1 := by
      unfold H5EA_open
      rw [hdr_protect_eval]
      simp only [hp, if_true]
      rw [← hw1]
    have hpd1 : w1.hdr.pending_delete = w.hdr.pending_delete := by rw [← hw1]; rfl
    by_cases hpd : w.hdr.pending_delete = true
    · rw [e1, if_pos (hpd1.trans hpd)] at hs
      exact absurd hs (by rw [open_catch_none]; exact fun h => nomatch h)
    · have hpd' : w.hdr.pending_delete = false := by simpa using hpd
      have e2 : H5EA_open f a w = open_handle f a w1 := by
        rw [e1, if_neg (by rw [hpd1]; exact hpd)]
      rw [e2] at hs ⊢
      have hpres : w.hdr_present = true ∧ a = w.hdr.addr := by
        simp only [Bool.and_eq_true, beq_iff_eq] at hp
        exact hp.2
      revert hs
      unfold open_handle
      rcases malloc_cases w1 with ⟨h0, e0⟩ | ⟨h0, e0⟩
      · rw [e0]
        dsimp only
        intro hs
        exact absurd hs (by rw [open_catch_none]; exact fun h => nomatch h)
      · generalize hw2 : (({ w1.tick with handles := w1.handles + 1 }).log (.malloc true)
          : World) = w2 at e0
        rw [e0]
        dsimp only
        intro hs
        have T := take_refs f a ⟨none, none⟩ w2
        dsimp only at T
        rcases T with hn | ⟨t1, t2, t3, t4, t5, t6, t7, t8, t9, t10, t11⟩
        · exact absurd hs (by rw [hn]; exact fun h => nomatch h)
        · have q1 : w2.trace = w.trace ++ [Event.protect .hdr a H5AC__READ_ONLY_FLAG true,
              Event.malloc true] := by
            rw [← hw2, ← hw1]; simp
          have q2 : w2.hdr = w.hdr := by rw [← hw2, ← hw1]; rfl
          have q3 : w2.handles = w.handles + 1 := by rw [← hw2, ← hw1]; rfl
          have q4 : w2.errs = w.errs := by rw [← hw2, ← hw1]; rfl
          have q5 : w2.hdr_present = w.hdr_present := by rw [← hw2, ← hw1]; rfl
          have q6 : w2.faults = w.faults := by rw [← hw2, ← hw1]; rfl
          have q7 : w2.clock = w.clock + 2 := by rw [← hw2, ← hw1]; rfl
          refine ⟨?_, hpd', hpres.1, hpres.2, ?_, ?_, ?_, ?_, ?_, ?_, ?_, ?_, ?_, ?_⟩
          · exact (Option.some.inj (hs.symm.trans t1))
          · rw [t2, q1]; simp
          · rw [t3, q2]
          · rw [t4, q2]
          · rw [t5, q3]
          · rw [t6, q4]
          · rw [t7, q2]; exact hpd'
          · rw [t8, q2]
          · rw [t9, q5]; exact hpres.1
          · rw [t10, q6]
          · rw [t11, q7]
  · have hp' : (!w.fault && (w.hdr_present && a == w.hdr.addr)) = false := by simpa using hp
    have e1 : H5EA_open f a w = open_catch none none none
        (((w.tick).log (.protect .hdr a H5AC__READ_ONLY_FLAG false)).throw .CANTPROTECT) := by
      unfold H5EA_open
      rw [hdr_protect_eval]
      simp only [hp']
      rfl
    rw [e1] at hs
    exact absurd hs (by rw [open_catch_none]; exact fun h => nomatch h)

theorem hdr_create_cases (cparam : H5EA_create_t) (w : World) :
    (H5EA__hdr_create cparam w = (HADDR_UNDEF, (w.tick).log (.hdr_create HADDR_UNDEF false))) ∨
    (w.fault = false ∧ w.eoa ≠ HADDR_UNDEF ∧
      H5EA__hdr_create cparam w =
        (w.eoa,
          ({ w.tick with
              eoa := w.eoa + H5EA_HEADER_SIZE (hdr_init cparam w.eoa)
              hdr := hdr_init cparam w.eoa
              hdr_present := true }).log (.hdr_create w.eoa true))) := by
  unfold H5EA__hdr_create
  by_cases hc : w.fault = true ∨
      H5MF_alloc_fits w (H5EA_HEADER_SIZE (hdr_init cparam w.eoa)) = false
  · left; exact if_pos hc
  · right
    refine ⟨?_, ?_, if_neg hc⟩
    · have := fun h => hc (Or.inl h)
      simpa using this
    · have h2 : ¬ H5MF_alloc_fits w (H5EA_HEADER_SIZE (hdr_init cparam w.eoa)) = false :=
        fun h => hc (Or.inr h)
      unfold H5MF_alloc_fits at h2
      simp only [decide_eq_false_iff_not, not_not] at h2
      omega

/-- A successful `H5EA_create`: the six calls succeeded, the new header is at
the old end of the allocated space and both its counts are 1. -/
theorem create_success (f : Nat) (cparam : H5EA_create_t) (w : World)
    (r : Option H5EA_t × World) (ea : H5EA_t)
    (hs : H5EA_create f cparam w = some r) (hr : r.1 = some ea) :
    ea = ⟨some w.eoa, some f⟩ ∧
    r.2.trace = w.trace ++
      [Event.hdr_create w.eoa true, Event.malloc true,
       Event.protect .hdr w.eoa H5AC__NO_FLAGS_SET true,
       Event.hdr_incr true, Event.hdr_fuse_incr true,
       Event.unprotect .hdr w.eoa H5AC__NO_FLAGS_SET true] ∧
    r.2.hdr.rc = 1 ∧
    r.2.hdr.file_rc = 1 ∧
    r.2.handles = w.handles + 1 ∧
    r.2.errs = w.errs ∧
    r.2.hdr.pending_delete = false ∧
    r.2.hdr.addr = w.eoa ∧
    r.2.hdr_present = true := by
  revert hs
  unfold H5EA_create
  dsimp only
  by_cases hc : (H5EA__hdr_create cparam w).1 = HADDR_UNDEF
  · rw [if_pos hc]
    intro hs
    obtain rfl := Option.some.inj hs
    exact absurd hr (by rw [open_catch_none]; exact fun h => nomatch h)
  rw [if_neg hc]
  rcases hdr_create_cases cparam w with e0 | ⟨h0, hne, e0⟩
  · exact absurd (by rw [e0]) hc
  · generalize hw1 : (({ w.tick with
        eoa := w.eoa + H5EA_HEADER_SIZE (hdr_init cparam w.eoa)
        hdr := hdr_init cparam w.eoa
        hdr_present := true }).log (.hdr_create w.eoa true) : World) = w1 at e0
    rw [e0]
    dsimp only
    unfold create_handle
    rcases malloc_cases w1 with ⟨h1, e1⟩ | ⟨h1, e1⟩
    · rw [e1]
      dsimp only
      intro hs
      obtain rfl := Option.some.inj hs
      exact absurd hr (by rw [open_catch_none]; exact fun h => nomatch h)
    · generalize hw2 : (({ w1.tick with handles := w1.handles + 1 }).log (.malloc true)
        : World) = w2 at e1
      rw [e1]
      dsimp only
      rw [hdr_protect_eval]
      dsimp only
      have hpr : (w2.hdr_present && w.eoa == w2.hdr.addr) = true := by
        rw [← hw2, ← hw1]
        simp [hdr_init]
      by_cases hf2 : w2.fault = true
      · simp only [hf2, Bool.not_true, Bool.false_and, Bool.false_eq_true, if_false]
        intro hs
        exact nomatch hs
      · have hf2' : w2.fault = false := by simpa using hf2
        simp only [hf2', hpr, Bool.not_false, Bool.and_self, if_true]
        generalize hw3 : ((w2.tick).log (.protect .hdr w.eoa H5AC__NO_FLAGS_SET true)
          : World) = w3
        have T := take_refs f w.eoa ⟨none, none⟩ w3
        dsimp only at T
        intro hs
        split_ifs at hs with g1 g2
        all_goals obtain rfl := Option.some.inj hs
        · exact absurd hr (by rw [open_catch_none]; exact fun h => nomatch h)
        · exact absurd hr (by rw [open_catch_none]; exact fun h => nomatch h)
        · rw [if_neg g1, if_neg g2] at T
          rcases T with hn | ⟨t1, t2, t3, t4, t5, t6, t7, t8, t9, t10, t11⟩
          · exact absurd hr (by rw [hn]; exact fun h => nomatch h)
          · have q1 : w3.trace = w.trace ++ [Event.hdr_create w.eoa true, Event.malloc true,
                Event.protect .hdr w.eoa H5AC__NO_FLAGS_SET true] := by
              rw [← hw3, ← hw2, ← hw1]; simp
            have q2 : w3.hdr = hdr_init cparam w.eoa := by rw [← hw3, ← hw2, ← hw1]; rfl
            have q3 : w3.handles = w.handles + 1 := by rw [← hw3, ← hw2, ← hw1]; rfl
            have q4 : w3.errs = w.errs := by rw [← hw3, ← hw2, ← hw1]; rfl
            have q5 : w3.hdr_present = true := by rw [← hw3, ← hw2, ← hw1]; rfl
            refine ⟨?_, ?_, ?_, ?_, ?_, ?_, ?_, ?_, ?_⟩
            · exact (Option.some.inj (hr.symm.trans t1))
            · rw [t2, q1]; simp
            · rw [t3, q2]; rfl
            · rw [t4, q2]; rfl
            · rw [t5, q3]
            · rw [t6, q4]
            · rw [t7, q2]; rfl
            · rw [t8, q2]; rfl
            · rw [t9, q5]

/-- Lines 158-169 of `H5EA_create` and lines 226-239 of `H5EA_open` with the
`CATCH` section, when none of the three calls fails: the handle is returned. -/
theorem take_refs_quiet (f h : Nat) (ea : H5EA_t) (w : World)
    (k0 : w.faults w.clock = false) (k1 : w.faults (w.clock + 1) = false)
    (k2 : w.faults (w.clock + 2) = false) :
    (if (H5EA__hdr_incr w).1 < 0 then
        open_catch (some h) (some { ea with hdr := some h }) none
          ((H5EA__hdr_incr w).2.throw .CANTINC)
      else
        if (H5EA__hdr_fuse_incr (H5EA__hdr_incr w).2).1 < 0 then
          open_catch (some h) (some { ea with hdr := some h }) none
            ((H5EA__hdr_fuse_incr (H5EA__hdr_incr w).2).2.throw .CANTINC)
        else
          open_catch (some h) (some { hdr := some h, f := some f })
            (some { hdr := some h, f := some f })
            (H5EA__hdr_fuse_incr (H5EA__hdr_incr w).2).2).1 = some ⟨some h, some f⟩ := by
  rcases hdr_incr_cases w with ⟨h0, e0⟩ | ⟨h0, e0⟩
  · exact absurd (h0.symm.trans k0) (by decide)
  · generalize hw1 : (({ w.tick with hdr := { w.hdr with rc := u64 (w.hdr.rc + 1) } }).log
      (.hdr_incr true) : World) = w1 at e0
    have f1 : w1.fault = false := by rw [← hw1]; exact k1
    rcases hdr_fuse_incr_cases w1 with ⟨h1, e1⟩ | ⟨h1, e1⟩
    · exact absurd (h1.symm.trans f1) (by decide)
    · generalize hw2 : (({ w1.tick with
          hdr := { w1.hdr with file_rc := u64 (w1.hdr.file_rc + 1) } }).log
        (.hdr_fuse_incr true) : World) = w2 at e1
      have f2 : w2.fault = false := by rw [← hw2, ← hw1]; exact k2
      rw [e0, if_neg (show ¬ SUCCEED < 0 by decide)]
      dsimp only
      rw [e1, if_neg (show ¬ SUCCEED < 0 by decide)]
      rcases open_catch_some h ⟨some h, some f⟩ w2 with ⟨h2, e2⟩ | ⟨h2, e2⟩
      · exact absurd (h2.symm.trans f2) (by decide)
      · rw [e2]

/-- When no collaborator call fails and the file has room for the header,
`H5EA_create` returns a handle on the new header. -/
theorem create_returns (f : Nat) (cparam : H5EA_create_t) (w : World) (hq : w.quiet)
    (hfit : H5MF_alloc_fits w (H5EA_HEADER_SIZE (hdr_init cparam w.eoa)) = true) :
    ∃ r, H5EA_create f cparam w = some r ∧ r.1 = some ⟨some w.eoa, some f⟩ := by
  have k0 : w.fault = false := quiet_fault hq
  have hcr : H5EA__hdr_create cparam w =
      (w.eoa,
        ({ w.tick with
            eoa := w.eoa + H5EA_HEADER_SIZE (hdr_init cparam w.eoa)
            hdr := hdr_init cparam w.eoa
            hdr_present := true }).log (.hdr_create w.eoa true)) := by
    unfold H5EA__hdr_create
    rw [if_neg]
    rw [k0, hfit]
    simp
  have hne : w.eoa ≠ HADDR_UNDEF := by
    unfold H5MF_alloc_fits at hfit
    simp only [decide_eq_true_eq] at hfit
    omega
  unfold H5EA_create
  dsimp only
  rw [hcr]
  dsimp only
  rw [if_neg hne]
  generalize hw1 : (({ w.tick with
      eoa := w.eoa + H5EA_HEADER_SIZE (hdr_init cparam w.eoa)
      hdr := hdr_init cparam w.eoa
      hdr_present := true }).log (.hdr_create w.eoa true) : World) = w1
  have c1 : w1.clock = w.clock + 1 := by rw [← hw1]; rfl
  have fl1 : w1.faults = w.faults := by rw [← hw1]; rfl
  unfold create_handle
  rcases malloc_cases w1 with ⟨h1, e1⟩ | ⟨h1, e1⟩
  · unfold World.fault at h1
    rw [fl1, c1, hq _ (by omega)] at h1
    exact absurd h1 (by decide)
  · generalize hw2 : (({ w1.tick with handles := w1.handles + 1 }).log (.malloc true)
      : World) = w2 at e1
    have c2 : w2.clock = w.clock + 2 := by rw [← hw2]; show w1.clock + 1 = _; omega
    have fl2 : w2.faults = w.faults := by rw [← hw2]; exact fl1
    have hpr : (w2.hdr_present && w.eoa == w2.hdr.addr) = true := by
      rw [← hw2, ← hw1]
      simp [hdr_init]
    have hf2 : w2.fault = false := by
      unfold World.fault
      rw [fl2, c2]
      exact hq _ (by omega)
    rw [e1]
    dsimp only
    rw [hdr_protect_eval]
    dsimp only
    simp only [hf2, hpr, Bool.not_false, Bool.and_self, if_true]
    generalize hw3 : ((w2.tick).log (.protect .hdr w.eoa H5AC__NO_FLAGS_SET true)
      : World) = w3
    have c3 : w3.clock = w.clock + 3 := by rw [← hw3]; show w2.clock + 1 = _; omega
    have fl3 : w3.faults = w.faults := by rw [← hw3]; exact fl2
    have T := take_refs_quiet f w.eoa ⟨none, none⟩ w3
      (by rw [fl3, c3]; exact hq _ (by omega))
      (by rw [fl3, c3]; exact hq _ (by omega))
      (by rw [fl3, c3]; exact hq _ (by omega))
    split_ifs at T ⊢ with g1 g2
    · exact ⟨_, rfl, T⟩
    · exact ⟨_, rfl, T⟩
    · exact ⟨_, rfl, T⟩

/-- When no collaborator call fails, the header is at the address and no
deletion is pending, `H5EA_open` returns a handle. -/
theorem open_returns (f a : Nat) (w : World) (hq : w.quiet) (hp : w.hdr_present = true)
    (ha : a = w.hdr.addr) (hpd : w.hdr.pending_delete = false) :
    (H5EA_open f a w).1 = some ⟨some a, some f⟩ := by
  have k0 : w.fault = false := quiet_fault hq
  have hpr : (!w.fault && (w.hdr_present && a == w.hdr.addr)) = true := by
    rw [k0, hp, ha]
    simp
  generalize hw1 : ((w.tick).log (.protect .hdr a H5AC__READ_ONLY_FLAG true) : World) = w1
  have c1 : w1.clock = w.clock + 1 := by rw [← hw1]; rfl
  have fl1 : w1.faults = w.faults := by rw [← hw1]; rfl
  have hpd1 : w1.hdr.pending_delete = false := by rw [← hw1]; exact hpd
  have e1 : H5EA_open f a w = open_handle f a w1 := by
    unfold H5EA_open
    rw [hdr_protect_eval]
    simp only [hpr, if_true]
    rw [hw1, if_neg (by rw [hpd1]; decide)]
  rw [e1]
  unfold open_handle
  rcases malloc_cases w1 with ⟨h1, e0⟩ | ⟨h1, e0⟩
  · unfold World.fault at h1
    rw [fl1, c1, hq _ (by omega)] at h1
    exact absurd h1 (by decide)
  · generalize hw2 : (({ w1.tick with handles := w1.handles + 1 }).log (.malloc true)
      : World) = w2 at e0
    have c2 : w2.clock = w.clock + 2 := by rw [← hw2]; show w1.clock + 1 = _; omega
    have fl2 : w2.faults = w.faults := by rw [← hw2]; exact fl1
    rw [e0]
    dsimp only
    exact take_refs_quiet f a ⟨none, none⟩ w2
      (by rw [fl2, c2]; exact hq _ (by omega))
      (by rw [fl2, c2]; exact hq _ (by omega))
      (by rw [fl2, c2]; exact hq _ (by omega))

/-- A successful `H5EA_close` that deletes nothing: both counts went down by
one (in 64-bit arithmetic) and the wrapper was released. -/
theorem close_success (ea : H5EA_t) (w : World)
    (hn : ¬ (sub64 w.hdr.file_rc 1 = 0 ∧ w.hdr.pending_delete = true))
    (hs : (H5EA_close ea w).1 = SUCCEED) :
    (H5EA_close ea w).2.hdr.rc = sub64 w.hdr.rc 1 ∧
    (H5EA_close ea w).2.hdr.file_rc = sub64 w.hdr.file_rc 1 ∧
    (H5EA_close ea w).2.trace = w.trace ++
      [Event.hdr_fuse_decr, Event.hdr_decr true, Event.free] ∧
    (H5EA_close ea w).2.handles = w.handles - 1 ∧
    (H5EA_close ea w).2.errs = w.errs ∧
    (H5EA_close ea w).2.hdr.pending_delete = w.hdr.pending_delete ∧
    (H5EA_close ea w).2.hdr.addr = w.hdr.addr ∧
    (H5EA_close ea w).2.hdr_present = w.hdr_present ∧
    (H5EA_close ea w).2.faults = w.faults ∧
    (H5EA_close ea w).2.clock = w.clock + 1 := by
  rcases close_cases ea w with ⟨w0, g1, g2, g3, g4, g5, g6, g7, g8, g9, g10, he⟩
  rw [he, if_neg hn] at hs ⊢
  rcases close_decr_cases w0 with ⟨hf, e⟩ | ⟨hf, h, h1, h2, h3, h4, e⟩
  · rw [e] at hs
    exact absurd (show FAIL = SUCCEED from hs) (by decide)
  · rw [e]
    refine ⟨?_, ?_, ?_, ?_, ?_, ?_, ?_, ?_, ?_, ?_⟩
    · show h.rc = _
      rw [h1, g8]
    · show h.file_rc = _
      rw [h2, g7]
    · show w0.trace ++ [Event.hdr_decr true] ++ [Event.free] = _
      rw [g1]; simp
    · show w0.handles - 1 = _
      rw [g2]
    · show w0.errs = _
      exact g3
    · show h.pending_delete = _
      rw [h3, g9]
    · show h.addr = _
      rw [h4, g10]
    · show w0.hdr_present = _
      exact g6
    · show w0.faults = _
      exact g4
    · show w0.clock + 1 = _
      rw [g5]

/-- In a close without fault that deletes nothing the call succeeds. -/
theorem close_quiet (ea : H5EA_t) (w : World)
    (hn : ¬ (sub64 w.hdr.file_rc 1 = 0 ∧ w.hdr.pending_delete = true))
    (hf : w.fault = false) : (H5EA_close ea w).1 = SUCCEED := by
  rcases close_cases ea w with ⟨w0, g1, g2, g3, g4, g5, g6, g7, g8, g9, g10, he⟩
  rw [he, if_neg hn]
  rcases close_decr_cases w0 with ⟨hf', e⟩ | ⟨hf', h, h1, h2, h3, h4, e⟩
  · have : w0.fault = w.fault := by unfold World.fault; rw [g4, g5]
    rw [this, hf] at hf'
    exact absurd hf' (by decide)
  · rw [e]

/-- C14: reference counts over create, open and close.  A successful
`H5EA_open` (the counts below their 64-bit maximum) leaves `rc` and `file_rc`
each exactly one higher and makes five calls, the read-only protect of the
header first and its unprotect with `H5AC__NO_FLAGS_SET` last, so it returns
with the header unprotected; a close of the returned handle that succeeds
brings both counts back to their values before the open.  A successful
`H5EA_create` leaves both counts of the new header exactly one above their
initial value, that is 1, and also ends with the unprotect of the header it
protected.  A successful `H5EA_close` with no deletion pending (the counts
positive and below `2^64`) leaves each count exactly one lower.  These calls
do succeed: when no collaborator call fails, `H5EA_open` of the header with no
deletion pending returns a handle, `H5EA_create` in a file with room for the
header returns a handle on the new header, and `H5EA_close` with no deletion
pending returns `SUCCEED`. -/
theorem open_close_counts (f a : Nat) (cparam : H5EA_create_t) (w : World) (ea : H5EA_t) :
    ((H5EA_open f a w).1 = some ea → w.hdr.rc + 1 < 2 ^ 64 → w.hdr.file_rc + 1 < 2 ^ 64 →
      (H5EA_open f a w).2.hdr.rc = w.hdr.rc + 1 ∧
      (H5EA_open f a w).2.hdr.file_rc = w.hdr.file_rc + 1 ∧
      (H5EA_open f a w).2.trace = w.trace ++
        [Event.protect .hdr a H5AC__READ_ONLY_FLAG true, Event.malloc true,
         Event.hdr_incr true, Event.hdr_fuse_incr true,
         Event.unprotect .hdr a H5AC__NO_FLAGS_SET true] ∧
      ((H5EA_close ea (H5EA_open f a w).2).1 = SUCCEED →
        (H5EA_close ea (H5EA_open f a w).2).2.hdr.rc = w.hdr.rc ∧
        (H5EA_close ea (H5EA_open f a w).2).2.hdr.file_rc = w.hdr.file_rc)) ∧
    (∀ r, H5EA_create f cparam w = some r → r.1 = some ea →
      r.2.hdr.rc = (hdr_init cparam w.eoa).rc + 1 ∧
      r.2.hdr.file_rc = (hdr_init cparam w.eoa).file_rc + 1 ∧
      r.2.trace = w.trace ++
        [Event.hdr_create w.eoa true, Event.malloc true,
         Event.protect .hdr w.eoa H5AC__NO_FLAGS_SET true,
         Event.hdr_incr true, Event.hdr_fuse_incr true,
         Event.unprotect .hdr w.eoa H5AC__NO_FLAGS_SET true]) ∧
    ((H5EA_close ea w).1 = SUCCEED → w.hdr.pending_delete = false →
      0 < w.hdr.rc → w.hdr.rc < 2 ^ 64 → 0 < w.hdr.file_rc → w.hdr.file_rc < 2 ^ 64 →
      (H5EA_close ea w).2.hdr.rc = w.hdr.rc - 1 ∧
      (H5EA_close ea w).2.hdr.file_rc = w.hdr.file_rc - 1) ∧
    (w.quiet → w.hdr_present = true → a = w.hdr.addr → w.hdr.pending_delete = false →
      (H5EA_open f a w).1 = some ⟨some a, some f⟩) ∧
    (w.quiet → H5MF_alloc_fits w (H5EA_HEADER_SIZE (hdr_init cparam w.eoa)) = true →
      ∃ r, H5EA_create f cparam w = some r ∧ r.1 = some ⟨some w.eoa, some f⟩) ∧
    (w.quiet → w.hdr.pending_delete = false → (H5EA_close ea w).1 = SUCCEED) := by
  refine ⟨?_, ?_, ?_, ?_, ?_, ?_⟩
  · intro hs hrc hfrc
    obtain ⟨_, hpd, _, _, t, r, fr, _, _, pd, _, _, _, _⟩ := open_success f a w ea hs
    have r' : (H5EA_open f a w).2.hdr.rc = w.hdr.rc + 1 := by rw [r]; exact u64_eq hrc
    have fr' : (H5EA_open f a w).2.hdr.file_rc = w.hdr.file_rc + 1 := by
      rw [fr]; exact u64_eq hfrc
    refine ⟨r', fr', t, ?_⟩
    intro hc
    have hn : ¬ (sub64 (H5EA_open f a w).2.hdr.file_rc 1 = 0 ∧
        (H5EA_open f a w).2.hdr.pending_delete = true) := by
      rw [pd]; exact fun h => nomatch h.2
    obtain ⟨c1, c2, _⟩ := close_success ea _ hn hc
    rw [c1, c2, r', fr', sub64_eq (by omega) hrc, sub64_eq (by omega) hfrc]
    exact ⟨by omega, by omega⟩
  · intro r hs hr
    obtain ⟨_, t, rc, fr, _⟩ := create_success f cparam w r ea hs hr
    exact ⟨by rw [rc]; rfl, by rw [fr]; rfl, t⟩
  · intro hs hpd h1 h2 h3 h4
    have hn : ¬ (sub64 w.hdr.file_rc 1 = 0 ∧ w.hdr.pending_delete = true) := by
      rw [hpd]; exact fun h => nomatch h.2
    obtain ⟨c1, c2, _⟩ := close_success ea w hn hs
    rw [c1, c2, sub64_eq h1 h2, sub64_eq h3 h4]
    exact ⟨rfl, rfl⟩
  · exact open_returns f a w
  · exact create_returns f cparam w
  · intro hq hpd
    exact close_quiet ea w (by rw [hpd]; exact fun h => nomatch h.2) (quiet_fault hq)

set_option maxRecDepth 100000 in
theorem open_close_counts_witness :
    (H5EA_open 1 100 smallWorld).1 = some handle100 ∧
    (H5EA_open 1 100 smallWorld).2.hdr.rc = smallWorld.hdr.rc + 1 ∧
    (H5EA_open 1 100 smallWorld).2.hdr.file_rc = smallWorld.hdr.file_rc + 1 ∧
    (H5EA_close handle100 (H5EA_open 1 100 smallWorld).2).1 = SUCCEED ∧
    (H5EA_close handle100 (H5EA_open 1 100 smallWorld).2).2.hdr.rc = smallWorld.hdr.rc ∧
    (H5EA_close handle100 (H5EA_open 1 100 smallWorld).2).2.hdr.file_rc
      = smallWorld.hdr.file_rc ∧
    ∃ r, H5EA_create 1 smallParams smallWorld = some r ∧ r.1 = some ⟨some 1000, some 1⟩ ∧
      r.2.hdr.rc = 1 ∧ r.2.hdr.file_rc = 1 ∧
      r.2.trace =
        [Event.hdr_create 1000 true, Event.malloc true,
         Event.protect .hdr 1000 H5AC__NO_FLAGS_SET true,
         Event.hdr_incr true, Event.hdr_fuse_incr true,
         Event.unprotect .hdr 1000 H5AC__NO_FLAGS_SET true] :=
  ⟨(open_close_counts 1 100 smallParams smallWorld handle100).2.2.2.1
      (quiet_of_const _ rfl) (by decide) (by decide) (by decide),
   ((open_close_counts 1 100 smallParams smallWorld handle100).1
      (by decide) (by decide) (by decide)).1,
   ((open_close_counts 1 100 smallParams smallWorld handle100).1
      (by decide) (by decide) (by decide)).2.1,
   by decide,
   (((open_close_counts 1 100 smallParams smallWorld handle100).1
      (by decide) (by decide) (by decide)).2.2.2 (by decide)).1,
   (((open_close_counts 1 100 smallParams smallWorld handle100).1
      (by decide) (by decide) (by decide)).2.2.2 (by decide)).2,
   (((open_close_counts 1 100 smallParams smallWorld ⟨some 1000, some 1⟩).2.2.2.2.1
      (quiet_of_const _ rfl) (by decide)).elim fun r hr =>
      ⟨r, hr.1, hr.2,
        ((open_close_counts 1 100 smallParams smallWorld ⟨some 1000, some 1⟩).2.1
          r hr.1 hr.2).1,
        ((open_close_counts 1 100 smallParams smallWorld ⟨some 1000, some 1⟩).2.1
          r hr.1 hr.2).2.1,
        ((open_close_counts 1 100 smallParams smallWorld ⟨some 1000, some 1⟩).2.1
          r hr.1 hr.2).2.2⟩)⟩

set_option maxRecDepth 100000 in
/-- C36: a failing `H5EA_open` does not leave the counts as they were.  On a
header with `rc = 2` and `file_rc = 2` an open whose increment of `rc` fails
(the third fallible call; the protect and the allocation before it succeed)
returns `NULL`, and its `CATCH` section closes the half-built handle:
`H5EA_close` decrements `file_rc` and `rc` although neither was incremented,
so the open ends with `rc = 1` and `file_rc = 1`.  When the increment of
`file_rc` fails instead (the fourth call), `rc` is back at 2 and `file_rc` is
1. -/
theorem failed_open_lowers_counts :
    (H5EA_open 1 100
      { smallWorld with
        hdr := { smallWorld.hdr with rc := 2, file_rc := 2 }
        faults := fun n => n == 2 }).1 = none ∧
    (H5EA_open 1 100
      { smallWorld with
        hdr := { smallWorld.hdr with rc := 2, file_rc := 2 }
        faults := fun n => n == 2 }).2.hdr.rc = 1 ∧
    (H5EA_open 1 100
      { smallWorld with
        hdr := { smallWorld.hdr with rc := 2, file_rc := 2 }
        faults := fun n => n == 2 }).2.hdr.file_rc = 1 ∧
    (H5EA_open 1 100
      { smallWorld with
        hdr := { smallWorld.hdr with rc := 2, file_rc := 2 }
        faults := fun n => n == 2 }).2.trace =
      [Event.protect .hdr 100 H5AC__READ_ONLY_FLAG true, Event.malloc true,
       Event.hdr_incr false, Event.unprotect .hdr 100 H5AC__NO_FLAGS_SET true,
       Event.hdr_fuse_decr, Event.hdr_decr true, Event.free] ∧
    (H5EA_open 1 100
      { smallWorld with
        hdr := { smallWorld.hdr with rc := 2, file_rc := 2 }
        faults := fun n => n == 3 }).1 = none ∧
    (H5EA_open 1 100
      { smallWorld with
        hdr := { smallWorld.hdr with rc := 2, file_rc := 2 }
        faults := fun n => n == 3 }).2.hdr.rc = 2 ∧
    (H5EA_open 1 100
      { smallWorld with
        hdr := { smallWorld.hdr with rc := 2, file_rc := 2 }
        faults := fun n => n == 3 }).2.hdr.file_rc = 1 := by
  decide

/-! ## Lifecycle calls while a deletion is pending -/

theorem open_absent (f a : Nat) (w : World)
    (hp : (!w.fault && (w.hdr_present && a == w.hdr.addr)) = false) :
    H5EA_open f a w =
      (none, ((w.tick).log (.protect .hdr a H5AC__READ_ONLY_FLAG false)).throw .CANTPROTECT) := by
  unfold H5EA_open
  rw [hdr_protect_eval]
  simp only [hp]
  rfl

theorem open_pending (f a : Nat) (w : World)
    (hp : (!w.fault && (w.hdr_present && a == w.hdr.addr)) = true)
    (hpd : w.hdr.pending_delete = true) (hf1 : w.faults (w.clock + 1) = false) :
    H5EA_open f a w =
      (none, (((w.tick).log (.protect .hdr a H5AC__READ_ONLY_FLAG true)).throw
        .CANTOPENOBJ).tick.log (.unprotect .hdr a H5AC__NO_FLAGS_SET true)) := by
  unfold H5EA_open
  rw [hdr_protect_eval]
  simp only [hp, if_true]
  have : ((w.tick).log (.protect .hdr a H5AC__READ_ONLY_FLAG true)).hdr.pending_delete = true :=
    hpd
  rw [if_pos this, open_catch_no_handle]
  have hf : (((w.tick).log (.protect .hdr a H5AC__READ_ONLY_FLAG true)).throw
      .CANTOPENOBJ).fault = false := hf1
  rw [if_neg (by rw [hf]; decide)]
  unfold cache_unprotect
  rw [hf]
  rfl

theorem delete_absent (f a : Nat) (w : World)
    (hp : (!w.fault && (w.hdr_present && a == w.hdr.addr)) = false) :
    H5EA_delete f a w =
      (FAIL, ((w.tick).log (.protect .hdr a H5AC__NO_FLAGS_SET false)).throw .CANTPROTECT) := by
  unfold H5EA_delete
  rw [hdr_protect_eval]
  simp only [hp]
  rfl

theorem delete_pending (f : Nat) (w : World) (hpres : w.hdr_present = true)
    (hf : w.fault = false) (hrc : w.hdr.file_rc ≠ 0) (hf1 : w.faults (w.clock + 1) = false) :
    H5EA_delete f w.hdr.addr w =
      (SUCCEED,
        ({ (w.tick).log (.protect .hdr w.hdr.addr H5AC__NO_FLAGS_SET true) with
            hdr := { w.hdr with pending_delete := true } }).tick.log
          (.unprotect .hdr w.hdr.addr H5AC__NO_FLAGS_SET true)) := by
  rw [delete_eval f w hpres hf, if_pos hrc, delete_catch_some]
  have hf' : ({ (w.tick).log (.protect .hdr w.hdr.addr H5AC__NO_FLAGS_SET true) with
      hdr := { w.hdr with pending_delete := true } } : World).fault = false := hf1
  rw [if_neg (by rw [hf']; decide)]

theorem Pending.pd_protect {addr k : Nat} {w : World} (h : Pending addr k w) :
    (!w.fault && (w.hdr_present && addr == w.hdr.addr)) = decide (0 < k) := by
  rw [quiet_fault h.pd_quiet, h.pd_present, h.pd_addr]
  simp

theorem Pending.pd_open {addr k : Nat} {w : World} (h : Pending addr k w) (f : Nat) :
    (H5EA_open f addr w).1 = none ∧ Pending addr k (H5EA_open f addr w).2 ∧
    ∃ evs, (H5EA_open f addr w).2.trace = w.trace ++ evs ∧ ndeletes evs = 0 := by
  by_cases hk : 0 < k
  · have hp := h.pd_protect
    rw [decide_eq_true hk] at hp
    have e := open_pending f addr w hp h.pd_flag (h.pd_quiet _ (Nat.le_succ _))
    rw [e]
    refine ⟨rfl, ⟨?_, h.pd_flag, h.pd_addr, h.pd_rc, h.pd_lt, h.pd_present⟩,
      [Event.protect .hdr addr H5AC__READ_ONLY_FLAG true,
       Event.unprotect .hdr addr H5AC__NO_FLAGS_SET true], ?_, rfl⟩
    · exact quiet_later (w := w) rfl (by show w.clock ≤ w.clock + 1 + 1; omega) h.pd_quiet
    · show w.trace ++ [_] ++ [_] = _
      simp
  · have hp := h.pd_protect
    rw [decide_eq_false hk] at hp
    have e := open_absent f addr w hp
    rw [e]
    refine ⟨rfl, ⟨?_, h.pd_flag, h.pd_addr, h.pd_rc, h.pd_lt, h.pd_present⟩,
      [Event.protect .hdr addr H5AC__READ_ONLY_FLAG false], rfl, rfl⟩
    exact quiet_later (w := w) rfl (by show w.clock ≤ w.clock + 1; omega) h.pd_quiet

theorem Pending.pd_delete {addr k : Nat} {w : World} (h : Pending addr k w) (f : Nat) :
    Pending addr k (H5EA_delete f addr w).2 ∧
    ∃ evs, (H5EA_delete f addr w).2.trace = w.trace ++ evs ∧ ndeletes evs = 0 := by
  by_cases hk : 0 < k
  · have hpres : w.hdr_present = true := by rw [h.pd_present]; exact decide_eq_true hk
    have e := delete_pending f w hpres (quiet_fault h.pd_quiet)
      (by rw [h.pd_rc]; omega) (h.pd_quiet _ (Nat.le_succ _))
    rw [h.pd_addr] at e
    rw [e]
    refine ⟨⟨?_, rfl, h.pd_addr, h.pd_rc, h.pd_lt, h.pd_present⟩,
      [Event.protect .hdr addr H5AC__NO_FLAGS_SET true,
       Event.unprotect .hdr addr H5AC__NO_FLAGS_SET true], ?_, rfl⟩
    · exact quiet_later (w := w) rfl (by show w.clock ≤ w.clock + 1 + 1; omega) h.pd_quiet
    · show w.trace ++ [_] ++ [_] = _
      simp
  · have hp := h.pd_protect
    rw [decide_eq_false hk] at hp
    have e := delete_absent f addr w hp
    rw [e]
    refine ⟨⟨?_, h.pd_flag, h.pd_addr, h.pd_rc, h.pd_lt, h.pd_present⟩,
      [Event.protect .hdr addr H5AC__NO_FLAGS_SET false], rfl, rfl⟩
    exact quiet_later (w := w) rfl (by show w.clock ≤ w.clock + 1; omega) h.pd_quiet

theorem Pending.pd_close {addr k : Nat} {w : World} (h : Pending addr k w) (hk : 0 < k)
    (ea : H5EA_t) :
    Pending addr (k - 1) (H5EA_close ea w).2 ∧
    ∃ evs, (H5EA_close ea w).2.trace = w.trace ++ evs ∧
      ndeletes evs = if k = 1 then 1 else 0 := by
  have hsub : sub64 w.hdr.file_rc 1 = k - 1 := by
    rw [h.pd_rc]; exact sub64_eq hk h.pd_lt
  by_cases h1 : k = 1
  · subst h1
    rcases close_cases ea w with ⟨w0, g1, g2, g3, g4, g5, g6, g7, g8, g9, g10, he⟩
    have hc : sub64 w.hdr.file_rc 1 = 0 ∧ w.hdr.pending_delete = true := ⟨hsub, h.pd_flag⟩
    rw [he, if_pos hc]
    have hpres : w.hdr_present = true := by rw [h.pd_present]; rfl
    have hf0 : w0.fault = false := by
      unfold World.fault; rw [g4, g5]; exact quiet_fault h.pd_quiet
    have hp : (!w0.fault && (w0.hdr_present && w.hdr.addr == w0.hdr.addr)) = true := by
      rw [hf0, g6, hpres, g10]; simp
    rcases close_delete_cases ea w.hdr.addr w0 with ⟨hp', _⟩ | ⟨_, hf1, _⟩ |
      ⟨_, _, hf2, _⟩ | ⟨_, _, _, w', e, t, n, r, p, fl, c, rc, frc, pd, ad⟩
    · rw [hp] at hp'; exact absurd hp' (by decide)
    · rw [g4, g5, h.pd_quiet _ (Nat.le_succ _)] at hf1; exact absurd hf1 (by decide)
    · rw [g4, g5, h.pd_quiet _ (by omega)] at hf2; exact absurd hf2 (by decide)
    · rw [e]
      refine ⟨⟨?_, ?_, ?_, ?_, by decide, ?_⟩, ?_⟩
      · exact quiet_later (w := w) (fl.trans g4) (by show w.clock ≤ w'.clock; rw [c, g5]; omega)
          h.pd_quiet
      · show w'.hdr.pending_delete = true
        rw [pd, g9]; exact h.pd_flag
      · show w'.hdr.addr = addr
        rw [ad, g10]; exact h.pd_addr
      · show w'.hdr.file_rc = 1 - 1
        rw [frc, g7, hsub]
      · show w'.hdr_present = _
        rw [p]; rfl
      · refine ⟨[Event.hdr_fuse_decr, Event.protect .hdr w.hdr.addr H5AC__NO_FLAGS_SET true,
          Event.hdr_decr true, Event.hdr_delete true,
          Event.unprotect .hdr w.hdr.addr
            (H5AC__DIRTIED_FLAG ||| H5AC__DELETED_FLAG ||| H5AC__FREE_FILE_SPACE_FLAG) true,
          Event.free], ?_, rfl⟩
        show w'.trace = _
        rw [t, g1]; simp
  · have hn : ¬ (sub64 w.hdr.file_rc 1 = 0 ∧ w.hdr.pending_delete = true) := by
      rw [hsub]; intro hc; omega
    have hs := close_quiet ea w hn (quiet_fault h.pd_quiet)
    obtain ⟨_, c2, t, _, _, pd, ad, pr, fl, cl⟩ := close_success ea w hn hs
    refine ⟨⟨?_, ?_, ?_, ?_, ?_, ?_⟩, ?_⟩
    · exact quiet_later (w := w) fl (by rw [cl]; omega) h.pd_quiet
    · rw [pd]; exact h.pd_flag
    · rw [ad]; exact h.pd_addr
    · rw [c2, hsub]
    · have := h.pd_lt; omega
    · rw [pr, h.pd_present]
      have h2 : 0 < k - 1 := by omega
      rw [decide_eq_true hk, decide_eq_true h2]
    · exact ⟨[Event.hdr_fuse_decr, Event.hdr_decr true, Event.free], t, by rw [if_neg h1]; rfl⟩

theorem ndeletes_append (a b : List Event) : ndeletes (a ++ b) = ndeletes a + ndeletes b := by
  unfold ndeletes; exact List.countP_append _ _ _

theorem ncloses_append (a b : List LifeOp) : ncloses (a ++ b) = ncloses a + ncloses b := by
  unfold ncloses; exact List.countP_append _ _ _

theorem ncloses_cons (op : LifeOp) (ops : List LifeOp) :
    ncloses (op :: ops) = ncloses ops + if op.isClose = true then 1 else 0 := by
  unfold ncloses; exact List.countP_cons _ _ _

/-- A history of lifecycle calls on a file with a pending deletion: the
references go down with the closes, and the deletion routine is called once
when the closes use up the references, else not at all. -/
theorem run_pending (addr : Nat) :
    ∀ (ops : List LifeOp) (k : Nat) (w : World), Pending addr k w → ncloses ops ≤ k →
      Pending addr (k - ncloses ops) (run_life addr ops w) ∧
      ∃ evs, (run_life addr ops w).trace = w.trace ++ evs ∧
        ndeletes evs = if 0 < k ∧ ncloses ops = k then 1 else 0 := by
  intro ops
  induction ops with
  | nil =>
    intro k w h _
    refine ⟨h, [], by simp [run_life], ?_⟩
    rw [if_neg]
    · rfl
    · intro hc
      have : ncloses [] = 0 := rfl
      omega
  | cons op ops ih =>
    intro k w h hle
    rw [ncloses_cons] at hle ⊢
    have hrun : run_life addr (op :: ops) w = run_life addr ops (LifeOp.run addr w op) := rfl
    rw [hrun]
    cases op with
    | op_open f =>
      obtain ⟨_, hp, evs1, t1, d1⟩ := h.pd_open f
      have hle' : ncloses ops ≤ k := by simpa [LifeOp.isClose] using hle
      obtain ⟨hp2, evs2, t2, d2⟩ := ih k _ hp hle'
      refine ⟨by simpa [LifeOp.isClose] using hp2, evs1 ++ evs2, ?_, ?_⟩
      · show (run_life addr ops (H5EA_open f addr w).2).trace = _
        rw [t2, t1, List.append_assoc]
      · rw [ndeletes_append, d1, d2]
        simp [LifeOp.isClose]
    | op_delete f =>
      obtain ⟨hp, evs1, t1, d1⟩ := h.pd_delete f
      have hle' : ncloses ops ≤ k := by simpa [LifeOp.isClose] using hle
      obtain ⟨hp2, evs2, t2, d2⟩ := ih k _ hp hle'
      refine ⟨by simpa [LifeOp.isClose] using hp2, evs1 ++ evs2, ?_, ?_⟩
      · show (run_life addr ops (H5EA_delete f addr w).2).trace = _
        rw [t2, t1, List.append_assoc]
      · rw [ndeletes_append, d1, d2]
        simp [LifeOp.isClose]
    | op_close ea =>
      have hle' : ncloses ops + 1 ≤ k := by simpa [LifeOp.isClose] using hle
      obtain ⟨hp, evs1, t1, d1⟩ := h.pd_close (by omega) ea
      obtain ⟨hp2, evs2, t2, d2⟩ := ih (k - 1) _ hp (by omega)
      have hk : k - 1 - ncloses ops = k - (ncloses ops + 1) := by omega
      refine ⟨?_, evs1 ++ evs2, ?_, ?_⟩
      · simp only [LifeOp.isClose, if_true]
        rw [← hk]; exact hp2
      · show (run_life addr ops (H5EA_close ea w).2).trace = _
        rw [t2, t1, List.append_assoc]
      · rw [ndeletes_append, d1, d2]
        simp only [LifeOp.isClose, if_true]
        by_cases h1 : k = 1
        · subst h1
          have : ncloses ops = 0 := by omega
          simp [this]
        · rw [if_neg h1]
          by_cases h2 : ncloses ops = k - 1
          · rw [if_pos ⟨by omega, h2⟩, if_pos ⟨by omega, by omega⟩]
          · rw [if_neg (fun hc => h2 hc.2), if_neg (fun hc => h2 (by omega))]

theorem run_life_append (addr : Nat) (a b : List LifeOp) (w : World) :
    run_life addr (a ++ b) w = run_life addr b (run_life addr a w) := by
  unfold run_life; exact List.foldl_append _ _ _ _

/-- C12: a pending deletion over a sequence of opens, closes and deletes.  The
file holds the array at `addr` with `pending_delete` set and `file_rc > 0`
file-level references; no call fails, and the sequence closes at most as many
handles as there are references.  Then every `H5EA_open` in the sequence
returns `NULL`; every `H5EA_close` in it calls the header deletion routine once
when it brings `file_rc` to 0 and not at all when it leaves `file_rc > 0`; and
over the whole sequence the deletion routine is called exactly once when the
closes use up the references and never otherwise. -/
theorem pending_delete_runs_once (addr : Nat) (ops : List LifeOp) (w : World)
    (hq : w.quiet) (hp : w.hdr_present = true) (ha : w.hdr.addr = addr)
    (hpd : w.hdr.pending_delete = true) (h0 : 0 < w.hdr.file_rc)
    (h64 : w.hdr.file_rc < 2 ^ 64) (hv : ncloses ops ≤ w.hdr.file_rc) :
    (∀ pre f post, ops = pre ++ LifeOp.op_open f :: post →
      (H5EA_open f addr (run_life addr pre w)).1 = none) ∧
    (∀ pre ea post, ops = pre ++ LifeOp.op_close ea :: post →
      (H5EA_close ea (run_life addr pre w)).2.hdr.file_rc
        = w.hdr.file_rc - (ncloses pre + 1) ∧
      ∃ evs, (H5EA_close ea (run_life addr pre w)).2.trace
          = (run_life addr pre w).trace ++ evs ∧
        ndeletes evs =
          if (H5EA_close ea (run_life addr pre w)).2.hdr.file_rc = 0 then 1 else 0) ∧
    (∃ evs, (run_life addr ops w).trace = w.trace ++ evs ∧
      ndeletes evs = if ncloses ops = w.hdr.file_rc then 1 else 0) := by
  have hP : Pending addr w.hdr.file_rc w :=
    ⟨hq, hpd, ha, rfl, h64, by rw [hp]; exact (decide_eq_true h0).symm⟩
  refine ⟨?_, ?_, ?_⟩
  · intro pre f post he
    have hle : ncloses pre ≤ w.hdr.file_rc := by
      rw [he, ncloses_append] at hv; omega
    exact ((run_pending addr pre _ w hP hle).1.pd_open f).1
  · intro pre ea post he
    have hle : ncloses pre + 1 ≤ w.hdr.file_rc := by
      rw [he, ncloses_append, ncloses_cons] at hv
      simp only [LifeOp.isClose, if_true] at hv
      omega
    have hpre := (run_pending addr pre _ w hP (by omega)).1
    obtain ⟨hp2, evs, t, d⟩ := hpre.pd_close (by omega) ea
    have hrc : (H5EA_close ea (run_life addr pre w)).2.hdr.file_rc
        = w.hdr.file_rc - (ncloses pre + 1) := by
      rw [hp2.pd_rc]; omega
    refine ⟨hrc, evs, t, ?_⟩
    rw [d, hrc]
    by_cases h1 : w.hdr.file_rc - ncloses pre = 1
    · rw [if_pos h1, if_pos (by omega)]
    · rw [if_neg h1, if_neg (by omega)]
  · obtain ⟨_, evs, t, d⟩ := run_pending addr ops _ w hP hv
    refine ⟨evs, t, ?_⟩
    rw [d]
    by_cases h1 : ncloses ops = w.hdr.file_rc
    · rw [if_pos ⟨h0, h1⟩, if_pos h1]
    · rw [if_neg (fun hc => h1 hc.2), if_neg h1]

set_option maxRecDepth 100000 in
theorem pending_delete_runs_once_witness :
    (twoHandles.hdr.pending_delete = true ∧ twoHandles.hdr.file_rc = 2) ∧
    (H5EA_open 3 100 (run_life 100 [LifeOp.op_close ⟨some 100, some 1⟩] twoHandles)).1 = none ∧
    ∃ evs,
      (run_life 100
        [LifeOp.op_close ⟨some 100, some 1⟩, LifeOp.op_open 3, LifeOp.op_delete 3,
         LifeOp.op_close ⟨some 100, some 2⟩, LifeOp.op_open 3] twoHandles).trace
        = twoHandles.trace ++ evs ∧
      ndeletes evs =
        if ncloses [LifeOp.op_close ⟨some 100, some 1⟩, LifeOp.op_open 3, LifeOp.op_delete 3,
          LifeOp.op_close ⟨some 100, some 2⟩, LifeOp.op_open 3] = twoHandles.hdr.file_rc
        then 1 else 0 :=
  ⟨by decide,
   (pending_delete_runs_once 100
      [LifeOp.op_close ⟨some 100, some 1⟩, LifeOp.op_open 3, LifeOp.op_delete 3,
       LifeOp.op_close ⟨some 100, some 2⟩, LifeOp.op_open 3] twoHandles
      (quiet_of_const _ rfl) (by decide) (by decide) (by decide) (by decide) (by decide)
      (by decide)).1 [LifeOp.op_close ⟨some 100, some 1⟩] 3
        [LifeOp.op_delete 3, LifeOp.op_close ⟨some 100, some 2⟩, LifeOp.op_open 3] rfl,
   (pending_delete_runs_once 100
      [LifeOp.op_close ⟨some 100, some 1⟩, LifeOp.op_open 3, LifeOp.op_delete 3,
       LifeOp.op_close ⟨some 100, some 2⟩, LifeOp.op_open 3] twoHandles
      (quiet_of_const _ rfl) (by decide) (by decide) (by decide) (by decide) (by decide)
      (by decide)).2.2⟩

/-- The outputs of a lookup that returns a block: the element buffer is the one
of the block and the unprotect function the one of its kind. -/
theorem lookup_thing_outputs (ea : H5EA_t) (idx acc : Nat) (w : World) (t : Thing)
    (ht : (H5EA__lookup_elmt ea idx acc w).1.thing = some t) :
    (H5EA__lookup_elmt ea idx acc w).1.thing_elmt_buf = some t ∧
    (H5EA__lookup_elmt ea idx acc w).1.thing_unprot_func = some t.kind ∧
    t.kind ≠ .sblock ∧ t.kind ≠ .hdr := by
  obtain ⟨evs, cevs, l, l', -, hw, hc, ho⟩ := lookup_summary ea idx acc w
  rw [ho] at ht ⊢
  dsimp only at ht ⊢
  rw [hc.thing] at ht
  by_cases hr : l.ret_value < 0
  · rw [if_pos hr] at ht; exact absurd ht (fun h => nomatch h)
  · rw [if_neg hr] at ht
    obtain ⟨h1, _, h3, h4, h5⟩ := hw.thing t ht
    rw [hc.thing_elmt_buf, hc.thing_unprot_func, if_neg hr, if_neg hr]
    refine ⟨h5, h4, h3, ?_⟩
    intro hk
    rw [hk] at h1
    simp [LookupLocals.held] at h1

/-- C37: every successful read-write call of `H5EA__lookup_elmt` returns a
block: `thing` is not `NULL`, the element buffer is the one of that block and
the unprotect function is the one of its kind, so the three sanity checks that
`H5EA_set` and `H5EA_support` make on the outputs hold (they leave the record
of failed assertions as it is).  Hence a successful lookup that returns
`thing = NULL` was made with read-only access. -/
theorem rw_lookup_returns_thing (ea : H5EA_t) (idx acc : Nat) (w : World)
    (hs : 0 ≤ (H5EA__lookup_elmt ea idx acc w).1.ret_value) :
    (acc &&& H5AC__READ_ONLY_FLAG = 0 →
      (∃ t, (H5EA__lookup_elmt ea idx acc w).1.thing = some t ∧
        (H5EA__lookup_elmt ea idx acc w).1.thing_elmt_buf = some t ∧
        (H5EA__lookup_elmt ea idx acc w).1.thing_unprot_func = some t.kind) ∧
      ∀ w' : World, (sanity_checks (H5EA__lookup_elmt ea idx acc w).1 w').asserts_ok
        = w'.asserts_ok) ∧
    ((H5EA__lookup_elmt ea idx acc w).1.thing = none → acc &&& H5AC__READ_ONLY_FLAG ≠ 0) := by
  have key : acc &&& H5AC__READ_ONLY_FLAG = 0 →
      ∃ t, (H5EA__lookup_elmt ea idx acc w).1.thing = some t ∧
        (H5EA__lookup_elmt ea idx acc w).1.thing_elmt_buf = some t ∧
        (H5EA__lookup_elmt ea idx acc w).1.thing_unprot_func = some t.kind := by
    intro hrw
    have hne := ((lookup_found hrw ea idx w).2 hs).2
    cases ht : (H5EA__lookup_elmt ea idx acc w).1.thing with
    | none => exact absurd ht hne
    | some t =>
      obtain ⟨h1, h2, -⟩ := lookup_thing_outputs ea idx acc w t ht
      exact ⟨t, rfl, h1, h2⟩
  refine ⟨fun hrw => ⟨key hrw, ?_⟩, ?_⟩
  · intro w'
    obtain ⟨t, h1, h2, h3⟩ := key hrw
    unfold sanity_checks
    simp [h1, h2, h3]
  · intro hn hrw
    obtain ⟨t, h1, -⟩ := key hrw
    rw [hn] at h1
    exact nomatch h1

set_option maxRecDepth 100000 in
theorem rw_lookup_returns_thing_witness :
    0 ≤ (H5EA__lookup_elmt handle100 7 H5AC__NO_FLAGS_SET smallWorld).1.ret_value ∧
    ∃ t, (H5EA__lookup_elmt handle100 7 H5AC__NO_FLAGS_SET smallWorld).1.thing = some t ∧
      (H5EA__lookup_elmt handle100 7 H5AC__NO_FLAGS_SET smallWorld).1.thing_elmt_buf = some t ∧
      (H5EA__lookup_elmt handle100 7 H5AC__NO_FLAGS_SET smallWorld).1.thing_unprot_func
        = some t.kind :=
  ⟨by decide,
   ((rw_lookup_returns_thing handle100 7 H5AC__NO_FLAGS_SET smallWorld (by decide)).1
      (by decide)).1⟩

/-- C35: the outputs of `H5EA__lookup_elmt` on failure.  When the walk itself
fails (control reaches `CATCH` with a negative `ret_value`) the lookup returns
failure and its four outputs are reset: `thing = NULL`, `thing_elmt_buf = NULL`,
`thing_elmt_idx = 0` and no unprotect function.  When the walk succeeded, the
outputs are those the walk set, whatever the `CATCH` section returns: a failure
that arises in `CATCH`, while marking the header modified or releasing a block,
does not reset them. -/
theorem lookup_failure_outputs (ea : H5EA_t) (idx acc : Nat) (w : World) :
    ((lookup_body ea idx acc w).1.ret_value < 0 →
      (H5EA__lookup_elmt ea idx acc w).1.ret_value < 0 ∧
      (H5EA__lookup_elmt ea idx acc w).1.thing = none ∧
      (H5EA__lookup_elmt ea idx acc w).1.thing_elmt_buf = none ∧
      (H5EA__lookup_elmt ea idx acc w).1.thing_elmt_idx = 0 ∧
      (H5EA__lookup_elmt ea idx acc w).1.thing_unprot_func = none) ∧
    (¬ (lookup_body ea idx acc w).1.ret_value < 0 →
      (H5EA__lookup_elmt ea idx acc w).1.thing = (lookup_body ea idx acc w).1.thing ∧
      (H5EA__lookup_elmt ea idx acc w).1.thing_elmt_buf
        = (lookup_body ea idx acc w).1.thing_elmt_buf ∧
      (H5EA__lookup_elmt ea idx acc w).1.thing_elmt_idx
        = (lookup_body ea idx acc w).1.thing_elmt_idx ∧
      (H5EA__lookup_elmt ea idx acc w).1.thing_unprot_func
        = (lookup_body ea idx acc w).1.thing_unprot_func) := by
  obtain ⟨cevs, -, hc⟩ := lookup_catch_spec (lookup_body ea idx acc w).1
    (lookup_body ea idx acc w).2
  unfold H5EA__lookup_elmt
  dsimp only
  rw [hc.thing, hc.thing_elmt_buf, hc.thing_elmt_idx, hc.thing_unprot_func]
  constructor
  · intro hr
    simp only [hr, if_true, and_self, and_true]
    by_contra hn
    have := (hc.ret_ok (not_lt.1 hn)).1
    rw [this] at hn
    exact hn hr
  · intro hr
    simp only [hr, if_false, and_self]

theorem lookup_failure_outputs_witness :
    (lookup_body handle100 7 H5AC__READ_ONLY_FLAG
      { smallWorld with
        hdr := { smallWorld.hdr with idx_blk_addr := 500 } }).1.ret_value < 0 ∧
    (H5EA__lookup_elmt handle100 7 H5AC__READ_ONLY_FLAG
      { smallWorld with
        hdr := { smallWorld.hdr with idx_blk_addr := 500 } }).1.thing = none :=
  ⟨by decide,
   ((lookup_failure_outputs handle100 7 H5AC__READ_ONLY_FLAG
      { smallWorld with
        hdr := { smallWorld.hdr with idx_blk_addr := 500 } }).1 (by decide)).2.1⟩

set_option maxRecDepth 100000 in
/-- A lookup that fails while marking the header modified: the walk created and
protected the index block, the call of `H5EA__hdr_modified` in `CATCH` fails,
and the lookup returns failure with `thing` still pointing to the index
block. -/
theorem failed_lookup_keeps_thing :
    (H5EA__lookup_elmt handle100 0 H5AC__NO_FLAGS_SET
      { smallWorld with faults := fun n => n == 2 }).1.ret_value = FAIL ∧
    (H5EA__lookup_elmt handle100 0 H5AC__NO_FLAGS_SET
      { smallWorld with faults := fun n => n == 2 }).1.thing = some ⟨.iblock, 1000⟩ ∧
    (H5EA__lookup_elmt handle100 0 H5AC__NO_FLAGS_SET
      { smallWorld with faults := fun n => n == 2 }).1.thing_unprot_func = some .iblock ∧
    (H5EA__lookup_elmt handle100 0 H5AC__NO_FLAGS_SET
      { smallWorld with faults := fun n => n == 2 }).2.trace =
      [Event.iblock_create 1000 true, Event.protect .iblock 1000 H5AC__NO_FLAGS_SET true,
       Event.hdr_modified false] := by
  decide

/-- C38: when the lookup inside `H5EA_set` fails, `H5EA_set` returns failure.
Apart from the error it pushes, the file is the one the lookup left: the
header (with `max_idx_set`) and every block store, so no element buffer has
received `elmt`; and the only call `H5EA_set` makes after the lookup is the
release of `thing` with `H5AC__NO_FLAGS_SET`, made when the failed lookup left
`thing` set (by the unprotect function the lookup returned), and no call
otherwise. -/
theorem set_after_failed_lookup (ea : H5EA_t) (idx elmt : Nat) (w : World)
    (hf : (H5EA__lookup_elmt ea idx H5AC__NO_FLAGS_SET
      { w with hdr := { w.hdr with f := ea.f } }).1.ret_value < 0) :
    (H5EA_set ea idx elmt w).1 < 0 ∧
    FileEq (H5EA__lookup_elmt ea idx H5AC__NO_FLAGS_SET
      { w with hdr := { w.hdr with f := ea.f } }).2 (H5EA_set ea idx elmt w).2 ∧
    (H5EA_set ea idx elmt w).2.hdr.stats.max_idx_set = w.hdr.stats.max_idx_set ∧
    (H5EA_set ea idx elmt w).2.trace =
      (H5EA__lookup_elmt ea idx H5AC__NO_FLAGS_SET
        { w with hdr := { w.hdr with f := ea.f } }).2.trace ++
      (match (H5EA__lookup_elmt ea idx H5AC__NO_FLAGS_SET
          { w with hdr := { w.hdr with f := ea.f } }).1.thing with
       | some t => [Event.unprotect t.kind t.addr H5AC__NO_FLAGS_SET
           (!(H5EA__lookup_elmt ea idx H5AC__NO_FLAGS_SET
             { w with hdr := { w.hdr with f := ea.f } }).2.fault)]
       | none => []) := by
  have hrw : H5AC__NO_FLAGS_SET &&& H5AC__READ_ONLY_FLAG = 0 := by decide
  have hs := (lookup_found hrw ea idx { w with hdr := { w.hdr with f := ea.f } }).1
  generalize hr : H5EA__lookup_elmt ea idx H5AC__NO_FLAGS_SET
    { w with hdr := { w.hdr with f := ea.f } } = r at hf hs
  have e : H5EA_set ea idx elmt w =
      release_thing r.1 H5AC__NO_FLAGS_SET FAIL (r.2.throw .CANTPROTECT) := by
    unfold H5EA_set
    dsimp only
    rw [hr, if_pos hf]
  rw [e]
  have hfe := release_thing_fileEq r.1 H5AC__NO_FLAGS_SET FAIL (r.2.throw .CANTPROTECT)
  have hfe2 : FileEq r.2 (release_thing r.1 H5AC__NO_FLAGS_SET FAIL
      (r.2.throw .CANTPROTECT)).2 :=
    ((FileEq.fe_refl r.2).fe_throw .CANTPROTECT).fe_trans hfe
  refine ⟨?_, hfe2, ?_, ?_⟩
  · by_contra hn
    have := release_thing_ret _ _ _ _ (not_lt.1 hn)
    rw [this] at hn
    exact hn FAIL_neg
  · rw [hfe2.hdr]
    exact hs.max_idx_set.symm ▸ rfl
  · rw [release_thing_trace]
    show r.2.trace ++ _ = _
    cases ht : r.1.thing with
    | none => rfl
    | some t =>
      have ho := (lookup_thing_outputs ea idx H5AC__NO_FLAGS_SET
        { w with hdr := { w.hdr with f := ea.f } } t (by rw [hr]; exact ht)).2.1
      rw [hr] at ho
      simp only [ho, Option.getD_some]
      rfl

set_option maxRecDepth 100000 in
theorem set_after_failed_lookup_witness :
    (H5EA__lookup_elmt handle100 7 H5AC__NO_FLAGS_SET
      { ({ smallWorld with faults := fun n => n == 0 } : World) with
        hdr := { smallWorld.hdr with f := handle100.f } }).1.ret_value < 0 ∧
    (H5EA_set handle100 7 5 { smallWorld with faults := fun n => n == 0 }).1 < 0 ∧
    (H5EA_set handle100 7 5
      { smallWorld with faults := fun n => n == 0 }).2.hdr.stats.max_idx_set
      = smallWorld.hdr.stats.max_idx_set :=
  ⟨by decide,
   (set_after_failed_lookup handle100 7 5 { smallWorld with faults := fun n => n == 0 }
      (by decide)).1,
   (set_after_failed_lookup handle100 7 5 { smallWorld with faults := fun n => n == 0 }
      (by decide)).2.2.1⟩

/-- C34: the page-init bit of the walk lies inside the bitmap and determines
the page.  For a header with valid parameters and a super block `s` of the
geometry table that the index block addresses through a super-block slot and
whose data blocks are paged (`dblk_npages > 0`): the data-block size is
`dblk_npages * dblk_page_nelmts`, and for every data-block index
`dblk_idx < ndblks` and offset `elmt_off < dblk_nelmts` the bit index the walk
computes in 64 bits, `dblk_idx * dblk_npages + elmt_off / dblk_page_nelmts`,
does not wrap, is below `ndblks * dblk_npages`, so its byte is inside the
bitmap of `(ndblks * dblk_npages + 7) / 8` bytes, and two pairs of a data-block
index and a page with the same bit index are the same pair. -/
theorem page_init_bit_in_bitmap (hdr : H5EA_hdr_t) (hg : GoodHdr hdr) (a s : Nat)
    (hs1 : hdr.iblock_nsblks ≤ s) (hs2 : s < hdr.nsblks)
    (hp : (sblock_of hdr a s).dblk_npages ≠ 0) :
    (sblock_of hdr a s).dblk_nelmts = (sblock_of hdr a s).dblk_npages * hdr.dblk_page_nelmts ∧
    (∀ dblk_idx elmt_off, dblk_idx < (sblock_of hdr a s).ndblks →
      elmt_off < (sblock_of hdr a s).dblk_nelmts →
      u64 (dblk_idx * (sblock_of hdr a s).dblk_npages + elmt_off / hdr.dblk_page_nelmts)
        = dblk_idx * (sblock_of hdr a s).dblk_npages + elmt_off / hdr.dblk_page_nelmts ∧
      elmt_off / hdr.dblk_page_nelmts < (sblock_of hdr a s).dblk_npages ∧
      dblk_idx * (sblock_of hdr a s).dblk_npages + elmt_off / hdr.dblk_page_nelmts
        < (sblock_of hdr a s).ndblks * (sblock_of hdr a s).dblk_npages ∧
      (dblk_idx * (sblock_of hdr a s).dblk_npages + elmt_off / hdr.dblk_page_nelmts) / 8
        < ((sblock_of hdr a s).ndblks * (sblock_of hdr a s).dblk_npages + 7) / 8) ∧
    (∀ d d' p p', d < (sblock_of hdr a s).ndblks → d' < (sblock_of hdr a s).ndblks →
      p < (sblock_of hdr a s).dblk_npages → p' < (sblock_of hdr a s).dblk_npages →
      u64 (d * (sblock_of hdr a s).dblk_npages + p)
        = u64 (d' * (sblock_of hdr a s).dblk_npages + p') → d = d' ∧ p = p') := by
  have hoff : s - hdr.iblock_nsblks + hdr.iblock_nsblks = s := by omega
  have hnp : (sblock_of hdr a s).dblk_npages = npages_of hdr (s - hdr.iblock_nsblks) := by
    unfold npages_of; rw [hoff]; rfl
  have hnd : (sblock_of hdr a s).ndblks
      = (hdr.sblk_info (s - hdr.iblock_nsblks + hdr.iblock_nsblks)).ndblks := by
    rw [hoff]; rfl
  have hne : (sblock_of hdr a s).dblk_nelmts
      = (hdr.sblk_info (s - hdr.iblock_nsblks + hdr.iblock_nsblks)).dblk_nelmts := by
    rw [hoff]; rfl
  have hs : s - hdr.iblock_nsblks + hdr.iblock_nsblks < hdr.nsblks := by omega
  rw [hnp] at hp ⊢
  rw [hnd, hne]
  refine ⟨?_, ?_, ?_⟩
  · obtain ⟨hn, he⟩ := @npages_paged hdr _ (by unfold npages_of at hp; exact hp)
    obtain ⟨b, hb⟩ := hg.page_pow
    obtain ⟨c, hmin, _, _⟩ := hg.min_pow
    unfold npages_of
    rw [he]
    have hd : (hdr.sblk_info (s - hdr.iblock_nsblks + hdr.iblock_nsblks)).dblk_nelmts
        = 2 ^ ((s - hdr.iblock_nsblks + hdr.iblock_nsblks + 1) / 2 + c) := by
      rw [hg.table]
      show 2 ^ _ * hdr.cparam.data_blk_min_elmts = _
      rw [hmin, pow_add]
    rw [hd, hb] at hn ⊢
    have hlt : b < (s - hdr.iblock_nsblks + hdr.iblock_nsblks + 1) / 2 + c :=
      (Nat.pow_lt_pow_iff_right (by decide)).1 hn
    have hsplit : 2 ^ ((s - hdr.iblock_nsblks + hdr.iblock_nsblks + 1) / 2 + c)
        = 2 ^ ((s - hdr.iblock_nsblks + hdr.iblock_nsblks + 1) / 2 + c - b) * 2 ^ b := by
      rw [← pow_add]; congr 1; omega
    rw [hsplit, Nat.mul_div_cancel _ (Nat.pos_pow_of_pos b (by decide))]
  · intro di k hdi hk
    have hpl := page_idx_lt hg hk hp
    have hbit := page_bit_eq hg hs hdi hpl
    unfold page_bit at hbit
    have hlt := mul_add_lt (n := npages_of hdr (s - hdr.iblock_nsblks)) hdi hpl
    refine ⟨hbit, hpl, hlt, ?_⟩
    omega
  · intro d d' p p' hd hd' hpp hpp' h
    exact page_bit_inj hg hs hd hd' hpp hpp' h

set_option maxRecDepth 100000 in
theorem page_init_bit_in_bitmap_witness :
    ((hdr_init smallParams 100).iblock_nsblks ≤ 2 ∧ 2 < (hdr_init smallParams 100).nsblks ∧
      (sblock_of (hdr_init smallParams 100) 0 2).dblk_npages ≠ 0) ∧
    (sblock_of (hdr_init smallParams 100) 0 2).dblk_nelmts
      = (sblock_of (hdr_init smallParams 100) 0 2).dblk_npages
        * (hdr_init smallParams 100).dblk_page_nelmts :=
  ⟨by decide,
   (page_init_bit_in_bitmap (hdr_init smallParams 100) good_small 0 2 (by decide) (by decide)
      (by decide)).1⟩

theorem erase_append_self {α : Type} [BEq α] [LawfulBEq α] (l : List α) (a : α) :
    List.Perm ((l ++ [a]).erase a) l := by
  induction l with
  | nil => simp
  | cons x l ih =>
    rw [List.cons_append, List.erase_cons]
    by_cases hx : (x == a) = true
    · rw [if_pos hx]
      have : x = a := eq_of_beq hx
      subst this
      exact List.perm_append_singleton _ _
    · rw [if_neg hx]
      exact List.Perm.cons _ ih

theorem create_flush_depend_cases (p c : H5AC_info_t) (w : World) :
    (H5EA__create_flush_depend (some p) c w).1 = FAIL ∨
    H5EA__create_flush_depend (some p) c w =
      (SUCCEED,
        ({ w.tick with flush_deps := w.flush_deps ++ [(p, c)] }).log
          (.flush_depend (some p) c true)) := by
  unfold H5EA__create_flush_depend
  dsimp only
  by_cases hf : w.fault = true
  · left; rw [if_pos hf]
  · right; rw [if_neg hf]

theorem destroy_flush_depend_cases (p c : H5AC_info_t) (w : World) :
    (H5EA__destroy_flush_depend (some p) c w).1 = FAIL ∨
    ((p, c) ∈ w.flush_deps ∧
      H5EA__destroy_flush_depend (some p) c w =
        (SUCCEED,
          ({ w.tick with flush_deps := w.flush_deps.erase (p, c) }).log
            (.flush_undepend (some p) c true))) := by
  unfold H5EA__destroy_flush_depend
  dsimp only
  by_cases hf : w.fault = true ∨ (p, c) ∉ w.flush_deps
  · left; rw [if_pos hf]
  · right; rw [if_neg hf]
    exact ⟨by_contra fun hn => hf (Or.inr hn), rfl⟩

theorem depend_success (p : H5AC_info_t) (ea : H5EA_t) (w : World)
    (h : 0 ≤ (H5EA_depend p ea w).1) :
    H5EA_depend p ea w =
      (SUCCEED,
        ({ ({ w with hdr := { w.hdr with f := ea.f } } : World).tick with
            flush_deps := w.flush_deps ++ [(p, H5AC_info_t.array ⟨.hdr, w.hdr.addr⟩)] }).log
          (.flush_depend (some p) (.array ⟨.hdr, w.hdr.addr⟩) true)) := by
  unfold H5EA_depend at h ⊢
  dsimp only at h ⊢
  rcases create_flush_depend_cases p (.array ⟨.hdr, w.hdr.addr⟩)
    { w with hdr := { w.hdr with f := ea.f } } with hc | hc
  · rw [if_pos (by rw [hc]; exact FAIL_neg)] at h
    exact absurd (show (0 : Int) ≤ FAIL from h) (by decide)
  · rw [hc, if_neg SUCCEED_not_neg]

theorem undepend_success (p : H5AC_info_t) (ea : H5EA_t) (w : World)
    (h : 0 ≤ (H5EA_undepend p ea w).1) :
    (p, H5AC_info_t.array ⟨.hdr, w.hdr.addr⟩) ∈ w.flush_deps ∧
    H5EA_undepend p ea w =
      (SUCCEED,
        ({ ({ w with hdr := { w.hdr with f := ea.f } } : World).tick with
            flush_deps := w.flush_deps.erase (p, H5AC_info_t.array ⟨.hdr, w.hdr.addr⟩) }).log
          (.flush_undepend (some p) (.array ⟨.hdr, w.hdr.addr⟩) true)) := by
  unfold H5EA_undepend at h ⊢
  dsimp only at h ⊢
  rcases destroy_flush_depend_cases p (.array ⟨.hdr, w.hdr.addr⟩)
    { w with hdr := { w.hdr with f := ea.f } } with hc | ⟨hm, hc⟩
  · rw [if_pos (by rw [hc]; exact FAIL_neg)] at h
    exact absurd (show (0 : Int) ≤ FAIL from h) (by decide)
  · rw [hc, if_neg SUCCEED_not_neg]
    exact ⟨hm, rfl⟩

/-- C23: `H5EA_depend(p, ea)` followed by `H5EA_undepend(p, ea)`, both
succeeding, leaves the flush-dependency edges of the cache as they were before
the two calls: the same edges with the same multiplicities.  The edge
`H5EA_depend` adds and the edge `H5EA_undepend` removes are both the edge from
`p` to the header of the array, and these are the only two calls made. -/
theorem depend_then_undepend (p : H5AC_info_t) (ea : H5EA_t) (w : World)
    (h1 : 0 ≤ (H5EA_depend p ea w).1)
    (h2 : 0 ≤ (H5EA_undepend p ea (H5EA_depend p ea w).2).1) :
    (H5EA_depend p ea w).2.flush_deps
      = w.flush_deps ++ [(p, .array ⟨.hdr, w.hdr.addr⟩)] ∧
    (H5EA_undepend p ea (H5EA_depend p ea w).2).2.flush_deps
      = (H5EA_depend p ea w).2.flush_deps.erase (p, .array ⟨.hdr, w.hdr.addr⟩) ∧
    List.Perm (H5EA_undepend p ea (H5EA_depend p ea w).2).2.flush_deps w.flush_deps ∧
    (∀ e, e ∈ (H5EA_undepend p ea (H5EA_depend p ea w).2).2.flush_deps ↔ e ∈ w.flush_deps) ∧
    (H5EA_undepend p ea (H5EA_depend p ea w).2).2.trace = w.trace ++
      [Event.flush_depend (some p) (.array ⟨.hdr, w.hdr.addr⟩) true,
       Event.flush_undepend (some p) (.array ⟨.hdr, w.hdr.addr⟩) true] := by
  have e1 := depend_success p ea w h1
  have hu := undepend_success p ea _ h2
  rw [e1] at hu ⊢
  obtain ⟨-, e2⟩ := hu
  rw [e2]
  have hperm : List.Perm
      ((({ ({ w with hdr := { w.hdr with f := ea.f } } : World).tick with
            flush_deps := w.flush_deps ++ [(p, H5AC_info_t.array ⟨.hdr, w.hdr.addr⟩)] }).log
          (.flush_depend (some p) (.array ⟨.hdr, w.hdr.addr⟩) true)).flush_deps.erase
        (p, H5AC_info_t.array ⟨.hdr, w.hdr.addr⟩)) w.flush_deps := by
    exact erase_append_self w.flush_deps (p, H5AC_info_t.array ⟨.hdr, w.hdr.addr⟩)
  refine ⟨rfl, rfl, hperm, fun e => hperm.mem_iff, ?_⟩
  show w.trace ++ [_] ++ [_] = _
  simp

set_option maxRecDepth 100000 in
theorem depend_then_undepend_witness :
    (0 ≤ (H5EA_depend (.ext 5) handle100 smallWorld).1 ∧
      0 ≤ (H5EA_undepend (.ext 5) handle100
        (H5EA_depend (.ext 5) handle100 smallWorld).2).1) ∧
    (H5EA_depend (.ext 5) handle100 smallWorld).2.flush_deps
      = smallWorld.flush_deps ++ [(.ext 5, .array ⟨.hdr, smallWorld.hdr.addr⟩)] ∧
    List.Perm (H5EA_undepend (.ext 5) handle100
      (H5EA_depend (.ext 5) handle100 smallWorld).2).2.flush_deps smallWorld.flush_deps :=
  ⟨by decide,
   (depend_then_undepend (.ext 5) handle100 smallWorld (by decide) (by decide)).1,
   (depend_then_undepend (.ext 5) handle100 smallWorld (by decide) (by decide)).2.2.1⟩

/-- A successful lookup, read-write or read-only in a file without failures,
returns what the addressing finds at the place of the index in the file the
lookup leaves; the geometry of the header is unchanged. -/
theorem lookup_at (ea : H5EA_t) (idx acc : Nat) (w : World)
    (hacc : acc &&& H5AC__READ_ONLY_FLAG = 0 ∨ (acc = H5AC__READ_ONLY_FLAG ∧ w.quiet)) :
    HdrGeom w.hdr (H5EA__lookup_elmt ea idx acc w).2.hdr ∧
    (0 ≤ (H5EA__lookup_elmt ea idx acc w).1.ret_value →
      resolve_at (H5EA__lookup_elmt ea idx acc w).2 (place w.hdr idx)
        = (H5EA__lookup_elmt ea idx acc w).1.resolved) := by
  rcases hacc with hrw | ⟨rfl, hq⟩
  · obtain ⟨h1, h2⟩ := lookup_found hrw ea idx w
    refine ⟨h1.hs_geom, fun hs => ?_⟩
    rw [← (h2 hs).1, resolve_eq, h1.hs_geom.hg_place]
  · obtain ⟨h1, h2⟩ := lookup_ro ea idx w hq
    have hg : HdrGeom w.hdr (H5EA__lookup_elmt ea idx H5AC__READ_ONLY_FLAG w).2.hdr := by
      rw [h1.hdr]
      exact ⟨rfl, rfl, rfl, rfl, rfl, rfl, rfl⟩
    refine ⟨hg, fun _ => ?_⟩
    rw [h2, ← h1.fe_resolve, resolve_eq, hg.hg_place]

/-- The thing a successful lookup returns is the block the addressing finds. -/
theorem lookup_at_thing (ea : H5EA_t) (idx acc : Nat) (w : World)
    (hacc : acc &&& H5AC__READ_ONLY_FLAG = 0 ∨ (acc = H5AC__READ_ONLY_FLAG ∧ w.quiet))
    (hs : 0 ≤ (H5EA__lookup_elmt ea idx acc w).1.ret_value) (t : Thing)
    (ht : (H5EA__lookup_elmt ea idx acc w).1.thing = some t) :
    resolve_at (H5EA__lookup_elmt ea idx acc w).2 (place w.hdr idx)
      = .found t (H5EA__lookup_elmt ea idx acc w).1.thing_elmt_idx := by
  rw [(lookup_at ea idx acc w hacc).2 hs]
  unfold LookupOut.resolved
  rw [if_neg (not_lt.2 hs), ht]

/-- A successful lookup returns no thing only where a level is undefined. -/
theorem lookup_at_none (ea : H5EA_t) (idx acc : Nat) (w : World)
    (hacc : acc &&& H5AC__READ_ONLY_FLAG = 0 ∨ (acc = H5AC__READ_ONLY_FLAG ∧ w.quiet))
    (hs : 0 ≤ (H5EA__lookup_elmt ea idx acc w).1.ret_value)
    (ht : (H5EA__lookup_elmt ea idx acc w).1.thing = none) :
    resolve_at (H5EA__lookup_elmt ea idx acc w).2 (place w.hdr idx) = .absent := by
  rw [(lookup_at ea idx acc w hacc).2 hs]
  unfold LookupOut.resolved
  rw [if_neg (not_lt.2 hs), ht]

/-- C25: an index inside the index block.  For every index
`idx < idx_blk_elmts` and every lookup that returns success, read-write, or
read-only in a file without failures whose index block is defined: the lookup
returns the index block (at the address the header holds) as `thing`, the
index block's element buffer, the within-container index `idx` and the
index-block unprotect function, and the trace of the lookup holds one more
protect of the index block than unprotects of it: the index block is left
protected for the caller. -/
theorem lookup_index_block_element (ea : H5EA_t) (idx acc : Nat) (w : World)
    (hacc : acc &&& H5AC__READ_ONLY_FLAG = 0 ∨
      (acc = H5AC__READ_ONLY_FLAG ∧ w.quiet ∧ H5F_addr_defined w.hdr.idx_blk_addr = true))
    (hidx : idx < w.hdr.cparam.idx_blk_elmts)
    (hs : 0 ≤ (H5EA__lookup_elmt ea idx acc w).1.ret_value) :
    (H5EA__lookup_elmt ea idx acc w).1.thing
      = some ⟨.iblock, (H5EA__lookup_elmt ea idx acc w).2.hdr.idx_blk_addr⟩ ∧
    (H5EA__lookup_elmt ea idx acc w).1.thing_elmt_buf
      = some ⟨.iblock, (H5EA__lookup_elmt ea idx acc w).2.hdr.idx_blk_addr⟩ ∧
    (H5EA__lookup_elmt ea idx acc w).1.thing_elmt_idx = idx ∧
    (H5EA__lookup_elmt ea idx acc w).1.thing_unprot_func = some .iblock ∧
    ∃ evs, (H5EA__lookup_elmt ea idx acc w).2.trace = w.trace ++ evs ∧
      nprot .iblock (H5EA__lookup_elmt ea idx acc w).2.hdr.idx_blk_addr evs
        = nunprot .iblock (H5EA__lookup_elmt ea idx acc w).2.hdr.idx_blk_addr evs + 1 := by
  have hacc' : acc &&& H5AC__READ_ONLY_FLAG = 0 ∨ (acc = H5AC__READ_ONLY_FLAG ∧ w.quiet) :=
    hacc.imp id (fun h => ⟨h.1, h.2.1⟩)
  have hpl : place w.hdr idx = .direct idx := by unfold place; rw [if_pos hidx]
  have key : (H5EA__lookup_elmt ea idx acc w).1.thing
        = some ⟨.iblock, (H5EA__lookup_elmt ea idx acc w).2.hdr.idx_blk_addr⟩ ∧
      (H5EA__lookup_elmt ea idx acc w).1.thing_elmt_idx = idx := by
    cases ht : (H5EA__lookup_elmt ea idx acc w).1.thing with
    | some t =>
      have h := lookup_at_thing ea idx acc w hacc' hs t ht
      rw [hpl] at h
      unfold resolve_at at h
      split_ifs at h
      injection h with h1 h2
      exact ⟨by rw [h1], h2.symm⟩
    | none =>
      exfalso
      rcases hacc with hrw | ⟨rfl, hq, hd⟩
      · exact (lookup_found hrw ea idx w).2 hs |>.2 ht
      · have hfe := (lookup_ro ea idx w hq).1
        have hdW : H5F_addr_defined
            (H5EA__lookup_elmt ea idx H5AC__READ_ONLY_FLAG w).2.hdr.idx_blk_addr = true := by
          rw [hfe.hdr]; exact hd
        have h := lookup_at_none ea idx _ w hacc' hs ht
        rw [hpl] at h
        simp only [resolve_at, hdW] at h
        split_ifs at h <;> contradiction
  obtain ⟨ht, hi⟩ := key
  obtain ⟨h1, h2, -, -⟩ := lookup_thing_outputs ea idx acc w _ ht
  obtain ⟨evs, htr, hcount, -, -⟩ := lookup_outstanding ea idx acc w
  refine ⟨ht, h1, hi, h2, evs, htr, ?_⟩
  rw [hcount, if_pos ht]

set_option maxRecDepth 100000 in
theorem lookup_index_block_element_witness :
    (0 ≤ (H5EA__lookup_elmt handle100 3 H5AC__NO_FLAGS_SET smallWorld).1.ret_value) ∧
    (H5EA__lookup_elmt handle100 3 H5AC__NO_FLAGS_SET smallWorld).1.thing_elmt_idx = 3 ∧
    (H5EA__lookup_elmt handle100 3 H5AC__NO_FLAGS_SET smallWorld).1.thing_unprot_func
      = some .iblock :=
  ⟨by decide,
   (lookup_index_block_element handle100 3 H5AC__NO_FLAGS_SET smallWorld
      (Or.inl (by decide)) (by decide) (by decide)).2.2.1,
   (lookup_index_block_element handle100 3 H5AC__NO_FLAGS_SET smallWorld
      (Or.inl (by decide)) (by decide) (by decide)).2.2.2.1⟩

/-- The offset of an index in its super block, in plain arithmetic. -/
theorem Covered.cv_off {hdr : H5EA_hdr_t} {idx s e : Nat} (hc : Covered hdr idx s e) :
    e = idx - hdr.cparam.idx_blk_elmts
      - (hdr.sblk_info (H5EA__dblock_sblk_idx hdr idx)).start_idx := by
  rw [hc.s_eq]
  have := hc.idx_eq
  omega

/-- The place of an index whose data block the index block addresses. -/
theorem place_via_iblock {hdr : H5EA_hdr_t} (hg : GoodHdr hdr) {idx : Nat}
    (hin : InRange hdr idx) (h64 : idx + 1 < 2 ^ 64) (hge : hdr.cparam.idx_blk_elmts ≤ idx)
    (hlt : H5EA__dblock_sblk_idx hdr idx < hdr.iblock_nsblks) :
    place hdr idx = .viaIblock
      ((hdr.sblk_info (H5EA__dblock_sblk_idx hdr idx)).start_dblk
        + (idx - hdr.cparam.idx_blk_elmts
            - (hdr.sblk_info (H5EA__dblock_sblk_idx hdr idx)).start_idx)
          / (hdr.sblk_info (H5EA__dblock_sblk_idx hdr idx)).dblk_nelmts)
      ((idx - hdr.cparam.idx_blk_elmts
            - (hdr.sblk_info (H5EA__dblock_sblk_idx hdr idx)).start_idx)
          % (hdr.sblk_info (H5EA__dblock_sblk_idx hdr idx)).dblk_nelmts) := by
  obtain ⟨s, e, hc⟩ := covered hg (not_lt.2 hge) hin h64
  rw [← hc.cv_off, place_covered hc (not_lt.2 hge), hc.s_eq]
  rw [hc.s_eq] at hlt
  rw [if_pos hlt, u64_eq (hc.cv_dblk_lt hg)]

/-- The place of an index whose data block a super block addresses. -/
theorem place_via_sblock {hdr : H5EA_hdr_t} (hg : GoodHdr hdr) {idx : Nat}
    (hin : InRange hdr idx) (h64 : idx + 1 < 2 ^ 64) (hge : hdr.cparam.idx_blk_elmts ≤ idx)
    (hlt : hdr.iblock_nsblks ≤ H5EA__dblock_sblk_idx hdr idx) :
    place hdr idx = .viaSblock (H5EA__dblock_sblk_idx hdr idx - hdr.iblock_nsblks)
      ((idx - hdr.cparam.idx_blk_elmts
            - (hdr.sblk_info (H5EA__dblock_sblk_idx hdr idx)).start_idx)
          / (hdr.sblk_info (H5EA__dblock_sblk_idx hdr idx)).dblk_nelmts)
      ((idx - hdr.cparam.idx_blk_elmts
            - (hdr.sblk_info (H5EA__dblock_sblk_idx hdr idx)).start_idx)
          % (hdr.sblk_info (H5EA__dblock_sblk_idx hdr idx)).dblk_nelmts) := by
  obtain ⟨s, e, hc⟩ := covered hg (not_lt.2 hge) hin h64
  rw [← hc.cv_off, place_covered hc (not_lt.2 hge), hc.s_eq]
  rw [hc.s_eq] at hlt
  rw [if_neg (not_lt.2 hlt), u64_eq]
  have h1 := Nat.div_le_self e (hdr.sblk_info s).dblk_nelmts
  have h2 := hc.idx_eq
  omega

/-- A successful lookup that returns a thing releases every index block and
super block it protected, unless the thing is that block. -/
theorem lookup_released (ea : H5EA_t) (idx acc : Nat) (w : World) (t : Thing)
    (ht : (H5EA__lookup_elmt ea idx acc w).1.thing = some t) :
    ∃ evs, (H5EA__lookup_elmt ea idx acc w).2.trace = w.trace ++ evs ∧
      (∀ k a, (⟨k, a⟩ : Thing) ≠ t → nprot k a evs = nunprot k a evs) ∧
      nprot t.kind t.addr evs = nunprot t.kind t.addr evs + 1 := by
  obtain ⟨evs, htr, hcount, -, -⟩ := lookup_outstanding ea idx acc w
  refine ⟨evs, htr, fun k a hne => ?_, ?_⟩
  · rw [hcount, ht, if_neg (fun h => hne (Option.some.inj h).symm)]
    rfl
  · rw [hcount, ht, if_pos rfl]

/-- C26: an index in a data block the index block addresses.  For a good
header and an index `idx ≥ idx_blk_elmts` of the array whose super-block index
`sblk_idx` is below `iblock->nsblks`, let
`elmt_off = idx - idx_blk_elmts - sblk_info[sblk_idx].start_idx` and
`dblk_idx = sblk_info[sblk_idx].start_dblk + elmt_off / dblk_nelmts`.  Every
lookup that returns success with a thing (read-write, or read-only in a file
without failures) finds slot `dblk_idx` of the index block defined and returns
the data block at the address in that slot, its element buffer, the index
`elmt_off % dblk_nelmts` and the data-block unprotect function; in the trace
of the lookup every index block protected is unprotected again, and the data
block is protected once more than unprotected. -/
theorem lookup_direct_data_block (ea : H5EA_t) (idx acc : Nat) (w : World)
    (hg : GoodHdr w.hdr) (hin : InRange w.hdr idx) (h64 : idx + 1 < 2 ^ 64)
    (hacc : acc &&& H5AC__READ_ONLY_FLAG = 0 ∨
      (acc = H5AC__READ_ONLY_FLAG ∧ w.quiet ∧
        (H5EA__lookup_elmt ea idx acc w).1.thing ≠ none))
    (hge : w.hdr.cparam.idx_blk_elmts ≤ idx)
    (hlt : H5EA__dblock_sblk_idx w.hdr idx < w.hdr.iblock_nsblks)
    (hs : 0 ≤ (H5EA__lookup_elmt ea idx acc w).1.ret_value) :
    H5F_addr_defined ((H5EA__lookup_elmt ea idx acc w).2.IB.dblk_addrs
      ((w.hdr.sblk_info (H5EA__dblock_sblk_idx w.hdr idx)).start_dblk
        + (idx - w.hdr.cparam.idx_blk_elmts
            - (w.hdr.sblk_info (H5EA__dblock_sblk_idx w.hdr idx)).start_idx)
          / (w.hdr.sblk_info (H5EA__dblock_sblk_idx w.hdr idx)).dblk_nelmts)) = true ∧
    (H5EA__lookup_elmt ea idx acc w).1.thing
      = some ⟨.dblock, (H5EA__lookup_elmt ea idx acc w).2.IB.dblk_addrs
          ((w.hdr.sblk_info (H5EA__dblock_sblk_idx w.hdr idx)).start_dblk
            + (idx - w.hdr.cparam.idx_blk_elmts
                - (w.hdr.sblk_info (H5EA__dblock_sblk_idx w.hdr idx)).start_idx)
              / (w.hdr.sblk_info (H5EA__dblock_sblk_idx w.hdr idx)).dblk_nelmts)⟩ ∧
    (H5EA__lookup_elmt ea idx acc w).1.thing_elmt_buf
      = (H5EA__lookup_elmt ea idx acc w).1.thing ∧
    (H5EA__lookup_elmt ea idx acc w).1.thing_elmt_idx
      = (idx - w.hdr.cparam.idx_blk_elmts
            - (w.hdr.sblk_info (H5EA__dblock_sblk_idx w.hdr idx)).start_idx)
          % (w.hdr.sblk_info (H5EA__dblock_sblk_idx w.hdr idx)).dblk_nelmts ∧
    (H5EA__lookup_elmt ea idx acc w).1.thing_unprot_func = some .dblock ∧
    ∃ evs, (H5EA__lookup_elmt ea idx acc w).2.trace = w.trace ++ evs ∧
      (∀ a, nprot .iblock a evs = nunprot .iblock a evs) ∧
      nprot .dblock ((H5EA__lookup_elmt ea idx acc w).2.IB.dblk_addrs
          ((w.hdr.sblk_info (H5EA__dblock_sblk_idx w.hdr idx)).start_dblk
            + (idx - w.hdr.cparam.idx_blk_elmts
                - (w.hdr.sblk_info (H5EA__dblock_sblk_idx w.hdr idx)).start_idx)
              / (w.hdr.sblk_info (H5EA__dblock_sblk_idx w.hdr idx)).dblk_nelmts)) evs
        = nunprot .dblock ((H5EA__lookup_elmt ea idx acc w).2.IB.dblk_addrs
          ((w.hdr.sblk_info (H5EA__dblock_sblk_idx w.hdr idx)).start_dblk
            + (idx - w.hdr.cparam.idx_blk_elmts
                - (w.hdr.sblk_info (H5EA__dblock_sblk_idx w.hdr idx)).start_idx)
              / (w.hdr.sblk_info (H5EA__dblock_sblk_idx w.hdr idx)).dblk_nelmts)) evs + 1 := by
  have hacc' : acc &&& H5AC__READ_ONLY_FLAG = 0 ∨ (acc = H5AC__READ_ONLY_FLAG ∧ w.quiet) :=
    hacc.imp id (fun h => ⟨h.1, h.2.1⟩)
  have hne : (H5EA__lookup_elmt ea idx acc w).1.thing ≠ none := by
    rcases hacc with hrw | ⟨-, -, h⟩
    · exact ((lookup_found hrw ea idx w).2 hs).2
    · exact h
  obtain ⟨t, ht⟩ := Option.ne_none_iff_exists'.1 hne
  have h := lookup_at_thing ea idx acc w hacc' hs t ht
  rw [place_via_iblock hg hin h64 hge hlt] at h
  generalize (w.hdr.sblk_info (H5EA__dblock_sblk_idx w.hdr idx)).start_dblk
        + (idx - w.hdr.cparam.idx_blk_elmts
            - (w.hdr.sblk_info (H5EA__dblock_sblk_idx w.hdr idx)).start_idx)
          / (w.hdr.sblk_info (H5EA__dblock_sblk_idx w.hdr idx)).dblk_nelmts = di at h ⊢
  generalize (idx - w.hdr.cparam.idx_blk_elmts
            - (w.hdr.sblk_info (H5EA__dblock_sblk_idx w.hdr idx)).start_idx)
          % (w.hdr.sblk_info (H5EA__dblock_sblk_idx w.hdr idx)).dblk_nelmts = k at h ⊢
  obtain ⟨h1, h2, -, -⟩ := lookup_thing_outputs ea idx acc w t ht
  obtain ⟨evs, htr, hrel, hheld⟩ := lookup_released ea idx acc w t ht
  simp only [resolve_at] at h
  split_ifs at h with c1 c2 c3 c4
  injection h with e1 e2
  subst e1
  refine ⟨by simpa using c3, ht, by rw [h1, ht], e2.symm, h2, evs, htr, ?_, hheld⟩
  intro a
  exact hrel .iblock a (fun hh => by cases hh)

set_option maxRecDepth 100000 in
theorem lookup_direct_data_block_witness :
    (0 ≤ (H5EA__lookup_elmt handle100 9 H5AC__NO_FLAGS_SET smallWorld).1.ret_value) ∧
    (H5EA__lookup_elmt handle100 9 H5AC__NO_FLAGS_SET smallWorld).1.thing_elmt_idx
      = (9 - smallWorld.hdr.cparam.idx_blk_elmts
            - (smallWorld.hdr.sblk_info (H5EA__dblock_sblk_idx smallWorld.hdr 9)).start_idx)
          % (smallWorld.hdr.sblk_info (H5EA__dblock_sblk_idx smallWorld.hdr 9)).dblk_nelmts :=
  ⟨by decide,
   (lookup_direct_data_block handle100 9 H5AC__NO_FLAGS_SET smallWorld good_small
      (in_range_small (by decide)) (by decide) (Or.inl (by decide)) (by decide) (by decide)
      (by decide)).2.2.2.1⟩

/-- What a successful lookup finds for an index whose data block a super block
addresses: the super-block slot of the index block and the data-block slot of
the super block are defined, the super block is in the file, and the thing is
what the addressing below the super block finds. -/
theorem lookup_below_sblock (ea : H5EA_t) (idx acc : Nat) (w : World)
    (hg : GoodHdr w.hdr) (hin : InRange w.hdr idx) (h64 : idx + 1 < 2 ^ 64)
    (hacc : acc &&& H5AC__READ_ONLY_FLAG = 0 ∨
      (acc = H5AC__READ_ONLY_FLAG ∧ w.quiet ∧
        (H5EA__lookup_elmt ea idx acc w).1.thing ≠ none))
    (hge : w.hdr.cparam.idx_blk_elmts ≤ idx)
    (hlt : w.hdr.iblock_nsblks ≤ H5EA__dblock_sblk_idx w.hdr idx)
    (hs : 0 ≤ (H5EA__lookup_elmt ea idx acc w).1.ret_value)
    (W : World) (hW : W = (H5EA__lookup_elmt ea idx acc w).2)
    (s e n : Nat) (hsd : s = H5EA__dblock_sblk_idx w.hdr idx)
    (he : e = idx - w.hdr.cparam.idx_blk_elmts - (w.hdr.sblk_info s).start_idx)
    (hn : n = (w.hdr.sblk_info s).dblk_nelmts) :
    H5F_addr_defined (W.IB.sblk_addrs (s - w.hdr.iblock_nsblks)) = true ∧
    (W.sblocks (W.IB.sblk_addrs (s - w.hdr.iblock_nsblks))).isSome = true ∧
    H5F_addr_defined
      ((W.sblk (W.IB.sblk_addrs (s - w.hdr.iblock_nsblks))).dblk_addrs (e / n)) = true ∧
    ∃ t, (H5EA__lookup_elmt ea idx acc w).1.thing = some t ∧
      resolve_sblock_dblock W (sblock_of w.hdr (W.IB.sblk_addrs (s - w.hdr.iblock_nsblks)) s)
        (e / n) (e % n) = .found t (H5EA__lookup_elmt ea idx acc w).1.thing_elmt_idx := by
  subst hW hsd he hn
  have hacc' : acc &&& H5AC__READ_ONLY_FLAG = 0 ∨ (acc = H5AC__READ_ONLY_FLAG ∧ w.quiet) :=
    hacc.imp id (fun h => ⟨h.1, h.2.1⟩)
  have hne : (H5EA__lookup_elmt ea idx acc w).1.thing ≠ none := by
    rcases hacc with hrw | ⟨-, -, h⟩
    · exact ((lookup_found hrw ea idx w).2 hs).2
    · exact h
  obtain ⟨t, ht⟩ := Option.ne_none_iff_exists'.1 hne
  have hgeo := (lookup_at ea idx acc w hacc').1
  have h := lookup_at_thing ea idx acc w hacc' hs t ht
  rw [place_via_sblock hg hin h64 hge hlt] at h
  have hoff : H5EA__dblock_sblk_idx w.hdr idx - w.hdr.iblock_nsblks
      + (H5EA__lookup_elmt ea idx acc w).2.hdr.iblock_nsblks
      = H5EA__dblock_sblk_idx w.hdr idx := by
    rw [hgeo.iblock_nsblks]; omega
  simp only [resolve_at, hoff, hgeo.hg_sblock_of] at h
  split_ifs at h with c1 c2 c3 c4 c5
  exact ⟨by simpa using c3, c4, by simpa using c5, t, ht, h⟩

set_option maxRecDepth 100000 in
/-- C29: the block offset of a data block created below the index block.  In
the small array (4 elements in the index block, data blocks of at least 4
elements) a write walk for index 8 creates the one data block of super block 1,
which the index block addresses through its slot 1 and whose first element is
element `8 - 4 = 4` of the array beyond the index block.  The walk passes the
block offset `start_idx + dblk_idx * dblk_nelmts = 4 + 1 * 8 = 12` to the
creation routine, where `dblk_idx` is the slot in the index block, so
`dblk_off + elmt_off mod dblk_nelmts = 12`, not `idx - idx_blk_elmts = 4`. -/
theorem iblock_dblock_offset_shifted :
    H5EA__dblock_sblk_idx smallWorld.hdr 8 = 1 ∧
    1 < smallWorld.hdr.iblock_nsblks ∧
    (smallWorld.hdr.sblk_info 1).start_idx = 4 ∧
    (smallWorld.hdr.sblk_info 1).start_dblk = 1 ∧
    (smallWorld.hdr.sblk_info 1).dblk_nelmts = 8 ∧
    Event.dblock_create 1282 ⟨.iblock, 1000⟩ 12 8 true
      ∈ (H5EA__lookup_elmt handle100 8 H5AC__NO_FLAGS_SET smallWorld).2.trace ∧
    (H5EA__lookup_elmt handle100 8 H5AC__NO_FLAGS_SET smallWorld).1.ret_value = SUCCEED ∧
    (H5EA__lookup_elmt handle100 8 H5AC__NO_FLAGS_SET smallWorld).1.thing
      = some ⟨.dblock, 1282⟩ ∧
    (H5EA__lookup_elmt handle100 8 H5AC__NO_FLAGS_SET smallWorld).1.thing_elmt_idx = 0 ∧
    12 + (8 - smallWorld.hdr.cparam.idx_blk_elmts - (smallWorld.hdr.sblk_info 1).start_idx)
        % (smallWorld.hdr.sblk_info 1).dblk_nelmts
      ≠ 8 - smallWorld.hdr.cparam.idx_blk_elmts := by
  decide

/-- The elements of the super blocks up to super block `k` of the geometry
table, together with one minimum data block, are `2^(k+1)` minimum data
blocks. -/
theorem sblk_end (m k : Nat) :
    (sblk_info_init m k).start_idx
        + (sblk_info_init m k).ndblks * (sblk_info_init m k).dblk_nelmts + m
      = 2 ^ (k + 1) * m := by
  have h1 := sblk_start_fst m k
  show (sblk_start m k).1 + 2 ^ (k / 2) * (2 ^ ((k + 1) / 2) * m) + m = _
  rw [← Nat.mul_assoc, half_pow, pow_succ]
  have : 2 ^ k * 2 * m = 2 ^ k * m + 2 ^ k * m := by ring
  omega

/-- C30: the closed form of the super-block index against the geometry table.
For a good header (geometry table as header initialisation computes it,
`data_blk_min_elmts` a power of two) and every index `idx ≥ idx_blk_elmts` of
the array with `idx + 1 < 2^64`: the closed form
`H5EA__dblock_sblk_idx` is `floor(log2(1 + (idx - idx_blk_elmts) /
data_blk_min_elmts))`; it is the smallest `k` whose super block ends beyond
`idx - idx_blk_elmts`, that is with
`start_idx(k) + ndblks(k) * dblk_nelmts(k) > idx - idx_blk_elmts`; and the
offset `elmt_idx` the walk computes in 64 bits is
`idx - idx_blk_elmts - start_idx`, which is below `ndblks * dblk_nelmts` of that
super block. -/
theorem sblk_idx_closed_form (hdr : H5EA_hdr_t) (hg : GoodHdr hdr) (idx : Nat)
    (hge : hdr.cparam.idx_blk_elmts ≤ idx) (hin : InRange hdr idx)
    (h64 : idx + 1 < 2 ^ 64) :
    H5EA__dblock_sblk_idx hdr idx
      = Nat.log 2 ((idx - hdr.cparam.idx_blk_elmts) / hdr.cparam.data_blk_min_elmts + 1) ∧
    idx - hdr.cparam.idx_blk_elmts
      < (hdr.sblk_info (H5EA__dblock_sblk_idx hdr idx)).start_idx
        + (hdr.sblk_info (H5EA__dblock_sblk_idx hdr idx)).ndblks
          * (hdr.sblk_info (H5EA__dblock_sblk_idx hdr idx)).dblk_nelmts ∧
    (∀ k, idx - hdr.cparam.idx_blk_elmts
        < (hdr.sblk_info k).start_idx + (hdr.sblk_info k).ndblks * (hdr.sblk_info k).dblk_nelmts →
      H5EA__dblock_sblk_idx hdr idx ≤ k) ∧
    (hdr.sblk_info (H5EA__dblock_sblk_idx hdr idx)).start_idx
      ≤ idx - hdr.cparam.idx_blk_elmts ∧
    sub64 idx (u64 (hdr.cparam.idx_blk_elmts
        + (hdr.sblk_info (H5EA__dblock_sblk_idx hdr idx)).start_idx))
      = idx - hdr.cparam.idx_blk_elmts
        - (hdr.sblk_info (H5EA__dblock_sblk_idx hdr idx)).start_idx ∧
    idx - hdr.cparam.idx_blk_elmts - (hdr.sblk_info (H5EA__dblock_sblk_idx hdr idx)).start_idx
      < (hdr.sblk_info (H5EA__dblock_sblk_idx hdr idx)).ndblks
        * (hdr.sblk_info (H5EA__dblock_sblk_idx hdr idx)).dblk_nelmts := by
  obtain ⟨s, e, hc⟩ := covered hg (not_lt.2 hge) hin h64
  have hoff := hc.cv_off
  have he := hc.e_eq
  have hel := hc.e_lt
  have hie := hc.idx_eq
  rw [hc.s_eq] at hoff ⊢
  obtain ⟨a, hmin, -, -⟩ := hg.min_pow
  have hminpos : 0 < hdr.cparam.data_blk_min_elmts := by
    rw [hmin]; exact Nat.pos_pow_of_pos a (by decide)
  have hx : sub64 idx hdr.cparam.idx_blk_elmts = idx - hdr.cparam.idx_blk_elmts :=
    sub64_eq (by omega) (by omega)
  have hy : (idx - hdr.cparam.idx_blk_elmts) / hdr.cparam.data_blk_min_elmts + 1 < 2 ^ 64 := by
    have := Nat.div_le_self (idx - hdr.cparam.idx_blk_elmts) hdr.cparam.data_blk_min_elmts
    omega
  have hs : s = H5VM_log2_gen
      ((idx - hdr.cparam.idx_blk_elmts) / hdr.cparam.data_blk_min_elmts + 1) := by
    rw [← hc.s_eq]
    unfold H5EA__dblock_sblk_idx
    rw [hx, u64_eq hy]
  obtain ⟨h1, h2⟩ := log2_gen_spec _ (Nat.succ_pos _) hy
  rw [← hs] at h1 h2
  refine ⟨?_, by omega, ?_, by omega, by rw [he, hoff], by omega⟩
  · symm
    exact (Nat.log_eq_iff (Or.inr ⟨by decide, by omega⟩)).2 ⟨h1, h2⟩
  · intro k hk
    by_contra hlt
    have hks : k + 1 ≤ s := by omega
    have hend := sblk_end hdr.cparam.data_blk_min_elmts k
    rw [← hg.table] at hend
    have hstart : (hdr.sblk_info s).start_idx + hdr.cparam.data_blk_min_elmts
        = 2 ^ s * hdr.cparam.data_blk_min_elmts := by
      rw [hg.table]; exact sblk_start_fst _ s
    have hpow : 2 ^ (k + 1) * hdr.cparam.data_blk_min_elmts
        ≤ 2 ^ s * hdr.cparam.data_blk_min_elmts :=
      Nat.mul_le_mul_right _ (Nat.pow_le_pow_right (by decide) hks)
    omega

set_option maxRecDepth 100000 in
theorem sblk_idx_closed_form_witness :
    (smallWorld.hdr.cparam.idx_blk_elmts ≤ 30 ∧ (30 : Nat) + 1 < 2 ^ 64) ∧
    H5EA__dblock_sblk_idx smallWorld.hdr 30 = Nat.log 2
      ((30 - smallWorld.hdr.cparam.idx_blk_elmts) / smallWorld.hdr.cparam.data_blk_min_elmts
        + 1) :=
  ⟨by decide,
   (sblk_idx_closed_form smallWorld.hdr good_small 30 (by decide)
      (in_range_small (by decide)) (by decide)).1⟩

/-! ### The body of the walk as a run of statements -/

theorem WalkSteps.ws_single {acc idx s e : Nat} {h0 : H5EA_hdr_t} {l l' : LookupLocals}
    {w w' : World} (h : WalkStep acc idx s e h0 l w l' w') :
    WalkSteps acc idx s e h0 l w l' w' :=
  .tail (.refl l w) h

theorem WalkSteps.ws_trans {acc idx s e : Nat} {h0 : H5EA_hdr_t} {l l1 l2 : LookupLocals}
    {w w1 w2 : World} (h1 : WalkSteps acc idx s e h0 l w l1 w1)
    (h2 : WalkSteps acc idx s e h0 l1 w1 l2 w2) : WalkSteps acc idx s e h0 l w l2 w2 := by
  induction h2 with
  | refl => exact h1
  | tail _ hs ih => exact .tail ih hs

/-- A check-and-create statement leaves the block pointers and `thing` of the
locals as they are. -/
theorem ensure_iblock_blocks (acc : Nat) (l : LookupLocals) (w : World) :
    (lookup_ensure_iblock acc l w).locals.iblock = l.iblock ∧
    (lookup_ensure_iblock acc l w).locals.sblock = l.sblock ∧
    (lookup_ensure_iblock acc l w).locals.thing = l.thing := by
  unfold lookup_ensure_iblock
  dsimp only
  split_ifs <;> exact ⟨rfl, rfl, rfl⟩

theorem ensure_iblock_dblock_blocks (acc s ib i : Nat) (l : LookupLocals) (w : World) :
    (lookup_ensure_iblock_dblock acc s ib i l w).locals.iblock = l.iblock ∧
    (lookup_ensure_iblock_dblock acc s ib i l w).locals.sblock = l.sblock ∧
    (lookup_ensure_iblock_dblock acc s ib i l w).locals.thing = l.thing := by
  unfold lookup_ensure_iblock_dblock
  dsimp only
  split_ifs <;> exact ⟨rfl, rfl, rfl⟩

theorem ensure_sblock_blocks (acc s ib i : Nat) (l : LookupLocals) (w : World) :
    (lookup_ensure_sblock acc s ib i l w).locals.iblock = l.iblock ∧
    (lookup_ensure_sblock acc s ib i l w).locals.sblock = l.sblock ∧
    (lookup_ensure_sblock acc s ib i l w).locals.thing = l.thing := by
  unfold lookup_ensure_sblock
  dsimp only
  split_ifs <;> exact ⟨rfl, rfl, rfl⟩

theorem ensure_sblock_dblock_blocks (acc s : Nat) (sb : H5EA_sblock_t) (i : Nat)
    (l : LookupLocals) (w : World) :
    (lookup_ensure_sblock_dblock acc s sb i l w).locals.iblock = l.iblock ∧
    (lookup_ensure_sblock_dblock acc s sb i l w).locals.sblock = l.sblock ∧
    (lookup_ensure_sblock_dblock acc s sb i l w).locals.thing = l.thing := by
  unfold lookup_ensure_sblock_dblock
  dsimp only
  split_ifs <;> exact ⟨rfl, rfl, rfl⟩

theorem ensure_page_blocks (acc : Nat) (sb : H5EA_sblock_t) (i a : Nat)
    (l : LookupLocals) (w : World) :
    (lookup_ensure_page acc sb i a l w).locals.iblock = l.iblock ∧
    (lookup_ensure_page acc sb i a l w).locals.sblock = l.sblock ∧
    (lookup_ensure_page acc sb i a l w).locals.thing = l.thing := by
  unfold lookup_ensure_page
  dsimp only
  split_ifs <;> exact ⟨rfl, rfl, rfl⟩

/-- Lines 546-610 as a run of statements. -/
theorem sblock_dblock_steps (acc idx s e : Nat) (h0 : H5EA_hdr_t) (sb : H5EA_sblock_t)
    (l : LookupLocals) (w : World) (hsb : l.sblock = some sb) (ht : l.thing = none)
    (hd : H5F_addr_defined
      ((w.sblk sb.addr).dblk_addrs (u64 (e / sb.dblk_nelmts))) = true) :
    WalkSteps acc idx s e h0 l w
      (lookup_sblock_dblock acc sb (u64 (e / sb.dblk_nelmts)) (e % sb.dblk_nelmts) l w).1
      (lookup_sblock_dblock acc sb (u64 (e / sb.dblk_nelmts)) (e % sb.dblk_nelmts) l w).2 := by
  unfold lookup_sblock_dblock
  by_cases hp : sb.dblk_npages ≠ 0
  · rw [if_pos hp]
    dsimp only
    have hstep := @WalkStep.ensure_page acc idx s e h0
      l w sb hsb ht hp hd
    have hfr := ensure_page_blocks acc sb
      (u64 (u64 (e / sb.dblk_nelmts) * sb.dblk_npages
        + e % sb.dblk_nelmts / w.hdr.dblk_page_nelmts))
      (u64 ((w.sblk sb.addr).dblk_addrs (u64 (e / sb.dblk_nelmts))
        + H5EA_DBLOCK_PREFIX_SIZE w.hdr
        + e % sb.dblk_nelmts / w.hdr.dblk_page_nelmts * sb.dblk_page_size)) l w
    have hpost := ensure_page_frame acc sb
      (u64 (u64 (e / sb.dblk_nelmts) * sb.dblk_npages
        + e % sb.dblk_nelmts / w.hdr.dblk_page_nelmts))
      (u64 ((w.sblk sb.addr).dblk_addrs (u64 (e / sb.dblk_nelmts))
        + H5EA_DBLOCK_PREFIX_SIZE w.hdr
        + e % sb.dblk_nelmts / w.hdr.dblk_page_nelmts * sb.dblk_page_size)) l w
    revert hstep hfr hpost
    generalize lookup_ensure_page acc sb
      (u64 (u64 (e / sb.dblk_nelmts) * sb.dblk_npages
        + e % sb.dblk_nelmts / w.hdr.dblk_page_nelmts))
      (u64 ((w.sblk sb.addr).dblk_addrs (u64 (e / sb.dblk_nelmts))
        + H5EA_DBLOCK_PREFIX_SIZE w.hdr
        + e % sb.dblk_nelmts / w.hdr.dblk_page_nelmts * sb.dblk_page_size)) l w = F
    intro hstep hfr hpost
    cases F with
    | at_catch l1 w1 => exact .ws_single hstep
    | next l1 w1 =>
      dsimp only [Flow.locals, Flow.world, Flow.isNext] at hstep hfr hpost ⊢
      obtain ⟨bl, hbit⟩ := hpost
      have hbit := hbit rfl
      rw [← bl.hdr] at hbit ⊢
      rw [← bl.dblk_addrs sb.addr] at hd ⊢
      exact .tail (.ws_single hstep)
        (WalkStep.page l1 w1 sb (by rw [hfr.2.1, hsb]) (by rw [hfr.2.2, ht]) hp hd hbit)
  · rw [if_neg hp]
    exact .ws_single (WalkStep.sblock_dblock l w sb hsb ht (by simpa using hp) hd)

/-- Lines 503-611 as a run of statements. -/
theorem sblock_steps (acc idx s e : Nat) (h0 : H5EA_hdr_t) (ib : Nat)
    (l : LookupLocals) (w : World) (hi : l.iblock = some ib) (hsb : l.sblock = none)
    (ht : l.thing = none) (hidx : ¬ idx < h0.cparam.idx_blk_elmts)
    (hs : ¬ s < h0.iblock_nsblks)
    (hd : H5F_addr_defined ((w.iblk ib).sblk_addrs (s - h0.iblock_nsblks)) = true) :
    WalkSteps acc idx s e h0 l w
      (lookup_sblock acc s ((w.iblk ib).sblk_addrs (s - h0.iblock_nsblks)) e l w).1
      (lookup_sblock acc s ((w.iblk ib).sblk_addrs (s - h0.iblock_nsblks)) e l w).2 := by
  unfold lookup_sblock
  dsimp only
  cases hp : (H5EA__sblock_protect ((w.iblk ib).sblk_addrs (s - h0.iblock_nsblks)) s acc w).1
    with
  | none =>
    dsimp only
    exact .ws_single (WalkStep.sblock_protect_fail l w ib hi hsb ht hidx hs hd hp)
  | some sb =>
    dsimp only
    have h1 := @WalkStep.sblock_protect_ok acc idx s e h0 l w ib sb hi hsb ht hidx hs hd hp
    have hstep := @WalkStep.ensure_sblock_dblock acc idx s e h0 { l with sblock := some sb }
      ((H5EA__sblock_protect ((w.iblk ib).sblk_addrs (s - h0.iblock_nsblks))
          s acc w).2.HDassert (decide (u64 (e / sb.dblk_nelmts) < sb.ndblks))) sb rfl ht
    have hfr := ensure_sblock_dblock_blocks acc s sb (u64 (e / sb.dblk_nelmts))
      { l with sblock := some sb }
      ((H5EA__sblock_protect ((w.iblk ib).sblk_addrs (s - h0.iblock_nsblks))
          s acc w).2.HDassert (decide (u64 (e / sb.dblk_nelmts) < sb.ndblks)))
    have hpost := (ensure_sblock_dblock_post acc s sb (u64 (e / sb.dblk_nelmts))
      { l with sblock := some sb }
      ((H5EA__sblock_protect ((w.iblk ib).sblk_addrs (s - h0.iblock_nsblks))
          s acc w).2.HDassert (decide (u64 (e / sb.dblk_nelmts) < sb.ndblks)))).2.1
    revert hstep hfr hpost
    generalize lookup_ensure_sblock_dblock acc s sb (u64 (e / sb.dblk_nelmts))
      { l with sblock := some sb }
      ((H5EA__sblock_protect ((w.iblk ib).sblk_addrs (s - h0.iblock_nsblks))
          s acc w).2.HDassert (decide (u64 (e / sb.dblk_nelmts) < sb.ndblks))) = F
    intro hstep hfr hpost
    cases F with
    | at_catch l1 w1 => exact .tail (.ws_single h1) hstep
    | next l1 w1 =>
      dsimp only [Flow.locals, Flow.world, Flow.isNext] at hstep hfr hpost ⊢
      exact ((WalkSteps.ws_single h1).tail hstep).ws_trans
        (sblock_dblock_steps acc idx s e h0 sb l1 w1 (by rw [hfr.2.1]) (by rw [hfr.2.2, ht])
          (hpost rfl))

/-- Lines 475-611 as a run of statements. -/
theorem via_sblock_steps (acc idx s e : Nat) (h0 : H5EA_hdr_t) (ib : Nat)
    (l : LookupLocals) (w : World) (hi : l.iblock = some ib) (hsb : l.sblock = none)
    (ht : l.thing = none) (hidx : ¬ idx < h0.cparam.idx_blk_elmts)
    (hs : ¬ s < h0.iblock_nsblks) (hn : w.hdr.iblock_nsblks = h0.iblock_nsblks) :
    WalkSteps acc idx s e h0 l w (lookup_via_sblock acc s ib e l w).1
      (lookup_via_sblock acc s ib e l w).2 := by
  unfold lookup_via_sblock
  dsimp only
  rw [hn]
  have hstep := @WalkStep.ensure_sblock acc idx s e h0
    l w ib hi hsb ht hidx hs
  have hfr := ensure_sblock_blocks acc s ib (s - h0.iblock_nsblks) l w
  have hpost := (ensure_sblock_post acc s ib (s - h0.iblock_nsblks) l w).2.1
  revert hstep hfr hpost
  generalize lookup_ensure_sblock acc s ib (s - h0.iblock_nsblks) l w = F
  intro hstep hfr hpost
  cases F with
  | at_catch l1 w1 => exact .ws_single hstep
  | next l1 w1 =>
    dsimp only [Flow.locals, Flow.world, Flow.isNext] at hstep hfr hpost ⊢
    exact (WalkSteps.ws_single hstep).ws_trans
      (sblock_steps acc idx s e h0 ib l1 w1 (by rw [hfr.1, hi]) (by rw [hfr.2.1, hsb])
        (by rw [hfr.2.2, ht]) hidx hs (hpost rfl))

/-- Lines 430-474 as a run of statements. -/
theorem via_iblock_steps (acc idx s e : Nat) (h0 : H5EA_hdr_t) (ib : Nat)
    (l : LookupLocals) (w : World) (hi : l.iblock = some ib) (hsb : l.sblock = none)
    (ht : l.thing = none) (hidx : ¬ idx < h0.cparam.idx_blk_elmts)
    (hs : s < h0.iblock_nsblks) (hn : w.hdr.sblk_info = h0.sblk_info) :
    WalkSteps acc idx s e h0 l w (lookup_via_iblock acc s ib e l w).1
      (lookup_via_iblock acc s ib e l w).2 := by
  unfold lookup_via_iblock
  dsimp only
  rw [hn]
  have hstep := @WalkStep.ensure_iblock_dblock acc idx s e h0 l w ib hi hsb ht hidx hs
  have hfr := ensure_iblock_dblock_blocks acc s ib
    (u64 ((h0.sblk_info s).start_dblk + e / (h0.sblk_info s).dblk_nelmts)) l w
  have hpost := (ensure_iblock_dblock_post acc s ib
    (u64 ((h0.sblk_info s).start_dblk + e / (h0.sblk_info s).dblk_nelmts)) l w).2.1
  revert hstep hfr hpost
  generalize lookup_ensure_iblock_dblock acc s ib
    (u64 ((h0.sblk_info s).start_dblk + e / (h0.sblk_info s).dblk_nelmts)) l w = F
  intro hstep hfr hpost
  cases F with
  | at_catch l1 w1 => exact .ws_single hstep
  | next l1 w1 =>
    dsimp only [Flow.locals, Flow.world, Flow.isNext] at hstep hfr hpost ⊢
    exact .tail (.ws_single hstep)
      (WalkStep.iblock_dblock l1 w1 ib (by rw [hfr.1, hi]) (by rw [hfr.2.1, hsb])
        (by rw [hfr.2.2, ht]) hidx hs (hpost rfl))

/-- Lines 404-612 as a run of statements. -/
theorem in_iblock_steps (acc idx : Nat) (h0 : H5EA_hdr_t) (ib : Nat)
    (l : LookupLocals) (w : World) (hi : l.iblock = some ib) (hsb : l.sblock = none)
    (ht : l.thing = none) (hg : HdrGeom h0 w.hdr) :
    WalkSteps acc idx (H5EA__dblock_sblk_idx h0 idx)
      (sub64 idx (u64 (h0.cparam.idx_blk_elmts
        + (h0.sblk_info (H5EA__dblock_sblk_idx h0 idx)).start_idx))) h0 l w
      (lookup_in_iblock idx acc ib l w).1 (lookup_in_iblock idx acc ib l w).2 := by
  unfold lookup_in_iblock
  rw [hg.cparam, hg.hg_dblock_sblk_idx, hg.sblk_info, hg.iblock_nsblks]
  by_cases hidx : idx < h0.cparam.idx_blk_elmts
  · rw [if_pos hidx]
    exact .ws_single (WalkStep.direct l w ib hi hsb ht hidx)
  · rw [if_neg hidx]
    dsimp only
    by_cases hs : H5EA__dblock_sblk_idx h0 idx < h0.iblock_nsblks
    · rw [if_pos hs]
      exact via_iblock_steps acc idx _ _ h0 ib l w hi hsb ht hidx hs hg.sblk_info
    · rw [if_neg hs]
      exact via_sblock_steps acc idx _ _ h0 ib l w hi hsb ht hidx hs hg.iblock_nsblks

/-- The body of `H5EA__lookup_elmt` is a run of its statements from the initial
locals. -/
theorem lookup_body_steps (ea : H5EA_t) (idx acc : Nat) (w : World) :
    WalkSteps acc idx (H5EA__dblock_sblk_idx w.hdr idx)
      (sub64 idx (u64 (w.hdr.cparam.idx_blk_elmts
        + (w.hdr.sblk_info (H5EA__dblock_sblk_idx w.hdr idx)).start_idx))) w.hdr
      LookupLocals.init { w with hdr := { w.hdr with f := ea.f } }
      (lookup_body ea idx acc w).1 (lookup_body ea idx acc w).2 := by
  unfold lookup_body
  have hs0 : HdrGeom w.hdr ({ w with hdr := { w.hdr with f := ea.f } } : World).hdr :=
    ⟨rfl, rfl, rfl, rfl, rfl, rfl, rfl⟩
  revert hs0
  generalize ({ w with hdr := { w.hdr with f := ea.f } } : World) = w0
  intro hs0
  have hstep := @WalkStep.ensure_iblock acc idx (H5EA__dblock_sblk_idx w.hdr idx)
    (sub64 idx (u64 (w.hdr.cparam.idx_blk_elmts
        + (w.hdr.sblk_info (H5EA__dblock_sblk_idx w.hdr idx)).start_idx)))
    w.hdr LookupLocals.init w0 rfl rfl rfl
  have hfr := ensure_iblock_blocks acc LookupLocals.init w0
  have hpost := ensure_iblock_post acc LookupLocals.init w0
  revert hstep hfr hpost
  generalize lookup_ensure_iblock acc LookupLocals.init w0 = F
  intro hstep hfr hpost
  cases F with
  | at_catch l1 w1 => exact .ws_single hstep
  | next l1 w1 =>
    dsimp only [Flow.locals, Flow.world, Flow.isNext] at hstep hfr hpost ⊢
    have hfe := iblock_protect_fileEq acc w1
    cases hp : (H5EA__iblock_protect acc w1).1 with
    | none =>
      dsimp only
      exact .tail (.ws_single hstep)
        (WalkStep.iblock_protect_fail l1 w1 hfr.1 hfr.2.1 hfr.2.2 (hpost.2.1 rfl) hp)
    | some ib =>
      dsimp only
      have h2 := @WalkStep.iblock_protect_ok acc idx (H5EA__dblock_sblk_idx w.hdr idx)
        (sub64 idx (u64 (w.hdr.cparam.idx_blk_elmts
            + (w.hdr.sblk_info (H5EA__dblock_sblk_idx w.hdr idx)).start_idx)))
        w.hdr l1 w1 ib hfr.1 hfr.2.1 hfr.2.2 (hpost.2.1 rfl) hp
      have hg : HdrGeom w.hdr (H5EA__iblock_protect acc w1).2.hdr := by
        rw [hfe.hdr]
        exact hs0.hg_trans hpost.1.hs_geom
      exact ((WalkSteps.ws_single hstep).tail h2).ws_trans
        (in_iblock_steps acc idx w.hdr ib { l1 with iblock := some ib }
          (H5EA__iblock_protect acc w1).2 rfl hfr.2.1 hfr.2.2 hg)

/-- What every statement of the walk preserves holds after a run of them. -/
theorem WalkSteps.ws_invariant {acc idx s e : Nat} {h0 : H5EA_hdr_t}
    (I : LookupLocals → World → Prop)
    (hstep : ∀ l1 w1 l2 w2, I l1 w1 → WalkStep acc idx s e h0 l1 w1 l2 w2 → I l2 w2)
    {l l' : LookupLocals} {w w' : World} (h : WalkSteps acc idx s e h0 l w l' w')
    (hi : I l w) : I l' w' := by
  induction h with
  | refl => exact hi
  | tail _ hs ih => exact hstep _ _ _ _ ih hs

/-- A statement of the walk leaves the flush dependencies, the handles and the
presence of the header as they are. -/
theorem WalkStep.ws_frame {acc idx s e : Nat} {h0 : H5EA_hdr_t} {l l' : LookupLocals}
    {w w' : World} (h : WalkStep acc idx s e h0 l w l' w') :
    w'.flush_deps = w.flush_deps ∧ w'.handles = w.handles ∧
      w'.hdr_present = w.hdr_present := by
  cases h <;>
    (try simp only [lookup_ensure_iblock, lookup_ensure_iblock_dblock, lookup_ensure_sblock,
      lookup_ensure_sblock_dblock, lookup_ensure_page, lookup_dblock, lookup_page]) <;>
    (try split_ifs) <;> (try split) <;>
    simp [Flow.world, World.set_iblock_dblk_addr, World.set_iblock_sblk_addr,
      World.set_sblock_dblk_addr, World.set_page_init]

theorem catch_release_frame (k : BlockKind) (blk : Option Nat) (flags : Nat)
    (l : LookupLocals) (w : World) :
    (catch_release k blk flags l w).2.flush_deps = w.flush_deps ∧
    (catch_release k blk flags l w).2.handles = w.handles ∧
    (catch_release k blk flags l w).2.hdr_present = w.hdr_present := by
  unfold catch_release
  cases blk with
  | none => exact ⟨rfl, rfl, rfl⟩
  | some a =>
    dsimp only
    split_ifs <;> simp

theorem catch_release_sblock_frame (l : LookupLocals) (w : World) :
    (catch_release_sblock l w).2.flush_deps = w.flush_deps ∧
    (catch_release_sblock l w).2.handles = w.handles ∧
    (catch_release_sblock l w).2.hdr_present = w.hdr_present := by
  unfold catch_release_sblock
  cases l.sblock with
  | none => exact ⟨rfl, rfl, rfl⟩
  | some a =>
    dsimp only
    split_ifs <;> simp

theorem catch_modified_frame (l : LookupLocals) (w : World) :
    (catch_modified l w).2.flush_deps = w.flush_deps ∧
    (catch_modified l w).2.handles = w.handles ∧
    (catch_modified l w).2.hdr_present = w.hdr_present := by
  unfold catch_modified
  dsimp only
  split_ifs <;> simp

theorem lookup_catch_frame (l : LookupLocals) (w : World) :
    (lookup_catch l w).2.flush_deps = w.flush_deps ∧
    (lookup_catch l w).2.handles = w.handles ∧
    (lookup_catch l w).2.hdr_present = w.hdr_present := by
  unfold lookup_catch
  dsimp only
  obtain ⟨a1, a2, a3⟩ := catch_modified_frame l w
  obtain ⟨b1, b2, b3⟩ := catch_release_frame .iblock (catch_modified l w).1.iblock
    (catch_modified l w).1.iblock_cache_flags (catch_modified l w).1 (catch_modified l w).2
  generalize catch_release .iblock (catch_modified l w).1.iblock
    (catch_modified l w).1.iblock_cache_flags (catch_modified l w).1 (catch_modified l w).2
    = s2 at b1 b2 b3 ⊢
  obtain ⟨c1, c2, c3⟩ := catch_release_sblock_frame s2.1 s2.2
  generalize catch_release_sblock s2.1 s2.2 = s3 at c1 c2 c3 ⊢
  obtain ⟨d1, d2, d3⟩ := catch_release_frame .dblock s3.1.dblock H5AC__NO_FLAGS_SET s3.1 s3.2
  generalize catch_release .dblock s3.1.dblock H5AC__NO_FLAGS_SET s3.1 s3.2 = s4
    at d1 d2 d3 ⊢
  obtain ⟨e1, e2, e3⟩ := catch_release_frame .dblk_page s4.1.dblk_page H5AC__NO_FLAGS_SET
    s4.1 s4.2
  exact ⟨by rw [e1, d1, c1, b1, a1], by rw [e2, d2, c2, b2, a2], by rw [e3, d3, c3, b3, a3]⟩

/-- The lookup leaves the flush dependencies, the handles and the presence of
the header as they are. -/
theorem lookup_frame (ea : H5EA_t) (idx acc : Nat) (w : World) :
    (H5EA__lookup_elmt ea idx acc w).2.flush_deps = w.flush_deps ∧
    (H5EA__lookup_elmt ea idx acc w).2.handles = w.handles ∧
    (H5EA__lookup_elmt ea idx acc w).2.hdr_present = w.hdr_present := by
  have hb := WalkSteps.ws_invariant
    (fun _ w' => w'.flush_deps = w.flush_deps ∧ w'.handles = w.handles ∧
      w'.hdr_present = w.hdr_present)
    (fun l1 w1 l2 w2 hI hs => by
      obtain ⟨a, b, c⟩ := hs.ws_frame
      exact ⟨a.trans hI.1, b.trans hI.2.1, c.trans hI.2.2⟩)
    (lookup_body_steps ea idx acc w) ⟨rfl, rfl, rfl⟩
  obtain ⟨a, b, c⟩ := lookup_catch_frame (lookup_body ea idx acc w).1
    (lookup_body ea idx acc w).2
  unfold H5EA__lookup_elmt
  dsimp only
  exact ⟨a.trans hb.1, b.trans hb.2.1, c.trans hb.2.2⟩

/-! ### What the locals of the walk say about the file -/

theorem walk_place_eq (hdr : H5EA_hdr_t) (idx : Nat) :
    place hdr idx = walk_place idx (H5EA__dblock_sblk_idx hdr idx)
      (sub64 idx (u64 (hdr.cparam.idx_blk_elmts
        + (hdr.sblk_info (H5EA__dblock_sblk_idx hdr idx)).start_idx))) hdr := rfl

theorem FileEq.fe_IB {w w' : World} (h : FileEq w w') : w'.IB = w.IB := by
  unfold World.IB
  rw [h.hdr, h.fe_iblk]

theorem WalkAt.wa_init (idx s e : Nat) (h0 : H5EA_hdr_t) (w : World) (hg : HdrGeom h0 w.hdr) :
    WalkAt idx s e h0 LookupLocals.init w :=
  ⟨hg, fun _ h => (nomatch h), fun _ h => (nomatch h), fun _ h => (nomatch h),
    fun _ h => (nomatch h), fun _ h => (nomatch h)⟩

theorem WalkAt.wa_fileEq {idx s e : Nat} {h0 : H5EA_hdr_t} {l : LookupLocals} {w w' : World}
    (hfe : FileEq w w') (h : WalkAt idx s e h0 l w) : WalkAt idx s e h0 l w' := by
  refine ⟨(by rw [hfe.hdr]; exact h.geom), fun ib hib => ?_, fun sb hsb => ?_, fun t ht => ?_,
    h.below, fun t ht => (by rw [hfe.hdr]; exact h.root t ht)⟩
  · rw [hfe.hdr, hfe.iblocks]; exact h.iblock ib hib
  · rw [hfe.fe_IB, hfe.hdr, hfe.sblocks]; exact h.sblock sb hsb
  · rw [(SameTree.st_of_fileEq hfe).st_resolve_at]; exact h.thing t ht

theorem WalkAt.wa_blocks {idx s e : Nat} {h0 : H5EA_hdr_t} (l : LookupLocals)
    {l' : LookupLocals} {w : World}
    (hi : l'.iblock = l.iblock) (hs : l'.sblock = l.sblock) (ht' : l'.thing = l.thing)
    (ht : l.thing = none) (h : WalkAt idx s e h0 l w) : WalkAt idx s e h0 l' w := by
  rw [← ht'] at ht
  refine ⟨h.geom, fun ib hib => h.iblock ib (hi ▸ hib), fun sb hsb => ?_,
    fun t h' => (by rw [ht] at h'; cases h'), fun t h' => (by rw [ht] at h'; cases h'),
    fun t h' => (by rw [ht] at h'; cases h')⟩
  rw [hi]
  exact h.sblock sb (hs ▸ hsb)

theorem WalkAt.wa_below_iblock {idx s e : Nat} {h0 : H5EA_hdr_t} {l : LookupLocals}
    {w w' : World} (hb : BelowIblock w w') (hsb : l.sblock = none) (ht : l.thing = none)
    (h : WalkAt idx s e h0 l w) : WalkAt idx s e h0 l w' := by
  refine ⟨h.geom.hg_trans hb.hdr.hs_geom, fun ib hib => ?_,
    fun sb h' => (by rw [hsb] at h'; cases h'),
    fun t h' => (by rw [ht] at h'; cases h'), fun t h' => (by rw [ht] at h'; cases h'),
    fun t h' => (by rw [ht] at h'; cases h')⟩
  obtain ⟨h1, h2, h3⟩ := h.iblock ib hib
  exact ⟨by rw [hb.idx_blk_addr]; exact h1, h2, hb.iblocks ib h3⟩

theorem WalkAt.wa_below_sblock {idx s e : Nat} {h0 : H5EA_hdr_t} {l : LookupLocals}
    {w w' : World} (hb : BelowSblock w w') (ht : l.thing = none)
    (h : WalkAt idx s e h0 l w) : WalkAt idx s e h0 l w' := by
  have hIB : w'.IB = w.IB := by
    unfold World.IB World.iblk
    rw [hb.idx_blk_addr, hb.iblocks]
  refine ⟨h.geom.hg_trans hb.hdr.hs_geom, fun ib hib => ?_, fun sb hsb => ?_,
    fun t h' => (by rw [ht] at h'; cases h'), fun t h' => (by rw [ht] at h'; cases h'),
    fun t h' => (by rw [ht] at h'; cases h')⟩
  · rw [hb.idx_blk_addr, hb.iblocks]; exact h.iblock ib hib
  · obtain ⟨h1, h2, h3, h4⟩ := h.sblock sb hsb
    rw [hIB, hb.idx_blk_addr]
    exact ⟨h1, h2, hb.sblocks _ h3, h4⟩

/-- The two outcomes of the protect of a data block. -/
theorem lookup_dblock_cases (acc a k : Nat) (l : LookupLocals) (w : World) :
    lookup_dblock acc a k l w
      = ({ l with ret_value := FAIL }, (H5EA__dblock_protect a acc w).2.throw .CANTPROTECT) ∨
    ((w.dblocks a).isSome = true ∧
      lookup_dblock acc a k l w
        = ({ l with
              dblock := some a
              thing := some ⟨.dblock, a⟩
              thing_elmt_buf := some ⟨.dblock, a⟩
              thing_elmt_idx := k
              thing_unprot_func := some .dblock }, (H5EA__dblock_protect a acc w).2)) := by
  unfold lookup_dblock
  dsimp only
  have heq := dblock_protect_eq a acc w
  by_cases h : w.fault = false ∧ (w.dblocks a).isSome = true
  · rw [if_pos h] at heq
    right
    rw [heq]
    exact ⟨h.2, rfl⟩
  · rw [if_neg h] at heq
    left
    rw [heq]

/-- The two outcomes of the protect of a data-block page. -/
theorem lookup_page_cases (acc a k : Nat) (l : LookupLocals) (w : World) :
    lookup_page acc a k l w
      = ({ l with ret_value := FAIL },
          (H5EA__dblk_page_protect a acc w).2.throw .CANTPROTECT) ∨
    ((w.dblk_pages a).isSome = true ∧
      lookup_page acc a k l w
        = ({ l with
              dblk_page := some a
              thing := some ⟨.dblk_page, a⟩
              thing_elmt_buf := some ⟨.dblk_page, a⟩
              thing_elmt_idx := k
              thing_unprot_func := some .dblk_page }, (H5EA__dblk_page_protect a acc w).2)) := by
  unfold lookup_page
  dsimp only
  have heq := dblk_page_protect_eq a acc w
  by_cases h : w.fault = false ∧ (w.dblk_pages a).isSome = true
  · rw [if_pos h] at heq
    right
    rw [heq]
    exact ⟨h.2, rfl⟩
  · rw [if_neg h] at heq
    left
    rw [heq]

theorem WalkAt.wa_none {idx s e : Nat} {h0 : H5EA_hdr_t} {l : LookupLocals} {w : World}
    (hg : HdrGeom h0 w.hdr) (hi : l.iblock = none) (hs : l.sblock = none)
    (ht : l.thing = none) : WalkAt idx s e h0 l w :=
  ⟨hg, fun _ h => (by rw [hi] at h; cases h), fun _ h => (by rw [hs] at h; cases h),
    fun _ h => (by rw [ht] at h; cases h), fun _ h => (by rw [ht] at h; cases h),
    fun _ h => (by rw [ht] at h; cases h)⟩

/-- The index block is protected: the locals point to the block the header
points to. -/
theorem WalkAt.wa_iblock_ok {acc idx s e : Nat} {h0 : H5EA_hdr_t} {l : LookupLocals}
    {w : World} {ib : Nat} (h : WalkAt idx s e h0 l w) (hsb : l.sblock = none)
    (ht : l.thing = none) (hd : H5F_addr_defined w.hdr.idx_blk_addr = true)
    (hp : (H5EA__iblock_protect acc w).1 = some ib) :
    WalkAt idx s e h0 { l with iblock := some ib } (H5EA__iblock_protect acc w).2 := by
  have hfe := iblock_protect_fileEq acc w
  have heq := iblock_protect_eq acc w
  rw [hp] at heq
  by_cases hc : w.fault = false ∧ (w.iblocks w.hdr.idx_blk_addr).isSome = true
  · rw [if_pos hc] at heq
    have hib : ib = w.hdr.idx_blk_addr := Option.some.inj heq
    refine ⟨by rw [hfe.hdr]; exact h.geom, fun ib' hib' => ?_,
      fun _ h' => (by rw [show ({ l with iblock := some ib } : LookupLocals).sblock = l.sblock
        from rfl, hsb] at h'; cases h'),
      fun _ h' => (by rw [show ({ l with iblock := some ib } : LookupLocals).thing = l.thing
        from rfl, ht] at h'; cases h'),
      fun _ h' => (by rw [show ({ l with iblock := some ib } : LookupLocals).thing = l.thing
        from rfl, ht] at h'; cases h'),
      fun _ h' => (by rw [show ({ l with iblock := some ib } : LookupLocals).thing = l.thing
        from rfl, ht] at h'; cases h')⟩
    have : ib' = ib := (Option.some.inj hib').symm
    rw [this, hib, hfe.hdr, hfe.iblocks]
    exact ⟨rfl, hd, hc.2⟩
  · rw [if_neg hc] at heq
    cases heq

/-- The element is in the index block: the thing is what the addressing
finds. -/
theorem WalkAt.wa_direct {idx s e : Nat} {h0 : H5EA_hdr_t} {l : LookupLocals}
    {w : World} {ib : Nat} (h : WalkAt idx s e h0 l w) (hi : l.iblock = some ib)
    (hsb : l.sblock = none) (hidx : idx < h0.cparam.idx_blk_elmts) :
    WalkAt idx s e h0
      { l with
          thing := some ⟨.iblock, ib⟩
          thing_elmt_buf := some ⟨.iblock, ib⟩
          thing_elmt_idx := idx
          thing_unprot_func := some .iblock } w := by
  obtain ⟨h1, h2, h3⟩ := h.iblock ib hi
  refine ⟨h.geom, h.iblock, h.sblock, fun t ht => ?_, fun t _ hn => absurd hidx hn,
    fun t _ => (by show l.iblock = _; rw [hi, h1])⟩
  have ht' : t = ⟨.iblock, ib⟩ := (Option.some.inj ht).symm
  subst ht'
  unfold walk_place
  rw [if_pos hidx]
  subst h1
  simp only [resolve_at, h2, h3]
  simp

/-- The data block in a slot of the index block is protected. -/
theorem WalkAt.wa_iblock_dblock {acc idx s e : Nat} {h0 : H5EA_hdr_t} {l : LookupLocals}
    {w : World} {ib : Nat} (h : WalkAt idx s e h0 l w) (hi : l.iblock = some ib)
    (ht : l.thing = none) (hidx : ¬ idx < h0.cparam.idx_blk_elmts)
    (hs : s < h0.iblock_nsblks) (k : Nat)
    (hk : k = e % (h0.sblk_info s).dblk_nelmts)
    (a : Nat) (ha : a = (w.iblk ib).dblk_addrs
        (u64 ((h0.sblk_info s).start_dblk + e / (h0.sblk_info s).dblk_nelmts)))
    (hd : H5F_addr_defined a = true) :
    WalkAt idx s e h0 (lookup_dblock acc a k l w).1 (lookup_dblock acc a k l w).2 := by
  have hfe := dblock_protect_fileEq a acc w
  rcases lookup_dblock_cases acc a k l w with hc | ⟨hpres, hc⟩
  · rw [hc]
    dsimp only
    exact WalkAt.wa_blocks l rfl rfl rfl ht (h.wa_fileEq (hfe.fe_throw _))
  · rw [hc]
    dsimp only
    have h' := h.wa_fileEq hfe
    obtain ⟨h1, h2, h3⟩ := h.iblock ib hi
    refine ⟨h'.geom, h'.iblock, h'.sblock, fun t ht' => ?_, fun t _ _ hn => absurd hs hn,
      fun t _ => (by show l.iblock = _; rw [hi, h1, hfe.hdr])⟩
    have e1 : t = ⟨.dblock, a⟩ := (Option.some.inj ht').symm
    subst e1
    rw [(SameTree.st_of_fileEq hfe).st_resolve_at]
    unfold walk_place
    rw [if_neg hidx, if_pos hs]
    have hIB : w.IB = w.iblk ib := by unfold World.IB; rw [h1]
    subst hk
    simp only [resolve_at, hIB, ← h1, h2, h3, ← ha, hd, hpres]
    simp

/-- The super block is protected: the locals point to the super block in the
slot of the index block. -/
theorem WalkAt.wa_sblock_ok {acc idx s e : Nat} {h0 : H5EA_hdr_t} {l : LookupLocals}
    {w : World} {ib : Nat} {sb : H5EA_sblock_t} (h : WalkAt idx s e h0 l w)
    (hi : l.iblock = some ib) (ht : l.thing = none)
    (hidx : ¬ idx < h0.cparam.idx_blk_elmts) (hs : ¬ s < h0.iblock_nsblks)
    (hd : H5F_addr_defined ((w.iblk ib).sblk_addrs (s - h0.iblock_nsblks)) = true)
    (hp : (H5EA__sblock_protect ((w.iblk ib).sblk_addrs (s - h0.iblock_nsblks))
      s acc w).1 = some sb) (c : Bool) :
    WalkAt idx s e h0 { l with sblock := some sb }
      ((H5EA__sblock_protect ((w.iblk ib).sblk_addrs (s - h0.iblock_nsblks))
        s acc w).2.HDassert c) := by
  have hfe := (sblock_protect_fileEq ((w.iblk ib).sblk_addrs (s - h0.iblock_nsblks))
    s acc w).fe_HDassert c
  have heq := sblock_protect_eq ((w.iblk ib).sblk_addrs (s - h0.iblock_nsblks)) s acc w
  rw [hp] at heq
  obtain ⟨h1, h2, h3⟩ := h.iblock ib hi
  have hIB : w.IB = w.iblk ib := by unfold World.IB; rw [h1]
  by_cases hc : w.fault = false ∧
      (w.sblocks ((w.iblk ib).sblk_addrs (s - h0.iblock_nsblks))).isSome = true
  · rw [if_pos hc] at heq
    have hsb : sb = sblock_of w.hdr ((w.iblk ib).sblk_addrs (s - h0.iblock_nsblks)) s :=
      Option.some.inj heq
    have h' := h.wa_fileEq hfe
    refine ⟨h'.geom, h'.iblock, fun sb' hsb' => ?_,
      fun _ hq => (by rw [show ({ l with sblock := some sb } : LookupLocals).thing = l.thing
        from rfl, ht] at hq; cases hq),
      fun _ hq => (by rw [show ({ l with sblock := some sb } : LookupLocals).thing = l.thing
        from rfl, ht] at hq; cases hq),
      fun _ hq => (by rw [show ({ l with sblock := some sb } : LookupLocals).thing = l.thing
        from rfl, ht] at hq; cases hq)⟩
    have e1 : sb' = sb := (Option.some.inj hsb').symm
    rw [e1, hfe.fe_IB, hfe.hdr, hfe.sblocks, hIB, hsb, h.geom.hg_sblock_of]
    refine ⟨rfl, hd, hc.2, ?_, hidx, hs⟩
    show l.iblock = _
    rw [hi, h1]
  · rw [if_neg hc] at heq
    cases heq

/-- The data block in a slot of the super block is protected. -/
theorem WalkAt.wa_sblock_dblock {acc idx s e : Nat} {h0 : H5EA_hdr_t} {l : LookupLocals}
    {w : World} {sb : H5EA_sblock_t} (h : WalkAt idx s e h0 l w)
    (hsb : l.sblock = some sb) (ht : l.thing = none) (hnp : sb.dblk_npages = 0)
    (hd : H5F_addr_defined
      ((w.sblk sb.addr).dblk_addrs (u64 (e / sb.dblk_nelmts))) = true) :
    WalkAt idx s e h0
      (lookup_dblock acc ((w.sblk sb.addr).dblk_addrs (u64 (e / sb.dblk_nelmts)))
        (e % sb.dblk_nelmts) l w).1
      (lookup_dblock acc ((w.sblk sb.addr).dblk_addrs (u64 (e / sb.dblk_nelmts)))
        (e % sb.dblk_nelmts) l w).2 := by
  have hfe := dblock_protect_fileEq
    ((w.sblk sb.addr).dblk_addrs (u64 (e / sb.dblk_nelmts))) acc w
  rcases lookup_dblock_cases acc ((w.sblk sb.addr).dblk_addrs (u64 (e / sb.dblk_nelmts)))
    (e % sb.dblk_nelmts) l w with hc | ⟨hpres, hc⟩
  · rw [hc]
    dsimp only
    exact WalkAt.wa_blocks l rfl rfl rfl ht (h.wa_fileEq (hfe.fe_throw _))
  · rw [hc]
    dsimp only
    have h' := h.wa_fileEq hfe
    obtain ⟨b1, b2, b3, b4, b5, b6⟩ := h.sblock sb hsb
    obtain ⟨a1, a2, a3⟩ := h.iblock _ b4
    refine ⟨h'.geom, h'.iblock, h'.sblock, fun t ht' => ?_,
      fun t _ _ _ => (by
        show l.sblock ≠ none
        rw [hsb]; exact fun hh => nomatch hh),
      fun t _ => (by show l.iblock = _; rw [b4, hfe.hdr])⟩
    have e1 : t = ⟨.dblock, (w.sblk sb.addr).dblk_addrs (u64 (e / sb.dblk_nelmts))⟩ :=
      (Option.some.inj ht').symm
    subst e1
    rw [(SameTree.st_of_fileEq hfe).st_resolve_at]
    unfold walk_place
    rw [if_neg b5, if_neg b6]
    have hoff : s - h0.iblock_nsblks + w.hdr.iblock_nsblks = s := by
      rw [h.geom.iblock_nsblks]; omega
    have hadr : sb.addr = w.IB.sblk_addrs (s - h0.iblock_nsblks) := by rw [b1]; rfl
    have hne : sb.dblk_nelmts = (h0.sblk_info s).dblk_nelmts := by rw [b1]; rfl
    rw [hadr] at b2 b3 hd hpres ⊢
    rw [hne] at hd hpres ⊢
    simp only [resolve_at, a2, a3, b2, b3, hd, hoff, h.geom.hg_sblock_of, ← b1,
      resolve_sblock_dblock, hnp, hadr, hpres, hne]
    simp

/-- The page of a data block below the super block is protected. -/
theorem WalkAt.wa_page {acc idx s e : Nat} {h0 : H5EA_hdr_t} {l : LookupLocals}
    {w : World} {sb : H5EA_sblock_t} (h : WalkAt idx s e h0 l w)
    (hsb : l.sblock = some sb) (ht : l.thing = none) (hnp : sb.dblk_npages ≠ 0)
    (hd : H5F_addr_defined
      ((w.sblk sb.addr).dblk_addrs (u64 (e / sb.dblk_nelmts))) = true)
    (hb : (w.sblk sb.addr).page_init
      (u64 (u64 (e / sb.dblk_nelmts) * sb.dblk_npages
        + e % sb.dblk_nelmts / w.hdr.dblk_page_nelmts)) = true) :
    WalkAt idx s e h0
      (lookup_page acc
        (u64 ((w.sblk sb.addr).dblk_addrs (u64 (e / sb.dblk_nelmts))
          + H5EA_DBLOCK_PREFIX_SIZE w.hdr
          + e % sb.dblk_nelmts / w.hdr.dblk_page_nelmts * sb.dblk_page_size))
        (e % sb.dblk_nelmts % w.hdr.dblk_page_nelmts) l w).1
      (lookup_page acc
        (u64 ((w.sblk sb.addr).dblk_addrs (u64 (e / sb.dblk_nelmts))
          + H5EA_DBLOCK_PREFIX_SIZE w.hdr
          + e % sb.dblk_nelmts / w.hdr.dblk_page_nelmts * sb.dblk_page_size))
        (e % sb.dblk_nelmts % w.hdr.dblk_page_nelmts) l w).2 := by
  have hfe := dblk_page_protect_fileEq
    (u64 ((w.sblk sb.addr).dblk_addrs (u64 (e / sb.dblk_nelmts))
      + H5EA_DBLOCK_PREFIX_SIZE w.hdr
      + e % sb.dblk_nelmts / w.hdr.dblk_page_nelmts * sb.dblk_page_size)) acc w
  rcases lookup_page_cases acc
    (u64 ((w.sblk sb.addr).dblk_addrs (u64 (e / sb.dblk_nelmts))
      + H5EA_DBLOCK_PREFIX_SIZE w.hdr
      + e % sb.dblk_nelmts / w.hdr.dblk_page_nelmts * sb.dblk_page_size))
    (e % sb.dblk_nelmts % w.hdr.dblk_page_nelmts) l w with hc | ⟨hpres, hc⟩
  · rw [hc]
    dsimp only
    exact WalkAt.wa_blocks l rfl rfl rfl ht (h.wa_fileEq (hfe.fe_throw _))
  · rw [hc]
    dsimp only
    have h' := h.wa_fileEq hfe
    obtain ⟨b1, b2, b3, b4, b5, b6⟩ := h.sblock sb hsb
    obtain ⟨a1, a2, a3⟩ := h.iblock _ b4
    refine ⟨h'.geom, h'.iblock, h'.sblock, fun t ht' => ?_,
      fun t _ _ _ => (by
        show l.sblock ≠ none
        rw [hsb]; exact fun hh => nomatch hh),
      fun t _ => (by show l.iblock = _; rw [b4, hfe.hdr])⟩
    have e1 : t = ⟨.dblk_page, u64 ((w.sblk sb.addr).dblk_addrs (u64 (e / sb.dblk_nelmts))
        + H5EA_DBLOCK_PREFIX_SIZE w.hdr
        + e % sb.dblk_nelmts / w.hdr.dblk_page_nelmts * sb.dblk_page_size)⟩ :=
      (Option.some.inj ht').symm
    subst e1
    rw [(SameTree.st_of_fileEq hfe).st_resolve_at]
    unfold walk_place
    rw [if_neg b5, if_neg b6]
    have hoff : s - h0.iblock_nsblks + w.hdr.iblock_nsblks = s := by
      rw [h.geom.iblock_nsblks]; omega
    have hadr : sb.addr = w.IB.sblk_addrs (s - h0.iblock_nsblks) := by rw [b1]; rfl
    have hne : sb.dblk_nelmts = (h0.sblk_info s).dblk_nelmts := by rw [b1]; rfl
    rw [hadr] at b2 b3 hd hb hpres ⊢
    rw [hne] at hd hb hpres ⊢
    simp only [resolve_at, a2, a3, b2, b3, hd, hoff, h.geom.hg_sblock_of, ← b1,
      resolve_sblock_dblock, hnp, hadr, hpres, hne, hb]
    simp
    intro hz
    exact absurd hz hnp

/-- Every statement of the walk keeps what the locals say about the file. -/
theorem WalkStep.ws_at {acc idx s e : Nat} {h0 : H5EA_hdr_t} {l l' : LookupLocals}
    {w w' : World} (hs : WalkStep acc idx s e h0 l w l' w') (h : WalkAt idx s e h0 l w) :
    WalkAt idx s e h0 l' w' := by
  cases hs with
  | ensure_iblock hi hsb ht =>
    have hfr := ensure_iblock_blocks acc l w
    exact WalkAt.wa_none (h.geom.hg_trans (ensure_iblock_post acc l w).1.hs_geom)
      (by rw [hfr.1, hi]) (by rw [hfr.2.1, hsb]) (by rw [hfr.2.2, ht])
  | iblock_protect_fail hi hsb ht hd hp =>
    exact WalkAt.wa_blocks l rfl rfl rfl ht
      (h.wa_fileEq ((iblock_protect_fileEq acc w).fe_throw _))
  | iblock_protect_ok ib hi hsb ht hd hp => exact h.wa_iblock_ok hsb ht hd hp
  | direct ib hi hsb ht hidx => exact h.wa_direct hi hsb hidx
  | ensure_iblock_dblock ib hi hsb ht hidx hs =>
    have hfr := ensure_iblock_dblock_blocks acc s ib
      (u64 ((h0.sblk_info s).start_dblk + e / (h0.sblk_info s).dblk_nelmts)) l w
    exact WalkAt.wa_blocks l hfr.1 hfr.2.1 hfr.2.2 ht
      (h.wa_below_iblock (ensure_iblock_dblock_post acc s ib _ l w).1 hsb ht)
  | iblock_dblock ib hi hsb ht hidx hs hd =>
    exact h.wa_iblock_dblock hi ht hidx hs _ rfl _ rfl hd
  | ensure_sblock ib hi hsb ht hidx hs =>
    have hfr := ensure_sblock_blocks acc s ib (s - h0.iblock_nsblks) l w
    exact WalkAt.wa_blocks l hfr.1 hfr.2.1 hfr.2.2 ht
      (h.wa_below_iblock (ensure_sblock_post acc s ib _ l w).1 hsb ht)
  | sblock_protect_fail ib hi hsb ht hidx hs hd hp =>
    exact WalkAt.wa_blocks l rfl rfl rfl ht
      (h.wa_fileEq ((sblock_protect_fileEq _ s acc w).fe_throw _))
  | sblock_protect_ok ib sb hi hsb ht hidx hs hd hp =>
    exact h.wa_sblock_ok hi ht hidx hs hd hp _
  | ensure_sblock_dblock sb hsb ht =>
    have hfr := ensure_sblock_dblock_blocks acc s sb (u64 (e / sb.dblk_nelmts)) l w
    exact WalkAt.wa_blocks l hfr.1 hfr.2.1 hfr.2.2 ht
      (h.wa_below_sblock (ensure_sblock_dblock_post acc s sb _ l w).1 ht)
  | sblock_dblock sb hsb ht hnp hd => exact h.wa_sblock_dblock hsb ht hnp hd
  | ensure_page sb hsb ht hnp hd =>
    have hfr := ensure_page_blocks acc sb
      (u64 (u64 (e / sb.dblk_nelmts) * sb.dblk_npages
        + e % sb.dblk_nelmts / w.hdr.dblk_page_nelmts))
      (u64 ((w.sblk sb.addr).dblk_addrs (u64 (e / sb.dblk_nelmts))
        + H5EA_DBLOCK_PREFIX_SIZE w.hdr
        + e % sb.dblk_nelmts / w.hdr.dblk_page_nelmts * sb.dblk_page_size)) l w
    exact WalkAt.wa_blocks l hfr.1 hfr.2.1 hfr.2.2 ht
      (h.wa_below_sblock (BelowSblock.bs_of_slot (ensure_page_frame acc sb _ _ l w).1) ht)
  | page sb hsb ht hnp hd hb => exact h.wa_page hsb ht hnp hd hb

/-- At `CATCH` the locals of the walk point to the blocks on the way to the
index in the file, and a thing that is set is what the addressing finds. -/
theorem lookup_body_at (ea : H5EA_t) (idx acc : Nat) (w : World) :
    WalkAt idx (H5EA__dblock_sblk_idx w.hdr idx)
      (sub64 idx (u64 (w.hdr.cparam.idx_blk_elmts
        + (w.hdr.sblk_info (H5EA__dblock_sblk_idx w.hdr idx)).start_idx))) w.hdr
      (lookup_body ea idx acc w).1 (lookup_body ea idx acc w).2 :=
  WalkSteps.ws_invariant (WalkAt idx _ _ w.hdr) (fun _ _ _ _ hI hs => hs.ws_at hI)
    (lookup_body_steps ea idx acc w)
    (WalkAt.wa_init idx _ _ w.hdr _ ⟨rfl, rfl, rfl, rfl, rfl, rfl, rfl⟩)

/-- The thing a lookup returns, in every access mode and whatever fails, is the
block the addressing finds for the index in the file the lookup leaves, at the
position the lookup returns. -/
theorem lookup_resolves (ea : H5EA_t) (idx acc : Nat) (w : World) (t : Thing)
    (ht : (H5EA__lookup_elmt ea idx acc w).1.thing = some t) :
    HdrGeom w.hdr (H5EA__lookup_elmt ea idx acc w).2.hdr ∧
    resolve_at (H5EA__lookup_elmt ea idx acc w).2 (place w.hdr idx)
      = .found t (H5EA__lookup_elmt ea idx acc w).1.thing_elmt_idx := by
  have hat := lookup_body_at ea idx acc w
  obtain ⟨cevs, -, hc⟩ := lookup_catch_spec (lookup_body ea idx acc w).1
    (lookup_body ea idx acc w).2
  have hfe := lookup_catch_fileEq (lookup_body ea idx acc w).1 (lookup_body ea idx acc w).2
  unfold H5EA__lookup_elmt at ht ⊢
  dsimp only at ht ⊢
  rw [hc.thing] at ht
  rw [hc.thing_elmt_idx]
  by_cases hr : (lookup_body ea idx acc w).1.ret_value < 0
  · rw [if_pos hr] at ht; cases ht
  · rw [if_neg hr] at ht ⊢
    refine ⟨by rw [hfe.hdr]; exact hat.geom, ?_⟩
    rw [(SameTree.st_of_fileEq hfe).st_resolve_at, walk_place_eq]
    exact hat.thing t ht

/-- A lookup that returns a thing protected the index block the header points
to once and, for an index whose data block a super block addresses, the super
block in the slot of the index block once. -/
theorem lookup_protected (ea : H5EA_t) (idx acc : Nat) (w : World) (t : Thing)
    (ht : (H5EA__lookup_elmt ea idx acc w).1.thing = some t) :
    ∃ evs, (H5EA__lookup_elmt ea idx acc w).2.trace = w.trace ++ evs ∧
      (∀ k a, nprot k a evs = nunprot k a evs + if (⟨k, a⟩ : Thing) = t then 1 else 0) ∧
      (∀ k a, nprot k a evs ≤ 1) ∧
      nprot .iblock (H5EA__lookup_elmt ea idx acc w).2.hdr.idx_blk_addr evs = 1 ∧
      (¬ idx < w.hdr.cparam.idx_blk_elmts →
        ¬ H5EA__dblock_sblk_idx w.hdr idx < w.hdr.iblock_nsblks →
        nprot .sblock ((H5EA__lookup_elmt ea idx acc w).2.IB.sblk_addrs
          (H5EA__dblock_sblk_idx w.hdr idx - w.hdr.iblock_nsblks)) evs = 1) := by
  have hat := lookup_body_at ea idx acc w
  obtain ⟨bevs, htr, hwt⟩ := lookup_body_walk ea idx acc w
  obtain ⟨cevs, hctr, hc⟩ := lookup_catch_spec (lookup_body ea idx acc w).1
    (lookup_body ea idx acc w).2
  have hfe := lookup_catch_fileEq (lookup_body ea idx acc w).1 (lookup_body ea idx acc w).2
  obtain ⟨evs, htr', hcount, hle, -⟩ := lookup_outstanding ea idx acc w
  have hev : evs = bevs ++ cevs := by
    have h1 : (H5EA__lookup_elmt ea idx acc w).2.trace = w.trace ++ (bevs ++ cevs) := by
      unfold H5EA__lookup_elmt
      dsimp only
      rw [hctr, htr, List.append_assoc]
    rw [htr'] at h1
    exact List.append_cancel_left h1
  have hfeW : FileEq (lookup_body ea idx acc w).2 (H5EA__lookup_elmt ea idx acc w).2 := hfe
  have htb : (lookup_body ea idx acc w).1.thing = some t := by
    unfold H5EA__lookup_elmt at ht
    dsimp only at ht
    rw [hc.thing] at ht
    by_cases hr : (lookup_body ea idx acc w).1.ret_value < 0
    · rw [if_pos hr] at ht; cases ht
    · rw [if_neg hr] at ht; exact ht
  refine ⟨evs, htr', fun k a => ?_, hle, ?_, fun h1 h2 => ?_⟩
  · rw [hcount, ht]
    congr 1
    by_cases hka : (⟨k, a⟩ : Thing) = t
    · rw [if_pos hka, if_pos (by rw [hka])]
    · rw [if_neg hka, if_neg (fun hh => hka (Option.some.inj hh).symm)]
  · rw [hev, nprot_append, nprot_catch hc, hwt.held, hfeW.hdr]
    unfold LookupLocals.held
    dsimp only
    rw [if_pos (hat.root t htb)]
  · rw [hev, nprot_append, nprot_catch hc, hwt.held, hfeW.fe_IB]
    have hne := hat.below t htb h1 h2
    obtain ⟨sb, hsb⟩ := Option.ne_none_iff_exists'.1 hne
    obtain ⟨b1, -⟩ := hat.sblock sb hsb
    unfold LookupLocals.held
    dsimp only
    rw [if_pos (by rw [hsb, b1]; rfl)]

/-- What a lookup that returns a thing finds for an index whose data block a
super block addresses: the super-block slot of the index block and the
data-block slot of the super block are defined, the super block is in the file,
and the thing is what the addressing below the super block finds. -/
theorem lookup_via_sblock_thing (ea : H5EA_t) (idx acc : Nat) (w : World)
    (hg : GoodHdr w.hdr) (hin : InRange w.hdr idx) (h64 : idx + 1 < 2 ^ 64)
    (hge : w.hdr.cparam.idx_blk_elmts ≤ idx)
    (hlt : w.hdr.iblock_nsblks ≤ H5EA__dblock_sblk_idx w.hdr idx)
    (t : Thing) (ht : (H5EA__lookup_elmt ea idx acc w).1.thing = some t)
    (W : World) (hW : W = (H5EA__lookup_elmt ea idx acc w).2)
    (s e n : Nat) (hsd : s = H5EA__dblock_sblk_idx w.hdr idx)
    (he : e = idx - w.hdr.cparam.idx_blk_elmts - (w.hdr.sblk_info s).start_idx)
    (hn : n = (w.hdr.sblk_info s).dblk_nelmts) :
    H5F_addr_defined (W.IB.sblk_addrs (s - w.hdr.iblock_nsblks)) = true ∧
    (W.sblocks (W.IB.sblk_addrs (s - w.hdr.iblock_nsblks))).isSome = true ∧
    H5F_addr_defined
      ((W.sblk (W.IB.sblk_addrs (s - w.hdr.iblock_nsblks))).dblk_addrs (e / n)) = true ∧
    resolve_sblock_dblock W (sblock_of w.hdr (W.IB.sblk_addrs (s - w.hdr.iblock_nsblks)) s)
      (e / n) (e % n) = .found t (H5EA__lookup_elmt ea idx acc w).1.thing_elmt_idx := by
  subst hW hsd he hn
  obtain ⟨hgeo, h⟩ := lookup_resolves ea idx acc w t ht
  rw [place_via_sblock hg hin h64 hge hlt] at h
  have hoff : H5EA__dblock_sblk_idx w.hdr idx - w.hdr.iblock_nsblks
      + (H5EA__lookup_elmt ea idx acc w).2.hdr.iblock_nsblks
      = H5EA__dblock_sblk_idx w.hdr idx := by
    rw [hgeo.iblock_nsblks]; omega
  simp only [resolve_at, hoff, hgeo.hg_sblock_of] at h
  split_ifs at h with c1 c2 c3 c4 c5
  exact ⟨by simpa using c3, c4, by simpa using c5, h⟩

/-- C27: an index in a data block that a super block addresses, not paged.  For
a good header and an index `idx ≥ idx_blk_elmts` of the array whose
super-block index `s` is at least `iblock->nsblks`, with
`e = idx - idx_blk_elmts - sblk_info[s].start_idx` and data blocks of
`n = sblk_info[s].dblk_nelmts ≤ dblk_page_nelmts` elements: every lookup that
returns a thing, in the file `W` it leaves, found slot `s - iblock->nsblks` of
the index block defined and the super block at that address in the file,
protected that super block once and released it, found slot `e / n` of the
super block defined, and returns the data block at the address in that slot,
its element buffer, the index `e % n` and the data-block unprotect function;
the data block is protected once and not released. -/
theorem lookup_super_block_data_block (ea : H5EA_t) (idx acc : Nat) (w : World)
    (hg : GoodHdr w.hdr) (hin : InRange w.hdr idx) (h64 : idx + 1 < 2 ^ 64)
    (hge : w.hdr.cparam.idx_blk_elmts ≤ idx)
    (hlt : w.hdr.iblock_nsblks ≤ H5EA__dblock_sblk_idx w.hdr idx)
    (t : Thing) (ht : (H5EA__lookup_elmt ea idx acc w).1.thing = some t)
    (W : World) (hW : W = (H5EA__lookup_elmt ea idx acc w).2)
    (s e n : Nat) (hsd : s = H5EA__dblock_sblk_idx w.hdr idx)
    (he : e = idx - w.hdr.cparam.idx_blk_elmts - (w.hdr.sblk_info s).start_idx)
    (hn : n = (w.hdr.sblk_info s).dblk_nelmts)
    (hnp : n ≤ w.hdr.dblk_page_nelmts) :
    H5F_addr_defined (W.IB.sblk_addrs (s - w.hdr.iblock_nsblks)) = true ∧
    (W.sblocks (W.IB.sblk_addrs (s - w.hdr.iblock_nsblks))).isSome = true ∧
    H5F_addr_defined
      ((W.sblk (W.IB.sblk_addrs (s - w.hdr.iblock_nsblks))).dblk_addrs (e / n)) = true ∧
    t = ⟨.dblock, (W.sblk (W.IB.sblk_addrs (s - w.hdr.iblock_nsblks))).dblk_addrs (e / n)⟩ ∧
    (H5EA__lookup_elmt ea idx acc w).1.thing_elmt_buf = some t ∧
    (H5EA__lookup_elmt ea idx acc w).1.thing_elmt_idx = e % n ∧
    (H5EA__lookup_elmt ea idx acc w).1.thing_unprot_func = some .dblock ∧
    ∃ evs, W.trace = w.trace ++ evs ∧
      nprot .iblock W.hdr.idx_blk_addr evs = 1 ∧
      nunprot .iblock W.hdr.idx_blk_addr evs = 1 ∧
      nprot .sblock (W.IB.sblk_addrs (s - w.hdr.iblock_nsblks)) evs = 1 ∧
      nunprot .sblock (W.IB.sblk_addrs (s - w.hdr.iblock_nsblks)) evs = 1 ∧
      nprot .dblock t.addr evs = 1 ∧ nunprot .dblock t.addr evs = 0 := by
  obtain ⟨h1, h2, h3, h4⟩ := lookup_via_sblock_thing ea idx acc w hg hin h64 hge hlt t ht
    W hW s e n hsd he hn
  obtain ⟨evs, htr, hcount, hle, hib, hsb⟩ := lookup_protected ea idx acc w t ht
  have hsb' := hsb (not_lt.2 hge) (not_lt.2 hlt)
  obtain ⟨o1, o2, -, -⟩ := lookup_thing_outputs ea idx acc w t ht
  subst hW hsd hn
  have hnp0 : dblk_npages w.hdr
      (w.hdr.sblk_info (H5EA__dblock_sblk_idx w.hdr idx)).dblk_nelmts = 0 := by
    unfold dblk_npages
    rw [if_neg (not_lt.2 hnp)]
  simp only [resolve_sblock_dblock, sblock_of, hnp0] at h4
  split_ifs at h4 with c1 c2
  · exact absurd rfl c1
  injection h4 with e1 e2
  subst e1
  have ci := hcount .iblock (H5EA__lookup_elmt ea idx acc w).2.hdr.idx_blk_addr
  have cs := hcount .sblock ((H5EA__lookup_elmt ea idx acc w).2.IB.sblk_addrs
    (H5EA__dblock_sblk_idx w.hdr idx - w.hdr.iblock_nsblks))
  have cd := hcount .dblock (((H5EA__lookup_elmt ea idx acc w).2.sblk
    ((H5EA__lookup_elmt ea idx acc w).2.IB.sblk_addrs
      (H5EA__dblock_sblk_idx w.hdr idx - w.hdr.iblock_nsblks))).dblk_addrs
        (e / (w.hdr.sblk_info (H5EA__dblock_sblk_idx w.hdr idx)).dblk_nelmts))
  rw [if_neg (fun hh => nomatch hh)] at ci cs
  rw [if_pos rfl] at cd
  have hd1 := hle .dblock (((H5EA__lookup_elmt ea idx acc w).2.sblk
    ((H5EA__lookup_elmt ea idx acc w).2.IB.sblk_addrs
      (H5EA__dblock_sblk_idx w.hdr idx - w.hdr.iblock_nsblks))).dblk_addrs
        (e / (w.hdr.sblk_info (H5EA__dblock_sblk_idx w.hdr idx)).dblk_nelmts))
  rw [hib, Nat.add_zero] at ci
  rw [hsb', Nat.add_zero] at cs
  have hd2 : nunprot .dblock (((H5EA__lookup_elmt ea idx acc w).2.sblk
      ((H5EA__lookup_elmt ea idx acc w).2.IB.sblk_addrs
        (H5EA__dblock_sblk_idx w.hdr idx - w.hdr.iblock_nsblks))).dblk_addrs
          (e / (w.hdr.sblk_info (H5EA__dblock_sblk_idx w.hdr idx)).dblk_nelmts)) evs = 0 := by
    rw [cd] at hd1
    exact Nat.eq_zero_of_le_zero (Nat.le_of_succ_le_succ hd1)
  rw [hd2] at cd
  exact ⟨h1, h2, h3, rfl, o1, e2.symm, o2, evs, htr, hib, ci.symm, hsb', cs.symm, cd, hd2⟩

set_option maxRecDepth 100000 in
theorem lookup_super_block_data_block_witness :
    (H5EA__lookup_elmt handle100 30 H5AC__NO_FLAGS_SET roomyWorld).1.thing
      = some ⟨.dblock, 1320⟩ ∧
    (H5EA__lookup_elmt handle100 30 H5AC__NO_FLAGS_SET roomyWorld).1.thing_elmt_idx
      = (30 - roomyWorld.hdr.cparam.idx_blk_elmts
          - (roomyWorld.hdr.sblk_info (H5EA__dblock_sblk_idx roomyWorld.hdr 30)).start_idx)
        % (roomyWorld.hdr.sblk_info (H5EA__dblock_sblk_idx roomyWorld.hdr 30)).dblk_nelmts :=
  ⟨by decide,
   (lookup_super_block_data_block handle100 30 H5AC__NO_FLAGS_SET roomyWorld
      ⟨rfl, ⟨2, by decide, by decide, by decide⟩, by decide, by decide, ⟨5, rfl⟩⟩
      (show 30 < 2 ^ 32 by decide) (by decide) (by decide) (by decide)
      ⟨.dblock, 1320⟩ (by decide) _ rfl _ _ _ rfl rfl rfl (by decide)).2.2.2.2.2.1⟩

/-- C28: an index in a paged data block.  For a good header and an index
`idx ≥ idx_blk_elmts` of the array whose super-block index `s` is at least
`iblock->nsblks`, with `e = idx - idx_blk_elmts - sblk_info[s].start_idx` and
data blocks of `n = sblk_info[s].dblk_nelmts > dblk_page_nelmts` elements, that
is of `n / dblk_page_nelmts` pages: every lookup that returns a thing, in the
file `W` it leaves, found the data-block slot `e / n` of the super block
defined, the page-init bit `(e / n) * dblk_npages + page_idx` of the page
`page_idx = (e % n) / dblk_page_nelmts` set (the 64-bit sum does not wrap), and
returns the page at `dblk_addr + H5EA_DBLOCK_PREFIX_SIZE + page_idx *
dblk_page_size`, its element buffer, the index `(e % n) % dblk_page_nelmts` and
the page unprotect function; the index block and the super block are protected
once and released, the page is protected once and not released. -/
theorem lookup_paged_data_block (ea : H5EA_t) (idx acc : Nat) (w : World)
    (hg : GoodHdr w.hdr) (hin : InRange w.hdr idx) (h64 : idx + 1 < 2 ^ 64)
    (hge : w.hdr.cparam.idx_blk_elmts ≤ idx)
    (hlt : w.hdr.iblock_nsblks ≤ H5EA__dblock_sblk_idx w.hdr idx)
    (t : Thing) (ht : (H5EA__lookup_elmt ea idx acc w).1.thing = some t)
    (W : World) (hW : W = (H5EA__lookup_elmt ea idx acc w).2)
    (s e n : Nat) (hsd : s = H5EA__dblock_sblk_idx w.hdr idx)
    (he : e = idx - w.hdr.cparam.idx_blk_elmts - (w.hdr.sblk_info s).start_idx)
    (hn : n = (w.hdr.sblk_info s).dblk_nelmts)
    (hp : w.hdr.dblk_page_nelmts < n) :
    H5F_addr_defined
      ((W.sblk (W.IB.sblk_addrs (s - w.hdr.iblock_nsblks))).dblk_addrs (e / n)) = true ∧
    u64 (e / n * (n / w.hdr.dblk_page_nelmts) + e % n / w.hdr.dblk_page_nelmts)
      = e / n * (n / w.hdr.dblk_page_nelmts) + e % n / w.hdr.dblk_page_nelmts ∧
    (W.sblk (W.IB.sblk_addrs (s - w.hdr.iblock_nsblks))).page_init
      (e / n * (n / w.hdr.dblk_page_nelmts) + e % n / w.hdr.dblk_page_nelmts) = true ∧
    t = ⟨.dblk_page,
      u64 ((W.sblk (W.IB.sblk_addrs (s - w.hdr.iblock_nsblks))).dblk_addrs (e / n)
        + H5EA_DBLOCK_PREFIX_SIZE w.hdr
        + e % n / w.hdr.dblk_page_nelmts * H5EA_DBLK_PAGE_SIZE w.hdr)⟩ ∧
    (H5EA__lookup_elmt ea idx acc w).1.thing_elmt_buf = some t ∧
    (H5EA__lookup_elmt ea idx acc w).1.thing_elmt_idx = e % n % w.hdr.dblk_page_nelmts ∧
    (H5EA__lookup_elmt ea idx acc w).1.thing_unprot_func = some .dblk_page ∧
    ∃ evs, W.trace = w.trace ++ evs ∧
      nprot .iblock W.hdr.idx_blk_addr evs = 1 ∧
      nunprot .iblock W.hdr.idx_blk_addr evs = 1 ∧
      nprot .sblock (W.IB.sblk_addrs (s - w.hdr.iblock_nsblks)) evs = 1 ∧
      nunprot .sblock (W.IB.sblk_addrs (s - w.hdr.iblock_nsblks)) evs = 1 ∧
      nprot .dblk_page t.addr evs = 1 ∧ nunprot .dblk_page t.addr evs = 0 := by
  obtain ⟨h1, h2, h3, h4⟩ := lookup_via_sblock_thing ea idx acc w hg hin h64 hge hlt t ht
    W hW s e n hsd he hn
  obtain ⟨evs, htr, hcount, hle, hib, hsb⟩ := lookup_protected ea idx acc w t ht
  have hsb' := hsb (not_lt.2 hge) (not_lt.2 hlt)
  obtain ⟨o1, o2, -, -⟩ := lookup_thing_outputs ea idx acc w t ht
  obtain ⟨hgeo, -⟩ := lookup_resolves ea idx acc w t ht
  obtain ⟨s', e', hc⟩ := covered hg (not_lt.2 hge) hin h64
  have hs' : s' = s := by rw [hsd]; exact hc.s_eq.symm
  subst hs'
  have he' : e' = e := by rw [he, hsd]; exact hc.cv_off
  subst he'
  have hoff : s' - w.hdr.iblock_nsblks + w.hdr.iblock_nsblks = s' := by
    rw [hsd]; omega
  have hnp : dblk_npages w.hdr (w.hdr.sblk_info s').dblk_nelmts = n / w.hdr.dblk_page_nelmts := by
    unfold dblk_npages
    rw [← hn, if_pos hp]
  have hnp0 : npages_of w.hdr (s' - w.hdr.iblock_nsblks) = n / w.hdr.dblk_page_nelmts := by
    unfold npages_of; rw [hoff]; exact hnp
  have hne : npages_of w.hdr (s' - w.hdr.iblock_nsblks) ≠ 0 := by
    rw [hnp0]
    have hpos : 0 < w.hdr.dblk_page_nelmts := by
      obtain ⟨b, hb⟩ := hg.page_pow
      rw [hb]; exact Nat.pos_pow_of_pos b (by decide)
    exact Nat.ne_of_gt (Nat.div_pos (le_of_lt hp) hpos)
  have hk : e' % n < (w.hdr.sblk_info (s' - w.hdr.iblock_nsblks + w.hdr.iblock_nsblks)).dblk_nelmts := by
    rw [hoff, ← hn]
    exact Nat.mod_lt _ (by rw [hn]; exact hc.nelmts_pos)
  have hpl := page_idx_lt hg hk hne
  have hdi : e' / n < (w.hdr.sblk_info (s' - w.hdr.iblock_nsblks + w.hdr.iblock_nsblks)).ndblks := by
    rw [hoff, hn]; exact hc.cv_div_lt
  have hbit := page_bit_eq hg (by rw [hoff]; exact hc.s_lt) hdi hpl
  unfold page_bit at hbit
  rw [hnp0] at hbit
  subst hW
  simp only [resolve_sblock_dblock, sblock_of, hnp, hgeo.dblk_page_nelmts, hgeo.hg_prefix_size,
    hbit] at h4
  split_ifs at h4 with c1 c2 c3
  swap
  · exact absurd (show n / w.hdr.dblk_page_nelmts ≠ 0 from hnp0 ▸ hne) c1
  injection h4 with e1 e2
  subst e1
  have ci := hcount .iblock (H5EA__lookup_elmt ea idx acc w).2.hdr.idx_blk_addr
  have cs := hcount .sblock ((H5EA__lookup_elmt ea idx acc w).2.IB.sblk_addrs
    (s' - w.hdr.iblock_nsblks))
  have cd := hcount .dblk_page (u64 (((H5EA__lookup_elmt ea idx acc w).2.sblk
    ((H5EA__lookup_elmt ea idx acc w).2.IB.sblk_addrs
      (s' - w.hdr.iblock_nsblks))).dblk_addrs (e' / n)
        + H5EA_DBLOCK_PREFIX_SIZE w.hdr
        + e' % n / w.hdr.dblk_page_nelmts * H5EA_DBLK_PAGE_SIZE w.hdr))
  rw [if_neg (fun hh => nomatch hh)] at ci cs
  rw [if_pos rfl] at cd
  have hd1 := hle .dblk_page (u64 (((H5EA__lookup_elmt ea idx acc w).2.sblk
    ((H5EA__lookup_elmt ea idx acc w).2.IB.sblk_addrs
      (s' - w.hdr.iblock_nsblks))).dblk_addrs (e' / n)
        + H5EA_DBLOCK_PREFIX_SIZE w.hdr
        + e' % n / w.hdr.dblk_page_nelmts * H5EA_DBLK_PAGE_SIZE w.hdr))
  rw [← hsd] at hsb'
  rw [hib, Nat.add_zero] at ci
  rw [hsb', Nat.add_zero] at cs
  have hd2 : nunprot .dblk_page (u64 (((H5EA__lookup_elmt ea idx acc w).2.sblk
      ((H5EA__lookup_elmt ea idx acc w).2.IB.sblk_addrs
        (s' - w.hdr.iblock_nsblks))).dblk_addrs (e' / n)
          + H5EA_DBLOCK_PREFIX_SIZE w.hdr
          + e' % n / w.hdr.dblk_page_nelmts * H5EA_DBLK_PAGE_SIZE w.hdr)) evs = 0 := by
    rw [cd] at hd1
    exact Nat.eq_zero_of_le_zero (Nat.le_of_succ_le_succ hd1)
  rw [hd2] at cd
  exact ⟨h3, hbit, by simpa using c2, rfl, o1, e2.symm, o2, evs, htr, hib, ci.symm, hsb',
    cs.symm, cd, hd2⟩

set_option maxRecDepth 100000 in
theorem lookup_paged_data_block_witness :
    (H5EA__lookup_elmt handle100 30 H5AC__NO_FLAGS_SET smallWorld).1.thing
      = some ⟨.dblk_page, 1364⟩ ∧
    (H5EA__lookup_elmt handle100 30 H5AC__NO_FLAGS_SET smallWorld).1.thing_elmt_idx
      = (30 - smallWorld.hdr.cparam.idx_blk_elmts
          - (smallWorld.hdr.sblk_info (H5EA__dblock_sblk_idx smallWorld.hdr 30)).start_idx)
        % (smallWorld.hdr.sblk_info (H5EA__dblock_sblk_idx smallWorld.hdr 30)).dblk_nelmts
        % smallWorld.hdr.dblk_page_nelmts :=
  ⟨by decide,
   (lookup_paged_data_block handle100 30 H5AC__NO_FLAGS_SET smallWorld good_small
      (in_range_small (by decide)) (by decide) (by decide) (by decide)
      ⟨.dblk_page, 1364⟩ (by decide) _ rfl _ _ _ rfl rfl rfl (by decide)).2.2.2.2.2.1⟩

set_option maxRecDepth 100000 in
/-- A data block larger than a page that the index block addresses: in the
small array the data block of super block 1 has 8 elements, twice the 4
elements of a page, and the index block addresses it through its slot 1.  A
write walk for index 9 creates no page and returns the data block itself with
the index `1 = elmt_off mod dblk_nelmts`. -/
theorem iblock_data_block_never_paged :
    H5EA__dblock_sblk_idx smallWorld.hdr 9 = 1 ∧
    1 < smallWorld.hdr.iblock_nsblks ∧
    smallWorld.hdr.dblk_page_nelmts < (smallWorld.hdr.sblk_info 1).dblk_nelmts ∧
    (H5EA__lookup_elmt handle100 9 H5AC__NO_FLAGS_SET smallWorld).1.ret_value = SUCCEED ∧
    (H5EA__lookup_elmt handle100 9 H5AC__NO_FLAGS_SET smallWorld).1.thing
      = some ⟨.dblock, 1282⟩ ∧
    (H5EA__lookup_elmt handle100 9 H5AC__NO_FLAGS_SET smallWorld).1.thing_elmt_idx = 1 ∧
    (H5EA__lookup_elmt handle100 9 H5AC__NO_FLAGS_SET smallWorld).1.thing_unprot_func
      = some .dblock ∧
    ∀ ev ∈ (H5EA__lookup_elmt handle100 9 H5AC__NO_FLAGS_SET smallWorld).2.trace,
      ev.createKind ≠ some .dblk_page := by
  decide

/-- The release of a thing that succeeds: one unprotect with the flags given,
which succeeded, and nothing else changes. -/
theorem release_thing_success (o : LookupOut) (flags : Nat) (ret : Int) (w : World)
    (t : Thing) (ht : o.thing = some t) (hf : o.thing_unprot_func = some t.kind)
    (h : 0 ≤ (release_thing o flags ret w).1) :
    (release_thing o flags ret w).1 = ret ∧
    (release_thing o flags ret w).2.trace
      = w.trace ++ [.unprotect t.kind t.addr flags true] ∧
    (release_thing o flags ret w).2.flush_deps = w.flush_deps := by
  have hret := release_thing_ret o flags ret w h
  have htr := release_thing_trace o flags ret w
  rw [ht] at htr
  dsimp only at htr
  rw [hf, Option.getD_some] at htr
  unfold release_thing at h ⊢
  rw [ht] at h ⊢
  dsimp only at h ⊢
  rw [hf, Option.getD_some] at h ⊢
  unfold unprotect_thing cache_unprotect at h ⊢
  dsimp only at h ⊢
  by_cases hfa : w.fault = true
  · rw [hfa] at h
    rw [if_pos rfl, if_pos FAIL_neg] at h
    exact absurd (show (0 : Int) ≤ FAIL from h) (by decide)
  · have hfa' : w.fault = false := by simpa using hfa
    rw [hfa']
    exact ⟨rfl, rfl, rfl⟩

/-- A successful `H5EA_support`: the lookup returned a thing, the edge from the
thing to the child was added, and the thing was released with no flags. -/
theorem flush_edge_fileEq (X : World) (fd : List (H5AC_info_t × H5AC_info_t)) (ev : Event) :
    FileEq X (({ X.tick with flush_deps := fd } : World).log ev) :=
  ⟨rfl, rfl, rfl, rfl, rfl, rfl, rfl, rfl, Nat.le_succ _⟩

theorem sanity_checks_fileEq (o : LookupOut) (w : World) : FileEq w (sanity_checks o w) :=
  (((FileEq.fe_refl w).fe_HDassert _).fe_HDassert _).fe_HDassert _

theorem support_success (ea : H5EA_t) (idx : Nat) (child : H5AC_info_t) (w : World)
    (h : 0 ≤ (H5EA_support ea idx child w).1) :
    ∃ t, (H5EA__lookup_elmt ea idx H5AC__NO_FLAGS_SET w).1.thing = some t ∧
      (H5EA_support ea idx child w).2.flush_deps = w.flush_deps ++ [(.array t, child)] ∧
      (H5EA_support ea idx child w).2.trace
        = (H5EA__lookup_elmt ea idx H5AC__NO_FLAGS_SET w).2.trace ++
          [.flush_depend (some (.array t)) child true,
           .unprotect t.kind t.addr H5AC__NO_FLAGS_SET true] ∧
      FileEq (H5EA__lookup_elmt ea idx H5AC__NO_FLAGS_SET w).2
        (H5EA_support ea idx child w).2 := by
  have hfr := (lookup_frame ea idx H5AC__NO_FLAGS_SET w).1
  have hout := lookup_thing_outputs ea idx H5AC__NO_FLAGS_SET w
  revert h hfr hout
  unfold H5EA_support
  dsimp only
  generalize H5EA__lookup_elmt ea idx H5AC__NO_FLAGS_SET w = r
  intro h hfr hout
  by_cases hr : r.1.ret_value < 0
  · rw [if_pos hr] at h
    have := release_thing_ret _ _ _ _ h
    rw [this] at h
    exact absurd (show (0 : Int) ≤ FAIL from h) (by decide)
  · rw [if_neg hr] at h ⊢
    cases ht : r.1.thing with
    | none =>
      rw [ht] at h
      have hd : (H5EA__create_flush_depend (Option.map H5AC_info_t.array none) child
          (sanity_checks r.1 r.2)).1 < 0 := by
        show (H5EA__create_flush_depend none child (sanity_checks r.1 r.2)).1 < 0
        unfold H5EA__create_flush_depend
        exact FAIL_neg
      rw [if_pos hd] at h
      have := release_thing_ret _ _ _ _ h
      rw [this] at h
      exact absurd (show (0 : Int) ≤ FAIL from h) (by decide)
    | some t =>
      rw [ht] at h
      show ∃ t', some t = some t' ∧ _
      have hmap : Option.map H5AC_info_t.array (some t) = some (.array t) := rfl
      rw [hmap] at h ⊢
      rcases create_flush_depend_cases (.array t) child (sanity_checks r.1 r.2) with hc | hc
      · rw [if_pos (by rw [hc]; exact FAIL_neg)] at h
        have := release_thing_ret _ _ _ _ h
        rw [this] at h
        exact absurd (show (0 : Int) ≤ FAIL from h) (by decide)
      · rw [hc] at h ⊢
        dsimp only at h ⊢
        rw [if_neg SUCCEED_not_neg] at h ⊢
        obtain ⟨-, htr, hfd⟩ := release_thing_success r.1 H5AC__NO_FLAGS_SET SUCCEED _ t ht
          (hout t ht).2.1 h
        refine ⟨t, rfl, ?_, ?_, ?_⟩
        · rw [hfd]
          show (sanity_checks r.1 r.2).flush_deps ++ _ = _
          rw [show (sanity_checks r.1 r.2).flush_deps = r.2.flush_deps from rfl, hfr]
        · rw [htr]
          show (sanity_checks r.1 r.2).trace ++ [_] ++ [_] = _
          rw [show (sanity_checks r.1 r.2).trace = r.2.trace from rfl, List.append_assoc]
          rfl
        · refine FileEq.fe_trans ?_ (release_thing_fileEq _ _ _ _)
          exact (sanity_checks_fileEq r.1 r.2).fe_trans (flush_edge_fileEq _ _ _)

/-- A successful `H5EA_unsupport`: the read-only lookup returned a thing, the
edge from the thing to the child existed and was removed, and the thing was
released with no flags. -/
theorem unsupport_success (ea : H5EA_t) (idx : Nat) (child : H5AC_info_t) (w : World)
    (h : 0 ≤ (H5EA_unsupport ea idx child w).1) :
    ∃ t, (H5EA__lookup_elmt ea idx H5AC__READ_ONLY_FLAG w).1.thing = some t ∧
      (.array t, child) ∈ w.flush_deps ∧
      (H5EA_unsupport ea idx child w).2.flush_deps = w.flush_deps.erase (.array t, child) ∧
      (H5EA_unsupport ea idx child w).2.trace
        = (H5EA__lookup_elmt ea idx H5AC__READ_ONLY_FLAG w).2.trace ++
          [.flush_undepend (some (.array t)) child true,
           .unprotect t.kind t.addr H5AC__NO_FLAGS_SET true] := by
  have hfr := (lookup_frame ea idx H5AC__READ_ONLY_FLAG w).1
  have hout := lookup_thing_outputs ea idx H5AC__READ_ONLY_FLAG w
  revert h hfr hout
  unfold H5EA_unsupport
  dsimp only
  generalize H5EA__lookup_elmt ea idx H5AC__READ_ONLY_FLAG w = r
  intro h hfr hout
  by_cases hr : r.1.ret_value < 0
  · rw [if_pos hr] at h
    have := release_thing_ret _ _ _ _ h
    rw [this] at h
    exact absurd (show (0 : Int) ≤ FAIL from h) (by decide)
  · rw [if_neg hr] at h ⊢
    cases ht : r.1.thing with
    | none =>
      rw [ht] at h
      have hd : (H5EA__destroy_flush_depend (Option.map H5AC_info_t.array none) child
          (sanity_checks r.1 r.2)).1 < 0 := by
        show (H5EA__destroy_flush_depend none child (sanity_checks r.1 r.2)).1 < 0
        unfold H5EA__destroy_flush_depend
        exact FAIL_neg
      rw [if_pos hd] at h
      have := release_thing_ret _ _ _ _ h
      rw [this] at h
      exact absurd (show (0 : Int) ≤ FAIL from h) (by decide)
    | some t =>
      rw [ht] at h
      show ∃ t', some t = some t' ∧ _
      have hmap : Option.map H5AC_info_t.array (some t) = some (.array t) := rfl
      rw [hmap] at h ⊢
      rcases destroy_flush_depend_cases (.array t) child (sanity_checks r.1 r.2)
        with hc | ⟨hm, hc⟩
      · rw [if_pos (by rw [hc]; exact FAIL_neg)] at h
        have := release_thing_ret _ _ _ _ h
        rw [this] at h
        exact absurd (show (0 : Int) ≤ FAIL from h) (by decide)
      · rw [hc] at h ⊢
        dsimp only at h ⊢
        rw [if_neg SUCCEED_not_neg] at h ⊢
        obtain ⟨-, htr, hfd⟩ := release_thing_success r.1 H5AC__NO_FLAGS_SET SUCCEED _ t ht
          (hout t ht).2.1 h
        have hm' : (H5AC_info_t.array t, child) ∈ w.flush_deps := by
          rw [← hfr]; exact hm
        refine ⟨t, rfl, hm', ?_, ?_⟩
        · rw [hfd]
          show (sanity_checks r.1 r.2).flush_deps.erase _ = _
          rw [show (sanity_checks r.1 r.2).flush_deps = r.2.flush_deps from rfl, hfr]
        · rw [htr]
          show (sanity_checks r.1 r.2).trace ++ [_] ++ [_] = _
          rw [show (sanity_checks r.1 r.2).trace = r.2.trace from rfl, List.append_assoc]
          rfl

/-- C24: support and unsupport of a child entry.  A successful
`H5EA_support(ea, idx, child)` looks the index up with write access, adds the
flush-dependency edge from the block `t` the lookup returns, which is the
block the addressing finds for `idx`, to the child, and releases `t` with
`H5AC__NO_FLAGS_SET`.  A following successful `H5EA_unsupport(ea, idx, child)`
looks the index up read-only, is returned the same block `t`, removes that
edge, after which the edges are those before the two calls (as a
permutation), and releases `t` with `H5AC__NO_FLAGS_SET`. -/
theorem support_then_unsupport (ea : H5EA_t) (idx : Nat) (child : H5AC_info_t) (w : World)
    (h1 : 0 ≤ (H5EA_support ea idx child w).1)
    (h2 : 0 ≤ (H5EA_unsupport ea idx child (H5EA_support ea idx child w).2).1) :
    ∃ t, (H5EA__lookup_elmt ea idx H5AC__NO_FLAGS_SET w).1.thing = some t ∧
      resolve_at (H5EA__lookup_elmt ea idx H5AC__NO_FLAGS_SET w).2 (place w.hdr idx)
        = .found t (H5EA__lookup_elmt ea idx H5AC__NO_FLAGS_SET w).1.thing_elmt_idx ∧
      (H5EA_support ea idx child w).2.flush_deps = w.flush_deps ++ [(.array t, child)] ∧
      (H5EA_support ea idx child w).2.trace
        = (H5EA__lookup_elmt ea idx H5AC__NO_FLAGS_SET w).2.trace ++
          [.flush_depend (some (.array t)) child true,
           .unprotect t.kind t.addr H5AC__NO_FLAGS_SET true] ∧
      (H5EA__lookup_elmt ea idx H5AC__READ_ONLY_FLAG
        (H5EA_support ea idx child w).2).1.thing = some t ∧
      (H5EA_unsupport ea idx child (H5EA_support ea idx child w).2).2.flush_deps
        = (H5EA_support ea idx child w).2.flush_deps.erase (.array t, child) ∧
      List.Perm (H5EA_unsupport ea idx child (H5EA_support ea idx child w).2).2.flush_deps
        w.flush_deps ∧
      (H5EA_unsupport ea idx child (H5EA_support ea idx child w).2).2.trace
        = (H5EA__lookup_elmt ea idx H5AC__READ_ONLY_FLAG
            (H5EA_support ea idx child w).2).2.trace ++
          [.flush_undepend (some (.array t)) child true,
           .unprotect t.kind t.addr H5AC__NO_FLAGS_SET true] := by
  obtain ⟨t, ht, hfd, htr, hfe⟩ := support_success ea idx child w h1
  obtain ⟨t', ht', hm', hfd', htr'⟩ :=
    unsupport_success ea idx child (H5EA_support ea idx child w).2 h2
  obtain ⟨hgeo, hres⟩ := lookup_resolves ea idx H5AC__NO_FLAGS_SET w t ht
  obtain ⟨-, hres'⟩ := lookup_resolves ea idx H5AC__READ_ONLY_FLAG
    (H5EA_support ea idx child w).2 t' ht'
  have hro := lookup_ro_fileEq ea idx (H5EA_support ea idx child w).2
  have hpl : place (H5EA_support ea idx child w).2.hdr idx = place w.hdr idx := by
    rw [hfe.hdr]; exact hgeo.hg_place idx
  rw [hpl, (SameTree.st_of_fileEq hro).st_resolve_at] at hres'
  have hsame : resolve_at
      ({ (H5EA_support ea idx child w).2 with
        hdr := { (H5EA_support ea idx child w).2.hdr with f := ea.f } } : World)
      (place w.hdr idx)
      = resolve_at (H5EA_support ea idx child w).2 (place w.hdr idx) :=
    SameTree.st_resolve_at
      ⟨⟨rfl, rfl, rfl, rfl, rfl, rfl, rfl⟩, rfl, fun _ => rfl, fun _ => rfl, fun _ => rfl,
        rfl, fun _ => rfl, fun _ => rfl, rfl⟩ _
  rw [hsame, (SameTree.st_of_fileEq hfe).st_resolve_at, hres] at hres'
  have htt : t' = t := by
    injection hres' with e1 e2
    exact e1.symm
  subst htt
  refine ⟨t', ht, hres, hfd, htr, ht', hfd', ?_, htr'⟩
  rw [hfd', hfd]
  exact erase_append_self w.flush_deps (.array t', child)

set_option maxRecDepth 100000 in
theorem support_then_unsupport_witness :
    (0 ≤ (H5EA_support handle100 10 (.ext 7) smallWorld).1 ∧
      0 ≤ (H5EA_unsupport handle100 10 (.ext 7)
        (H5EA_support handle100 10 (.ext 7) smallWorld).2).1) ∧
    ∃ t, (H5EA__lookup_elmt handle100 10 H5AC__NO_FLAGS_SET smallWorld).1.thing = some t ∧
      (H5EA_support handle100 10 (.ext 7) smallWorld).2.flush_deps
        = smallWorld.flush_deps ++ [(.array t, .ext 7)] :=
  ⟨by decide,
   (support_then_unsupport handle100 10 (.ext 7) smallWorld (by decide) (by decide)).imp
     fun t h => ⟨h.1, h.2.2.1⟩⟩

/-! ### What makes the walk mark the header modified -/

/-- The effect of one statement of the walk on `hdr_dirty` and `stats_changed`:
they are set by the successful creations among the calls the statement
logs. -/
theorem WalkStep.ws_dirt {acc idx s e : Nat} {h0 : H5EA_hdr_t} {l l' : LookupLocals}
    {w w' : World} (h : WalkStep acc idx s e h0 l w l' w') :
    w'.trace = w.trace ++ w'.trace.drop w.trace.length ∧
    l'.hdr_dirty = (l.hdr_dirty || (w'.trace.drop w.trace.length).any Event.createdIblock) ∧
    l'.stats_changed
      = (l.stats_changed || (w'.trace.drop w.trace.length).any Event.reportsStats) ∧
    (w'.trace.drop w.trace.length).all Event.parentKindOk = true := by
  cases h <;>
    (try simp only [lookup_ensure_iblock, lookup_ensure_iblock_dblock, lookup_ensure_sblock,
      lookup_ensure_sblock_dblock, lookup_ensure_page, lookup_dblock, lookup_page]) <;>
    (try split_ifs) <;> (try split) <;>
    simp_all [Flow.world, Flow.locals, World.set_iblock_dblk_addr, World.set_iblock_sblk_addr,
      World.set_sblock_dblk_addr, World.set_page_init, Event.createdIblock,
      Event.reportsStats, Event.parentKindOk]

/-- At `CATCH` the flags `hdr_dirty` and `stats_changed` say which creations
the walk made: `hdr_dirty` that an index block was created, `stats_changed` that
an index block, a super block or a data block was created; and every creation
was called with a parent of the right kind. -/
theorem lookup_body_dirt (ea : H5EA_t) (idx acc : Nat) (w : World) :
    ∃ evs, (lookup_body ea idx acc w).2.trace = w.trace ++ evs ∧
      (lookup_body ea idx acc w).1.hdr_dirty = evs.any Event.createdIblock ∧
      (lookup_body ea idx acc w).1.stats_changed = evs.any Event.reportsStats ∧
      evs.all Event.parentKindOk = true := by
  refine WalkSteps.ws_invariant
    (fun l' w' => ∃ evs, w'.trace = w.trace ++ evs ∧
      l'.hdr_dirty = evs.any Event.createdIblock ∧
      l'.stats_changed = evs.any Event.reportsStats ∧
      evs.all Event.parentKindOk = true)
    (fun l1 w1 l2 w2 hI hs => ?_) (lookup_body_steps ea idx acc w)
    ⟨[], by simp, rfl, rfl, rfl⟩
  obtain ⟨evs, h1, h2, h3, h4⟩ := hI
  obtain ⟨g1, g2, g3, g4⟩ := hs.ws_dirt
  refine ⟨evs ++ w2.trace.drop w1.trace.length, ?_, ?_, ?_, ?_⟩
  · rw [← List.append_assoc, ← h1]
    exact g1
  · rw [g2, h2, List.any_append]
  · rw [g3, h3, List.any_append]
  · rw [List.all_append, h4, g4]
    rfl

/-- The calls of a lookup, with what `hdr_dirty` and `stats_changed` are at
`CATCH`. -/
theorem lookup_dirt (ea : H5EA_t) (idx acc : Nat) (w : World) :
    ∃ evs cevs l l',
      (H5EA__lookup_elmt ea idx acc w).2.trace = w.trace ++ (evs ++ cevs) ∧
      WalkTrace acc evs l ∧ CatchTrace l cevs l' ∧
      l.hdr_dirty = evs.any Event.createdIblock ∧
      l.stats_changed = evs.any Event.reportsStats ∧
      (∀ e ∈ evs ++ cevs, e.parentKindOk = true) := by
  obtain ⟨evs, h1, h2⟩ := lookup_body_walk ea idx acc w
  obtain ⟨evs', g1, g2, g3, g4⟩ := lookup_body_dirt ea idx acc w
  obtain ⟨cevs, h3, h4⟩ := lookup_catch_spec (lookup_body ea idx acc w).1
    (lookup_body ea idx acc w).2
  have he : evs' = evs := List.append_cancel_left (g1.symm.trans h1)
  subst he
  refine ⟨evs', cevs, _, _, ?_, h2, h4, g2, g3, ?_⟩
  · unfold H5EA__lookup_elmt
    dsimp only
    rw [h3, h1, List.append_assoc]
  · intro e he
    rcases List.mem_append.1 he with he | he
    · exact List.all_eq_true.1 g4 e he
    · rcases h4.calls e he with q | ⟨_, _, q⟩ | ⟨_, _, q⟩ | ⟨_, _, q⟩ | ⟨_, _, q⟩ <;>
        rw [q] <;> rfl

/-- A block is released with the flags of `release_flags` being `DIRTIED`
exactly when a creation below it succeeded. -/
theorem release_flags_dirtied (p : Thing) (evs : List Event) :
    (release_flags p evs = H5AC__DIRTIED_FLAG ∨ release_flags p evs = H5AC__NO_FLAGS_SET) ∧
    (release_flags p evs = H5AC__DIRTIED_FLAG ↔ ∃ e ∈ evs, e.childOf p = true) := by
  unfold release_flags nchild
  by_cases h : 0 < List.countP (Event.childOf p) evs
  · rw [if_pos h]
    exact ⟨Or.inl rfl, fun _ => List.countP_pos_iff.1 h, fun _ => rfl⟩
  · rw [if_neg h]
    exact ⟨Or.inr rfl, fun q => absurd q (by decide),
      fun q => absurd (List.countP_pos_iff.2 q) h⟩

/-- C31: in every walk of `H5EA__lookup_elmt` (a read-only walk creates
nothing), over the calls `evs` it makes: the index block is released with
`H5AC__DIRTIED_FLAG` exactly when a super block or a data block was created
with it as parent (the address is then stored into it), and with no flag
otherwise; a super block is released with `H5AC__DIRTIED_FLAG` exactly when a
data block or a data block page was created with it as parent (an address is
stored, or a page-init bit is set), and with no flag otherwise; and
`H5EA__hdr_modified` is called exactly when the index block was created or a
creation routine that takes `stats_changed` (index block, super block, data
block) succeeded. -/
theorem lookup_dirties_what_it_changed (ea : H5EA_t) (idx acc : Nat) (w : World) :
    ∃ evs, (H5EA__lookup_elmt ea idx acc w).2.trace = w.trace ++ evs ∧
      (∀ a fl ok, Event.unprotect .iblock a fl ok ∈ evs →
        (fl = H5AC__DIRTIED_FLAG ∨ fl = H5AC__NO_FLAGS_SET) ∧
        (fl = H5AC__DIRTIED_FLAG ↔
          ((∃ addr i, Event.sblock_create addr ⟨.iblock, a⟩ i true ∈ evs) ∨
            ∃ addr off n, Event.dblock_create addr ⟨.iblock, a⟩ off n true ∈ evs))) ∧
      (∀ a fl ok, Event.unprotect .sblock a fl ok ∈ evs →
        (fl = H5AC__DIRTIED_FLAG ∨ fl = H5AC__NO_FLAGS_SET) ∧
        (fl = H5AC__DIRTIED_FLAG ↔
          ((∃ addr off n, Event.dblock_create addr ⟨.sblock, a⟩ off n true ∈ evs) ∨
            ∃ addr, Event.dblk_page_create addr ⟨.sblock, a⟩ true ∈ evs))) ∧
      ((∃ ok, Event.hdr_modified ok ∈ evs) ↔
        ((∃ addr, Event.iblock_create addr true ∈ evs) ∨
          ∃ e ∈ evs, e.reportsStats = true)) := by
  obtain ⟨evs, cevs, l, l', htr, hw, hc, hd, hs, hp⟩ := lookup_dirt ea idx acc w
  obtain ⟨T, hT, hfl⟩ := lookup_release_flags ea idx acc w
  have hTe : T = evs ++ cevs := List.append_cancel_left (hT.symm.trans htr)
  subst hTe
  refine ⟨evs ++ cevs, htr, ?_, ?_, ?_⟩
  · intro a fl ok he
    obtain ⟨hf, -⟩ := hfl _ _ _ _ he
    obtain ⟨r1, r2⟩ := release_flags_dirtied ⟨.iblock, a⟩ (evs ++ cevs)
    rw [hf]
    refine ⟨r1, r2.trans ⟨?_, ?_⟩⟩
    · rintro ⟨e, hm, hch⟩
      have hk := hp e hm
      cases e <;> simp [Event.childOf, Event.parentKindOk] at hch hk
      · obtain ⟨q1, q2⟩ := hch
        subst q1 q2
        exact Or.inl ⟨_, _, hm⟩
      · obtain ⟨q1, q2⟩ := hch
        subst q1 q2
        exact Or.inr ⟨_, _, _, hm⟩
      · obtain ⟨q1, q2⟩ := hch
        subst q1
        simp at hk
    · rintro (⟨addr, i, hm⟩ | ⟨addr, off, n, hm⟩)
      · exact ⟨_, hm, by simp [Event.childOf]⟩
      · exact ⟨_, hm, by simp [Event.childOf]⟩
  · intro a fl ok he
    obtain ⟨hf, -⟩ := hfl _ _ _ _ he
    obtain ⟨r1, r2⟩ := release_flags_dirtied ⟨.sblock, a⟩ (evs ++ cevs)
    rw [hf]
    refine ⟨r1, r2.trans ⟨?_, ?_⟩⟩
    · rintro ⟨e, hm, hch⟩
      have hk := hp e hm
      cases e <;> simp [Event.childOf, Event.parentKindOk] at hch hk
      · obtain ⟨q1, q2⟩ := hch
        subst q1
        simp at hk
      · obtain ⟨q1, q2⟩ := hch
        subst q1 q2
        exact Or.inl ⟨_, _, _, hm⟩
      · obtain ⟨q1, q2⟩ := hch
        subst q1 q2
        exact Or.inr ⟨_, hm⟩
    · rintro (⟨addr, off, n, hm⟩ | ⟨addr, hm⟩)
      · exact ⟨_, hm, by simp [Event.childOf]⟩
      · exact ⟨_, hm, by simp [Event.childOf]⟩
  · have hnc := catch_no_create hc
    constructor
    · rintro ⟨ok, hm⟩
      rcases List.mem_append.1 hm with hm | hm
      · rcases hw.calls _ hm with h1 | ⟨_, _, _, h1⟩
        · simp [Event.createKind] at h1
        · cases h1
      · rcases hc.modified.1 ⟨ok, hm⟩ with h | h
        · rw [hd, List.any_eq_true] at h
          obtain ⟨e, he, hq⟩ := h
          cases e <;> simp [Event.createdIblock] at hq
          subst hq
          exact Or.inl ⟨_, List.mem_append_left _ he⟩
        · rw [hs, List.any_eq_true] at h
          obtain ⟨e, he, hq⟩ := h
          exact Or.inr ⟨e, List.mem_append_left _ he, hq⟩
    · intro h
      have key : ∃ e ∈ evs, e.reportsStats = true := by
        rcases h with ⟨addr, hm⟩ | ⟨e, hm, hq⟩
        · rcases List.mem_append.1 hm with hm | hm
          · exact ⟨_, hm, rfl⟩
          · exact absurd (hnc _ hm) (by simp [Event.createKind])
        · rcases List.mem_append.1 hm with hm | hm
          · exact ⟨e, hm, hq⟩
          · have := hnc _ hm
            cases e <;> simp [Event.createKind, Event.reportsStats] at this hq
      obtain ⟨ok, hm⟩ := hc.modified.2 (Or.inr (by
        rw [hs, List.any_eq_true]
        exact key))
      exact ⟨ok, List.mem_append_right _ hm⟩

set_option maxRecDepth 100000 in
theorem lookup_dirties_what_it_changed_witness :
    ∃ evs, (H5EA__lookup_elmt handle100 30 H5AC__NO_FLAGS_SET smallWorld).2.trace
        = smallWorld.trace ++ evs ∧
      Event.unprotect .iblock 1000 H5AC__DIRTIED_FLAG true ∈ evs ∧
      Event.unprotect .sblock 1282 H5AC__DIRTIED_FLAG true ∈ evs ∧
      ((∃ addr i, Event.sblock_create addr ⟨.iblock, 1000⟩ i true ∈ evs) ∨
        ∃ addr off n, Event.dblock_create addr ⟨.iblock, 1000⟩ off n true ∈ evs) ∧
      ((∃ addr off n, Event.dblock_create addr ⟨.sblock, 1282⟩ off n true ∈ evs) ∨
        ∃ addr, Event.dblk_page_create addr ⟨.sblock, 1282⟩ true ∈ evs) ∧
      ∃ ok, Event.hdr_modified ok ∈ evs := by
  obtain ⟨evs, h1, ha, hb, hc⟩ :=
    lookup_dirties_what_it_changed handle100 30 H5AC__NO_FLAGS_SET smallWorld
  have htr : (H5EA__lookup_elmt handle100 30 H5AC__NO_FLAGS_SET smallWorld).2.trace
      = smallWorld.trace ++
        [.iblock_create 1000 true, .protect .iblock 1000 0 true,
          .sblock_create 1282 ⟨.iblock, 1000⟩ 2 true, .protect .sblock 1282 0 true,
          .dblock_create 1322 ⟨.sblock, 1282⟩ 20 8 true,
          .dblk_page_create 1364 ⟨.sblock, 1282⟩ true, .protect .dblk_page 1364 0 true,
          .hdr_modified true, .unprotect .iblock 1000 4 true,
          .unprotect .sblock 1282 4 true] := by decide
  have hevs := List.append_cancel_left (h1.symm.trans htr)
  have hi : Event.unprotect .iblock 1000 H5AC__DIRTIED_FLAG true ∈ evs := by
    rw [hevs]; decide
  have hs : Event.unprotect .sblock 1282 H5AC__DIRTIED_FLAG true ∈ evs := by
    rw [hevs]; decide
  have hm : Event.iblock_create 1000 true ∈ evs := by
    rw [hevs]; decide
  exact ⟨evs, h1, hi, hs, (ha _ _ _ hi).2.1 rfl, (hb _ _ _ hs).2.1 rfl, hc.2 (Or.inl ⟨_, hm⟩)⟩

/-- The check-and-create of a super block: what it stores and what it keeps. -/
theorem ensure_sblock_made (acc s ib off : Nat) (l : LookupLocals) (w : World) :
    (H5F_addr_defined ((w.iblk ib).sblk_addrs off) = true →
      (lookup_ensure_sblock acc s ib off l w).world = w) ∧
    (lookup_ensure_sblock acc s ib off l w).world.hdr.idx_blk_addr = w.hdr.idx_blk_addr ∧
    (∀ a, ((lookup_ensure_sblock acc s ib off l w).world.iblk a).dblk_addrs
      = (w.iblk a).dblk_addrs) ∧
    (∀ a j, H5F_addr_defined ((w.iblk a).sblk_addrs j) = true →
      ((lookup_ensure_sblock acc s ib off l w).world.iblk a).sblk_addrs j
        = (w.iblk a).sblk_addrs j) ∧
    (∀ ev ∈ (lookup_ensure_sblock acc s ib off l w).world.trace.drop w.trace.length,
      ∃ a ok, ev = .sblock_create a ⟨.iblock, ib⟩ s ok ∧
        (ok = true → ((lookup_ensure_sblock acc s ib off l w).world.iblk ib).sblk_addrs off = a ∧
          H5F_addr_defined a = true)) := by
  unfold lookup_ensure_sblock
  by_cases hb : H5F_addr_defined ((w.iblk ib).sblk_addrs off) = false
  · rw [if_pos hb]
    by_cases hacc : acc &&& H5AC__READ_ONLY_FLAG = 0
    · rw [if_pos hacc]
      dsimp only
      unfold H5EA__sblock_create
      by_cases hc : (w.fault = true ∨ H5MF_alloc_fits w (H5EA_SBLOCK_SIZE w.hdr s) = false)
      · simp only [if_pos hc, undef_not_defined, if_true]
        refine ⟨fun h => ?_, by simp [Flow.world], fun a => by simp [Flow.world, World.iblk],
          fun a j _ => by simp [Flow.world, World.iblk], ?_⟩
        · rw [hb] at h; cases h
        · intro ev hev
          simp [Flow.world] at hev
          exact ⟨_, false, hev, fun h => by cases h⟩
      · have hf : H5F_addr_defined w.eoa = true :=
          fits_defined w _ (by simpa using (not_or.1 hc).2)
        simp only [if_neg hc, hf]
        refine ⟨fun h => ?_, by simp [Flow.world, World.set_iblock_sblk_addr], fun a => ?_,
          fun a j hj => ?_, ?_⟩
        · rw [hb] at h; cases h
        · simp only [Flow.world, World.set_iblock_sblk_addr, World.iblk]
          by_cases hx : a = ib
          · subst hx; simp [World.iblk]
          · simp [Function.update, hx]
        · simp only [Flow.world, World.set_iblock_sblk_addr, World.iblk]
          by_cases hx : a = ib
          · subst hx
            by_cases hjo : j = off
            · subst hjo; rw [hb] at hj; cases hj
            · simp [World.iblk, Function.update, hjo]
          · simp [Function.update, hx]
        · intro ev hev
          simp [Flow.world, World.set_iblock_sblk_addr] at hev
          refine ⟨_, true, hev, fun _ => ⟨?_, hf⟩⟩
          simp [Flow.world, World.set_iblock_sblk_addr, World.iblk]
    · rw [if_neg hacc]
      refine ⟨fun _ => rfl, rfl, fun _ => rfl, fun _ _ _ => rfl, ?_⟩
      intro ev hev
      simp [Flow.world] at hev
  · rw [if_neg hb]
    refine ⟨fun _ => rfl, rfl, fun _ => rfl, fun _ _ _ => rfl, ?_⟩
    intro ev hev
    simp [Flow.world] at hev

/-- The check-and-create of the index block: what it stores. -/
theorem ensure_iblock_made (acc : Nat) (l : LookupLocals) (w : World) :
    (H5F_addr_defined w.hdr.idx_blk_addr = true → (lookup_ensure_iblock acc l w).world = w) ∧
    (∀ ev ∈ (lookup_ensure_iblock acc l w).world.trace.drop w.trace.length,
      ∃ a ok, ev = .iblock_create a ok ∧
        (ok = true → (lookup_ensure_iblock acc l w).world.hdr.idx_blk_addr = a ∧
          H5F_addr_defined a = true)) := by
  unfold lookup_ensure_iblock
  by_cases hb : H5F_addr_defined w.hdr.idx_blk_addr = false
  · rw [if_pos hb]
    by_cases hacc : acc &&& H5AC__READ_ONLY_FLAG = 0
    · rw [if_pos hacc]
      dsimp only
      unfold H5EA__iblock_create
      by_cases hc : (w.fault = true ∨ H5MF_alloc_fits w (H5EA_IBLOCK_SIZE w.hdr) = false)
      · simp only [if_pos hc, undef_not_defined, if_true]
        refine ⟨fun h => ?_, ?_⟩
        · rw [hb] at h; cases h
        · intro ev hev
          simp [Flow.world] at hev
          exact ⟨_, false, hev, fun h => by cases h⟩
      · have hf : H5F_addr_defined w.eoa = true :=
          fits_defined w _ (by simpa using (not_or.1 hc).2)
        simp only [if_neg hc, hf]
        refine ⟨fun h => ?_, ?_⟩
        · rw [hb] at h; cases h
        · intro ev hev
          simp [Flow.world] at hev
          refine ⟨_, true, hev, fun _ => ⟨?_, hf⟩⟩
          simp [Flow.world]
    · rw [if_neg hacc]
      refine ⟨fun _ => rfl, ?_⟩
      intro ev hev
      simp [Flow.world] at hev
  · rw [if_neg hb]
    refine ⟨fun _ => rfl, ?_⟩
    intro ev hev
    simp [Flow.world] at hev

/-- The check-and-create of a data block below the index block: what it stores
and what it keeps. -/
theorem ensure_iblock_dblock_made (acc s ib i : Nat) (l : LookupLocals) (w : World) :
    (lookup_ensure_iblock_dblock acc s ib i l w).world.hdr.idx_blk_addr = w.hdr.idx_blk_addr ∧
    (lookup_ensure_iblock_dblock acc s ib i l w).world.sblocks = w.sblocks ∧
    (∀ a, ((lookup_ensure_iblock_dblock acc s ib i l w).world.iblk a).sblk_addrs
      = (w.iblk a).sblk_addrs) ∧
    (∀ a j, H5F_addr_defined ((w.iblk a).dblk_addrs j) = true →
      ((lookup_ensure_iblock_dblock acc s ib i l w).world.iblk a).dblk_addrs j
        = (w.iblk a).dblk_addrs j) ∧
    (∀ ev ∈ (lookup_ensure_iblock_dblock acc s ib i l w).world.trace.drop w.trace.length,
      ∃ a off n ok, ev = .dblock_create a ⟨.iblock, ib⟩ off n ok ∧
        (ok = true →
          ((lookup_ensure_iblock_dblock acc s ib i l w).world.iblk ib).dblk_addrs i = a ∧
          H5F_addr_defined a = true)) := by
  unfold lookup_ensure_iblock_dblock
  by_cases hb : H5F_addr_defined ((w.iblk ib).dblk_addrs i) = false
  · rw [if_pos hb]
    by_cases hacc : acc &&& H5AC__READ_ONLY_FLAG = 0
    · rw [if_pos hacc]
      dsimp only
      unfold H5EA__dblock_create
      by_cases hc : (w.fault = true ∨ H5MF_alloc_fits w
          (H5EA_DBLOCK_SIZE w.hdr (w.hdr.sblk_info s).dblk_nelmts) = false)
      · simp only [if_pos hc, undef_not_defined, if_true]
        refine ⟨by simp [Flow.world], by simp [Flow.world],
          fun a => by simp [Flow.world, World.iblk],
          fun a j _ => by simp [Flow.world, World.iblk], ?_⟩
        intro ev hev
        simp [Flow.world] at hev
        exact ⟨_, _, _, false, hev, fun h => by cases h⟩
      · have hf : H5F_addr_defined w.eoa = true :=
          fits_defined w _ (by simpa using (not_or.1 hc).2)
        simp only [if_neg hc, hf]
        refine ⟨by simp [Flow.world, World.set_iblock_dblk_addr],
          by simp [Flow.world, World.set_iblock_dblk_addr], fun a => ?_, fun a j hj => ?_, ?_⟩
        · simp only [Flow.world, World.set_iblock_dblk_addr, World.iblk]
          by_cases hx : a = ib
          · subst hx; simp [World.iblk]
          · simp [Function.update, hx]
        · simp only [Flow.world, World.set_iblock_dblk_addr, World.iblk]
          by_cases hx : a = ib
          · subst hx
            by_cases hjo : j = i
            · subst hjo; rw [hb] at hj; cases hj
            · simp [World.iblk, Function.update, hjo]
          · simp [Function.update, hx]
        · intro ev hev
          simp [Flow.world, World.set_iblock_dblk_addr] at hev
          refine ⟨_, _, _, true, hev, fun _ => ⟨?_, hf⟩⟩
          simp [Flow.world, World.set_iblock_dblk_addr, World.iblk]
    · rw [if_neg hacc]
      refine ⟨rfl, rfl, fun _ => rfl, fun _ _ _ => rfl, ?_⟩
      intro ev hev
      simp [Flow.world] at hev
  · rw [if_neg hb]
    refine ⟨rfl, rfl, fun _ => rfl, fun _ _ _ => rfl, ?_⟩
    intro ev hev
    simp [Flow.world] at hev

/-- The check-and-create of a data block below a super block: what it stores
and what it keeps. -/
theorem ensure_sblock_dblock_made (acc s : Nat) (sb : H5EA_sblock_t) (i : Nat)
    (l : LookupLocals) (w : World) :
    (lookup_ensure_sblock_dblock acc s sb i l w).world.hdr.idx_blk_addr = w.hdr.idx_blk_addr ∧
    (lookup_ensure_sblock_dblock acc s sb i l w).world.iblocks = w.iblocks ∧
    (∀ a, ((lookup_ensure_sblock_dblock acc s sb i l w).world.sblk a).page_init
      = (w.sblk a).page_init) ∧
    (∀ a j, H5F_addr_defined ((w.sblk a).dblk_addrs j) = true →
      ((lookup_ensure_sblock_dblock acc s sb i l w).world.sblk a).dblk_addrs j
        = (w.sblk a).dblk_addrs j) ∧
    (∀ ev ∈ (lookup_ensure_sblock_dblock acc s sb i l w).world.trace.drop w.trace.length,
      ∃ a off n ok, ev = .dblock_create a ⟨.sblock, sb.addr⟩ off n ok ∧
        (ok = true →
          ((lookup_ensure_sblock_dblock acc s sb i l w).world.sblk sb.addr).dblk_addrs i = a ∧
          H5F_addr_defined a = true)) := by
  unfold lookup_ensure_sblock_dblock
  by_cases hb : H5F_addr_defined ((w.sblk sb.addr).dblk_addrs i) = false
  · rw [if_pos hb]
    by_cases hacc : acc &&& H5AC__READ_ONLY_FLAG = 0
    · rw [if_pos hacc]
      dsimp only
      unfold H5EA__dblock_create
      by_cases hc : (w.fault = true ∨ H5MF_alloc_fits w
          (H5EA_DBLOCK_SIZE w.hdr sb.dblk_nelmts) = false)
      · simp only [if_pos hc, undef_not_defined, if_true]
        refine ⟨by simp [Flow.world], by simp [Flow.world],
          fun a => by simp [Flow.world, World.sblk],
          fun a j _ => by simp [Flow.world, World.sblk], ?_⟩
        intro ev hev
        simp [Flow.world] at hev
        exact ⟨_, _, _, false, hev, fun h => by cases h⟩
      · have hf : H5F_addr_defined w.eoa = true :=
          fits_defined w _ (by simpa using (not_or.1 hc).2)
        simp only [if_neg hc, hf]
        refine ⟨by simp [Flow.world, World.set_sblock_dblk_addr],
          by simp [Flow.world, World.set_sblock_dblk_addr], fun a => ?_, fun a j hj => ?_, ?_⟩
        · simp only [Flow.world, World.set_sblock_dblk_addr, World.sblk]
          by_cases hx : a = sb.addr
          · subst hx; simp [World.sblk]
          · simp [Function.update, hx]
        · simp only [Flow.world, World.set_sblock_dblk_addr, World.sblk]
          by_cases hx : a = sb.addr
          · subst hx
            by_cases hjo : j = i
            · subst hjo; rw [hb] at hj; cases hj
            · simp [World.sblk, Function.update, hjo]
          · simp [Function.update, hx]
        · intro ev hev
          simp [Flow.world, World.set_sblock_dblk_addr] at hev
          refine ⟨_, _, _, true, hev, fun _ => ⟨?_, hf⟩⟩
          simp [Flow.world, World.set_sblock_dblk_addr, World.sblk]
    · rw [if_neg hacc]
      refine ⟨rfl, rfl, fun _ => rfl, fun _ _ _ => rfl, ?_⟩
      intro ev hev
      simp [Flow.world] at hev
  · rw [if_neg hb]
    refine ⟨rfl, rfl, fun _ => rfl, fun _ _ _ => rfl, ?_⟩
    intro ev hev
    simp [Flow.world] at hev

/-- The check-and-create of a page: what it sets and what it keeps. -/
theorem ensure_page_made (acc : Nat) (sb : H5EA_sblock_t) (pi pa : Nat)
    (l : LookupLocals) (w : World) :
    (lookup_ensure_page acc sb pi pa l w).world.hdr.idx_blk_addr = w.hdr.idx_blk_addr ∧
    (lookup_ensure_page acc sb pi pa l w).world.iblocks = w.iblocks ∧
    (∀ a, ((lookup_ensure_page acc sb pi pa l w).world.sblk a).dblk_addrs
      = (w.sblk a).dblk_addrs) ∧
    (∀ a j, (w.sblk a).page_init j = true →
      ((lookup_ensure_page acc sb pi pa l w).world.sblk a).page_init j = true) ∧
    (∀ ev ∈ (lookup_ensure_page acc sb pi pa l w).world.trace.drop w.trace.length,
      ∃ ok, ev = .dblk_page_create pa ⟨.sblock, sb.addr⟩ ok ∧
        (ok = true →
          ((lookup_ensure_page acc sb pi pa l w).world.sblk sb.addr).page_init pi = true)) := by
  unfold lookup_ensure_page
  by_cases hb : (w.sblk sb.addr).page_init pi = false
  · rw [if_pos hb]
    by_cases hacc : acc &&& H5AC__READ_ONLY_FLAG = 0
    · rw [if_pos hacc]
      dsimp only
      unfold H5EA__dblk_page_create
      by_cases hc : w.fault = true
      · simp only [if_pos hc]
        refine ⟨by simp [Flow.world, FAIL], by simp [Flow.world, FAIL],
          fun a => by simp [Flow.world, World.sblk, FAIL],
          fun a j hj => by simpa [Flow.world, World.sblk, FAIL] using hj, ?_⟩
        intro ev hev
        simp [Flow.world, FAIL] at hev
        exact ⟨false, hev, fun h => by cases h⟩
      · simp only [if_neg hc]
        refine ⟨by simp [Flow.world, World.set_page_init, SUCCEED],
          by simp [Flow.world, World.set_page_init, SUCCEED], fun a => ?_, fun a j hj => ?_, ?_⟩
        · simp only [Flow.world, World.set_page_init, World.sblk, SUCCEED]
          by_cases hx : a = sb.addr
          · subst hx; simp [World.sblk]
          · simp [Function.update, hx]
        · simp only [Flow.world, World.set_page_init, World.sblk, SUCCEED]
          by_cases hx : a = sb.addr
          · subst hx
            by_cases hjo : j = pi
            · subst hjo; simp [World.sblk, Function.update]
            · simpa [World.sblk, Function.update, hjo] using hj
          · simpa [Function.update, hx, World.sblk] using hj
        · intro ev hev
          simp [Flow.world, World.set_page_init, SUCCEED] at hev
          refine ⟨true, hev, fun _ => ?_⟩
          simp [Flow.world, World.set_page_init, World.sblk, SUCCEED]
    · rw [if_neg hacc]
      refine ⟨rfl, rfl, fun _ => rfl, fun _ _ h => h, ?_⟩
      intro ev hev
      simp [Flow.world] at hev
  · rw [if_neg hb]
    refine ⟨rfl, rfl, fun _ => rfl, fun _ _ h => h, ?_⟩
    intro ev hev
    simp [Flow.world] at hev

/-- A successful creation whose block is in the slot of its parent stays there
when the defined slots on the way to the index are kept. -/
theorem storedAt_kept {idx s e : Nat} {h0 : H5EA_hdr_t} {w w' : World}
    (k1 : H5F_addr_defined w.hdr.idx_blk_addr = true → w'.hdr.idx_blk_addr = w.hdr.idx_blk_addr)
    (k2 : H5F_addr_defined w.hdr.idx_blk_addr = true → ∀ j,
      H5F_addr_defined (w.IB.sblk_addrs j) = true →
      (w'.iblk w.hdr.idx_blk_addr).sblk_addrs j = w.IB.sblk_addrs j)
    (k3 : H5F_addr_defined w.hdr.idx_blk_addr = true → ∀ j,
      H5F_addr_defined (w.IB.dblk_addrs j) = true →
      (w'.iblk w.hdr.idx_blk_addr).dblk_addrs j = w.IB.dblk_addrs j)
    (k4 : H5F_addr_defined w.hdr.idx_blk_addr = true →
      ¬ idx < h0.cparam.idx_blk_elmts → ¬ s < h0.iblock_nsblks →
      H5F_addr_defined (w.IB.sblk_addrs (s - h0.iblock_nsblks)) = true → ∀ j,
      H5F_addr_defined ((w.sblk (w.IB.sblk_addrs (s - h0.iblock_nsblks))).dblk_addrs j) = true →
      (w'.sblk (w.IB.sblk_addrs (s - h0.iblock_nsblks))).dblk_addrs j
        = (w.sblk (w.IB.sblk_addrs (s - h0.iblock_nsblks))).dblk_addrs j)
    (k5 : H5F_addr_defined w.hdr.idx_blk_addr = true →
      ¬ idx < h0.cparam.idx_blk_elmts → ¬ s < h0.iblock_nsblks →
      H5F_addr_defined (w.IB.sblk_addrs (s - h0.iblock_nsblks)) = true → ∀ j,
      (w.sblk (w.IB.sblk_addrs (s - h0.iblock_nsblks))).page_init j = true →
      (w'.sblk (w.IB.sblk_addrs (s - h0.iblock_nsblks))).page_init j = true)
    (ev : Event) (h : ev.storedAt idx s e h0 w) : ev.storedAt idx s e h0 w' := by
  cases ev with
  | iblock_create a ok =>
    cases ok
    · trivial
    · obtain ⟨h1, h2⟩ := h
      have hd : H5F_addr_defined w.hdr.idx_blk_addr = true := by rw [h1]; exact h2
      exact ⟨(k1 hd).trans h1, h2⟩
  | sblock_create a p i ok =>
    cases ok
    · trivial
    · obtain ⟨hd, hx, hs, hp, hsl, ha⟩ := h
      have e1 := k1 hd
      refine ⟨by rw [e1]; exact hd, hx, hs, by rw [e1]; exact hp, ?_, ha⟩
      unfold World.IB
      rw [e1, k2 hd _ (by rw [hsl]; exact ha)]
      exact hsl
  | dblock_create a p off n ok =>
    cases ok
    · trivial
    · obtain ⟨hd, hx, ha, hr⟩ := h
      have e1 := k1 hd
      refine ⟨by rw [e1]; exact hd, hx, ha, ?_⟩
      by_cases hs : s < h0.iblock_nsblks
      · rw [if_pos hs] at hr ⊢
        obtain ⟨hp, hsl⟩ := hr
        refine ⟨by rw [e1]; exact hp, ?_⟩
        unfold World.IB
        rw [e1, k3 hd _ (by rw [hsl]; exact ha)]
        exact hsl
      · rw [if_neg hs] at hr ⊢
        obtain ⟨hsd, hp, hsl⟩ := hr
        have e2 : w'.IB.sblk_addrs (s - h0.iblock_nsblks)
            = w.IB.sblk_addrs (s - h0.iblock_nsblks) := by
          unfold World.IB
          rw [e1]
          exact k2 hd _ hsd
        rw [e2]
        refine ⟨hsd, hp, ?_⟩
        rw [k4 hd hx hs hsd _ (by rw [hsl]; exact ha)]
        exact hsl
  | dblk_page_create a p ok =>
    cases ok
    · trivial
    · obtain ⟨hd, hx, hs, hsd, hp, hb⟩ := h
      have e1 := k1 hd
      have e2 : w'.IB.sblk_addrs (s - h0.iblock_nsblks)
          = w.IB.sblk_addrs (s - h0.iblock_nsblks) := by
        unfold World.IB
        rw [e1]
        exact k2 hd _ hsd
      refine ⟨by rw [e1]; exact hd, hx, hs, by rw [e2]; exact hsd, by rw [e2]; exact hp, ?_⟩
      rw [e2]
      exact k5 hd hx hs hsd _ hb
  | _ => trivial

/-- The blocks in their slots stay there in a world that holds the same file. -/
theorem storedAt_fileEq {idx s e : Nat} {h0 : H5EA_hdr_t} {w w' : World} (hf : FileEq w w')
    (ev : Event) (h : ev.storedAt idx s e h0 w) : ev.storedAt idx s e h0 w' :=
  storedAt_kept (fun _ => by rw [hf.hdr]) (fun _ _ _ => by rw [hf.fe_iblk]; rfl)
    (fun _ _ _ => by rw [hf.fe_iblk]; rfl) (fun _ _ _ _ _ _ => by rw [hf.fe_sblk])
    (fun _ _ _ _ _ hb => by rw [hf.fe_sblk]; exact hb) ev h

/-- A protect call is no creation. -/
theorem stored_new_protect {idx s e : Nat} {h0 : H5EA_hdr_t} {w w' : World} {k : BlockKind}
    {a f : Nat} {ok : Bool} (h : w'.trace = w.trace ++ [.protect k a f ok]) :
    ∀ ev ∈ w'.trace.drop w.trace.length, ev.storedAt idx s e h0 w' := by
  intro ev hev
  rw [h, List.drop_left] at hev
  rw [List.mem_singleton] at hev
  subst hev
  trivial

theorem iblk_of_iblocks {w w' : World} (h : w'.iblocks = w.iblocks) (a : Nat) :
    w'.iblk a = w.iblk a := by
  unfold World.iblk
  rw [h]

theorem sblk_of_sblocks {w w' : World} (h : w'.sblocks = w.sblocks) (a : Nat) :
    w'.sblk a = w.sblk a := by
  unfold World.sblk
  rw [h]

/-- The protect of a data block keeps the blocks in their slots and creates
nothing. -/
theorem lookup_dblock_made {idx s e : Nat} {h0 : H5EA_hdr_t} (acc a k : Nat)
    (l : LookupLocals) (w : World) :
    (∀ ev : Event, ev.storedAt idx s e h0 w → ev.storedAt idx s e h0 (lookup_dblock acc a k l w).2) ∧
    (∀ ev ∈ (lookup_dblock acc a k l w).2.trace.drop w.trace.length,
      ev.storedAt idx s e h0 (lookup_dblock acc a k l w).2) := by
  rcases lookup_dblock_cases acc a k l w with h | ⟨-, h⟩ <;> rw [h] <;> dsimp only
  · exact ⟨storedAt_fileEq ((dblock_protect_fileEq a acc w).fe_throw _),
      stored_new_protect (dblock_protect_trace a acc w)⟩
  · exact ⟨storedAt_fileEq (dblock_protect_fileEq a acc w),
      stored_new_protect (dblock_protect_trace a acc w)⟩

/-- The protect of a page keeps the blocks in their slots and creates
nothing. -/
theorem lookup_page_made {idx s e : Nat} {h0 : H5EA_hdr_t} (acc a k : Nat)
    (l : LookupLocals) (w : World) :
    (∀ ev : Event, ev.storedAt idx s e h0 w → ev.storedAt idx s e h0 (lookup_page acc a k l w).2) ∧
    (∀ ev ∈ (lookup_page acc a k l w).2.trace.drop w.trace.length,
      ev.storedAt idx s e h0 (lookup_page acc a k l w).2) := by
  rcases lookup_page_cases acc a k l w with h | ⟨-, h⟩ <;> rw [h] <;> dsimp only
  · exact ⟨storedAt_fileEq ((dblk_page_protect_fileEq a acc w).fe_throw _),
      stored_new_protect (dblk_page_protect_trace a acc w)⟩
  · exact ⟨storedAt_fileEq (dblk_page_protect_fileEq a acc w),
      stored_new_protect (dblk_page_protect_trace a acc w)⟩

/-- A statement of the walk keeps the blocks made before in their slots, and
the block it makes is in its slot after it. -/
theorem WalkStep.ws_made {acc idx s e : Nat} {h0 : H5EA_hdr_t} {l l' : LookupLocals}
    {w w' : World} (hs : WalkStep acc idx s e h0 l w l' w') (hat : WalkAt idx s e h0 l w) :
    (∀ ev : Event, ev.storedAt idx s e h0 w → ev.storedAt idx s e h0 w') ∧
    (∀ ev ∈ w'.trace.drop w.trace.length, ev.storedAt idx s e h0 w') := by
  cases hs with
  | ensure_iblock hi hsb ht =>
    obtain ⟨m1, m2⟩ := ensure_iblock_made acc l w
    refine ⟨storedAt_kept (fun hd => by rw [m1 hd]) (fun hd _ _ => by rw [m1 hd]; rfl)
      (fun hd _ _ => by rw [m1 hd]; rfl) (fun hd _ _ _ _ _ => by rw [m1 hd])
      (fun hd _ _ _ _ hb => by rw [m1 hd]; exact hb), ?_⟩
    intro ev hev
    obtain ⟨a, ok, rfl, hok⟩ := m2 ev hev
    cases ok
    · trivial
    · exact hok rfl
  | iblock_protect_fail hi hsb ht hd hp =>
    exact ⟨storedAt_fileEq ((iblock_protect_fileEq acc w).fe_throw _),
      stored_new_protect (iblock_protect_trace acc w)⟩
  | iblock_protect_ok ib hi hsb ht hd hp =>
    exact ⟨storedAt_fileEq (iblock_protect_fileEq acc w),
      stored_new_protect (iblock_protect_trace acc w)⟩
  | direct ib hi hsb ht hidx =>
    refine ⟨fun _ h => h, ?_⟩
    intro ev hev
    rw [List.drop_length] at hev
    cases hev
  | ensure_iblock_dblock ib hi hsb ht hidx hs =>
    obtain ⟨hib, hdef, -⟩ := hat.iblock ib hi
    subst hib
    obtain ⟨m1, m2, m3, m4, m5⟩ := ensure_iblock_dblock_made acc s w.hdr.idx_blk_addr
      (u64 ((h0.sblk_info s).start_dblk + e / (h0.sblk_info s).dblk_nelmts)) l w
    refine ⟨storedAt_kept (fun _ => m1) (fun _ j _ => congrFun (m3 _) j)
      (fun _ j hj => m4 _ j hj) (fun _ _ _ _ _ _ => by rw [sblk_of_sblocks m2])
      (fun _ _ _ _ _ hb => by rw [sblk_of_sblocks m2]; exact hb), ?_⟩
    intro ev hev
    obtain ⟨a, off, n, ok, rfl, hok⟩ := m5 ev hev
    cases ok
    · trivial
    · obtain ⟨q1, q2⟩ := hok rfl
      refine ⟨by rw [m1]; exact hdef, hidx, q2, ?_⟩
      rw [if_pos hs]
      refine ⟨by rw [m1], ?_⟩
      unfold World.IB
      rw [m1]
      exact q1
  | iblock_dblock ib hi hsb ht hidx hs hd => exact lookup_dblock_made acc _ _ l w
  | ensure_sblock ib hi hsb ht hidx hs =>
    obtain ⟨hib, hdef, -⟩ := hat.iblock ib hi
    subst hib
    obtain ⟨m1, m2, m3, m4, m5⟩ := ensure_sblock_made acc s w.hdr.idx_blk_addr
      (s - h0.iblock_nsblks) l w
    refine ⟨storedAt_kept (fun _ => m2) (fun _ j hj => m4 _ j hj)
      (fun _ j _ => congrFun (m3 _) j) (fun _ _ _ hsd _ _ => by rw [m1 hsd])
      (fun _ _ _ hsd _ hb => by rw [m1 hsd]; exact hb), ?_⟩
    intro ev hev
    obtain ⟨a, ok, rfl, hok⟩ := m5 ev hev
    cases ok
    · trivial
    · obtain ⟨q1, q2⟩ := hok rfl
      refine ⟨by rw [m2]; exact hdef, hidx, hs, by rw [m2], ?_, q2⟩
      unfold World.IB
      rw [m2]
      exact q1
  | sblock_protect_fail ib hi hsb ht hidx hs hd hp =>
    exact ⟨storedAt_fileEq ((sblock_protect_fileEq _ s acc w).fe_throw _),
      stored_new_protect (sblock_protect_trace _ s acc w)⟩
  | sblock_protect_ok ib sb hi hsb ht hidx hs hd hp =>
    exact ⟨storedAt_fileEq ((sblock_protect_fileEq _ s acc w).fe_HDassert _),
      stored_new_protect (sblock_protect_trace _ s acc w)⟩
  | ensure_sblock_dblock sb hsb ht =>
    obtain ⟨hsbeq, hsd, -, hli, hidx, hs⟩ := hat.sblock sb hsb
    obtain ⟨-, hdef, -⟩ := hat.iblock _ hli
    subst hsbeq
    obtain ⟨m1, m2, m3, m4, m5⟩ := ensure_sblock_dblock_made acc s
      (sblock_of h0 (w.IB.sblk_addrs (s - h0.iblock_nsblks)) s)
      (u64 (e / (sblock_of h0 (w.IB.sblk_addrs (s - h0.iblock_nsblks)) s).dblk_nelmts)) l w
    have hIB : ∀ W : World, W.hdr.idx_blk_addr = w.hdr.idx_blk_addr → W.iblocks = w.iblocks →
        W.IB = w.IB := by
      intro W h1 h2
      unfold World.IB
      rw [h1, iblk_of_iblocks h2]
    refine ⟨storedAt_kept (fun _ => m1) (fun _ _ _ => by rw [iblk_of_iblocks m2]; rfl)
      (fun _ _ _ => by rw [iblk_of_iblocks m2]; rfl) (fun _ _ _ _ j hj => m4 _ j hj)
      (fun _ _ _ _ _ hb => by rw [m3]; exact hb), ?_⟩
    intro ev hev
    obtain ⟨a, off, n, ok, rfl, hok⟩ := m5 ev hev
    cases ok
    · trivial
    · obtain ⟨q1, q2⟩ := hok rfl
      refine ⟨by rw [m1]; exact hdef, hidx, q2, ?_⟩
      rw [if_neg hs, hIB _ m1 m2]
      exact ⟨hsd, rfl, q1⟩
  | sblock_dblock sb hsb ht hnp hd => exact lookup_dblock_made acc _ _ l w
  | ensure_page sb hsb ht hnp hd =>
    obtain ⟨hsbeq, hsd, -, hli, hidx, hs⟩ := hat.sblock sb hsb
    obtain ⟨-, hdef, -⟩ := hat.iblock _ hli
    subst hsbeq
    obtain ⟨m1, m2, m3, m4, m5⟩ := ensure_page_made acc
      (sblock_of h0 (w.IB.sblk_addrs (s - h0.iblock_nsblks)) s)
      (u64 (u64 (e / (sblock_of h0 (w.IB.sblk_addrs (s - h0.iblock_nsblks)) s).dblk_nelmts)
          * (sblock_of h0 (w.IB.sblk_addrs (s - h0.iblock_nsblks)) s).dblk_npages
        + e % (sblock_of h0 (w.IB.sblk_addrs (s - h0.iblock_nsblks)) s).dblk_nelmts
          / w.hdr.dblk_page_nelmts))
      (u64 ((w.sblk (sblock_of h0 (w.IB.sblk_addrs (s - h0.iblock_nsblks)) s).addr).dblk_addrs
            (u64 (e / (sblock_of h0 (w.IB.sblk_addrs (s - h0.iblock_nsblks)) s).dblk_nelmts))
          + H5EA_DBLOCK_PREFIX_SIZE w.hdr
          + e % (sblock_of h0 (w.IB.sblk_addrs (s - h0.iblock_nsblks)) s).dblk_nelmts
            / w.hdr.dblk_page_nelmts
            * (sblock_of h0 (w.IB.sblk_addrs (s - h0.iblock_nsblks)) s).dblk_page_size)) l w
    have hIB : ∀ W : World, W.hdr.idx_blk_addr = w.hdr.idx_blk_addr → W.iblocks = w.iblocks →
        W.IB = w.IB := by
      intro W h1 h2
      unfold World.IB
      rw [h1, iblk_of_iblocks h2]
    refine ⟨storedAt_kept (fun _ => m1) (fun _ _ _ => by rw [iblk_of_iblocks m2]; rfl)
      (fun _ _ _ => by rw [iblk_of_iblocks m2]; rfl) (fun _ _ _ _ j _ => congrFun (m3 _) j)
      (fun _ _ _ _ j hb => m4 _ j hb), ?_⟩
    intro ev hev
    obtain ⟨ok, rfl, hok⟩ := m5 ev hev
    cases ok
    · trivial
    · have q1 := hok rfl
      refine ⟨by rw [m1]; exact hdef, hidx, hs, ?_, ?_, ?_⟩
      · rw [hIB _ m1 m2]; exact hsd
      · rw [hIB _ m1 m2]; rfl
      · rw [hIB _ m1 m2, ← hat.geom.dblk_page_nelmts]
        exact q1
  | page sb hsb ht hnp hd hb => exact lookup_page_made acc _ _ l w

/-- At `CATCH` every block a successful creation call of the walk made is in
the slot of its parent. -/
theorem lookup_body_made (ea : H5EA_t) (idx acc : Nat) (w : World) :
    ∃ evs, (lookup_body ea idx acc w).2.trace = w.trace ++ evs ∧
      ∀ ev ∈ evs, ev.storedAt idx (H5EA__dblock_sblk_idx w.hdr idx)
        (sub64 idx (u64 (w.hdr.cparam.idx_blk_elmts
          + (w.hdr.sblk_info (H5EA__dblock_sblk_idx w.hdr idx)).start_idx))) w.hdr
        (lookup_body ea idx acc w).2 := by
  have key := WalkSteps.ws_invariant
    (fun l' w' => WalkAt idx (H5EA__dblock_sblk_idx w.hdr idx)
        (sub64 idx (u64 (w.hdr.cparam.idx_blk_elmts
          + (w.hdr.sblk_info (H5EA__dblock_sblk_idx w.hdr idx)).start_idx))) w.hdr l' w' ∧
      ∃ evs, w'.trace = w.trace ++ evs ∧
        ∀ ev ∈ evs, ev.storedAt idx (H5EA__dblock_sblk_idx w.hdr idx)
          (sub64 idx (u64 (w.hdr.cparam.idx_blk_elmts
            + (w.hdr.sblk_info (H5EA__dblock_sblk_idx w.hdr idx)).start_idx))) w.hdr w')
    (fun l1 w1 l2 w2 hI hs => ?_) (lookup_body_steps ea idx acc w)
    ⟨WalkAt.wa_init idx _ _ w.hdr _ ⟨rfl, rfl, rfl, rfl, rfl, rfl, rfl⟩, [], by simp,
      fun _ h => nomatch h⟩
  · exact key.2
  · obtain ⟨hat, evs, h1, h2⟩ := hI
    obtain ⟨m1, m2⟩ := hs.ws_made hat
    obtain ⟨g1, -⟩ := hs.ws_dirt
    refine ⟨hs.ws_at hat, evs ++ w2.trace.drop w1.trace.length, ?_, ?_⟩
    · rw [← List.append_assoc, ← h1]
      exact g1
    · intro ev hev
      rcases List.mem_append.1 hev with hev | hev
      · exact m1 ev (h2 ev hev)
      · exact m2 ev hev

/-- A call that creates nothing is in no slot. -/
theorem storedAt_of_no_create {idx s e : Nat} {h0 : H5EA_hdr_t} {w : World} {ev : Event}
    (h : ev.createKind = none) : ev.storedAt idx s e h0 w := by
  cases ev <;> trivial

/-- The calls of a lookup, those of the body and those of `CATCH`, with the
locals at `CATCH`: what the calls and the locals say of each other, and each
block a successful creation made is in the slot of its parent in the file the
lookup leaves. -/
theorem lookup_made (ea : H5EA_t) (idx acc : Nat) (w : World) :
    ∃ evs cevs,
      (H5EA__lookup_elmt ea idx acc w).2.trace = w.trace ++ (evs ++ cevs) ∧
      WalkTrace acc evs (lookup_body ea idx acc w).1 ∧
      CatchTrace (lookup_body ea idx acc w).1 cevs
        (lookup_catch (lookup_body ea idx acc w).1 (lookup_body ea idx acc w).2).1 ∧
      (lookup_body ea idx acc w).1.stats_changed = evs.any Event.reportsStats ∧
      HdrGeom w.hdr (H5EA__lookup_elmt ea idx acc w).2.hdr ∧
      (∀ ev ∈ evs ++ cevs, ev.storedAt idx (H5EA__dblock_sblk_idx w.hdr idx)
        (sub64 idx (u64 (w.hdr.cparam.idx_blk_elmts
          + (w.hdr.sblk_info (H5EA__dblock_sblk_idx w.hdr idx)).start_idx))) w.hdr
        (H5EA__lookup_elmt ea idx acc w).2) := by
  obtain ⟨evs, h1, h2⟩ := lookup_body_walk ea idx acc w
  obtain ⟨evs1, g1, -, g3, -⟩ := lookup_body_dirt ea idx acc w
  obtain ⟨evs2, k1, k2⟩ := lookup_body_made ea idx acc w
  obtain ⟨cevs, h3, h4⟩ := lookup_catch_spec (lookup_body ea idx acc w).1
    (lookup_body ea idx acc w).2
  have hfe := lookup_catch_fileEq (lookup_body ea idx acc w).1 (lookup_body ea idx acc w).2
  have hat := lookup_body_at ea idx acc w
  have e1 : evs1 = evs := List.append_cancel_left (g1.symm.trans h1)
  have e2 : evs2 = evs := List.append_cancel_left (k1.symm.trans h1)
  subst e1 e2
  refine ⟨evs2, cevs, ?_, h2, h4, g3, ?_, ?_⟩
  · unfold H5EA__lookup_elmt
    dsimp only
    rw [h3, h1, List.append_assoc]
  · unfold H5EA__lookup_elmt
    dsimp only
    rw [hfe.hdr]
    exact hat.geom
  · intro ev hev
    unfold H5EA__lookup_elmt
    dsimp only
    rcases List.mem_append.1 hev with hev | hev
    · exact storedAt_fileEq hfe ev (k2 ev hev)
    · exact storedAt_of_no_create (catch_no_create h4 ev hev)

/-- Off the index block the addressing finds no index block. -/
theorem walk_place_not_iblock {w : World} {idx s e : Nat} {h0 : H5EA_hdr_t} {t : Thing}
    {k : Nat} (h : resolve_at w (walk_place idx s e h0) = .found t k)
    (hx : ¬ idx < h0.cparam.idx_blk_elmts) : t.kind ≠ .iblock := by
  unfold walk_place at h
  rw [if_neg hx] at h
  by_cases hs : s < h0.iblock_nsblks
  · rw [if_pos hs] at h
    simp only [resolve_at] at h
    split_ifs at h
    injection h with h1 h2
    subst h1
    exact fun q => nomatch q
  · rw [if_neg hs] at h
    simp only [resolve_at] at h
    split_ifs at h
    unfold resolve_sblock_dblock at h
    split_ifs at h <;>
    · injection h with h1 h2
      subst h1
      exact fun q => nomatch q

/-- A level whose block a successful creation put in its slot is no longer
undefined. -/
theorem stored_not_level {W : World} {idx : Nat} {h0 : H5EA_hdr_t} (hg : HdrGeom h0 W.hdr)
    {ev : Event} {k : BlockKind}
    (hst : ev.storedAt idx (H5EA__dblock_sblk_idx h0 idx)
      (sub64 idx (u64 (h0.cparam.idx_blk_elmts
        + (h0.sblk_info (H5EA__dblock_sblk_idx h0 idx)).start_idx))) h0 W)
    (hok : ev.ok = true) (hk : ev.createKind = some k) : k ∉ levels_undefined W idx := by
  obtain ⟨c1, c2, c3, c4, c5, c6, c7⟩ := hg
  have hsi : H5EA__dblock_sblk_idx W.hdr idx = H5EA__dblock_sblk_idx h0 idx := by
    unfold H5EA__dblock_sblk_idx
    rw [c1]
  have hnp : ∀ n, dblk_npages W.hdr n = dblk_npages h0 n := by
    intro n
    unfold dblk_npages
    rw [c4]
  unfold levels_undefined levels_in_iblock levels_via_iblock levels_via_sblock levels_sblock
  rw [hsi, c1, c2, c4, c5]
  simp only [hnp]
  generalize H5EA__dblock_sblk_idx h0 idx = s at hst ⊢
  generalize sub64 idx (u64 (h0.cparam.idx_blk_elmts + (h0.sblk_info s).start_idx)) = e at hst ⊢
  cases ev with
  | iblock_create a ok =>
    cases ok
    · cases hok
    · obtain ⟨h1, h2⟩ := hst
      injection hk with hk
      subst hk
      rw [h1, h2]
      split_ifs <;> simp_all
  | sblock_create a p i ok =>
    cases ok
    · cases hok
    · obtain ⟨hd, hx, hs, -, hsl, ha⟩ := hst
      injection hk with hk
      subst hk
      have hsd : H5F_addr_defined (W.IB.sblk_addrs (s - h0.iblock_nsblks)) = true := by
        rw [hsl]; exact ha
      unfold World.IB at hsd
      rw [hd, if_neg hx, if_neg hs]
      simp only [hsd]
      split_ifs <;> simp_all
  | dblock_create a p off n ok =>
    cases ok
    · cases hok
    · obtain ⟨hd, hx, ha, hr⟩ := hst
      injection hk with hk
      subst hk
      rw [hd, if_neg hx]
      by_cases hs : s < h0.iblock_nsblks
      · rw [if_pos hs] at hr ⊢
        have hsd : H5F_addr_defined (W.IB.dblk_addrs
            (u64 ((h0.sblk_info s).start_dblk + e / (h0.sblk_info s).dblk_nelmts))) = true := by
          rw [hr.2]; exact ha
        unfold World.IB at hsd
        simp [hsd]
      · rw [if_neg hs] at hr ⊢
        obtain ⟨hsd, -, hsl⟩ := hr
        have hdd : H5F_addr_defined ((W.sblk (W.IB.sblk_addrs (s - h0.iblock_nsblks))).dblk_addrs
            (u64 (e / (h0.sblk_info s).dblk_nelmts))) = true := by
          rw [hsl]; exact ha
        unfold World.IB at hsd hdd
        simp only [hsd, hdd]
        split_ifs <;> simp_all
  | dblk_page_create a p ok =>
    cases ok
    · cases hok
    · obtain ⟨hd, hx, hs, hsd, -, hb⟩ := hst
      injection hk with hk
      subst hk
      unfold World.IB at hsd hb
      rw [hd, if_neg hx, if_neg hs]
      simp only [hsd, hb]
      split_ifs <;> simp_all
  | _ => cases hk

/-- C32: in every walk of `H5EA__lookup_elmt`, failing or not (so also when the
protect of the new block fails), for every creation call `ev` of the walk that
succeeded: the new block is in the slot of its parent in the file the walk
leaves (`hdr.idx_blk_addr`, `iblock.sblk_addrs`, `iblock.dblk_addrs`,
`sblock.dblk_addrs`, or the page-init bit of the super block); the parent block
is released with `H5AC__DIRTIED_FLAG`; `H5EA__hdr_modified` is called when an
index block, a super block or a data block was created; and a write walk for
the same index started in the file the walk leaves calls no creation routine of
the kind of `ev`. -/
theorem created_child_is_kept (ea : H5EA_t) (idx acc : Nat) (w : World) :
    ∃ evs, (H5EA__lookup_elmt ea idx acc w).2.trace = w.trace ++ evs ∧
      ∀ ev ∈ evs, ev.createKind.isSome = true → ev.ok = true →
        ev.storedAt idx (H5EA__dblock_sblk_idx w.hdr idx)
          (sub64 idx (u64 (w.hdr.cparam.idx_blk_elmts
            + (w.hdr.sblk_info (H5EA__dblock_sblk_idx w.hdr idx)).start_idx))) w.hdr
          (H5EA__lookup_elmt ea idx acc w).2 ∧
        (∀ p, ev.childOf p = true →
          ∃ ok, Event.unprotect p.kind p.addr H5AC__DIRTIED_FLAG ok ∈ evs) ∧
        (ev.reportsStats = true → ∃ ok, Event.hdr_modified ok ∈ evs) ∧
        (∀ ea' acc' k, acc' &&& H5AC__READ_ONLY_FLAG = 0 → ev.createKind = some k →
          ∃ evs', (H5EA__lookup_elmt ea' idx acc' (H5EA__lookup_elmt ea idx acc w).2).2.trace
              = (H5EA__lookup_elmt ea idx acc w).2.trace ++ evs' ∧
            ∀ ev' ∈ evs', ev'.createKind ≠ some k) := by
  obtain ⟨evs, cevs, htr, hw, hc, hstats, hgeom, hst⟩ := lookup_made ea idx acc w
  obtain ⟨T, hT, hfl⟩ := lookup_release_flags ea idx acc w
  have hTe : T = evs ++ cevs := List.append_cancel_left (hT.symm.trans htr)
  subst hTe
  have hat := lookup_body_at ea idx acc w
  refine ⟨evs ++ cevs, htr, ?_⟩
  intro ev hev hck hok
  have hevb : ev ∈ evs := by
    rcases List.mem_append.1 hev with h | h
    · exact h
    · rw [catch_no_create hc ev h] at hck
      cases hck
  refine ⟨hst ev hev, ?_, ?_, ?_⟩
  · intro p hp
    obtain ⟨pk, pa⟩ := p
    have hheld := hw.children _ (List.countP_pos_iff.2 ⟨ev, hevb, hp⟩)
    have hx : ¬ idx < w.hdr.cparam.idx_blk_elmts := by
      have h := hst ev hev
      cases ev with
      | sblock_create a q i ok => cases ok <;> first | exact h.2.1 | cases hok
      | dblock_create a q off n ok => cases ok <;> first | exact h.2.1 | cases hok
      | dblk_page_create a q ok => cases ok <;> first | exact h.2.1 | cases hok
      | _ => cases hp
    have hcount := hc.count pk pa
    have hcond : ¬ ((lookup_catch (lookup_body ea idx acc w).1 (lookup_body ea idx acc w).2).1.thing
        = some ⟨pk, pa⟩ ∧ pk ≠ .sblock) := by
      rintro ⟨h1, h2⟩
      rw [hc.thing] at h1
      split_ifs at h1
      have h3 := walk_place_not_iblock (hat.thing _ h1) hx
      rcases hw.parents ev hevb _ hp with h4 | h4
      · exact h3 h4
      · exact h2 h4
    rw [if_neg hcond] at hcount
    have hpos : 0 < nunprot pk pa cevs := by
      rw [hcount]
      exact hheld ▸ Nat.one_pos
    obtain ⟨u, hu, hq⟩ := List.countP_pos_iff.1 hpos
    cases u <;> simp [Event.isUnprotectOf] at hq
    obtain ⟨q1, q2⟩ := hq
    subst q1 q2
    rename_i fl ok
    have hmem := List.mem_append_right evs hu
    obtain ⟨hf, -⟩ := hfl _ _ _ _ hmem
    have hd := (release_flags_dirtied ⟨_, _⟩ (evs ++ cevs)).2.2 ⟨ev, hev, hp⟩
    rw [← hf] at hd
    subst hd
    exact ⟨ok, hmem⟩
  · intro hr
    obtain ⟨ok, hm⟩ := hc.modified.2 (Or.inr (by
      rw [hstats, List.any_eq_true]
      exact ⟨ev, hevb, hr⟩))
    exact ⟨ok, List.mem_append_right _ hm⟩
  · intro ea' acc' k hrw' hk
    obtain ⟨evs', h1, h2, -, -⟩ := lookup_creates hrw' ea' idx (H5EA__lookup_elmt ea idx acc w).2
    refine ⟨evs', h1, ?_⟩
    intro ev' hev' hk'
    have hmem : k ∈ creates evs' := List.mem_filterMap.2 ⟨ev', hev', hk'⟩
    exact stored_not_level hgeom (hst ev hev) hok hk (h2.subset hmem)

set_option maxRecDepth 100000 in
theorem created_child_is_kept_witness :
    (H5EA__lookup_elmt handle100 8 H5AC__NO_FLAGS_SET faultyWorld).1.ret_value < 0 ∧
    ∃ evs, (H5EA__lookup_elmt handle100 8 H5AC__NO_FLAGS_SET faultyWorld).2.trace
        = faultyWorld.trace ++ evs ∧
      Event.dblock_create 1282 ⟨.iblock, 1000⟩ 12 8 true ∈ evs ∧
      Event.protect .dblock 1282 H5AC__NO_FLAGS_SET false ∈ evs ∧
      (Event.dblock_create 1282 ⟨.iblock, 1000⟩ 12 8 true).storedAt 8
        (H5EA__dblock_sblk_idx faultyWorld.hdr 8)
        (sub64 8 (u64 (faultyWorld.hdr.cparam.idx_blk_elmts
          + (faultyWorld.hdr.sblk_info (H5EA__dblock_sblk_idx faultyWorld.hdr 8)).start_idx)))
        faultyWorld.hdr (H5EA__lookup_elmt handle100 8 H5AC__NO_FLAGS_SET faultyWorld).2 ∧
      (∃ ok, Event.unprotect .iblock 1000 H5AC__DIRTIED_FLAG ok ∈ evs) ∧
      (∃ ok, Event.hdr_modified ok ∈ evs) ∧
      ∃ evs', (H5EA__lookup_elmt handle100 8 H5AC__NO_FLAGS_SET
            (H5EA__lookup_elmt handle100 8 H5AC__NO_FLAGS_SET faultyWorld).2).2.trace
          = (H5EA__lookup_elmt handle100 8 H5AC__NO_FLAGS_SET faultyWorld).2.trace ++ evs' ∧
        ∀ ev' ∈ evs', ev'.createKind ≠ some .dblock := by
  refine ⟨by decide, ?_⟩
  obtain ⟨evs, h1, h2⟩ := created_child_is_kept handle100 8 H5AC__NO_FLAGS_SET faultyWorld
  have htr : (H5EA__lookup_elmt handle100 8 H5AC__NO_FLAGS_SET faultyWorld).2.trace
      = faultyWorld.trace ++
        [.iblock_create 1000 true, .protect .iblock 1000 0 true,
          .dblock_create 1282 ⟨.iblock, 1000⟩ 12 8 true, .protect .dblock 1282 0 false,
          .hdr_modified true, .unprotect .iblock 1000 4 true] := by decide
  have hevs := List.append_cancel_left (h1.symm.trans htr)
  have hm : Event.dblock_create 1282 ⟨.iblock, 1000⟩ 12 8 true ∈ evs := by
    rw [hevs]; decide
  have hp : Event.protect .dblock 1282 H5AC__NO_FLAGS_SET false ∈ evs := by
    rw [hevs]; decide
  obtain ⟨s1, s2, s3, s4⟩ := h2 _ hm rfl rfl
  exact ⟨evs, h1, hm, hp, s1, s2 ⟨.iblock, 1000⟩ rfl, s3 rfl,
    s4 handle100 H5AC__NO_FLAGS_SET .dblock (by decide) rfl⟩

end H5EA

namespace H5FA

/-! ### Little-endian encoding -/

@[simp] theorem encode_le_length (n v : Nat) : (encode_le n v).length = n := by
  simp [encode_le]

theorem encode_le_succ (n v : Nat) : encode_le (n + 1) v = v % 256 :: encode_le n (v / 256) := by
  unfold encode_le
  rw [List.range_succ_eq_map, List.map_cons, List.map_map]
  refine congrArg₂ _ (by simp) (List.map_congr_left fun j _ => ?_)
  simp only [Function.comp, pow_succ, Nat.div_div_eq_div_mul]
  rw [Nat.mul_comm]

theorem decode_encode_le (n v : Nat) : decode_le (encode_le n v) = v % 256 ^ n := by
  induction n generalizing v with
  | zero => simp [encode_le, decode_le, Nat.mod_one]
  | succ n ih =>
    rw [encode_le_succ]
    have h := ih (v / 256)
    unfold decode_le at h ⊢
    rw [List.foldr_cons, h, Nat.mod_mod, pow_succ, Nat.mul_comm (256 ^ n) 256,
      Nat.mod_mul, Nat.add_comm]

theorem encode_le_mod (n v : Nat) : encode_le n (v % 256 ^ n) = encode_le n v := by
  unfold encode_le
  refine List.map_congr_left fun j hj => ?_
  have hj' : j < n := List.mem_range.1 hj
  obtain ⟨k, rfl⟩ : ∃ k, n = j + 1 + k := ⟨n - (j + 1), by omega⟩
  rw [pow_add, pow_succ, Nat.mul_assoc, Nat.mod_mul_right_div_self, Nat.mod_mod_of_dvd]
  exact Dvd.intro _ rfl

theorem u64_of_lt {x : Nat} (h : x < 2 ^ 64) : u64 x = x := Nat.mod_eq_of_lt h

/-! ### Reading bytes of an image -/

theorem bytes_append_right (xs ys : List Nat) (n : Nat) :
    bytes (xs ++ ys) xs.length n = ys.take n := by
  unfold bytes
  rw [List.drop_left]

theorem bytes_left (xs ys : List Nat) : bytes (xs ++ ys) 0 xs.length = xs := by
  unfold bytes
  rw [List.drop_zero, List.take_left]

theorem bytes_mid (xs ys zs : List Nat) :
    bytes (xs ++ (ys ++ zs)) xs.length ys.length = ys := by
  rw [bytes_append_right, List.take_left]

theorem bytes_mid_of {xs ys zs : List Nat} {p n : Nat} (hp : p = xs.length) (hn : n = ys.length) :
    bytes (xs ++ (ys ++ zs)) p n = ys := by
  subst hp hn
  exact bytes_mid xs ys zs

theorem bytes_last_of {xs ys : List Nat} {p n : Nat} (hp : p = xs.length) (hn : n = ys.length) :
    bytes (xs ++ ys) p n = ys := by
  subst hp hn
  rw [bytes_append_right, List.take_length]

theorem take_of {xs ys : List Nat} {p : Nat} (hp : p = xs.length) : (xs ++ ys).take p = xs := by
  subst hp
  exact List.take_left _ _

/-! ### Addresses -/

@[simp] theorem addr_encode_length (f : H5F_t) (a : Nat) :
    (H5F_addr_encode f a).length = f.sizeof_addr := by
  unfold H5F_addr_encode
  split_ifs <;> simp

theorem all_ff_eq_replicate {bs : List Nat} (h : bs.all (fun b => b == 255) = true) :
    bs = List.replicate bs.length 255 := by
  rw [List.eq_replicate_iff]
  refine ⟨rfl, fun b hb => ?_⟩
  have := List.all_eq_true.1 h b hb
  simpa using this

/-- Decoding an encoded address and encoding it again gives the same bytes. -/
theorem addr_reencode (f : H5F_t) (a : Nat) (ha : a < 2 ^ 64) (xs ys : List Nat) :
    H5F_addr_encode f (H5F_addr_decode f (xs ++ (H5F_addr_encode f a ++ ys)) xs.length)
      = H5F_addr_encode f a := by
  have hb : bytes (xs ++ (H5F_addr_encode f a ++ ys)) xs.length f.sizeof_addr
      = H5F_addr_encode f a := bytes_mid_of rfl (addr_encode_length f a).symm
  unfold H5F_addr_decode
  rw [hb]
  by_cases hall : (H5F_addr_encode f a).all (fun b => b == 255) = true
  · rw [if_pos hall]
    have h1 := all_ff_eq_replicate hall
    rw [addr_encode_length] at h1
    rw [h1]
    unfold H5F_addr_encode
    rw [if_neg (by simp [H5F_addr_defined])]
  · rw [if_neg hall]
    by_cases hd : H5F_addr_defined a = true
    · have he : H5F_addr_encode f a = encode_le f.sizeof_addr a := by
        unfold H5F_addr_encode
        rw [if_pos hd, u64_of_lt ha]
      rw [he, decode_encode_le]
      have hlt : a % 256 ^ f.sizeof_addr < 2 ^ 64 :=
        lt_of_le_of_lt (Nat.mod_le _ _) ha
      rw [u64_of_lt hlt]
      have hd' : H5F_addr_defined (a % 256 ^ f.sizeof_addr) = true := by
        unfold H5F_addr_defined HADDR_UNDEF at hd ⊢
        simp only [bne_iff_ne, ne_eq] at hd ⊢
        intro hq
        by_cases hw : 2 ^ 64 ≤ 256 ^ f.sizeof_addr
        · rw [Nat.mod_eq_of_lt (lt_of_lt_of_le ha hw)] at hq
          exact hd hq
        · have := Nat.mod_lt a (show 0 < 256 ^ f.sizeof_addr by positivity)
          omega
      unfold H5F_addr_encode
      rw [if_pos hd', u64_of_lt hlt, encode_le_mod]
    · exfalso
      apply hall
      unfold H5F_addr_encode
      rw [if_neg hd]
      simp

/-- Decoding an encoded address that the address width can hold gives the
address. -/
theorem addr_decode_encode (f : H5F_t) (a : Nat) (ha : a < 256 ^ f.sizeof_addr)
    (ha64 : a < 2 ^ 64) (hd : H5F_addr_defined a = true)
    (hnf : a ≠ 256 ^ f.sizeof_addr - 1) (xs ys : List Nat) :
    H5F_addr_decode f (xs ++ (H5F_addr_encode f a ++ ys)) xs.length = a := by
  have hb : bytes (xs ++ (H5F_addr_encode f a ++ ys)) xs.length f.sizeof_addr
      = H5F_addr_encode f a := bytes_mid_of rfl (addr_encode_length f a).symm
  have he : H5F_addr_encode f a = encode_le f.sizeof_addr a := by
    unfold H5F_addr_encode
    rw [if_pos hd, u64_of_lt ha64]
  unfold H5F_addr_decode
  rw [hb, he]
  have hall : ¬ (encode_le f.sizeof_addr a).all (fun b => b == 255) = true := by
    intro hall
    have h1 := all_ff_eq_replicate hall
    rw [encode_le_length] at h1
    have h2 := congrArg decode_le h1
    rw [decode_encode_le, Nat.mod_eq_of_lt ha] at h2
    apply hnf
    rw [h2]
    clear h1 h2 hall he hb hnf ha
    induction f.sizeof_addr with
    | zero => rfl
    | succ n ih =>
      rw [List.replicate_succ]
      unfold decode_le at ih ⊢
      rw [List.foldr_cons, ih, pow_succ]
      have : 0 < 256 ^ n := by positivity
      omega
  rw [if_neg hall, decode_encode_le, Nat.mod_eq_of_lt ha, u64_of_lt ha64]

/-! ### The image of the header -/

theorem hdr_image_body_form (f : H5F_t) (hdr : H5FA_hdr_t) :
    hdr_image_body f hdr =
      [70, 65, 72, 68, 0, hdr.cparam.cls.id % 256, hdr.cparam.raw_elmt_size % 256,
        hdr.cparam.max_dblk_page_nelmts_bits % 256]
      ++ (H5F_ENCODE_LENGTH f hdr.stats.nelmts ++ H5F_addr_encode f hdr.dblk_addr) := by
  simp [hdr_image_body, H5FA_HDR_MAGIC, H5FA_HDR_VERSION]

/-- What the header callbacks read from an image with the layout of a header
image: the eight leading bytes, the element count, the address, the bytes
before the checksum and the checksum. -/
theorem hdr_reads (f : H5F_t) (a0 a1 a2 a3 a4 a5 a6 a7 : Nat) (L A C : List Nat)
    (hL : L.length = f.sizeof_size) (hA : A.length = f.sizeof_addr) (hC : C.length = 4) :
    bytes ([a0, a1, a2, a3, a4, a5, a6, a7] ++ (L ++ (A ++ C))) 0 H5_SIZEOF_MAGIC
      = [a0, a1, a2, a3] ∧
    byte ([a0, a1, a2, a3, a4, a5, a6, a7] ++ (L ++ (A ++ C))) 4 = a4 ∧
    byte ([a0, a1, a2, a3, a4, a5, a6, a7] ++ (L ++ (A ++ C))) 5 = a5 ∧
    byte ([a0, a1, a2, a3, a4, a5, a6, a7] ++ (L ++ (A ++ C))) 6 = a6 ∧
    byte ([a0, a1, a2, a3, a4, a5, a6, a7] ++ (L ++ (A ++ C))) 7 = a7 ∧
    bytes ([a0, a1, a2, a3, a4, a5, a6, a7] ++ (L ++ (A ++ C))) 8 f.sizeof_size = L ∧
    bytes ([a0, a1, a2, a3, a4, a5, a6, a7] ++ (L ++ (A ++ C)))
      (8 + f.sizeof_size) f.sizeof_addr = A ∧
    ([a0, a1, a2, a3, a4, a5, a6, a7] ++ (L ++ (A ++ C))).take
      (8 + f.sizeof_size + f.sizeof_addr) = [a0, a1, a2, a3, a4, a5, a6, a7] ++ (L ++ A) ∧
    bytes ([a0, a1, a2, a3, a4, a5, a6, a7] ++ (L ++ (A ++ C)))
      (8 + f.sizeof_size + f.sizeof_addr) 4 = C := by
  refine ⟨by simp [bytes, H5_SIZEOF_MAGIC], by simp [byte], by simp [byte], by simp [byte],
    by simp [byte], ?_, ?_, ?_, ?_⟩
  · exact bytes_mid_of rfl hL.symm
  · have h := @bytes_mid_of ([a0, a1, a2, a3, a4, a5, a6, a7] ++ L) A C (8 + f.sizeof_size)
      f.sizeof_addr (by simp [hL]; omega) hA.symm
    rwa [List.append_assoc] at h
  · have h := @take_of ([a0, a1, a2, a3, a4, a5, a6, a7] ++ (L ++ A)) C
      (8 + f.sizeof_size + f.sizeof_addr) (by simp [hL, hA]; omega)
    rwa [List.append_assoc, List.append_assoc] at h
  · have h := @bytes_last_of ([a0, a1, a2, a3, a4, a5, a6, a7] ++ (L ++ A)) C
      (8 + f.sizeof_size + f.sizeof_addr) 4 (by simp [hL, hA]; omega) hC.symm
    rwa [List.append_assoc, List.append_assoc] at h

theorem uint32_decode_encode (v : Nat) (hv : v < 2 ^ 32) : decode_le (UINT32ENCODE v) = v := by
  unfold UINT32ENCODE
  rw [decode_encode_le, Nat.mod_eq_of_lt (by simpa using hv)]

theorem checksum_lt (env : Env) (data : List Nat) : H5_checksum_metadata env data < 2 ^ 32 :=
  Nat.mod_lt _ (by decide)

theorem getD_of_getElem? {α : Type} {l : List α} {i : Nat} {x d : α} (h : l[i]? = some x) :
    l.getD i d = x := by
  simp [List.getD, h]

theorem lt_length_of_getElem? {α : Type} {l : List α} {i : Nat} {x : α} (h : l[i]? = some x) :
    i < l.length := by
  by_contra hc
  rw [List.getElem?_eq_none (Nat.le_of_not_lt hc)] at h
  cases h

/-- The header read back from its own image. -/
theorem hdr_deserialize_serialize (env : Env) (f : H5F_t) (hdr : H5FA_hdr_t) (addr : Nat)
    (halloc : env.alloc_fails = false) (hinit : env.init_fails = false)
    (hid : hdr.cparam.cls.id < 256) (hreg : env.classes[hdr.cparam.cls.id]? = some hdr.cparam.cls) :
    ∃ hdr', H5FA__cache_hdr_deserialize env (H5FA__cache_hdr_serialize env f hdr) ⟨f, addr⟩
        = .ok hdr' ∧
      hdr'.cparam.cls = hdr.cparam.cls ∧
      hdr'.cparam.raw_elmt_size = hdr.cparam.raw_elmt_size % 256 ∧
      hdr'.cparam.max_dblk_page_nelmts_bits = hdr.cparam.max_dblk_page_nelmts_bits % 256 ∧
      hdr'.cparam.nelmts = u64 (hdr.stats.nelmts % 256 ^ f.sizeof_size) ∧
      hdr'.stats.nelmts = hdr'.cparam.nelmts ∧
      hdr'.dblk_addr = H5F_addr_decode f (H5FA__cache_hdr_serialize env f hdr)
        (8 + f.sizeof_size) ∧
      hdr'.addr = addr ∧ hdr'.f = f ∧ hdr'.sizeof_addr = f.sizeof_addr ∧
      hdr'.sizeof_size = f.sizeof_size ∧
      hdr'.size = H5FA_HEADER_SIZE f.sizeof_addr f.sizeof_size := by
  have hform : H5FA__cache_hdr_serialize env f hdr =
      [70, 65, 72, 68, 0, hdr.cparam.cls.id % 256, hdr.cparam.raw_elmt_size % 256,
        hdr.cparam.max_dblk_page_nelmts_bits % 256]
      ++ (H5F_ENCODE_LENGTH f hdr.stats.nelmts ++ (H5F_addr_encode f hdr.dblk_addr
        ++ UINT32ENCODE (H5_checksum_metadata env (hdr_image_body f hdr)))) := by
    unfold H5FA__cache_hdr_serialize
    rw [hdr_image_body_form]
    simp only [List.append_assoc]
  obtain ⟨r1, r2, r3, r4, r5, r6, r7, r8, r9⟩ := hdr_reads f 70 65 72 68 0
    (hdr.cparam.cls.id % 256) (hdr.cparam.raw_elmt_size % 256)
    (hdr.cparam.max_dblk_page_nelmts_bits % 256) (H5F_ENCODE_LENGTH f hdr.stats.nelmts)
    (H5F_addr_encode f hdr.dblk_addr)
    (UINT32ENCODE (H5_checksum_metadata env (hdr_image_body f hdr)))
    (by simp [H5F_ENCODE_LENGTH]) (by simp) (by simp [UINT32ENCODE])
  rw [← hform] at r1 r2 r3 r4 r5 r6 r7 r8 r9
  have hidm : hdr.cparam.cls.id % 256 = hdr.cparam.cls.id := Nat.mod_eq_of_lt hid
  rw [hidm] at r3
  have hlen := lt_length_of_getElem? hreg
  have hchk : UINT32DECODE (H5FA__cache_hdr_serialize env f hdr)
      (8 + f.sizeof_size + f.sizeof_addr)
      = H5_checksum_metadata env ((H5FA__cache_hdr_serialize env f hdr).take
          (8 + f.sizeof_size + f.sizeof_addr)) := by
    unfold UINT32DECODE
    rw [r9, r8, uint32_decode_encode _ (checksum_lt _ _), hdr_image_body_form]
  have hL : H5F_DECODE_LENGTH f (H5FA__cache_hdr_serialize env f hdr) 8
      = u64 (hdr.stats.nelmts % 256 ^ f.sizeof_size) := by
    unfold H5F_DECODE_LENGTH
    rw [r6]
    unfold H5F_ENCODE_LENGTH
    rw [decode_encode_le]
  clear hform r6 r7 r8 r9
  generalize H5FA__cache_hdr_serialize env f hdr = img at *
  unfold H5FA__cache_hdr_deserialize H5FA__hdr_alloc H5FA__hdr_init
  simp only [halloc, hinit, hchk, r1, r2, r3, r4, r5, hL]
  simp only [H5FA_HDR_MAGIC, H5FA_HDR_VERSION, ne_eq, not_true_eq_false, if_false,
    ge_iff_le, Nat.not_le.2 hlen, Bool.false_eq_true, getD_of_getElem? hreg]
  refine ⟨_, rfl, ?_⟩
  split_ifs <;> simp [H5FA_HEADER_SIZE_HDR]

/-- C15: for every fixed-array header whose class is the registry entry for its
id (an id of one byte), with an element count and a data block address of 64
bits, when allocation and header initialisation succeed: deserializing the
image `H5FA__cache_hdr_serialize` writes returns a header, and serializing that
header gives the same image byte for byte; when the element count fits the
file's size-of-length, the count written from `stats.nelmts` is the one read
into `cparam.nelmts` and the one in `stats.nelmts` of the header read. -/
theorem hdr_serialize_round_trip (env : Env) (f : H5F_t) (hdr : H5FA_hdr_t) (addr : Nat)
    (halloc : env.alloc_fails = false) (hinit : env.init_fails = false)
    (hid : hdr.cparam.cls.id < 256) (hreg : env.classes[hdr.cparam.cls.id]? = some hdr.cparam.cls)
    (hn : hdr.stats.nelmts < 2 ^ 64) (ha : hdr.dblk_addr < 2 ^ 64) :
    ∃ hdr', H5FA__cache_hdr_deserialize env (H5FA__cache_hdr_serialize env f hdr) ⟨f, addr⟩
        = .ok hdr' ∧
      H5FA__cache_hdr_serialize env f hdr' = H5FA__cache_hdr_serialize env f hdr ∧
      (hdr.stats.nelmts < 256 ^ f.sizeof_size →
        hdr'.cparam.nelmts = hdr.stats.nelmts ∧ hdr'.stats.nelmts = hdr.stats.nelmts) := by
  obtain ⟨hdr', h0, h1, h2, h3, h4, h5, h6, -⟩ :=
    hdr_deserialize_serialize env f hdr addr halloc hinit hid hreg
  have hmod : hdr.stats.nelmts % 256 ^ f.sizeof_size < 2 ^ 64 :=
    lt_of_le_of_lt (Nat.mod_le _ _) hn
  have hbody : hdr_image_body f hdr' = hdr_image_body f hdr := by
    have hA : H5F_addr_encode f hdr'.dblk_addr = H5F_addr_encode f hdr.dblk_addr := by
      rw [h6]
      have hform : H5FA__cache_hdr_serialize env f hdr =
          ([70, 65, 72, 68, 0, hdr.cparam.cls.id % 256, hdr.cparam.raw_elmt_size % 256,
            hdr.cparam.max_dblk_page_nelmts_bits % 256] ++ H5F_ENCODE_LENGTH f hdr.stats.nelmts)
          ++ (H5F_addr_encode f hdr.dblk_addr
            ++ UINT32ENCODE (H5_checksum_metadata env (hdr_image_body f hdr))) := by
        unfold H5FA__cache_hdr_serialize
        rw [hdr_image_body_form]
        simp only [List.append_assoc]
      have hlen : 8 + f.sizeof_size =
          ([70, 65, 72, 68, 0, hdr.cparam.cls.id % 256, hdr.cparam.raw_elmt_size % 256,
            hdr.cparam.max_dblk_page_nelmts_bits % 256]
            ++ H5F_ENCODE_LENGTH f hdr.stats.nelmts).length := by
        simp [H5F_ENCODE_LENGTH]
        omega
      rw [hform, hlen]
      exact addr_reencode f _ ha _ _
    have hL : H5F_ENCODE_LENGTH f hdr'.stats.nelmts = H5F_ENCODE_LENGTH f hdr.stats.nelmts := by
      rw [h5, h4, u64_of_lt hmod]
      exact encode_le_mod _ _
    unfold hdr_image_body
    rw [hA, hL, h1, h2, h3, Nat.mod_mod, Nat.mod_mod]
  refine ⟨hdr', h0, ?_, fun hfit => ?_⟩
  · unfold H5FA__cache_hdr_serialize
    rw [hbody]
  · have e : hdr'.cparam.nelmts = hdr.stats.nelmts := by
      rw [h4, Nat.mod_eq_of_lt hfit, u64_of_lt hn]
    exact ⟨e, h5.trans e⟩

theorem hdr_serialize_round_trip_witness :
    ∃ hdr', H5FA__cache_hdr_deserialize sampleEnv
        (H5FA__cache_hdr_serialize sampleEnv sampleFile sampleHdr) ⟨sampleFile, 100⟩ = .ok hdr' ∧
      H5FA__cache_hdr_serialize sampleEnv sampleFile hdr'
        = H5FA__cache_hdr_serialize sampleEnv sampleFile sampleHdr ∧
      (sampleHdr.stats.nelmts < 256 ^ sampleFile.sizeof_size →
        hdr'.cparam.nelmts = sampleHdr.stats.nelmts ∧
        hdr'.stats.nelmts = sampleHdr.stats.nelmts) :=
  hdr_serialize_round_trip sampleEnv sampleFile sampleHdr 100 rfl rfl (by decide) rfl
    (by decide) (by decide)

/-! ### The image of a data block -/

/-- What the data block callbacks read from an image with the layout of a data
block image: the six leading bytes, the owner address, the bitmap or the
elements, the bytes before the checksum and the checksum. -/
theorem dblock_reads (sa m : Nat) (a0 a1 a2 a3 a4 a5 : Nat) (A X C : List Nat)
    (hA : A.length = sa) (hX : X.length = m) (hC : C.length = 4) :
    bytes ([a0, a1, a2, a3, a4, a5] ++ (A ++ (X ++ C))) 0 H5_SIZEOF_MAGIC = [a0, a1, a2, a3] ∧
    byte ([a0, a1, a2, a3, a4, a5] ++ (A ++ (X ++ C))) 4 = a4 ∧
    byte ([a0, a1, a2, a3, a4, a5] ++ (A ++ (X ++ C))) 5 = a5 ∧
    bytes ([a0, a1, a2, a3, a4, a5] ++ (A ++ (X ++ C))) 6 sa = A ∧
    bytes ([a0, a1, a2, a3, a4, a5] ++ (A ++ (X ++ C))) (6 + sa) m = X ∧
    ([a0, a1, a2, a3, a4, a5] ++ (A ++ (X ++ C))).take (6 + sa + m)
      = [a0, a1, a2, a3, a4, a5] ++ (A ++ X) ∧
    bytes ([a0, a1, a2, a3, a4, a5] ++ (A ++ (X ++ C))) (6 + sa + m) 4 = C := by
  refine ⟨by simp [bytes, H5_SIZEOF_MAGIC], by simp [byte], by simp [byte], ?_, ?_, ?_, ?_⟩
  · exact bytes_mid_of rfl hA.symm
  · have h := @bytes_mid_of ([a0, a1, a2, a3, a4, a5] ++ A) X C (6 + sa) m
      (by simp [hA]; omega) hX.symm
    rwa [List.append_assoc] at h
  · have h := @take_of ([a0, a1, a2, a3, a4, a5] ++ (A ++ X)) C (6 + sa + m)
      (by simp [hA, hX]; omega)
    rwa [List.append_assoc, List.append_assoc] at h
  · have h := @bytes_last_of ([a0, a1, a2, a3, a4, a5] ++ (A ++ X)) C (6 + sa + m) 4
      (by simp [hA, hX]; omega) hC.symm
    rwa [List.append_assoc, List.append_assoc] at h

@[simp] theorem fake_dblock_hdr (hdr : H5FA_hdr_t) : (fake_dblock hdr).hdr = hdr := by
  unfold fake_dblock
  split_ifs <;> rfl

@[simp] theorem fake_dblock_elmts (hdr : H5FA_hdr_t) : (fake_dblock hdr).elmts = [] := by
  unfold fake_dblock
  split_ifs <;> rfl

@[simp] theorem fake_dblock_bitmap (hdr : H5FA_hdr_t) : (fake_dblock hdr).dblk_page_init = [] := by
  unfold fake_dblock
  split_ifs <;> rfl

@[simp] theorem fit_length (n : Nat) (raw : List Nat) : (fit n raw).length = n := by
  simp [fit]

theorem bytes_self_of {xs : List Nat} {n : Nat} (h : xs.length = n) : bytes xs 0 n = xs := by
  subst h
  simp [bytes]

/-- The image of a data block: signature, version, class id, owner address,
then the bitmap (paged) or the encoded elements (not paged). -/
theorem dblock_image_body_form (f : H5F_t) (x : H5FA_dblock_t) (body : List Nat)
    (h : dblock_image_body f x = .ok body) :
    ∃ X, body = [70, 65, 68, 66, 0, x.hdr.cparam.cls.id % 256]
        ++ (H5F_addr_encode f x.hdr.addr ++ X) ∧
      (x.npages > 0 → X = bytes x.dblk_page_init 0 x.dblk_page_init_size) ∧
      (x.npages = 0 → ∃ raw, x.hdr.cparam.cls.encode x.hdr.cparam.nelmts x.elmts = some raw ∧
        X = fit (x.hdr.cparam.nelmts * x.hdr.cparam.raw_elmt_size) raw) := by
  unfold dblock_image_body at h
  by_cases hp : x.npages = 0
  · simp only [hp, if_true, gt_iff_lt, lt_self_iff_false, if_false] at h
    cases he : x.hdr.cparam.cls.encode x.hdr.cparam.nelmts x.elmts with
    | none => rw [he] at h; cases h
    | some raw =>
      rw [he] at h
      injection h with h
      refine ⟨fit (x.hdr.cparam.nelmts * x.hdr.cparam.raw_elmt_size) raw, ?_,
        fun q => absurd hp (Nat.pos_iff_ne_zero.1 q), fun _ => ⟨raw, rfl, rfl⟩⟩
      rw [← h]
      simp [H5FA_DBLOCK_MAGIC, H5FA_DBLOCK_VERSION]
  · have hp' : x.npages > 0 := Nat.pos_of_ne_zero hp
    simp only [hp, hp', if_true, if_false] at h
    injection h with h
    refine ⟨bytes x.dblk_page_init 0 x.dblk_page_init_size, ?_, fun _ => rfl,
      fun q => absurd q hp⟩
    rw [← h]
    simp [H5FA_DBLOCK_MAGIC, H5FA_DBLOCK_VERSION]

theorem dblock_serialize_form (env : Env) (f : H5F_t) (x : H5FA_dblock_t) (img : List Nat)
    (h : H5FA__cache_dblock_serialize env f x = .ok img) :
    ∃ body, dblock_image_body f x = .ok body ∧
      img = body ++ UINT32ENCODE (H5_checksum_metadata env body) := by
  unfold H5FA__cache_dblock_serialize at h
  cases hb : dblock_image_body f x with
  | error e => rw [hb] at h; cases h
  | ok body =>
    rw [hb] at h
    injection h with h
    exact ⟨body, rfl, h.symm⟩

theorem dblk_page_serialize_form (env : Env) (x : H5FA_dblk_page_t) (img : List Nat)
    (h : H5FA__cache_dblk_page_serialize env x = .ok img) :
    ∃ raw, x.hdr.cparam.cls.encode x.nelmts x.elmts = some raw ∧
      img = fit (x.nelmts * x.hdr.cparam.raw_elmt_size) raw
        ++ UINT32ENCODE (H5_checksum_metadata env
          (fit (x.nelmts * x.hdr.cparam.raw_elmt_size) raw)) := by
  unfold H5FA__cache_dblk_page_serialize dblk_page_image_body at h
  cases he : x.hdr.cparam.cls.encode x.nelmts x.elmts with
  | none => rw [he] at h; cases h
  | some raw =>
    rw [he] at h
    injection h with h
    exact ⟨raw, rfl, h.symm⟩

theorem addr_defined_of_lt {a : Nat} (h : a < 2 ^ 64 - 1) : H5F_addr_defined a = true := by
  unfold H5F_addr_defined HADDR_UNDEF
  simp only [bne_iff_ne, ne_eq]
  omega

/-- A well-formed data block read back from its own image. -/
theorem dblock_deserialize_serialize (env : Env) (x : H5FA_dblock_t) (img : List Nat)
    (hok : DblockOK x) (halloc : env.alloc_fails = false)
    (ha : x.hdr.addr < 256 ^ x.hdr.f.sizeof_addr - 1) (ha64 : x.hdr.addr < 2 ^ 64 - 1)
    (hinv : x.npages = 0 →
      ∀ raw, x.hdr.cparam.cls.encode x.hdr.cparam.nelmts x.elmts = some raw →
      x.hdr.cparam.cls.decode x.hdr.cparam.nelmts
        (fit (x.hdr.cparam.nelmts * x.hdr.cparam.raw_elmt_size) raw) = some x.elmts)
    (hs : H5FA__cache_dblock_serialize env x.hdr.f x = .ok img) :
    H5FA__cache_dblock_deserialize env img ⟨x.hdr, x.addr⟩ = .ok x := by
  obtain ⟨body, hb, himg⟩ := dblock_serialize_form env _ x img hs
  obtain ⟨X, hbody, hpg, hnp⟩ := dblock_image_body_form _ x body hb
  have hform : img = [70, 65, 68, 66, 0, x.hdr.cparam.cls.id % 256]
      ++ (H5F_addr_encode x.hdr.f x.hdr.addr
        ++ (X ++ UINT32ENCODE (H5_checksum_metadata env body))) := by
    rw [himg, hbody]
    simp only [List.append_assoc]
  obtain ⟨r1, r2, r3, r4, r5, r6, r7⟩ := dblock_reads x.hdr.f.sizeof_addr X.length 70 65 68 66 0
    (x.hdr.cparam.cls.id % 256) (H5F_addr_encode x.hdr.f x.hdr.addr) X
    (UINT32ENCODE (H5_checksum_metadata env body)) (by simp) rfl (by simp [UINT32ENCODE])
  rw [← hform] at r1 r2 r3 r4 r5 r6 r7
  have hr6 : img.take (6 + x.hdr.f.sizeof_addr + X.length) = body := by
    rw [r6, hbody]
  have haddr : H5F_addr_decode x.hdr.f img 6 = x.hdr.addr := by
    have h := addr_decode_encode x.hdr.f x.hdr.addr (by omega) (by omega)
      (addr_defined_of_lt ha64) (by omega) [70, 65, 68, 66, 0, x.hdr.cparam.cls.id % 256]
      (X ++ UINT32ENCODE (H5_checksum_metadata env body))
    rw [← hform] at h
    exact h
  have hchk : UINT32DECODE img (6 + x.hdr.f.sizeof_addr + X.length)
      = H5_checksum_metadata env (img.take (6 + x.hdr.f.sizeof_addr + X.length)) := by
    unfold UINT32DECODE
    rw [r7, hr6, uint32_decode_encode _ (checksum_lt _ _)]
  clear hform himg r4 r6 r7
  obtain ⟨hdr, addr, size, npages, isz, bitmap, elmts⟩ := x
  obtain ⟨k1, k2, k3, k4, k5⟩ := hok
  dsimp only at *
  unfold H5FA__cache_dblock_deserialize H5FA__dblock_alloc
  simp only [halloc, r1, r2, r3, haddr, H5FA_DBLOCK_MAGIC, H5FA_DBLOCK_VERSION, ne_eq,
    not_true_eq_false, if_false, Bool.false_eq_true]
  by_cases hp : npages = 0
  · obtain ⟨raw, he, hX⟩ := hnp hp
    have hXl : X.length = hdr.cparam.nelmts * hdr.cparam.raw_elmt_size := by
      rw [hX, fit_length]
    rw [hXl] at r5 hchk
    have hz : isz = 0 := by
      rw [k2, ← k1.symm.trans hp]
      have h1 := k1.symm.trans hp
      unfold fake_dblock at h1 ⊢
      split_ifs at h1 ⊢
      · dsimp only at h1 ⊢
        rw [h1]
      · rfl
    have hbm : bitmap = [] := List.eq_nil_of_length_eq_zero (k4.trans hz)
    have hnp0 : (fake_dblock hdr).npages = 0 := k1.symm.trans hp
    have hsz0 : (fake_dblock hdr).dblk_page_init_size = 0 := k2.symm.trans hz
    simp only [hnp0, hsz0, gt_iff_lt, lt_self_iff_false, if_false, if_true, r5, hX,
      hinv hp raw he, hchk, not_true_eq_false, List.replicate_zero]
    subst hp hz hbm
    rw [k3]
    simp [H5FA_DBLOCK_SIZE, H5FA_DBLOCK_PREFIX_SIZE, hnp0, hsz0]
  · have hp' : npages > 0 := Nat.pos_of_ne_zero hp
    have hX := hpg hp'
    rw [bytes_self_of k4] at hX
    have hXl : X.length = isz := by rw [hX]; exact k4
    rw [hXl] at r5 hchk
    have hnp0 : (fake_dblock hdr).npages = npages := k1.symm
    have hsz0 : (fake_dblock hdr).dblk_page_init_size = isz := k2.symm
    have hel := k5 hp'
    simp only [hnp0, hsz0, hp, hp', if_false, if_true, r5, hX, hchk, not_true_eq_false]
    subst hel
    rw [k3]
    simp [H5FA_DBLOCK_SIZE, H5FA_DBLOCK_PREFIX_SIZE, hnp0, hsz0, hp]

/-- A page read back from its own image. -/
theorem dblk_page_deserialize_serialize (env : Env) (x : H5FA_dblk_page_t) (img : List Nat)
    (hsize : x.size = H5FA_DBLK_PAGE_SIZE x.hdr x.nelmts) (halloc : env.alloc_fails = false)
    (hinv : ∀ raw, x.hdr.cparam.cls.encode x.nelmts x.elmts = some raw →
      x.hdr.cparam.cls.decode x.nelmts (fit (x.nelmts * x.hdr.cparam.raw_elmt_size) raw)
        = some x.elmts)
    (hs : H5FA__cache_dblk_page_serialize env x = .ok img) :
    H5FA__cache_dblk_page_deserialize env img ⟨x.hdr, x.nelmts, x.addr⟩ = .ok x := by
  obtain ⟨raw, he, himg⟩ := dblk_page_serialize_form env x img hs
  have hl : (fit (x.nelmts * x.hdr.cparam.raw_elmt_size) raw).length
      = x.nelmts * x.hdr.cparam.raw_elmt_size := fit_length _ _
  have r1 : bytes img 0 (x.nelmts * x.hdr.cparam.raw_elmt_size)
      = fit (x.nelmts * x.hdr.cparam.raw_elmt_size) raw := by
    rw [himg]
    have h := bytes_left (fit (x.nelmts * x.hdr.cparam.raw_elmt_size) raw)
      (UINT32ENCODE (H5_checksum_metadata env (fit (x.nelmts * x.hdr.cparam.raw_elmt_size) raw)))
    rwa [hl] at h
  have r2 : img.take (x.nelmts * x.hdr.cparam.raw_elmt_size)
      = fit (x.nelmts * x.hdr.cparam.raw_elmt_size) raw := by
    rw [himg]
    exact take_of hl.symm
  have r3 : UINT32DECODE img (x.nelmts * x.hdr.cparam.raw_elmt_size)
      = H5_checksum_metadata env (img.take (x.nelmts * x.hdr.cparam.raw_elmt_size)) := by
    unfold UINT32DECODE
    rw [r2, himg, bytes_last_of hl.symm (by simp [UINT32ENCODE]),
      uint32_decode_encode _ (checksum_lt _ _)]
  have hlen : img.length = x.size := by
    rw [himg, hsize]
    simp [UINT32ENCODE, H5FA_DBLK_PAGE_SIZE, H5FA_SIZEOF_CHKSUM]
  unfold H5FA__cache_dblk_page_deserialize H5FA__dblk_page_alloc
  simp only [halloc, r1, hinv raw he, r3, hlen, ne_eq, not_true_eq_false, if_false,
    Bool.false_eq_true]

/-- C16: a data block of a fixed array as the allocation routine and the
deserializer make it (paged or not), whose header address the address width can
hold, and a page whose size is that of its image, are read back from their
images: when the class `decode` returns the elements from the bytes `encode`
wrote and the allocation succeeds, `deserialize` applied to the image
`serialize` wrote, with the header, the element count and the address of the
block as user data, succeeds and returns the block itself, with the same
elements (data block not paged, page) or the same page-init bitmap (paged data
block). -/
theorem block_read_back (env : Env) :
    (∀ (x : H5FA_dblock_t) (img : List Nat), DblockOK x → env.alloc_fails = false →
      x.hdr.addr < 256 ^ x.hdr.f.sizeof_addr - 1 → x.hdr.addr < 2 ^ 64 - 1 →
      (x.npages = 0 →
        ∀ raw, x.hdr.cparam.cls.encode x.hdr.cparam.nelmts x.elmts = some raw →
          x.hdr.cparam.cls.decode x.hdr.cparam.nelmts
            (fit (x.hdr.cparam.nelmts * x.hdr.cparam.raw_elmt_size) raw) = some x.elmts) →
      H5FA__cache_dblock_serialize env x.hdr.f x = .ok img →
      H5FA__cache_dblock_deserialize env img ⟨x.hdr, x.addr⟩ = .ok x) ∧
    (∀ (x : H5FA_dblk_page_t) (img : List Nat),
      x.size = H5FA_DBLK_PAGE_SIZE x.hdr x.nelmts → env.alloc_fails = false →
      (∀ raw, x.hdr.cparam.cls.encode x.nelmts x.elmts = some raw →
        x.hdr.cparam.cls.decode x.nelmts (fit (x.nelmts * x.hdr.cparam.raw_elmt_size) raw)
          = some x.elmts) →
      H5FA__cache_dblk_page_serialize env x = .ok img →
      H5FA__cache_dblk_page_deserialize env img ⟨x.hdr, x.nelmts, x.addr⟩ = .ok x) :=
  ⟨fun x img hok halloc ha ha64 hinv hs =>
      dblock_deserialize_serialize env x img hok halloc ha ha64 hinv hs,
    fun x img hsize halloc hinv hs =>
      dblk_page_deserialize_serialize env x img hsize halloc hinv hs⟩

theorem block_read_back_witness :
    (∃ img, H5FA__cache_dblock_serialize sampleEnv sampleFile smallDblock = .ok img ∧
      H5FA__cache_dblock_deserialize sampleEnv img ⟨smallHdr, 200⟩ = .ok smallDblock) ∧
    (∃ img, H5FA__cache_dblock_serialize sampleEnv sampleFile pagedDblock = .ok img ∧
      H5FA__cache_dblock_deserialize sampleEnv img ⟨sampleHdr, 200⟩ = .ok pagedDblock) ∧
    (∃ img, H5FA__cache_dblk_page_serialize sampleEnv samplePage = .ok img ∧
      H5FA__cache_dblk_page_deserialize sampleEnv img ⟨sampleHdr, 4, 219⟩ = .ok samplePage) :=
  ⟨⟨_, rfl, (block_read_back sampleEnv).1 smallDblock _
      ⟨by decide, by decide, by decide, by decide, by decide⟩ rfl (by decide) (by decide)
      (fun _ raw h => by cases h; rfl) rfl⟩,
    ⟨_, rfl, (block_read_back sampleEnv).1 pagedDblock _
      ⟨by decide, by decide, by decide, by decide, by decide⟩ rfl (by decide) (by decide)
      (fun h => absurd h (by decide)) rfl⟩,
    ⟨_, rfl, (block_read_back sampleEnv).2 samplePage _ (by decide) rfl
      (fun raw h => by cases h; rfl) rfl⟩⟩

/-! ### A block is returned only when the checksum matches -/

/-- The data block the allocation routine returns. -/
theorem dblock_alloc_some (env : Env) (hdr : H5FA_hdr_t) (halloc : env.alloc_fails = false) :
    ∃ d0, H5FA__dblock_alloc env hdr = some d0 ∧ d0.hdr = hdr ∧
      d0.npages = (fake_dblock hdr).npages ∧
      d0.dblk_page_init_size = (fake_dblock hdr).dblk_page_init_size ∧
      d0.dblk_page_init = List.replicate (fake_dblock hdr).dblk_page_init_size 0 ∧
      d0.elmts = [] ∧ d0.addr = 0 ∧ d0.size = 0 := by
  unfold H5FA__dblock_alloc
  rw [halloc]
  refine ⟨_, rfl, by simp, rfl, rfl, rfl, by simp, ?_, ?_⟩ <;>
    (unfold fake_dblock; split_ifs <;> rfl)

theorem dblock_alloc_none (env : Env) (hdr : H5FA_hdr_t) (halloc : env.alloc_fails = true) :
    H5FA__dblock_alloc env hdr = none := by
  unfold H5FA__dblock_alloc
  rw [halloc]
  rfl

/-- The data block deserializer for a block that is not paged. -/
theorem dblock_deserialize_plain (env : Env) (img : List Nat) (ud : H5FA_dblock_cache_ud_t)
    (d0 : H5FA_dblock_t) (hd0 : H5FA__dblock_alloc env ud.hdr = some d0) (hp : d0.npages = 0) :
    H5FA__cache_dblock_deserialize env img ud =
      if bytes img 0 H5_SIZEOF_MAGIC ≠ H5FA_DBLOCK_MAGIC then .error (thrown env .BADVALUE)
      else if byte img 4 ≠ H5FA_DBLOCK_VERSION then .error (thrown env .VERSION)
      else if byte img 5 ≠ ud.hdr.cparam.cls.id % 256 then .error (thrown env .BADTYPE)
      else if H5F_addr_decode ud.hdr.f img 6 ≠ ud.hdr.addr then .error (thrown env .BADVALUE)
      else
        match ud.hdr.cparam.cls.decode ud.hdr.cparam.nelmts
            (bytes img (6 + ud.hdr.f.sizeof_addr)
              (ud.hdr.cparam.nelmts * ud.hdr.cparam.raw_elmt_size)) with
        | none => .error (thrown env .CANTDECODE)
        | some elmts =>
          if UINT32DECODE img (6 + ud.hdr.f.sizeof_addr
                + ud.hdr.cparam.nelmts * ud.hdr.cparam.raw_elmt_size)
              ≠ H5_checksum_metadata env (img.take (6 + ud.hdr.f.sizeof_addr
                + ud.hdr.cparam.nelmts * ud.hdr.cparam.raw_elmt_size)) then
            .error (thrown env .BADVALUE)
          else .ok { d0 with addr := ud.dblk_addr, elmts := elmts
                             size := H5FA_DBLOCK_SIZE { d0 with addr := ud.dblk_addr } } := by
  unfold H5FA__cache_dblock_deserialize
  rw [hd0]
  simp only [if_neg (show ¬ d0.npages > 0 by omega), if_pos hp] <;> rfl

/-- The data block deserializer for a paged block. -/
theorem dblock_deserialize_paged (env : Env) (img : List Nat) (ud : H5FA_dblock_cache_ud_t)
    (d0 : H5FA_dblock_t) (hd0 : H5FA__dblock_alloc env ud.hdr = some d0) (hp : d0.npages > 0) :
    H5FA__cache_dblock_deserialize env img ud =
      if bytes img 0 H5_SIZEOF_MAGIC ≠ H5FA_DBLOCK_MAGIC then .error (thrown env .BADVALUE)
      else if byte img 4 ≠ H5FA_DBLOCK_VERSION then .error (thrown env .VERSION)
      else if byte img 5 ≠ ud.hdr.cparam.cls.id % 256 then .error (thrown env .BADTYPE)
      else if H5F_addr_decode ud.hdr.f img 6 ≠ ud.hdr.addr then .error (thrown env .BADVALUE)
      else if UINT32DECODE img (6 + ud.hdr.f.sizeof_addr + d0.dblk_page_init_size)
          ≠ H5_checksum_metadata env
            (img.take (6 + ud.hdr.f.sizeof_addr + d0.dblk_page_init_size)) then
        .error (thrown env .BADVALUE)
      else .ok { d0 with
        addr := ud.dblk_addr
        dblk_page_init := bytes img (6 + ud.hdr.f.sizeof_addr) d0.dblk_page_init_size
        size := H5FA_DBLOCK_SIZE { d0 with
          addr := ud.dblk_addr
          dblk_page_init := bytes img (6 + ud.hdr.f.sizeof_addr) d0.dblk_page_init_size } } := by
  unfold H5FA__cache_dblock_deserialize
  rw [hd0]
  have hp0 : ¬ d0.npages = 0 := Nat.pos_iff_ne_zero.1 hp
  simp only [if_pos hp, if_neg hp0]

theorem fake_dblock_init_size_zero (hdr : H5FA_hdr_t) (h : (fake_dblock hdr).npages = 0) :
    (fake_dblock hdr).dblk_page_init_size = 0 := by
  unfold fake_dblock at h ⊢
  split_ifs at h ⊢
  · dsimp only at h ⊢
    rw [h]
  · rfl

/-- The page count and the bitmap size the callbacks compute for a header
whose data block is paged, when the arithmetic does not overflow. -/
theorem fake_dblock_paged (hdr : H5FA_hdr_t) (hb : hdr.cparam.max_dblk_page_nelmts_bits < 64)
    (hgt : hdr.cparam.nelmts > 2 ^ hdr.cparam.max_dblk_page_nelmts_bits)
    (hov : hdr.cparam.nelmts + 2 ^ hdr.cparam.max_dblk_page_nelmts_bits < 2 ^ 64) :
    (fake_dblock hdr).npages
      = (hdr.cparam.nelmts + 2 ^ hdr.cparam.max_dblk_page_nelmts_bits - 1)
          / 2 ^ hdr.cparam.max_dblk_page_nelmts_bits ∧
    (fake_dblock hdr).dblk_page_init_size = ((fake_dblock hdr).npages + 7) / 8 ∧
    0 < (fake_dblock hdr).npages := by
  have hpn : dblk_page_nelmts hdr = 2 ^ hdr.cparam.max_dblk_page_nelmts_bits := by
    unfold dblk_page_nelmts
    exact u64_of_lt (Nat.pow_lt_pow_right (by decide) hb)
  have hpos : 0 < 2 ^ hdr.cparam.max_dblk_page_nelmts_bits := by positivity
  have h1 : u64 (u64 (hdr.cparam.nelmts + 2 ^ hdr.cparam.max_dblk_page_nelmts_bits) + 2 ^ 64 - 1)
      = hdr.cparam.nelmts + 2 ^ hdr.cparam.max_dblk_page_nelmts_bits - 1 := by
    rw [u64_of_lt hov]
    unfold u64
    omega
  have h2 : (hdr.cparam.nelmts + 2 ^ hdr.cparam.max_dblk_page_nelmts_bits - 1)
      / 2 ^ hdr.cparam.max_dblk_page_nelmts_bits < 2 ^ 64 :=
    lt_of_le_of_lt (Nat.div_le_self _ _) (by omega)
  have hnp : (fake_dblock hdr).npages
      = (hdr.cparam.nelmts + 2 ^ hdr.cparam.max_dblk_page_nelmts_bits - 1)
          / 2 ^ hdr.cparam.max_dblk_page_nelmts_bits := by
    unfold fake_dblock
    rw [hpn, if_pos hgt]
    dsimp only
    rw [h1, u64_of_lt h2]
  have hsz : (fake_dblock hdr).dblk_page_init_size = ((fake_dblock hdr).npages + 7) / 8 := by
    unfold fake_dblock
    rw [hpn, if_pos hgt]
  refine ⟨hnp, hsz, ?_⟩
  rw [hnp]
  exact Nat.div_pos (by omega) hpos

/-- The data block of a header is not paged when the element count is at most
the page size. -/
theorem fake_dblock_plain (hdr : H5FA_hdr_t) (hb : hdr.cparam.max_dblk_page_nelmts_bits < 64)
    (hle : ¬ hdr.cparam.nelmts > 2 ^ hdr.cparam.max_dblk_page_nelmts_bits) :
    (fake_dblock hdr).npages = 0 ∧ (fake_dblock hdr).dblk_page_init_size = 0 := by
  have hpn : dblk_page_nelmts hdr = 2 ^ hdr.cparam.max_dblk_page_nelmts_bits := by
    unfold dblk_page_nelmts
    exact u64_of_lt (Nat.pow_lt_pow_right (by decide) hb)
  unfold fake_dblock
  rw [hpn, if_neg hle]
  exact ⟨rfl, rfl⟩

/-- The ceiling of a quotient. -/
theorem ceil_div_le_iff (n d k : Nat) (hd : 0 < d) : (n + d - 1) / d ≤ k ↔ n ≤ k * d := by
  rw [Nat.div_le_iff_le_mul_add_pred hd, Nat.mul_comm d k]
  generalize k * d = m
  omega

/-- C22: for every fixed-array header with `max_dblk_page_nelmts_bits < 64`,
`nelmts > 2^bits` and `nelmts + 2^bits < 2^64`, the page count the cache
callbacks compute (in `H5FA__cache_hdr_deserialize` and in
`H5FA__cache_dblock_get_load_size`) is the ceiling of `nelmts / 2^bits`, the
least `k` with `nelmts ≤ k * 2^bits`, and the size of the page-init bitmap is
the ceiling of `npages / 8`, the least `k` with `npages ≤ k * 8` bytes; the
load size of the data block is its prefix with a bitmap of that size. -/
theorem page_count_is_ceiling (hdr : H5FA_hdr_t) (dblk_addr : Nat)
    (hb : hdr.cparam.max_dblk_page_nelmts_bits < 64)
    (hgt : hdr.cparam.nelmts > 2 ^ hdr.cparam.max_dblk_page_nelmts_bits)
    (hov : hdr.cparam.nelmts + 2 ^ hdr.cparam.max_dblk_page_nelmts_bits < 2 ^ 64) :
    (fake_dblock hdr).npages
      = (hdr.cparam.nelmts + 2 ^ hdr.cparam.max_dblk_page_nelmts_bits - 1)
          / 2 ^ hdr.cparam.max_dblk_page_nelmts_bits ∧
    (∀ k, (fake_dblock hdr).npages ≤ k ↔
      hdr.cparam.nelmts ≤ k * 2 ^ hdr.cparam.max_dblk_page_nelmts_bits) ∧
    (fake_dblock hdr).dblk_page_init_size = ((fake_dblock hdr).npages + 7) / 8 ∧
    (∀ k, (fake_dblock hdr).dblk_page_init_size ≤ k ↔ (fake_dblock hdr).npages ≤ k * 8) ∧
    H5FA__cache_dblock_get_load_size ⟨hdr, dblk_addr⟩
      = H5FA_METADATA_PREFIX_SIZE true + hdr.sizeof_addr + ((fake_dblock hdr).npages + 7) / 8 := by
  obtain ⟨h1, h2, h3⟩ := fake_dblock_paged hdr hb hgt hov
  refine ⟨h1, fun k => ?_, h2, fun k => ?_, ?_⟩
  · rw [h1]
    exact ceil_div_le_iff _ _ _ (by positivity)
  · rw [h2]
    exact ceil_div_le_iff _ 8 k (by decide)
  · unfold H5FA__cache_dblock_get_load_size
    rw [if_neg (Nat.pos_iff_ne_zero.1 h3)]
    unfold H5FA_DBLOCK_PREFIX_SIZE
    rw [fake_dblock_hdr, h2]

theorem page_count_is_ceiling_witness :
    sampleHdr.cparam.nelmts = 9 ∧ sampleHdr.cparam.max_dblk_page_nelmts_bits = 2 ∧
    (fake_dblock sampleHdr).npages = 3 ∧ (fake_dblock sampleHdr).dblk_page_init_size = 1 :=
  ⟨rfl, rfl,
    (page_count_is_ceiling sampleHdr 200 (by decide) (by decide) (by decide)).1.trans
      (by decide),
    (page_count_is_ceiling sampleHdr 200 (by decide) (by decide) (by decide)).2.2.1.trans
      (by decide)⟩

/-- The image of a paged data block, whatever the class callbacks are. -/
theorem dblock_serialize_paged (env : Env) (f : H5F_t) (x : H5FA_dblock_t) (hp : x.npages > 0) :
    H5FA__cache_dblock_serialize env f x =
      .ok (H5FA_DBLOCK_MAGIC ++ [H5FA_DBLOCK_VERSION, x.hdr.cparam.cls.id % 256]
          ++ H5F_addr_encode f x.hdr.addr ++ bytes x.dblk_page_init 0 x.dblk_page_init_size
        ++ UINT32ENCODE (H5_checksum_metadata env
          (H5FA_DBLOCK_MAGIC ++ [H5FA_DBLOCK_VERSION, x.hdr.cparam.cls.id % 256]
            ++ H5F_addr_encode f x.hdr.addr
            ++ bytes x.dblk_page_init 0 x.dblk_page_init_size))) := by
  have hp0 : ¬ x.npages = 0 := Nat.pos_iff_ne_zero.1 hp
  unfold H5FA__cache_dblock_serialize dblock_image_body
  simp only [if_pos hp, if_neg hp0]

/-- The image of a data block that is not paged. -/
theorem dblock_serialize_plain (env : Env) (f : H5F_t) (x : H5FA_dblock_t) (hp : x.npages = 0) :
    H5FA__cache_dblock_serialize env f x =
      match x.hdr.cparam.cls.encode x.hdr.cparam.nelmts x.elmts with
      | none => .error [H5E.CANTENCODE]
      | some raw =>
        .ok (H5FA_DBLOCK_MAGIC ++ [H5FA_DBLOCK_VERSION, x.hdr.cparam.cls.id % 256]
            ++ H5F_addr_encode f x.hdr.addr
            ++ fit (x.hdr.cparam.nelmts * x.hdr.cparam.raw_elmt_size) raw
          ++ UINT32ENCODE (H5_checksum_metadata env
            (H5FA_DBLOCK_MAGIC ++ [H5FA_DBLOCK_VERSION, x.hdr.cparam.cls.id % 256]
              ++ H5F_addr_encode f x.hdr.addr
              ++ fit (x.hdr.cparam.nelmts * x.hdr.cparam.raw_elmt_size) raw))) := by
  unfold H5FA__cache_dblock_serialize dblock_image_body
  simp only [if_neg (show ¬ x.npages > 0 by omega), if_pos hp, List.append_nil]
  cases x.hdr.cparam.cls.encode x.hdr.cparam.nelmts x.elmts <;> rfl

/-- C21: (corrected) a data block of a fixed array as the allocation routine
makes it, with `max_dblk_page_nelmts_bits < 64` and `nelmts + 2^bits < 2^64`, is paged
(`npages > 0`) exactly when `nelmts > 2^max_dblk_page_nelmts_bits`.  When it is
paged, `get_load_size` and `image_len` report the size of the prefix, which
counts the page-init bitmap, and `serialize` writes signature, version, class
id, owner address, the bitmap and the checksum, and no element: the image is
the same for every pair of `encode` and `decode` callbacks of the class.  When
it is not paged, the image holds, between the owner address and the checksum,
the `nelmts * raw_elmt_size` bytes `encode` wrote and no bitmap. -/
theorem dblock_paged_or_not (env : Env) (f : H5F_t) (x : H5FA_dblock_t) (hok : DblockOK x)
    (hb : x.hdr.cparam.max_dblk_page_nelmts_bits < 64)
    (hov : x.hdr.cparam.nelmts + 2 ^ x.hdr.cparam.max_dblk_page_nelmts_bits < 2 ^ 64) :
    (x.npages > 0 ↔ x.hdr.cparam.nelmts > 2 ^ x.hdr.cparam.max_dblk_page_nelmts_bits) ∧
    (x.npages > 0 →
      H5FA__cache_dblock_get_load_size ⟨x.hdr, x.addr⟩ = H5FA_DBLOCK_PREFIX_SIZE x ∧
      H5FA__cache_dblock_image_len x = H5FA_DBLOCK_PREFIX_SIZE x ∧
      H5FA_DBLOCK_PREFIX_SIZE x
        = H5FA_METADATA_PREFIX_SIZE true + x.hdr.sizeof_addr + x.dblk_page_init.length ∧
      ∀ (e d : Nat → List Nat → Option (List Nat)),
        H5FA__cache_dblock_serialize env f
            { x with hdr := { x.hdr with cparam := { x.hdr.cparam with
              cls := ⟨x.hdr.cparam.cls.id, e, d⟩ } } } =
          .ok (H5FA_DBLOCK_MAGIC ++ [H5FA_DBLOCK_VERSION, x.hdr.cparam.cls.id % 256]
              ++ H5F_addr_encode f x.hdr.addr ++ x.dblk_page_init
            ++ UINT32ENCODE (H5_checksum_metadata env
              (H5FA_DBLOCK_MAGIC ++ [H5FA_DBLOCK_VERSION, x.hdr.cparam.cls.id % 256]
                ++ H5F_addr_encode f x.hdr.addr ++ x.dblk_page_init)))) ∧
    (x.npages = 0 →
      x.dblk_page_init = [] ∧
      (x.hdr.cparam.cls.encode x.hdr.cparam.nelmts x.elmts = none →
        H5FA__cache_dblock_serialize env f x = .error [H5E.CANTENCODE]) ∧
      ∀ raw, x.hdr.cparam.cls.encode x.hdr.cparam.nelmts x.elmts = some raw →
        H5FA__cache_dblock_serialize env f x =
          .ok (H5FA_DBLOCK_MAGIC ++ [H5FA_DBLOCK_VERSION, x.hdr.cparam.cls.id % 256]
              ++ H5F_addr_encode f x.hdr.addr
              ++ fit (x.hdr.cparam.nelmts * x.hdr.cparam.raw_elmt_size) raw
            ++ UINT32ENCODE (H5_checksum_metadata env
              (H5FA_DBLOCK_MAGIC ++ [H5FA_DBLOCK_VERSION, x.hdr.cparam.cls.id % 256]
                ++ H5F_addr_encode f x.hdr.addr
                ++ fit (x.hdr.cparam.nelmts * x.hdr.cparam.raw_elmt_size) raw)))) := by
  obtain ⟨k1, k2, k3, k4, k5⟩ := hok
  have hiff : x.npages > 0 ↔
      x.hdr.cparam.nelmts > 2 ^ x.hdr.cparam.max_dblk_page_nelmts_bits := by
    rw [k1]
    constructor
    · intro h
      by_contra hc
      rw [(fake_dblock_plain x.hdr hb hc).1] at h
      exact Nat.lt_irrefl _ h
    · intro h
      exact (fake_dblock_paged x.hdr hb h hov).2.2
  refine ⟨hiff, fun hp => ⟨?_, ?_, ?_, fun e d => ?_⟩, fun hp => ⟨?_, fun he => ?_, fun raw he => ?_⟩⟩
  · unfold H5FA__cache_dblock_get_load_size
    rw [if_neg (by rw [← k1]; exact Nat.pos_iff_ne_zero.1 hp)]
    unfold H5FA_DBLOCK_PREFIX_SIZE
    rw [fake_dblock_hdr, k2]
  · unfold H5FA__cache_dblock_image_len
    rw [if_neg (Nat.pos_iff_ne_zero.1 hp)]
  · unfold H5FA_DBLOCK_PREFIX_SIZE
    rw [k4]
  · have h := dblock_serialize_paged env f
      { x with hdr := { x.hdr with cparam := { x.hdr.cparam with
        cls := ⟨x.hdr.cparam.cls.id, e, d⟩ } } } hp
    dsimp only at h
    rw [bytes_self_of k4] at h
    exact h
  · apply List.eq_nil_of_length_eq_zero
    rw [k4, k2]
    exact fake_dblock_init_size_zero _ (k1.symm.trans hp)
  · rw [dblock_serialize_plain env f x hp, he]
  · rw [dblock_serialize_plain env f x hp, he]

theorem dblock_paged_or_not_witness :
    (pagedDblock.npages > 0 ∧ smallDblock.npages = 0) ∧
    H5FA__cache_dblock_get_load_size ⟨sampleHdr, 200⟩ = 19 ∧
    H5FA__cache_dblock_image_len pagedDblock = 19 ∧
    H5FA__cache_dblock_serialize sampleEnv sampleFile pagedDblock =
      .ok [70, 65, 68, 66, 0, 0, 100, 0, 0, 0, 0, 0, 0, 0, 5, 118, 1, 0, 0] ∧
    H5FA__cache_dblock_serialize sampleEnv sampleFile smallDblock =
      .ok [70, 65, 68, 66, 0, 0, 100, 0, 0, 0, 0, 0, 0, 0, 7, 8, 9, 137, 1, 0, 0] := by
  have h1 := dblock_paged_or_not sampleEnv sampleFile pagedDblock
    ⟨by decide, by decide, by decide, by decide, by decide⟩ (by decide) (by decide)
  have h2 := dblock_paged_or_not sampleEnv sampleFile smallDblock
    ⟨by decide, by decide, by decide, by decide, by decide⟩ (by decide) (by decide)
  have hp : pagedDblock.npages > 0 := h1.1.2 (by decide)
  have hs : smallDblock.npages = 0 := by decide
  obtain ⟨g1, g2, -, g4⟩ := h1.2.1 hp
  refine ⟨⟨hp, hs⟩, g1.trans (by decide), g2.trans (by decide), ?_, ?_⟩
  · exact (g4 byteClass.encode byteClass.decode).trans (congrArg Except.ok (by decide))
  · exact ((h2.2.2 hs).2.2 [7, 8, 9] rfl).trans (congrArg Except.ok (by decide))

/-- The header `wrapHdr` of `2^63 + 1` elements with pages of `2^63` elements:
the element count is above the page size, the sum of lines 485-486 wraps to 1
and the page count is 0, so the data block is not paged: the load size is the
prefix of 18 bytes and all the elements, and the allocation routine makes a
block with no page. -/
theorem page_count_wraps :
    wrapHdr.cparam.nelmts > 2 ^ wrapHdr.cparam.max_dblk_page_nelmts_bits ∧
    (fake_dblock wrapHdr).npages = 0 ∧
    H5FA__cache_dblock_get_load_size ⟨wrapHdr, 200⟩ = 18 + (2 ^ 63 + 1) ∧
    (H5FA__dblock_alloc sampleEnv wrapHdr).map (fun d => d.npages) = some 0 := by
  refine ⟨by decide, by decide, by decide, by decide⟩

/-- The size of a data block the deserializer returns is that of the macro
`H5FA_DBLOCK_SIZE` (line 578). -/
theorem dblock_deserialize_size (env : Env) (img : List Nat) (ud : H5FA_dblock_cache_ud_t)
    (x : H5FA_dblock_t) (h : H5FA__cache_dblock_deserialize env img ud = .ok x) :
    x.size = H5FA_DBLOCK_SIZE x := by
  by_cases ha : env.alloc_fails = true
  · unfold H5FA__cache_dblock_deserialize at h
    rw [dblock_alloc_none env _ ha] at h
    cases h
  · obtain ⟨d0, hd0, -⟩ := dblock_alloc_some env ud.hdr (by simpa using ha)
    by_cases hp : d0.npages = 0
    · rw [dblock_deserialize_plain env img ud d0 hd0 hp] at h
      split_ifs at h
      all_goals first
        | (cases h; done)
        | (split at h
           · cases h
           · first
             | (cases h; done)
             | (injection h with h
                subst h
                rfl))
    · rw [dblock_deserialize_paged env img ud d0 hd0 (Nat.pos_of_ne_zero hp)] at h
      split_ifs at h
      all_goals first
        | (cases h; done)
        | (injection h with h
           subst h
           rfl)

/-- C33: for every data block the deserializer of the fixed array returns,
`fsf_size` reports `dblock.size`, the value of `H5FA_DBLOCK_SIZE`.  When the
block is paged this is the size of the prefix plus `npages` times the size of
a page of `2^max_dblk_page_nelmts_bits` elements, while `image_len` reports the
size of the prefix only; when the block is not paged `fsf_size` and
`image_len` report the same value. -/
theorem fsf_size_is_extent (env : Env) (img : List Nat) (ud : H5FA_dblock_cache_ud_t)
    (x : H5FA_dblock_t) (h : H5FA__cache_dblock_deserialize env img ud = .ok x) :
    H5FA__cache_dblock_fsf_size x = H5FA_DBLOCK_SIZE x ∧
    (x.npages > 0 →
      H5FA__cache_dblock_fsf_size x
        = H5FA_DBLOCK_PREFIX_SIZE x
          + x.npages * H5FA_DBLK_PAGE_SIZE x.hdr (dblk_page_nelmts x.hdr) ∧
      H5FA__cache_dblock_image_len x = H5FA_DBLOCK_PREFIX_SIZE x) ∧
    (x.npages = 0 → H5FA__cache_dblock_fsf_size x = H5FA__cache_dblock_image_len x) := by
  have hs := dblock_deserialize_size env img ud x h
  unfold H5FA__cache_dblock_fsf_size H5FA__cache_dblock_image_len
  refine ⟨hs, fun hp => ?_, fun hp => ?_⟩
  · have hp0 : ¬ x.npages = 0 := Nat.pos_iff_ne_zero.1 hp
    rw [if_neg hp0, hs]
    unfold H5FA_DBLOCK_SIZE
    rw [if_neg hp0]
    exact ⟨rfl, rfl⟩
  · rw [if_pos hp]

theorem fsf_size_is_extent_witness :
    H5FA__cache_dblock_deserialize sampleEnv
        [70, 65, 68, 66, 0, 0, 100, 0, 0, 0, 0, 0, 0, 0, 5, 118, 1, 0, 0] ⟨sampleHdr, 200⟩
      = .ok pagedDblock ∧
    H5FA__cache_dblock_fsf_size pagedDblock = 19 + 3 * 8 ∧
    H5FA__cache_dblock_image_len pagedDblock = 19 :=
  ⟨rfl,
    ((fsf_size_is_extent sampleEnv
      [70, 65, 68, 66, 0, 0, 100, 0, 0, 0, 0, 0, 0, 0, 5, 118, 1, 0, 0] ⟨sampleHdr, 200⟩
      pagedDblock rfl).2.1 (by decide)).1.trans (by decide),
    ((fsf_size_is_extent sampleEnv
      [70, 65, 68, 66, 0, 0, 100, 0, 0, 0, 0, 0, 0, 0, 5, 118, 1, 0, 0] ⟨sampleHdr, 200⟩
      pagedDblock rfl).2.1 (by decide)).2.trans (by decide)⟩

/-- C18: (corrected) the image of the header and the image of a data block of
the fixed array begin with the signature of the block type, the version byte 0
and the class id byte, and end with the checksum; the image of a data block
page has no such prefix: it is the `nelmts * raw_elmt_size` bytes `encode`
wrote, followed by the checksum of these bytes. -/
theorem image_layouts (env : Env) :
    (∀ (f : H5F_t) (hdr : H5FA_hdr_t), ∃ payload,
      H5FA__cache_hdr_serialize env f hdr
        = H5FA_HDR_MAGIC ++ [0, hdr.cparam.cls.id % 256] ++ payload
          ++ encode_le 4 (H5_checksum_metadata env
            (H5FA_HDR_MAGIC ++ [0, hdr.cparam.cls.id % 256] ++ payload))) ∧
    (∀ (f : H5F_t) (x : H5FA_dblock_t) (img : List Nat),
      H5FA__cache_dblock_serialize env f x = .ok img → ∃ payload,
      img = H5FA_DBLOCK_MAGIC ++ [0, x.hdr.cparam.cls.id % 256] ++ payload
        ++ encode_le 4 (H5_checksum_metadata env
          (H5FA_DBLOCK_MAGIC ++ [0, x.hdr.cparam.cls.id % 256] ++ payload))) ∧
    (∀ (x : H5FA_dblk_page_t) (img : List Nat),
      H5FA__cache_dblk_page_serialize env x = .ok img → ∃ raw,
      x.hdr.cparam.cls.encode x.nelmts x.elmts = some raw ∧
      img = fit (x.nelmts * x.hdr.cparam.raw_elmt_size) raw
        ++ encode_le 4 (H5_checksum_metadata env
          (fit (x.nelmts * x.hdr.cparam.raw_elmt_size) raw)) ∧
      img.length = x.nelmts * x.hdr.cparam.raw_elmt_size + 4) := by
  refine ⟨fun f hdr => ?_, fun f x img hs => ?_, fun x img hs => ?_⟩
  · refine ⟨[hdr.cparam.raw_elmt_size % 256, hdr.cparam.max_dblk_page_nelmts_bits % 256]
      ++ H5F_ENCODE_LENGTH f hdr.stats.nelmts ++ H5F_addr_encode f hdr.dblk_addr, ?_⟩
    have hb : hdr_image_body f hdr = H5FA_HDR_MAGIC ++ [0, hdr.cparam.cls.id % 256]
        ++ ([hdr.cparam.raw_elmt_size % 256, hdr.cparam.max_dblk_page_nelmts_bits % 256]
          ++ H5F_ENCODE_LENGTH f hdr.stats.nelmts ++ H5F_addr_encode f hdr.dblk_addr) := by
      simp [hdr_image_body, H5FA_HDR_VERSION]
    unfold H5FA__cache_hdr_serialize
    rw [hb]
    rfl
  · obtain ⟨body, hb, himg⟩ := dblock_serialize_form env f x img hs
    obtain ⟨X, hbody, -⟩ := dblock_image_body_form f x body hb
    refine ⟨H5F_addr_encode f x.hdr.addr ++ X, ?_⟩
    have hb' : body = H5FA_DBLOCK_MAGIC ++ [0, x.hdr.cparam.cls.id % 256]
        ++ (H5F_addr_encode f x.hdr.addr ++ X) := by
      rw [hbody]
      simp [H5FA_DBLOCK_MAGIC]
    rw [himg, hb']
    rfl
  · obtain ⟨raw, he, himg⟩ := dblk_page_serialize_form env x img hs
    refine ⟨raw, he, himg, ?_⟩
    rw [himg]
    simp [UINT32ENCODE]

theorem image_layouts_witness :
    ∃ payload, H5FA__cache_hdr_serialize sampleEnv sampleFile sampleHdr
      = H5FA_HDR_MAGIC ++ [0, sampleHdr.cparam.cls.id % 256] ++ payload
        ++ encode_le 4 (H5_checksum_metadata sampleEnv
          (H5FA_HDR_MAGIC ++ [0, sampleHdr.cparam.cls.id % 256] ++ payload)) :=
  (image_layouts sampleEnv).1 sampleFile sampleHdr

/-- The image of a page of four one-byte elements: the four elements and the
checksum, eight bytes, with no signature, version or class id. -/
theorem page_image_has_no_prefix :
    H5FA__cache_dblk_page_serialize sampleEnv samplePage = .ok [1, 2, 3, 4, 10, 0, 0, 0] ∧
    samplePage.elmts = [1, 2, 3, 4] ∧
    encode_le 4 (H5_checksum_metadata sampleEnv [1, 2, 3, 4]) = [10, 0, 0, 0] :=
  ⟨rfl, rfl, by decide⟩

/-! ### Flipping a bit of an image -/

@[simp] theorem flip_bit_length (img : List Nat) (i : Nat) :
    (flip_bit img i).length = img.length := by
  simp [flip_bit]

end H5FA
